import Mathlib

/-!
# gb-cartpp firmware: command protocol, bulk pipe and control endpoint

A shallow embedding of `firmware/main.c` and `firmware/usb.c`.

Conventions of the embedding.

* Machine integers are `Nat`; every place where the C code truncates to
  `uint8_t` / `uint16_t` carries an explicit `% 256` / `% 65536`.
* XC8 data layout (the layout the firmware itself relies on for its unions and
  for the wire format): bit-fields live in 8-bit storage units, first field in
  the least significant bit; structures have no padding; multi-byte integers
  are little-endian.  The anonymous parameter union of `struct State` is
  therefore five raw bytes `b0 .. b4`, and every member is an accessor on them.
* A pointer is a region (one C object) and a byte offset into it.
* The globals of the firmware (`state`, `flash_sequence`, `pipe_state`,
  `bulk_in`, `bulk_out`, `bds`, the endpoint buffers, ...) are the fields of one
  record `World`, passed explicitly.
* Inputs that come from outside the firmware are fields of `World` as well: the
  stream of values seen on the data bus, the level of the reset pin, the
  interrupts that are still to arrive, and the build constants of the absent
  `config.h`.
* `hw_log`, `rx_log`, `tx_log` and `oob` are ghost fields: they record, in
  order, the bus operations issued, the bytes taken out of receive slices and
  the bytes put into transmit slices, and whether an access left its array.
  No firmware decision reads them.
* An access past the end of `flash_sequence.write` goes to `ram_after`, the RAM
  that follows the object.  What else lives in that RAM is the linker's choice
  and is not part of the model.
-/

namespace GbCartpp

/-! ## Bytes and bit-fields -/

/-- Bit `i` of a bit-field storage unit. -/
def get_bit (b i : Nat) : Bool := decide (b / 2 ^ i % 2 = 1)

/-- Storage unit `b` after the one-bit field at position `i` is assigned `v`. -/
def set_bit (b i : Nat) (v : Bool) : Nat :=
  b - (b / 2 ^ i % 2) * 2 ^ i + (if v then 2 ^ i else 0)

/-- The C truth value of a bit: `0` or `1`. -/
def bit_val (v : Bool) : Nat := if v then 1 else 0

/-- `FLIP_BIT(v)` of `common.h`. -/
def FLIP_BIT (v : Bool) : Bool := if v then false else true

/-- `MIN(a, b)` of `common.h`. -/
def MIN (a b : Nat) : Nat := if a < b then a else b

/-- `U16_FROM_LE_BYTES(lsb, msb)` of `common.h`. -/
def U16_FROM_LE_BYTES (lsb msb : Nat) : Nat := ((msb <<< 8) ||| lsb) % 65536

/-- The `n` bytes found at offsets `off, off + 1, ...` of a buffer (a byte
outside the buffer reads as `0`). -/
def read_bytes (buf : List Nat) (off n : Nat) : List Nat :=
  (List.range n).map (fun i => buf.getD (off + i) 0)

/-- The buffer after `src` is stored byte by byte from offset `off` on (a
store outside the buffer is dropped). -/
def write_bytes (buf : List Nat) (off : Nat) : List Nat → List Nat
  | [] => buf
  | b :: bs => write_bytes (buf.set off b) (off + 1) bs

/-! ## Data model -/

/-- The C objects the slice pointers of `struct State` point into. -/
inductive Region
  | null
  | header
  | params
  | diagnostics
  | flash_write
  deriving DecidableEq, Repr

/-- A pointer: an object and a byte offset into it. -/
structure Ptr where
  reg : Region
  off : Nat
  deriving DecidableEq, Repr

/-- The types `struct ReadSlice` and `struct WriteSlice`: a pointer and a
remaining length. -/
structure Slice where
  ptr : Ptr
  len : Nat
  deriving DecidableEq, Repr

/-- The buffer half a pipe slice points into: `pipe_state.rx_slice.ptr` is only
ever `NULL` or inside `ep2_out_even_buffer` / `ep2_out_odd_buffer`, and
`pipe_state.tx_slice.ptr` only `NULL` or inside `ep2_in_even_buffer` /
`ep2_in_odd_buffer`. -/
inductive Half
  | null
  | even
  | odd
  deriving DecidableEq, Repr

/-- A pointer into a bulk buffer half. -/
structure PipePtr where
  half : Half
  off : Nat
  deriving DecidableEq, Repr

/-- The types `struct VolatileReadSlice` and `struct VolatileWriteSlice`. -/
structure PipeSlice where
  ptr : PipePtr
  len : Nat
  deriving DecidableEq, Repr

/-- The type `struct CommandHeader`. -/
structure CommandHeader where
  len : Nat
  bytes : List Nat
  deriving DecidableEq, Repr

/-- The anonymous parameter union of `struct State`, as its five bytes. -/
structure Params where
  b0 : Nat
  b1 : Nat
  b2 : Nat
  b3 : Nat
  b4 : Nat
  deriving DecidableEq, Repr

/-- The type `struct State`.  `cart_mode` is the storage byte of
`struct CartMode` (`vcart` is bit 0, `reset` is bit 1). -/
structure State where
  unlocked : Bool
  cmd_valid : Bool
  header_valid : Bool
  cmd : Nat
  header : CommandHeader
  cart_mode : Nat
  tx_read_slice : Slice
  tx_write_slice : Slice
  params : Params
  deriving DecidableEq, Repr

/-- The type `struct WriteSequence`; `write` is the storage of the sixteen
four-byte `struct Write` records (address low, address high, data, flag byte
with `use_vin` in bit 6). -/
structure WriteSequence where
  len : Nat
  write : List Nat
  deriving DecidableEq, Repr

/-- The type `struct PipeState`. -/
structure PipeState where
  device_reset : Bool
  rx_slice_valid : Bool
  tx_slice_valid : Bool
  tx_need_zlp : Bool
  reset_magic : Nat
  rx_slice : PipeSlice
  tx_slice : PipeSlice
  deriving DecidableEq, Repr

/-- The type `union BulkFlags`. -/
structure BulkFlags where
  cpu_dts : Bool
  cpu_odd : Bool
  sie_dts : Bool
  sie_odd : Bool
  even_busy : Bool
  odd_busy : Bool
  deriving DecidableEq, Repr

/-- The type `struct BufferDescriptor`; `UOWN` is bit 7 of `STAT`, the CPU view
has `BSTALL` in bit 2, `DTSEN` in bit 3 and `DTS` in bit 6, the SIE view has the
`PID` in bits 2 to 5. -/
structure BufferDescriptor where
  STAT : Nat
  BC_L : Nat
  ADR : Nat
  deriving DecidableEq, Repr

/-- The type `struct BufferDescriptors`. -/
structure BufferDescriptors where
  ep0_out : BufferDescriptor
  ep0_in : BufferDescriptor
  ep1_out_even : BufferDescriptor
  ep1_out_odd : BufferDescriptor
  ep1_in_even : BufferDescriptor
  ep1_in_odd : BufferDescriptor
  ep2_out_even : BufferDescriptor
  ep2_out_odd : BufferDescriptor
  ep2_in_even : BufferDescriptor
  ep2_in_odd : BufferDescriptor
  deriving DecidableEq, Repr

/-- The type `enum UsbStateKind`. -/
inductive UsbStateKind
  | USB_STATE_DETACHED
  | USB_STATE_ATTACHED
  | USB_STATE_POWERED
  | USB_STATE_DEFAULT
  deriving DecidableEq, Repr

/-- The type `struct UsbState`. -/
structure UsbState where
  kind : UsbStateKind
  suspended : Bool
  configured : Bool
  active : Bool
  line_state : Bool
  sof : Nat
  deriving DecidableEq, Repr

/-- The descriptor tables in program memory a control transfer can read. -/
inductive RomObject
  | none
  | DEVICE_DESCRIPTOR
  | CONFIG_DESCRIPTOR
  | STRING_DESCRIPTOR0
  | STRING_DESCRIPTOR1
  | STRING_DESCRIPTOR2
  deriving DecidableEq, Repr

/-- The type `struct Ep0State`; the three data pointers are offsets, `rom_obj`
names the table `rom_in_ptr` points into, and `ram_in_ptr` / `ram_out_ptr`
point into `line_coding`, the only RAM object they are ever set to. -/
structure Ep0State where
  dir_out : Bool
  dir_in : Bool
  data_stage : Bool
  data_rom : Bool
  data_ram : Bool
  set_addr : Bool
  addr : Nat
  rom_obj : RomObject
  rom_in_ptr : Nat
  ram_in_ptr : Nat
  ram_out_ptr : Nat
  data_len : Nat
  deriving DecidableEq, Repr

/-- The type `struct UsbSetupPacket`, the view `ep0_setup` of the first eight
bytes of `ep0_out_buffer`. -/
structure UsbSetupPacket where
  bmRequestType : Nat
  bRequest : Nat
  wValue : Nat
  wIndex : Nat
  wLength : Nat
  deriving DecidableEq, Repr

/-- The type `struct Diagnostics` with its nested `struct UsbErrors`. -/
structure Diagnostics where
  initial_res_voltage : Nat
  initial_rcon : Nat
  initial_stkptr : Nat
  pid_cnt : Nat
  crc5_cnt : Nat
  crc16_cnt : Nat
  dfn8_cnt : Nat
  bto_cnt : Nat
  bts_cnt : Nat
  flags : Nat
  deriving DecidableEq, Repr

/-- Which control line frames a bus cycle: the pair of macro arguments
`(assert_cs, deassert_cs)` handed to `READ_BYTE`, `READ_BURST`, `WRITE_BYTE`. -/
inductive Gate
  /-- Arguments `CS_PIN_OUT, CS_PIN_OUT`. -/
  | cs
  /-- Arguments `(void), A15_PIN_OUT`: the cycle is framed by address line A15
  as driven with the address. -/
  | a15_addr
  /-- Arguments `A15_PIN_OUT, A15_PIN_OUT`. -/
  | a15
  deriving DecidableEq, Repr

/-- Which pin strobes a write: the pair `(assert_wr, deassert_wr)`. -/
inductive Strobe
  /-- Arguments `WR_PIN_OUT, WR_PIN_OUT`. -/
  | wr
  /-- Arguments `VIN_PIN_OUT, VIN_PIN_OUT`. -/
  | vin
  deriving DecidableEq, Repr

/-- One hardware operation of the cartridge interface, at the granularity of
the macros of `hardware.h`. -/
inductive HwOp
  /-- The macro `RD_PIN_OUT(v)`. -/
  | rd_pin (v : Bool)
  /-- The macro `CS_PIN_OUT(v)` used outside a bus-cycle macro. -/
  | cs_pin (v : Bool)
  /-- The macro `A15_PIN_OUT(v)` used outside a bus-cycle macro. -/
  | a15_pin (v : Bool)
  /-- The macro `ADDRH_BUS_OUT(h)` used outside a bus-cycle macro. -/
  | addrh (h : Nat)
  /-- One `READ_BYTE`, or one iteration of `READ_BURST`, at `addr`. -/
  | read_byte (addr : Nat) (g : Gate)
  /-- One `READ_BURST_FAST_BYTE`: drive the low address byte, sample the bus. -/
  | read_fast (addr_l : Nat)
  /-- One `WRITE_BYTE`. -/
  | write_byte (addr data : Nat) (g : Gate) (s : Strobe)
  /-- The first read of `poll_flash_data`: drive `addr`, pulse A15, sample. -/
  | poll_first (addr : Nat)
  /-- A further read of `poll_flash_data`: pulse A15, sample. -/
  | poll_next
  /-- The power half of `apply_cart_mode`: `VCART_EN_OUT(v)` with the port
  directions, pull-ups and `RD` level that go with it. -/
  | cart_power (v : Bool)
  /-- The macro `RES_PIN_OUT(v)`. -/
  | res_pin (v : Bool)
  deriving DecidableEq, Repr

/-- A completed bulk transaction reported by the USB engine: the direction and
the ping-pong half of `USTAT`, and for an OUT transaction the bytes the engine
stored in that half. -/
inductive UsbEvent
  | ep2_out (ppbi : Bool) (data : List Nat)
  | ep2_in (ppbi : Bool)
  deriving DecidableEq, Repr

/-- Whether the firmware is still running. -/
inductive Status
  /-- Normal execution. -/
  | running
  /-- The instruction `RESET()` was executed: the processor restarts. -/
  | reset
  /-- A loop did not finish within the bound given to the model. -/
  | diverged
  deriving DecidableEq, Repr

/-- All the state the firmware reads and writes. -/
structure World where
  state : State
  flash_sequence : WriteSequence
  /-- The RAM that follows `flash_sequence`, whose last member is the record
  array `write`: the bytes that a store or a read past the end of the array gets
  to.  Which objects the linker places there is not visible in the source, so
  no other field of `World` shares these bytes; `oob` records every access to
  them.  After reset the model has 192 zero bytes here. -/
  ram_after : List Nat
  diagnostics : Diagnostics
  pipe_state : PipeState
  usb_state : UsbState
  ep0_state : Ep0State
  bulk_in : BulkFlags
  bulk_out : BulkFlags
  bds : BufferDescriptors
  ep0_out_buffer : List Nat
  ep0_in_buffer : List Nat
  ep2_out_even_buffer : List Nat
  ep2_out_odd_buffer : List Nat
  ep2_in_even_buffer : List Nat
  ep2_in_odd_buffer : List Nat
  line_coding : List Nat
  /-- Bit `INTCONbits.PEIE`. -/
  PEIE : Bool
  peie_save : Bool
  /-- The persisted byte `reset_magic` at address `0x7ff`. -/
  reset_magic : Nat
  status : Status
  /-- Build constant `FW_MAJOR_VERSION` of the absent `config.h`. -/
  FW_MAJOR_VERSION : Nat
  /-- Build constant `FW_MINOR_VERSION` of the absent `config.h`. -/
  FW_MINOR_VERSION : Nat
  /-- The word `bootloader_version` at program address `0x0010`. -/
  bootloader_version : Nat
  /-- Input: the values `DATA_BUS_IN()` returns, in order of reading. -/
  bus_in : Nat → Nat
  /-- The number of `DATA_BUS_IN()` reads made so far. -/
  bus_reads : Nat
  /-- Input: the level `RES_PIN_IN()` returns. -/
  res_pin_in : Bool
  /-- Input: the bulk completions still to be reported, grouped by the
  critical section before which they are serviced. -/
  pending : List (List UsbEvent)
  hw_log : List HwOp
  rx_log : List Nat
  tx_log : List Nat
  /-- Ghost flag: some store or record read fell outside its array. -/
  oob : Bool

/-! ## Memory access through pointers -/

/-- The bytes of `struct Diagnostics` as laid out in memory. -/
def Diagnostics.bytes (d : Diagnostics) : List Nat :=
  [d.initial_res_voltage % 256, d.initial_res_voltage / 256 % 256, d.initial_rcon,
   d.initial_stkptr, d.pid_cnt, d.crc5_cnt, d.crc16_cnt, d.dfn8_cnt, d.bto_cnt,
   d.bts_cnt, d.flags]

/-- The bytes of the parameter union. -/
def Params.bytes (p : Params) : List Nat := [p.b0, p.b1, p.b2, p.b3, p.b4]

/-- The current content of an object. -/
def World.object (w : World) : Region → List Nat
  | .null => []
  | .header => w.state.header.bytes
  | .params => w.state.params.bytes
  | .diagnostics => w.diagnostics.bytes
  | .flash_write => w.flash_sequence.write

/-- The `n` bytes at pointer `p`. -/
def World.load (w : World) (p : Ptr) (n : Nat) : List Nat :=
  read_bytes (w.object p.reg) p.off n

/-- Pointer `p` advanced by `n` bytes. -/
def Ptr.add (p : Ptr) (n : Nat) : Ptr := { p with off := p.off + n }

/-- Pipe pointer `p` advanced by `n` bytes. -/
def PipePtr.add (p : PipePtr) (n : Nat) : PipePtr := { p with off := p.off + n }

/-- The OUT buffer half a receive pointer points into. -/
def World.out_buffer (w : World) : Half → List Nat
  | .null => []
  | .even => w.ep2_out_even_buffer
  | .odd => w.ep2_out_odd_buffer

/-- The IN buffer half a transmit pointer points into. -/
def World.in_buffer (w : World) : Half → List Nat
  | .null => []
  | .even => w.ep2_in_even_buffer
  | .odd => w.ep2_in_odd_buffer

/-- The next `n` bytes of the receive slice. -/
def World.rx_peek (w : World) (n : Nat) : List Nat :=
  read_bytes (w.out_buffer w.pipe_state.rx_slice.ptr.half) w.pipe_state.rx_slice.ptr.off n

/-- The effect of `*(pipe_state.rx_slice.ptr++)` repeated `n` times: the
pointer moves on and the bytes read are recorded in `rx_log`.  The length of
the slice is adjusted by the caller, as in the source. -/
def World.rx_advance (w : World) (n : Nat) : World :=
  { w with
    rx_log := w.rx_log ++ w.rx_peek n
    pipe_state := { w.pipe_state with
      rx_slice := { w.pipe_state.rx_slice with ptr := w.pipe_state.rx_slice.ptr.add n } } }

/-- The effect of storing `src` through `pipe_state.tx_slice.ptr` and moving
the pointer past it; the bytes are recorded in `tx_log`. -/
def World.tx_put (w : World) (src : List Nat) : World :=
  let p := w.pipe_state.tx_slice.ptr
  let w1 : World :=
    match p.half with
    | .null => w
    | .even => { w with ep2_in_even_buffer := write_bytes w.ep2_in_even_buffer p.off src }
    | .odd => { w with ep2_in_odd_buffer := write_bytes w.ep2_in_odd_buffer p.off src }
  { w1 with
    tx_log := w1.tx_log ++ src
    pipe_state := { w1.pipe_state with
      tx_slice := { w1.pipe_state.tx_slice with ptr := p.add src.length } } }

/-- One `DATA_BUS_IN()`: the next value of the input stream. -/
def World.DATA_BUS_IN (w : World) : Nat := w.bus_in w.bus_reads % 256

/-- The world after a hardware operation is issued. -/
def World.hw (w : World) (op : HwOp) : World := { w with hw_log := w.hw_log ++ [op] }

/-- The world after one more bus value has been consumed. -/
def World.bus_next (w : World) : World := { w with bus_reads := w.bus_reads + 1 }

/-! ## Constants -/

/-- `EP0_PACKET_SIZE` of `usb.h`. -/
def EP0_PACKET_SIZE : Nat := 64

/-- `EP2_PACKET_SIZE` of `usb.h`. -/
def EP2_PACKET_SIZE : Nat := 64

/-- `_STAT_BSTALL_MASK` of `usb.c`. -/
def STAT_BSTALL_MASK : Nat := 1 <<< 2

/-- `_STAT_DTSEN_MASK` of `usb.c`. -/
def STAT_DTSEN_MASK : Nat := 1 <<< 3

/-- `_STAT_DTS_MASK` of `usb.c`. -/
def STAT_DTS_MASK : Nat := 1 <<< 6

/-- `PID_OUT` of `usb_protocol.h`. -/
def PID_OUT : Nat := 0b0001

/-- `PID_IN` of `usb_protocol.h`. -/
def PID_IN : Nat := 0b1001

/-- `CMD_MASK` of `cmd_protocol.h`. -/
def CMD_MASK : Nat := 0x1f

/-- `CMD_PING` of `enum Command`. -/
def CMD_PING : Nat := 0x01

/-- `CMD_UNLOCK` of `enum Command`. -/
def CMD_UNLOCK : Nat := 0x02

/-- `CMD_SET_MODE` of `enum Command`. -/
def CMD_SET_MODE : Nat := 0x03

/-- `CMD_GET_MODE` of `enum Command`. -/
def CMD_GET_MODE : Nat := 0x04

/-- `CMD_READ` of `enum Command`. -/
def CMD_READ : Nat := 0x05

/-- `CMD_READ_BURST` of `enum Command`. -/
def CMD_READ_BURST : Nat := 0x06

/-- `CMD_WRITE` of `enum Command`. -/
def CMD_WRITE : Nat := 0x07

/-- `CMD_WRITE_BURST` of `enum Command`. -/
def CMD_WRITE_BURST : Nat := 0x08

/-- `CMD_POLL_FLASH_DATA` of `enum Command`. -/
def CMD_POLL_FLASH_DATA : Nat := 0x09

/-- `CMD_SET_FLASH_WRITE_SEQUENCE` of `enum Command`. -/
def CMD_SET_FLASH_WRITE_SEQUENCE : Nat := 0x0a

/-- `CMD_FLASH_BURST` of `enum Command`. -/
def CMD_FLASH_BURST : Nat := 0x0b

/-- `CMD_DIAGNOSTICS` of `enum Command`. -/
def CMD_DIAGNOSTICS : Nat := 0x1d

/-- `CMD_RESET` of `enum Command`. -/
def CMD_RESET : Nat := 0x1e

/-- `CMD_IDENTIFY` of `enum Command`. -/
def CMD_IDENTIFY : Nat := 0x1f

/-- `UNLOCK_MAGIC` of `main.c`. -/
def UNLOCK_MAGIC : List Nat :=
  [0x0d, 0x68, 0xb7, 0xa3, 0x12, 0x1b, 0x44, 0x13, 0xc2, 0x8a, 0xd0, 0xa4, 0xd3, 0x95, 0xaf, 0x86]

/-- `sizeof(struct Write)`: a 16-bit address, a data byte, a flag byte. -/
def SIZEOF_WRITE : Nat := 4

/-- `sizeof(flash_sequence.write)`: sixteen records. -/
def SIZEOF_FLASH_SEQUENCE_WRITE : Nat := 16 * SIZEOF_WRITE

/-- `sizeof(diagnostics)`. -/
def SIZEOF_DIAGNOSTICS : Nat := 11

/-! ## Buffer descriptors and the bulk pipe (`usb.c`) -/

/-- `BD_ARM_DATA(bd, dts, len)`. -/
def BD_ARM_DATA (bd : BufferDescriptor) (dts : Bool) (len : Nat) : BufferDescriptor :=
  { bd with
    STAT := set_bit ((if dts then STAT_DTS_MASK else 0) ||| STAT_DTSEN_MASK) 7 true
    BC_L := len % 256 }

/-- `BD_ARM_CTRL_STATUS(bd, len)`. -/
def BD_ARM_CTRL_STATUS (bd : BufferDescriptor) (len : Nat) : BufferDescriptor :=
  { bd with
    STAT := set_bit (STAT_DTS_MASK ||| STAT_DTSEN_MASK) 7 true
    BC_L := len % 256 }

/-- `BD_ARM_STALL(bd, len)`. -/
def BD_ARM_STALL (bd : BufferDescriptor) (len : Nat) : BufferDescriptor :=
  { bd with
    STAT := set_bit (STAT_DTSEN_MASK ||| STAT_BSTALL_MASK) 7 true
    BC_L := len % 256 }

/-- The assignment `bd.UOWN = v`. -/
def BufferDescriptor.set_UOWN (bd : BufferDescriptor) (v : Bool) : BufferDescriptor :=
  { bd with STAT := set_bit bd.STAT 7 v }

/-- `USB_SYNC_ACTIVE_FLAG()`. -/
def USB_SYNC_ACTIVE_FLAG (w : World) : World :=
  { w with usb_state := { w.usb_state with
      active := w.usb_state.configured && !w.usb_state.suspended &&
                w.usb_state.line_state && !w.pipe_state.device_reset } }

/-- The `case 2:` branch of the transaction loop of `usb_isr`, for a completed
endpoint-2 transaction with `USTAT.DIR = dir` and `USTAT.PPBI = ppbi`. -/
def usb_isr_ep2 (w : World) (dir ppbi : Bool) : World :=
  if dir then
    let f : BulkFlags :=
      { w.bulk_in with sie_dts := FLIP_BIT w.bulk_in.sie_dts, sie_odd := FLIP_BIT w.bulk_in.sie_odd }
    { w with bulk_in := if ppbi then { f with odd_busy := false } else { f with even_busy := false } }
  else
    let f : BulkFlags :=
      { w.bulk_out with sie_dts := FLIP_BIT w.bulk_out.sie_dts, sie_odd := FLIP_BIT w.bulk_out.sie_odd }
    { w with bulk_out := if ppbi then { f with odd_busy := false } else { f with even_busy := false } }

/-- What the USB engine itself does when it completes a bulk transaction: for
OUT it stores the packet in the half and writes the byte count and the token
into the descriptor; for IN it writes the token.  Either way it hands the
descriptor back (`UOWN = 0`). -/
def sie_complete (w : World) : UsbEvent → World
  | .ep2_out ppbi data =>
    let d := data.take EP2_PACKET_SIZE
    if ppbi then
      { w with
        ep2_out_odd_buffer := write_bytes w.ep2_out_odd_buffer 0 d
        bds := { w.bds with
          ep2_out_odd := { w.bds.ep2_out_odd with STAT := PID_OUT <<< 2, BC_L := d.length } } }
    else
      { w with
        ep2_out_even_buffer := write_bytes w.ep2_out_even_buffer 0 d
        bds := { w.bds with
          ep2_out_even := { w.bds.ep2_out_even with STAT := PID_OUT <<< 2, BC_L := d.length } } }
  | .ep2_in ppbi =>
    if ppbi then
      { w with bds := { w.bds with ep2_in_odd := { w.bds.ep2_in_odd with STAT := PID_IN <<< 2 } } }
    else
      { w with bds := { w.bds with ep2_in_even := { w.bds.ep2_in_even with STAT := PID_IN <<< 2 } } }

/-- One bulk completion: the engine's part, then the interrupt handler's. -/
def usb_event (w : World) (e : UsbEvent) : World :=
  match e with
  | .ep2_out ppbi _ => usb_isr_ep2 (sie_complete w e) false ppbi
  | .ep2_in ppbi => usb_isr_ep2 (sie_complete w e) true ppbi

/-- The interrupts serviced before the next critical section is entered: the
next group of pending completions, if the peripheral interrupt is enabled. -/
def irq (w : World) : World :=
  if w.PEIE then
    match w.pending with
    | [] => w
    | batch :: rest => batch.foldl usb_event { w with pending := rest }
  else w

/-- `BEGIN_CRITICAL_SECTION()`, preceded by the interrupts that were still
waiting to be taken. -/
def BEGIN_CRITICAL_SECTION (w : World) : World :=
  let w := irq w
  { w with peie_save := w.PEIE, PEIE := false }

/-- `END_CRITICAL_SECTION()`. -/
def END_CRITICAL_SECTION (w : World) : World :=
  if w.peie_save then { w with PEIE := true } else w

/-- `pipe_reset`. -/
def pipe_reset (w : World) : World :=
  let w := { w with bds := { w.bds with
    ep1_in_even := w.bds.ep1_in_even.set_UOWN false
    ep1_in_odd := w.bds.ep1_in_odd.set_UOWN false
    ep2_out_even := w.bds.ep2_out_even.set_UOWN false
    ep2_out_odd := w.bds.ep2_out_odd.set_UOWN false
    ep2_in_even := w.bds.ep2_in_even.set_UOWN false
    ep2_in_odd := w.bds.ep2_in_odd.set_UOWN false } }
  let w := { w with bulk_in := { w.bulk_in with cpu_dts := w.bulk_in.sie_dts } }
  let w := { w with bulk_out := { w.bulk_out with cpu_dts := w.bulk_out.sie_dts } }
  let w := { w with pipe_state := { w.pipe_state with
    device_reset := false, rx_slice_valid := false, tx_slice_valid := false,
    tx_need_zlp := false } }
  let w := { w with bulk_in := { w.bulk_in with cpu_odd := w.bulk_in.sie_odd } }
  let w := { w with bulk_out := { w.bulk_out with cpu_odd := w.bulk_out.sie_odd } }
  USB_SYNC_ACTIVE_FLAG w

/-- `pipe_arm_rx`. -/
def pipe_arm_rx (w : World) : World :=
  let w :=
    if w.bulk_out.cpu_odd then
      { w with
        bds := { w.bds with
          ep2_out_odd := BD_ARM_DATA w.bds.ep2_out_odd w.bulk_out.cpu_dts EP2_PACKET_SIZE }
        bulk_out := { w.bulk_out with odd_busy := true } }
    else
      { w with
        bds := { w.bds with
          ep2_out_even := BD_ARM_DATA w.bds.ep2_out_even w.bulk_out.cpu_dts EP2_PACKET_SIZE }
        bulk_out := { w.bulk_out with even_busy := true } }
  let w := { w with bulk_out := { w.bulk_out with cpu_odd := FLIP_BIT w.bulk_out.cpu_odd } }
  { w with bulk_out := { w.bulk_out with cpu_dts := FLIP_BIT w.bulk_out.cpu_dts } }

/-- The assignments that expose the odd OUT half as the receive slice. -/
def rx_take_odd (w : World) : World :=
  { w with pipe_state := { w.pipe_state with
      rx_slice := { ptr := { half := .odd, off := 0 }, len := w.bds.ep2_out_odd.BC_L }
      rx_slice_valid := true } }

/-- The assignments that expose the even OUT half as the receive slice. -/
def rx_take_even (w : World) : World :=
  { w with pipe_state := { w.pipe_state with
      rx_slice := { ptr := { half := .even, off := 0 }, len := w.bds.ep2_out_even.BC_L }
      rx_slice_valid := true } }

/-- `pipe_rx_acquire`. -/
def pipe_rx_acquire (w : World) : World :=
  if !w.pipe_state.rx_slice_valid then
    let w := BEGIN_CRITICAL_SECTION w
    let w :=
      if w.bulk_out.cpu_odd && !w.bulk_out.odd_busy then rx_take_odd w
      else if !w.bulk_out.even_busy then rx_take_even w
      else w
    END_CRITICAL_SECTION w
  else if w.pipe_state.rx_slice.len = 0 then
    let w := BEGIN_CRITICAL_SECTION w
    let w := pipe_arm_rx w
    let w :=
      if w.bulk_out.cpu_odd && !w.bulk_out.odd_busy then rx_take_odd w
      else if !w.bulk_out.even_busy then rx_take_even w
      else { w with pipe_state := { w.pipe_state with rx_slice_valid := false } }
    END_CRITICAL_SECTION w
  else w

/-- The assignments that expose the odd IN half as the transmit slice. -/
def tx_take_odd (w : World) : World :=
  { w with pipe_state := { w.pipe_state with
      tx_slice := { ptr := { half := .odd, off := 0 }, len := EP2_PACKET_SIZE }
      tx_slice_valid := true } }

/-- The assignments that expose the even IN half as the transmit slice. -/
def tx_take_even (w : World) : World :=
  { w with pipe_state := { w.pipe_state with
      tx_slice := { ptr := { half := .even, off := 0 }, len := EP2_PACKET_SIZE }
      tx_slice_valid := true } }

/-- `pipe_tx_flush`. -/
def pipe_tx_flush (w : World) : World :=
  let w := BEGIN_CRITICAL_SECTION w
  let len := (EP2_PACKET_SIZE + 256 - w.pipe_state.tx_slice.len % 256) % 256
  let w :=
    if w.bulk_in.cpu_odd then
      { w with
        bds := { w.bds with ep2_in_odd := BD_ARM_DATA w.bds.ep2_in_odd w.bulk_in.cpu_dts len }
        bulk_in := { w.bulk_in with odd_busy := true } }
    else
      { w with
        bds := { w.bds with ep2_in_even := BD_ARM_DATA w.bds.ep2_in_even w.bulk_in.cpu_dts len }
        bulk_in := { w.bulk_in with even_busy := true } }
  let w := { w with pipe_state := { w.pipe_state with
    tx_need_zlp := decide (len = EP2_PACKET_SIZE) } }
  let w := { w with bulk_in := { w.bulk_in with cpu_odd := FLIP_BIT w.bulk_in.cpu_odd } }
  let w := { w with bulk_in := { w.bulk_in with cpu_dts := FLIP_BIT w.bulk_in.cpu_dts } }
  let w :=
    if w.bulk_in.cpu_odd && !w.bulk_in.odd_busy then tx_take_odd w
    else if !w.bulk_in.even_busy then tx_take_even w
    else { w with pipe_state := { w.pipe_state with tx_slice_valid := false } }
  END_CRITICAL_SECTION w

/-- `pipe_tx_acquire`. -/
def pipe_tx_acquire (w : World) : World :=
  if !w.pipe_state.tx_slice_valid then
    let w := BEGIN_CRITICAL_SECTION w
    let w :=
      if w.bulk_in.cpu_odd && !w.bulk_in.odd_busy then tx_take_odd w
      else if !w.bulk_in.even_busy then tx_take_even w
      else w
    END_CRITICAL_SECTION w
  else if w.pipe_state.tx_slice.len = 0 then pipe_tx_flush w
  else w

/-! ## Members of the parameter union -/

/-- The 16-bit member at bytes 1 and 2 (`read.addr`, `read_burst.addr`,
`write.addr`, `write_burst.addr`, `flash_burst.addr`). -/
def Params.addr (p : Params) : Nat := p.b1 + 256 * p.b2

/-- Assignment to the 16-bit member at bytes 1 and 2. -/
def Params.set_addr (p : Params) (v : Nat) : Params :=
  { p with b1 := v % 256, b2 := v / 256 % 256 }

/-- The 16-bit member at bytes 3 and 4 (`read_burst.len`, `write_burst.len`,
`flash_burst.len`). -/
def Params.len (p : Params) : Nat := p.b3 + 256 * p.b4

/-- Assignment to the 16-bit member at bytes 3 and 4. -/
def Params.set_len (p : Params) (v : Nat) : Params :=
  { p with b3 := v % 256, b4 := v / 256 % 256 }

/-- The member `poll_flash_data.addr`, at bytes 0 and 1. -/
def Params.poll_addr (p : Params) : Nat := p.b0 + 256 * p.b1

/-! ## The command protocol (`main.c`) -/

/-- `apply_cart_mode`. -/
def apply_cart_mode (w : World) : World :=
  let w := if get_bit w.state.cart_mode 0 then w.hw (.cart_power true) else w.hw (.cart_power false)
  if get_bit w.state.cart_mode 1 then w.hw (.res_pin false) else w.hw (.res_pin true)

/-- `reset_state`. -/
def reset_state (w : World) : World :=
  let w := { w with state := { w.state with unlocked := false } }
  let w := { w with state := { w.state with cmd_valid := false, header_valid := false } }
  let w := { w with state := { w.state with cart_mode := set_bit w.state.cart_mode 0 false } }
  let w := { w with state := { w.state with cart_mode := set_bit w.state.cart_mode 1 true } }
  let w := apply_cart_mode w
  { w with pipe_state := { w.pipe_state with
      rx_slice_valid := false
      rx_slice := { ptr := { half := .null, off := 0 }, len := 0 }
      tx_slice_valid := false
      tx_slice := { ptr := { half := .null, off := 0 }, len := 0 } } }

/-- The first `switch` of `fetch_command`: the value of `total_header_len`. -/
def total_header_len (cmd : Nat) (unlocked : Bool) : Int :=
  let c := cmd &&& CMD_MASK
  if c = CMD_PING then 16
  else if c = CMD_UNLOCK then 16
  else if c = CMD_SET_MODE then (if unlocked then 1 else -1)
  else if c = CMD_GET_MODE then (if unlocked then 0 else -1)
  else if c = CMD_READ then (if unlocked then 2 else -1)
  else if c = CMD_READ_BURST then (if unlocked then 4 else -1)
  else if c = CMD_WRITE then (if unlocked then 3 else -1)
  else if c = CMD_WRITE_BURST then (if unlocked then 4 else -1)
  else if c = CMD_POLL_FLASH_DATA then (if unlocked then 3 else -1)
  else if c = CMD_SET_FLASH_WRITE_SEQUENCE then (if unlocked then 1 else -1)
  else if c = CMD_FLASH_BURST then (if unlocked then 4 else -1)
  else if c = CMD_DIAGNOSTICS then 0
  else if c = CMD_RESET then (if unlocked then 1 else -1)
  else if c = CMD_IDENTIFY then 0
  else -1

/-- The block of `fetch_command` that takes the command byte out of the
receive slice. -/
def fetch_cmd_byte (w : World) : World :=
  let c := (w.rx_peek 1).getD 0 0
  let w := w.rx_advance 1
  let w := { w with state := { w.state with cmd := c } }
  let w := { w with state := { w.state with cmd_valid := true } }
  let w := { w with state := { w.state with header_valid := false } }
  let w := { w with state := { w.state with header := { w.state.header with len := 0 } } }
  { w with pipe_state := { w.pipe_state with
      rx_slice := { w.pipe_state.rx_slice with len := w.pipe_state.rx_slice.len - 1 } } }

/-- The copy loop of `fetch_command` with the two updates that follow it:
`copied_bytes` bytes go from the receive slice to `header.bytes[header.len ..]`. -/
def copy_header (w : World) (copied_bytes : Nat) : World :=
  let src := w.rx_peek copied_bytes
  let w := w.rx_advance copied_bytes
  let w := { w with
    oob := w.oob || decide (w.state.header.bytes.length < w.state.header.len + copied_bytes)
    state := { w.state with header := { w.state.header with
      bytes := write_bytes w.state.header.bytes w.state.header.len src } } }
  let w := { w with state := { w.state with header := { w.state.header with
    len := (w.state.header.len + copied_bytes) % 256 } } }
  { w with pipe_state := { w.pipe_state with
      rx_slice := { w.pipe_state.rx_slice with len := w.pipe_state.rx_slice.len - copied_bytes } } }

/-- Byte `i` of `state.header.bytes`. -/
def World.hdr (w : World) (i : Nat) : Nat := w.state.header.bytes.getD i 0

/-- The world with the parameter union replaced. -/
def World.set_params (w : World) (p : Params) : World :=
  { w with state := { w.state with params := p } }

/-- The world with `state.tx_read_slice` replaced. -/
def World.set_tx_read_slice (w : World) (reg : Region) (off len : Nat) : World :=
  { w with state := { w.state with tx_read_slice := { ptr := { reg := reg, off := off }, len := len } } }

/-- The world with `state.header_valid` assigned. -/
def World.set_header_valid (w : World) (v : Bool) : World :=
  { w with state := { w.state with header_valid := v } }

/-- The world with `state.cmd` replaced. -/
def World.set_cmd (w : World) (c : Nat) : World :=
  { w with state := { w.state with cmd := c } }

/-- The statement `state.cmd &= CMD_MASK`. -/
def mask (w : World) : World :=
  { w with state := { w.state with cmd := w.state.cmd &&& CMD_MASK } }

/-- The second `switch` of `fetch_command` together with the final
`state.cmd &= CMD_MASK`, run once the header is complete. -/
def dispatch_header (w : World) : World :=
  let c := w.state.cmd &&& CMD_MASK
  let bit7 : Bool := (w.state.cmd &&& (1 <<< 7)) != 0
  let bit6 : Bool := (w.state.cmd &&& (1 <<< 6)) != 0
  let p := w.state.params
  if c = CMD_PING then
    mask (w.set_tx_read_slice .header 0 16)
  else if c = CMD_UNLOCK then
    if read_bytes w.state.header.bytes 0 16 ≠ UNLOCK_MAGIC then
      { w with state := { w.state with cmd_valid := false, header_valid := false } }
    else
      let w := w.set_tx_read_slice .header 0 16
      mask { w with state := { w.state with unlocked := true } }
  else if c = CMD_SET_MODE then
    mask (w.set_params { p with b0 := w.hdr 0 })
  else if c = CMD_GET_MODE then
    let w := w.set_params { p with b0 := w.state.cart_mode }
    let w := w.set_params { w.state.params with b1 := set_bit w.state.params.b1 0 w.res_pin_in }
    mask (w.set_tx_read_slice .params 0 2)
  else if c = CMD_READ then
    let p := p.set_addr (U16_FROM_LE_BYTES (w.hdr 0) (w.hdr 1))
    mask (w.set_params { p with b0 := set_bit p.b0 0 bit7 })
  else if c = CMD_READ_BURST then
    let p := p.set_addr (U16_FROM_LE_BYTES (w.hdr 0) (w.hdr 1))
    let p := p.set_len (U16_FROM_LE_BYTES (w.hdr 2) (w.hdr 3))
    let p := { p with b0 := set_bit p.b0 0 bit7 }
    mask (w.set_params { p with b0 := set_bit p.b0 1 bit6 })
  else if c = CMD_WRITE then
    let p := p.set_addr (U16_FROM_LE_BYTES (w.hdr 0) (w.hdr 1))
    let p := { p with b3 := w.hdr 2 }
    let p := { p with b0 := set_bit p.b0 0 bit7 }
    mask (w.set_params { p with b0 := set_bit p.b0 1 bit6 })
  else if c = CMD_WRITE_BURST then
    let p := p.set_addr (U16_FROM_LE_BYTES (w.hdr 0) (w.hdr 1))
    let p := p.set_len (U16_FROM_LE_BYTES (w.hdr 2) (w.hdr 3))
    let p := { p with b0 := set_bit p.b0 0 bit7 }
    mask (w.set_params { p with b0 := set_bit p.b0 1 bit6 })
  else if c = CMD_POLL_FLASH_DATA then
    let a := U16_FROM_LE_BYTES (w.hdr 0) (w.hdr 1)
    let p := { p with b0 := a % 256, b1 := a / 256 % 256 }
    mask (w.set_params { p with b2 := w.hdr 2 })
  else if c = CMD_SET_FLASH_WRITE_SEQUENCE then
    let write_count := w.hdr 0
    if write_count > SIZEOF_FLASH_SEQUENCE_WRITE then
      { w with state := { w.state with cmd_valid := false, header_valid := false } }
    else
      let w := { w with flash_sequence := { w.flash_sequence with len := write_count } }
      mask { w with state := { w.state with
        tx_write_slice := { ptr := { reg := .flash_write, off := 0 },
                            len := (write_count * SIZEOF_WRITE) % 256 } } }
  else if c = CMD_FLASH_BURST then
    let p := p.set_addr (U16_FROM_LE_BYTES (w.hdr 0) (w.hdr 1))
    let p := p.set_len (U16_FROM_LE_BYTES (w.hdr 2) (w.hdr 3))
    let w := w.set_params { p with b0 := set_bit p.b0 6 bit6 }
    mask (w.set_tx_read_slice .params 3 2)
  else if c = CMD_DIAGNOSTICS then
    mask (w.set_tx_read_slice .diagnostics 0 SIZEOF_DIAGNOSTICS)
  else if c = CMD_RESET then
    mask (w.set_params { p with b0 := w.hdr 0 })
  else if c = CMD_IDENTIFY then
    let w := w.set_params
      { b0 := 0x99
        b1 := w.bootloader_version % 256
        b2 := (w.bootloader_version >>> 8) % 256
        b3 := w.FW_MINOR_VERSION % 256
        b4 := w.FW_MAJOR_VERSION % 256 }
    mask (w.set_tx_read_slice .params 0 5)
  else
    mask w

/-- The two statements `state.cmd_valid = false; return;` taken when
`total_header_len` is negative. -/
def reject_cmd (w : World) : World :=
  { w with state := { w.state with cmd_valid := false } }

/-- The block run when the header is complete: `state.header_valid = true`,
the second `switch`, and `state.cmd &= CMD_MASK`. -/
def header_complete (w : World) : World :=
  dispatch_header (w.set_header_valid true)

/-- The value of `needed_bytes` in `fetch_command`. -/
def header_needed_bytes (w : World) : Nat :=
  ((total_header_len w.state.cmd w.state.unlocked).toNat % 256 + 256 - w.state.header.len % 256) % 256

/-- The part of `fetch_command` from the computation of `total_header_len` to
the end: reject, or copy header bytes and dispatch once the header is full. -/
def fetch_header (w : World) : World :=
  let total := total_header_len w.state.cmd w.state.unlocked
  if total < 0 then reject_cmd w
  else
    let needed_bytes := header_needed_bytes w
    let copied_bytes := MIN w.pipe_state.rx_slice.len needed_bytes
    let w := copy_header w copied_bytes
    if copied_bytes = needed_bytes then header_complete w else w

/-- `fetch_command`. -/
def fetch_command (w : World) : World :=
  let w := pipe_rx_acquire w
  if !w.pipe_state.rx_slice_valid then w
  else
    let w :=
      if !w.state.cmd_valid && decide (w.pipe_state.rx_slice.len > 0) then fetch_cmd_byte w else w
    fetch_header w

/-- `reset_device`: the magic byte is persisted and the processor is reset;
nothing after the call runs. -/
def reset_device (w : World) (magic : Nat) : World :=
  { w with reset_magic := magic % 256, status := .reset }

/-- The two polling loops of `poll_flash_data` (they differ only in the sense
of the bit-7 test).  `old_data` is the value of the previous accepted read; the
result is the returned byte, or nothing when `fuel` reads did not settle. -/
def poll_flash_loop (expected_d7 : Bool) : Nat → World → Nat → World × Option Nat
  | 0, w, _ => ({ w with status := .diverged }, none)
  | fuel + 1, w, old_data =>
    let new_data := w.DATA_BUS_IN
    let w := (w.hw .poll_next).bus_next
    let d7 : Bool := (new_data &&& 0x80) != 0
    if (if expected_d7 then d7 else !d7) then
      if old_data = new_data then (w, some new_data)
      else poll_flash_loop expected_d7 fuel w new_data
    else poll_flash_loop expected_d7 fuel w old_data

/-- `poll_flash_data`. -/
def poll_flash_data (fuel : Nat) (w : World) (addr : Nat) (expected_d7 : Bool) :
    World × Option Nat :=
  let old_data := w.DATA_BUS_IN
  let w := (w.hw (.poll_first addr)).bus_next
  poll_flash_loop expected_d7 fuel w old_data

/-- The five statements of the loop body of `execute_cmd_tx_read` that follow
the computation of `len`: both lengths go down, `len` bytes are copied from the
read slice to the transmit slice, both pointers move on. -/
def tx_read_copy (w : World) (len : Nat) : World :=
  let w := { w with pipe_state := { w.pipe_state with
    tx_slice := { w.pipe_state.tx_slice with len := w.pipe_state.tx_slice.len - len } } }
  let w := { w with state := { w.state with
    tx_read_slice := { w.state.tx_read_slice with len := w.state.tx_read_slice.len - len } } }
  let w := w.tx_put (w.load w.state.tx_read_slice.ptr len)
  { w with state := { w.state with
    tx_read_slice := { w.state.tx_read_slice with ptr := w.state.tx_read_slice.ptr.add len } } }

/-- The loop of `execute_cmd_tx_read`; every iteration that finds a slice
moves at least one byte, so `state.tx_read_slice.len` iterations suffice. -/
def execute_cmd_tx_read_loop : Nat → World → World × Bool
  | 0, w => (w, true)
  | n + 1, w =>
    if w.state.tx_read_slice.len > 0 then
      let w := pipe_tx_acquire w
      if !w.pipe_state.tx_slice_valid then (w, false)
      else
        let len := MIN w.pipe_state.tx_slice.len w.state.tx_read_slice.len % 256
        execute_cmd_tx_read_loop n (tx_read_copy w len)
    else (w, true)

/-- `execute_cmd_tx_read`. -/
def execute_cmd_tx_read (w : World) : World × Bool :=
  execute_cmd_tx_read_loop w.state.tx_read_slice.len w

/-- One bus read whose value goes to `*pipe_state.tx_slice.ptr`, the pointer
moving on: the data part of `READ_BYTE` and of one `READ_BURST` iteration. -/
def bus_read_to_tx (w : World) (op : HwOp) : World :=
  let v := w.DATA_BUS_IN
  ((w.hw op).bus_next).tx_put [v]

/-- `execute_cmd_read`. -/
def execute_cmd_read (w : World) : World × Bool :=
  let w := pipe_tx_acquire w
  if !w.pipe_state.tx_slice_valid then (w, false)
  else
    let w :=
      if get_bit w.state.params.b0 0 then bus_read_to_tx w (.read_byte w.state.params.addr .cs)
      else bus_read_to_tx w (.read_byte w.state.params.addr .a15_addr)
    let w := { w with pipe_state := { w.pipe_state with
      tx_slice := { w.pipe_state.tx_slice with len := (w.pipe_state.tx_slice.len + 255) % 256 } } }
    (w, true)

/-- `READ_BURST_FAST(addr_l, pipe_state.tx_slice.ptr, len)`: `len` times
`READ_BURST_FAST_BYTE`, the local `addr_l` wrapping at 8 bits. -/
def READ_BURST_FAST : Nat → World → Nat → World
  | 0, w, _ => w
  | n + 1, w, addr_l =>
    READ_BURST_FAST n (bus_read_to_tx w (.read_fast addr_l)) ((addr_l + 1) % 256)

/-- `READ_BURST(state.read_burst.addr, pipe_state.tx_slice.ptr, len, ..)`:
`len` single reads, `state.read_burst.addr` itself counting up. -/
def READ_BURST (g : Gate) : Nat → World → World
  | 0, w => w
  | n + 1, w =>
    let w := bus_read_to_tx w (.read_byte w.state.params.addr g)
    READ_BURST g n (w.set_params (w.state.params.set_addr ((w.state.params.addr + 1) % 65536)))

/-- The loop of `execute_cmd_read_burst`; every iteration that finds a slice
reads at least one byte, so `state.read_burst.len` iterations suffice. -/
def execute_cmd_read_burst_loop : Nat → World → World × Bool
  | 0, w => (w, true)
  | n + 1, w =>
    if w.state.params.len > 0 then
      let w := pipe_tx_acquire w
      if !w.pipe_state.tx_slice_valid then (w, false)
      else
        let len : Nat := MIN w.pipe_state.tx_slice.len w.state.params.len % 256
        let w := { w with pipe_state := { w.pipe_state with
          tx_slice := { w.pipe_state.tx_slice with len := w.pipe_state.tx_slice.len - len } } }
        let w := w.set_params (w.state.params.set_len (w.state.params.len - len))
        let addr_l : Nat := w.state.params.addr % 256
        let fast_path : Bool := decide (Int.ofNat addr_l + Int.ofNat len - 1 ≥ Int.ofNat addr_l)
        let use_cs := get_bit w.state.params.b0 0
        let force_ce := get_bit w.state.params.b0 1
        let w :=
          if fast_path && !force_ce then
            let addr_h := w.state.params.addr >>> 8
            let w := if use_cs then w.hw (.cs_pin false) else w
            let w := w.hw (.addrh addr_h)
            let w := READ_BURST_FAST len w addr_l
            let w := w.set_params (w.state.params.set_addr ((w.state.params.addr + len) % 65536))
            if use_cs then w.hw (.cs_pin true) else w.hw (.a15_pin true)
          else
            if use_cs then READ_BURST .cs len w else READ_BURST .a15_addr len w
        execute_cmd_read_burst_loop n w
    else (w, true)

/-- `execute_cmd_read_burst`. -/
def execute_cmd_read_burst (w : World) : World × Bool :=
  execute_cmd_read_burst_loop w.state.params.len w

/-- The pair of macro arguments chosen by `use_cs` in the write commands. -/
def write_gate (use_cs : Bool) : Gate := if use_cs then .cs else .a15_addr

/-- The pair of macro arguments chosen by `use_vin`. -/
def write_strobe (use_vin : Bool) : Strobe := if use_vin then .vin else .wr

/-- `execute_cmd_write`: the four-way choice of `WRITE_BYTE` arguments between
`RD_PIN_OUT(1)` and `RD_PIN_OUT(0)`. -/
def execute_cmd_write (w : World) : World :=
  let p := w.state.params
  let w := w.hw (.rd_pin true)
  let w :=
    if get_bit p.b0 0 then
      if get_bit p.b0 1 then w.hw (.write_byte p.addr p.b3 .cs .vin)
      else w.hw (.write_byte p.addr p.b3 .cs .wr)
    else
      if get_bit p.b0 1 then w.hw (.write_byte p.addr p.b3 .a15_addr .vin)
      else w.hw (.write_byte p.addr p.b3 .a15_addr .wr)
  w.hw (.rd_pin false)

/-- One of the four inner `for` loops of `execute_cmd_write_burst`: `len` times
a `WRITE_BYTE` of the next received byte at `state.write_burst.addr`. -/
def write_burst_bytes (g : Gate) (s : Strobe) : Nat → World → World
  | 0, w => w
  | n + 1, w =>
    let data := (w.rx_peek 1).getD 0 0
    let w := w.hw (.write_byte w.state.params.addr data g s)
    let w := w.rx_advance 1
    write_burst_bytes g s n (w.set_params (w.state.params.set_addr ((w.state.params.addr + 1) % 65536)))

/-- The loop of `execute_cmd_write_burst`. -/
def execute_cmd_write_burst : Nat → World → World × Bool
  | 0, w => ({ w with status := .diverged }, false)
  | fuel + 1, w =>
    if w.state.params.len > 0 then
      let w := pipe_rx_acquire w
      if !w.pipe_state.rx_slice_valid then (w, false)
      else
        let len := MIN w.pipe_state.rx_slice.len w.state.params.len % 256
        let w := { w with pipe_state := { w.pipe_state with
          rx_slice := { w.pipe_state.rx_slice with len := w.pipe_state.rx_slice.len - len } } }
        let w := w.set_params (w.state.params.set_len (w.state.params.len - len))
        let w := w.hw (.rd_pin true)
        let use_cs := get_bit w.state.params.b0 0
        let use_vin := get_bit w.state.params.b0 1
        let w :=
          if use_cs then
            if use_vin then write_burst_bytes .cs .vin len w
            else write_burst_bytes .cs .wr len w
          else
            if use_vin then write_burst_bytes .a15_addr .vin len w
            else write_burst_bytes .a15_addr .wr len w
        let w := w.hw (.rd_pin false)
        execute_cmd_write_burst fuel w
    else (w, true)

/-- `execute_cmd_poll_flash_data`. -/
def execute_cmd_poll_flash_data (fuel : Nat) (w : World) : World × Bool :=
  let w := pipe_tx_acquire w
  if !w.pipe_state.tx_slice_valid || decide (w.pipe_state.tx_slice.len = 0) then (w, false)
  else
    match poll_flash_data fuel w w.state.params.poll_addr (get_bit w.state.params.b2 7) with
    | (w, none) => (w, false)
    | (w, some data) =>
      let w := w.tx_put [data]
      let w := { w with pipe_state := { w.pipe_state with
        tx_slice := { w.pipe_state.tx_slice with len := w.pipe_state.tx_slice.len - 1 } } }
      (w, true)

/-- The memory from the start of `flash_sequence.write` on: the record array
and the RAM that follows it. -/
def World.flash_mem (w : World) : List Nat := w.flash_sequence.write ++ w.ram_after

/-- The `memcpy` through `state.tx_write_slice.ptr`, which is only ever set to
the start of `flash_sequence.write` and moved on from there: the bytes are
stored at the offset of the pointer, in the array as far as it goes and in the
RAM that follows it from there on. -/
def World.tx_write_put (w : World) (src : List Nat) : World :=
  let p := w.state.tx_write_slice.ptr
  match p.reg with
  | .flash_write =>
    let m := write_bytes w.flash_mem p.off src
    { w with
      oob := w.oob || decide (w.flash_sequence.write.length < p.off + src.length)
      flash_sequence := { w.flash_sequence with
        write := m.take w.flash_sequence.write.length }
      ram_after := m.drop w.flash_sequence.write.length }
  | _ => { w with oob := true }

/-- The loop of `execute_cmd_set_flash_write_sequence`. -/
def execute_cmd_set_flash_write_sequence : Nat → World → World × Bool
  | 0, w => ({ w with status := .diverged }, false)
  | fuel + 1, w =>
    if w.state.tx_write_slice.len > 0 then
      let w := pipe_rx_acquire w
      if !w.pipe_state.rx_slice_valid then (w, false)
      else
        let len : Nat := MIN w.pipe_state.rx_slice.len w.state.tx_write_slice.len % 256
        let w := { w with pipe_state := { w.pipe_state with
          rx_slice := { w.pipe_state.rx_slice with len := w.pipe_state.rx_slice.len - len } } }
        let w := { w with state := { w.state with
          tx_write_slice := { w.state.tx_write_slice with len := w.state.tx_write_slice.len - len } } }
        let w := w.tx_write_put (w.rx_peek len)
        let w := w.rx_advance len
        let w := { w with state := { w.state with
          tx_write_slice := { w.state.tx_write_slice with ptr := w.state.tx_write_slice.ptr.add len } } }
        execute_cmd_set_flash_write_sequence fuel w
    else (w, true)

/-- The `WRITE_BYTE` issued for `flash_sequence.write[j]`: the four bytes at
offset `4 * j` from the start of the array, which for `j` above 15 lie in the
RAM that follows it. -/
def replay_write (w : World) (j : Nat) : World :=
  let r := w.flash_mem
  let addr := r.getD (SIZEOF_WRITE * j) 0 + 256 * r.getD (SIZEOF_WRITE * j + 1) 0
  let data := r.getD (SIZEOF_WRITE * j + 2) 0
  let use_vin := get_bit (r.getD (SIZEOF_WRITE * j + 3) 0) 6
  let w := { w with
    oob := w.oob || decide (w.flash_sequence.write.length < SIZEOF_WRITE * j + SIZEOF_WRITE) }
  if use_vin then w.hw (.write_byte addr data .a15 .vin)
  else w.hw (.write_byte addr data .a15 .wr)

/-- The `for (j = 0; j < flash_sequence.len; j++)` loop of
`execute_cmd_flash_burst`. -/
def replay_sequence (w : World) : World :=
  (List.range w.flash_sequence.len).foldl replay_write w

/-- The `for (i = len; i > 0; i--)` loop of `execute_cmd_flash_burst`; it
stops early only when a polling loop does not settle. -/
def flash_burst_bytes (fuel : Nat) : Nat → World → World
  | 0, w => w
  | n + 1, w =>
    let data := (w.rx_peek 1).getD 0 0
    let w := w.rx_advance 1
    if data ≠ 0xff then
      let w := w.hw (.rd_pin true)
      let w := replay_sequence w
      let addr := w.state.params.addr
      let w := w.set_params (w.state.params.set_addr ((addr + 1) % 65536))
      let w :=
        if get_bit w.state.params.b0 6 then w.hw (.write_byte addr data .a15 .vin)
        else w.hw (.write_byte addr data .a15 .wr)
      let w := w.hw (.rd_pin false)
      match poll_flash_data fuel w addr ((data &&& 0x80) != 0) with
      | (w, none) => w
      | (w, some _) => flash_burst_bytes fuel n w
    else
      flash_burst_bytes fuel n
        (w.set_params (w.state.params.set_addr ((w.state.params.addr + 1) % 65536)))

/-- `execute_cmd_flash_burst`. -/
def execute_cmd_flash_burst : Nat → World → World × Bool
  | 0, w => ({ w with status := .diverged }, false)
  | fuel + 1, w =>
    if w.state.params.len > 0 then
      let w := pipe_rx_acquire w
      if !w.pipe_state.rx_slice_valid then (w, false)
      else
        let len : Nat := MIN w.pipe_state.rx_slice.len w.state.params.len % 256
        let w := { w with pipe_state := { w.pipe_state with
          rx_slice := { w.pipe_state.rx_slice with len := w.pipe_state.rx_slice.len - len } } }
        let w := w.set_params (w.state.params.set_len (w.state.params.len - len))
        let w := flash_burst_bytes fuel len w
        if w.status ≠ .running then (w, false)
        else execute_cmd_flash_burst fuel w
    else execute_cmd_tx_read w

/-- The operations the `switch (state.cmd)` of `execute_commands` chooses
between: one per group of `case` labels, and `nop` for `default`. -/
inductive Operation
  | tx_read
  | set_mode
  | read
  | read_burst
  | write
  | write_burst
  | poll_flash_data
  | set_flash_write_sequence
  | flash_burst
  | reset
  | nop
  deriving DecidableEq, Repr

/-- The `case` labels of the `switch (state.cmd)` of `execute_commands`. -/
def select_operation (cmd : Nat) : Operation :=
  if cmd = CMD_PING ∨ cmd = CMD_UNLOCK ∨ cmd = CMD_GET_MODE ∨ cmd = CMD_DIAGNOSTICS ∨
      cmd = CMD_IDENTIFY then .tx_read
  else if cmd = CMD_SET_MODE then .set_mode
  else if cmd = CMD_READ then .read
  else if cmd = CMD_READ_BURST then .read_burst
  else if cmd = CMD_WRITE then .write
  else if cmd = CMD_WRITE_BURST then .write_burst
  else if cmd = CMD_POLL_FLASH_DATA then .poll_flash_data
  else if cmd = CMD_SET_FLASH_WRITE_SEQUENCE then .set_flash_write_sequence
  else if cmd = CMD_FLASH_BURST then .flash_burst
  else if cmd = CMD_RESET then .reset
  else .nop

/-- The bodies of the `switch (state.cmd)` of `execute_commands`; the result
is `false` where the source returns from `execute_commands`. -/
def run_operation (fuel : Nat) (w : World) : Operation → World × Bool
  | .tx_read => execute_cmd_tx_read w
  | .set_mode =>
    let new_mode := w.state.params.b0
    (apply_cart_mode { w with state := { w.state with cart_mode := new_mode } }, true)
  | .read => execute_cmd_read w
  | .read_burst => execute_cmd_read_burst w
  | .write => (execute_cmd_write w, true)
  | .write_burst => execute_cmd_write_burst fuel w
  | .poll_flash_data => execute_cmd_poll_flash_data fuel w
  | .set_flash_write_sequence => execute_cmd_set_flash_write_sequence fuel w
  | .flash_burst => execute_cmd_flash_burst fuel w
  | .reset => (reset_device w w.state.params.b0, false)
  | .nop => (w, true)

/-- The `switch (state.cmd)` of `execute_commands`. -/
def execute_command (fuel : Nat) (w : World) : World × Bool :=
  run_operation fuel w (select_operation w.state.cmd)

/-- The statement `state.cmd_flags = 0`. -/
def clear_cmd_flags (w : World) : World :=
  { w with state := { w.state with cmd_valid := false, header_valid := false } }

/-- The pending-command half of one iteration of the loop of
`execute_commands`: the `if (state.header_valid) { ... }` block. -/
def execute_pending (fuel : Nat) (w : World) : World × Bool :=
  if w.state.header_valid then
    match execute_command fuel w with
    | (w, false) => (w, false)
    | (w, true) => (clear_cmd_flags w, true)
  else (w, true)

/-- `execute_commands`: the `do { ... } while (state.header_valid)` loop, with
`fuel` bounding its iterations and those of every loop below it. -/
def execute_commands : Nat → World → World
  | 0, w => { w with status := .diverged }
  | fuel + 1, w =>
    match execute_pending fuel w with
    | (w, false) => w
    | (w, true) =>
      let w := fetch_command w
      if w.state.header_valid then execute_commands fuel w else w

/-- The body of the `while (usb_state.active)` loop of `main`. -/
def main_active_body (fuel : Nat) (w : World) : World :=
  let w := execute_commands fuel w
  if w.status ≠ .running then w
  else if w.pipe_state.tx_slice_valid then
    if decide (w.pipe_state.tx_slice.len < EP2_PACKET_SIZE) || w.pipe_state.tx_need_zlp then
      pipe_tx_flush w
    else w
  else if w.pipe_state.tx_need_zlp then pipe_tx_acquire w
  else w

/-- The loop `while (usb_state.active)` of `main` run for at most `n` rounds. -/
def main_active_loop (fuel : Nat) : Nat → World → World
  | 0, w => w
  | n + 1, w =>
    if w.usb_state.active && decide (w.status = .running) then
      main_active_loop fuel n (main_active_body fuel w)
    else w

/-! ## The command table of the specification -/

/-- One row of the command table of section 4.3 of the specification: the
id, the header length, whether the lock applies, and the operation that the
semantics column asks `execute_commands` to run. -/
structure SpecRow where
  id : Nat
  header_len : Nat
  lock : Bool
  op : Operation
  deriving DecidableEq, Repr

/-- The command table of section 4.3, row by row: PING, UNLOCK, SET_MODE,
GET_MODE, READ, READ_BURST, WRITE, WRITE_BURST, POLL_FLASH_DATA,
SET_FLASH_WRITE_SEQUENCE, FLASH_BURST, DIAGNOSTICS, RESET, IDENTIFY.  The rows
whose semantics is to send back a block of bytes (echo, mode bytes, diagnostics
record, identity blob) have the transmit operation. -/
def SPEC_TABLE : List SpecRow :=
  [ { id := 0x01, header_len := 16, lock := false, op := .tx_read },
    { id := 0x02, header_len := 16, lock := false, op := .tx_read },
    { id := 0x03, header_len := 1, lock := true, op := .set_mode },
    { id := 0x04, header_len := 0, lock := true, op := .tx_read },
    { id := 0x05, header_len := 2, lock := true, op := .read },
    { id := 0x06, header_len := 4, lock := true, op := .read_burst },
    { id := 0x07, header_len := 3, lock := true, op := .write },
    { id := 0x08, header_len := 4, lock := true, op := .write_burst },
    { id := 0x09, header_len := 3, lock := true, op := .poll_flash_data },
    { id := 0x0a, header_len := 1, lock := true, op := .set_flash_write_sequence },
    { id := 0x0b, header_len := 4, lock := true, op := .flash_burst },
    { id := 0x1d, header_len := 0, lock := false, op := .tx_read },
    { id := 0x1e, header_len := 1, lock := true, op := .reset },
    { id := 0x1f, header_len := 0, lock := false, op := .tx_read } ]

/-- The row of the table for an id, if there is one. -/
def spec_lookup (id : Nat) : Option SpecRow := SPEC_TABLE.find? (fun r => r.id == id)

/-- The header length the table gives to an id in a lock state; nothing when
the id is not in the table or needs the lock while it is not open. -/
def spec_header_len (id : Nat) (unlocked : Bool) : Option Nat :=
  match spec_lookup id with
  | some r => if r.lock && !unlocked then none else some r.header_len
  | none => none

/-- The operation the table gives to an id; `nop` for an id outside it. -/
def spec_operation (id : Nat) : Operation :=
  match spec_lookup id with
  | some r => r.op
  | none => .nop

/-! ## The control endpoint (`usb.c`) -/

/-- `TX_STATF_NONE` of `enum TxStatf`. -/
def TX_STATF_NONE : Nat := 0

/-- `TX_STATF_DIR_OUT` of `enum TxStatf`. -/
def TX_STATF_DIR_OUT : Nat := 1 <<< 0

/-- `TX_STATF_DIR_IN` of `enum TxStatf`. -/
def TX_STATF_DIR_IN : Nat := 1 <<< 1

/-- `TX_STATF_DATA_STAGE` of `enum TxStatf`. -/
def TX_STATF_DATA_STAGE : Nat := 1 <<< 2

/-- `TX_STATF_DATA_ROM` of `enum TxStatf`. -/
def TX_STATF_DATA_ROM : Nat := 1 <<< 3

/-- `TX_STATF_DATA_RAM` of `enum TxStatf`. -/
def TX_STATF_DATA_RAM : Nat := 1 <<< 4

/-- `TX_STATF_SET_ADDR` of `enum TxStatf`. -/
def TX_STATF_SET_ADDR : Nat := 1 <<< 7

/-- Standard request codes of `enum UsbStdRequest`. -/
def GET_STATUS : Nat := 0

/-- `SET_ADDRESS` of `enum UsbStdRequest`. -/
def SET_ADDRESS : Nat := 5

/-- `GET_DESCRIPTOR` of `enum UsbStdRequest`. -/
def GET_DESCRIPTOR : Nat := 6

/-- `GET_CONFIGURATION` of `enum UsbStdRequest`. -/
def GET_CONFIGURATION : Nat := 8

/-- `SET_CONFIGURATION` of `enum UsbStdRequest`. -/
def SET_CONFIGURATION : Nat := 9

/-- `GET_INTERFACE` of `enum UsbStdRequest`. -/
def GET_INTERFACE : Nat := 10

/-- `SET_INTERFACE` of `enum UsbStdRequest`. -/
def SET_INTERFACE : Nat := 11

/-- `VENDOR_RESET` of `enum VendorRequest`. -/
def VENDOR_RESET : Nat := 0x40

/-- `VENDOR_IDENTIFY` of `enum VendorRequest`. -/
def VENDOR_IDENTIFY : Nat := 0x41

/-- `CDC_SEND_ENCAPSULATED_COMMAND` of `enum CdcClassRequest`. -/
def CDC_SEND_ENCAPSULATED_COMMAND : Nat := 0x00

/-- `CDC_GET_ENCAPSULATED_RESPONSE` of `enum CdcClassRequest`. -/
def CDC_GET_ENCAPSULATED_RESPONSE : Nat := 0x01

/-- `CDC_SET_LINE_CODING` of `enum CdcClassRequest`. -/
def CDC_SET_LINE_CODING : Nat := 0x20

/-- `CDC_GET_LINE_CODING` of `enum CdcClassRequest`. -/
def CDC_GET_LINE_CODING : Nat := 0x21

/-- `CDC_SET_CONTROL_LINE_STATE` of `enum CdcClassRequest`. -/
def CDC_SET_CONTROL_LINE_STATE : Nat := 0x22

/-- `USB_DESCRIPTOR_DEVICE` of `enum UsbDescriptor`. -/
def USB_DESCRIPTOR_DEVICE : Nat := 1

/-- `USB_DESCRIPTOR_CONFIGURATION` of `enum UsbDescriptor`. -/
def USB_DESCRIPTOR_CONFIGURATION : Nat := 2

/-- `USB_DESCRIPTOR_STRING` of `enum UsbDescriptor`. -/
def USB_DESCRIPTOR_STRING : Nat := 3

/-- `sizeof(struct LineCoding)`. -/
def SIZEOF_LINE_CODING : Nat := 7

/-- The bytes of `DEVICE_DESCRIPTOR` (`usb_descriptors.c`). -/
def DEVICE_DESCRIPTOR (w : World) : List Nat :=
  let bcdDevice := ((w.FW_MAJOR_VERSION <<< 8) ||| w.FW_MINOR_VERSION) % 65536
  [18, USB_DESCRIPTOR_DEVICE, 0x00, 0x02, 0x02, 0x00, 0x00, EP0_PACKET_SIZE, 0xc0, 0x16, 0xe1, 0x05,
   bcdDevice % 256, bcdDevice / 256, 1, 2, 0, 1]

/-- The bytes of `CONFIG_DESCRIPTOR` (`usb_descriptors.c`). -/
def CONFIG_DESCRIPTOR : List Nat :=
  [9, 2, 75, 0, 2, 1, 0, 0x80, 0x64] ++
  [8, 11, 0, 2, 0x02, 0x02, 0x00, 0x00] ++
  [9, 4, 0, 0, 1, 0x02, 0x02, 0x00, 0x00] ++
  [5, 0x24, 0x00, 0x10, 0x01] ++
  [4, 0x24, 0x02, 0x00] ++
  [5, 0x24, 0x06, 0, 1] ++
  [5, 0x24, 0x01, 0x00, 1] ++
  [7, 5, 0x81, 0b11, 8, 0, 2] ++
  [9, 4, 1, 0, 2, 0x0a, 0x00, 0x00, 0x00] ++
  [7, 5, 0x82, 0b10, 64, 0, 0] ++
  [7, 5, 0x02, 0b10, 64, 0, 0]

/-- The bytes of `STRING_DESCRIPTOR0`. -/
def STRING_DESCRIPTOR0 : List Nat := [4, 3, 0x09, 0x04]

/-- The bytes of `STRING_DESCRIPTOR1`, the string `gekkio.fi`. -/
def STRING_DESCRIPTOR1 : List Nat :=
  [20, 3, 0x67, 0, 0x65, 0, 0x6b, 0, 0x6b, 0, 0x69, 0, 0x6f, 0, 0x2e, 0, 0x66, 0, 0x69, 0]

/-- The bytes of `STRING_DESCRIPTOR2`, the string `GB-CARTPP-XC`. -/
def STRING_DESCRIPTOR2 : List Nat :=
  [26, 3, 0x47, 0, 0x42, 0, 0x2d, 0, 0x43, 0, 0x41, 0, 0x52, 0, 0x54, 0, 0x50, 0, 0x50, 0,
   0x2d, 0, 0x58, 0, 0x43, 0]

/-- The content of a descriptor table. -/
def World.rom (w : World) : RomObject → List Nat
  | .none => []
  | .DEVICE_DESCRIPTOR => DEVICE_DESCRIPTOR w
  | .CONFIG_DESCRIPTOR => CONFIG_DESCRIPTOR
  | .STRING_DESCRIPTOR0 => STRING_DESCRIPTOR0
  | .STRING_DESCRIPTOR1 => STRING_DESCRIPTOR1
  | .STRING_DESCRIPTOR2 => STRING_DESCRIPTOR2

/-- The setup packet `ep0_setup`: the first eight bytes of `ep0_out_buffer`. -/
def World.ep0_setup (w : World) : UsbSetupPacket :=
  let b (i : Nat) : Nat := w.ep0_out_buffer.getD i 0
  { bmRequestType := b 0
    bRequest := b 1
    wValue := b 2 + 256 * b 3
    wIndex := b 4 + 256 * b 5
    wLength := b 6 + 256 * b 7 }

/-- The assignment `ep0_state.tx_statf = flags`. -/
def Ep0State.set_tx_statf (e : Ep0State) (flags : Nat) : Ep0State :=
  { e with
    dir_out := get_bit flags 0
    dir_in := get_bit flags 1
    data_stage := get_bit flags 2
    data_rom := get_bit flags 3
    data_ram := get_bit flags 4
    set_addr := get_bit flags 7 }

/-- The world with `ep0_state.tx_statf` assigned. -/
def World.set_tx_statf (w : World) (flags : Nat) : World :=
  { w with ep0_state := w.ep0_state.set_tx_statf flags }

/-- The world with `ep0_state.data_len` assigned. -/
def World.set_data_len (w : World) (n : Nat) : World :=
  { w with ep0_state := { w.ep0_state with data_len := n % 65536 } }

/-- The world with `ep0_in_buffer[i]` assigned. -/
def World.set_ep0_in (w : World) (i v : Nat) : World :=
  { w with ep0_in_buffer := w.ep0_in_buffer.set i (v % 256) }

/-- `ep0_stall`. -/
def ep0_stall (w : World) : World :=
  let w := w.set_tx_statf TX_STATF_NONE
  let w := { w with bds := { w.bds with ep0_out := BD_ARM_STALL w.bds.ep0_out EP0_PACKET_SIZE } }
  { w with bds := { w.bds with ep0_in := BD_ARM_STALL w.bds.ep0_in 0x00 } }

/-- `ep0_in_fill_buffer`: the world after the copy, and the returned length. -/
def ep0_in_fill_buffer (w : World) : World × Nat :=
  let len := MIN w.ep0_state.data_len EP0_PACKET_SIZE % 256
  if w.ep0_state.data_rom then
    ({ w with
       ep0_in_buffer :=
         write_bytes w.ep0_in_buffer 0 (read_bytes (w.rom w.ep0_state.rom_obj) w.ep0_state.rom_in_ptr len)
       ep0_state := { w.ep0_state with rom_in_ptr := w.ep0_state.rom_in_ptr + len } }, len)
  else if w.ep0_state.data_ram then
    ({ w with
       ep0_in_buffer :=
         write_bytes w.ep0_in_buffer 0 (read_bytes w.line_coding w.ep0_state.ram_in_ptr len)
       ep0_state := { w.ep0_state with ram_in_ptr := w.ep0_state.ram_in_ptr + len } }, len)
  else (w, len)

/-- The world with `ep0_state.rom_in_ptr` pointing at the start of a table and
`ep0_state.data_len` set to its length. -/
def World.set_rom_source (w : World) (obj : RomObject) (len : Nat) : World :=
  let w := w.set_data_len len
  { w with ep0_state := { w.ep0_state with rom_obj := obj, rom_in_ptr := 0 } }

/-- `usb_service_ep0_get_descriptor`: the world and the returned flags. -/
def usb_service_ep0_get_descriptor (w : World) : World × Nat :=
  let descriptorType := (w.ep0_setup.wValue >>> 8) % 256
  let descriptorIndex := w.ep0_setup.wValue % 256
  let ok := TX_STATF_DIR_IN ||| TX_STATF_DATA_STAGE ||| TX_STATF_DATA_ROM
  if descriptorType = USB_DESCRIPTOR_DEVICE then
    if descriptorIndex ≠ 0 then (w, TX_STATF_NONE)
    else (w.set_rom_source .DEVICE_DESCRIPTOR ((DEVICE_DESCRIPTOR w).getD 0 0), ok)
  else if descriptorType = USB_DESCRIPTOR_CONFIGURATION then
    if descriptorIndex ≠ 0 then (w, TX_STATF_NONE)
    else (w.set_rom_source .CONFIG_DESCRIPTOR
      (CONFIG_DESCRIPTOR.getD 2 0 + 256 * CONFIG_DESCRIPTOR.getD 3 0), ok)
  else if descriptorType = USB_DESCRIPTOR_STRING then
    if descriptorIndex = 0 then
      (w.set_rom_source .STRING_DESCRIPTOR0 (STRING_DESCRIPTOR0.getD 0 0), ok)
    else if descriptorIndex = 1 then
      (w.set_rom_source .STRING_DESCRIPTOR1 (STRING_DESCRIPTOR1.getD 0 0), ok)
    else if descriptorIndex = 2 then
      (w.set_rom_source .STRING_DESCRIPTOR2 (STRING_DESCRIPTOR2.getD 0 0), ok)
    else (w, TX_STATF_NONE)
  else (w, TX_STATF_NONE)

/-- `usb_config_deactivate`. -/
def usb_config_deactivate (w : World) : World :=
  let w := pipe_reset w
  let w := { w with usb_state := { w.usb_state with configured := false } }
  USB_SYNC_ACTIVE_FLAG w

/-- `usb_config_activate`. -/
def usb_config_activate (w : World) : World :=
  let w := { w with usb_state := { w.usb_state with configured := true } }
  let w := USB_SYNC_ACTIVE_FLAG w
  let w := pipe_reset w
  let w := { w with bulk_out := { w.bulk_out with cpu_dts := false, sie_dts := false } }
  let w := { w with bulk_in := { w.bulk_in with cpu_dts := false, sie_dts := false } }
  let w := pipe_arm_rx w
  pipe_arm_rx w

/-- The standard-request `switch` of `ep0_handle_setup`. -/
def ep0_standard_request (w : World) : World :=
  let request := w.ep0_setup.bRequest
  let bmRequestType := w.ep0_setup.bmRequestType
  if request = GET_STATUS then
    if bmRequestType = 0x80 then
      let w := w.set_data_len 2
      let w := w.set_ep0_in 0 0x00
      let w := w.set_ep0_in 1 0x00
      w.set_tx_statf (TX_STATF_DATA_STAGE ||| TX_STATF_DIR_IN)
    else w
  else if request = GET_DESCRIPTOR then
    if bmRequestType = 0x80 then
      match usb_service_ep0_get_descriptor w with
      | (w, flags) => w.set_tx_statf flags
    else w
  else if request = SET_ADDRESS then
    if bmRequestType = 0x00 then
      let w := { w with ep0_state := { w.ep0_state with addr := w.ep0_setup.wValue % 256 } }
      w.set_tx_statf (TX_STATF_SET_ADDR ||| TX_STATF_DIR_OUT)
    else w
  else if request = GET_CONFIGURATION then
    if bmRequestType = 0x80 then
      let w := w.set_data_len 1
      let w := w.set_ep0_in 0 (if w.usb_state.configured then 1 else 0)
      w.set_tx_statf (TX_STATF_DATA_STAGE ||| TX_STATF_DIR_IN)
    else w
  else if request = SET_CONFIGURATION then
    if bmRequestType = 0x00 then
      if w.ep0_setup.wValue = 0 then (usb_config_deactivate w).set_tx_statf TX_STATF_DIR_OUT
      else if w.ep0_setup.wValue = 1 then (usb_config_activate w).set_tx_statf TX_STATF_DIR_OUT
      else w
    else w
  else if request = GET_INTERFACE then
    if bmRequestType = 0x81 ∧ w.usb_state.configured = true then
      if w.ep0_setup.wIndex = 0 ∨ w.ep0_setup.wIndex = 1 then
        let w := w.set_data_len 1
        let w := w.set_ep0_in 0 0x00
        w.set_tx_statf (TX_STATF_DATA_STAGE ||| TX_STATF_DIR_IN)
      else w
    else w
  else if request = SET_INTERFACE then
    if bmRequestType = 0x01 ∧ w.usb_state.configured = true then
      if w.ep0_setup.wIndex = 0 ∨ w.ep0_setup.wIndex = 1 then
        if w.ep0_setup.wValue = 0 then w.set_tx_statf TX_STATF_DIR_OUT else w
      else w
    else w
  else w

/-- The class-request `switch` of `ep0_handle_setup`. -/
def ep0_class_request (w : World) : World :=
  let request := w.ep0_setup.bRequest
  let bmRequestType := w.ep0_setup.bmRequestType
  if request = CDC_SEND_ENCAPSULATED_COMMAND then
    if bmRequestType = 0x21 ∧ w.ep0_setup.wIndex = 0 then w.set_tx_statf TX_STATF_DIR_OUT else w
  else if request = CDC_GET_ENCAPSULATED_RESPONSE then
    if bmRequestType = 0xa1 ∧ w.ep0_setup.wIndex = 0 then
      let w := w.set_data_len 0
      w.set_tx_statf (TX_STATF_DIR_IN ||| TX_STATF_DATA_STAGE)
    else w
  else if request = CDC_SET_LINE_CODING then
    if bmRequestType = 0x21 ∧ w.ep0_setup.wIndex = 0 then
      let w := w.set_data_len SIZEOF_LINE_CODING
      let w := { w with ep0_state := { w.ep0_state with ram_out_ptr := 0 } }
      w.set_tx_statf (TX_STATF_DIR_OUT ||| TX_STATF_DATA_STAGE ||| TX_STATF_DATA_RAM)
    else w
  else if request = CDC_GET_LINE_CODING then
    if bmRequestType = 0xa1 ∧ w.ep0_setup.wIndex = 0 then
      let w := w.set_data_len SIZEOF_LINE_CODING
      let w := { w with ep0_state := { w.ep0_state with ram_in_ptr := 0 } }
      w.set_tx_statf (TX_STATF_DIR_IN ||| TX_STATF_DATA_STAGE ||| TX_STATF_DATA_RAM)
    else w
  else if request = CDC_SET_CONTROL_LINE_STATE then
    if bmRequestType = 0x21 ∧ w.ep0_setup.wIndex = 0 then
      let w := { w with usb_state := { w.usb_state with
        line_state := (w.ep0_setup.wValue &&& (1 <<< 0)) != 0 } }
      let w := USB_SYNC_ACTIVE_FLAG w
      w.set_tx_statf TX_STATF_DIR_OUT
    else w
  else w

/-- The vendor-request `switch` of `ep0_handle_setup`. -/
def ep0_vendor_request (w : World) : World :=
  let request := w.ep0_setup.bRequest
  let bmRequestType := w.ep0_setup.bmRequestType
  if request = VENDOR_RESET then
    if bmRequestType = 0x40 then
      let w := { w with pipe_state := { w.pipe_state with reset_magic := w.ep0_setup.wValue % 256 } }
      let w := { w with pipe_state := { w.pipe_state with device_reset := true } }
      let w := USB_SYNC_ACTIVE_FLAG w
      w.set_tx_statf TX_STATF_DIR_OUT
    else w
  else if request = VENDOR_IDENTIFY then
    if bmRequestType = 0xc0 then
      let w := w.set_data_len 5
      let w := w.set_ep0_in 0 0x99
      let w := w.set_ep0_in 1 w.bootloader_version
      let w := w.set_ep0_in 2 (w.bootloader_version >>> 8)
      let w := w.set_ep0_in 3 w.FW_MINOR_VERSION
      let w := w.set_ep0_in 4 w.FW_MAJOR_VERSION
      w.set_tx_statf (TX_STATF_DIR_IN ||| TX_STATF_DATA_STAGE)
    else w
  else w

/-- `ep0_handle_setup`. -/
def ep0_handle_setup (w : World) : World :=
  let w := { w with bds := { w.bds with ep0_out := w.bds.ep0_out.set_UOWN false } }
  let w := { w with bds := { w.bds with
    ep0_out := { w.bds.ep0_out with STAT := set_bit w.bds.ep0_out.STAT 6 true } } }
  let w := { w with bds := { w.bds with ep0_in := w.bds.ep0_in.set_UOWN false } }
  let w := { w with bds := { w.bds with
    ep0_in := { w.bds.ep0_in with STAT := set_bit w.bds.ep0_in.STAT 6 true } } }
  let w := w.set_tx_statf TX_STATF_NONE
  let w := w.set_data_len 0
  let bmRequestType := w.ep0_setup.bmRequestType
  let w :=
    if bmRequestType &&& 0b01100000 = 0b00000000 then ep0_standard_request w
    else if bmRequestType &&& 0b01100000 = 0b00100000 ∧ w.usb_state.configured = true then
      ep0_class_request w
    else if bmRequestType &&& 0b01100000 = 0b01000000 then ep0_vendor_request w
    else w
  if w.ep0_state.dir_in && w.ep0_state.data_stage then
    let w := w.set_data_len (MIN w.ep0_state.data_len w.ep0_setup.wLength)
    match ep0_in_fill_buffer w with
    | (w, len) =>
      { w with bds := { w.bds with
          ep0_in := BD_ARM_DATA w.bds.ep0_in (get_bit w.bds.ep0_in.STAT 6) len } }
  else if w.ep0_state.dir_out then
    if w.ep0_state.data_stage then
      { w with bds := { w.bds with
          ep0_out := BD_ARM_DATA w.bds.ep0_out (get_bit w.bds.ep0_out.STAT 6) EP0_PACKET_SIZE } }
    else
      let w := { w with bds := { w.bds with ep0_out := BD_ARM_STALL w.bds.ep0_out EP0_PACKET_SIZE } }
      { w with bds := { w.bds with ep0_in := BD_ARM_CTRL_STATUS w.bds.ep0_in 0x00 } }
  else ep0_stall w

/-- The packet a control IN descriptor is armed with: the first `BC_L` bytes of
`ep0_in_buffer`. -/
def World.ep0_in_packet (w : World) : List Nat :=
  read_bytes w.ep0_in_buffer 0 w.bds.ep0_in.BC_L

/-! ## Initial memory -/

/-- A buffer descriptor with all bytes zero. -/
def BufferDescriptor.zero : BufferDescriptor := { STAT := 0, BC_L := 0, ADR := 0 }

/-- Bulk flags with all bits zero. -/
def BulkFlags.zero : BulkFlags :=
  { cpu_dts := false, cpu_odd := false, sie_dts := false, sie_odd := false,
    even_busy := false, odd_busy := false }

/-- The memory `main` starts its loop from, before `reset_state`: `state`,
`flash_sequence`, `diagnostics`, the USB state and all buffers zeroed, the
peripheral interrupt enabled.  The arguments are the build constants and the
inputs from outside. -/
def World.zero (major minor bootloader : Nat) (bus_in : Nat → Nat) (res_pin_in : Bool)
    (pending : List (List UsbEvent)) : World :=
  { state :=
      { unlocked := false, cmd_valid := false, header_valid := false, cmd := 0
        header := { len := 0, bytes := List.replicate 16 0 }
        cart_mode := 0
        tx_read_slice := { ptr := { reg := .null, off := 0 }, len := 0 }
        tx_write_slice := { ptr := { reg := .null, off := 0 }, len := 0 }
        params := { b0 := 0, b1 := 0, b2 := 0, b3 := 0, b4 := 0 } }
    flash_sequence := { len := 0, write := List.replicate 64 0 }
    ram_after := List.replicate 192 0
    diagnostics :=
      { initial_res_voltage := 0, initial_rcon := 0, initial_stkptr := 0, pid_cnt := 0,
        crc5_cnt := 0, crc16_cnt := 0, dfn8_cnt := 0, bto_cnt := 0, bts_cnt := 0, flags := 0 }
    pipe_state :=
      { device_reset := false, rx_slice_valid := false, tx_slice_valid := false,
        tx_need_zlp := false, reset_magic := 0
        rx_slice := { ptr := { half := .null, off := 0 }, len := 0 }
        tx_slice := { ptr := { half := .null, off := 0 }, len := 0 } }
    usb_state :=
      { kind := .USB_STATE_DETACHED, suspended := false, configured := false, active := false,
        line_state := false, sof := 0 }
    ep0_state :=
      { dir_out := false, dir_in := false, data_stage := false, data_rom := false,
        data_ram := false, set_addr := false, addr := 0, rom_obj := .none, rom_in_ptr := 0,
        ram_in_ptr := 0, ram_out_ptr := 0, data_len := 0 }
    bulk_in := BulkFlags.zero
    bulk_out := BulkFlags.zero
    bds :=
      { ep0_out := .zero, ep0_in := .zero, ep1_out_even := .zero, ep1_out_odd := .zero,
        ep1_in_even := .zero, ep1_in_odd := .zero, ep2_out_even := .zero, ep2_out_odd := .zero,
        ep2_in_even := .zero, ep2_in_odd := .zero }
    ep0_out_buffer := List.replicate 64 0
    ep0_in_buffer := List.replicate 64 0
    ep2_out_even_buffer := List.replicate 64 0
    ep2_out_odd_buffer := List.replicate 64 0
    ep2_in_even_buffer := List.replicate 64 0
    ep2_in_odd_buffer := List.replicate 64 0
    line_coding := [0x00, 0xc2, 0x01, 0x00, 0, 0, 8]
    PEIE := true
    peie_save := false
    reset_magic := 0
    status := .running
    FW_MAJOR_VERSION := major
    FW_MINOR_VERSION := minor
    bootloader_version := bootloader
    bus_in := bus_in
    bus_reads := 0
    res_pin_in := res_pin_in
    pending := pending
    hw_log := []
    rx_log := []
    tx_log := []
    oob := false }

/-- The world in which `main` enters its loop: zeroed memory, then
`reset_state`.  Firmware version 1.2, bootloader version `0x1234`, a data bus
that reads `0xff`, the reset pin high, no interrupt pending. -/
def World.boot : World :=
  reset_state (World.zero 1 2 0x1234 (fun _ => 0xff) true [])

/-- The world in which a packet `bytes` has been received into the even OUT
half and is exposed as the receive slice, while the odd half is armed and still
owned by the SIE. -/
def World.receive (w : World) (bytes : List Nat) : World :=
  { w with
    ep2_out_even_buffer := write_bytes w.ep2_out_even_buffer 0 bytes
    bulk_out := { w.bulk_out with cpu_odd := false, even_busy := false, odd_busy := true }
    pipe_state := { w.pipe_state with
      rx_slice_valid := true
      rx_slice := { ptr := { half := .even, off := 0 }, len := bytes.length } } }

/-- The world with the lock flag set. -/
def World.set_unlocked (w : World) (u : Bool) : World :=
  { w with state := { w.state with unlocked := u } }

/-- No command is in progress and the receive slice holds the command byte `c`
followed by the header bytes `h` (and possibly more after them). -/
def Arrived (w : World) (c : Nat) (h : List Nat) : Prop :=
  w.state.cmd_valid = false ∧ w.state.header_valid = false ∧
  w.pipe_state.rx_slice_valid = true ∧ h.length + 1 ≤ w.pipe_state.rx_slice.len ∧
  w.rx_peek (h.length + 1) = c :: h ∧ w.state.header.bytes.length = 16

/-- The state in which the header of command byte `c` has just been completed
with bytes `h`, coming from the idle state of `w`. -/
def World.with_header (w : World) (c : Nat) (h : List Nat) : World :=
  { w with state := { w.state with
      cmd := c, cmd_valid := true, header_valid := true
      header := { len := h.length, bytes := write_bytes w.state.header.bytes 0 h } } }

/-- The identity blob of the specification: marker `0x99`, the low and the
high byte of the bootloader version, firmware minor, firmware major. -/
def identity_blob (w : World) : List Nat :=
  [0x99, w.bootloader_version % 256, w.bootloader_version / 256 % 256,
   w.FW_MINOR_VERSION % 256, w.FW_MAJOR_VERSION % 256]

/-- The world in which the control endpoint has received the setup packet
given by its eight bytes. -/
def World.setup (w : World) (bmRequestType bRequest wValue wIndex wLength : Nat) : World :=
  let packet := [bmRequestType, bRequest, wValue % 256, wValue / 256, wIndex % 256,
    wIndex / 256, wLength % 256, wLength / 256]
  { w with ep0_out_buffer := write_bytes w.ep0_out_buffer 0 packet }

instance (w : World) (c : Nat) (h : List Nat) : Decidable (Arrived w c h) := by
  unfold Arrived
  infer_instance

/-- A sample world for IDENTIFY: after reset, the bulk id byte `0x1f` has
arrived and the control endpoint holds the vendor request `0xc0`/`0x41` with
`wLength = 5`. -/
def World.identify_sample : World := (World.boot.receive [0x1f]).setup 0xc0 0x41 0 0 5

/-- A sample world for GET_MODE: unlocked after reset, IDENTIFY and then
SET_MODE with mode byte `0b00000001` have been received in one packet and
executed, and the id byte `0x04` of GET_MODE has just arrived. -/
def World.get_mode_sample : World :=
  (execute_commands 8 ((World.boot.set_unlocked true).receive [0x1f, 0x03, 0x01])).receive [0x04]

/-- The ids of the commands that need the lock open, as the specification
lists them. -/
def LOCK_REQUIRED : List Nat :=
  [CMD_SET_MODE, CMD_GET_MODE, CMD_READ, CMD_READ_BURST, CMD_WRITE, CMD_WRITE_BURST,
   CMD_POLL_FLASH_DATA, CMD_SET_FLASH_WRITE_SEQUENCE, CMD_FLASH_BURST, CMD_RESET]

/-- The ids that `fetch_command` takes while the lock is closed. -/
def LOCK_FREE : List Nat := [CMD_PING, CMD_UNLOCK, CMD_DIAGNOSTICS, CMD_IDENTIFY]

/-- The lock is closed and a command that is ready to run, if any, is one that
only transmits. -/
def Locked (w : World) : Prop :=
  w.state.unlocked = false ∧
  (w.state.header_valid = true → select_operation w.state.cmd = .tx_read)

instance (w : World) : Decidable (Locked w) := by
  unfold Locked
  infer_instance

/-- Nothing of the cartridge side has happened between `w` and `r`: no
hardware operation, and the cart mode, the stored flash write sequence, the
persisted reset byte and the staged reset are the same; the processor has not
been reset. -/
def Inert (w r : World) : Prop :=
  r.hw_log = w.hw_log ∧ r.state.cart_mode = w.state.cart_mode ∧
  r.flash_sequence = w.flash_sequence ∧ r.reset_magic = w.reset_magic ∧
  r.pipe_state.device_reset = w.pipe_state.device_reset ∧
  r.pipe_state.reset_magic = w.pipe_state.reset_magic ∧
  (r.status = w.status ∨ r.status = .diverged)

/-- A PING command with id byte `c` is being received.  `L0`, `T0` and `u0` are
the receive log, the response log and the lock flag at the moment before the
id byte was read: since then the id byte and the first `header.len` header
bytes have been read, and no response byte has been written. -/
def PingAccum (L0 T0 : List Nat) (u0 : Bool) (c : Nat) (w : World) : Prop :=
  w.state.unlocked = u0 ∧ w.state.header.bytes.length = 16 ∧
  w.state.cmd_valid = true ∧ w.state.header_valid = false ∧ w.state.cmd = c ∧
  w.state.header.len ≤ 16 ∧
  w.rx_log = L0 ++ c :: read_bytes w.state.header.bytes 0 w.state.header.len ∧
  w.tx_log = T0

/-- A PING command with id byte `c` is being answered: the id byte and the
sixteen header bytes have been read, and the first `tx_read_slice.ptr.off` of
those sixteen bytes have been written as the response. -/
def PingEmit (L0 T0 : List Nat) (u0 : Bool) (c : Nat) (w : World) : Prop :=
  w.state.unlocked = u0 ∧ w.state.header.bytes.length = 16 ∧
  w.state.header_valid = true ∧ w.state.cmd = CMD_PING ∧
  w.state.tx_read_slice.ptr.reg = .header ∧
  w.state.tx_read_slice.ptr.off + w.state.tx_read_slice.len = 16 ∧
  w.rx_log = L0 ++ c :: read_bytes w.state.header.bytes 0 16 ∧
  w.tx_log = T0 ++ read_bytes w.state.header.bytes 0 w.state.tx_read_slice.ptr.off

/-- The PING command is in progress, being received or being answered. -/
def PingProgress (L0 T0 : List Nat) (u0 : Bool) (c : Nat) (w : World) : Prop :=
  PingAccum L0 T0 u0 c w ∨ PingEmit L0 T0 u0 c w

/-- The PING command has just been finished: since the moment before its id
byte was read, exactly the id byte and sixteen bytes `p` have been read,
exactly `p` has been written as the response, the lock flag is as it was, and
no command is in progress. -/
def PingDone (L0 T0 : List Nat) (u0 : Bool) (c : Nat) (w : World) : Prop :=
  w.state.unlocked = u0 ∧ w.state.cmd_valid = false ∧ w.state.header_valid = false ∧
  ∃ p : List Nat, p.length = 16 ∧ w.rx_log = L0 ++ c :: p ∧ w.tx_log = T0 ++ p

/-- A sample world for PING: after reset, with the lock closed, the id byte
`0x01` and sixteen zero bytes have arrived in one packet. -/
def World.ping_sample : World := World.boot.receive (0x01 :: List.replicate 16 0)

/-- A sample world for PING in two packets: the id byte and three zero bytes
have been received and processed, and thirteen more zero bytes have arrived. -/
def World.ping_split_sample : World :=
  (execute_commands 4 (World.boot.receive [0x01, 0, 0, 0])).receive (List.replicate 13 0)

/-! ## The USB module and the interrupt handler (`usb.c`) -/

/-- `PID_SETUP` of `enum UsbPid`. -/
def PID_SETUP : Nat := 0b1101

/-- `ADDR_EP0_OUT_BUFFER`: `ADDR_BDS` plus the forty bytes of `bds`. -/
def ADDR_EP0_OUT_BUFFER : Nat := 0x400 + 40

/-- `ADDR_EP0_IN_BUFFER`. -/
def ADDR_EP0_IN_BUFFER : Nat := ADDR_EP0_OUT_BUFFER + EP0_PACKET_SIZE

/-- `ADDR_EP1_IN_EVEN_BUFFER`. -/
def ADDR_EP1_IN_EVEN_BUFFER : Nat := ADDR_EP0_IN_BUFFER + EP0_PACKET_SIZE

/-- `ADDR_EP1_IN_ODD_BUFFER`; `EP1_PACKET_SIZE` is 8. -/
def ADDR_EP1_IN_ODD_BUFFER : Nat := ADDR_EP1_IN_EVEN_BUFFER + 8

/-- `ADDR_EP2_OUT_EVEN_BUFFER`. -/
def ADDR_EP2_OUT_EVEN_BUFFER : Nat := ADDR_EP1_IN_ODD_BUFFER + 8

/-- `ADDR_EP2_OUT_ODD_BUFFER`. -/
def ADDR_EP2_OUT_ODD_BUFFER : Nat := ADDR_EP2_OUT_EVEN_BUFFER + EP2_PACKET_SIZE

/-- `ADDR_EP2_IN_EVEN_BUFFER`. -/
def ADDR_EP2_IN_EVEN_BUFFER : Nat := ADDR_EP2_OUT_ODD_BUFFER + EP2_PACKET_SIZE

/-- `ADDR_EP2_IN_ODD_BUFFER`. -/
def ADDR_EP2_IN_ODD_BUFFER : Nat := ADDR_EP2_IN_EVEN_BUFFER + EP2_PACKET_SIZE

/-- The interrupt enable bits of register `UIE`, by their names in the device
header. -/
structure UieBits where
  URSTIE : Bool
  UERRIE : Bool
  ACTVIE : Bool
  TRNIE : Bool
  IDLEIE : Bool
  STALLIE : Bool
  SOFIE : Bool
  deriving DecidableEq, Repr

/-- The value `0x00` of `UIE`. -/
def UieBits.zero : UieBits :=
  { URSTIE := false, UERRIE := false, ACTVIE := false, TRNIE := false, IDLEIE := false,
    STALLIE := false, SOFIE := false }

/-- The error flags of register `UEIR` that `usb_isr` reads. -/
structure UeirBits where
  PIDEF : Bool
  CRC5EF : Bool
  CRC16EF : Bool
  DFN8EF : Bool
  BTOEF : Bool
  BTSEF : Bool
  deriving DecidableEq, Repr

/-- The value `0x00` of `UEIR`. -/
def UeirBits.zero : UeirBits :=
  { PIDEF := false, CRC5EF := false, CRC16EF := false, DFN8EF := false, BTOEF := false,
    BTSEF := false }

/-- One entry of the transaction FIFO behind register `USTAT`. -/
structure Ustat where
  ENDP : Nat
  DIR : Bool
  PPBI : Bool
  deriving DecidableEq, Repr

/-- The registers of the USB module that `usb.c` reads, with the static
`uie_save`.  The flag `TRNIF` is not stored: it is set exactly while the
transaction FIFO holds an entry, and clearing it drops the first entry.  The
flag `UERRIF` is not stored either: it is set exactly while an error flag of
`UEIR` is set and the error interrupts are enabled (`UEIE` is only ever
written `0x00` and `0xff`).  Registers the firmware writes and never reads
(`UCFG`, `UEPn`, `PIE3`, `PIR3`, the bit `PPBRST`) are left out. -/
structure UsbRegs where
  UADDR : Nat
  URSTIF : Bool
  ACTVIF : Bool
  IDLEIF : Bool
  STALLIF : Bool
  SOFIF : Bool
  UIE : UieBits
  uie_save : UieBits
  UEIR : UeirBits
  /-- Register `UEIE` is `0xff`. -/
  UEIE : Bool
  /-- Bit `UCONbits.USBEN`. -/
  USBEN : Bool
  /-- Bit `UCONbits.SUSPND`. -/
  SUSPND : Bool
  /-- Bit `UCONbits.PKTDIS`. -/
  PKTDIS : Bool
  /-- Input: bit `UCONbits.SE0`, the single-ended zero condition on the bus. -/
  SE0 : Bool
  /-- The completed transactions not yet taken by the firmware, oldest first. -/
  fifo : List Ustat
  deriving DecidableEq, Repr

/-- Bit `UIRbits.TRNIF`. -/
def UsbRegs.TRNIF (r : UsbRegs) : Bool := !r.fifo.isEmpty

/-- Bit `UIRbits.UERRIF`. -/
def UsbRegs.UERRIF (r : UsbRegs) : Bool :=
  r.UEIE && (r.UEIR.PIDEF || r.UEIR.CRC5EF || r.UEIR.CRC16EF || r.UEIR.DFN8EF || r.UEIR.BTOEF ||
    r.UEIR.BTSEF)

/-- The assignment `UIR = 0x00`. -/
def UsbRegs.clear_UIR (r : UsbRegs) : UsbRegs :=
  { r with
    URSTIF := false, ACTVIF := false, IDLEIF := false, STALLIF := false, SOFIF := false,
    fifo := r.fifo.tail }

/-- The memory of the firmware together with the registers of the USB
module. -/
structure Machine where
  world : World
  regs : UsbRegs

/-- The machine after a function that touches memory only. -/
def Machine.map (m : Machine) (f : World → World) : Machine := { m with world := f m.world }

/-- `usb_reset_uie`. -/
def usb_reset_uie (m : Machine) : Machine :=
  match m.world.usb_state.kind with
  | .USB_STATE_DETACHED => { m with regs := { m.regs with UIE := UieBits.zero } }
  | _ =>
    { m with regs := { m.regs with
        UIE := { UieBits.zero with IDLEIE := true, TRNIE := true, UERRIE := true, URSTIE := true } } }

/-- A buffer descriptor table with all bytes zero. -/
def BufferDescriptors.zero : BufferDescriptors :=
  { ep0_out := .zero, ep0_in := .zero, ep1_out_even := .zero, ep1_out_odd := .zero,
    ep1_in_even := .zero, ep1_in_odd := .zero, ep2_out_even := .zero, ep2_out_odd := .zero,
    ep2_in_even := .zero, ep2_in_odd := .zero }

/-- An endpoint-0 transfer state with all bytes zero. -/
def Ep0State.zero : Ep0State :=
  { dir_out := false, dir_in := false, data_stage := false, data_rom := false,
    data_ram := false, set_addr := false, addr := 0, rom_obj := .none, rom_in_ptr := 0,
    ram_in_ptr := 0, ram_out_ptr := 0, data_len := 0 }

/-- The assignment `usb_state.flags = 0x00`. -/
def UsbState.clear_flags (s : UsbState) : UsbState :=
  { s with suspended := false, configured := false, active := false, line_state := false }

/-- The assignments of `usb_reset` to the `ADR` members, after the table has
been cleared. -/
def usb_reset_adr (b : BufferDescriptors) : BufferDescriptors :=
  { b with
    ep0_out := { b.ep0_out with ADR := ADDR_EP0_OUT_BUFFER }
    ep0_in := { b.ep0_in with ADR := ADDR_EP0_IN_BUFFER }
    ep1_in_even := { b.ep1_in_even with ADR := ADDR_EP1_IN_EVEN_BUFFER }
    ep1_in_odd := { b.ep1_in_odd with ADR := ADDR_EP1_IN_ODD_BUFFER }
    ep2_out_even := { b.ep2_out_even with ADR := ADDR_EP2_OUT_EVEN_BUFFER }
    ep2_out_odd := { b.ep2_out_odd with ADR := ADDR_EP2_OUT_ODD_BUFFER }
    ep2_in_even := { b.ep2_in_even with ADR := ADDR_EP2_IN_EVEN_BUFFER }
    ep2_in_odd := { b.ep2_in_odd with ADR := ADDR_EP2_IN_ODD_BUFFER } }

/-- The eight `BD_ARM_STALL` statements of `usb_reset`. -/
def usb_reset_stall (b : BufferDescriptors) : BufferDescriptors :=
  { b with
    ep0_out := BD_ARM_STALL b.ep0_out EP0_PACKET_SIZE
    ep0_in := BD_ARM_STALL b.ep0_in 0x00
    ep1_in_even := BD_ARM_STALL b.ep1_in_even 0
    ep1_in_odd := BD_ARM_STALL b.ep1_in_odd 0
    ep2_out_even := BD_ARM_STALL b.ep2_out_even 0
    ep2_out_odd := BD_ARM_STALL b.ep2_out_odd 0
    ep2_in_even := BD_ARM_STALL b.ep2_in_even 0
    ep2_in_odd := BD_ARM_STALL b.ep2_in_odd 0 }

/-- `usb_reset`.  The loop that flushes the transactions ends with the FIFO
empty. -/
def usb_reset (m : Machine) : Machine :=
  let m := m.map fun w => { w with usb_state := w.usb_state.clear_flags }
  let m := m.map fun w => { w with ep0_state := Ep0State.zero }
  let m := m.map fun w => { w with bulk_in := BulkFlags.zero }
  let m := m.map fun w => { w with bulk_out := BulkFlags.zero }
  let m := m.map pipe_reset
  let m := { m with regs := { m.regs with UEIR := UeirBits.zero } }
  let m := { m with regs := m.regs.clear_UIR }
  let m := { m with regs := { m.regs with UEIE := false } }
  let m := { m with regs := { m.regs with UIE := UieBits.zero } }
  let m := m.map fun w => { w with bds := BufferDescriptors.zero }
  let m := { m with regs := { m.regs with UADDR := 0x00 } }
  let m := { m with regs := { m.regs with PKTDIS := false } }
  let m := { m with regs := { m.regs with fifo := [] } }
  let m := m.map fun w => { w with bds := usb_reset_adr w.bds }
  let m := m.map fun w => { w with bds := usb_reset_stall w.bds }
  let m := { m with regs := { m.regs with UEIE := true } }
  usb_reset_uie m

/-- `usb_switch_state`. -/
def usb_switch_state (m : Machine) (target : UsbStateKind) : Machine :=
  let m :=
    match target with
    | .USB_STATE_DETACHED => { m with regs := m.regs.clear_UIR }
    | .USB_STATE_POWERED => { m with regs := m.regs.clear_UIR }
    | _ => m
  let m := m.map fun w => { w with usb_state := { w.usb_state with kind := target } }
  usb_reset_uie m

/-- The assignment `UCON = 0x00`, for the bits that are modelled (`SE0` is
read-only). -/
def UsbRegs.clear_UCON (r : UsbRegs) : UsbRegs :=
  { r with USBEN := false, SUSPND := false, PKTDIS := false }

/-- `usb_detach`. -/
def usb_detach (m : Machine) : Machine :=
  let m := usb_switch_state m .USB_STATE_DETACHED
  let m := m.map fun w => { w with usb_state := w.usb_state.clear_flags }
  let m := { m with regs := { m.regs with SUSPND := false } }
  { m with regs := m.regs.clear_UCON }

/-- A `usb_state` with all bytes zero. -/
def UsbState.zero : UsbState :=
  { kind := .USB_STATE_DETACHED, suspended := false, configured := false, active := false,
    line_state := false, sof := 0 }

/-- `usb_init`. -/
def usb_init (m : Machine) : Machine :=
  let m := m.map fun w => { w with usb_state := UsbState.zero }
  let m := usb_reset m
  usb_detach m

/-- `usb_attach`; the loop ends when the module reports `USBEN` set. -/
def usb_attach (m : Machine) : Machine :=
  let m := { m with regs := { m.regs with SUSPND := false } }
  let m := { m with regs := m.regs.clear_UCON }
  let m := { m with regs := { m.regs with USBEN := true } }
  usb_switch_state m .USB_STATE_ATTACHED

/-- `usb_suspend`; the clock switch of `osc_switch_slow` is outside the
model. -/
def usb_suspend (m : Machine) : Machine :=
  let m := m.map fun w => { w with usb_state := { w.usb_state with suspended := true } }
  let m := m.map USB_SYNC_ACTIVE_FLAG
  let m := { m with regs := { m.regs with uie_save := m.regs.UIE } }
  let m := { m with regs := { m.regs with UIE := { UieBits.zero with ACTVIE := true } } }
  let m := { m with regs := { m.regs with IDLEIF := false } }
  { m with regs := { m.regs with SUSPND := true } }

/-- `usb_resume`; the clock switch of `osc_switch_fast` is outside the model,
and the loop ends when the module reports `ACTVIF` clear. -/
def usb_resume (m : Machine) : Machine :=
  let m := { m with regs := { m.regs with SUSPND := false } }
  let m := { m with regs := { m.regs with ACTVIF := false } }
  let m := { m with regs := { m.regs with UIE := m.regs.uie_save } }
  let m := m.map fun w => { w with usb_state := { w.usb_state with suspended := false } }
  m.map USB_SYNC_ACTIVE_FLAG
/-- The statement `FLIP_BIT(bd.cpu.DTS)`. -/
def BufferDescriptor.flip_DTS (bd : BufferDescriptor) : BufferDescriptor :=
  { bd with STAT := set_bit bd.STAT 6 (FLIP_BIT (get_bit bd.STAT 6)) }

/-- The member `bd.sie.PID`: bits 2 to 5 of `STAT`. -/
def BufferDescriptor.PID (bd : BufferDescriptor) : Nat := bd.STAT / 4 % 16

/-- The last statement of `ep0_in_transfer`: the `if (ep0_state.data_stage &&
ep0_state.dir_in)` with both branches. -/
def ep0_in_data (w : World) : World :=
  if w.ep0_state.data_stage && w.ep0_state.dir_in then
    let w := w.set_data_len (w.ep0_state.data_len + 65536 - w.bds.ep0_in.BC_L % 256)
    if w.bds.ep0_in.BC_L < EP0_PACKET_SIZE then
      let w := { w with ep0_state := { w.ep0_state with data_stage := false } }
      let w := { w with bds := { w.bds with ep0_out := BD_ARM_CTRL_STATUS w.bds.ep0_out EP0_PACKET_SIZE } }
      { w with bds := { w.bds with ep0_in := BD_ARM_STALL w.bds.ep0_in 0x00 } }
    else if w.ep0_state.data_len > 0 then
      match ep0_in_fill_buffer w with
      | (w, len) =>
        { w with bds := { w.bds with
            ep0_in := BD_ARM_DATA w.bds.ep0_in (get_bit w.bds.ep0_in.STAT 6) len } }
    else
      { w with bds := { w.bds with
          ep0_in := BD_ARM_DATA w.bds.ep0_in (get_bit w.bds.ep0_in.STAT 6) 0x00 } }
  else
    let w := { w with ep0_state := { w.ep0_state with dir_in := false } }
    { w with bds := { w.bds with ep0_in := BD_ARM_STALL w.bds.ep0_in 0x00 } }

/-- `ep0_in_transfer`. -/
def ep0_in_transfer (m : Machine) : Machine :=
  let m := m.map fun w => { w with bds := { w.bds with ep0_in := w.bds.ep0_in.flip_DTS } }
  let m :=
    if m.world.ep0_state.set_addr then
      let m := { m with regs := { m.regs with UADDR := m.world.ep0_state.addr } }
      m.map fun w => { w with ep0_state := { w.ep0_state with set_addr := false } }
    else m
  m.map ep0_in_data

/-- `ep0_out_process_buffer`; `ram_out_ptr` points into `line_coding`. -/
def ep0_out_process_buffer (w : World) (len : Nat) : World :=
  if w.ep0_state.data_ram then
    let p := w.ep0_state.ram_out_ptr
    { w with
      line_coding := write_bytes w.line_coding p (read_bytes w.ep0_out_buffer 0 len)
      ep0_state := { w.ep0_state with ram_out_ptr := p + len }
      oob := w.oob || decide (w.line_coding.length < p + len) }
  else w

/-- The part of `ep0_out_transfer` for a packet that is not a SETUP packet:
the `else if (ep0_state.data_stage && ep0_state.dir_out)` with its `else`. -/
def ep0_out_data (w : World) : World :=
  if w.ep0_state.data_stage && w.ep0_state.dir_out then
    let len := MIN w.ep0_state.data_len w.bds.ep0_out.BC_L % 256
    let w := ep0_out_process_buffer w len
    let w := w.set_data_len (w.ep0_state.data_len + 65536 - len)
    if w.bds.ep0_out.BC_L < EP0_PACKET_SIZE then
      let w := { w with ep0_state := { w.ep0_state with data_stage := false } }
      let w := { w with bds := { w.bds with ep0_out := BD_ARM_STALL w.bds.ep0_out EP0_PACKET_SIZE } }
      { w with bds := { w.bds with ep0_in := BD_ARM_CTRL_STATUS w.bds.ep0_in 0x00 } }
    else
      { w with bds := { w.bds with
          ep0_out := BD_ARM_DATA w.bds.ep0_out (get_bit w.bds.ep0_out.STAT 6) EP0_PACKET_SIZE } }
  else
    let w := { w with ep0_state := { w.ep0_state with dir_out := false } }
    { w with bds := { w.bds with ep0_out := BD_ARM_STALL w.bds.ep0_out EP0_PACKET_SIZE } }

/-- `ep0_out_transfer`. -/
def ep0_out_transfer (m : Machine) : Machine :=
  let m := m.map fun w => { w with bds := { w.bds with ep0_out := w.bds.ep0_out.flip_DTS } }
  if m.world.bds.ep0_out.PID = PID_SETUP then
    let m := m.map ep0_handle_setup
    { m with regs := { m.regs with PKTDIS := false } }
  else m.map ep0_out_data

/-- The body of the transaction loop of `usb_isr` after `TRNIF` has been
cleared: the `switch (stat.ENDP)`. -/
def usb_isr_transaction (m : Machine) (stat : Ustat) : Machine :=
  if stat.ENDP = 0 then
    if stat.DIR then ep0_in_transfer m else ep0_out_transfer m
  else if stat.ENDP = 2 then m.map fun w => usb_isr_ep2 w stat.DIR stat.PPBI
  else m

/-- The loop `while (UIEbits.TRNIE && UIRbits.TRNIF)` of `usb_isr`, for at
most `n` rounds; the entries of the FIFO at entry are what it sees. -/
def usb_isr_transactions : Nat → Machine → Machine
  | 0, m => m
  | n + 1, m =>
    if m.regs.UIE.TRNIE && m.regs.TRNIF then
      match m.regs.fifo with
      | [] => m
      | stat :: rest =>
        usb_isr_transactions n (usb_isr_transaction { m with regs := { m.regs with fifo := rest } } stat)
    else m

/-- An increment of a `uint8_t` counter. -/
def incr8 (n : Nat) : Nat := (n + 1) % 256

/-- The six `if (UEIRbits. ...)` statements of `usb_isr`. -/
def usb_isr_errors (e : UeirBits) (d : Diagnostics) : Diagnostics :=
  let d := if e.PIDEF then { d with flags := set_bit d.flags 0 true, pid_cnt := incr8 d.pid_cnt } else d
  let d := if e.CRC5EF then { d with flags := set_bit d.flags 1 true, crc5_cnt := incr8 d.crc5_cnt } else d
  let d := if e.CRC16EF then { d with flags := set_bit d.flags 2 true, crc16_cnt := incr8 d.crc16_cnt } else d
  let d := if e.DFN8EF then { d with flags := set_bit d.flags 3 true, dfn8_cnt := incr8 d.dfn8_cnt } else d
  let d := if e.BTOEF then { d with flags := set_bit d.flags 4 true, bto_cnt := incr8 d.bto_cnt } else d
  if e.BTSEF then { d with flags := set_bit d.flags 5 true, bts_cnt := incr8 d.bts_cnt } else d

/-- The `switch (usb_state.kind)` of `usb_isr`. -/
def usb_isr_kind (m : Machine) : Machine :=
  match m.world.usb_state.kind with
  | .USB_STATE_DETACHED => m
  | .USB_STATE_POWERED => m
  | .USB_STATE_ATTACHED => if !m.regs.SE0 then usb_switch_state m .USB_STATE_POWERED else m
  | .USB_STATE_DEFAULT => usb_isr_transactions m.regs.fifo.length m

/-- The part of `usb_isr` after the test of `usb_state.suspended`. -/
def usb_isr_awake (m : Machine) : Machine :=
  let m :=
    if m.regs.UIE.URSTIE && m.regs.URSTIF then usb_reset (usb_switch_state m .USB_STATE_DEFAULT)
    else m
  let m := usb_isr_kind m
  let m :=
    if m.regs.UIE.UERRIE && m.regs.UERRIF then
      let m := m.map fun w => { w with diagnostics := usb_isr_errors m.regs.UEIR w.diagnostics }
      { m with regs := { m.regs with UEIR := UeirBits.zero } }
    else m
  if m.regs.UIE.IDLEIE && m.regs.IDLEIF then
    usb_suspend { m with regs := { m.regs with IDLEIF := false } }
  else m

/-- `usb_isr`. -/
def usb_isr (m : Machine) : Machine :=
  if m.world.usb_state.suspended then
    if m.regs.UIE.ACTVIE && m.regs.ACTVIF then usb_isr_awake (usb_resume m) else m
  else usb_isr_awake m

/-- `isr_low`, taken when the peripheral interrupts are enabled. -/
def isr_low (m : Machine) : Machine := if m.world.PEIE then usb_isr m else m

/-! ## What the USB engine does -/

/-- A transaction on endpoint 0 the engine can complete. -/
inductive Ep0Transaction
  /-- A SETUP transaction with the eight bytes of the request. -/
  | setup (packet : List Nat)
  /-- An OUT transaction with its data. -/
  | out (data : List Nat)
  /-- An IN transaction: the armed packet has been taken by the host. -/
  | in_
  deriving DecidableEq, Repr

/-- What the engine writes into a descriptor of endpoint 0 when it hands it
back: `UOWN` clear, the token in the `PID` bits, the two high count bits
clear; bit 6, which `ep0_in_transfer` and `ep0_out_transfer` read back as the
data toggle, is left as it was. -/
def sie_stat (bd : BufferDescriptor) (pid : Nat) : Nat := (bd.STAT &&& STAT_DTS_MASK) ||| (pid <<< 2)

/-- What the engine writes into memory when it completes a transaction on
endpoint 0: the data of SETUP and OUT into `ep0_out_buffer` with the byte
count, and the descriptor handed back. -/
def sie_ep0_done (w : World) : Ep0Transaction → World
  | .setup packet =>
    let d := packet.take 8
    let w := { w with ep0_out_buffer := write_bytes w.ep0_out_buffer 0 d }
    { w with bds := { w.bds with
        ep0_out := { w.bds.ep0_out with STAT := sie_stat w.bds.ep0_out PID_SETUP, BC_L := d.length } } }
  | .out data =>
    let d := data.take EP0_PACKET_SIZE
    let w := { w with ep0_out_buffer := write_bytes w.ep0_out_buffer 0 d }
    { w with bds := { w.bds with
        ep0_out := { w.bds.ep0_out with STAT := sie_stat w.bds.ep0_out PID_OUT, BC_L := d.length } } }
  | .in_ =>
    { w with bds := { w.bds with
        ep0_in := { w.bds.ep0_in with STAT := sie_stat w.bds.ep0_in PID_IN } } }

/-- The entry of the transaction FIFO for a transaction on endpoint 0. -/
def Ep0Transaction.ustat : Ep0Transaction → Ustat
  | .setup _ => { ENDP := 0, DIR := false, PPBI := false }
  | .out _ => { ENDP := 0, DIR := false, PPBI := false }
  | .in_ => { ENDP := 0, DIR := true, PPBI := false }

/-- The engine completes a transaction on endpoint 0: it writes memory, enters
the transaction in the FIFO, and for SETUP sets `PKTDIS`. -/
def sie_ep0 (m : Machine) (t : Ep0Transaction) : Machine :=
  let m := m.map fun w => sie_ep0_done w t
  { m with regs := { m.regs with
      PKTDIS := m.regs.PKTDIS || (match t with | .setup _ => true | _ => false)
      fifo := m.regs.fifo ++ [t.ustat] } }

/-- The engine completes a bulk transaction: its part of `usb_event`, and the
entry in the FIFO. -/
def sie_bulk (m : Machine) (e : UsbEvent) : Machine :=
  let m := m.map fun w => sie_complete w e
  match e with
  | .ep2_out ppbi _ =>
    { m with regs := { m.regs with fifo := m.regs.fifo ++ [{ ENDP := 2, DIR := false, PPBI := ppbi }] } }
  | .ep2_in ppbi =>
    { m with regs := { m.regs with fifo := m.regs.fifo ++ [{ ENDP := 2, DIR := true, PPBI := ppbi }] } }

/-! ## The main loop (`main.c`) -/

/-- The three inner loops of the `while (true)` of `main`. -/
inductive MainLoop
  /-- `while (usb_state.suspended)`. -/
  | sleeping
  /-- `while (!usb_state.active)`. -/
  | waiting
  /-- `while (usb_state.active)`. -/
  | active
  deriving DecidableEq, Repr

/-- The body of the loop `while (!usb_state.active)` of `main`. -/
def main_wait_body (w : World) : World :=
  if w.pipe_state.device_reset then reset_device w w.pipe_state.reset_magic else w

/-- One test of a loop condition of the `while (true)` of `main`, with the
body it leads to: the loop the program is in, and the memory, before and
after.  Leaving the active loop runs `reset_state` and starts the next round
of the outer loop. -/
def main_step (fuel : Nat) (pc : MainLoop) (w : World) : MainLoop × World :=
  if w.status ≠ .running then (pc, w)
  else
    match pc with
    | .sleeping => if w.usb_state.suspended then (.sleeping, w) else (.waiting, w)
    | .waiting => if !w.usb_state.active then (.waiting, main_wait_body w) else (.active, w)
    | .active =>
      if w.usb_state.active then (.active, main_active_body fuel w) else (.sleeping, reset_state w)

/-! ## Frames and shapes used by the lemmas -/

/-- Everything the transmit path leaves alone: two worlds agree on all fields
other than `state`, `tx_log` and the internals of the pipe layer. -/
structure TxFrame (w w' : World) : Prop where
  flash_sequence : w'.flash_sequence = w.flash_sequence
  diagnostics : w'.diagnostics = w.diagnostics
  hw_log : w'.hw_log = w.hw_log
  rx_log : w'.rx_log = w.rx_log
  status : w'.status = w.status
  reset_magic : w'.reset_magic = w.reset_magic
  bus_in : w'.bus_in = w.bus_in
  bus_reads : w'.bus_reads = w.bus_reads
  res_pin_in : w'.res_pin_in = w.res_pin_in
  oob : w'.oob = w.oob
  fw_major : w'.FW_MAJOR_VERSION = w.FW_MAJOR_VERSION
  fw_minor : w'.FW_MINOR_VERSION = w.FW_MINOR_VERSION
  bootloader : w'.bootloader_version = w.bootloader_version
  usb_state : w'.usb_state = w.usb_state
  device_reset : w'.pipe_state.device_reset = w.pipe_state.device_reset
  pipe_reset_magic : w'.pipe_state.reset_magic = w.pipe_state.reset_magic

/-- Everything outside the pipe layer: two worlds agree on all fields that the
pipe functions and the bulk interrupt never write. -/
structure PipeFrame (w w' : World) extends TxFrame w w' : Prop where
  state : w'.state = w.state
  tx_log : w'.tx_log = w.tx_log

/-- Everything `fetch_command` leaves alone, whatever the command. -/
structure FetchFrame (w w' : World) : Prop where
  diagnostics : w'.diagnostics = w.diagnostics
  hw_log : w'.hw_log = w.hw_log
  status : w'.status = w.status
  reset_magic : w'.reset_magic = w.reset_magic
  bus_in : w'.bus_in = w.bus_in
  bus_reads : w'.bus_reads = w.bus_reads
  res_pin_in : w'.res_pin_in = w.res_pin_in
  fw_major : w'.FW_MAJOR_VERSION = w.FW_MAJOR_VERSION
  fw_minor : w'.FW_MINOR_VERSION = w.FW_MINOR_VERSION
  bootloader : w'.bootloader_version = w.bootloader_version
  usb_state : w'.usb_state = w.usb_state
  device_reset : w'.pipe_state.device_reset = w.pipe_state.device_reset
  pipe_reset_magic : w'.pipe_state.reset_magic = w.pipe_state.reset_magic
  tx_log : w'.tx_log = w.tx_log
  cart_mode : w'.state.cart_mode = w.state.cart_mode
  tx_slice : w'.pipe_state.tx_slice = w.pipe_state.tx_slice
  tx_slice_valid : w'.pipe_state.tx_slice_valid = w.pipe_state.tx_slice_valid
  tx_need_zlp : w'.pipe_state.tx_need_zlp = w.pipe_state.tx_need_zlp
  flash_write : w'.flash_sequence.write = w.flash_sequence.write

/-- The shape of the result of the second switch of `fetch_command`: it only
writes the flags, `cmd`, the two slices and the parameter union of `state` and
the length of the flash sequence. -/
def DispatchShape (w w' : World) : Prop :=
  w' = { w with
    state := { w.state with
      unlocked := w'.state.unlocked, cmd_valid := w'.state.cmd_valid,
      header_valid := w'.state.header_valid, cmd := w'.state.cmd,
      tx_read_slice := w'.state.tx_read_slice, tx_write_slice := w'.state.tx_write_slice,
      params := w'.state.params }
    flash_sequence := { w.flash_sequence with len := w'.flash_sequence.len } }

/-- The parts of the result of the second switch that do not hold modifier
bits. -/
def DispatchCore (w : World) :=
  (w.state.unlocked, w.state.cmd_valid, w.state.header_valid, w.state.cmd &&& CMD_MASK,
    w.state.tx_read_slice,
    w.state.tx_write_slice, w.state.params.b1, w.state.params.b2, w.state.params.b3,
    w.state.params.b4, w.flash_sequence)

/-- The value of the `k`-th bus read counted from the state `w`: what
`DATA_BUS_IN()` returns after `k` earlier reads. -/
def World.read_at (w : World) (k : Nat) : Nat := w.bus_in (w.bus_reads + k) % 256

/-- Bit 7 of a byte, the polarity bit of data polling. -/
def d7 (v : Nat) : Bool := (v &&& 0x80) != 0

/-- The world whose data bus returns the values of `l`, one per read, and
`0xff` after them. -/
def World.with_bus (w : World) (l : List Nat) : World :=
  { w with bus_in := fun i => l.getD i 0xff, bus_reads := 0 }

/-- A response `src` is being transmitted: since the response log was `T0`,
the first `k` bytes of `src` have been written, and the read slice holds the
rest. -/
def TxReadProgress (src T0 : List Nat) (w : World) : Prop :=
  ∃ k, k ≤ src.length ∧ w.state.tx_read_slice.len = src.length - k ∧
    w.load w.state.tx_read_slice.ptr (src.length - k) = src.drop k ∧
    w.tx_log = T0 ++ src.take k

/-- The IN descriptor of a half of endpoint 2. -/
def World.in_bd (w : World) (odd : Bool) : BufferDescriptor :=
  if odd then w.bds.ep2_in_odd else w.bds.ep2_in_even

/-- The OUT descriptor of a half of endpoint 2. -/
def World.out_bd (w : World) (odd : Bool) : BufferDescriptor :=
  if odd then w.bds.ep2_out_odd else w.bds.ep2_out_even

/-- The busy flag of a half. -/
def BulkFlags.busy (f : BulkFlags) (odd : Bool) : Bool :=
  if odd then f.odd_busy else f.even_busy

/-- The buffer half named by a parity bit. -/
def Half.of_odd (odd : Bool) : Half := if odd then .odd else .even

/-- The parity and toggle bits kept by the CPU side are the same in two
worlds, in both directions. -/
def SameCpuBits (w r : World) : Prop :=
  r.bulk_in.cpu_odd = w.bulk_in.cpu_odd ∧ r.bulk_in.cpu_dts = w.bulk_in.cpu_dts ∧
  r.bulk_out.cpu_odd = w.bulk_out.cpu_odd ∧ r.bulk_out.cpu_dts = w.bulk_out.cpu_dts

/-- A sample world for the transmit side: after reset the IDENTIFY command has
been received and answered, so the transmit slice holds five bytes. -/
def World.tx_sample : World := execute_commands 4 (World.boot.receive [0x1f])

/-- A sample world in which a ZLP is owed: unlocked, a READ_BURST of 64 bytes
has been answered and the main loop has flushed the full slice. -/
def World.zlp_sample : World :=
  main_active_body 8 ((World.boot.set_unlocked true).receive [0x06, 0x00, 0x10, 64, 0])

/-- A sample world for a zero-length packet: after reset a PING with header
bytes `0 .. 15` has arrived in the even half, and the completion of a
zero-length OUT packet in the odd half is waiting to be taken. -/
def World.ping_zlp_sample : World :=
  { World.boot.receive (0x01 :: List.range 16) with pending := [[.ep2_out true []]] }

/-- The five statements of the loop body of
`execute_cmd_set_flash_write_sequence` that follow the computation of `len`:
both lengths go down, `len` bytes are copied from the receive slice through
the write slice, both pointers move on. -/
def sfws_copy (w : World) (len : Nat) : World :=
  let w := { w with pipe_state := { w.pipe_state with
    rx_slice := { w.pipe_state.rx_slice with len := w.pipe_state.rx_slice.len - len } } }
  let w := { w with state := { w.state with
    tx_write_slice := { w.state.tx_write_slice with len := w.state.tx_write_slice.len - len } } }
  let w := w.tx_write_put (w.rx_peek len)
  let w := w.rx_advance len
  { w with state := { w.state with
    tx_write_slice := { w.state.tx_write_slice with ptr := w.state.tx_write_slice.ptr.add len } } }

/-- A SET_FLASH_WRITE_SEQUENCE command with record count `N` is taking in its
payload.  `L0` is the receive log just after the count byte: since then `k`
payload bytes have been received and stored, in order, at the start of the
record array. -/
def SfwsProgress (N : Nat) (L0 : List Nat) (w : World) : Prop :=
  w.state.header_valid = true ∧ w.state.cmd = CMD_SET_FLASH_WRITE_SEQUENCE ∧
  w.flash_sequence.len = N ∧ w.flash_sequence.write.length = 64 ∧
  ∃ k, k ≤ 4 * N ∧
    w.state.tx_write_slice = { ptr := { reg := .flash_write, off := k }, len := 4 * N - k } ∧
    w.rx_log = L0 ++ read_bytes w.flash_sequence.write 0 k

/-- The SET_FLASH_WRITE_SEQUENCE command with record count `N` has just been
finished: exactly `4 * N` payload bytes have been received since `L0`, they
are the first `4 * N` bytes of the record array, the stored length is `N`, and
no command is in progress. -/
def SfwsDone (N : Nat) (L0 : List Nat) (w : World) : Prop :=
  w.state.cmd_valid = false ∧ w.state.header_valid = false ∧ w.flash_sequence.len = N ∧
  ∃ payload : List Nat, payload.length = 4 * N ∧ w.rx_log = L0 ++ payload ∧
    read_bytes w.flash_sequence.write 0 (4 * N) = payload

/-- A sample world for SET_FLASH_WRITE_SEQUENCE: unlocked after reset, the
command with record count 1 has arrived, followed by the bytes `0x34`, `0x12`,
`0xab` and `0x1f`. -/
def World.sfws_sample : World :=
  (World.boot.set_unlocked true).receive [0x0a, 1, 0x34, 0x12, 0xab, 0x1f]

/-- Whether a hardware operation is a `WRITE_BYTE`. -/
def HwOp.is_write : HwOp → Bool
  | .write_byte _ _ _ _ => true
  | _ => false

/-- The bus writes of a hardware log, in order. -/
def bus_writes (log : List HwOp) : List HwOp := log.filter HwOp.is_write

/-- The bus writes the specification gives for WRITE_BURST over a payload:
byte `i` goes to address `(a + i) mod 65536` with the gating and the strobe of
the command. -/
def write_burst_spec (g : Gate) (s : Strobe) : Nat → List Nat → List HwOp
  | _, [] => []
  | a, b :: bs => .write_byte a b g s :: write_burst_spec g s ((a + 1) % 65536) bs

/-- The parameter bytes are bytes. -/
def Params.wf (p : Params) : Prop :=
  p.b1 < 256 ∧ p.b2 < 256 ∧ p.b3 < 256 ∧ p.b4 < 256

/-- The statements of the loop body of `execute_cmd_write_burst` that follow
the computation of `len`: both lengths go down, `RD` is driven high, one of
the four inner loops runs, `RD` is driven low. -/
def write_burst_chunk (w : World) (len : Nat) : World :=
  let w := { w with pipe_state := { w.pipe_state with
    rx_slice := { w.pipe_state.rx_slice with len := w.pipe_state.rx_slice.len - len } } }
  let w := w.set_params (w.state.params.set_len (w.state.params.len - len))
  let w := w.hw (.rd_pin true)
  let w := write_burst_bytes (write_gate (get_bit w.state.params.b0 0))
    (write_strobe (get_bit w.state.params.b0 1)) len w
  w.hw (.rd_pin false)

/-- The parameter bytes of a burst command after `c` more payload bytes: the
length is down by `c`, the address is up by `c` modulo 65536. -/
def Params.burst_advance (p : Params) (c : Nat) : Params :=
  (p.set_len (p.len - c)).set_addr ((p.addr + c) % 65536)

/-- The `WRITE_BYTE` the specification gives for record `j` of a stored write
sequence: address and data of the record, gated by A15, strobed on `VIN` when
the record says so and on `WR` otherwise. -/
def replay_op (seq : WriteSequence) (j : Nat) : HwOp :=
  .write_byte (seq.write.getD (SIZEOF_WRITE * j) 0 + 256 * seq.write.getD (SIZEOF_WRITE * j + 1) 0)
    (seq.write.getD (SIZEOF_WRITE * j + 2) 0) .a15
    (write_strobe (get_bit (seq.write.getD (SIZEOF_WRITE * j + 3) 0) 6))

/-- The replay of a stored write sequence: its records in order. -/
def replay_spec (seq : WriteSequence) : List HwOp := (List.range seq.len).map (replay_op seq)

/-- The records `0 .. len - 1` lie inside the record array. -/
def WriteSequence.in_bounds (seq : WriteSequence) : Prop :=
  SIZEOF_WRITE * seq.len ≤ seq.write.length

/-- The hardware operations the specification gives for one FLASH_BURST byte
`b` other than `0xff`, up to the polling: `RD` high, the stored sequence, the
byte itself at address `a` gated by A15, `RD` low. -/
def flash_byte_ops (seq : WriteSequence) (vin : Bool) (a b : Nat) : List HwOp :=
  [HwOp.rd_pin true] ++ replay_spec seq ++
    [HwOp.write_byte a b .a15 (write_strobe vin), HwOp.rd_pin false]

/-- The bus writes the specification gives for FLASH_BURST over a payload,
starting at address `a`: nothing for a byte `0xff`, the stored sequence and
then the byte for any other; the address goes up by one modulo 65536 either
way. -/
def flash_burst_spec (seq : WriteSequence) (vin : Bool) : Nat → List Nat → List HwOp
  | _, [] => []
  | a, b :: bs =>
    (if b = 0xff then [] else replay_spec seq ++ [HwOp.write_byte a b .a15 (write_strobe vin)]) ++
      flash_burst_spec seq vin ((a + 1) % 65536) bs

/-- The world after `execute_cmd_flash_burst` has taken a byte `0xff`: the
byte is consumed and the address has moved on. -/
def flash_byte_skipped (w : World) : World :=
  (w.rx_advance 1).set_params (w.state.params.set_addr ((w.state.params.addr + 1) % 65536))

/-- The statements of `execute_cmd_flash_burst` for a byte `b` other than
`0xff`, up to the polling: the byte is consumed, `RD` is driven high, the
stored sequence is replayed, the address moves on, the byte is written at the
old address, `RD` is driven low. -/
def flash_byte_written (w : World) (b : Nat) : World :=
  let v := replay_sequence ((w.rx_advance 1).hw (.rd_pin true))
  let addr := v.state.params.addr
  let v := v.set_params (v.state.params.set_addr ((addr + 1) % 65536))
  let v := v.hw (.write_byte addr b .a15 (write_strobe (get_bit v.state.params.b0 6)))
  v.hw (.rd_pin false)

/-- What `execute_cmd_flash_burst` has done to `w` when it has dealt with the
payload byte `b` and stands in `v`, polling included. -/
structure FlashByteStep (w : World) (b : Nat) (v : World) : Prop where
  rx_log : v.rx_log = w.rx_log ++ [b]
  state : v.state = { w.state with
    params := w.state.params.set_addr ((w.state.params.addr + 1) % 65536) }
  flash_sequence : v.flash_sequence = w.flash_sequence
  tx_log : v.tx_log = w.tx_log
  bus_in : v.bus_in = w.bus_in
  oob : w.flash_sequence.in_bounds → v.oob = w.oob
  peek : ∀ n, v.rx_peek n = (w.rx_advance 1).rx_peek n
  writes : w.flash_sequence.in_bounds → bus_writes v.hw_log = bus_writes w.hw_log ++
    flash_burst_spec w.flash_sequence (get_bit w.state.params.b0 6) w.state.params.addr [b]
  status : v.status = .running → w.status = .running
  skipped : b = 0xff → v.hw_log = w.hw_log ∧ v.bus_reads = w.bus_reads ∧ v.status = w.status

/-- What the inner loop of `execute_cmd_flash_burst`, asked for `n` bytes in
`w`, has done when it stands in `r` having consumed the bytes `l`. -/
structure FlashBytesRun (w : World) (n : Nat) (r : World) (l : List Nat) : Prop where
  length_le : l.length ≤ n
  in_order : l = (w.rx_peek n).take l.length
  rx_log : r.rx_log = w.rx_log ++ l
  writes : w.flash_sequence.in_bounds → bus_writes r.hw_log = bus_writes w.hw_log ++
    flash_burst_spec w.flash_sequence (get_bit w.state.params.b0 6) w.state.params.addr l
  state : r.state = { w.state with
    params := w.state.params.set_addr ((w.state.params.addr + l.length) % 65536) }
  flash_sequence : r.flash_sequence = w.flash_sequence
  tx_log : r.tx_log = w.tx_log
  bus_in : r.bus_in = w.bus_in
  oob : w.flash_sequence.in_bounds → r.oob = w.oob
  status : r.status = .running → l.length = n ∧ w.status = .running
  skipped : (∀ b ∈ l, b = 0xff) →
    r.hw_log = w.hw_log ∧ r.bus_reads = w.bus_reads ∧ r.status = w.status ∧ l.length = n

/-- What the loop of `execute_cmd_flash_burst`, started in `w`, has done when
it stands in `v` having consumed the payload bytes `l`. -/
structure FlashLoopRun (w v : World) (l : List Nat) : Prop where
  length_le : l.length ≤ w.state.params.len
  rx_log : v.rx_log = w.rx_log ++ l
  writes : w.flash_sequence.in_bounds → bus_writes v.hw_log = bus_writes w.hw_log ++
    flash_burst_spec w.flash_sequence (get_bit w.state.params.b0 6) w.state.params.addr l
  flash_sequence : v.flash_sequence = w.flash_sequence
  tx_log : v.tx_log = w.tx_log
  bus_in : v.bus_in = w.bus_in
  oob : w.flash_sequence.in_bounds → v.oob = w.oob
  frame : { v.state with params := w.state.params } = w.state
  addr : v.state.params.addr = (w.state.params.addr + l.length) % 65536
  b0 : v.state.params.b0 = w.state.params.b0
  wf : v.state.params.wf
  params : v.status = .running → v.state.params = w.state.params.burst_advance l.length
  status : v.status = .running → w.status = .running
  skipped : (∀ b ∈ l, b = 0xff) →
    v.hw_log = w.hw_log ∧ v.bus_reads = w.bus_reads ∧ v.status = w.status ∧
      v.state.params = w.state.params.burst_advance l.length

/-- The two statements of the loop body of `execute_cmd_flash_burst` that
follow the computation of `len`: both lengths go down. -/
def flash_chunk_start (w : World) (len : Nat) : World :=
  let w := { w with pipe_state := { w.pipe_state with
    rx_slice := { w.pipe_state.rx_slice with len := w.pipe_state.rx_slice.len - len } } }
  w.set_params (w.state.params.set_len (w.state.params.len - len))

/-- A burst command in progress: `r` is reached from `w` by calls of the
command function `f`, with any fuel, and by steps in between that leave
everything outside the pipe layer alone (the pipe functions of the main loop
and the bulk interrupt). -/
inductive BurstCalls (f : Nat → World → World × Bool) : World → World → Prop
  | here (w : World) : BurstCalls f w w
  | call (fuel : Nat) {w r : World} : BurstCalls f (f fuel w).1 r → BurstCalls f w r
  | pipe {w v r : World} : PipeFrame w v → BurstCalls f v r → BurstCalls f w r

instance (p : Params) : Decidable p.wf := by
  unfold Params.wf; infer_instance

instance (seq : WriteSequence) : Decidable seq.in_bounds := by
  unfold WriteSequence.in_bounds; infer_instance

/-- WRITE_BURST of two bytes at `0xffff` whose header and payload came in one
packet; the header has been fetched. -/
def World.wb_whole : World :=
  fetch_command ((World.boot.set_unlocked true).receive [0x08, 0xff, 0xff, 2, 0, 0x11, 0x22])

/-- The same command with the last payload byte in a packet of its own, which
the host sends only after the firmware has asked once more in vain. -/
def World.wb_split : World :=
  let w := (World.boot.set_unlocked true).receive [0x08, 0xff, 0xff, 2, 0, 0x11]
  fetch_command { w with pending := [[], [.ep2_out true [0x22]]] }

/-- An unlocked device with a stored write sequence of one record (address
`0x0aaa`, data `0xa0`, strobed on `VIN`) and a cartridge that answers `0x80`
twice. -/
def World.flash_base : World :=
  let w := (World.boot.set_unlocked true).with_bus [0x80, 0x80]
  let seq : WriteSequence :=
    { len := 1, write := write_bytes w.flash_sequence.write 0 [0xaa, 0x0a, 0xa0, 0x40] }
  { w with flash_sequence := seq }

/-- FLASH_BURST of the bytes `0xff 0x80` at `0xffff` whose header and payload
came in one packet; the header has been fetched. -/
def World.fb_whole : World :=
  fetch_command (World.flash_base.receive [0x0b, 0xff, 0xff, 2, 0, 0xff, 0x80])

/-- The same command with the last payload byte in a packet of its own, which
the host sends only after the firmware has asked once more in vain. -/
def World.fb_split : World :=
  let w := World.flash_base.receive [0x0b, 0xff, 0xff, 2, 0, 0xff]
  fetch_command { w with pending := [[], [.ep2_out true [0x80]]] }

/-- FLASH_BURST with start address `a` and length `L` in progress over a
payload of bytes `0xff`: `k` of them have been consumed since `L0`, the
address and the remaining length have moved accordingly, no hardware
operation has been issued and no bus value consumed, and of the two response
bytes `m` have gone out since `T0`, none before the payload is complete. -/
def FlashFfProgress (a L : Nat) (T0 : List Nat) (H0 : List HwOp) (B0 : Nat) (L0 : List Nat)
    (w : World) : Prop :=
  w.state.header_valid = true ∧ w.state.cmd = CMD_FLASH_BURST ∧ w.state.params.wf ∧
  w.hw_log = H0 ∧ w.bus_reads = B0 ∧
  ∃ k m, k ≤ L ∧ w.state.params.addr = (a + k) % 65536 ∧ w.state.params.len = L - k ∧
    w.rx_log = L0 ++ List.replicate k 0xff ∧ m ≤ 2 ∧ (k < L → m = 0) ∧
    w.state.tx_read_slice = { ptr := { reg := .params, off := 3 + m }, len := 2 - m } ∧
    w.tx_log = T0 ++ List.replicate m 0

/-- FLASH_BURST with start address `a` and length `L` over a payload of `L`
bytes `0xff` has just been finished: no hardware operation has been issued
and no bus value consumed, the address is `(a + L) mod 65536`, the remaining
length is zero, the response was the two bytes `0x00 0x00`, and no command is
in progress. -/
def FlashFfDone (a L : Nat) (T0 : List Nat) (H0 : List HwOp) (B0 : Nat) (L0 : List Nat)
    (w : World) : Prop :=
  w.state.cmd_valid = false ∧ w.state.header_valid = false ∧ w.hw_log = H0 ∧ w.bus_reads = B0 ∧
  w.state.params.addr = (a + L) % 65536 ∧ w.state.params.len = 0 ∧
  w.rx_log = L0 ++ List.replicate L 0xff ∧ w.tx_log = T0 ++ [0, 0]

/-- An unlocked device holding a transmit slice, with a stored write sequence
of one record, that has received FLASH_BURST at `0xfffe` of three bytes
`0xff` in one packet. -/
def World.ff_sample : World :=
  (pipe_tx_acquire World.flash_base).receive [0x0b, 0xfe, 0xff, 3, 0, 0xff, 0xff, 0xff]

/-- The flag `usb_state.active` holds the value `USB_SYNC_ACTIVE_FLAG`
computes from the four contributing flags. -/
def ActiveSynced (w : World) : Prop :=
  w.usb_state.active = (w.usb_state.configured && !w.usb_state.suspended &&
    w.usb_state.line_state && !w.pipe_state.device_reset)

instance (w : World) : Decidable (ActiveSynced w) := by
  unfold ActiveSynced
  infer_instance

/-- The USB flags and the pending-reset flag are the same in both worlds. -/
def SameUsbFlags (w v : World) : Prop :=
  v.usb_state = w.usb_state ∧ v.pipe_state.device_reset = w.pipe_state.device_reset

/-- The first statements of `ep0_handle_setup`, up to the `switch` on the type
of the request: both descriptors taken back with toggle 1, the transfer flags
and the length cleared. -/
def ep0_setup_begin (w : World) : World :=
  let w := { w with bds := { w.bds with ep0_out := w.bds.ep0_out.set_UOWN false } }
  let w := { w with bds := { w.bds with
    ep0_out := { w.bds.ep0_out with STAT := set_bit w.bds.ep0_out.STAT 6 true } } }
  let w := { w with bds := { w.bds with ep0_in := w.bds.ep0_in.set_UOWN false } }
  let w := { w with bds := { w.bds with
    ep0_in := { w.bds.ep0_in with STAT := set_bit w.bds.ep0_in.STAT 6 true } } }
  let w := w.set_tx_statf TX_STATF_NONE
  w.set_data_len 0

/-- The `switch` of `ep0_handle_setup` on the type bits of `bmRequestType`. -/
def ep0_setup_request (w : World) : World :=
  if w.ep0_setup.bmRequestType &&& 0b01100000 = 0b00000000 then ep0_standard_request w
  else if w.ep0_setup.bmRequestType &&& 0b01100000 = 0b00100000 ∧ w.usb_state.configured = true then
    ep0_class_request w
  else if w.ep0_setup.bmRequestType &&& 0b01100000 = 0b01000000 then ep0_vendor_request w
  else w

/-- The last statement of `ep0_handle_setup`: the descriptors are armed for
what the request has left in the transfer flags. -/
def ep0_setup_arm (w : World) : World :=
  if w.ep0_state.dir_in && w.ep0_state.data_stage then
    let w := w.set_data_len (MIN w.ep0_state.data_len w.ep0_setup.wLength)
    match ep0_in_fill_buffer w with
    | (w, len) =>
      { w with bds := { w.bds with
          ep0_in := BD_ARM_DATA w.bds.ep0_in (get_bit w.bds.ep0_in.STAT 6) len } }
  else if w.ep0_state.dir_out then
    if w.ep0_state.data_stage then
      { w with bds := { w.bds with
          ep0_out := BD_ARM_DATA w.bds.ep0_out (get_bit w.bds.ep0_out.STAT 6) EP0_PACKET_SIZE } }
    else
      let w := { w with bds := { w.bds with ep0_out := BD_ARM_STALL w.bds.ep0_out EP0_PACKET_SIZE } }
      { w with bds := { w.bds with ep0_in := BD_ARM_CTRL_STATUS w.bds.ep0_in 0x00 } }
  else ep0_stall w

/-- The control requests of section 4.1 of the specification. -/
inductive Ep0Request
  | get_status
  | get_descriptor (obj : RomObject)
  | set_address
  | get_configuration
  | set_configuration (value : Nat)
  | get_interface
  | set_interface
  | send_encapsulated_command
  | get_encapsulated_response
  | set_line_coding
  | get_line_coding
  | set_control_line_state
  | vendor_reset
  | vendor_identify
  deriving DecidableEq, Repr

/-- Spec side: the descriptor a GET_DESCRIPTOR request names with the type in
the high byte and the index in the low byte of `wValue`: device and
configuration with index 0 only, strings with the indices 0, 1 and 2. -/
def descriptor_spec (wValue : Nat) : Option RomObject :=
  if wValue / 256 % 256 = USB_DESCRIPTOR_DEVICE ∧ wValue % 256 = 0 then some .DEVICE_DESCRIPTOR
  else if wValue / 256 % 256 = USB_DESCRIPTOR_CONFIGURATION ∧ wValue % 256 = 0 then
    some .CONFIG_DESCRIPTOR
  else if wValue / 256 % 256 = USB_DESCRIPTOR_STRING ∧ wValue % 256 = 0 then
    some .STRING_DESCRIPTOR0
  else if wValue / 256 % 256 = USB_DESCRIPTOR_STRING ∧ wValue % 256 = 1 then
    some .STRING_DESCRIPTOR1
  else if wValue / 256 % 256 = USB_DESCRIPTOR_STRING ∧ wValue % 256 = 2 then
    some .STRING_DESCRIPTOR2
  else none

/-- Spec side: the request of section 4.1 that a SETUP packet matches, if any.
The dispatch is first by the type bits of `bmRequestType` (standard, class,
vendor), then by the request code; each request is served for one direction
and recipient only, class requests only once configured and for interface 0,
the interface requests only once configured and for the interfaces 0 and
1. -/
def ep0_request_spec (s : UsbSetupPacket) (configured : Bool) : Option Ep0Request :=
  if s.bmRequestType &&& 0b01100000 = 0b00000000 then
    if s.bRequest = GET_STATUS ∧ s.bmRequestType = 0x80 then some .get_status
    else if s.bRequest = GET_DESCRIPTOR ∧ s.bmRequestType = 0x80 then
      (descriptor_spec s.wValue).map .get_descriptor
    else if s.bRequest = SET_ADDRESS ∧ s.bmRequestType = 0x00 then some .set_address
    else if s.bRequest = GET_CONFIGURATION ∧ s.bmRequestType = 0x80 then some .get_configuration
    else if s.bRequest = SET_CONFIGURATION ∧ s.bmRequestType = 0x00 ∧
        (s.wValue = 0 ∨ s.wValue = 1) then some (.set_configuration s.wValue)
    else if s.bRequest = GET_INTERFACE ∧ s.bmRequestType = 0x81 ∧ configured = true ∧
        (s.wIndex = 0 ∨ s.wIndex = 1) then some .get_interface
    else if s.bRequest = SET_INTERFACE ∧ s.bmRequestType = 0x01 ∧ configured = true ∧
        (s.wIndex = 0 ∨ s.wIndex = 1) ∧ s.wValue = 0 then some .set_interface
    else none
  else if s.bmRequestType &&& 0b01100000 = 0b00100000 then
    if configured = true ∧ s.wIndex = 0 then
      if s.bRequest = CDC_SEND_ENCAPSULATED_COMMAND ∧ s.bmRequestType = 0x21 then
        some .send_encapsulated_command
      else if s.bRequest = CDC_GET_ENCAPSULATED_RESPONSE ∧ s.bmRequestType = 0xa1 then
        some .get_encapsulated_response
      else if s.bRequest = CDC_SET_LINE_CODING ∧ s.bmRequestType = 0x21 then some .set_line_coding
      else if s.bRequest = CDC_GET_LINE_CODING ∧ s.bmRequestType = 0xa1 then some .get_line_coding
      else if s.bRequest = CDC_SET_CONTROL_LINE_STATE ∧ s.bmRequestType = 0x21 then
        some .set_control_line_state
      else none
    else none
  else if s.bmRequestType &&& 0b01100000 = 0b01000000 then
    if s.bRequest = VENDOR_RESET ∧ s.bmRequestType = 0x40 then some .vendor_reset
    else if s.bRequest = VENDOR_IDENTIFY ∧ s.bmRequestType = 0xc0 then some .vendor_identify
    else none
  else none

/-- The transfer flags of a request: its direction, whether it has a data
stage, where the data comes from or goes to, and whether an address is
pending. -/
def Ep0Request.tx_statf : Ep0Request → Nat
  | .get_status => TX_STATF_DATA_STAGE ||| TX_STATF_DIR_IN
  | .get_descriptor _ => TX_STATF_DIR_IN ||| TX_STATF_DATA_STAGE ||| TX_STATF_DATA_ROM
  | .set_address => TX_STATF_SET_ADDR ||| TX_STATF_DIR_OUT
  | .get_configuration => TX_STATF_DATA_STAGE ||| TX_STATF_DIR_IN
  | .set_configuration _ => TX_STATF_DIR_OUT
  | .get_interface => TX_STATF_DATA_STAGE ||| TX_STATF_DIR_IN
  | .set_interface => TX_STATF_DIR_OUT
  | .send_encapsulated_command => TX_STATF_DIR_OUT
  | .get_encapsulated_response => TX_STATF_DIR_IN ||| TX_STATF_DATA_STAGE
  | .set_line_coding => TX_STATF_DIR_OUT ||| TX_STATF_DATA_STAGE ||| TX_STATF_DATA_RAM
  | .get_line_coding => TX_STATF_DIR_IN ||| TX_STATF_DATA_STAGE ||| TX_STATF_DATA_RAM
  | .set_control_line_state => TX_STATF_DIR_OUT
  | .vendor_reset => TX_STATF_DIR_OUT
  | .vendor_identify => TX_STATF_DIR_IN ||| TX_STATF_DATA_STAGE

/-- Spec side: what a request of section 4.1 does in the `switch` of
`ep0_handle_setup`, given the memory at that point: the data it prepares, the
state it changes, and its transfer flags. -/
def Ep0Request.effect (r : Ep0Request) (w : World) : World :=
  match r with
  | .get_status =>
    (((w.set_data_len 2).set_ep0_in 0 0x00).set_ep0_in 1 0x00).set_tx_statf r.tx_statf
  | .get_descriptor obj =>
    (w.set_rom_source obj
      (if obj = .CONFIG_DESCRIPTOR then 75 else (w.rom obj).getD 0 0)).set_tx_statf r.tx_statf
  | .set_address =>
    { w with ep0_state := { w.ep0_state with addr := w.ep0_setup.wValue % 256 }
      }.set_tx_statf r.tx_statf
  | .get_configuration =>
    ((w.set_data_len 1).set_ep0_in 0
      (if w.usb_state.configured then 1 else 0)).set_tx_statf r.tx_statf
  | .set_configuration value =>
    (if value = 0 then usb_config_deactivate w else usb_config_activate w).set_tx_statf r.tx_statf
  | .get_interface => ((w.set_data_len 1).set_ep0_in 0 0x00).set_tx_statf r.tx_statf
  | .set_interface => w.set_tx_statf r.tx_statf
  | .send_encapsulated_command => w.set_tx_statf r.tx_statf
  | .get_encapsulated_response => (w.set_data_len 0).set_tx_statf r.tx_statf
  | .set_line_coding =>
    { w.set_data_len SIZEOF_LINE_CODING with
      ep0_state := { (w.set_data_len SIZEOF_LINE_CODING).ep0_state with ram_out_ptr := 0 }
      }.set_tx_statf r.tx_statf
  | .get_line_coding =>
    { w.set_data_len SIZEOF_LINE_CODING with
      ep0_state := { (w.set_data_len SIZEOF_LINE_CODING).ep0_state with ram_in_ptr := 0 }
      }.set_tx_statf r.tx_statf
  | .set_control_line_state =>
    (USB_SYNC_ACTIVE_FLAG { w with usb_state := { w.usb_state with
      line_state := (w.ep0_setup.wValue &&& (1 <<< 0)) != 0 } }).set_tx_statf r.tx_statf
  | .vendor_reset =>
    (USB_SYNC_ACTIVE_FLAG { w with pipe_state := { w.pipe_state with
      reset_magic := w.ep0_setup.wValue % 256, device_reset := true } }).set_tx_statf r.tx_statf
  | .vendor_identify =>
    (((((w.set_data_len 5).set_ep0_in 0 0x99).set_ep0_in 1 w.bootloader_version).set_ep0_in 2
      (w.bootloader_version >>> 8)).set_ep0_in 3 w.FW_MINOR_VERSION).set_ep0_in 4
        w.FW_MAJOR_VERSION |>.set_tx_statf r.tx_statf

/-- Spec side: the memory after the `switch` of `ep0_handle_setup` for a packet
that matches the request `o`, or no request. -/
def ep0_effect (w : World) : Option Ep0Request → World
  | none => w
  | some r => r.effect w

/-- The registers of the USB module after a power-on reset, with nothing on
the bus. -/
def UsbRegs.zero : UsbRegs :=
  { UADDR := 0, URSTIF := false, ACTVIF := false, IDLEIF := false, STALLIF := false,
    SOFIF := false, UIE := UieBits.zero, uie_save := UieBits.zero, UEIR := UeirBits.zero,
    UEIE := false, USBEN := false, SUSPND := false, PKTDIS := false, SE0 := false, fifo := [] }

/-- The engine sees a reset on the bus and sets `URSTIF`. -/
def sie_bus_reset (m : Machine) : Machine := { m with regs := { m.regs with URSTIF := true } }

/-- The engine sees the bus idle for 3 ms and sets `IDLEIF`. -/
def sie_idle (m : Machine) : Machine := { m with regs := { m.regs with IDLEIF := true } }

/-- The engine sees activity on the bus and sets `ACTVIF`. -/
def sie_activity (m : Machine) : Machine := { m with regs := { m.regs with ACTVIF := true } }

/-- The machine in which `main` enters its loop: `usb_init` on zeroed memory,
`reset_state`, `usb_attach`.  Firmware version 1.2, bootloader version
`0x1234`, a data bus that reads `0xff`, the reset pin high. -/
def Machine.boot : Machine :=
  usb_attach ((usb_init
    { world := World.zero 1 2 0x1234 (fun _ => 0xff) true [], regs := UsbRegs.zero }).map reset_state)

/-- A sample machine in the DEFAULT state: after boot the handler has seen the
bus powered, and then a bus reset. -/
def Machine.default_sample : Machine := usb_isr (sie_bus_reset (usb_isr Machine.boot))

/-- A control transfer without data stage: the SETUP transaction with the
eight bytes `packet`, the handler, the IN transaction of the status stage, the
handler. -/
def Machine.control_out (m : Machine) (packet : List Nat) : Machine :=
  usb_isr (sie_ep0 (usb_isr (sie_ep0 m (.setup packet))) .in_)

/-- A sample machine with the device configured: SET_ADDRESS to `0x2a` and
SET_CONFIGURATION to 1 on the sample machine in the DEFAULT state. -/
def Machine.configured_sample : Machine :=
  (Machine.default_sample.control_out [0x00, 5, 0x2a, 0, 0, 0, 0, 0]).control_out
    [0x00, 9, 1, 0, 0, 0, 0, 0]

/-- A sample machine with the bulk pipe active: SET_CONTROL_LINE_STATE with
bit 0 set on the configured sample machine. -/
def Machine.active_sample : Machine :=
  Machine.configured_sample.control_out [0x21, 0x22, 1, 0, 0, 0, 0, 0]

/-- The buffer descriptor table `usb_reset` leaves: the eight descriptors in
use stalled and pointing at their buffers, the two placeholders for the OUT
direction of endpoint 1 zero. -/
def BufferDescriptors.reset : BufferDescriptors := usb_reset_stall (usb_reset_adr BufferDescriptors.zero)

/-- The memory `usb_reset` leaves. -/
def World.usb_reset (w : World) : World :=
  { w with
    usb_state := w.usb_state.clear_flags
    ep0_state := Ep0State.zero
    bulk_in := BulkFlags.zero
    bulk_out := BulkFlags.zero
    pipe_state := { w.pipe_state with
      device_reset := false, rx_slice_valid := false, tx_slice_valid := false,
      tx_need_zlp := false }
    bds := BufferDescriptors.reset }

/-- The registers `usb_reset` leaves, apart from `UIE`. -/
def UsbRegs.usb_reset (r : UsbRegs) : UsbRegs :=
  { r with
    UADDR := 0, URSTIF := false, ACTVIF := false, IDLEIF := false, STALLIF := false,
    SOFIF := false, UEIR := UeirBits.zero, UEIE := true, PKTDIS := false, fifo := [] }

/-- The handler `usb_isr` gets to its test of the reset flag with the flag set
and its interrupt enabled: the device is not suspended, or it is suspended and
bus activity makes the handler resume, which restores the saved enable
bits. -/
def ResetHandled (m : Machine) : Prop :=
  m.regs.URSTIF = true ∧
  ((m.world.usb_state.suspended = false ∧ m.regs.UIE.URSTIE = true) ∨
    (m.world.usb_state.suspended = true ∧ m.regs.UIE.ACTVIE = true ∧ m.regs.ACTVIF = true ∧
      m.regs.uie_save.URSTIE = true))

instance (m : Machine) : Decidable (ResetHandled m) := by
  unfold ResetHandled
  infer_instance

/-- A descriptor is in the stalled state: owned by the engine (`UOWN`) with
`BSTALL` set. -/
def BufferDescriptor.stalled (bd : BufferDescriptor) : Bool := get_bit bd.STAT 7 && get_bit bd.STAT 2

/-- The memory with `usb_state.kind` assigned. -/
def World.set_kind (w : World) (k : UsbStateKind) : World :=
  { w with usb_state := { w.usb_state with kind := k } }

/-- The active sample machine with the lock open. -/
def Machine.unlocked_sample : Machine := Machine.active_sample.map fun w => w.set_unlocked true

/-- What the USB layer never touches: the command state, the stored flash
write sequence, the persisted reset byte, the run status and the logs of the
bus and of the bulk bytes. -/
structure UsbFrame (w v : World) : Prop where
  state : v.state = w.state
  flash_sequence : v.flash_sequence = w.flash_sequence
  status : v.status = w.status
  reset_magic : v.reset_magic = w.reset_magic
  hw_log : v.hw_log = w.hw_log
  rx_log : v.rx_log = w.rx_log
  tx_log : v.tx_log = w.tx_log
  bus_reads : v.bus_reads = w.bus_reads

/-- The sample world of the bulk command RESET: the active sample machine with
the lock open, in which the packet `1e 5a` (RESET with magic byte `0x5a`) has
arrived. -/
def World.reset_sample : World := Machine.unlocked_sample.world.receive [0x1e, 0x5a]

/-- The sample world of the vendor request RESET: the active sample machine
has received the SETUP packet `40 40 5a 00 00 00 00 00`. -/
def World.vendor_reset_sample : World :=
  (sie_ep0 Machine.active_sample (.setup [0x40, 0x40, 0x5a, 0, 0, 0, 0, 0])).world

/-- Endpoint 0 is stalled in both directions and the control-transfer flags are
cleared. -/
def Ep0Stalled (w : World) : Prop :=
  w.bds.ep0_out.stalled = true ∧ w.bds.ep0_in.stalled = true ∧
  w.ep0_state.dir_out = false ∧ w.ep0_state.dir_in = false ∧
  w.ep0_state.data_stage = false ∧ w.ep0_state.data_rom = false ∧
  w.ep0_state.data_ram = false ∧ w.ep0_state.set_addr = false

instance (w : World) : Decidable (Ep0Stalled w) := by
  unfold Ep0Stalled
  infer_instance

/-- The memory of a machine after the engine has received a SETUP packet. -/
def Machine.setup_world (m : Machine) (packet : List Nat) : World :=
  (sie_ep0 m (.setup packet)).world

/-- The sample machine in the DEFAULT state after the engine has received the
SETUP packet of SET_ADDRESS with address `0x2a`. -/
def Machine.set_address_sample : Machine :=
  sie_ep0 Machine.default_sample (.setup [0x00, 5, 0x2a, 0, 0, 0, 0, 0])

/-- A descriptor is armed for data: owned by the engine and not stalled. -/
def BufferDescriptor.armed (bd : BufferDescriptor) : Bool :=
  get_bit bd.STAT 7 && !get_bit bd.STAT 2

/-- The first statements of `ep0_in_transfer` as they act on memory: the toggle
of the IN descriptor is flipped and no address is pending any more. -/
def ep0_in_begin (w : World) : World :=
  { w with
    bds := { w.bds with ep0_in := w.bds.ep0_in.flip_DTS }
    ep0_state := { w.ep0_state with set_addr := false } }

/-- One completed IN transaction on endpoint 0: the engine hands the descriptor
back and `ep0_in_transfer` runs. -/
def ep0_in_complete (m : Machine) : Machine :=
  ep0_in_transfer (m.map fun w => sie_ep0_done w .in_)

/-- The packets the host reads from endpoint 0 in at most `n` IN transactions:
while the IN descriptor is armed for data, the packet it holds, then the
packets after its completion. -/
def ep0_in_packets : Nat → Machine → List (List Nat)
  | 0, _ => []
  | n + 1, m =>
    if m.world.bds.ep0_in.armed then
      m.world.ep0_in_packet :: ep0_in_packets n (ep0_in_complete m)
    else []

/-- The bytes `R` are what `ep0_in_fill_buffer` copies next: the ROM table or
the line coding record read from the current pointer on. -/
def SourceReads (e : Ep0State) (rom : RomObject → List Nat) (line_coding : List Nat)
    (R : List Nat) : Prop :=
  (e.data_rom = true ∧ read_bytes (rom e.rom_obj) e.rom_in_ptr R.length = R) ∨
  (e.data_rom = false ∧ e.data_ram = true ∧ read_bytes line_coding e.ram_in_ptr R.length = R)

/-- A control IN data stage with the bytes `S` still to be sent, the packet the
IN descriptor is armed with included: the descriptor holds the first
`min |S| 64` of them, `data_len` counts them, and what lies beyond the packet
is read from the source. -/
structure InStage (w : World) (S : List Nat) : Prop where
  data_stage : w.ep0_state.data_stage = true
  dir_in : w.ep0_state.dir_in = true
  armed : w.bds.ep0_in.armed = true
  count : w.bds.ep0_in.BC_L = min S.length 64
  packet : w.ep0_in_packet = S.take 64
  data_len : w.ep0_state.data_len = S.length
  bound : S.length < 65536
  buffer : w.ep0_in_buffer.length = 64
  rest : 64 < S.length → SourceReads w.ep0_state w.rom w.line_coding (S.drop 64)

/-- The memory before `ep0_in_fill_buffer` is called with the bytes `S` still
to be sent: `data_len` counts them, and they are read from the source, or are
in the buffer already when the transfer has no source. -/
structure Staged (v : World) (S : List Nat) : Prop where
  data_stage : v.ep0_state.data_stage = true
  dir_in : v.ep0_state.dir_in = true
  data_len : v.ep0_state.data_len = S.length
  bound : S.length < 65536
  buffer : v.ep0_in_buffer.length = 64
  source : SourceReads v.ep0_state v.rom v.line_coding S ∨
    (v.ep0_state.data_rom = false ∧ v.ep0_state.data_ram = false ∧
      read_bytes v.ep0_in_buffer 0 S.length = S ∧ S.length ≤ 64)

/-- Spec side: the data returned by a request of section 4.1 that has an IN
data stage. -/
def Ep0Request.source (r : Ep0Request) (w : World) : Option (List Nat) :=
  match r with
  | .get_status => some [0, 0]
  | .get_descriptor obj => some (w.rom obj)
  | .get_configuration => some [if w.usb_state.configured then 1 else 0]
  | .get_interface => some [0]
  | .get_encapsulated_response => some []
  | .get_line_coding => some w.line_coding
  | .vendor_identify => some (identity_blob w)
  | _ => none

/-- The sample machine in the DEFAULT state after the engine has received the
SETUP packet of GET_DESCRIPTOR for the configuration descriptor with the given
`wLength` (below 256). -/
def Machine.get_config_sample (wLength : Nat) : Machine :=
  sie_ep0 Machine.default_sample (.setup [0x80, 6, 0, 2, 0, 0, wLength, 0])

/-- The sample machine in a control IN data stage whose packet of 64 bytes has
just been sent and has used up the length: the handler has served
GET_DESCRIPTOR for the configuration descriptor with `wLength = 64`, and the
engine has completed the IN transaction. -/
def Machine.full_packet_sample : Machine :=
  (usb_isr (Machine.get_config_sample 64)).map fun w => sie_ep0_done w .in_

/-- A sample world with the peripheral interrupt enabled: the memory of the
active sample machine. -/
def World.peie_sample : World := Machine.active_sample.world

/-- What the interrupt handler leaves alone outside its error block: the
diagnostics record. -/
structure DiagFrame (w v : World) : Prop where
  diagnostics : v.diagnostics = w.diagnostics

/-- The six classes of USB errors of `struct UsbErrors`. -/
inductive UsbErrorClass
  | pid
  | crc5
  | crc16
  | dfn8
  | bto
  | bts
  deriving DecidableEq, Repr

/-- The bit of `UEIR` that reports an error of the class. -/
def UsbErrorClass.bit : UsbErrorClass → UeirBits → Bool
  | .pid, e => e.PIDEF
  | .crc5, e => e.CRC5EF
  | .crc16, e => e.CRC16EF
  | .dfn8, e => e.DFN8EF
  | .bto, e => e.BTOEF
  | .bts, e => e.BTSEF

/-- The sticky flag of the class in `diagnostics.usb_errors`. -/
def UsbErrorClass.flag : UsbErrorClass → Diagnostics → Bool
  | .pid, d => get_bit d.flags 0
  | .crc5, d => get_bit d.flags 1
  | .crc16, d => get_bit d.flags 2
  | .dfn8, d => get_bit d.flags 3
  | .bto, d => get_bit d.flags 4
  | .bts, d => get_bit d.flags 5

/-- The counter of the class in `diagnostics.usb_errors`. -/
def UsbErrorClass.count : UsbErrorClass → Diagnostics → Nat
  | .pid, d => d.pid_cnt
  | .crc5, d => d.crc5_cnt
  | .crc16, d => d.crc16_cnt
  | .dfn8, d => d.dfn8_cnt
  | .bto, d => d.bto_cnt
  | .bts, d => d.bts_cnt

/-- The part of `usb_isr` before the test of the error interrupt: the bus reset
and the `switch` on the state. -/
def usb_isr_before_errors (m : Machine) : Machine :=
  usb_isr_kind
    (if m.regs.UIE.URSTIE && m.regs.URSTIF then usb_reset (usb_switch_state m .USB_STATE_DEFAULT)
     else m)

/-- The value of `UEIR` the awake part of `usb_isr` acts on, if it finds the
error interrupt enabled and flagged. -/
def usb_isr_awake_error_bits (m : Machine) : Option UeirBits :=
  if (usb_isr_before_errors m).regs.UIE.UERRIE && (usb_isr_before_errors m).regs.UERRIF then
    some (usb_isr_before_errors m).regs.UEIR
  else none

/-- The value of `UEIR` `usb_isr` acts on, if it gets to its error block and
finds the error interrupt enabled and flagged. -/
def usb_isr_error_bits (m : Machine) : Option UeirBits :=
  if m.world.usb_state.suspended then
    if m.regs.UIE.ACTVIE && m.regs.ACTVIF then usb_isr_awake_error_bits (usb_resume m) else none
  else usb_isr_awake_error_bits m

/-- A sample machine with errors reported: the sample machine in the DEFAULT
state with a PID error and a bit stuff error in `UEIR`, and the counter of PID
errors at 255. -/
def Machine.error_sample : Machine :=
  { world := { Machine.default_sample.world with
      diagnostics := { Machine.default_sample.world.diagnostics with pid_cnt := 255 } }
    regs := { Machine.default_sample.regs with
      UEIR := { UeirBits.zero with PIDEF := true, BTSEF := true } } }

/-- The sample machine with a reset staged: the handler has served the vendor
request RESET with magic `0x5a` on the active sample machine. -/
def Machine.staged_reset_sample : Machine :=
  usb_isr (sie_ep0 Machine.active_sample (.setup [0x40, 0x40, 0x5a, 0, 0, 0, 0, 0]))

/-- One completed OUT transaction on endpoint 0 with the data `data`: the
engine stores the packet and hands the descriptor back, and `ep0_out_transfer`
runs. -/
def ep0_out_complete (m : Machine) (data : List Nat) : Machine :=
  ep0_out_transfer (m.map fun w => sie_ep0_done w (.out data))

/-- A sequence of completed OUT transactions on endpoint 0. -/
def ep0_out_packets (m : Machine) (packets : List (List Nat)) : Machine :=
  packets.foldl ep0_out_complete m

/-- The memory `ep0_out_data` runs on after an OUT transaction: the packet is
in the buffer, the byte count in the descriptor, the toggle flipped. -/
def ep0_out_begin (w : World) (data : List Nat) : World :=
  { sie_ep0_done w (.out data) with
    bds := { (sie_ep0_done w (.out data)).bds with
      ep0_out := (sie_ep0_done w (.out data)).bds.ep0_out.flip_DTS } }

/-- The bound kept during the OUT data stage of SET_LINE_CODING: the record has
its 7 bytes, and the bytes written so far together with the bytes still
expected do not exceed them. -/
structure OutBound (w : World) : Prop where
  record : w.line_coding.length = 7
  room : w.ep0_state.ram_out_ptr + w.ep0_state.data_len ≤ 7

/-- The sample machine on which the engine has received the SETUP packet of
SET_LINE_CODING: the configured sample machine. -/
def Machine.line_coding_sample : Machine :=
  sie_ep0 Machine.configured_sample (.setup [0x21, 0x20, 0, 0, 0, 0, 7, 0])

/-- A sample world for a write sequence of 17 records: unlocked, the packet
with SET_FLASH_WRITE_SEQUENCE, the count 17 and the first 62 payload bytes has
arrived, and the packet with the last 6 payload bytes follows once the firmware
has asked in vain. -/
def World.sfws_overflow_sample : World :=
  let w := (World.boot.set_unlocked true).receive ([0x0a, 17] ++ List.replicate 62 0x11)
  { w with pending := [[], [.ep2_out true (List.replicate 6 0x22)]] }

/-- The bus addresses at which a sequence of hardware operations samples the
data bus for a read: `READ_BYTE` and `READ_BURST` drive the whole address,
`READ_BURST_FAST_BYTE` drives the low byte under the high byte `h` latched by
the last `ADDRH_BUS_OUT`. -/
def read_addresses (h : Nat) : List HwOp → List Nat
  | [] => []
  | .addrh h2 :: ops => read_addresses h2 ops
  | .read_byte addr _ :: ops => addr :: read_addresses h ops
  | .read_fast addr_l :: ops => (256 * h + addr_l) :: read_addresses h ops
  | _ :: ops => read_addresses h ops

/-- A sample world for READ_BURST across a page boundary: unlocked, the packet
with the command byte `cmd` (READ_BURST with its flag bits), the start address
`0x01fe` and the length 4 has arrived. -/
def World.read_burst_sample (cmd : Nat) : World :=
  (World.boot.set_unlocked true).receive [cmd, 0xfe, 0x01, 4, 0]

/-- Ping-pong consistency of the parity and busy bits of one direction: with no
half or both halves busy the CPU side and the engine are at the same half; with
one half busy it is the half the engine is at, and the CPU side is at the other
one. -/
def in_step_bits (cpu sie even odd : Bool) : Bool :=
  if even == odd then cpu == sie else (if sie then odd else even) && (cpu == !sie)

/-- Ping-pong consistency of one direction of endpoint 2. -/
def BulkFlags.in_step (f : BulkFlags) : Bool :=
  in_step_bits f.cpu_odd f.sie_odd f.even_busy f.odd_busy

/-- A bulk completion the engine can produce: it completes the half its
ping-pong pointer is at, and only a descriptor it owns. -/
def UsbEvent.in_order (w : World) : UsbEvent → Bool
  | .ep2_out ppbi _ => (ppbi == w.bulk_out.sie_odd) && get_bit (w.out_bd ppbi).STAT 7
  | .ep2_in ppbi => (ppbi == w.bulk_in.sie_odd) && get_bit (w.in_bd ppbi).STAT 7

/-- Every completion of a group is one the engine can produce in the state it
is delivered in. -/
def events_in_order (w : World) : List UsbEvent → Bool
  | [] => true
  | e :: es => e.in_order w && events_in_order (usb_event w e) es

/-- The completions serviced before the next critical section are ones the
engine can produce. -/
def irq_in_order (w : World) : Bool :=
  if w.PEIE then
    match w.pending with
    | [] => true
    | batch :: rest => events_in_order { w with pending := rest } batch
  else true

/-- The invariant of the bulk pipe: both directions are in step, a busy flag is
set exactly while the engine owns the descriptor of the half, and a valid slice
points into the half named by `cpu_odd`, which is not busy. -/
structure PipeInv (w : World) : Prop where
  in_step : w.bulk_in.in_step = true
  out_step : w.bulk_out.in_step = true
  in_even : get_bit w.bds.ep2_in_even.STAT 7 = w.bulk_in.even_busy
  in_odd : get_bit w.bds.ep2_in_odd.STAT 7 = w.bulk_in.odd_busy
  out_even : get_bit w.bds.ep2_out_even.STAT 7 = w.bulk_out.even_busy
  out_odd : get_bit w.bds.ep2_out_odd.STAT 7 = w.bulk_out.odd_busy
  tx : w.pipe_state.tx_slice_valid = true →
    w.pipe_state.tx_slice.ptr.half = Half.of_odd w.bulk_in.cpu_odd ∧
    w.bulk_in.busy w.bulk_in.cpu_odd = false
  rx : w.pipe_state.rx_slice_valid = true →
    w.pipe_state.rx_slice.ptr.half = Half.of_odd w.bulk_out.cpu_odd ∧
    w.bulk_out.busy w.bulk_out.cpu_odd = false

/-- The statements of `pipe_tx_flush` between the entry of the critical section
and the selection of the next slice: the half named by `cpu_odd` is armed with
the bytes written so far and marked busy, and the parity and the toggle are
flipped. -/
def tx_arm (w : World) : World :=
  let len := (EP2_PACKET_SIZE + 256 - w.pipe_state.tx_slice.len % 256) % 256
  let w :=
    if w.bulk_in.cpu_odd then
      { w with
        bds := { w.bds with ep2_in_odd := BD_ARM_DATA w.bds.ep2_in_odd w.bulk_in.cpu_dts len }
        bulk_in := { w.bulk_in with odd_busy := true } }
    else
      { w with
        bds := { w.bds with ep2_in_even := BD_ARM_DATA w.bds.ep2_in_even w.bulk_in.cpu_dts len }
        bulk_in := { w.bulk_in with even_busy := true } }
  let w := { w with pipe_state := { w.pipe_state with
    tx_need_zlp := decide (len = EP2_PACKET_SIZE) } }
  let w := { w with bulk_in := { w.bulk_in with cpu_odd := FLIP_BIT w.bulk_in.cpu_odd } }
  { w with bulk_in := { w.bulk_in with cpu_dts := FLIP_BIT w.bulk_in.cpu_dts } }

/-- The slice selection that ends `pipe_tx_flush`. -/
def tx_select (w : World) : World :=
  if w.bulk_in.cpu_odd && !w.bulk_in.odd_busy then tx_take_odd w
  else if !w.bulk_in.even_busy then tx_take_even w
  else { w with pipe_state := { w.pipe_state with tx_slice_valid := false } }

/-- The slice selection that follows the re-arm in `pipe_rx_acquire`. -/
def rx_select (w : World) : World :=
  if w.bulk_out.cpu_odd && !w.bulk_out.odd_busy then rx_take_odd w
  else if !w.bulk_out.even_busy then rx_take_even w
  else { w with pipe_state := { w.pipe_state with rx_slice_valid := false } }

/-- The operations of the bulk pipe that the main loop calls. -/
inductive PipeOp
  | rx_acquire
  | tx_acquire
  | tx_flush
  deriving DecidableEq, Repr

/-- The world after one operation of the bulk pipe. -/
def PipeOp.run (w : World) : PipeOp → World
  | .rx_acquire => pipe_rx_acquire w
  | .tx_acquire => pipe_tx_acquire w
  | .tx_flush => pipe_tx_flush w

/-- An operation is called as the main loop calls it, `pipe_tx_flush` only with
a valid slice, and the completions serviced on entry of its critical section
are ones the engine can produce. -/
def PipeOp.allowed (w : World) (op : PipeOp) : Bool :=
  irq_in_order w &&
    (match op with
     | .tx_flush => w.pipe_state.tx_slice_valid
     | _ => true)

/-- Every operation of a sequence is allowed in the state it is called in. -/
def pipe_ops_allowed (w : World) : List PipeOp → Bool
  | [] => true
  | op :: ops => op.allowed w && pipe_ops_allowed (op.run w) ops

/-- The world in which the host repeats SET_CONFIGURATION while an IN packet is
waiting: on the active sample machine the even IN half has been sent and
completed, and the odd half is armed and not yet read by the host. -/
def World.stale_sample : World :=
  pipe_tx_flush (usb_event (pipe_tx_flush (pipe_tx_acquire Machine.active_sample.world))
    (.ep2_in false))

/-- The sample machine after the handler has served a second SET_CONFIGURATION
with value 1 in the world `World.stale_sample`. -/
def Machine.reconfigured_sample : Machine :=
  usb_isr (sie_ep0 { world := World.stale_sample, regs := Machine.active_sample.regs }
    (.setup [0x00, 9, 1, 0, 0, 0, 0, 0]))

/-- The sample machine on which the lock has been opened and closed again:
the packet `02` followed by the key arrives on the active sample machine and
one round of the active loop answers it; then a bus reset is handled and the
main loop leaves its active loop through `reset_state`. -/
def Machine.relocked_sample : Machine :=
  let w1 := (main_step 8 .active
    (usb_event Machine.active_sample.world (.ep2_out false (0x02 :: UNLOCK_MAGIC)))).2
  let m2 := usb_isr (sie_bus_reset { world := w1, regs := Machine.active_sample.regs })
  { m2 with world := (main_step 8 .active m2.world).2 }

/-- The world in which a zero-length OUT packet has arrived after the lock was
closed: on `Machine.relocked_sample` the host has set the address and the
configuration and raised the line state again, and the engine has completed a
packet of no bytes in the even OUT half. -/
def World.relocked_zlp_sample : World :=
  usb_event
    (((Machine.relocked_sample.control_out [0x00, 5, 0x2a, 0, 0, 0, 0, 0]).control_out
      [0x00, 9, 1, 0, 0, 0, 0, 0]).control_out [0x21, 0x22, 1, 0, 0, 0, 0, 0]).world
    (.ep2_out false [])

/-- The `WRITE_BYTE` for `flash_sequence.write[j]` as the code reads it: the
four bytes at offset `4 * j` of the memory `mem` that starts with the record
array give the address (little-endian), the data and, in bit 6 of the last
byte, the strobe; the write is gated by A15. -/
def replay_mem_op (mem : List Nat) (j : Nat) : HwOp :=
  .write_byte (mem.getD (SIZEOF_WRITE * j) 0 + 256 * mem.getD (SIZEOF_WRITE * j + 1) 0)
    (mem.getD (SIZEOF_WRITE * j + 2) 0) .a15
    (write_strobe (get_bit (mem.getD (SIZEOF_WRITE * j + 3) 0) 6))

/-- The replay of the stored write sequence: records `0 .. len - 1` in order. -/
def replay_mem_spec (len : Nat) (mem : List Nat) : List HwOp :=
  (List.range len).map (replay_mem_op mem)

/-- The hardware operations the specification gives for FLASH_BURST over a
payload, from address `a` on.  A byte `0xff` gives no operation.  Any other
byte `b` gives `RD` high, the replay of the stored sequence, the write of `b`
at the current address, `RD` low, and then the polling at that address: one
read that drives the address and `j` further reads.  The address goes up by
one modulo 65536 with every byte. -/
inductive FlashBurstTrace (len : Nat) (mem : List Nat) (vin : Bool) :
    Nat → List Nat → List HwOp → Prop
  | done (a : Nat) : FlashBurstTrace len mem vin a [] []
  | skip (a : Nat) {bs : List Nat} {ops : List HwOp} :
      FlashBurstTrace len mem vin ((a + 1) % 65536) bs ops →
      FlashBurstTrace len mem vin a (0xff :: bs) ops
  | write (a b j : Nat) {bs : List Nat} {ops : List HwOp} : b ≠ 0xff →
      FlashBurstTrace len mem vin ((a + 1) % 65536) bs ops →
      FlashBurstTrace len mem vin a (b :: bs)
        ([HwOp.rd_pin true] ++ replay_mem_spec len mem ++
          [HwOp.write_byte a b .a15 (write_strobe vin), HwOp.rd_pin false, HwOp.poll_first a] ++
          List.replicate j HwOp.poll_next ++ ops)

/-- What the loop of `execute_cmd_flash_burst`, started in `w`, has issued when
it stands in `r` having consumed the payload bytes `l`: the operations of the
specification for `l`, with the records read from the memory at the record
array. -/
def FlashTraced (w r : World) (l : List Nat) : Prop :=
  r.ram_after = w.ram_after ∧
  ∃ ops, r.hw_log = w.hw_log ++ ops ∧
    FlashBurstTrace w.flash_sequence.len w.flash_mem (get_bit w.state.params.b0 6)
      w.state.params.addr l ops

/-- FLASH_BURST in progress: `r` is reached from `w` by calls of
`execute_cmd_flash_burst`, with any fuel, and by steps in between that leave
everything outside the pipe layer alone, the RAM behind the record array
included (the pipe functions of the main loop and the bulk interrupt). -/
inductive FlashBurstCalls : World → World → Prop
  | here (w : World) : FlashBurstCalls w w
  | call (fuel : Nat) {w r : World} :
      FlashBurstCalls (execute_cmd_flash_burst fuel w).1 r → FlashBurstCalls w r
  | pipe {w v r : World} : PipeFrame w v → v.ram_after = w.ram_after →
      FlashBurstCalls v r → FlashBurstCalls w r

/-! # Lemmas and theorems -/

theorem TxFrame.tx_refl (w : World) : TxFrame w w := by
  constructor <;> rfl

theorem TxFrame.tx_trans {a b c : World} (h1 : TxFrame a b) (h2 : TxFrame b c) : TxFrame a c := by
  constructor
  · rw [h2.flash_sequence, h1.flash_sequence]
  · rw [h2.diagnostics, h1.diagnostics]
  · rw [h2.hw_log, h1.hw_log]
  · rw [h2.rx_log, h1.rx_log]
  · rw [h2.status, h1.status]
  · rw [h2.reset_magic, h1.reset_magic]
  · rw [h2.bus_in, h1.bus_in]
  · rw [h2.bus_reads, h1.bus_reads]
  · rw [h2.res_pin_in, h1.res_pin_in]
  · rw [h2.oob, h1.oob]
  · rw [h2.fw_major, h1.fw_major]
  · rw [h2.fw_minor, h1.fw_minor]
  · rw [h2.bootloader, h1.bootloader]
  · rw [h2.usb_state, h1.usb_state]
  · rw [h2.device_reset, h1.device_reset]
  · rw [h2.pipe_reset_magic, h1.pipe_reset_magic]

theorem PipeFrame.pipe_refl (w : World) : PipeFrame w w :=
  { toTxFrame := TxFrame.tx_refl w, state := rfl, tx_log := rfl }

theorem PipeFrame.pipe_trans {a b c : World} (h1 : PipeFrame a b) (h2 : PipeFrame b c) : PipeFrame a c :=
  { toTxFrame := h1.toTxFrame.tx_trans h2.toTxFrame
    state := by rw [h2.state, h1.state]
    tx_log := by rw [h2.tx_log, h1.tx_log] }

/-- A frame whose fields all hold by computation. -/
theorem TxFrame.tx_of_eqs {w w' : World}
    (h : w'.flash_sequence = w.flash_sequence ∧ w'.diagnostics = w.diagnostics ∧
      w'.hw_log = w.hw_log ∧ w'.rx_log = w.rx_log ∧ w'.status = w.status ∧
      w'.reset_magic = w.reset_magic ∧ w'.bus_in = w.bus_in ∧ w'.bus_reads = w.bus_reads ∧
      w'.res_pin_in = w.res_pin_in ∧ w'.oob = w.oob ∧ w'.FW_MAJOR_VERSION = w.FW_MAJOR_VERSION ∧
      w'.FW_MINOR_VERSION = w.FW_MINOR_VERSION ∧ w'.bootloader_version = w.bootloader_version ∧
      w'.usb_state = w.usb_state ∧ w'.pipe_state.device_reset = w.pipe_state.device_reset ∧
      w'.pipe_state.reset_magic = w.pipe_state.reset_magic) : TxFrame w w' := by
  obtain ⟨a1, a2, a3, a4, a5, a6, a7, a8, a9, a10, a11, a12, a13, a14, a15, a16⟩ := h
  exact ⟨a1, a2, a3, a4, a5, a6, a7, a8, a9, a10, a11, a12, a13, a14, a15, a16⟩

/-- A frame whose fields all hold by computation. -/
theorem PipeFrame.pipe_of_eqs {w w' : World}
    (h : w'.flash_sequence = w.flash_sequence ∧ w'.diagnostics = w.diagnostics ∧
      w'.hw_log = w.hw_log ∧ w'.rx_log = w.rx_log ∧ w'.status = w.status ∧
      w'.reset_magic = w.reset_magic ∧ w'.bus_in = w.bus_in ∧ w'.bus_reads = w.bus_reads ∧
      w'.res_pin_in = w.res_pin_in ∧ w'.oob = w.oob ∧ w'.FW_MAJOR_VERSION = w.FW_MAJOR_VERSION ∧
      w'.FW_MINOR_VERSION = w.FW_MINOR_VERSION ∧ w'.bootloader_version = w.bootloader_version ∧
      w'.usb_state = w.usb_state ∧ w'.pipe_state.device_reset = w.pipe_state.device_reset ∧
      w'.pipe_state.reset_magic = w.pipe_state.reset_magic ∧ w'.state = w.state ∧
      w'.tx_log = w.tx_log) : PipeFrame w w' := by
  obtain ⟨a1, a2, a3, a4, a5, a6, a7, a8, a9, a10, a11, a12, a13, a14, a15, a16, a17, a18⟩ := h
  exact { toTxFrame := ⟨a1, a2, a3, a4, a5, a6, a7, a8, a9, a10, a11, a12, a13, a14, a15, a16⟩,
          state := a17, tx_log := a18 }

theorem usb_event_frame (w : World) (e : UsbEvent) : PipeFrame w (usb_event w e) := by
  cases e with
  | ep2_out ppbi data =>
    cases ppbi <;> apply PipeFrame.pipe_of_eqs <;> simp [usb_event, usb_isr_ep2, sie_complete]
  | ep2_in ppbi =>
    cases ppbi <;> apply PipeFrame.pipe_of_eqs <;> simp [usb_event, usb_isr_ep2, sie_complete]

theorem foldl_usb_event_frame (l : List UsbEvent) (w : World) :
    PipeFrame w (l.foldl usb_event w) := by
  induction l generalizing w with
  | nil => exact PipeFrame.pipe_refl w
  | cons e l ih => exact (usb_event_frame w e).pipe_trans (ih _)

theorem irq_frame (w : World) : PipeFrame w (irq w) := by
  unfold irq
  split
  · split
    · exact PipeFrame.pipe_refl w
    · rename_i batch rest _
      refine PipeFrame.pipe_trans ?_ (foldl_usb_event_frame batch _)
      apply PipeFrame.pipe_of_eqs; simp
  · exact PipeFrame.pipe_refl w

theorem BEGIN_CRITICAL_SECTION_frame (w : World) : PipeFrame w (BEGIN_CRITICAL_SECTION w) := by
  unfold BEGIN_CRITICAL_SECTION
  refine PipeFrame.pipe_trans (irq_frame w) ?_
  apply PipeFrame.pipe_of_eqs; simp

theorem END_CRITICAL_SECTION_frame (w : World) : PipeFrame w (END_CRITICAL_SECTION w) := by
  unfold END_CRITICAL_SECTION
  split
  · apply PipeFrame.pipe_of_eqs; simp
  · exact PipeFrame.pipe_refl w

theorem pipe_arm_rx_frame (w : World) : PipeFrame w (pipe_arm_rx w) := by
  unfold pipe_arm_rx
  apply PipeFrame.pipe_of_eqs; simp only []; split <;> simp

theorem rx_take_odd_frame (w : World) : PipeFrame w (rx_take_odd w) := by
  apply PipeFrame.pipe_of_eqs; simp [rx_take_odd]

theorem rx_take_even_frame (w : World) : PipeFrame w (rx_take_even w) := by
  apply PipeFrame.pipe_of_eqs; simp [rx_take_even]

theorem tx_take_odd_frame (w : World) : PipeFrame w (tx_take_odd w) := by
  apply PipeFrame.pipe_of_eqs; simp [tx_take_odd]

theorem tx_take_even_frame (w : World) : PipeFrame w (tx_take_even w) := by
  apply PipeFrame.pipe_of_eqs; simp [tx_take_even]

theorem pipe_rx_acquire_frame (w : World) : PipeFrame w (pipe_rx_acquire w) := by
  unfold pipe_rx_acquire
  split
  · refine PipeFrame.pipe_trans (BEGIN_CRITICAL_SECTION_frame w) (PipeFrame.pipe_trans ?_ (END_CRITICAL_SECTION_frame _))
    split
    · exact rx_take_odd_frame _
    · split
      · exact rx_take_even_frame _
      · exact PipeFrame.pipe_refl _
  · split
    · refine PipeFrame.pipe_trans (BEGIN_CRITICAL_SECTION_frame w) (PipeFrame.pipe_trans ?_ (END_CRITICAL_SECTION_frame _))
      refine PipeFrame.pipe_trans (pipe_arm_rx_frame _) ?_
      split
      · exact rx_take_odd_frame _
      · split
        · exact rx_take_even_frame _
        · apply PipeFrame.pipe_of_eqs; simp
    · exact PipeFrame.pipe_refl w

theorem pipe_tx_flush_frame (w : World) : PipeFrame w (pipe_tx_flush w) := by
  unfold pipe_tx_flush
  refine PipeFrame.pipe_trans (BEGIN_CRITICAL_SECTION_frame w) (PipeFrame.pipe_trans ?_ (END_CRITICAL_SECTION_frame _))
  simp only []
  split
  · split
    · refine PipeFrame.pipe_trans ?_ (tx_take_odd_frame _)
      apply PipeFrame.pipe_of_eqs; simp
    · split
      · refine PipeFrame.pipe_trans ?_ (tx_take_even_frame _)
        apply PipeFrame.pipe_of_eqs; simp
      · apply PipeFrame.pipe_of_eqs; simp
  · split
    · refine PipeFrame.pipe_trans ?_ (tx_take_odd_frame _)
      apply PipeFrame.pipe_of_eqs; simp
    · split
      · refine PipeFrame.pipe_trans ?_ (tx_take_even_frame _)
        apply PipeFrame.pipe_of_eqs; simp
      · apply PipeFrame.pipe_of_eqs; simp

theorem pipe_tx_acquire_frame (w : World) : PipeFrame w (pipe_tx_acquire w) := by
  unfold pipe_tx_acquire
  split
  · refine PipeFrame.pipe_trans (BEGIN_CRITICAL_SECTION_frame w) (PipeFrame.pipe_trans ?_ (END_CRITICAL_SECTION_frame _))
    split
    · exact tx_take_odd_frame _
    · split
      · exact tx_take_even_frame _
      · exact PipeFrame.pipe_refl _
  · split
    · exact pipe_tx_flush_frame w
    · exact PipeFrame.pipe_refl w

theorem END_CRITICAL_SECTION_pipe_state (w : World) :
    (END_CRITICAL_SECTION w).pipe_state = w.pipe_state := by
  unfold END_CRITICAL_SECTION; split <;> rfl

theorem usb_event_pipe_state (w : World) (e : UsbEvent) :
    (usb_event w e).pipe_state = w.pipe_state := by
  cases e with
  | ep2_out ppbi data => cases ppbi <;> simp [usb_event, usb_isr_ep2, sie_complete]
  | ep2_in ppbi => cases ppbi <;> simp [usb_event, usb_isr_ep2, sie_complete]

theorem foldl_usb_event_pipe_state (l : List UsbEvent) (w : World) :
    (l.foldl usb_event w).pipe_state = w.pipe_state := by
  induction l generalizing w with
  | nil => rfl
  | cons e l ih => simp [List.foldl, ih, usb_event_pipe_state]

theorem irq_pipe_state (w : World) : (irq w).pipe_state = w.pipe_state := by
  unfold irq
  split
  · split
    · rfl
    · simp [foldl_usb_event_pipe_state]
  · rfl

theorem BEGIN_CRITICAL_SECTION_pipe_state (w : World) :
    (BEGIN_CRITICAL_SECTION w).pipe_state = w.pipe_state := by
  simp [BEGIN_CRITICAL_SECTION, irq_pipe_state]

theorem pipe_tx_flush_len_pos (w : World) (h : (pipe_tx_flush w).pipe_state.tx_slice_valid = true) :
    0 < (pipe_tx_flush w).pipe_state.tx_slice.len := by
  unfold pipe_tx_flush at h ⊢
  simp only [END_CRITICAL_SECTION_pipe_state] at h ⊢
  split_ifs at h ⊢ <;>
    simp_all [tx_take_odd, tx_take_even, EP2_PACKET_SIZE, END_CRITICAL_SECTION_pipe_state]

theorem pipe_tx_acquire_len_pos (w : World) (h : (pipe_tx_acquire w).pipe_state.tx_slice_valid = true) :
    0 < (pipe_tx_acquire w).pipe_state.tx_slice.len := by
  unfold pipe_tx_acquire at h ⊢
  split
  · rename_i h1
    simp only [END_CRITICAL_SECTION_pipe_state] at h ⊢
    split_ifs at h ⊢ <;>
      simp_all [tx_take_odd, tx_take_even, EP2_PACKET_SIZE, BEGIN_CRITICAL_SECTION_pipe_state,
        END_CRITICAL_SECTION_pipe_state]
  · rename_i h1
    simp only [h1] at h ⊢
    split
    · rename_i h2
      simp only [h2, if_true] at h
      exact pipe_tx_flush_len_pos w h
    · omega

theorem read_bytes_length (buf : List Nat) (off n : Nat) : (read_bytes buf off n).length = n := by
  simp [read_bytes]

theorem read_bytes_add (buf : List Nat) (off m n : Nat) :
    read_bytes buf off (m + n) = read_bytes buf off m ++ read_bytes buf (off + m) n := by
  simp [read_bytes, List.range_add, List.map_append, List.map_map, Function.comp_def, Nat.add_assoc]

theorem read_bytes_zero (buf : List Nat) (off : Nat) : read_bytes buf off 0 = [] := by
  simp [read_bytes]

theorem read_bytes_one (buf : List Nat) (off : Nat) : read_bytes buf off 1 = [buf.getD off 0] := by
  simp [read_bytes, List.range_succ]

theorem read_bytes_all (buf : List Nat) : read_bytes buf 0 buf.length = buf := by
  apply List.ext_getElem
  · simp [read_bytes]
  · intro i h1 h2
    simp [read_bytes, List.getD_eq_getElem?_getD, List.getElem?_eq_getElem h2]

theorem read_bytes_eq_take (buf : List Nat) (n : Nat) (h : n ≤ buf.length) :
    read_bytes buf 0 n = buf.take n := by
  apply List.ext_getElem
  · simp [read_bytes, h]
  · intro i h1 h2
    have h3 : i < buf.length := by simp at h2; omega
    simp [read_bytes, List.getD_eq_getElem?_getD, List.getElem?_eq_getElem h3]

theorem write_bytes_length (src buf : List Nat) (off : Nat) :
    (write_bytes buf off src).length = buf.length := by
  induction src generalizing buf off with
  | nil => rfl
  | cons b bs ih => simp [write_bytes, ih]

theorem write_bytes_getD_lt (src buf : List Nat) (off i : Nat) (h : i < off) :
    (write_bytes buf off src).getD i 0 = buf.getD i 0 := by
  induction src generalizing buf off with
  | nil => rfl
  | cons b bs ih =>
    simp only [write_bytes]
    rw [ih _ _ (by omega)]
    have h1 : off ≠ i := by omega
    simp [List.getD_eq_getElem?_getD, List.getElem?_set, h1]

theorem write_bytes_getD_ge (src buf : List Nat) (off i : Nat) (hi : i < src.length)
    (h : off + src.length ≤ buf.length) :
    (write_bytes buf off src).getD (off + i) 0 = src.getD i 0 := by
  induction src generalizing buf off i with
  | nil => simp at hi
  | cons b bs ih =>
    simp only [write_bytes]
    cases i with
    | zero =>
      rw [Nat.add_zero, write_bytes_getD_lt _ _ _ _ (by omega)]
      simp at h
      have h1 : off < buf.length := by omega
      simp [List.getD_eq_getElem?_getD, List.getElem?_set, h1]
    | succ j =>
      have := ih (buf.set off b) (off + 1) j (by simpa using hi) (by simp at h ⊢; omega)
      rw [show off + (j + 1) = off + 1 + j by omega, this]
      simp

theorem read_write_bytes_lt (src buf : List Nat) (off n : Nat) (h : n ≤ off) :
    read_bytes (write_bytes buf off src) 0 n = read_bytes buf 0 n := by
  simp only [read_bytes]
  apply List.map_congr_left
  intro i hi
  simp at hi
  rw [Nat.zero_add, write_bytes_getD_lt _ _ _ _ (by omega)]

theorem read_write_bytes_same (src buf : List Nat) (off : Nat) (h : off + src.length ≤ buf.length) :
    read_bytes (write_bytes buf off src) off src.length = src := by
  apply List.ext_getElem
  · simp [read_bytes]
  · intro i h1 h2
    simp only [read_bytes, List.getElem_map, List.getElem_range]
    rw [write_bytes_getD_ge _ _ _ _ h2 h]
    simp [List.getD_eq_getElem?_getD, List.getElem?_eq_getElem h2]

/-- Bytes appended to a partly filled header: the filled part grows by exactly
the bytes stored. -/
theorem read_write_bytes_append (src buf : List Nat) (off : Nat) (h : off + src.length ≤ buf.length) :
    read_bytes (write_bytes buf off src) 0 (off + src.length) = read_bytes buf 0 off ++ src := by
  rw [read_bytes_add, read_write_bytes_lt _ _ _ _ (Nat.le_refl _), Nat.zero_add,
    read_write_bytes_same _ _ _ h]

theorem load_congr (w w' : World) (p : Ptr) (n : Nat)
    (h1 : w'.state.header = w.state.header) (h2 : w'.state.params = w.state.params)
    (h3 : w'.diagnostics = w.diagnostics) (h4 : w'.flash_sequence = w.flash_sequence) :
    w'.load p n = w.load p n := by
  unfold World.load World.object
  cases p.reg <;> simp [h1, h2, h3, h4]

theorem load_add (w : World) (p : Ptr) (m n : Nat) :
    w.load p (m + n) = w.load p m ++ w.load (p.add m) n := by
  simp [World.load, Ptr.add, read_bytes_add]

theorem load_length (w : World) (p : Ptr) (n : Nat) : (w.load p n).length = n := by
  simp [World.load, read_bytes_length]

theorem tx_put_frame (w : World) (src : List Nat) : TxFrame w (w.tx_put src) := by
  unfold World.tx_put
  apply TxFrame.tx_of_eqs; simp only []; split <;> simp

theorem tx_put_tx_log (w : World) (src : List Nat) : (w.tx_put src).tx_log = w.tx_log ++ src := by
  unfold World.tx_put
  simp only []
  split <;> rfl

theorem tx_put_state (w : World) (src : List Nat) : (w.tx_put src).state = w.state := by
  unfold World.tx_put
  simp only []
  split <;> rfl

theorem tx_read_copy_state (w : World) (len : Nat) :
    (tx_read_copy w len).state = { w.state with tx_read_slice :=
      { ptr := w.state.tx_read_slice.ptr.add len, len := w.state.tx_read_slice.len - len } } := by
  simp [tx_read_copy, tx_put_state]

theorem tx_read_copy_tx_log (w : World) (len : Nat) :
    (tx_read_copy w len).tx_log = w.tx_log ++ w.load w.state.tx_read_slice.ptr len := by
  simp only [tx_read_copy, tx_put_tx_log]
  congr 1

theorem tx_read_copy_frame (w : World) (len : Nat) : TxFrame w (tx_read_copy w len) := by
  have h := tx_put_frame
    { w with
      pipe_state := { w.pipe_state with
        tx_slice := { w.pipe_state.tx_slice with len := w.pipe_state.tx_slice.len - len } }
      state := { w.state with
        tx_read_slice := { w.state.tx_read_slice with len := w.state.tx_read_slice.len - len } } }
    (w.load w.state.tx_read_slice.ptr len)
  constructor
  · simpa [tx_read_copy] using h.flash_sequence
  · simpa [tx_read_copy] using h.diagnostics
  · simpa [tx_read_copy] using h.hw_log
  · simpa [tx_read_copy] using h.rx_log
  · simpa [tx_read_copy] using h.status
  · simpa [tx_read_copy] using h.reset_magic
  · simpa [tx_read_copy] using h.bus_in
  · simpa [tx_read_copy] using h.bus_reads
  · simpa [tx_read_copy] using h.res_pin_in
  · simpa [tx_read_copy] using h.oob
  · simpa [tx_read_copy] using h.fw_major
  · simpa [tx_read_copy] using h.fw_minor
  · simpa [tx_read_copy] using h.bootloader
  · simpa [tx_read_copy] using h.usb_state
  · simpa [tx_read_copy] using h.device_reset
  · simpa [tx_read_copy] using h.pipe_reset_magic

theorem MIN_le_right (a b : Nat) : MIN a b ≤ b := by
  unfold MIN; split <;> omega

theorem MIN_le_left (a b : Nat) : MIN a b ≤ a := by
  unfold MIN; split <;> omega

theorem MIN_pos (a b : Nat) (ha : 0 < a) (hb : 0 < b) : 0 < MIN a b := by
  unfold MIN; split <;> omega

/-- What a run of the loop of `execute_cmd_tx_read` does: for some `m` it moves
the next `m` bytes of the read slice into transmit slices, in order, and
touches nothing else outside the pipe; it reports completion exactly when
nothing is left. -/
theorem execute_cmd_tx_read_loop_spec (n : Nat) (w : World)
    (hn : w.state.tx_read_slice.len ≤ n) (h256 : w.state.tx_read_slice.len < 256) :
    ∃ m, m ≤ w.state.tx_read_slice.len ∧
      ((execute_cmd_tx_read_loop n w).2 = true ↔ m = w.state.tx_read_slice.len) ∧
      (execute_cmd_tx_read_loop n w).1.state = { w.state with tx_read_slice :=
        { ptr := w.state.tx_read_slice.ptr.add m, len := w.state.tx_read_slice.len - m } } ∧
      (execute_cmd_tx_read_loop n w).1.tx_log = w.tx_log ++ w.load w.state.tx_read_slice.ptr m ∧
      TxFrame w (execute_cmd_tx_read_loop n w).1 := by
  induction n generalizing w with
  | zero =>
    refine ⟨0, Nat.zero_le _, ?_, ?_, ?_, ?_⟩
    · simp [execute_cmd_tx_read_loop]; omega
    · simp [execute_cmd_tx_read_loop, Ptr.add]
    · simp [execute_cmd_tx_read_loop, World.load, read_bytes_zero]
    · simp only [execute_cmd_tx_read_loop]; exact TxFrame.tx_refl w
  | succ n ih =>
    unfold execute_cmd_tx_read_loop
    by_cases hlen : w.state.tx_read_slice.len > 0
    · have hf := pipe_tx_acquire_frame w
      simp only [hlen, if_true]
      by_cases hv : (pipe_tx_acquire w).pipe_state.tx_slice_valid = true
      · have hpos := pipe_tx_acquire_len_pos w hv
        simp only [hv, Bool.not_true, Bool.false_eq_true, if_false]
        have hst : (pipe_tx_acquire w).state = w.state := hf.state
        generalize pipe_tx_acquire w = w1 at *
        have hle : MIN w1.pipe_state.tx_slice.len w1.state.tx_read_slice.len ≤
            w.state.tx_read_slice.len := by
          rw [← hst]; exact MIN_le_right _ _
        have hmp : 0 < MIN w1.pipe_state.tx_slice.len w1.state.tx_read_slice.len :=
          MIN_pos _ _ hpos (by rw [hst]; exact hlen)
        rw [Nat.mod_eq_of_lt (by omega)]
        generalize MIN w1.pipe_state.tx_slice.len w1.state.tx_read_slice.len = len at *
        have hs2 := tx_read_copy_state w1 len
        have ht2 := tx_read_copy_tx_log w1 len
        have hf2 := tx_read_copy_frame w1 len
        have hp2 : (tx_read_copy w1 len).state.tx_read_slice =
            { ptr := w.state.tx_read_slice.ptr.add len, len := w.state.tx_read_slice.len - len } := by
          rw [hs2, hst]
        obtain ⟨m, hm, hok, hstate, hlog, hframe⟩ := ih (tx_read_copy w1 len)
          (by rw [hp2]; simp; omega) (by rw [hp2]; simp; omega)
        have e1 : ∀ p k, w1.load p k = w.load p k := fun p k =>
          load_congr w w1 p k (by rw [hst]) (by rw [hst]) hf.diagnostics hf.flash_sequence
        have e2 : ∀ p k, (tx_read_copy w1 len).load p k = w.load p k := fun p k =>
          load_congr w _ p k (by rw [hs2, hst]) (by rw [hs2, hst])
            (hf2.diagnostics.trans hf.diagnostics) (hf2.flash_sequence.trans hf.flash_sequence)
        rw [hp2] at hm hok hstate hlog
        simp only [] at hm hok
        refine ⟨len + m, by omega, ?_, ?_, ?_, ?_⟩
        · rw [hok]; omega
        · rw [hstate, hs2, hst]; simp [Ptr.add, Nat.add_assoc, Nat.sub_sub]
        · rw [hlog, ht2, e1, e2, hf.tx_log, hst, load_add, List.append_assoc]
        · exact hf.toTxFrame.tx_trans (hf2.tx_trans hframe)
      · simp only [Bool.not_eq_true] at hv
        simp only [hv, Bool.not_false, if_true]
        refine ⟨0, Nat.zero_le _, ?_, ?_, ?_, ?_⟩
        · simp; omega
        · rw [hf.state]; simp [Ptr.add]
        · rw [hf.tx_log]; simp [World.load, read_bytes_zero]
        · exact hf.toTxFrame
    · simp only [hlen, if_false]
      refine ⟨0, Nat.zero_le _, ?_, ?_, ?_, ?_⟩
      · simp; omega
      · simp [Ptr.add]
      · simp [World.load, read_bytes_zero]
      · exact TxFrame.tx_refl w

theorem land_mask_lt (c : Nat) : c &&& CMD_MASK < 32 := by
  have : c &&& CMD_MASK = c % 32 := Nat.and_pow_two_sub_one_eq_mod c 5
  rw [this]; omega

theorem land_mask_idem (c : Nat) : (c &&& CMD_MASK) &&& CMD_MASK = c &&& CMD_MASK := by
  rw [Nat.land_assoc]; rfl

/-- The first switch of `fetch_command` is the table: header length for an
accepted pair of id and lock state, `-1` for every other pair. -/
theorem total_header_len_eq_table (c : Nat) (u : Bool) :
    total_header_len c u =
      match spec_header_len (c &&& CMD_MASK) u with
      | some n => (n : Int)
      | none => -1 := by
  unfold total_header_len
  have h := land_mask_lt c
  generalize c &&& CMD_MASK = x at h
  interval_cases x <;> cases u <;> rfl

theorem rx_advance_state (w : World) (n : Nat) : (w.rx_advance n).state = w.state := rfl

theorem fetch_cmd_byte_state (w : World) :
    (fetch_cmd_byte w).state =
      { w.state with
        cmd := (w.rx_peek 1).getD 0 0, cmd_valid := true, header_valid := false
        header := { w.state.header with len := 0 } } := rfl

theorem copy_header_state (w : World) (n : Nat) :
    (copy_header w n).state =
      { w.state with header :=
        { len := (w.state.header.len + n) % 256
          bytes := write_bytes w.state.header.bytes w.state.header.len (w.rx_peek n) } } := rfl

theorem select_operation_eq_table (c : Nat) :
    select_operation (c &&& CMD_MASK) = spec_operation (c &&& CMD_MASK) := by
  have h := land_mask_lt c
  generalize c &&& CMD_MASK = x at h
  interval_cases x <;> rfl

/-! ### The second switch of `fetch_command`, case by case -/

theorem dispatch_header_ping (w : World) (h : w.state.cmd &&& CMD_MASK = CMD_PING) :
    dispatch_header w = mask (w.set_tx_read_slice .header 0 16) := by
  unfold dispatch_header
  simp only [h]
  rfl

theorem dispatch_header_unlock (w : World) (h : w.state.cmd &&& CMD_MASK = CMD_UNLOCK) :
    dispatch_header w =
      if read_bytes w.state.header.bytes 0 16 ≠ UNLOCK_MAGIC then
        { w with state := { w.state with cmd_valid := false, header_valid := false } }
      else
        mask { w.set_tx_read_slice .header 0 16 with
          state := { (w.set_tx_read_slice .header 0 16).state with unlocked := true } } := by
  unfold dispatch_header
  simp only [h]
  rfl

theorem dispatch_header_set_mode (w : World) (h : w.state.cmd &&& CMD_MASK = CMD_SET_MODE) :
    dispatch_header w = mask (w.set_params { w.state.params with b0 := w.hdr 0 }) := by
  unfold dispatch_header
  simp only [h]
  rfl

theorem dispatch_header_get_mode (w : World) (h : w.state.cmd &&& CMD_MASK = CMD_GET_MODE) :
    dispatch_header w =
      mask ((w.set_params
        { w.state.params with
          b0 := w.state.cart_mode
          b1 := set_bit w.state.params.b1 0 w.res_pin_in }).set_tx_read_slice .params 0 2) := by
  unfold dispatch_header
  simp only [h]
  rfl

theorem dispatch_header_read (w : World) (h : w.state.cmd &&& CMD_MASK = CMD_READ) :
    dispatch_header w =
      mask (w.set_params
        { w.state.params with
          b0 := set_bit w.state.params.b0 0 ((w.state.cmd &&& (1 <<< 7)) != 0)
          b1 := U16_FROM_LE_BYTES (w.hdr 0) (w.hdr 1) % 256
          b2 := U16_FROM_LE_BYTES (w.hdr 0) (w.hdr 1) / 256 % 256 }) := by
  unfold dispatch_header
  simp only [h]
  rfl

theorem dispatch_header_read_burst (w : World) (h : w.state.cmd &&& CMD_MASK = CMD_READ_BURST) :
    dispatch_header w =
      mask (w.set_params
        { b0 := set_bit (set_bit w.state.params.b0 0 ((w.state.cmd &&& (1 <<< 7)) != 0)) 1
                  ((w.state.cmd &&& (1 <<< 6)) != 0)
          b1 := U16_FROM_LE_BYTES (w.hdr 0) (w.hdr 1) % 256
          b2 := U16_FROM_LE_BYTES (w.hdr 0) (w.hdr 1) / 256 % 256
          b3 := U16_FROM_LE_BYTES (w.hdr 2) (w.hdr 3) % 256
          b4 := U16_FROM_LE_BYTES (w.hdr 2) (w.hdr 3) / 256 % 256 }) := by
  unfold dispatch_header
  simp only [h]
  rfl

theorem dispatch_header_write (w : World) (h : w.state.cmd &&& CMD_MASK = CMD_WRITE) :
    dispatch_header w =
      mask (w.set_params
        { b0 := set_bit (set_bit w.state.params.b0 0 ((w.state.cmd &&& (1 <<< 7)) != 0)) 1
                  ((w.state.cmd &&& (1 <<< 6)) != 0)
          b1 := U16_FROM_LE_BYTES (w.hdr 0) (w.hdr 1) % 256
          b2 := U16_FROM_LE_BYTES (w.hdr 0) (w.hdr 1) / 256 % 256
          b3 := w.hdr 2
          b4 := w.state.params.b4 }) := by
  unfold dispatch_header
  simp only [h]
  rfl

theorem dispatch_header_write_burst (w : World) (h : w.state.cmd &&& CMD_MASK = CMD_WRITE_BURST) :
    dispatch_header w =
      mask (w.set_params
        { b0 := set_bit (set_bit w.state.params.b0 0 ((w.state.cmd &&& (1 <<< 7)) != 0)) 1
                  ((w.state.cmd &&& (1 <<< 6)) != 0)
          b1 := U16_FROM_LE_BYTES (w.hdr 0) (w.hdr 1) % 256
          b2 := U16_FROM_LE_BYTES (w.hdr 0) (w.hdr 1) / 256 % 256
          b3 := U16_FROM_LE_BYTES (w.hdr 2) (w.hdr 3) % 256
          b4 := U16_FROM_LE_BYTES (w.hdr 2) (w.hdr 3) / 256 % 256 }) := by
  unfold dispatch_header
  simp only [h]
  rfl

theorem dispatch_header_poll (w : World) (h : w.state.cmd &&& CMD_MASK = CMD_POLL_FLASH_DATA) :
    dispatch_header w =
      mask (w.set_params
        { w.state.params with
          b0 := U16_FROM_LE_BYTES (w.hdr 0) (w.hdr 1) % 256
          b1 := U16_FROM_LE_BYTES (w.hdr 0) (w.hdr 1) / 256 % 256
          b2 := w.hdr 2 }) := by
  unfold dispatch_header
  simp only [h]
  rfl

theorem dispatch_header_sfws (w : World)
    (h : w.state.cmd &&& CMD_MASK = CMD_SET_FLASH_WRITE_SEQUENCE) :
    dispatch_header w =
      if w.hdr 0 > SIZEOF_FLASH_SEQUENCE_WRITE then
        { w with state := { w.state with cmd_valid := false, header_valid := false } }
      else
        mask { w with
          flash_sequence := { w.flash_sequence with len := w.hdr 0 }
          state := { w.state with
            tx_write_slice := { ptr := { reg := .flash_write, off := 0 },
                                len := (w.hdr 0 * SIZEOF_WRITE) % 256 } } } := by
  unfold dispatch_header
  simp only [h]
  rfl

theorem dispatch_header_flash_burst (w : World) (h : w.state.cmd &&& CMD_MASK = CMD_FLASH_BURST) :
    dispatch_header w =
      mask ((w.set_params
        { b0 := set_bit w.state.params.b0 6 ((w.state.cmd &&& (1 <<< 6)) != 0)
          b1 := U16_FROM_LE_BYTES (w.hdr 0) (w.hdr 1) % 256
          b2 := U16_FROM_LE_BYTES (w.hdr 0) (w.hdr 1) / 256 % 256
          b3 := U16_FROM_LE_BYTES (w.hdr 2) (w.hdr 3) % 256
          b4 := U16_FROM_LE_BYTES (w.hdr 2) (w.hdr 3) / 256 % 256 }).set_tx_read_slice
        .params 3 2) := by
  unfold dispatch_header
  simp only [h]
  rfl

theorem dispatch_header_diagnostics (w : World) (h : w.state.cmd &&& CMD_MASK = CMD_DIAGNOSTICS) :
    dispatch_header w = mask (w.set_tx_read_slice .diagnostics 0 SIZEOF_DIAGNOSTICS) := by
  unfold dispatch_header
  simp only [h]
  rfl

theorem dispatch_header_reset (w : World) (h : w.state.cmd &&& CMD_MASK = CMD_RESET) :
    dispatch_header w = mask (w.set_params { w.state.params with b0 := w.hdr 0 }) := by
  unfold dispatch_header
  simp only [h]
  rfl

theorem dispatch_header_identify (w : World) (h : w.state.cmd &&& CMD_MASK = CMD_IDENTIFY) :
    dispatch_header w =
      mask ((w.set_params
        { b0 := 0x99
          b1 := w.bootloader_version % 256
          b2 := (w.bootloader_version >>> 8) % 256
          b3 := w.FW_MINOR_VERSION % 256
          b4 := w.FW_MAJOR_VERSION % 256 }).set_tx_read_slice .params 0 5) := by
  unfold dispatch_header
  simp only [h]
  rfl

theorem dispatch_header_other (w : World)
    (h : spec_lookup (w.state.cmd &&& CMD_MASK) = none) : dispatch_header w = mask w := by
  have hlt := land_mask_lt w.state.cmd
  unfold dispatch_header
  generalize w.state.cmd &&& CMD_MASK = x at h hlt
  interval_cases x <;> first | rfl | exact absurd h (by decide)

/-- The low five bits of a command byte select one of the fourteen table rows
or none. -/
theorem cmd_cases (c : Nat) :
    c &&& CMD_MASK = CMD_PING ∨ c &&& CMD_MASK = CMD_UNLOCK ∨ c &&& CMD_MASK = CMD_SET_MODE ∨
    c &&& CMD_MASK = CMD_GET_MODE ∨ c &&& CMD_MASK = CMD_READ ∨ c &&& CMD_MASK = CMD_READ_BURST ∨
    c &&& CMD_MASK = CMD_WRITE ∨ c &&& CMD_MASK = CMD_WRITE_BURST ∨
    c &&& CMD_MASK = CMD_POLL_FLASH_DATA ∨ c &&& CMD_MASK = CMD_SET_FLASH_WRITE_SEQUENCE ∨
    c &&& CMD_MASK = CMD_FLASH_BURST ∨ c &&& CMD_MASK = CMD_DIAGNOSTICS ∨
    c &&& CMD_MASK = CMD_RESET ∨ c &&& CMD_MASK = CMD_IDENTIFY ∨
    spec_lookup (c &&& CMD_MASK) = none := by
  have hlt := land_mask_lt c
  generalize c &&& CMD_MASK = x at hlt
  interval_cases x <;> decide

theorem FetchFrame.fetch_refl (w : World) : FetchFrame w w := by
  constructor <;> rfl

theorem FetchFrame.fetch_trans {a b c : World} (h1 : FetchFrame a b) (h2 : FetchFrame b c) :
    FetchFrame a c := by
  constructor
  · rw [h2.diagnostics, h1.diagnostics]
  · rw [h2.hw_log, h1.hw_log]
  · rw [h2.status, h1.status]
  · rw [h2.reset_magic, h1.reset_magic]
  · rw [h2.bus_in, h1.bus_in]
  · rw [h2.bus_reads, h1.bus_reads]
  · rw [h2.res_pin_in, h1.res_pin_in]
  · rw [h2.fw_major, h1.fw_major]
  · rw [h2.fw_minor, h1.fw_minor]
  · rw [h2.bootloader, h1.bootloader]
  · rw [h2.usb_state, h1.usb_state]
  · rw [h2.device_reset, h1.device_reset]
  · rw [h2.pipe_reset_magic, h1.pipe_reset_magic]
  · rw [h2.tx_log, h1.tx_log]
  · rw [h2.cart_mode, h1.cart_mode]
  · rw [h2.tx_slice, h1.tx_slice]
  · rw [h2.tx_slice_valid, h1.tx_slice_valid]
  · rw [h2.tx_need_zlp, h1.tx_need_zlp]
  · rw [h2.flash_write, h1.flash_write]

/-- A frame whose fields all hold by computation. -/
theorem FetchFrame.fetch_of_eqs {w w' : World}
    (h : w'.diagnostics = w.diagnostics ∧ w'.hw_log = w.hw_log ∧ w'.status = w.status ∧
      w'.reset_magic = w.reset_magic ∧ w'.bus_in = w.bus_in ∧ w'.bus_reads = w.bus_reads ∧
      w'.res_pin_in = w.res_pin_in ∧ w'.FW_MAJOR_VERSION = w.FW_MAJOR_VERSION ∧
      w'.FW_MINOR_VERSION = w.FW_MINOR_VERSION ∧ w'.bootloader_version = w.bootloader_version ∧
      w'.usb_state = w.usb_state ∧ w'.pipe_state.device_reset = w.pipe_state.device_reset ∧
      w'.pipe_state.reset_magic = w.pipe_state.reset_magic ∧ w'.tx_log = w.tx_log ∧
      w'.state.cart_mode = w.state.cart_mode ∧ w'.pipe_state.tx_slice = w.pipe_state.tx_slice ∧
      w'.pipe_state.tx_slice_valid = w.pipe_state.tx_slice_valid ∧
      w'.pipe_state.tx_need_zlp = w.pipe_state.tx_need_zlp ∧
      w'.flash_sequence.write = w.flash_sequence.write) : FetchFrame w w' := by
  obtain ⟨a1, a2, a3, a4, a5, a6, a7, a8, a9, a10, a11, a12, a13, a14, a15, a16, a17, a18, a19⟩ := h
  exact ⟨a1, a2, a3, a4, a5, a6, a7, a8, a9, a10, a11, a12, a13, a14, a15, a16, a17, a18, a19⟩

theorem pipe_arm_rx_pipe_state (w : World) : (pipe_arm_rx w).pipe_state = w.pipe_state := by
  unfold pipe_arm_rx
  simp only []
  split <;> rfl

theorem pipe_rx_acquire_tx (w : World) :
    (pipe_rx_acquire w).pipe_state.tx_slice = w.pipe_state.tx_slice ∧
    (pipe_rx_acquire w).pipe_state.tx_slice_valid = w.pipe_state.tx_slice_valid ∧
    (pipe_rx_acquire w).pipe_state.tx_need_zlp = w.pipe_state.tx_need_zlp := by
  unfold pipe_rx_acquire
  simp only [END_CRITICAL_SECTION_pipe_state]
  split_ifs <;>
    simp [END_CRITICAL_SECTION_pipe_state, rx_take_odd, rx_take_even,
      BEGIN_CRITICAL_SECTION_pipe_state, pipe_arm_rx_pipe_state]

theorem pipe_rx_acquire_fetch_frame (w : World) : FetchFrame w (pipe_rx_acquire w) := by
  have h := pipe_rx_acquire_frame w
  have h2 := pipe_rx_acquire_tx w
  exact ⟨h.diagnostics, h.hw_log, h.status, h.reset_magic, h.bus_in, h.bus_reads, h.res_pin_in,
    h.fw_major, h.fw_minor, h.bootloader, h.usb_state, h.device_reset, h.pipe_reset_magic,
    h.tx_log, by rw [h.state], h2.1, h2.2.1, h2.2.2, by rw [h.flash_sequence]⟩

theorem fetch_cmd_byte_frame (w : World) : FetchFrame w (fetch_cmd_byte w) := by
  apply FetchFrame.fetch_of_eqs; simp [fetch_cmd_byte, World.rx_advance]

theorem copy_header_frame (w : World) (n : Nat) : FetchFrame w (copy_header w n) := by
  apply FetchFrame.fetch_of_eqs; simp [copy_header, World.rx_advance]

theorem mask_frame (w : World) : FetchFrame w (mask w) := by
  apply FetchFrame.fetch_of_eqs; simp [mask]

theorem set_params_frame (w : World) (p : Params) : FetchFrame w (w.set_params p) := by
  apply FetchFrame.fetch_of_eqs; simp [World.set_params]

theorem set_tx_read_slice_frame (w : World) (r : Region) (o n : Nat) :
    FetchFrame w (w.set_tx_read_slice r o n) := by
  apply FetchFrame.fetch_of_eqs; simp [World.set_tx_read_slice]

theorem dispatch_header_frame (w : World) : FetchFrame w (dispatch_header w) := by
  rcases cmd_cases w.state.cmd with h | h | h | h | h | h | h | h | h | h | h | h | h | h | h
  · rw [dispatch_header_ping w h]
    exact (set_tx_read_slice_frame _ _ _ _).fetch_trans (mask_frame _)
  · rw [dispatch_header_unlock w h]
    split
    · apply FetchFrame.fetch_of_eqs; simp
    · apply FetchFrame.fetch_of_eqs; simp [mask, World.set_tx_read_slice]
  · rw [dispatch_header_set_mode w h]
    exact (set_params_frame _ _).fetch_trans (mask_frame _)
  · rw [dispatch_header_get_mode w h]
    exact ((set_params_frame _ _).fetch_trans (set_tx_read_slice_frame _ _ _ _)).fetch_trans (mask_frame _)
  · rw [dispatch_header_read w h]
    exact (set_params_frame _ _).fetch_trans (mask_frame _)
  · rw [dispatch_header_read_burst w h]
    exact (set_params_frame _ _).fetch_trans (mask_frame _)
  · rw [dispatch_header_write w h]
    exact (set_params_frame _ _).fetch_trans (mask_frame _)
  · rw [dispatch_header_write_burst w h]
    exact (set_params_frame _ _).fetch_trans (mask_frame _)
  · rw [dispatch_header_poll w h]
    exact (set_params_frame _ _).fetch_trans (mask_frame _)
  · rw [dispatch_header_sfws w h]
    split
    · apply FetchFrame.fetch_of_eqs; simp
    · apply FetchFrame.fetch_of_eqs; simp [mask]
  · rw [dispatch_header_flash_burst w h]
    exact ((set_params_frame _ _).fetch_trans (set_tx_read_slice_frame _ _ _ _)).fetch_trans (mask_frame _)
  · rw [dispatch_header_diagnostics w h]
    exact (set_tx_read_slice_frame _ _ _ _).fetch_trans (mask_frame _)
  · rw [dispatch_header_reset w h]
    exact (set_params_frame _ _).fetch_trans (mask_frame _)
  · rw [dispatch_header_identify w h]
    exact ((set_params_frame _ _).fetch_trans (set_tx_read_slice_frame _ _ _ _)).fetch_trans (mask_frame _)
  · rw [dispatch_header_other w h]
    exact mask_frame _

theorem fetch_header_eq (w : World) :
    fetch_header w =
      if total_header_len w.state.cmd w.state.unlocked < 0 then reject_cmd w
      else if MIN w.pipe_state.rx_slice.len (header_needed_bytes w) = header_needed_bytes w then
        header_complete (copy_header w (header_needed_bytes w))
      else copy_header w (MIN w.pipe_state.rx_slice.len (header_needed_bytes w)) := by
  unfold fetch_header
  simp only []
  split
  · rfl
  · split
    · rename_i h; rw [h]
    · rfl

theorem fetch_command_eq (w : World) :
    fetch_command w =
      if (pipe_rx_acquire w).pipe_state.rx_slice_valid = true then
        if (pipe_rx_acquire w).state.cmd_valid = false ∧
            0 < (pipe_rx_acquire w).pipe_state.rx_slice.len then
          fetch_header (fetch_cmd_byte (pipe_rx_acquire w))
        else fetch_header (pipe_rx_acquire w)
      else pipe_rx_acquire w := by
  unfold fetch_command
  simp only []
  by_cases h1 : (pipe_rx_acquire w).pipe_state.rx_slice_valid = true
  · by_cases h2 : (pipe_rx_acquire w).state.cmd_valid = false ∧
        0 < (pipe_rx_acquire w).pipe_state.rx_slice.len
    · simp [h1, h2]
    · rw [if_pos h1, if_neg h2]
      simp only [h1, Bool.not_true, Bool.false_eq_true, if_false]
      have : ¬ ((!(pipe_rx_acquire w).state.cmd_valid &&
          decide ((pipe_rx_acquire w).pipe_state.rx_slice.len > 0)) = true) := by
        simpa using h2
      rw [if_neg this]
  · simp [h1]

theorem reject_cmd_frame (w : World) : FetchFrame w (reject_cmd w) := by
  apply FetchFrame.fetch_of_eqs; simp [reject_cmd]

theorem set_header_valid_frame (w : World) (v : Bool) : FetchFrame w (w.set_header_valid v) := by
  apply FetchFrame.fetch_of_eqs; simp [World.set_header_valid]

theorem header_complete_frame (w : World) : FetchFrame w (header_complete w) := by
  unfold header_complete
  exact (set_header_valid_frame w true).fetch_trans (dispatch_header_frame _)

theorem fetch_header_frame (w : World) : FetchFrame w (fetch_header w) := by
  rw [fetch_header_eq]
  split
  · exact reject_cmd_frame w
  · split
    · exact (copy_header_frame w _).fetch_trans (header_complete_frame _)
    · exact copy_header_frame w _

theorem fetch_command_frame (w : World) : FetchFrame w (fetch_command w) := by
  rw [fetch_command_eq]
  split
  · split
    · exact (pipe_rx_acquire_fetch_frame w).fetch_trans
        ((fetch_cmd_byte_frame _).fetch_trans (fetch_header_frame _))
    · exact (pipe_rx_acquire_fetch_frame w).fetch_trans (fetch_header_frame _)
  · exact pipe_rx_acquire_fetch_frame w

theorem dispatch_header_shape (w : World) : DispatchShape w (dispatch_header w) := by
  unfold DispatchShape
  rcases cmd_cases w.state.cmd with h | h | h | h | h | h | h | h | h | h | h | h | h | h | h
  · rw [dispatch_header_ping w h]; rfl
  · rw [dispatch_header_unlock w h]; split <;> rfl
  · rw [dispatch_header_set_mode w h]; rfl
  · rw [dispatch_header_get_mode w h]; rfl
  · rw [dispatch_header_read w h]; rfl
  · rw [dispatch_header_read_burst w h]; rfl
  · rw [dispatch_header_write w h]; rfl
  · rw [dispatch_header_write_burst w h]; rfl
  · rw [dispatch_header_poll w h]; rfl
  · rw [dispatch_header_sfws w h]; split <;> rfl
  · rw [dispatch_header_flash_burst w h]; rfl
  · rw [dispatch_header_diagnostics w h]; rfl
  · rw [dispatch_header_reset w h]; rfl
  · rw [dispatch_header_identify w h]; rfl
  · rw [dispatch_header_other w h]; rfl

/-- What the second switch does to the lock flag: only UNLOCK with the right
key sets it, nothing clears it. -/
theorem dispatch_header_unlocked (w : World) :
    (dispatch_header w).state.unlocked =
      (w.state.unlocked ||
        (decide (w.state.cmd &&& CMD_MASK = CMD_UNLOCK) &&
          decide (read_bytes w.state.header.bytes 0 16 = UNLOCK_MAGIC))) := by
  rcases cmd_cases w.state.cmd with h | h | h | h | h | h | h | h | h | h | h | h | h | h | h
  · rw [dispatch_header_ping w h]; simp [h, mask, World.set_tx_read_slice, CMD_PING, CMD_UNLOCK]
  · rw [dispatch_header_unlock w h]; split <;> simp_all [mask, World.set_tx_read_slice]
  · rw [dispatch_header_set_mode w h]; simp [h, mask, World.set_params, CMD_SET_MODE, CMD_UNLOCK]
  · rw [dispatch_header_get_mode w h]
    simp [h, mask, World.set_params, World.set_tx_read_slice, CMD_GET_MODE, CMD_UNLOCK]
  · rw [dispatch_header_read w h]; simp [h, mask, World.set_params, CMD_READ, CMD_UNLOCK]
  · rw [dispatch_header_read_burst w h]
    simp [h, mask, World.set_params, CMD_READ_BURST, CMD_UNLOCK]
  · rw [dispatch_header_write w h]; simp [h, mask, World.set_params, CMD_WRITE, CMD_UNLOCK]
  · rw [dispatch_header_write_burst w h]
    simp [h, mask, World.set_params, CMD_WRITE_BURST, CMD_UNLOCK]
  · rw [dispatch_header_poll w h]
    simp [h, mask, World.set_params, CMD_POLL_FLASH_DATA, CMD_UNLOCK]
  · rw [dispatch_header_sfws w h]
    split <;> simp [h, mask, CMD_SET_FLASH_WRITE_SEQUENCE, CMD_UNLOCK]
  · rw [dispatch_header_flash_burst w h]
    simp [h, mask, World.set_params, World.set_tx_read_slice, CMD_FLASH_BURST, CMD_UNLOCK]
  · rw [dispatch_header_diagnostics w h]
    simp [h, mask, World.set_tx_read_slice, CMD_DIAGNOSTICS, CMD_UNLOCK]
  · rw [dispatch_header_reset w h]; simp [h, mask, World.set_params, CMD_RESET, CMD_UNLOCK]
  · rw [dispatch_header_identify w h]
    simp [h, mask, World.set_params, World.set_tx_read_slice, CMD_IDENTIFY, CMD_UNLOCK]
  · rw [dispatch_header_other w h]
    have : w.state.cmd &&& CMD_MASK ≠ CMD_UNLOCK := by
      intro h2; rw [h2] at h; exact absurd h (by decide)
    simp [mask, this]

/-- The second switch changes the flash sequence only in the
SET_FLASH_WRITE_SEQUENCE case. -/
theorem dispatch_header_flash (w : World)
    (h : w.state.cmd &&& CMD_MASK ≠ CMD_SET_FLASH_WRITE_SEQUENCE) :
    (dispatch_header w).flash_sequence = w.flash_sequence := by
  rcases cmd_cases w.state.cmd with h1 | h1 | h1 | h1 | h1 | h1 | h1 | h1 | h1 | h1 | h1 | h1 | h1 | h1 | h1
  · rw [dispatch_header_ping w h1]; rfl
  · rw [dispatch_header_unlock w h1]; split <;> rfl
  · rw [dispatch_header_set_mode w h1]; rfl
  · rw [dispatch_header_get_mode w h1]; rfl
  · rw [dispatch_header_read w h1]; rfl
  · rw [dispatch_header_read_burst w h1]; rfl
  · rw [dispatch_header_write w h1]; rfl
  · rw [dispatch_header_write_burst w h1]; rfl
  · rw [dispatch_header_poll w h1]; rfl
  · exact absurd h1 h
  · rw [dispatch_header_flash_burst w h1]; rfl
  · rw [dispatch_header_diagnostics w h1]; rfl
  · rw [dispatch_header_reset w h1]; rfl
  · rw [dispatch_header_identify w h1]; rfl
  · rw [dispatch_header_other w h1]; rfl

/-- The second switch either discards the command or leaves `state.cmd`
stripped of its three modifier bits, with the validity flags as they were. -/
theorem dispatch_header_cmd (w : World) :
    ((dispatch_header w).state.cmd = w.state.cmd &&& CMD_MASK ∧
      (dispatch_header w).state.header_valid = w.state.header_valid ∧
      (dispatch_header w).state.cmd_valid = w.state.cmd_valid) ∨
    ((dispatch_header w).state.header_valid = false ∧
      (dispatch_header w).state.cmd_valid = false ∧
      (dispatch_header w).state.cmd = w.state.cmd ∧
      (dispatch_header w).state.unlocked = w.state.unlocked ∧
      (dispatch_header w).flash_sequence = w.flash_sequence ∧
      (w.state.cmd &&& CMD_MASK = CMD_UNLOCK ∨
        w.state.cmd &&& CMD_MASK = CMD_SET_FLASH_WRITE_SEQUENCE)) := by
  rcases cmd_cases w.state.cmd with h | h | h | h | h | h | h | h | h | h | h | h | h | h | h
  · rw [dispatch_header_ping w h]; left; exact ⟨rfl, rfl, rfl⟩
  · rw [dispatch_header_unlock w h]
    split
    · right; exact ⟨rfl, rfl, rfl, rfl, rfl, Or.inl h⟩
    · left; exact ⟨rfl, rfl, rfl⟩
  · rw [dispatch_header_set_mode w h]; left; exact ⟨rfl, rfl, rfl⟩
  · rw [dispatch_header_get_mode w h]; left; exact ⟨rfl, rfl, rfl⟩
  · rw [dispatch_header_read w h]; left; exact ⟨rfl, rfl, rfl⟩
  · rw [dispatch_header_read_burst w h]; left; exact ⟨rfl, rfl, rfl⟩
  · rw [dispatch_header_write w h]; left; exact ⟨rfl, rfl, rfl⟩
  · rw [dispatch_header_write_burst w h]; left; exact ⟨rfl, rfl, rfl⟩
  · rw [dispatch_header_poll w h]; left; exact ⟨rfl, rfl, rfl⟩
  · rw [dispatch_header_sfws w h]
    split
    · right; exact ⟨rfl, rfl, rfl, rfl, rfl, Or.inr h⟩
    · left; exact ⟨rfl, rfl, rfl⟩
  · rw [dispatch_header_flash_burst w h]; left; exact ⟨rfl, rfl, rfl⟩
  · rw [dispatch_header_diagnostics w h]; left; exact ⟨rfl, rfl, rfl⟩
  · rw [dispatch_header_reset w h]; left; exact ⟨rfl, rfl, rfl⟩
  · rw [dispatch_header_identify w h]; left; exact ⟨rfl, rfl, rfl⟩
  · rw [dispatch_header_other w h]; left; exact ⟨rfl, rfl, rfl⟩

theorem dispatch_header_rx_log (w : World) : (dispatch_header w).rx_log = w.rx_log := by
  have h := dispatch_header_shape w
  unfold DispatchShape at h
  have h2 := congrArg World.rx_log h
  exact h2

theorem dispatch_header_pipe_state (w : World) : (dispatch_header w).pipe_state = w.pipe_state := by
  have h := dispatch_header_shape w
  unfold DispatchShape at h
  have h2 := congrArg World.pipe_state h
  exact h2

theorem dispatch_header_header (w : World) : (dispatch_header w).state.header = w.state.header := by
  have h := dispatch_header_shape w
  unfold DispatchShape at h
  have h2 := congrArg (fun v => v.state.header) h
  exact h2

theorem pipe_rx_acquire_ready (w : World) (hv : w.pipe_state.rx_slice_valid = true)
    (hlen : 0 < w.pipe_state.rx_slice.len) : pipe_rx_acquire w = w := by
  unfold pipe_rx_acquire
  have h : w.pipe_state.rx_slice.len ≠ 0 := by omega
  simp [hv, h]

theorem fetch_command_idle_ready (w : World) (hidle : w.state.cmd_valid = false)
    (hv : w.pipe_state.rx_slice_valid = true) (hlen : 0 < w.pipe_state.rx_slice.len) :
    fetch_command w = fetch_header (fetch_cmd_byte w) := by
  rw [fetch_command_eq, pipe_rx_acquire_ready w hv hlen, if_pos hv, if_pos ⟨hidle, hlen⟩]

theorem fetch_header_rx_log (w : World) : ∃ l, (fetch_header w).rx_log = w.rx_log ++ l := by
  rw [fetch_header_eq]
  split
  · exact ⟨[], by simp [reject_cmd]⟩
  · split
    · exact ⟨w.rx_peek (header_needed_bytes w), by
        unfold header_complete; rw [dispatch_header_rx_log]; rfl⟩
    · exact ⟨_, rfl⟩

theorem fetch_header_cmd_low (w : World) :
    (fetch_header w).state.cmd &&& CMD_MASK = w.state.cmd &&& CMD_MASK := by
  rw [fetch_header_eq]
  split
  · rfl
  · split
    · unfold header_complete
      rcases dispatch_header_cmd ((copy_header w (header_needed_bytes w)).set_header_valid true)
        with h | h
      · rw [h.1, land_mask_idem]; rfl
      · rw [h.2.2.1]; rfl
    · rfl

/-- A command byte that the first switch rejects is dropped on the spot. -/
theorem fetch_header_reject (w : World)
    (h : total_header_len w.state.cmd w.state.unlocked < 0) : fetch_header w = reject_cmd w := by
  rw [fetch_header_eq, if_pos h]

theorem total_header_len_neg_of_table (c : Nat) (u : Bool)
    (h : spec_header_len (c &&& CMD_MASK) u = none) : total_header_len c u < 0 := by
  rw [total_header_len_eq_table, h]; decide

theorem total_header_len_nonneg_of_table (c : Nat) (u : Bool) (n : Nat)
    (h : spec_header_len (c &&& CMD_MASK) u = some n) : total_header_len c u = n := by
  rw [total_header_len_eq_table, h]

/-- C3.  With no command in progress and a valid, non-empty receive slice whose
first byte `c` is an id outside the table, or one that needs the lock while the
lock is closed, `fetch_command` consumes exactly that byte, ends with
`cmd_valid` and `header_valid` false, leaves the lock flag, the cart mode, the
stored flash sequence, the transmit slice and the response so far unchanged,
and whatever byte is received next is taken as a fresh command id. -/
theorem rejected_id_is_dropped (w : World) (c : Nat)
    (hidle : w.state.cmd_valid = false)
    (hv : w.pipe_state.rx_slice_valid = true) (hlen : 0 < w.pipe_state.rx_slice.len)
    (hc : (w.rx_peek 1).getD 0 0 = c)
    (hrej : spec_header_len (c &&& CMD_MASK) w.state.unlocked = none) :
    (fetch_command w).pipe_state.rx_slice =
        { ptr := w.pipe_state.rx_slice.ptr.add 1, len := w.pipe_state.rx_slice.len - 1 } ∧
      (fetch_command w).rx_log = w.rx_log ++ [c] ∧
      (fetch_command w).state.cmd_valid = false ∧
      (fetch_command w).state.header_valid = false ∧
      (fetch_command w).state.unlocked = w.state.unlocked ∧
      (fetch_command w).state.cart_mode = w.state.cart_mode ∧
      (fetch_command w).flash_sequence = w.flash_sequence ∧
      (fetch_command w).pipe_state.tx_slice = w.pipe_state.tx_slice ∧
      (fetch_command w).pipe_state.tx_slice_valid = w.pipe_state.tx_slice_valid ∧
      (fetch_command w).tx_log = w.tx_log ∧
      (fetch_command w).hw_log = w.hw_log ∧
      (∀ (v : World) (c2 : Nat), v.state = (fetch_command w).state →
        v.pipe_state.rx_slice_valid = true → 0 < v.pipe_state.rx_slice.len →
        (v.rx_peek 1).getD 0 0 = c2 →
        (∃ l, (fetch_command v).rx_log = v.rx_log ++ c2 :: l) ∧
          (fetch_command v).state.cmd &&& CMD_MASK = c2 &&& CMD_MASK) := by
  have hneg : total_header_len (fetch_cmd_byte w).state.cmd (fetch_cmd_byte w).state.unlocked < 0 := by
    rw [fetch_cmd_byte_state]
    simp only [hc]
    exact total_header_len_neg_of_table c _ hrej
  have heq : fetch_command w = reject_cmd (fetch_cmd_byte w) := by
    rw [fetch_command_idle_ready w hidle hv hlen, fetch_header_reject _ hneg]
  have hpeek : w.rx_peek 1 = [c] := by
    rw [← hc]; simp [World.rx_peek, read_bytes_one]
  refine ⟨?_, ?_, ?_, ?_, ?_, ?_, ?_, ?_, ?_, ?_, ?_, ?_⟩
  · rw [heq]; simp [reject_cmd, fetch_cmd_byte, World.rx_advance]
  · rw [heq]; simp [reject_cmd, fetch_cmd_byte, World.rx_advance, hpeek]
  · rw [heq]; rfl
  · rw [heq]; rfl
  · rw [heq]; rfl
  · rw [heq]; rfl
  · rw [heq]; rfl
  · rw [heq]; rfl
  · rw [heq]; rfl
  · rw [heq]; rfl
  · rw [heq]; rfl
  · intro v c2 hst hv2 hlen2 hc2
    have hidle2 : v.state.cmd_valid = false := by rw [hst, heq]; rfl
    rw [fetch_command_idle_ready v hidle2 hv2 hlen2]
    constructor
    · obtain ⟨l, hl⟩ := fetch_header_rx_log (fetch_cmd_byte v)
      refine ⟨l, ?_⟩
      have hp : v.rx_peek 1 = [c2] := by
        rw [← hc2]; simp [World.rx_peek, read_bytes_one]
      rw [hl]
      simp [fetch_cmd_byte, World.rx_advance, hp]
    · rw [fetch_header_cmd_low, fetch_cmd_byte_state]
      simp only [hc2]

theorem fetch_header_ready (w : World) (h0 : w.state.header_valid = false)
    (h1 : (fetch_header w).state.header_valid = true) :
    (fetch_header w).state.cmd = w.state.cmd &&& CMD_MASK ∧
      ¬ total_header_len w.state.cmd w.state.unlocked < 0 := by
  rw [fetch_header_eq] at h1 ⊢
  split at h1
  · rw [show (reject_cmd w).state.header_valid = w.state.header_valid from rfl, h0] at h1
    exact absurd h1 (by decide)
  · rename_i hneg
    rw [if_neg hneg]
    refine ⟨?_, hneg⟩
    split at h1
    · rename_i hc
      rw [if_pos hc]
      unfold header_complete at h1 ⊢
      rcases dispatch_header_cmd ((copy_header w (header_needed_bytes w)).set_header_valid true)
        with h | h
      · exact h.1
      · rw [h.1] at h1; exact absurd h1 (by decide)
    · rw [show (copy_header w (MIN w.pipe_state.rx_slice.len (header_needed_bytes w))).state.header_valid
        = w.state.header_valid from rfl, h0] at h1
      exact absurd h1 (by decide)

/-- The command byte `fetch_command` works on: the byte it takes out of the
receive slice when no command is in progress and the slice is not empty, else
the byte already in `state.cmd`. -/
theorem fetch_command_ready (w : World) (h0 : w.state.header_valid = false)
    (h1 : (fetch_command w).state.header_valid = true) :
    ∃ c, (c = (if (pipe_rx_acquire w).state.cmd_valid = false ∧
                  0 < (pipe_rx_acquire w).pipe_state.rx_slice.len
               then ((pipe_rx_acquire w).rx_peek 1).getD 0 0 else w.state.cmd)) ∧
      (fetch_command w).state.cmd = c &&& CMD_MASK ∧
      ¬ total_header_len c w.state.unlocked < 0 := by
  have hst : (pipe_rx_acquire w).state = w.state := (pipe_rx_acquire_frame w).state
  rw [fetch_command_eq] at h1 ⊢
  split at h1
  · rename_i hv
    rw [if_pos hv]
    split at h1
    · rename_i hi
      rw [if_pos hi, if_pos hi]
      have := fetch_header_ready (fetch_cmd_byte (pipe_rx_acquire w)) rfl h1
      rw [fetch_cmd_byte_state] at this
      simp only [hst] at this
      exact ⟨_, rfl, this.1, this.2⟩
    · rename_i hi
      rw [if_neg hi, if_neg hi]
      have := fetch_header_ready (pipe_rx_acquire w) (by rw [hst]; exact h0) h1
      rw [hst] at this
      exact ⟨_, rfl, this.1, this.2⟩
  · rw [hst, h0] at h1
    exact absurd h1 (by decide)

theorem total_header_len_low (c : Nat) (u : Bool) :
    total_header_len c u = total_header_len (c &&& CMD_MASK) u := by
  rw [total_header_len_eq_table, total_header_len_eq_table, land_mask_idem]

theorem dispatch_header_top_bits (w : World) (c1 c2 : Nat)
    (h : c1 &&& CMD_MASK = c2 &&& CMD_MASK) :
    DispatchCore (dispatch_header (w.set_cmd c1)) = DispatchCore (dispatch_header (w.set_cmd c2)) := by
  have e1 : (w.set_cmd c1).state.cmd &&& CMD_MASK = c1 &&& CMD_MASK := rfl
  have e2 : (w.set_cmd c2).state.cmd &&& CMD_MASK = c1 &&& CMD_MASK := h.symm
  have hb : (w.set_cmd c1).state.header.bytes = (w.set_cmd c2).state.header.bytes := rfl
  rcases cmd_cases c1 with k | k | k | k | k | k | k | k | k | k | k | k | k | k | k
  · rw [dispatch_header_ping _ (e1.trans k), dispatch_header_ping _ (e2.trans k)]
    simp [DispatchCore, mask, World.set_tx_read_slice, World.set_cmd, h, land_mask_idem]
  · rw [dispatch_header_unlock _ (e1.trans k), dispatch_header_unlock _ (e2.trans k)]
    have hh : (w.set_cmd c1).state.header.bytes = w.state.header.bytes := rfl
    have hh2 : (w.set_cmd c2).state.header.bytes = w.state.header.bytes := rfl
    rw [hh, hh2]
    by_cases hk : read_bytes w.state.header.bytes 0 16 ≠ UNLOCK_MAGIC
    · rw [if_pos hk, if_pos hk]
      simp [DispatchCore, World.set_cmd, h]
    · rw [if_neg hk, if_neg hk]
      simp [DispatchCore, mask, World.set_tx_read_slice, World.set_cmd, h, land_mask_idem]
  · rw [dispatch_header_set_mode _ (e1.trans k), dispatch_header_set_mode _ (e2.trans k)]
    simp [DispatchCore, mask, World.set_params, World.set_cmd, h, World.hdr, land_mask_idem]
  · rw [dispatch_header_get_mode _ (e1.trans k), dispatch_header_get_mode _ (e2.trans k)]
    simp [DispatchCore, mask, World.set_params, World.set_tx_read_slice, World.set_cmd, h, land_mask_idem]
  · rw [dispatch_header_read _ (e1.trans k), dispatch_header_read _ (e2.trans k)]
    simp [DispatchCore, mask, World.set_params, World.set_cmd, h, World.hdr, land_mask_idem]
  · rw [dispatch_header_read_burst _ (e1.trans k), dispatch_header_read_burst _ (e2.trans k)]
    simp [DispatchCore, mask, World.set_params, World.set_cmd, h, World.hdr, land_mask_idem]
  · rw [dispatch_header_write _ (e1.trans k), dispatch_header_write _ (e2.trans k)]
    simp [DispatchCore, mask, World.set_params, World.set_cmd, h, World.hdr, land_mask_idem]
  · rw [dispatch_header_write_burst _ (e1.trans k), dispatch_header_write_burst _ (e2.trans k)]
    simp [DispatchCore, mask, World.set_params, World.set_cmd, h, World.hdr, land_mask_idem]
  · rw [dispatch_header_poll _ (e1.trans k), dispatch_header_poll _ (e2.trans k)]
    simp [DispatchCore, mask, World.set_params, World.set_cmd, h, World.hdr, land_mask_idem]
  · rw [dispatch_header_sfws _ (e1.trans k), dispatch_header_sfws _ (e2.trans k)]
    have hh : (w.set_cmd c1).hdr 0 = w.hdr 0 := rfl
    have hh2 : (w.set_cmd c2).hdr 0 = w.hdr 0 := rfl
    rw [hh, hh2]
    by_cases hk : w.hdr 0 > SIZEOF_FLASH_SEQUENCE_WRITE
    · rw [if_pos hk, if_pos hk]
      simp [DispatchCore, World.set_cmd, h]
    · rw [if_neg hk, if_neg hk]
      simp [DispatchCore, mask, World.set_cmd, h, land_mask_idem]
  · rw [dispatch_header_flash_burst _ (e1.trans k), dispatch_header_flash_burst _ (e2.trans k)]
    simp [DispatchCore, mask, World.set_params, World.set_tx_read_slice, World.set_cmd, h, World.hdr, land_mask_idem]
  · rw [dispatch_header_diagnostics _ (e1.trans k), dispatch_header_diagnostics _ (e2.trans k)]
    simp [DispatchCore, mask, World.set_tx_read_slice, World.set_cmd, h, land_mask_idem]
  · rw [dispatch_header_reset _ (e1.trans k), dispatch_header_reset _ (e2.trans k)]
    simp [DispatchCore, mask, World.set_params, World.set_cmd, h, World.hdr, land_mask_idem]
  · rw [dispatch_header_identify _ (e1.trans k), dispatch_header_identify _ (e2.trans k)]
    simp [DispatchCore, mask, World.set_params, World.set_tx_read_slice, World.set_cmd, h, land_mask_idem]
  · rw [dispatch_header_other _ (by rw [e1]; exact k), dispatch_header_other _ (by rw [e2]; exact k)]
    simp [DispatchCore, mask, World.set_cmd, h, land_mask_idem]

/-- C2.  For every command byte `c` and lock flag `u`: the first switch of
`fetch_command` gives `c` the header length of the table row of `c & 0x1f`
when that row is open to `u`, and rejects it (`-1`) otherwise; it depends on
`c` only through `c & 0x1f`; a rejected byte ends the command at once; whenever
`fetch_command` completes a header, `state.cmd` is the received byte stripped
to its low five bits, that id is a row the table accepts, and the operation
the switch of `execute_commands` then selects is the one of that row; and two
command bytes that differ only in bits 5 to 7 make the second switch produce
the same flags, slices, flash sequence and parameters, modifier bits apart. -/
theorem command_table_decides :
    (∀ c u, total_header_len c u =
      match spec_header_len (c &&& CMD_MASK) u with
      | some n => (n : Int)
      | none => -1) ∧
    (∀ c u, total_header_len c u = total_header_len (c &&& CMD_MASK) u) ∧
    (∀ c, select_operation (c &&& CMD_MASK) = spec_operation (c &&& CMD_MASK)) ∧
    (∀ w : World, spec_header_len (w.state.cmd &&& CMD_MASK) w.state.unlocked = none →
      fetch_header w = reject_cmd w) ∧
    (∀ w : World, w.state.header_valid = false → (fetch_command w).state.header_valid = true →
      ∃ c, c = (if (pipe_rx_acquire w).state.cmd_valid = false ∧
                    0 < (pipe_rx_acquire w).pipe_state.rx_slice.len
                then ((pipe_rx_acquire w).rx_peek 1).getD 0 0 else w.state.cmd) ∧
        (fetch_command w).state.cmd = c &&& CMD_MASK ∧
        spec_header_len (c &&& CMD_MASK) w.state.unlocked ≠ none ∧
        select_operation (fetch_command w).state.cmd = spec_operation (c &&& CMD_MASK)) ∧
    (∀ (w : World) (c1 c2 : Nat), c1 &&& CMD_MASK = c2 &&& CMD_MASK →
      DispatchCore (dispatch_header (w.set_cmd c1)) =
        DispatchCore (dispatch_header (w.set_cmd c2))) := by
  refine ⟨total_header_len_eq_table, total_header_len_low, select_operation_eq_table, ?_, ?_,
    dispatch_header_top_bits⟩
  · intro w h
    exact fetch_header_reject w (total_header_len_neg_of_table _ _ h)
  · intro w h0 h1
    obtain ⟨c, hc, hcmd, hacc⟩ := fetch_command_ready w h0 h1
    refine ⟨c, hc, hcmd, ?_, ?_⟩
    · intro hn
      exact hacc (total_header_len_neg_of_table _ _ hn)
    · rw [hcmd]; exact select_operation_eq_table c

/-- C2 at a concrete input: the byte `0xc7` (WRITE with both modifier bits)
while unlocked, and a received IDENTIFY byte with modifier bits set. -/
theorem command_table_decides_witness :
    total_header_len 0xc7 true = 3 ∧ total_header_len 0xc7 false = -1 ∧
    select_operation (0xc7 &&& CMD_MASK) = .write ∧
    (World.boot.receive [0xff]).state.header_valid = false ∧
    (fetch_command (World.boot.receive [0xff])).state.header_valid = true ∧
    (fetch_command (World.boot.receive [0xff])).state.cmd = 0x1f := by
  have h := command_table_decides
  refine ⟨by rw [h.1]; rfl, by rw [h.1]; rfl, by rw [h.2.2.1]; rfl, by decide, by decide, ?_⟩
  obtain ⟨c, hc, hcmd, -, -⟩ := h.2.2.2.2.1 (World.boot.receive [0xff]) (by decide) (by decide)
  rw [hcmd, hc]
  decide

/-- C3 at a concrete input: READ (`0x05`) arriving while the lock is closed. -/
theorem rejected_id_is_dropped_witness :
    (World.boot.receive [0x05, 0x1f]).state.cmd_valid = false ∧
    (World.boot.receive [0x05, 0x1f]).pipe_state.rx_slice_valid = true ∧
    0 < (World.boot.receive [0x05, 0x1f]).pipe_state.rx_slice.len ∧
    spec_header_len (0x05 &&& CMD_MASK) (World.boot.receive [0x05, 0x1f]).state.unlocked = none ∧
    (fetch_command (World.boot.receive [0x05, 0x1f])).rx_log =
      (World.boot.receive [0x05, 0x1f]).rx_log ++ [0x05] ∧
    (fetch_command (World.boot.receive [0x05, 0x1f])).state.cmd_valid = false :=
  have h := rejected_id_is_dropped (World.boot.receive [0x05, 0x1f]) 0x05
    (by decide) (by decide) (by decide) (by decide) (by decide)
  ⟨by decide, by decide, by decide, by decide, h.2.1, h.2.2.1⟩

theorem rx_peek_split (w : World) (n : Nat) (c : Nat) (h : List Nat)
    (hp : w.rx_peek (n + 1) = c :: h) :
    (w.rx_peek 1).getD 0 0 = c ∧ (fetch_cmd_byte w).rx_peek n = h := by
  have h1 : w.rx_peek (n + 1) = w.rx_peek 1 ++ (fetch_cmd_byte w).rx_peek n := by
    simp only [World.rx_peek, fetch_cmd_byte, World.rx_advance, PipePtr.add, World.out_buffer]
    rw [Nat.add_comm n 1, read_bytes_add]
  rw [hp] at h1
  simp only [World.rx_peek, read_bytes_one] at h1 ⊢
  simp only [List.singleton_append, List.cons.injEq] at h1
  exact ⟨by simp [h1.1], h1.2.symm⟩

/-- A command whose byte and whole header are in the receive slice is fetched
in one call: the byte and the header are taken out, and the second switch runs
on the header so stored. -/
theorem fetch_arrived (w : World) (c : Nat) (h : List Nat) (ha : Arrived w c h)
    (ht : total_header_len c w.state.unlocked = h.length) (hl : h.length ≤ 16) :
    ∃ u : World, fetch_command w = dispatch_header u ∧
      u.state = (w.with_header c h).state ∧
      u.rx_log = w.rx_log ++ c :: h ∧
      u.pipe_state.rx_slice =
        { ptr := w.pipe_state.rx_slice.ptr.add (h.length + 1),
          len := w.pipe_state.rx_slice.len - (h.length + 1) } ∧
      u.flash_sequence = w.flash_sequence ∧ u.res_pin_in = w.res_pin_in ∧
      u.bootloader_version = w.bootloader_version ∧
      u.FW_MINOR_VERSION = w.FW_MINOR_VERSION ∧ u.FW_MAJOR_VERSION = w.FW_MAJOR_VERSION ∧
      FetchFrame w u := by
  obtain ⟨hidle, hhv, hv, hlen, hp, hb⟩ := ha
  obtain ⟨hc, hrest⟩ := rx_peek_split w h.length c h hp
  have hcmd : (fetch_cmd_byte w).state.cmd = c := by rw [fetch_cmd_byte_state]; exact hc
  have hneed : header_needed_bytes (fetch_cmd_byte w) = h.length := by
    unfold header_needed_bytes
    rw [hcmd, show (fetch_cmd_byte w).state.unlocked = w.state.unlocked from rfl, ht,
      show (fetch_cmd_byte w).state.header.len = 0 from rfl]
    simp only [Int.toNat_ofNat]
    omega
  have hmin : MIN (fetch_cmd_byte w).pipe_state.rx_slice.len (header_needed_bytes (fetch_cmd_byte w))
      = header_needed_bytes (fetch_cmd_byte w) := by
    rw [hneed, show (fetch_cmd_byte w).pipe_state.rx_slice.len = w.pipe_state.rx_slice.len - 1
      from rfl]
    unfold MIN
    split <;> omega
  have hnn : ¬ total_header_len (fetch_cmd_byte w).state.cmd (fetch_cmd_byte w).state.unlocked < 0 := by
    rw [hcmd, show (fetch_cmd_byte w).state.unlocked = w.state.unlocked from rfl, ht]
    omega
  refine ⟨(copy_header (fetch_cmd_byte w) h.length).set_header_valid true,
    ?_, ?_, ?_, ?_, rfl, rfl, rfl, rfl, rfl, ?_⟩
  · rw [fetch_command_idle_ready w hidle hv (by omega), fetch_header_eq, if_neg hnn, if_pos hmin,
      hneed]
    rfl
  · simp only [World.set_header_valid, copy_header_state, fetch_cmd_byte_state,
      World.with_header, hrest, hc]
    simp
    omega
  · simp only [World.set_header_valid, copy_header, World.rx_advance, hrest]
    simp [fetch_cmd_byte, World.rx_advance, World.rx_peek, read_bytes_one]
    simp only [World.rx_peek, read_bytes_one] at hc
    simpa using hc
  · simp [World.set_header_valid, copy_header, World.rx_advance, fetch_cmd_byte, PipePtr.add]
    omega
  · exact ((fetch_cmd_byte_frame w).fetch_trans (copy_header_frame _ h.length)).fetch_trans
      (set_header_valid_frame _ true)

theorem pipe_tx_acquire_ready (w : World) (hv : w.pipe_state.tx_slice_valid = true)
    (hlen : 0 < w.pipe_state.tx_slice.len) : pipe_tx_acquire w = w := by
  unfold pipe_tx_acquire
  have h : w.pipe_state.tx_slice.len ≠ 0 := by omega
  simp [hv, h]

theorem execute_cmd_tx_read_loop_done (n : Nat) (w : World)
    (h : w.state.tx_read_slice.len = 0) : execute_cmd_tx_read_loop n w = (w, true) := by
  cases n with
  | zero => rfl
  | succ n => unfold execute_cmd_tx_read_loop; simp [h]

/-- With a transmit slice that has room for the whole response,
`execute_cmd_tx_read` completes in one call. -/
theorem execute_cmd_tx_read_room (w : World) (hv : w.pipe_state.tx_slice_valid = true)
    (hl : w.state.tx_read_slice.len ≤ w.pipe_state.tx_slice.len)
    (h256 : w.state.tx_read_slice.len < 256) : (execute_cmd_tx_read w).2 = true := by
  unfold execute_cmd_tx_read
  cases hn : w.state.tx_read_slice.len with
  | zero => rfl
  | succ k =>
    unfold execute_cmd_tx_read_loop
    have hpos : 0 < w.pipe_state.tx_slice.len := by omega
    rw [pipe_tx_acquire_ready w hv hpos]
    simp only [hn, gt_iff_lt, Nat.zero_lt_succ, if_true, hv, Bool.not_true, Bool.false_eq_true,
      if_false]
    rw [execute_cmd_tx_read_loop_done]
    rw [tx_read_copy_state]
    simp only [hn]
    have : MIN w.pipe_state.tx_slice.len (k + 1) = k + 1 := by
      unfold MIN; split <;> omega
    rw [this, Nat.mod_eq_of_lt (by omega)]
    omega

/-- What running a pending transmit command does: some prefix of the response
goes out, the command is finished exactly when the whole response has gone
out, and nothing but the read slice, the flags, the response log and the pipe
changes. -/
theorem execute_pending_tx_read (fuel : Nat) (w : World)
    (hv : w.state.header_valid = true) (hop : select_operation w.state.cmd = .tx_read)
    (h256 : w.state.tx_read_slice.len < 256) :
    ∃ m, m ≤ w.state.tx_read_slice.len ∧
      ((execute_pending fuel w).2 = true ↔ m = w.state.tx_read_slice.len) ∧
      (execute_pending fuel w).1.tx_log = w.tx_log ++ w.load w.state.tx_read_slice.ptr m ∧
      (execute_pending fuel w).1.state =
        { w.state with
          tx_read_slice := { ptr := w.state.tx_read_slice.ptr.add m,
                             len := w.state.tx_read_slice.len - m }
          cmd_valid := if m = w.state.tx_read_slice.len then false else w.state.cmd_valid
          header_valid := if m = w.state.tx_read_slice.len then false else true } ∧
      TxFrame w (execute_pending fuel w).1 := by
  obtain ⟨m, hm, hok, hst, hlog, hfr⟩ :=
    execute_cmd_tx_read_loop_spec w.state.tx_read_slice.len w (Nat.le_refl _) h256
  refine ⟨m, hm, ?_⟩
  unfold execute_pending
  simp only [hv, if_true, execute_command, hop, run_operation, execute_cmd_tx_read]
  by_cases hk : (execute_cmd_tx_read_loop w.state.tx_read_slice.len w).2 = true
  · have hm2 := hok.mp hk
    have e : execute_cmd_tx_read_loop w.state.tx_read_slice.len w =
        ((execute_cmd_tx_read_loop w.state.tx_read_slice.len w).1, true) := by
      rw [← hk]
    rw [e]
    simp only [true_iff]
    refine ⟨hm2, ?_, ?_, ?_⟩
    · simpa [clear_cmd_flags] using hlog
    · simp [clear_cmd_flags, hst, hm2]
    · refine hfr.tx_trans ?_
      apply TxFrame.tx_of_eqs; simp [clear_cmd_flags]
  · have hk' : (execute_cmd_tx_read_loop w.state.tx_read_slice.len w).2 = false := by
      simpa using hk
    have hm2 : m ≠ w.state.tx_read_slice.len := fun h => hk (hok.mpr h)
    have e : execute_cmd_tx_read_loop w.state.tx_read_slice.len w =
        ((execute_cmd_tx_read_loop w.state.tx_read_slice.len w).1, false) := by
      rw [← hk']
    rw [e]
    simp only [Bool.false_eq_true, false_iff]
    refine ⟨hm2, hlog, ?_, hfr⟩
    rw [hst]
    simp [hm2, hv]

/-- A header byte of the world with the header filled in. -/
theorem with_header_hdr (w : World) (c : Nat) (h : List Nat) (i : Nat)
    (hb : w.state.header.bytes.length = 16) (hl : h.length ≤ 16) (hi : i < h.length) :
    (w.with_header c h).hdr i = h.getD i 0 := by
  unfold World.hdr World.with_header
  simp only
  have := write_bytes_getD_ge h w.state.header.bytes 0 i hi (by omega)
  simpa using this

theorem hdr_congr (u v : World) (h : u.state = v.state) (i : Nat) : u.hdr i = v.hdr i := by
  unfold World.hdr
  rw [h]

/-- C10, as the code has it.  SET_FLASH_WRITE_SEQUENCE with count byte `N` on
arrival while unlocked: the count is compared with 64, the size in bytes of
the sixteen stored records, not with 16.
Up to 64 the command is taken, the stored length becomes `N` and a stream of
`4 * N` bytes into the record array is armed; above 64 it is dropped and the
stored sequence is left alone. -/
theorem fetch_set_flash_write_sequence (w : World) (c N : Nat) (ha : Arrived w c [N])
    (hu : w.state.unlocked = true) (hc : c &&& CMD_MASK = CMD_SET_FLASH_WRITE_SEQUENCE) :
    (N ≤ 64 →
      (fetch_command w).state.header_valid = true ∧
      (fetch_command w).state.cmd_valid = true ∧
      (fetch_command w).flash_sequence = { w.flash_sequence with len := N } ∧
      (fetch_command w).state.tx_write_slice =
        { ptr := { reg := .flash_write, off := 0 }, len := (N * 4) % 256 }) ∧
    (64 < N →
      (fetch_command w).state.header_valid = false ∧
      (fetch_command w).state.cmd_valid = false ∧
      (fetch_command w).flash_sequence = w.flash_sequence) := by
  have ht : total_header_len c w.state.unlocked = ([N] : List Nat).length := by
    rw [hu]
    have := total_header_len_nonneg_of_table c true 1 (by rw [hc]; rfl)
    simpa using this
  obtain ⟨u, hf, hst, -, -, hfs, -, -, -, -, -⟩ := fetch_arrived w c [N] ha ht (by simp)
  have hcmd : u.state.cmd &&& CMD_MASK = CMD_SET_FLASH_WRITE_SEQUENCE := by
    rw [hst]; exact hc
  have hh : u.hdr 0 = N := by
    rw [hdr_congr u _ hst 0]
    exact with_header_hdr w c [N] 0 ha.2.2.2.2.2 (by simp) (by simp)
  rw [hf, dispatch_header_sfws u hcmd, hh]
  constructor
  · intro hN
    have : ¬ N > SIZEOF_FLASH_SEQUENCE_WRITE := by
      unfold SIZEOF_FLASH_SEQUENCE_WRITE SIZEOF_WRITE; omega
    rw [if_neg this]
    simp [mask, hst, hfs, World.with_header, SIZEOF_WRITE]
  · intro hN
    have : N > SIZEOF_FLASH_SEQUENCE_WRITE := by
      unfold SIZEOF_FLASH_SEQUENCE_WRITE SIZEOF_WRITE; omega
    rw [if_pos this]
    simp [hfs]

/-- C10 at a failing input: unlocked, SET_FLASH_WRITE_SEQUENCE (`0x0a`)
arrives with count byte 17, one more than the sixteen records the sequence can
hold.  The command is
not dropped: it is taken, the stored sequence length becomes 17, and a stream
of 68 bytes into the 64-byte record array is armed. -/
theorem set_flash_write_sequence_count_17 :
    (fetch_command ((World.boot.set_unlocked true).receive [0x0a, 17])).state.header_valid = true ∧
    (fetch_command ((World.boot.set_unlocked true).receive [0x0a, 17])).state.cmd_valid = true ∧
    (fetch_command ((World.boot.set_unlocked true).receive [0x0a, 17])).flash_sequence.len = 17 ∧
    (fetch_command ((World.boot.set_unlocked true).receive [0x0a, 17])).state.tx_write_slice =
      { ptr := { reg := .flash_write, off := 0 }, len := 68 } ∧
    ((World.boot.set_unlocked true).receive [0x0a, 17]).flash_sequence.len = 0 ∧
    ((World.boot.set_unlocked true).receive [0x0a, 17]).flash_sequence.write.length = 64 := by
  have h := (fetch_set_flash_write_sequence ((World.boot.set_unlocked true).receive [0x0a, 17])
    0x0a 17 (by decide) (by decide) (by decide)).1 (by decide)
  refine ⟨h.1, h.2.1, ?_, ?_, by decide, by decide⟩
  · rw [h.2.2.1]
  · rw [h.2.2.2]

theorem setup_ep0_setup (w : World) (bm br wv wi wl : Nat) (hl : 8 ≤ w.ep0_out_buffer.length) :
    (w.setup bm br wv wi wl).ep0_setup =
      { bmRequestType := bm, bRequest := br, wValue := wv, wIndex := wi, wLength := wl } := by
  have g : ∀ i, i < 8 → (w.setup bm br wv wi wl).ep0_out_buffer.getD i 0 =
      [bm, br, wv % 256, wv / 256, wi % 256, wi / 256, wl % 256, wl / 256].getD i 0 := by
    intro i hi
    have := write_bytes_getD_ge
      [bm, br, wv % 256, wv / 256, wi % 256, wi / 256, wl % 256, wl / 256]
      w.ep0_out_buffer 0 i (by simpa using hi) (by simpa using hl)
    simpa [World.setup] using this
  unfold World.ep0_setup
  simp only [g 0 (by omega), g 1 (by omega), g 2 (by omega), g 3 (by omega), g 4 (by omega),
    g 5 (by omega), g 6 (by omega), g 7 (by omega)]
  simp [Nat.mod_add_div]

theorem read_bytes_five (a b c d e : Nat) (rest : List Nat) (k : Nat) (hk : k ≤ 5) :
    read_bytes (a :: b :: c :: d :: e :: rest) 0 k = [a, b, c, d, e].take k := by
  interval_cases k <;> simp [read_bytes, List.range_succ]

/-- The vendor control request IDENTIFY: the IN descriptor is armed with the
first `min 5 wLength` bytes of the identity blob. -/
theorem ep0_handle_setup_identify (w : World)
    (hs : w.ep0_setup.bmRequestType = 0xc0) (hr : w.ep0_setup.bRequest = VENDOR_IDENTIFY)
    (hin : 5 ≤ w.ep0_in_buffer.length) :
    (ep0_handle_setup w).ep0_in_packet = (identity_blob w).take (min 5 w.ep0_setup.wLength) ∧
    get_bit (ep0_handle_setup w).bds.ep0_in.STAT 7 = true ∧
    (ep0_handle_setup w).bds.ep0_in.BC_L = min 5 w.ep0_setup.wLength := by
  obtain ⟨a, b, c, d, e, rest, hbuf⟩ :
      ∃ a b c d e rest, w.ep0_in_buffer = a :: b :: c :: d :: e :: rest := by
    match hb : w.ep0_in_buffer, hin with
    | a :: b :: c :: d :: e :: rest, _ => exact ⟨a, b, c, d, e, rest, rfl⟩
    | [], h => rw [hb] at hin; simp at hin
    | [_], h => rw [hb] at hin; simp at hin
    | [_, _], h => rw [hb] at hin; simp at hin
    | [_, _, _], h => rw [hb] at hin; simp at hin
    | [_, _, _, _], h => rw [hb] at hin; simp at hin
  have hs2 : w.ep0_out_buffer.getD 0 0 = 0xc0 := hs
  have hr2 : w.ep0_out_buffer.getD 1 0 = 0x41 := hr
  have e1 : (192 &&& 96 : Nat) = 64 := by decide
  have g1 : get_bit (1 <<< 1 ||| 1 <<< 2) 1 = true := by decide
  have g2 : get_bit (1 <<< 1 ||| 1 <<< 2) 2 = true := by decide
  have g3 : get_bit (1 <<< 1 ||| 1 <<< 2) 3 = false := by decide
  have g4 : get_bit (1 <<< 1 ||| 1 <<< 2) 4 = false := by decide
  simp only [ep0_handle_setup, World.set_tx_statf, World.set_data_len, World.ep0_setup,
    ep0_vendor_request, hs2, hr2, World.set_ep0_in, Ep0State.set_tx_statf, VENDOR_IDENTIFY,
    VENDOR_RESET, TX_STATF_NONE, TX_STATF_DIR_IN, TX_STATF_DATA_STAGE, ep0_in_fill_buffer,
    World.ep0_in_packet, BD_ARM_DATA, hbuf, e1, g1, g2, g3, g4]
  simp
  generalize w.ep0_out_buffer[6]?.getD 0 + 256 * w.ep0_out_buffer[7]?.getD 0 = L
  have hlen : MIN (MIN 5 L % 65536) EP0_PACKET_SIZE % 256 = min 5 L := by
    have h5 : MIN 5 L = min 5 L := by unfold MIN; split <;> omega
    have h6 : min 5 L ≤ 5 := Nat.min_le_left _ _
    have h7 : MIN (min 5 L) EP0_PACKET_SIZE = min 5 L := by
      unfold MIN EP0_PACKET_SIZE; rw [if_pos (by omega)]
    rw [h5, Nat.mod_eq_of_lt (show min 5 L < 65536 by omega), h7,
      Nat.mod_eq_of_lt (show min 5 L < 256 by omega)]
  rw [hlen]
  refine ⟨?_, ?_⟩
  · rw [read_bytes_five _ _ _ _ _ _ _ (Nat.min_le_left _ _)]
    simp [identity_blob, Nat.shiftRight_eq_div_pow]
  · refine ⟨?_, rfl⟩
    split
    · exact (by decide : get_bit (set_bit (STAT_DTS_MASK ||| STAT_DTSEN_MASK) 7 true) 7 = true)
    · exact (by decide : get_bit (set_bit (0 ||| STAT_DTSEN_MASK) 7 true) 7 = true)

theorem read_bytes_take (buf : List Nat) (off m n : Nat) (h : m ≤ n) :
    read_bytes buf off m = (read_bytes buf off n).take m := by
  obtain ⟨k, rfl⟩ := Nat.exists_eq_add_of_le h
  rw [read_bytes_add, List.take_left' (read_bytes_length _ _ _)]

/-- With room in the transmit slice, a pending transmit command completes. -/
theorem execute_pending_tx_read_room (fuel : Nat) (w : World)
    (hv : w.state.header_valid = true) (hop : select_operation w.state.cmd = .tx_read)
    (h256 : w.state.tx_read_slice.len < 256) (htx : w.pipe_state.tx_slice_valid = true)
    (hl : w.state.tx_read_slice.len ≤ w.pipe_state.tx_slice.len) :
    (execute_pending fuel w).2 = true := by
  have h := execute_cmd_tx_read_room w htx hl h256
  unfold execute_pending
  simp only [hv, if_true, execute_command, hop, run_operation]
  have e : execute_cmd_tx_read w = ((execute_cmd_tx_read w).1, true) := by rw [← h]
  rw [e]

/-- IDENTIFY on arrival, locked or not: the command is taken and the response
slice holds the identity blob. -/
theorem fetch_identify (w : World) (c : Nat) (ha : Arrived w c [])
    (hc : c &&& CMD_MASK = CMD_IDENTIFY) :
    (fetch_command w).state.header_valid = true ∧
    (fetch_command w).state.cmd = CMD_IDENTIFY ∧
    (fetch_command w).state.tx_read_slice = { ptr := { reg := .params, off := 0 }, len := 5 } ∧
    (fetch_command w).load { reg := .params, off := 0 } 5 = identity_blob w ∧
    (fetch_command w).tx_log = w.tx_log ∧
    (fetch_command w).pipe_state.tx_slice = w.pipe_state.tx_slice ∧
    (fetch_command w).pipe_state.tx_slice_valid = w.pipe_state.tx_slice_valid ∧
    (fetch_command w).state.unlocked = w.state.unlocked := by
  have ht : total_header_len c w.state.unlocked = ([] : List Nat).length := by
    have := total_header_len_nonneg_of_table c w.state.unlocked 0
      (by rw [hc]; cases w.state.unlocked <;> rfl)
    simpa using this
  obtain ⟨u, hf, hst, -, -, -, -, hbv, hmin, hmaj, hfr⟩ := fetch_arrived w c [] ha ht (by simp)
  have hcmd : u.state.cmd &&& CMD_MASK = CMD_IDENTIFY := by
    rw [hst]; exact hc
  have hps := dispatch_header_pipe_state u
  rw [← hf] at hps
  refine ⟨?_, ?_, ?_, ?_, ?_, ?_, ?_, ?_⟩
  · rw [hf, dispatch_header_identify u hcmd]
    simp [mask, World.set_params, World.set_tx_read_slice, hst, World.with_header]
  · rw [hf, dispatch_header_identify u hcmd]
    simp only [mask, World.set_params, World.set_tx_read_slice]
    exact hcmd
  · rw [hf, dispatch_header_identify u hcmd]
    simp [mask, World.set_params, World.set_tx_read_slice]
  · rw [hf, dispatch_header_identify u hcmd]
    simp [mask, World.set_params, World.set_tx_read_slice, World.load, World.object,
      Params.bytes, read_bytes, List.range_succ, identity_blob, hbv, hmin, hmaj,
      Nat.shiftRight_eq_div_pow]
  · rw [hf, (dispatch_header_frame u).tx_log, hfr.tx_log]
  · rw [hps, hfr.tx_slice]
  · rw [hps, hfr.tx_slice_valid]
  · rw [hf, dispatch_header_unlocked u, hcmd, hst]
    simp [World.with_header, CMD_IDENTIFY, CMD_UNLOCK]

/-- C7.  The bulk command IDENTIFY (id byte `c` with low five bits `0x1f`,
locked or not) and the vendor control request `0x41` with `bmRequestType`
`0xc0` return the same identity: the bulk response is the five bytes
`[0x99, low byte of bootloader_version, high byte, FW_MINOR_VERSION,
FW_MAJOR_VERSION]` (what has gone out after one pass is a prefix of it, all of
it exactly when the command is finished, and all of it when the transmit slice
has room for five bytes), and the control IN packet is armed with the first
`min 5 wLength` bytes of the same five bytes. -/
theorem identify_bulk_matches_control (w : World) (c : Nat) (ha : Arrived w c [])
    (hc : c &&& CMD_MASK = CMD_IDENTIFY)
    (hs : w.ep0_setup.bmRequestType = 0xc0) (hr : w.ep0_setup.bRequest = VENDOR_IDENTIFY)
    (hin : 5 ≤ w.ep0_in_buffer.length) :
    identity_blob w =
      [0x99, w.bootloader_version % 256, w.bootloader_version / 256 % 256,
       w.FW_MINOR_VERSION % 256, w.FW_MAJOR_VERSION % 256] ∧
    (fetch_command w).state.header_valid = true ∧
    select_operation (fetch_command w).state.cmd = .tx_read ∧
    (∀ fuel, ∃ m, m ≤ 5 ∧
      (execute_pending fuel (fetch_command w)).1.tx_log = w.tx_log ++ (identity_blob w).take m ∧
      ((execute_pending fuel (fetch_command w)).2 = true ↔ m = 5)) ∧
    (w.pipe_state.tx_slice_valid = true → 5 ≤ w.pipe_state.tx_slice.len → ∀ fuel,
      (execute_pending fuel (fetch_command w)).1.tx_log = w.tx_log ++ identity_blob w ∧
      (execute_pending fuel (fetch_command w)).2 = true) ∧
    (ep0_handle_setup w).ep0_in_packet = (identity_blob w).take (min 5 w.ep0_setup.wLength) ∧
    get_bit (ep0_handle_setup w).bds.ep0_in.STAT 7 = true := by
  obtain ⟨hv, hcmd, hsl, hload, hlog, htx, htxv, -⟩ := fetch_identify w c ha hc
  obtain ⟨hpk, hown, -⟩ := ep0_handle_setup_identify w hs hr hin
  have hop : select_operation (fetch_command w).state.cmd = .tx_read := by rw [hcmd]; rfl
  have hlen : (fetch_command w).state.tx_read_slice.len = 5 := by rw [hsl]
  have hptr : (fetch_command w).state.tx_read_slice.ptr = { reg := .params, off := 0 } := by
    rw [hsl]
  have key : ∀ fuel, ∃ m, m ≤ 5 ∧
      (execute_pending fuel (fetch_command w)).1.tx_log = w.tx_log ++ (identity_blob w).take m ∧
      ((execute_pending fuel (fetch_command w)).2 = true ↔ m = 5) := by
    intro fuel
    obtain ⟨m, hm, hok, hl, -, -⟩ :=
      execute_pending_tx_read fuel (fetch_command w) hv hop (by rw [hlen]; decide)
    rw [hlen] at hm hok
    refine ⟨m, hm, ?_, hok⟩
    rw [hl, hlog, hptr, ← hload]
    unfold World.load
    rw [read_bytes_take _ _ m 5 hm]
  refine ⟨rfl, hv, hop, key, ?_, hpk, hown⟩
  intro hvalid hroom fuel
  have hdone := execute_pending_tx_read_room fuel (fetch_command w) hv hop (by rw [hlen]; decide)
    (by rw [htxv]; exact hvalid) (by rw [hlen, htx]; exact hroom)
  obtain ⟨m, -, hl, hok⟩ := key fuel
  have hm := hok.mp hdone
  subst hm
  refine ⟨?_, hdone⟩
  rw [hl]
  simp [identity_blob]

/-- C7 on the sample world: firmware 1.2 with bootloader version `0x1234`. -/
theorem identify_bulk_matches_control_witness :
    Arrived World.identify_sample 0x1f [] ∧
    World.identify_sample.ep0_setup.bmRequestType = 0xc0 ∧
    World.identify_sample.ep0_setup.bRequest = VENDOR_IDENTIFY ∧
    identity_blob World.identify_sample = [0x99, 0x34, 0x12, 2, 1] ∧
    (fetch_command World.identify_sample).state.header_valid = true ∧
    (ep0_handle_setup World.identify_sample).ep0_in_packet =
      (identity_blob World.identify_sample).take
        (min 5 World.identify_sample.ep0_setup.wLength) :=
  have h := identify_bulk_matches_control World.identify_sample 0x1f
    (by decide) (by decide) (by decide) (by decide) (by decide)
  ⟨by decide, by decide, by decide, by decide, h.2.1, h.2.2.2.2.2.1⟩

theorem cmd_bit (c i : Nat) : ((c &&& (1 <<< i)) != 0) = c.testBit i := by
  rw [Nat.one_shiftLeft, Nat.and_two_pow]
  cases c.testBit i <;> simp

theorem U16_FROM_LE_BYTES_eq (lsb msb : Nat) (h0 : lsb < 256) (h1 : msb < 256) :
    U16_FROM_LE_BYTES lsb msb = lsb + 256 * msb := by
  unfold U16_FROM_LE_BYTES
  rw [Nat.shiftLeft_eq, Nat.mul_comm msb, ← Nat.mul_add_lt_is_or (by simpa using h0)]
  omega

theorem get_set_bit_0 (b : Nat) (x : Bool) : get_bit (set_bit b 0 x) 0 = x := by
  unfold get_bit set_bit
  cases x <;> simp <;> omega

theorem get_set_bit_1 (b : Nat) (x : Bool) : get_bit (set_bit b 1 x) 1 = x := by
  unfold get_bit set_bit
  cases x <;> simp <;> omega

theorem get_set_bit_0_1 (b : Nat) (x : Bool) : get_bit (set_bit b 1 x) 0 = get_bit b 0 := by
  unfold get_bit set_bit
  cases x <;> simp <;> omega

/-- WRITE on arrival while unlocked: the command is taken and the parameter
union holds the two gating bits, the address and the data byte. -/
theorem fetch_write (w : World) (c a0 a1 d : Nat) (ha : Arrived w c [a0, a1, d])
    (hu : w.state.unlocked = true) (hc : c &&& CMD_MASK = CMD_WRITE)
    (h0 : a0 < 256) (h1 : a1 < 256) :
    (fetch_command w).state.header_valid = true ∧
    (fetch_command w).state.cmd = CMD_WRITE ∧
    get_bit (fetch_command w).state.params.b0 0 = c.testBit 7 ∧
    get_bit (fetch_command w).state.params.b0 1 = c.testBit 6 ∧
    (fetch_command w).state.params.addr = a0 + 256 * a1 ∧
    (fetch_command w).state.params.b3 = d ∧
    (fetch_command w).hw_log = w.hw_log ∧
    (fetch_command w).tx_log = w.tx_log := by
  have ht : total_header_len c w.state.unlocked = ([a0, a1, d] : List Nat).length := by
    rw [hu]
    have := total_header_len_nonneg_of_table c true 3 (by rw [hc]; rfl)
    simpa using this
  obtain ⟨u, hf, hst, -, -, -, -, -, -, -, hfr⟩ := fetch_arrived w c [a0, a1, d] ha ht (by simp)
  have hcmd : u.state.cmd &&& CMD_MASK = CMD_WRITE := by
    rw [hst]; exact hc
  have hb := ha.2.2.2.2.2
  have hh0 : u.hdr 0 = a0 := by
    rw [hdr_congr u _ hst 0]; exact with_header_hdr w c [a0, a1, d] 0 hb (by simp) (by simp)
  have hh1 : u.hdr 1 = a1 := by
    rw [hdr_congr u _ hst 1]; exact with_header_hdr w c [a0, a1, d] 1 hb (by simp) (by simp)
  have hh2 : u.hdr 2 = d := by
    rw [hdr_congr u _ hst 2]; exact with_header_hdr w c [a0, a1, d] 2 hb (by simp) (by simp)
  have hucmd : u.state.cmd = c := by rw [hst]; rfl
  have hfr2 := hfr.fetch_trans (dispatch_header_frame u)
  rw [← hf] at hfr2
  rw [hf, dispatch_header_write u hcmd, hh0, hh1, hh2, U16_FROM_LE_BYTES_eq a0 a1 h0 h1, hucmd,
    cmd_bit, cmd_bit]
  rw [hf, dispatch_header_write u hcmd] at hfr2
  refine ⟨?_, ?_, ?_, ?_, ?_, ?_, hfr2.hw_log, hfr2.tx_log⟩
  · simp [mask, World.set_params, hst, World.with_header]
  · simp only [mask, World.set_params]; rw [hucmd]; exact hc
  · simp only [mask, World.set_params]
    rw [get_set_bit_0_1, get_set_bit_0]
  · simp only [mask, World.set_params]
    rw [get_set_bit_1]
  · simp only [mask, World.set_params, Params.addr]
    omega
  · simp only [mask, World.set_params]

/-- C9.  While unlocked, WRITE with command byte `c` (low five bits `0x07`) and
header `[a0, a1, d]` is taken, and executing it performs exactly one bus
write, of `d` at `a0 + 256 * a1`, between `RD_PIN_OUT(1)` and `RD_PIN_OUT(0)`:
framed by chip select iff bit 7 of `c` is set (by A15 as driven with the
address otherwise), strobed by the alternate pin iff bit 6 of `c` is set.  No
response byte is produced and the command is finished. -/
theorem write_command_single_bus_write (w : World) (c a0 a1 d : Nat) (fuel : Nat)
    (ha : Arrived w c [a0, a1, d]) (hu : w.state.unlocked = true)
    (hc : c &&& CMD_MASK = CMD_WRITE) (h0 : a0 < 256) (h1 : a1 < 256) :
    (fetch_command w).state.header_valid = true ∧
    (fetch_command w).hw_log = w.hw_log ∧
    (execute_pending fuel (fetch_command w)).1.hw_log =
      w.hw_log ++
        [.rd_pin true,
         .write_byte (a0 + 256 * a1) d (if c.testBit 7 then .cs else .a15_addr)
           (if c.testBit 6 then .vin else .wr),
         .rd_pin false] ∧
    (execute_pending fuel (fetch_command w)).1.tx_log = w.tx_log ∧
    (execute_pending fuel (fetch_command w)).2 = true ∧
    (execute_pending fuel (fetch_command w)).1.state.header_valid = false ∧
    (execute_pending fuel (fetch_command w)).1.state.cmd_valid = false := by
  obtain ⟨hv, hcmd, hb7, hb6, haddr, hd, hhw, htx⟩ := fetch_write w c a0 a1 d ha hu hc h0 h1
  have hop : select_operation (fetch_command w).state.cmd = .write := by rw [hcmd]; rfl
  refine ⟨hv, hhw, ?_⟩
  unfold execute_pending
  simp only [hv, if_true, execute_command, hop, run_operation, clear_cmd_flags]
  refine ⟨?_, ?_, trivial, trivial, trivial⟩
  · unfold execute_cmd_write
    simp only [hb7, hb6, haddr, hd, World.hw, hhw]
    cases c.testBit 7 <;> cases c.testBit 6 <;> simp
  · unfold execute_cmd_write
    simp only [World.hw]
    split <;> split <;> exact htx

/-- C9 at a concrete input: `0xc7` (both gating bits set), address `0x1234`,
data `0xab`. -/
theorem write_command_single_bus_write_witness :
    Arrived ((World.boot.set_unlocked true).receive [0xc7, 0x34, 0x12, 0xab])
      0xc7 [0x34, 0x12, 0xab] ∧
    (execute_pending 1
        (fetch_command ((World.boot.set_unlocked true).receive [0xc7, 0x34, 0x12, 0xab]))).1.hw_log =
      ((World.boot.set_unlocked true).receive [0xc7, 0x34, 0x12, 0xab]).hw_log ++
        [.rd_pin true, .write_byte 0x1234 0xab .cs .vin, .rd_pin false] ∧
    (execute_pending 1
        (fetch_command ((World.boot.set_unlocked true).receive [0xc7, 0x34, 0x12, 0xab]))).1.tx_log =
      ((World.boot.set_unlocked true).receive [0xc7, 0x34, 0x12, 0xab]).tx_log :=
  have h := write_command_single_bus_write
    ((World.boot.set_unlocked true).receive [0xc7, 0x34, 0x12, 0xab]) 0xc7 0x34 0x12 0xab 1
    (by decide) (by decide) (by decide) (by decide) (by decide)
  ⟨by decide, h.2.2.1, h.2.2.2.1⟩

/-- C8.  GET_MODE on arrival while unlocked: the command is taken with a
two-byte response read from the parameter union.  Its first byte is the stored
cart mode byte; its second byte is the byte the union already held at offset
1, with bit 0 replaced by the reset-pin level.  Bits 1 to 7 of the second byte
are whatever the previous command left there, not zero. -/
theorem get_mode_response (w : World) (c : Nat) (ha : Arrived w c [])
    (hu : w.state.unlocked = true) (hc : c &&& CMD_MASK = CMD_GET_MODE) :
    (fetch_command w).state.header_valid = true ∧
    (fetch_command w).state.cmd = CMD_GET_MODE ∧
    (fetch_command w).state.tx_read_slice = { ptr := { reg := .params, off := 0 }, len := 2 } ∧
    (fetch_command w).load { reg := .params, off := 0 } 2 =
      [w.state.cart_mode, set_bit w.state.params.b1 0 w.res_pin_in] := by
  have ht : total_header_len c w.state.unlocked = ([] : List Nat).length := by
    rw [hu]
    have := total_header_len_nonneg_of_table c true 0 (by rw [hc]; rfl)
    simpa using this
  obtain ⟨u, hf, hst, -, -, -, hpin, -, -, -, -⟩ := fetch_arrived w c [] ha ht (by simp)
  have hcmd : u.state.cmd &&& CMD_MASK = CMD_GET_MODE := by
    rw [hst]; exact hc
  rw [hf, dispatch_header_get_mode u hcmd]
  refine ⟨?_, ?_, ?_, ?_⟩
  · simp [mask, World.set_params, World.set_tx_read_slice, hst, World.with_header]
  · simp only [mask, World.set_params, World.set_tx_read_slice]
    exact hcmd
  · simp [mask, World.set_params, World.set_tx_read_slice]
  · simp [mask, World.set_params, World.set_tx_read_slice, World.load, World.object,
      Params.bytes, read_bytes, List.range_succ, hst, hpin, World.with_header]

/-- C8 at a failing input: unlocked, firmware with bootloader version `0x1234`,
reset pin high.  After IDENTIFY and SET_MODE `0b00000001`, GET_MODE answers
`[0x01, 0x35]`: the second byte carries the low bootloader byte `0x34` left in
the union by IDENTIFY, next to the pin level in bit 0. -/
theorem get_mode_response_witness :
    Arrived World.get_mode_sample 0x04 [] ∧
    World.get_mode_sample.state.unlocked = true ∧
    World.get_mode_sample.state.cart_mode = 0x01 ∧
    World.get_mode_sample.res_pin_in = true ∧
    (fetch_command World.get_mode_sample).load { reg := .params, off := 0 } 2 = [0x01, 0x35] ∧
    (execute_commands 8 World.get_mode_sample).tx_log =
      [0x99, 0x34, 0x12, 2, 1] ++ [0x01, 0x35] := by
  have h := get_mode_response World.get_mode_sample 0x04 (by decide) (by decide) (by decide)
  refine ⟨by decide, by decide, by decide, by decide, ?_, by decide⟩
  rw [h.2.2.2]
  decide

/-- The lock flag after the second switch: it was set already, or the
command is UNLOCK with the key in the header, taken and ready to run. -/
theorem dispatch_header_unlocked_cases (v : World) (hv : v.state.header_valid = true)
    (h : (dispatch_header v).state.unlocked = true) :
    v.state.unlocked = true ∨
      ((dispatch_header v).state.header_valid = true ∧
        (dispatch_header v).state.cmd = CMD_UNLOCK ∧
        read_bytes (dispatch_header v).state.header.bytes 0 16 = UNLOCK_MAGIC) := by
  rw [dispatch_header_unlocked] at h
  rw [dispatch_header_header]
  simp only [Bool.or_eq_true, Bool.and_eq_true, decide_eq_true_eq] at h
  rcases h with h | ⟨hc, hk⟩
  · exact Or.inl h
  · right
    rw [dispatch_header_unlock v hc, if_neg (by rw [hk]; simp)]
    exact ⟨hv, hc, hk⟩

theorem header_complete_unlocked (w : World)
    (h : (header_complete w).state.unlocked = true) :
    w.state.unlocked = true ∨
      ((header_complete w).state.header_valid = true ∧
        (header_complete w).state.cmd = CMD_UNLOCK ∧
        read_bytes (header_complete w).state.header.bytes 0 16 = UNLOCK_MAGIC) :=
  dispatch_header_unlocked_cases (w.set_header_valid true) rfl h

theorem fetch_header_unlocked (w : World) (h : (fetch_header w).state.unlocked = true) :
    w.state.unlocked = true ∨
      ((fetch_header w).state.header_valid = true ∧
        (fetch_header w).state.cmd = CMD_UNLOCK ∧
        read_bytes (fetch_header w).state.header.bytes 0 16 = UNLOCK_MAGIC) := by
  rw [fetch_header_eq] at h ⊢
  split at h
  · exact Or.inl h
  · split at h
    · rename_i h1 h2
      rw [if_neg h1, if_pos h2]
      exact header_complete_unlocked _ h
    · exact Or.inl h

/-- The only way `fetch_command` sets the lock flag: completing the header of
an UNLOCK command that holds the key. -/
theorem fetch_command_unlocked (w : World) (h : (fetch_command w).state.unlocked = true) :
    w.state.unlocked = true ∨
      ((fetch_command w).state.header_valid = true ∧
        (fetch_command w).state.cmd = CMD_UNLOCK ∧
        read_bytes (fetch_command w).state.header.bytes 0 16 = UNLOCK_MAGIC) := by
  have hst : (pipe_rx_acquire w).state = w.state := (pipe_rx_acquire_frame w).state
  rw [fetch_command_eq] at h ⊢
  split at h
  · rename_i hv
    rw [if_pos hv]
    split at h
    · rename_i hc
      rw [if_pos hc]
      rcases fetch_header_unlocked _ h with h2 | h2
      · left
        rw [fetch_cmd_byte_state, hst] at h2
        exact h2
      · exact Or.inr h2
    · rename_i hc
      rw [if_neg hc]
      rcases fetch_header_unlocked _ h with h2 | h2
      · left; rw [hst] at h2; exact h2
      · exact Or.inr h2
  · left; rw [hst] at h; exact h

/-! ### The lock flag through the execution of a command -/

theorem bus_read_to_tx_state (w : World) (op : HwOp) : (bus_read_to_tx w op).state = w.state := by
  unfold bus_read_to_tx
  simp only [tx_put_state]
  rfl

theorem poll_flash_loop_state (e : Bool) (fuel : Nat) (w : World) (old : Nat) :
    (poll_flash_loop e fuel w old).1.state = w.state := by
  induction fuel generalizing w old with
  | zero => rfl
  | succ n ih =>
    unfold poll_flash_loop
    simp only []
    split_ifs <;> first | rfl | (rw [ih]; rfl)

theorem poll_flash_data_state (fuel : Nat) (w : World) (addr : Nat) (e : Bool) :
    (poll_flash_data fuel w addr e).1.state = w.state := by
  unfold poll_flash_data
  simp only [poll_flash_loop_state]
  rfl

theorem execute_cmd_read_unlocked (w : World) :
    (execute_cmd_read w).1.state.unlocked = w.state.unlocked := by
  have h := (pipe_tx_acquire_frame w).state
  unfold execute_cmd_read
  simp only []
  split
  · rw [h]
  · split <;> simp only [bus_read_to_tx_state, h]

theorem READ_BURST_FAST_state (n : Nat) (w : World) (a : Nat) :
    (READ_BURST_FAST n w a).state = w.state := by
  induction n generalizing w a with
  | zero => rfl
  | succ n ih =>
    unfold READ_BURST_FAST
    rw [ih, bus_read_to_tx_state]

theorem READ_BURST_unlocked (g : Gate) (n : Nat) (w : World) :
    (READ_BURST g n w).state.unlocked = w.state.unlocked := by
  induction n generalizing w with
  | zero => rfl
  | succ n ih =>
    unfold READ_BURST
    simp only []
    rw [ih]
    simp only [World.set_params, bus_read_to_tx_state]

theorem execute_cmd_read_burst_loop_unlocked (n : Nat) (w : World) :
    (execute_cmd_read_burst_loop n w).1.state.unlocked = w.state.unlocked := by
  induction n generalizing w with
  | zero => rfl
  | succ n ih =>
    have h := (pipe_tx_acquire_frame w).state
    unfold execute_cmd_read_burst_loop
    simp only []
    split
    · split
      · rw [h]
      · rw [ih]
        split
        · split <;>
            simp only [World.hw, World.set_params, READ_BURST_FAST_state, h]
        · split <;> simp only [READ_BURST_unlocked, World.set_params, h]
    · rfl

theorem execute_cmd_write_state (w : World) : (execute_cmd_write w).state = w.state := by
  unfold execute_cmd_write
  simp only [World.hw]
  split <;> split <;> rfl

theorem write_burst_bytes_unlocked (g : Gate) (s : Strobe) (n : Nat) (w : World) :
    (write_burst_bytes g s n w).state.unlocked = w.state.unlocked := by
  induction n generalizing w with
  | zero => rfl
  | succ n ih =>
    unfold write_burst_bytes
    simp only []
    rw [ih]
    rfl

theorem execute_cmd_write_burst_unlocked (fuel : Nat) (w : World) :
    (execute_cmd_write_burst fuel w).1.state.unlocked = w.state.unlocked := by
  induction fuel generalizing w with
  | zero => rfl
  | succ n ih =>
    have h := (pipe_rx_acquire_frame w).state
    unfold execute_cmd_write_burst
    simp only []
    split
    · split
      · rw [h]
      · rw [ih]
        simp only [World.hw]
        split <;> split <;> simp only [write_burst_bytes_unlocked, World.set_params, World.hw, h]
    · rfl

theorem execute_cmd_poll_flash_data_unlocked (fuel : Nat) (w : World) :
    (execute_cmd_poll_flash_data fuel w).1.state.unlocked = w.state.unlocked := by
  have h := (pipe_tx_acquire_frame w).state
  unfold execute_cmd_poll_flash_data
  simp only []
  split
  · rw [h]
  · have hp := poll_flash_data_state fuel (pipe_tx_acquire w)
      (pipe_tx_acquire w).state.params.poll_addr (get_bit (pipe_tx_acquire w).state.params.b2 7)
    split
    · rename_i w2 heq
      rw [heq] at hp
      simp only at hp
      rw [hp, h]
    · rename_i w2 d heq
      rw [heq] at hp
      simp only at hp
      simp only [tx_put_state]
      rw [hp, h]

theorem tx_write_put_state (w : World) (src : List Nat) : (w.tx_write_put src).state = w.state := by
  unfold World.tx_write_put
  simp only []
  split <;> rfl

theorem execute_cmd_set_flash_write_sequence_unlocked (fuel : Nat) (w : World) :
    (execute_cmd_set_flash_write_sequence fuel w).1.state.unlocked = w.state.unlocked := by
  induction fuel generalizing w with
  | zero => rfl
  | succ n ih =>
    have h := (pipe_rx_acquire_frame w).state
    unfold execute_cmd_set_flash_write_sequence
    simp only []
    split
    · split
      · rw [h]
      · rw [ih]
        simp only [rx_advance_state, tx_write_put_state, h]
    · rfl

theorem replay_write_state (w : World) (j : Nat) : (replay_write w j).state = w.state := by
  unfold replay_write
  simp only [World.hw]
  split <;> rfl

theorem replay_sequence_state (w : World) : (replay_sequence w).state = w.state := by
  unfold replay_sequence
  generalize List.range w.flash_sequence.len = l
  induction l generalizing w with
  | nil => rfl
  | cons j js ih => rw [List.foldl_cons, ih, replay_write_state]

theorem flash_burst_bytes_unlocked (fuel n : Nat) (w : World) :
    (flash_burst_bytes fuel n w).state.unlocked = w.state.unlocked := by
  induction n generalizing w with
  | zero => rfl
  | succ n ih =>
    unfold flash_burst_bytes
    simp only []
    split
    · split
      · rename_i w2 heq
        have hp := congrArg (fun r => r.1.state) heq
        simp only [poll_flash_data_state] at hp
        rw [← hp]
        split <;> simp only [World.hw, World.set_params, replay_sequence_state, rx_advance_state]
      · rename_i w2 d heq
        have hp := congrArg (fun r => r.1.state) heq
        simp only [poll_flash_data_state] at hp
        rw [ih, ← hp]
        split <;> simp only [World.hw, World.set_params, replay_sequence_state, rx_advance_state]
    · rw [ih]
      rfl

theorem execute_cmd_tx_read_loop_unlocked (n : Nat) (w : World) :
    (execute_cmd_tx_read_loop n w).1.state.unlocked = w.state.unlocked := by
  induction n generalizing w with
  | zero => rfl
  | succ n ih =>
    have h := (pipe_tx_acquire_frame w).state
    unfold execute_cmd_tx_read_loop
    simp only []
    split
    · split
      · rw [h]
      · rw [ih, tx_read_copy_state, h]
    · rfl

theorem execute_cmd_flash_burst_unlocked (fuel : Nat) (w : World) :
    (execute_cmd_flash_burst fuel w).1.state.unlocked = w.state.unlocked := by
  induction fuel generalizing w with
  | zero => rfl
  | succ n ih =>
    have h := (pipe_rx_acquire_frame w).state
    unfold execute_cmd_flash_burst
    simp only []
    split
    · split
      · rw [h]
      · split
        · simp only [flash_burst_bytes_unlocked, World.set_params, h]
        · rw [ih]
          simp only [flash_burst_bytes_unlocked, World.set_params, h]
    · exact execute_cmd_tx_read_loop_unlocked _ w

/-- Running a command never changes the lock flag. -/
theorem run_operation_unlocked (fuel : Nat) (w : World) (op : Operation) :
    (run_operation fuel w op).1.state.unlocked = w.state.unlocked := by
  cases op with
  | tx_read => exact execute_cmd_tx_read_loop_unlocked _ w
  | set_mode =>
    simp only [run_operation, apply_cart_mode, World.hw]
    split <;> split <;> rfl
  | read => exact execute_cmd_read_unlocked w
  | read_burst => exact execute_cmd_read_burst_loop_unlocked _ w
  | write => simp only [run_operation, execute_cmd_write_state]
  | write_burst => exact execute_cmd_write_burst_unlocked fuel w
  | poll_flash_data => exact execute_cmd_poll_flash_data_unlocked fuel w
  | set_flash_write_sequence => exact execute_cmd_set_flash_write_sequence_unlocked fuel w
  | flash_burst => exact execute_cmd_flash_burst_unlocked fuel w
  | reset => rfl
  | nop => rfl

/-- The pending-command half of `execute_commands` never changes the lock
flag. -/
theorem execute_pending_unlocked (fuel : Nat) (w : World) :
    (execute_pending fuel w).1.state.unlocked = w.state.unlocked := by
  have h := run_operation_unlocked fuel w (select_operation w.state.cmd)
  unfold execute_pending execute_command
  split
  · split
    · rename_i w2 heq
      rw [heq] at h
      exact h
    · rename_i w2 heq
      rw [heq] at h
      exact h
  · rfl

/-- The response of a pending transmit command whose read slice holds `resp`:
after one pass a prefix of `resp` has gone out, all of it exactly when the
command is finished, and all of it when the transmit slice has room. -/
theorem execute_pending_response (fuel : Nat) (w : World) (resp : List Nat)
    (hv : w.state.header_valid = true) (hop : select_operation w.state.cmd = .tx_read)
    (h256 : resp.length < 256) (hlen : w.state.tx_read_slice.len = resp.length)
    (hload : w.load w.state.tx_read_slice.ptr resp.length = resp) :
    (∃ m, m ≤ resp.length ∧
      (execute_pending fuel w).1.tx_log = w.tx_log ++ resp.take m ∧
      ((execute_pending fuel w).2 = true ↔ m = resp.length)) ∧
    (w.pipe_state.tx_slice_valid = true → resp.length ≤ w.pipe_state.tx_slice.len →
      (execute_pending fuel w).1.tx_log = w.tx_log ++ resp ∧
      (execute_pending fuel w).2 = true) := by
  have key : ∃ m, m ≤ resp.length ∧
      (execute_pending fuel w).1.tx_log = w.tx_log ++ resp.take m ∧
      ((execute_pending fuel w).2 = true ↔ m = resp.length) := by
    obtain ⟨m, hm, hok, hl, -, -⟩ := execute_pending_tx_read fuel w hv hop (by rw [hlen]; exact h256)
    rw [hlen] at hm hok
    refine ⟨m, hm, ?_, hok⟩
    rw [hl]
    congr 1
    have h2 := read_bytes_take (w.object w.state.tx_read_slice.ptr.reg) w.state.tx_read_slice.ptr.off
      m resp.length hm
    unfold World.load at hload ⊢
    rw [h2, hload]
  refine ⟨key, ?_⟩
  intro hvalid hroom
  have hdone := execute_pending_tx_read_room fuel w hv hop (by rw [hlen]; exact h256) hvalid
    (by rw [hlen]; exact hroom)
  obtain ⟨m, -, hl, hok⟩ := key
  have hm := hok.mp hdone
  subst hm
  refine ⟨?_, hdone⟩
  rw [hl, List.take_length]

/-- UNLOCK on arrival, in either lock state, with the key in the header: the
lock opens and the response slice holds the sixteen header bytes. -/
theorem fetch_unlock_key (w : World) (c : Nat) (ha : Arrived w c UNLOCK_MAGIC)
    (hc : c &&& CMD_MASK = CMD_UNLOCK) :
    (fetch_command w).state.unlocked = true ∧
    (fetch_command w).state.header_valid = true ∧
    (fetch_command w).state.cmd = CMD_UNLOCK ∧
    (fetch_command w).state.tx_read_slice.len = 16 ∧
    (fetch_command w).load (fetch_command w).state.tx_read_slice.ptr 16 = UNLOCK_MAGIC ∧
    (fetch_command w).tx_log = w.tx_log ∧
    (fetch_command w).pipe_state.tx_slice = w.pipe_state.tx_slice ∧
    (fetch_command w).pipe_state.tx_slice_valid = w.pipe_state.tx_slice_valid := by
  have ht : total_header_len c w.state.unlocked = UNLOCK_MAGIC.length := by
    have := total_header_len_nonneg_of_table c w.state.unlocked 16
      (by rw [hc]; cases w.state.unlocked <;> rfl)
    simpa [UNLOCK_MAGIC] using this
  obtain ⟨u, hf, hst, -, -, -, -, -, -, -, hfr⟩ :=
    fetch_arrived w c UNLOCK_MAGIC ha ht (by decide)
  have hcmd : u.state.cmd &&& CMD_MASK = CMD_UNLOCK := by
    rw [hst]; exact hc
  have hkey : read_bytes u.state.header.bytes 0 16 = UNLOCK_MAGIC := by
    rw [hst]
    simp only [World.with_header]
    exact read_write_bytes_same UNLOCK_MAGIC w.state.header.bytes 0
      (by rw [ha.2.2.2.2.2]; decide)
  have hps := dispatch_header_pipe_state u
  have hfr2 := dispatch_header_frame u
  rw [← hf] at hps hfr2
  have hd := dispatch_header_unlock u hcmd
  rw [if_neg (by rw [hkey]; simp), ← hf] at hd
  refine ⟨?_, ?_, ?_, ?_, ?_, ?_, ?_, ?_⟩
  · rw [hd]; rfl
  · rw [hd]
    simp [mask, World.set_tx_read_slice, hst, World.with_header]
  · rw [hd]; exact hcmd
  · rw [hd]; rfl
  · rw [hd]; exact hkey
  · rw [hfr2.tx_log, hfr.tx_log]
  · rw [hps, hfr.tx_slice]
  · rw [hps, hfr.tx_slice_valid]

/-- UNLOCK on arrival with a header that is not the key: the command is
dropped and nothing else changes. -/
theorem fetch_unlock_wrong (w : World) (c : Nat) (h : List Nat) (ha : Arrived w c h)
    (hl : h.length = 16) (hc : c &&& CMD_MASK = CMD_UNLOCK) (hne : h ≠ UNLOCK_MAGIC) :
    (fetch_command w).state.cmd_valid = false ∧
    (fetch_command w).state.header_valid = false ∧
    (fetch_command w).state.unlocked = w.state.unlocked ∧
    (fetch_command w).tx_log = w.tx_log ∧
    (fetch_command w).state.cart_mode = w.state.cart_mode ∧
    (fetch_command w).flash_sequence = w.flash_sequence ∧
    (fetch_command w).hw_log = w.hw_log := by
  have ht : total_header_len c w.state.unlocked = h.length := by
    have := total_header_len_nonneg_of_table c w.state.unlocked 16
      (by rw [hc]; cases w.state.unlocked <;> rfl)
    rw [hl]; simpa using this
  obtain ⟨u, hf, hst, -, -, hfs, -, -, -, -, hfr⟩ := fetch_arrived w c h ha ht (by omega)
  have hcmd : u.state.cmd &&& CMD_MASK = CMD_UNLOCK := by
    rw [hst]; exact hc
  have hkey : read_bytes u.state.header.bytes 0 16 = h := by
    rw [hst, ← hl]
    exact read_write_bytes_same h w.state.header.bytes 0 (by rw [ha.2.2.2.2.2]; omega)
  have hfr2 := dispatch_header_frame u
  rw [← hf] at hfr2
  have hd := dispatch_header_unlock u hcmd
  rw [if_pos (by rw [hkey]; exact hne), ← hf] at hd
  refine ⟨?_, ?_, ?_, ?_, ?_, ?_, ?_⟩
  · rw [hd]
  · rw [hd]
  · rw [hd]; simp only; rw [hst]; rfl
  · rw [hfr2.tx_log, hfr.tx_log]
  · rw [hfr2.cart_mode, hfr.cart_mode]
  · rw [hd]; exact hfs
  · rw [hfr2.hw_log, hfr.hw_log]

/-- UNLOCK received as a whole (id byte `c` with low five bits `0x02`, 16-byte
header `h`), in either lock state.  If `h` is the key, `fetch_command` sets the lock
flag and takes the command, and its response is the sixteen key bytes (after
one pass a prefix of them has gone out, all of them exactly when the command
is finished, and all of them when the transmit slice has room).  If `h` is not
the key, the command is dropped with both flags cleared, the lock flag keeps
its value, and no response byte is produced, by the fetch or by the pass that
follows.  `fetch_command` leaves the lock flag set only if it was set or the
second switch has just run for UNLOCK on a header buffer that holds the key,
running a command never changes it, and `reset_state` clears it. -/
theorem unlock_command (w : World) (c : Nat) (h : List Nat) (ha : Arrived w c h)
    (hl : h.length = 16) (hc : c &&& CMD_MASK = CMD_UNLOCK) :
    (h = UNLOCK_MAGIC →
      (fetch_command w).state.unlocked = true ∧
      (fetch_command w).state.header_valid = true ∧
      select_operation (fetch_command w).state.cmd = .tx_read ∧
      (∀ fuel, ∃ m, m ≤ 16 ∧
        (execute_pending fuel (fetch_command w)).1.tx_log = w.tx_log ++ UNLOCK_MAGIC.take m ∧
        ((execute_pending fuel (fetch_command w)).2 = true ↔ m = 16)) ∧
      (w.pipe_state.tx_slice_valid = true → 16 ≤ w.pipe_state.tx_slice.len → ∀ fuel,
        (execute_pending fuel (fetch_command w)).1.tx_log = w.tx_log ++ UNLOCK_MAGIC ∧
        (execute_pending fuel (fetch_command w)).2 = true)) ∧
    (h ≠ UNLOCK_MAGIC →
      (fetch_command w).state.cmd_valid = false ∧
      (fetch_command w).state.header_valid = false ∧
      (fetch_command w).state.unlocked = w.state.unlocked ∧
      (fetch_command w).tx_log = w.tx_log ∧
      ∀ fuel, (execute_pending fuel (fetch_command w)).1.tx_log = w.tx_log ∧
        (execute_pending fuel (fetch_command w)).1.state.unlocked = w.state.unlocked) ∧
    (∀ v : World, (fetch_command v).state.unlocked = true →
      v.state.unlocked = true ∨
        ((fetch_command v).state.header_valid = true ∧
          (fetch_command v).state.cmd = CMD_UNLOCK ∧
          read_bytes (fetch_command v).state.header.bytes 0 16 = UNLOCK_MAGIC)) ∧
    (∀ (fuel : Nat) (v : World),
      (execute_pending fuel v).1.state.unlocked = v.state.unlocked) ∧
    (∀ v : World, (reset_state v).state.unlocked = false) := by
  refine ⟨?_, ?_, fetch_command_unlocked, execute_pending_unlocked, ?_⟩
  · intro hk
    subst hk
    obtain ⟨hu, hv, hcmd, hlen, hload, hlog, htx, htxv⟩ := fetch_unlock_key w c ha hc
    have hop : select_operation (fetch_command w).state.cmd = .tx_read := by rw [hcmd]; rfl
    have hr := fun fuel => execute_pending_response fuel (fetch_command w) UNLOCK_MAGIC hv hop
      (by decide) hlen hload
    refine ⟨hu, hv, hop, ?_, ?_⟩
    · intro fuel
      have := (hr fuel).1
      rw [hlog] at this
      exact this
    · intro hvalid hroom fuel
      have := (hr fuel).2 (by rw [htxv]; exact hvalid) (by rw [htx]; exact hroom)
      rw [hlog] at this
      exact this
  · intro hne
    obtain ⟨h1, h2, h3, h4, -, -, -⟩ := fetch_unlock_wrong w c h ha hl hc hne
    refine ⟨h1, h2, h3, h4, ?_⟩
    intro fuel
    constructor
    · unfold execute_pending
      rw [h2]
      exact h4
    · rw [execute_pending_unlocked, h3]
  · intro v
    unfold reset_state apply_cart_mode
    simp only [World.hw]
    split <;> split <;> rfl

/-- UNLOCK at concrete inputs: after reset, UNLOCK with the key opens the lock
and echoes the key. -/
theorem unlock_command_witness :
    Arrived (World.boot.receive (0x02 :: UNLOCK_MAGIC)) 0x02 UNLOCK_MAGIC ∧
    (World.boot.receive (0x02 :: UNLOCK_MAGIC)).state.unlocked = false ∧
    (fetch_command (World.boot.receive (0x02 :: UNLOCK_MAGIC))).state.unlocked = true ∧
    (execute_commands 4 (World.boot.receive (0x02 :: UNLOCK_MAGIC))).tx_log = UNLOCK_MAGIC :=
  have h := unlock_command (World.boot.receive (0x02 :: UNLOCK_MAGIC)) 0x02 UNLOCK_MAGIC
    (by decide) (by decide) (by decide)
  ⟨by decide, by decide, (h.1 rfl).1, by decide⟩

theorem lock_required_rejected (c : Nat) (h : c &&& CMD_MASK ∈ LOCK_REQUIRED) :
    spec_header_len (c &&& CMD_MASK) false = none := by
  generalize c &&& CMD_MASK = x at h
  simp only [LOCK_REQUIRED, List.mem_cons, List.mem_singleton, List.not_mem_nil, or_false] at h
  rcases h with h | h | h | h | h | h | h | h | h | h <;> subst h <;> rfl

/-- An id byte the first switch rejects: `fetch_command` reads it and clears
`cmd_valid`, nothing more. -/
theorem fetch_command_rejects (w : World) (c : Nat) (hidle : w.state.cmd_valid = false)
    (hv : w.pipe_state.rx_slice_valid = true) (hlen : 0 < w.pipe_state.rx_slice.len)
    (hc : (w.rx_peek 1).getD 0 0 = c)
    (hrej : spec_header_len (c &&& CMD_MASK) w.state.unlocked = none) :
    fetch_command w = reject_cmd (fetch_cmd_byte w) := by
  have hneg : total_header_len (fetch_cmd_byte w).state.cmd (fetch_cmd_byte w).state.unlocked < 0 := by
    rw [fetch_cmd_byte_state]
    simp only [hc]
    exact total_header_len_neg_of_table c _ hrej
  rw [fetch_command_idle_ready w hidle hv hlen, fetch_header_reject _ hneg]

/-- With no command ready, one call of `execute_commands` is one call of
`fetch_command` when that leaves no command ready. -/
theorem execute_commands_idle (fuel : Nat) (w : World) (h0 : w.state.header_valid = false)
    (h1 : (fetch_command w).state.header_valid = false) :
    execute_commands (fuel + 1) w = fetch_command w := by
  unfold execute_commands execute_pending
  simp [h0, h1]

/-- C4, as the code has it.  While the lock is closed, with no command in
progress, the id byte `c` of a lock-required command is consumed alone by one
call of `execute_commands`: no response byte, no bus operation, the lock flag,
the cart mode and the stored flash sequence unchanged, no command left in
progress.  The header bytes that were sent after it are not skipped: the
receive slice has moved on by one byte only, and the byte after `c` is read as
a fresh command id by the next call. -/
theorem locked_command_id_is_silent (w : World) (c fuel : Nat)
    (hlocked : w.state.unlocked = false)
    (hidle : w.state.cmd_valid = false) (hh : w.state.header_valid = false)
    (hv : w.pipe_state.rx_slice_valid = true) (hlen : 0 < w.pipe_state.rx_slice.len)
    (hc : (w.rx_peek 1).getD 0 0 = c) (hreq : c &&& CMD_MASK ∈ LOCK_REQUIRED) :
    (execute_commands (fuel + 1) w).tx_log = w.tx_log ∧
    (execute_commands (fuel + 1) w).hw_log = w.hw_log ∧
    (execute_commands (fuel + 1) w).state.unlocked = false ∧
    (execute_commands (fuel + 1) w).state.cart_mode = w.state.cart_mode ∧
    (execute_commands (fuel + 1) w).flash_sequence = w.flash_sequence ∧
    (execute_commands (fuel + 1) w).state.cmd_valid = false ∧
    (execute_commands (fuel + 1) w).state.header_valid = false ∧
    (execute_commands (fuel + 1) w).status = w.status ∧
    (execute_commands (fuel + 1) w).rx_log = w.rx_log ++ [c] ∧
    (execute_commands (fuel + 1) w).pipe_state.rx_slice =
      { ptr := w.pipe_state.rx_slice.ptr.add 1, len := w.pipe_state.rx_slice.len - 1 } ∧
    (execute_commands (fuel + 1) w).pipe_state.rx_slice_valid = true ∧
    (∀ c2 : Nat, 1 < w.pipe_state.rx_slice.len →
      ((execute_commands (fuel + 1) w).rx_peek 1).getD 0 0 = c2 →
      (fetch_command (execute_commands (fuel + 1) w)).state.cmd &&& CMD_MASK = c2 &&& CMD_MASK) := by
  have hrej : spec_header_len (c &&& CMD_MASK) w.state.unlocked = none := by
    rw [hlocked]; exact lock_required_rejected c hreq
  have heq := fetch_command_rejects w c hidle hv hlen hc hrej
  have hex : execute_commands (fuel + 1) w = reject_cmd (fetch_cmd_byte w) := by
    rw [execute_commands_idle fuel w hh (by rw [heq]; rfl), heq]
  have hpeek : w.rx_peek 1 = [c] := by
    rw [← hc]; simp [World.rx_peek, read_bytes_one]
  rw [hex]
  refine ⟨rfl, rfl, hlocked, rfl, rfl, rfl, rfl, rfl, ?_, ?_, hv, ?_⟩
  · simp [reject_cmd, fetch_cmd_byte, World.rx_advance, hpeek]
  · simp [reject_cmd, fetch_cmd_byte, World.rx_advance]
  · intro c2 hlen2 hc2
    have hidle2 : (reject_cmd (fetch_cmd_byte w)).state.cmd_valid = false := rfl
    have hv2 : (reject_cmd (fetch_cmd_byte w)).pipe_state.rx_slice_valid = true := hv
    have hl2 : 0 < (reject_cmd (fetch_cmd_byte w)).pipe_state.rx_slice.len := by
      simp only [reject_cmd, fetch_cmd_byte, World.rx_advance]
      omega
    rw [fetch_command_idle_ready _ hidle2 hv2 hl2, fetch_header_cmd_low, fetch_cmd_byte_state]
    simp only [hc2]

/-- C4 at a concrete input: READ (`0x05`) arriving while the lock is closed. -/
theorem locked_command_id_is_silent_witness :
    (World.boot.receive [0x05, 0x00, 0x10]).state.unlocked = false ∧
    0x05 &&& CMD_MASK ∈ LOCK_REQUIRED ∧
    (execute_commands 4 (World.boot.receive [0x05, 0x00, 0x10])).tx_log =
      (World.boot.receive [0x05, 0x00, 0x10]).tx_log ∧
    (execute_commands 4 (World.boot.receive [0x05, 0x00, 0x10])).state.cmd_valid = false :=
  have h := locked_command_id_is_silent (World.boot.receive [0x05, 0x00, 0x10]) 0x05 3
    (by decide) (by decide) (by decide) (by decide) (by decide) (by decide) (by decide)
  ⟨by decide, by decide, h.1, h.2.2.2.2.2.1⟩

/-- C4 refuted as written: the lock is closed and READ (`0x05`) is sent with
the two header bytes `0x1f, 0x00`.  The id byte is dropped, the first header
byte is then read as the id of IDENTIFY, and five response bytes go out. -/
theorem locked_read_header_runs_identify :
    (World.boot.receive [0x05, 0x1f, 0x00]).state.unlocked = false ∧
    (World.boot.receive [0x05, 0x1f, 0x00]).tx_log = [] ∧
    (execute_commands 4 (execute_commands 4 (World.boot.receive [0x05, 0x1f, 0x00]))).tx_log =
      [0x99, 0x34, 0x12, 2, 1] ∧
    (main_active_body 4 (main_active_body 4 (World.boot.receive [0x05, 0x1f, 0x00]))).tx_log =
      [0x99, 0x34, 0x12, 2, 1] := by
  decide

/-! ### The closed lock -/

theorem Inert.inert_refl (w : World) : Inert w w :=
  ⟨rfl, rfl, rfl, rfl, rfl, rfl, Or.inl rfl⟩

theorem Inert.inert_trans {a b c : World} (h1 : Inert a b) (h2 : Inert b c) : Inert a c := by
  obtain ⟨a1, a2, a3, a4, a5, a6, a7⟩ := h1
  obtain ⟨b1, b2, b3, b4, b5, b6, b7⟩ := h2
  refine ⟨by rw [b1, a1], by rw [b2, a2], by rw [b3, a3], by rw [b4, a4], by rw [b5, a5],
    by rw [b6, a6], ?_⟩
  rcases b7 with h | h
  · rcases a7 with g | g
    · exact Or.inl (by rw [h, g])
    · exact Or.inr (by rw [h, g])
  · exact Or.inr h

theorem total_header_len_locked (c : Nat) (h : ¬ total_header_len c false < 0) :
    c &&& CMD_MASK ∈ LOCK_FREE := by
  rw [total_header_len_eq_table] at h
  have hlt := land_mask_lt c
  generalize c &&& CMD_MASK = x at h hlt
  interval_cases x <;> first | decide | exact absurd (by decide) h

theorem execute_cmd_tx_read_loop_inert (n : Nat) (w : World) :
    TxFrame w (execute_cmd_tx_read_loop n w).1 ∧
    ∃ s, (execute_cmd_tx_read_loop n w).1.state = { w.state with tx_read_slice := s } := by
  induction n generalizing w with
  | zero => exact ⟨TxFrame.tx_refl w, w.state.tx_read_slice, rfl⟩
  | succ n ih =>
    have hp := pipe_tx_acquire_frame w
    unfold execute_cmd_tx_read_loop
    simp only []
    split
    · split
      · exact ⟨hp.toTxFrame, w.state.tx_read_slice, by rw [hp.state]⟩
      · obtain ⟨h1, s, h2⟩ := ih (tx_read_copy (pipe_tx_acquire w)
          (MIN (pipe_tx_acquire w).pipe_state.tx_slice.len
            (pipe_tx_acquire w).state.tx_read_slice.len % 256))
        refine ⟨(hp.toTxFrame.tx_trans (tx_read_copy_frame _ _)).tx_trans h1, s, ?_⟩
        rw [h2, tx_read_copy_state, hp.state]
    · exact ⟨TxFrame.tx_refl w, w.state.tx_read_slice, rfl⟩

/-- Running a ready command while `Locked` holds touches nothing of the
cartridge side and keeps `Locked`. -/
theorem execute_pending_locked (fuel : Nat) (w : World) (hl : Locked w) :
    Inert w (execute_pending fuel w).1 ∧ Locked (execute_pending fuel w).1 ∧
    (execute_pending fuel w).1.status = w.status ∧
    ((execute_pending fuel w).2 = true →
      (execute_pending fuel w).1.state.header_valid = false) := by
  by_cases hv : w.state.header_valid = true
  · have hop := hl.2 hv
    obtain ⟨hfr, s, hst⟩ := execute_cmd_tx_read_loop_inert w.state.tx_read_slice.len w
    unfold execute_pending
    simp only [hv, if_true, execute_command, hop, run_operation, execute_cmd_tx_read]
    split
    · rename_i r heq
      rw [heq] at hfr hst
      simp only at hfr hst
      refine ⟨⟨hfr.hw_log, by rw [hst], hfr.flash_sequence, hfr.reset_magic, hfr.device_reset,
        hfr.pipe_reset_magic, Or.inl hfr.status⟩, ⟨by rw [hst]; exact hl.1, ?_⟩, hfr.status, ?_⟩
      · intro _; rw [hst]; exact hop
      · intro h; cases h
    · rename_i r heq
      rw [heq] at hfr hst
      simp only at hfr hst
      refine ⟨⟨hfr.hw_log, ?_, hfr.flash_sequence, hfr.reset_magic, hfr.device_reset,
        hfr.pipe_reset_magic, Or.inl hfr.status⟩, ⟨?_, ?_⟩, hfr.status, ?_⟩
      · simp only [clear_cmd_flags]; rw [hst]
      · simp only [clear_cmd_flags]; rw [hst]; exact hl.1
      · intro h; simp [clear_cmd_flags] at h
      · intro _; rfl
  · have hv2 : w.state.header_valid = false := by simpa using hv
    unfold execute_pending
    simp only [hv2, Bool.false_eq_true, if_false]
    exact ⟨Inert.inert_refl w, hl, trivial, fun _ => trivial⟩

/-- The two ways out of the header part of `fetch_command`: without the second
switch, the lock flag, the stored sequence and `header_valid` being unchanged;
or through the second switch, on a command the first switch has accepted. -/
theorem fetch_header_split (x : World) :
    ((fetch_header x).state.unlocked = x.state.unlocked ∧
      (fetch_header x).flash_sequence = x.flash_sequence ∧
      (fetch_header x).state.header_valid = x.state.header_valid) ∨
    (¬ total_header_len x.state.cmd x.state.unlocked < 0 ∧
      fetch_header x =
        dispatch_header ((copy_header x (header_needed_bytes x)).set_header_valid true)) := by
  rw [fetch_header_eq]
  split
  · exact Or.inl ⟨rfl, rfl, rfl⟩
  · rename_i hneg
    split
    · exact Or.inr ⟨hneg, rfl⟩
    · exact Or.inl ⟨rfl, rfl, rfl⟩

/-- The header part of `fetch_command` while the lock is closed: the stored
sequence is untouched, a command that becomes ready has an id the closed lock
allows, and if the lock is still closed afterwards it is one of PING,
DIAGNOSTICS, IDENTIFY. -/
theorem fetch_header_locked (x : World) (hu : x.state.unlocked = false)
    (hv : x.state.header_valid = false) :
    (fetch_header x).flash_sequence = x.flash_sequence ∧
    ((fetch_header x).state.header_valid = true →
      (fetch_header x).state.cmd ∈ LOCK_FREE ∧
      ((fetch_header x).state.unlocked = false →
        (fetch_header x).state.cmd ∈ [CMD_PING, CMD_DIAGNOSTICS, CMD_IDENTIFY])) := by
  rcases fetch_header_split x with ⟨-, h2, h3⟩ | ⟨hneg, heq⟩
  · refine ⟨h2, ?_⟩
    intro h
    rw [h3, hv] at h
    cases h
  · rw [hu] at hneg
    have hfree := total_header_len_locked _ hneg
    have hne : ((copy_header x (header_needed_bytes x)).set_header_valid true).state.cmd &&&
        CMD_MASK ≠ CMD_SET_FLASH_WRITE_SEQUENCE := by
      show x.state.cmd &&& CMD_MASK ≠ CMD_SET_FLASH_WRITE_SEQUENCE
      intro h
      rw [h] at hfree
      revert hfree
      decide
    rw [heq]
    refine ⟨by rw [dispatch_header_flash _ hne]; rfl, ?_⟩
    intro hready
    rcases dispatch_header_cmd ((copy_header x (header_needed_bytes x)).set_header_valid true)
      with ⟨hc, -, -⟩ | ⟨hc, -⟩
    · have hcmd : (dispatch_header
          ((copy_header x (header_needed_bytes x)).set_header_valid true)).state.cmd =
          x.state.cmd &&& CMD_MASK := hc
      rw [hcmd]
      refine ⟨hfree, ?_⟩
      intro hstill
      rw [dispatch_header_unlocked] at hstill
      simp only [Bool.or_eq_false_iff, Bool.and_eq_false_iff, decide_eq_false_iff_not] at hstill
      have hnu : x.state.cmd &&& CMD_MASK ≠ CMD_UNLOCK := by
        intro hun
        have hd := dispatch_header_unlock
          ((copy_header x (header_needed_bytes x)).set_header_valid true) hun
        rcases hstill.2 with h | h
        · exact h hun
        · rw [if_pos h] at hd
          rw [hd] at hready
          cases hready
      simp only [LOCK_FREE, List.mem_cons, List.mem_singleton, List.not_mem_nil, or_false]
        at hfree ⊢
      rcases hfree with h | h | h | h
      · exact Or.inl h
      · exact absurd h hnu
      · exact Or.inr (Or.inl h)
      · exact Or.inr (Or.inr h)
    · rw [hc] at hready
      cases hready

/-- `fetch_command` while the lock is closed and no command is ready. -/
theorem fetch_command_locked (w : World) (hu : w.state.unlocked = false)
    (hv : w.state.header_valid = false) :
    Inert w (fetch_command w) ∧ (fetch_command w).status = w.status ∧
    ((fetch_command w).state.header_valid = true →
      (fetch_command w).state.cmd ∈ LOCK_FREE ∧
      ((fetch_command w).state.unlocked = false →
        (fetch_command w).state.cmd ∈ [CMD_PING, CMD_DIAGNOSTICS, CMD_IDENTIFY])) := by
  have hfr := fetch_command_frame w
  have hp := pipe_rx_acquire_frame w
  have key : (fetch_command w).flash_sequence = w.flash_sequence ∧
      ((fetch_command w).state.header_valid = true →
        (fetch_command w).state.cmd ∈ LOCK_FREE ∧
        ((fetch_command w).state.unlocked = false →
          (fetch_command w).state.cmd ∈ [CMD_PING, CMD_DIAGNOSTICS, CMD_IDENTIFY])) := by
    rw [fetch_command_eq]
    split
    · split
      · have h := fetch_header_locked (fetch_cmd_byte (pipe_rx_acquire w))
          (by rw [fetch_cmd_byte_state, hp.state]; exact hu) rfl
        refine ⟨?_, h.2⟩
        rw [h.1]
        exact hp.flash_sequence
      · have h := fetch_header_locked (pipe_rx_acquire w) (by rw [hp.state]; exact hu)
          (by rw [hp.state]; exact hv)
        refine ⟨?_, h.2⟩
        rw [h.1]
        exact hp.flash_sequence
    · refine ⟨hp.flash_sequence, ?_⟩
      intro h
      rw [hp.state, hv] at h
      cases h
  exact ⟨⟨hfr.hw_log, hfr.cart_mode, key.1, hfr.reset_magic, hfr.device_reset,
    hfr.pipe_reset_magic, Or.inl hfr.status⟩, hfr.status, key.2⟩

theorem fetch_command_unlocked_mono (w : World) (hu : w.state.unlocked = true) :
    (fetch_command w).state.unlocked = true := by
  have hp := (pipe_rx_acquire_frame w).state
  have key : ∀ x : World, x.state.unlocked = true → (fetch_header x).state.unlocked = true := by
    intro x hx
    rcases fetch_header_split x with ⟨h, -, -⟩ | ⟨-, heq⟩
    · rw [h, hx]
    · rw [heq, dispatch_header_unlocked]
      have : ((copy_header x (header_needed_bytes x)).set_header_valid true).state.unlocked =
          true := hx
      rw [this]
      rfl
  rw [fetch_command_eq]
  split
  · split
    · exact key _ (by rw [fetch_cmd_byte_state, hp]; exact hu)
    · exact key _ (by rw [hp]; exact hu)
  · rw [hp]; exact hu

theorem execute_commands_unlocked_mono (fuel : Nat) (w : World)
    (hu : w.state.unlocked = true) : (execute_commands fuel w).state.unlocked = true := by
  induction fuel generalizing w with
  | zero => exact hu
  | succ n ih =>
    have h1 := execute_pending_unlocked n w
    unfold execute_commands
    split
    · rename_i r heq
      rw [heq] at h1
      simp only at h1
      rw [h1]; exact hu
    · rename_i r heq
      rw [heq] at h1
      simp only at h1
      have h2 := fetch_command_unlocked_mono r (by rw [h1]; exact hu)
      simp only []
      split
      · exact ih _ h2
      · exact h2

theorem locked_of_ready (w : World) (hu : w.state.unlocked = false)
    (h : w.state.header_valid = true →
      w.state.cmd ∈ [CMD_PING, CMD_DIAGNOSTICS, CMD_IDENTIFY]) : Locked w := by
  refine ⟨hu, ?_⟩
  intro hv
  have := h hv
  simp only [List.mem_cons, List.mem_singleton, List.not_mem_nil, or_false] at this
  rcases this with h | h | h <;> rw [h] <;> rfl

/-- One call of `execute_commands` from a `Locked` state that ends with the
lock still closed has touched nothing of the cartridge side and ends in a
`Locked` state. -/
theorem execute_commands_locked (fuel : Nat) (w : World) (hl : Locked w)
    (hend : (execute_commands fuel w).state.unlocked = false) :
    Inert w (execute_commands fuel w) ∧ Locked (execute_commands fuel w) := by
  induction fuel generalizing w with
  | zero =>
    exact ⟨⟨rfl, rfl, rfl, rfl, rfl, rfl, Or.inr rfl⟩, hl⟩
  | succ n ih =>
    obtain ⟨hI, hL, -, hdone⟩ := execute_pending_locked n w hl
    unfold execute_commands at hend ⊢
    split at hend
    · rename_i r heq
      rw [heq] at hI hL
      try simp only [heq]
      exact ⟨hI, hL⟩
    · rename_i r heq
      rw [heq] at hI hL hdone
      simp only at hI hL hdone
      try simp only [heq]
      obtain ⟨hI2, -, hready⟩ := fetch_command_locked r hL.1 (hdone trivial)
      simp only [] at hend
      split at hend
      · rename_i hv
        rw [if_pos hv]
        have hu2 : (fetch_command r).state.unlocked = false := by
          cases hx : (fetch_command r).state.unlocked with
          | false => rfl
          | true =>
            rw [execute_commands_unlocked_mono n _ hx] at hend
            cases hend
        have hL2 : Locked (fetch_command r) :=
          locked_of_ready _ hu2 (fun h => (hready h).2 hu2)
        obtain ⟨hI3, hL3⟩ := ih _ hL2 hend
        exact ⟨(hI.inert_trans hI2).inert_trans hI3, hL3⟩
      · rename_i hv
        rw [if_neg hv]
        exact ⟨hI.inert_trans hI2, ⟨hend, fun h => absurd h hv⟩⟩

theorem inert_of_pipe_frame {w r : World} (h : PipeFrame w r) : Inert w r :=
  ⟨h.hw_log, by rw [h.state], h.flash_sequence, h.reset_magic, h.device_reset,
    h.pipe_reset_magic, Or.inl h.status⟩

/-- The transmit policy at the end of the loop body stays in the pipe layer. -/
theorem main_active_body_tail (fuel : Nat) (w : World) :
    PipeFrame (execute_commands fuel w) (main_active_body fuel w) := by
  unfold main_active_body
  simp only []
  split
  · exact PipeFrame.pipe_refl _
  · split
    · split
      · exact pipe_tx_flush_frame _
      · exact PipeFrame.pipe_refl _
    · split
      · exact pipe_tx_acquire_frame _
      · exact PipeFrame.pipe_refl _

theorem main_active_body_locked (fuel : Nat) (w : World) (hl : Locked w)
    (hend : (main_active_body fuel w).state.unlocked = false) :
    Inert w (main_active_body fuel w) ∧ Locked (main_active_body fuel w) := by
  have ht := main_active_body_tail fuel w
  rw [ht.state] at hend
  obtain ⟨hI, hL⟩ := execute_commands_locked fuel w hl hend
  refine ⟨hI.inert_trans (inert_of_pipe_frame ht), ?_⟩
  unfold Locked
  rw [ht.state]
  exact hL

theorem main_active_body_unlocked_mono (fuel : Nat) (w : World)
    (hu : w.state.unlocked = true) : (main_active_body fuel w).state.unlocked = true := by
  rw [(main_active_body_tail fuel w).state]
  exact execute_commands_unlocked_mono fuel w hu

theorem main_active_loop_unlocked_mono (fuel n : Nat) (w : World)
    (hu : w.state.unlocked = true) : (main_active_loop fuel n w).state.unlocked = true := by
  induction n generalizing w with
  | zero => exact hu
  | succ n ih =>
    unfold main_active_loop
    split
    · exact ih _ (main_active_body_unlocked_mono fuel w hu)
    · exact hu

theorem main_active_loop_locked (fuel n : Nat) (w : World) (hl : Locked w)
    (hend : (main_active_loop fuel n w).state.unlocked = false) :
    Inert w (main_active_loop fuel n w) ∧ Locked (main_active_loop fuel n w) := by
  induction n generalizing w with
  | zero => exact ⟨Inert.inert_refl w, hl⟩
  | succ n ih =>
    unfold main_active_loop at hend ⊢
    split at hend
    · rename_i hact
      rw [if_pos hact]
      have hu : (main_active_body fuel w).state.unlocked = false := by
        cases hx : (main_active_body fuel w).state.unlocked with
        | false => rfl
        | true =>
          rw [main_active_loop_unlocked_mono fuel n _ hx] at hend
          cases hend
      obtain ⟨hI, hL⟩ := main_active_body_locked fuel w hl hu
      obtain ⟨hI2, hL2⟩ := ih _ hL hend
      exact ⟨hI.inert_trans hI2, hL2⟩
    · rename_i hact
      rw [if_neg hact]
      exact ⟨Inert.inert_refl w, hl⟩

theorem reset_state_locked (v : World) : Locked (reset_state v) := by
  unfold Locked reset_state apply_cart_mode
  simp only [World.hw]
  split <;> split <;> exact ⟨rfl, fun h => by cases h⟩

/-- C1.  The lock invariant.  Let the lock be closed with no command ready
other than one that only transmits (as after `reset_state`), in any state of
the pipes and with any interrupts pending.  Then running the ready command
performs no hardware operation, leaves the cart mode, the stored flash write
sequence and the reset bytes unchanged and does not reset the device, and the
same holds for `fetch_command`; a command that `fetch_command` makes ready has
one of the ids PING, UNLOCK, DIAGNOSTICS, IDENTIFY, and one of PING,
DIAGNOSTICS, IDENTIFY if the lock is still closed afterwards.  Hence a call of
`execute_commands`, and any number of rounds of the main loop, that end with
the lock still closed have performed no hardware operation, no cart-mode
change, no change of the stored sequence and no reset.  The hypothesis holds
after every `reset_state`, the only place that closes the lock. -/
theorem lock_invariant (fuel n : Nat) (w : World) (hl : Locked w) :
    (Inert w (execute_pending fuel w).1 ∧ Locked (execute_pending fuel w).1 ∧
      (execute_pending fuel w).1.status = w.status) ∧
    (w.state.header_valid = false →
      Inert w (fetch_command w) ∧ (fetch_command w).status = w.status ∧
      ((fetch_command w).state.header_valid = true →
        (fetch_command w).state.cmd ∈ LOCK_FREE ∧
        ((fetch_command w).state.unlocked = false →
          (fetch_command w).state.cmd ∈ [CMD_PING, CMD_DIAGNOSTICS, CMD_IDENTIFY]))) ∧
    ((execute_commands fuel w).state.unlocked = false →
      Inert w (execute_commands fuel w) ∧ Locked (execute_commands fuel w)) ∧
    ((main_active_loop fuel n w).state.unlocked = false →
      Inert w (main_active_loop fuel n w) ∧ Locked (main_active_loop fuel n w)) ∧
    (∀ v : World, Locked (reset_state v)) := by
  obtain ⟨h1, h2, h3, -⟩ := execute_pending_locked fuel w hl
  exact ⟨⟨h1, h2, h3⟩, fun hv => fetch_command_locked w hl.1 hv,
    execute_commands_locked fuel w hl, main_active_loop_locked fuel n w hl, reset_state_locked⟩

/-- C1 at a concrete input: the lock is closed and READ, WRITE and RESET
commands arrive in one packet. -/
theorem lock_invariant_witness :
    Locked (World.boot.receive [0x05, 0x00, 0x10, 0x07, 0x34, 0x12, 0xab, 0x1e, 0x01]) ∧
    (execute_commands 4
      (World.boot.receive [0x05, 0x00, 0x10, 0x07, 0x34, 0x12, 0xab, 0x1e, 0x01])).state.unlocked
      = false ∧
    Inert (World.boot.receive [0x05, 0x00, 0x10, 0x07, 0x34, 0x12, 0xab, 0x1e, 0x01])
      (execute_commands 4
        (World.boot.receive [0x05, 0x00, 0x10, 0x07, 0x34, 0x12, 0xab, 0x1e, 0x01])) :=
  have h := lock_invariant 4 0
    (World.boot.receive [0x05, 0x00, 0x10, 0x07, 0x34, 0x12, 0xab, 0x1e, 0x01]) (by decide)
  ⟨by decide, by decide, (h.2.2.1 (by decide)).1⟩

/-! ### PING -/

theorem ping_accum_congr {L0 T0 : List Nat} {u0 : Bool} {c : Nat} {w r : World}
    (hs : r.state = w.state) (hrx : r.rx_log = w.rx_log) (htx : r.tx_log = w.tx_log)
    (h : PingAccum L0 T0 u0 c w) : PingAccum L0 T0 u0 c r := by
  unfold PingAccum at h ⊢
  rw [hs, hrx, htx]
  exact h

theorem ping_emit_congr {L0 T0 : List Nat} {u0 : Bool} {c : Nat} {w r : World}
    (hs : r.state = w.state) (hrx : r.rx_log = w.rx_log) (htx : r.tx_log = w.tx_log)
    (h : PingEmit L0 T0 u0 c w) : PingEmit L0 T0 u0 c r := by
  unfold PingEmit at h ⊢
  rw [hs, hrx, htx]
  exact h

theorem ping_progress_pipe {L0 T0 : List Nat} {u0 : Bool} {c : Nat} {w r : World}
    (hf : PipeFrame w r) (h : PingProgress L0 T0 u0 c w) : PingProgress L0 T0 u0 c r := by
  rcases h with h | h
  · exact Or.inl (ping_accum_congr hf.state hf.rx_log hf.tx_log h)
  · exact Or.inr (ping_emit_congr hf.state hf.rx_log hf.tx_log h)

theorem rx_peek_length (w : World) (n : Nat) : (w.rx_peek n).length = n := by
  unfold World.rx_peek
  exact read_bytes_length _ _ _

/-- The header part of `fetch_command` while a PING is being received: more
header bytes are taken, and with the sixteenth the command becomes ready with
the header as its response. -/
theorem fetch_header_ping (L0 T0 : List Nat) (u0 : Bool) (c : Nat) (x : World)
    (hc : c &&& CMD_MASK = CMD_PING) (h : PingAccum L0 T0 u0 c x) :
    PingProgress L0 T0 u0 c (fetch_header x) := by
  obtain ⟨hu, hb, hcv, hhv, hcmd, hlen, hrx, htx⟩ := h
  have ht : total_header_len x.state.cmd x.state.unlocked = 16 := by
    rw [hcmd]
    have := total_header_len_nonneg_of_table c x.state.unlocked 16
      (by rw [hc]; cases x.state.unlocked <;> rfl)
    simpa using this
  have hneed : header_needed_bytes x = 16 - x.state.header.len := by
    unfold header_needed_bytes
    have e : (16 : Int).toNat = 16 := rfl
    rw [ht, e]
    omega
  have hnn : ¬ total_header_len x.state.cmd x.state.unlocked < 0 := by rw [ht]; omega
  have hlog : ∀ n, x.state.header.len + n ≤ 16 →
      L0 ++ c :: read_bytes x.state.header.bytes 0 x.state.header.len ++ x.rx_peek n =
      L0 ++ c :: read_bytes
        (write_bytes x.state.header.bytes x.state.header.len (x.rx_peek n)) 0
        (x.state.header.len + n) := by
    intro n hn
    have := read_write_bytes_append (x.rx_peek n) x.state.header.bytes x.state.header.len
      (by rw [rx_peek_length, hb]; exact hn)
    rw [rx_peek_length] at this
    rw [this]
    simp
  rw [fetch_header_eq, if_neg hnn]
  split
  · rename_i hmin
    right
    have hcmd2 : ((copy_header x (header_needed_bytes x)).set_header_valid true).state.cmd &&&
        CMD_MASK = CMD_PING := by
      show x.state.cmd &&& CMD_MASK = CMD_PING
      rw [hcmd]; exact hc
    unfold header_complete
    rw [dispatch_header_ping _ hcmd2]
    have h16 : x.state.header.len + header_needed_bytes x = 16 := by rw [hneed]; omega
    refine ⟨hu, ?_, rfl, hcmd2, rfl, rfl, ?_, ?_⟩
    · show (write_bytes x.state.header.bytes x.state.header.len
        (x.rx_peek (header_needed_bytes x))).length = 16
      rw [write_bytes_length, hb]
    · show x.rx_log ++ x.rx_peek (header_needed_bytes x) =
        L0 ++ c :: read_bytes (write_bytes x.state.header.bytes x.state.header.len
          (x.rx_peek (header_needed_bytes x))) 0 16
      rw [hrx, hlog _ (by omega), h16]
    · show x.tx_log = T0 ++ read_bytes _ 0 0
      rw [htx, read_bytes_zero, List.append_nil]
  · rename_i hmin
    left
    have hle : MIN x.pipe_state.rx_slice.len (header_needed_bytes x) ≤ header_needed_bytes x :=
      MIN_le_right _ _
    generalize MIN x.pipe_state.rx_slice.len (header_needed_bytes x) = k at hmin hle
    have hk : x.state.header.len + k ≤ 16 := by rw [hneed] at hle; omega
    refine ⟨hu, ?_, hcv, hhv, hcmd, ?_, ?_, htx⟩
    · show (write_bytes x.state.header.bytes x.state.header.len (x.rx_peek k)).length = 16
      rw [write_bytes_length, hb]
    · show (x.state.header.len + k) % 256 ≤ 16
      omega
    · show x.rx_log ++ x.rx_peek k =
        L0 ++ c :: read_bytes (write_bytes x.state.header.bytes x.state.header.len
          (x.rx_peek k)) 0 ((x.state.header.len + k) % 256)
      rw [hrx, hlog _ hk, Nat.mod_eq_of_lt (by omega)]

/-- `fetch_command` while a PING is being received. -/
theorem fetch_command_ping (L0 T0 : List Nat) (u0 : Bool) (c : Nat) (w : World)
    (hc : c &&& CMD_MASK = CMD_PING) (h : PingAccum L0 T0 u0 c w) :
    PingProgress L0 T0 u0 c (fetch_command w) := by
  have hp := pipe_rx_acquire_frame w
  have h2 : PingAccum L0 T0 u0 c (pipe_rx_acquire w) :=
    ping_accum_congr hp.state hp.rx_log hp.tx_log h
  rw [fetch_command_eq]
  split
  · have hcv : ¬ ((pipe_rx_acquire w).state.cmd_valid = false ∧
        0 < (pipe_rx_acquire w).pipe_state.rx_slice.len) := by
      rw [h2.2.2.1]
      simp
    rw [if_neg hcv]
    exact fetch_header_ping L0 T0 u0 c _ hc h2
  · exact Or.inl h2

/-- The id byte of a PING read with no command in progress. -/
theorem fetch_command_ping_start (c : Nat) (w : World) (hc : c &&& CMD_MASK = CMD_PING)
    (hidle : w.state.cmd_valid = false)
    (hv : w.pipe_state.rx_slice_valid = true) (hlen : 0 < w.pipe_state.rx_slice.len)
    (hid : (w.rx_peek 1).getD 0 0 = c) (hb : w.state.header.bytes.length = 16) :
    PingProgress w.rx_log w.tx_log w.state.unlocked c (fetch_command w) := by
  rw [fetch_command_idle_ready w hidle hv hlen]
  apply fetch_header_ping _ _ _ _ _ hc
  have hpeek : w.rx_peek 1 = [c] := by
    rw [← hid]; simp [World.rx_peek, read_bytes_one]
  refine ⟨rfl, hb, rfl, rfl, hid, Nat.zero_le _, ?_, rfl⟩
  show w.rx_log ++ w.rx_peek 1 = w.rx_log ++ c :: read_bytes _ 0 0
  rw [hpeek, read_bytes_zero]

/-- One pass of the response of a PING: more of the sixteen header bytes go
out, and the command is finished exactly when all of them have. -/
theorem execute_pending_ping (L0 T0 : List Nat) (u0 : Bool) (c fuel : Nat) (w : World)
    (h : PingEmit L0 T0 u0 c w) :
    ((execute_pending fuel w).2 = false → PingEmit L0 T0 u0 c (execute_pending fuel w).1) ∧
    ((execute_pending fuel w).2 = true → PingDone L0 T0 u0 c (execute_pending fuel w).1) := by
  obtain ⟨hu, hb, hv, hcmd, hreg, hoff, hrx, htx⟩ := h
  have hop : select_operation w.state.cmd = .tx_read := by rw [hcmd]; rfl
  obtain ⟨m, hm, hok, hlog, hst, hfr⟩ := execute_pending_tx_read fuel w hv hop (by omega)
  have hload : w.load w.state.tx_read_slice.ptr m =
      read_bytes w.state.header.bytes w.state.tx_read_slice.ptr.off m := by
    unfold World.load
    rw [hreg]
    rfl
  have htx2 : (execute_pending fuel w).1.tx_log =
      T0 ++ read_bytes w.state.header.bytes 0 (w.state.tx_read_slice.ptr.off + m) := by
    rw [hlog, htx, hload, read_bytes_add, List.append_assoc, Nat.zero_add]
  constructor
  · intro hno
    have hne : m ≠ w.state.tx_read_slice.len := by
      intro he
      rw [hok.mpr he] at hno
      cases hno
    refine ⟨?_, ?_, ?_, ?_, ?_, ?_, ?_, ?_⟩
    · rw [hst]; exact hu
    · rw [hst]; exact hb
    · rw [hst]; simp [hne]
    · rw [hst]; exact hcmd
    · rw [hst]; exact hreg
    · rw [hst]; simp only [Ptr.add]; omega
    · rw [hfr.rx_log, hst]; exact hrx
    · rw [htx2, hst]; rfl
  · intro hyes
    have he := hok.mp hyes
    refine ⟨?_, ?_, ?_, read_bytes w.state.header.bytes 0 16, read_bytes_length _ _ _, ?_, ?_⟩
    · rw [hst]; exact hu
    · rw [hst]; simp [he]
    · rw [hst]; simp [he]
    · rw [hfr.rx_log]; exact hrx
    · rw [htx2, he, hoff]

theorem execute_pending_idle (fuel : Nat) (w : World) (h : w.state.header_valid = false) :
    execute_pending fuel w = (w, true) := by
  unfold execute_pending
  simp [h]

theorem execute_commands_succ (n : Nat) (w : World) :
    execute_commands (n + 1) w =
      match execute_pending n w with
      | (r, false) => r
      | (r, true) =>
        if (fetch_command r).state.header_valid = true then
          execute_commands n (fetch_command r)
        else fetch_command r := by
  rw [execute_commands]

theorem ping_progress_congr {L0 T0 : List Nat} {u0 : Bool} {c : Nat} {w r : World}
    (hs : r.state = w.state) (hrx : r.rx_log = w.rx_log) (htx : r.tx_log = w.tx_log)
    (h : PingProgress L0 T0 u0 c w) : PingProgress L0 T0 u0 c r := by
  rcases h with h | h
  · exact Or.inl (ping_accum_congr hs hrx htx h)
  · exact Or.inr (ping_emit_congr hs hrx htx h)

/-- One call of `execute_commands` while a PING is in progress: either the
PING is still in progress at the end, or the call has passed through a state
`v` in which the PING had just been finished, and has gone on from there with
the next `fetch_command`. -/
theorem execute_commands_ping (L0 T0 : List Nat) (u0 : Bool) (c fuel : Nat) (w : World)
    (hc : c &&& CMD_MASK = CMD_PING) (h : PingProgress L0 T0 u0 c w) :
    PingProgress L0 T0 u0 c (execute_commands fuel w) ∨
    ∃ (v : World) (k : Nat), PingDone L0 T0 u0 c v ∧
      execute_commands fuel w =
        if (fetch_command v).state.header_valid = true then
          execute_commands k (fetch_command v)
        else fetch_command v := by
  induction fuel generalizing w with
  | zero =>
    left
    exact ping_progress_congr rfl rfl rfl h
  | succ n ih =>
    rcases h with h | h
    · have hidle := execute_pending_idle n w h.2.2.2.1
      have hf := fetch_command_ping L0 T0 u0 c w hc h
      rw [execute_commands_succ, hidle]
      simp only []
      split
      · exact ih _ hf
      · exact Or.inl hf
    · obtain ⟨hno, hyes⟩ := execute_pending_ping L0 T0 u0 c n w h
      rw [execute_commands_succ]
      split
      · rename_i r heq
        rw [heq] at hno
        exact Or.inl (Or.inr (hno rfl))
      · rename_i r heq
        rw [heq] at hyes
        exact Or.inr ⟨r, n, hyes rfl, rfl⟩

/-- A PING whose id byte and sixteen header bytes `p` are all in the receive
slice, with room for sixteen bytes in the transmit slice: one fetch and one
pass finish it with `p` as the response. -/
theorem ping_whole (w : World) (c : Nat) (p : List Nat) (fuel : Nat) (ha : Arrived w c p)
    (hl : p.length = 16) (hc : c &&& CMD_MASK = CMD_PING)
    (hvalid : w.pipe_state.tx_slice_valid = true) (hroom : 16 ≤ w.pipe_state.tx_slice.len) :
    (execute_pending fuel (fetch_command w)).1.tx_log = w.tx_log ++ p ∧
    (execute_pending fuel (fetch_command w)).2 = true ∧
    (execute_pending fuel (fetch_command w)).1.rx_log = w.rx_log ++ c :: p ∧
    (execute_pending fuel (fetch_command w)).1.state.unlocked = w.state.unlocked := by
  have ht : total_header_len c w.state.unlocked = p.length := by
    have := total_header_len_nonneg_of_table c w.state.unlocked 16
      (by rw [hc]; cases w.state.unlocked <;> rfl)
    rw [hl]; simpa using this
  obtain ⟨u, hf, hst, hrx, -, -, -, -, -, -, hfr⟩ := fetch_arrived w c p ha ht (by omega)
  have hcmd : u.state.cmd &&& CMD_MASK = CMD_PING := by
    rw [hst]; exact hc
  have hbytes : read_bytes u.state.header.bytes 0 16 = p := by
    rw [hst, ← hl]
    exact read_write_bytes_same p w.state.header.bytes 0 (by rw [ha.2.2.2.2.2]; omega)
  have hps := dispatch_header_pipe_state u
  have hfr2 := dispatch_header_frame u
  have hrx2 := dispatch_header_rx_log u
  have hd := dispatch_header_ping u hcmd
  rw [← hf] at hps hfr2 hd hrx2
  have hv : (fetch_command w).state.header_valid = true := by
    rw [hd]
    simp [mask, World.set_tx_read_slice, hst, World.with_header]
  have hop : select_operation (fetch_command w).state.cmd = .tx_read := by
    rw [hd]
    simp only [mask, World.set_tx_read_slice]
    rw [hcmd]; rfl
  have hlen : (fetch_command w).state.tx_read_slice.len = p.length := by
    rw [hd, hl]; rfl
  have hload : (fetch_command w).load (fetch_command w).state.tx_read_slice.ptr p.length = p := by
    rw [hd, hl]
    exact hbytes
  have hresp := (execute_pending_response fuel (fetch_command w) p hv hop (by omega) hlen
    hload).2 (by rw [hps, hfr.tx_slice_valid]; exact hvalid)
    (by rw [hps, hfr.tx_slice, hl]; exact hroom)
  obtain ⟨-, -, -, -, -, hfr3⟩ :=
    execute_pending_tx_read fuel (fetch_command w) hv hop (by rw [hlen]; omega)
  refine ⟨?_, hresp.2, ?_, ?_⟩
  · rw [hresp.1, hfr2.tx_log, hfr.tx_log]
  · rw [hfr3.rx_log, hrx2, hrx]
  · rw [execute_pending_unlocked, hf, dispatch_header_unlocked, hcmd, hst]
    simp [World.with_header, CMD_PING, CMD_UNLOCK]

/-- C6.  PING (id byte `c` with low five bits `0x01`), in either lock state,
for any state of the pipes and any interrupts pending.  Reading the id byte
with no command in progress starts the command; from then on every
`fetch_command` takes more of the sixteen header bytes, however they are split
across receive slices, and writes no response; once the sixteenth is in, every
pass of `execute_pending` writes more of those same sixteen bytes, in order,
however the transmit slices become available, and the command is finished
exactly when all sixteen have been written; the pipe functions of the main
loop change none of this.  So a call of `execute_commands` either leaves the
PING in progress or has passed through the state in which exactly the sixteen
received bytes had been echoed with the lock flag unchanged; and when the
whole command is in the receive slice and the transmit slice has room, one
fetch and one pass do it. -/
theorem ping_echo (L0 T0 : List Nat) (u0 : Bool) (c : Nat) (hc : c &&& CMD_MASK = CMD_PING) :
    (∀ w : World, w.state.cmd_valid = false → w.pipe_state.rx_slice_valid = true →
      0 < w.pipe_state.rx_slice.len → (w.rx_peek 1).getD 0 0 = c →
      w.state.header.bytes.length = 16 →
      PingProgress w.rx_log w.tx_log w.state.unlocked c (fetch_command w)) ∧
    (∀ w : World, PingAccum L0 T0 u0 c w → PingProgress L0 T0 u0 c (fetch_command w)) ∧
    (∀ (w : World) (fuel : Nat), PingEmit L0 T0 u0 c w →
      ((execute_pending fuel w).2 = false → PingEmit L0 T0 u0 c (execute_pending fuel w).1) ∧
      ((execute_pending fuel w).2 = true → PingDone L0 T0 u0 c (execute_pending fuel w).1)) ∧
    (∀ w : World, PingProgress L0 T0 u0 c w →
      PingProgress L0 T0 u0 c (pipe_rx_acquire w) ∧
      PingProgress L0 T0 u0 c (pipe_tx_acquire w) ∧
      PingProgress L0 T0 u0 c (pipe_tx_flush w)) ∧
    (∀ (w : World) (fuel : Nat), PingProgress L0 T0 u0 c w →
      PingProgress L0 T0 u0 c (execute_commands fuel w) ∨
      ∃ (v : World) (k : Nat), PingDone L0 T0 u0 c v ∧
        execute_commands fuel w =
          if (fetch_command v).state.header_valid = true then
            execute_commands k (fetch_command v)
          else fetch_command v) ∧
    (∀ (w : World) (p : List Nat) (fuel : Nat), Arrived w c p → p.length = 16 →
      w.pipe_state.tx_slice_valid = true → 16 ≤ w.pipe_state.tx_slice.len →
      (execute_pending fuel (fetch_command w)).1.tx_log = w.tx_log ++ p ∧
      (execute_pending fuel (fetch_command w)).2 = true ∧
      (execute_pending fuel (fetch_command w)).1.rx_log = w.rx_log ++ c :: p ∧
      (execute_pending fuel (fetch_command w)).1.state.unlocked = w.state.unlocked) := by
  refine ⟨?_, ?_, ?_, ?_, ?_, ?_⟩
  · intro w h1 h2 h3 h4 h5
    exact fetch_command_ping_start c w hc h1 h2 h3 h4 h5
  · intro w h
    exact fetch_command_ping L0 T0 u0 c w hc h
  · intro w fuel h
    exact execute_pending_ping L0 T0 u0 c fuel w h
  · intro w h
    exact ⟨ping_progress_pipe (pipe_rx_acquire_frame w) h,
      ping_progress_pipe (pipe_tx_acquire_frame w) h,
      ping_progress_pipe (pipe_tx_flush_frame w) h⟩
  · intro w fuel h
    exact execute_commands_ping L0 T0 u0 c fuel w hc h
  · intro w p fuel ha hl hv hr
    exact ping_whole w c p fuel ha hl hc hv hr

/-- C6 at the input of the specification: sixteen zero bytes while the lock is
closed, in one packet and split over two packets. -/
theorem ping_echo_witness :
    0x01 &&& CMD_MASK = CMD_PING ∧
    World.ping_sample.state.unlocked = false ∧
    PingProgress World.ping_sample.rx_log World.ping_sample.tx_log
      World.ping_sample.state.unlocked 0x01 (fetch_command World.ping_sample) ∧
    (execute_commands 4 World.ping_sample).tx_log = List.replicate 16 0 ∧
    (execute_commands 4 World.ping_sample).state.unlocked = false ∧
    (execute_commands 4 World.ping_split_sample).tx_log = List.replicate 16 0 ∧
    (execute_commands 4 World.ping_split_sample).rx_log = 0x01 :: List.replicate 16 0 ∧
    (execute_commands 4 World.ping_split_sample).state.unlocked = false :=
  have h := ping_echo [] [] false 0x01 (by decide)
  ⟨by decide, by decide,
    h.1 World.ping_sample (by decide) (by decide) (by decide) (by decide) (by decide),
    by decide, by decide, by decide, by decide, by decide⟩

theorem poll_flash_loop_bus (e : Bool) (fuel : Nat) (w : World) (old : Nat) :
    (poll_flash_loop e fuel w old).1.bus_in = w.bus_in := by
  induction fuel generalizing w old with
  | zero => rfl
  | succ n ih =>
    unfold poll_flash_loop
    simp only []
    split_ifs <;> first | rfl | (rw [ih]; rfl)

theorem poll_condition (e : Bool) (x : Nat) :
    ((if e = true then (x &&& 0x80) != 0 else !((x &&& 0x80) != 0)) = true) ↔ d7 x = e := by
  unfold d7
  cases e <;> cases h : ((x &&& 0x80) != 0) <;> simp

/-- The polling loop: `old` is the value of read `i0`, every read after it and
before the current one had the wrong polarity.  When the loop returns `v`, the
last read returned `v` with the expected polarity, and so did the most recent
earlier read among those with the expected polarity and read `i0`. -/
theorem poll_flash_loop_returns (e : Bool) (f : Nat → Nat) (B : Nat) (fuel : Nat) :
    ∀ (w : World) (old i0 n : Nat) (r : World) (v : Nat),
      poll_flash_loop e fuel w old = (r, some v) →
      w.bus_in = f → w.bus_reads = B + n → i0 < n → old = f (B + i0) % 256 →
      (∀ k, i0 < k → k < n → d7 (f (B + k) % 256) ≠ e) →
      ∃ i j, i < j ∧ n ≤ j ∧ r.bus_reads = B + j + 1 ∧ v = f (B + j) % 256 ∧
        v = f (B + i) % 256 ∧ d7 v = e ∧
        ∀ k, i < k → k < j → d7 (f (B + k) % 256) ≠ e := by
  induction fuel with
  | zero =>
    intro w old i0 n r v h
    simp [poll_flash_loop] at h
  | succ m ih =>
    intro w old i0 n r v h hf hb hi hold hgap
    unfold poll_flash_loop at h
    simp only [] at h
    have hnew : w.DATA_BUS_IN = f (B + n) % 256 := by
      unfold World.DATA_BUS_IN; rw [hf, hb]
    have hb2 : ((w.hw .poll_next).bus_next).bus_reads = B + (n + 1) := by
      show w.bus_reads + 1 = B + (n + 1)
      omega
    have hf2 : ((w.hw .poll_next).bus_next).bus_in = f := hf
    by_cases hpol : d7 w.DATA_BUS_IN = e
    · have hc : (if e = true then (w.DATA_BUS_IN &&& 0x80) != 0
          else !((w.DATA_BUS_IN &&& 0x80) != 0)) = true := (poll_condition e _).mpr hpol
      rw [if_pos hc] at h
      by_cases heq : old = w.DATA_BUS_IN
      · rw [if_pos heq] at h
        simp only [Prod.mk.injEq, Option.some.injEq] at h
        obtain ⟨hr, hv⟩ := h
        refine ⟨i0, n, hi, Nat.le_refl _, ?_, ?_, ?_, ?_, hgap⟩
        · rw [← hr]; show w.bus_reads + 1 = B + n + 1; omega
        · rw [← hv, hnew]
        · rw [← hv, ← heq, hold]
        · rw [← hv]; exact hpol
      · rw [if_neg heq] at h
        obtain ⟨i, j, h1, h2, h3, h4, h5, h6, h7⟩ :=
          ih _ _ n (n + 1) r v h hf2 hb2 (by omega) hnew (by intro k hk1 hk2; omega)
        exact ⟨i, j, h1, by omega, h3, h4, h5, h6, h7⟩
    · have hc : ¬ (if e = true then (w.DATA_BUS_IN &&& 0x80) != 0
          else !((w.DATA_BUS_IN &&& 0x80) != 0)) = true :=
        fun hx => hpol ((poll_condition e _).mp hx)
      rw [if_neg hc] at h
      obtain ⟨i, j, h1, h2, h3, h4, h5, h6, h7⟩ :=
        ih _ _ i0 (n + 1) r v h hf2 hb2 (by omega) hold (by
          intro k hk1 hk2
          by_cases hkn : k = n
          · rw [hkn, ← hnew]; exact hpol
          · exact hgap k hk1 (by omega))
      exact ⟨i, j, h1, by omega, h3, h4, h5, h6, h7⟩

/-- C15, as the code has it.  When `poll_flash_data` returns `v`, the last
read (read `j`, with `j ≥ 1`) returned `v`, bit 7 of `v` is the expected
polarity, and an earlier read `i` returned `v` as well, every read between the
two having the other polarity in bit 7.  Read `i` is the previous read with
the expected polarity, not necessarily the previous read. -/
theorem poll_flash_data_returns (fuel : Nat) (w : World) (addr : Nat) (e : Bool) (r : World)
    (v : Nat) (h : poll_flash_data fuel w addr e = (r, some v)) :
    ∃ i j, i < j ∧ r.bus_reads = w.bus_reads + j + 1 ∧ w.read_at j = v ∧ w.read_at i = v ∧
      d7 v = e ∧ ∀ k, i < k → k < j → d7 (w.read_at k) ≠ e := by
  unfold poll_flash_data at h
  obtain ⟨i, j, h1, -, h3, h4, h5, h6, h7⟩ :=
    poll_flash_loop_returns e w.bus_in w.bus_reads fuel _ _ 0 1 r v h rfl rfl (by omega) rfl
      (by intro k hk1 hk2; omega)
  exact ⟨i, j, h1, h3, h4.symm, h5.symm, h6, h7⟩

/-- C15 at a concrete input: the bus reads `0x80, 0x00, 0x80` while bit 7 set
is expected. -/
theorem poll_flash_data_returns_witness :
    poll_flash_data 4 (World.boot.with_bus [0x80, 0x00, 0x80]) 0x1234 true =
      ((poll_flash_data 4 (World.boot.with_bus [0x80, 0x00, 0x80]) 0x1234 true).1, some 0x80) ∧
    ∃ i j, i < j ∧
      (poll_flash_data 4 (World.boot.with_bus [0x80, 0x00, 0x80]) 0x1234 true).1.bus_reads =
        (World.boot.with_bus [0x80, 0x00, 0x80]).bus_reads + j + 1 ∧
      (World.boot.with_bus [0x80, 0x00, 0x80]).read_at j = 0x80 ∧
      (World.boot.with_bus [0x80, 0x00, 0x80]).read_at i = 0x80 ∧
      d7 0x80 = true ∧
      ∀ k, i < k → k < j → d7 ((World.boot.with_bus [0x80, 0x00, 0x80]).read_at k) ≠ true :=
  ⟨Prod.ext rfl (by decide),
    poll_flash_data_returns 4 (World.boot.with_bus [0x80, 0x00, 0x80]) 0x1234 true _ 0x80
      (Prod.ext rfl (by decide))⟩

/-- C15 refuted as written: with bit 7 set expected, the bus reads `0x80`,
`0x00`, `0x80`.  `poll_flash_data` returns `0x80` after the third read, though
the two most recent reads returned `0x00` and `0x80`. -/
theorem poll_returns_without_two_equal_reads :
    (poll_flash_data 4 (World.boot.with_bus [0x80, 0x00, 0x80]) 0x1234 true).2 = some 0x80 ∧
    (poll_flash_data 4 (World.boot.with_bus [0x80, 0x00, 0x80]) 0x1234 true).1.bus_reads = 3 ∧
    (World.boot.with_bus [0x80, 0x00, 0x80]).read_at 1 = 0x00 ∧
    (World.boot.with_bus [0x80, 0x00, 0x80]).read_at 2 = 0x80 ∧
    (poll_flash_data 4 (World.boot.with_bus [0x80, 0x00, 0x80]) 0x1234 true).1.hw_log =
      World.boot.hw_log ++ [.poll_first 0x1234, .poll_next, .poll_next] := by
  decide

theorem tx_read_progress_pipe {src T0 : List Nat} {w r : World} (hf : PipeFrame w r)
    (h : TxReadProgress src T0 w) : TxReadProgress src T0 r := by
  obtain ⟨k, h1, h2, h3, h4⟩ := h
  refine ⟨k, h1, by rw [hf.state]; exact h2, ?_, by rw [hf.tx_log]; exact h4⟩
  rw [hf.state, load_congr w r _ _ (by rw [hf.state]) (by rw [hf.state]) hf.diagnostics
    hf.flash_sequence]
  exact h3

/-- One call of `execute_cmd_tx_read` on a response in progress: more of the
same bytes go out, in order, and the call returns true exactly when the last
of them has. -/
theorem execute_cmd_tx_read_progress (src T0 : List Nat) (w : World)
    (hn : src.length ≤ 255) (h : TxReadProgress src T0 w) :
    TxReadProgress src T0 (execute_cmd_tx_read w).1 ∧
    ((execute_cmd_tx_read w).2 = true →
      (execute_cmd_tx_read w).1.tx_log = T0 ++ src ∧
      (execute_cmd_tx_read w).1.state.tx_read_slice.len = 0) ∧
    ((execute_cmd_tx_read w).2 = false →
      0 < (execute_cmd_tx_read w).1.state.tx_read_slice.len) := by
  obtain ⟨k, hk, hlen, hload, hlog⟩ := h
  obtain ⟨m, hm, hok, hst, htx, hfr⟩ :=
    execute_cmd_tx_read_loop_spec w.state.tx_read_slice.len w (Nat.le_refl _) (by omega)
  have hsplit : w.load w.state.tx_read_slice.ptr m ++
      w.load (w.state.tx_read_slice.ptr.add m) (src.length - k - m) = src.drop k := by
    rw [← load_add, ← hload]
    congr 1
    omega
  have hA : w.load w.state.tx_read_slice.ptr m = (src.drop k).take m := by
    rw [← hsplit, List.take_left' (load_length _ _ _)]
  have hB : w.load (w.state.tx_read_slice.ptr.add m) (src.length - k - m) =
      (src.drop k).drop m := by
    rw [← hsplit, List.drop_left' (load_length _ _ _)]
  have hlog2 : (execute_cmd_tx_read w).1.tx_log = T0 ++ src.take (k + m) := by
    show (execute_cmd_tx_read_loop w.state.tx_read_slice.len w).1.tx_log = _
    rw [htx, hlog, hA, List.take_add, List.append_assoc]
  have hst2 : (execute_cmd_tx_read w).1.state = { w.state with tx_read_slice :=
      { ptr := w.state.tx_read_slice.ptr.add m, len := w.state.tx_read_slice.len - m } } := hst
  refine ⟨⟨k + m, by omega, ?_, ?_, hlog2⟩, ?_, ?_⟩
  · rw [hst2]; simp only; omega
  · have hc := load_congr w (execute_cmd_tx_read w).1 (w.state.tx_read_slice.ptr.add m)
      (src.length - (k + m)) (by rw [hst2]) (by rw [hst2]) hfr.diagnostics hfr.flash_sequence
    rw [hst2]
    simp only
    rw [hc, show src.length - (k + m) = src.length - k - m by omega, hB, List.drop_drop,
      Nat.add_comm]
  · intro hyes
    have he := hok.mp hyes
    refine ⟨?_, ?_⟩
    · rw [hlog2, List.take_of_length_le (by omega)]
    · rw [hst2]; simp only; omega
  · intro hno
    have hne : m ≠ w.state.tx_read_slice.len := by
      intro he
      have := hok.mpr he
      rw [show (execute_cmd_tx_read w).2 = (execute_cmd_tx_read_loop w.state.tx_read_slice.len w).2
        from rfl] at hno
      rw [this] at hno
      cases hno
    rw [hst2]; simp only; omega

/-- A call of `execute_cmd_tx_read` that finds no transmit slice returns false
and is `pipe_tx_acquire` alone. -/
theorem execute_cmd_tx_read_no_slice (w : World) (hlen : 0 < w.state.tx_read_slice.len)
    (hno : (pipe_tx_acquire w).pipe_state.tx_slice_valid = false) :
    execute_cmd_tx_read w = (pipe_tx_acquire w, false) := by
  unfold execute_cmd_tx_read
  cases hn : w.state.tx_read_slice.len with
  | zero => omega
  | succ k =>
    unfold execute_cmd_tx_read_loop
    simp [hn, hno]

/-- C17.  A response `src` of at most 255 bytes, in any state of the pipes and
with any interrupts pending.  When the read slice holds `src`, nothing of it
has been written yet.  Every call of `execute_cmd_tx_read` writes more of the
same bytes, in order and each once: the response log stays `T0` followed by a
prefix of `src`, the read slice holds the rest, and the call returns true
exactly when the whole of `src` is out.  A call that finds no transmit slice
returns false with the command state and the response log unchanged, so the
next call resumes where the last one stopped.  The pipe functions that run
between two calls change none of this. -/
theorem tx_read_emits_source (src T0 : List Nat) (hn : src.length ≤ 255) :
    (∀ w : World, w.state.tx_read_slice.len = src.length →
      w.load w.state.tx_read_slice.ptr src.length = src → TxReadProgress src w.tx_log w) ∧
    (∀ w : World, TxReadProgress src T0 w →
      TxReadProgress src T0 (execute_cmd_tx_read w).1 ∧
      ((execute_cmd_tx_read w).2 = true →
        (execute_cmd_tx_read w).1.tx_log = T0 ++ src ∧
        (execute_cmd_tx_read w).1.state.tx_read_slice.len = 0) ∧
      ((execute_cmd_tx_read w).2 = false →
        0 < (execute_cmd_tx_read w).1.state.tx_read_slice.len) ∧
      (execute_cmd_tx_read w).1.state =
        { w.state with tx_read_slice := (execute_cmd_tx_read w).1.state.tx_read_slice }) ∧
    (∀ w : World, 0 < w.state.tx_read_slice.len →
      (pipe_tx_acquire w).pipe_state.tx_slice_valid = false →
      (execute_cmd_tx_read w).2 = false ∧
      (execute_cmd_tx_read w).1.state = w.state ∧
      (execute_cmd_tx_read w).1.tx_log = w.tx_log) ∧
    (∀ w : World, TxReadProgress src T0 w →
      TxReadProgress src T0 (pipe_tx_flush w) ∧ TxReadProgress src T0 (pipe_tx_acquire w) ∧
      TxReadProgress src T0 (pipe_rx_acquire w)) ∧
    (∀ w : World, TxReadProgress src T0 w → w.pipe_state.tx_slice_valid = true →
      w.state.tx_read_slice.len ≤ w.pipe_state.tx_slice.len →
      (execute_cmd_tx_read w).2 = true ∧ (execute_cmd_tx_read w).1.tx_log = T0 ++ src) := by
  refine ⟨?_, ?_, ?_, ?_, ?_⟩
  · intro w h1 h2
    exact ⟨0, Nat.zero_le _, by rw [h1]; rfl, by simpa using h2, by simp⟩
  · intro w h
    obtain ⟨h1, h2, h3⟩ := execute_cmd_tx_read_progress src T0 w hn h
    obtain ⟨-, s, hs⟩ := execute_cmd_tx_read_loop_inert w.state.tx_read_slice.len w
    refine ⟨h1, h2, h3, ?_⟩
    have hs2 : (execute_cmd_tx_read w).1.state = { w.state with tx_read_slice := s } := hs
    rw [hs2]
  · intro w hlen hno
    rw [execute_cmd_tx_read_no_slice w hlen hno]
    exact ⟨rfl, (pipe_tx_acquire_frame w).state, (pipe_tx_acquire_frame w).tx_log⟩
  · intro w h
    exact ⟨tx_read_progress_pipe (pipe_tx_flush_frame w) h,
      tx_read_progress_pipe (pipe_tx_acquire_frame w) h,
      tx_read_progress_pipe (pipe_rx_acquire_frame w) h⟩
  · intro w h hv hroom
    have hlt : w.state.tx_read_slice.len < 256 := by
      obtain ⟨k, hk, hlen, -, -⟩ := h
      omega
    have hdone := execute_cmd_tx_read_room w hv hroom hlt
    exact ⟨hdone, ((execute_cmd_tx_read_progress src T0 w hn h).2.1 hdone).1⟩

/-- C17 at a concrete input: the five bytes of the IDENTIFY response. -/
theorem tx_read_emits_source_witness :
    (fetch_command (World.boot.receive [0x1f])).state.tx_read_slice.len = 5 ∧
    TxReadProgress [0x99, 0x34, 0x12, 2, 1] (fetch_command (World.boot.receive [0x1f])).tx_log
      (fetch_command (World.boot.receive [0x1f])) ∧
    (execute_cmd_tx_read (fetch_command (World.boot.receive [0x1f]))).2 = true ∧
    (execute_cmd_tx_read (fetch_command (World.boot.receive [0x1f]))).1.tx_log =
      [0x99, 0x34, 0x12, 2, 1] :=
  have h := tx_read_emits_source [0x99, 0x34, 0x12, 2, 1] [] (by decide)
  ⟨by decide, h.1 (fetch_command (World.boot.receive [0x1f])) (by decide) (by decide),
    by decide, by decide⟩

theorem SameCpuBits.cpu_refl (w : World) : SameCpuBits w w := ⟨rfl, rfl, rfl, rfl⟩

theorem SameCpuBits.cpu_trans {a b c : World} (h1 : SameCpuBits a b) (h2 : SameCpuBits b c) :
    SameCpuBits a c :=
  ⟨h2.1.trans h1.1, h2.2.1.trans h1.2.1, h2.2.2.1.trans h1.2.2.1, h2.2.2.2.trans h1.2.2.2⟩

theorem usb_event_cpu_bits (w : World) (e : UsbEvent) : SameCpuBits w (usb_event w e) := by
  cases e with
  | ep2_out ppbi data =>
    cases ppbi <;> simp [SameCpuBits, usb_event, usb_isr_ep2, sie_complete]
  | ep2_in ppbi =>
    cases ppbi <;> simp [SameCpuBits, usb_event, usb_isr_ep2, sie_complete]

theorem foldl_usb_event_cpu_bits (l : List UsbEvent) (w : World) :
    SameCpuBits w (l.foldl usb_event w) := by
  induction l generalizing w with
  | nil => exact SameCpuBits.cpu_refl w
  | cons e l ih => exact (usb_event_cpu_bits w e).cpu_trans (ih _)

theorem irq_cpu_bits (w : World) : SameCpuBits w (irq w) := by
  unfold irq
  split
  · split
    · exact SameCpuBits.cpu_refl w
    · rename_i batch rest _
      exact SameCpuBits.cpu_trans ⟨rfl, rfl, rfl, rfl⟩ (foldl_usb_event_cpu_bits batch _)
  · exact SameCpuBits.cpu_refl w

theorem BEGIN_CRITICAL_SECTION_cpu_bits (w : World) :
    SameCpuBits w (BEGIN_CRITICAL_SECTION w) :=
  (irq_cpu_bits w).cpu_trans ⟨rfl, rfl, rfl, rfl⟩

theorem END_CRITICAL_SECTION_fields (w : World) :
    (END_CRITICAL_SECTION w).bds = w.bds ∧ (END_CRITICAL_SECTION w).bulk_in = w.bulk_in ∧
    (END_CRITICAL_SECTION w).bulk_out = w.bulk_out ∧
    (END_CRITICAL_SECTION w).pipe_state = w.pipe_state := by
  unfold END_CRITICAL_SECTION
  split <;> exact ⟨rfl, rfl, rfl, rfl⟩

theorem BD_ARM_DATA_bits (bd : BufferDescriptor) (dts : Bool) (len : Nat) (h : len < 256) :
    (BD_ARM_DATA bd dts len).BC_L = len ∧ get_bit (BD_ARM_DATA bd dts len).STAT 7 = true ∧
    get_bit (BD_ARM_DATA bd dts len).STAT 6 = dts ∧ (BD_ARM_DATA bd dts len).ADR = bd.ADR := by
  refine ⟨Nat.mod_eq_of_lt h, ?_, ?_, rfl⟩
  · cases dts
    · exact (by decide : get_bit (set_bit ((if false = true then STAT_DTS_MASK else 0) |||
        STAT_DTSEN_MASK) 7 true) 7 = true)
    · exact (by decide : get_bit (set_bit ((if true = true then STAT_DTS_MASK else 0) |||
        STAT_DTSEN_MASK) 7 true) 7 = true)
  · cases dts
    · exact (by decide : get_bit (set_bit ((if false = true then STAT_DTS_MASK else 0) |||
        STAT_DTSEN_MASK) 7 true) 6 = false)
    · exact (by decide : get_bit (set_bit ((if true = true then STAT_DTS_MASK else 0) |||
        STAT_DTSEN_MASK) 7 true) 6 = true)

theorem flush_len (r : Nat) (h : r ≤ 64) :
    (EP2_PACKET_SIZE + 256 - r % 256) % 256 = 64 - r := by
  unfold EP2_PACKET_SIZE
  omega

theorem World.in_bd_congr {a b : World} (h : a.bds = b.bds) (o : Bool) :
    a.in_bd o = b.in_bd o := by
  unfold World.in_bd
  rw [h]

/-- What `tx_arm` does to the half named by `cpu_odd`, to the other half and to
the flags, `n` being the byte count it computes. -/
theorem tx_arm_effect (v : World) (n : Nat) (hlt : n < 256)
    (hn : (EP2_PACKET_SIZE + 256 - v.pipe_state.tx_slice.len % 256) % 256 = n) :
    ((tx_arm v).in_bd v.bulk_in.cpu_odd).BC_L = n ∧
    get_bit ((tx_arm v).in_bd v.bulk_in.cpu_odd).STAT 7 = true ∧
    get_bit ((tx_arm v).in_bd v.bulk_in.cpu_odd).STAT 6 = v.bulk_in.cpu_dts ∧
    (tx_arm v).in_bd (!v.bulk_in.cpu_odd) = v.in_bd (!v.bulk_in.cpu_odd) ∧
    (tx_arm v).bulk_in.busy v.bulk_in.cpu_odd = true ∧
    (tx_arm v).bulk_in.busy (!v.bulk_in.cpu_odd) = v.bulk_in.busy (!v.bulk_in.cpu_odd) ∧
    (tx_arm v).bulk_in.cpu_odd = (!v.bulk_in.cpu_odd) ∧
    (tx_arm v).bulk_in.cpu_dts = (!v.bulk_in.cpu_dts) ∧
    (tx_arm v).pipe_state.tx_need_zlp = decide (n = 64) ∧
    (tx_arm v).bulk_out = v.bulk_out := by
  unfold tx_arm
  simp only []
  rw [hn]
  obtain ⟨b1, b2, b3, -⟩ := BD_ARM_DATA_bits v.bds.ep2_in_odd v.bulk_in.cpu_dts n hlt
  obtain ⟨c1, c2, c3, -⟩ := BD_ARM_DATA_bits v.bds.ep2_in_even v.bulk_in.cpu_dts n hlt
  simp only [World.in_bd, BulkFlags.busy]
  cases h1 : v.bulk_in.cpu_odd <;>
    simp [h1, FLIP_BIT, EP2_PACKET_SIZE, b1, b2, b3, c1, c2, c3]

/-- What `tx_select` leaves alone, and the slice it chooses when the half
named by `cpu_odd` is free, the other one being busy. -/
theorem tx_select_effect (u : World) :
    (tx_select u).bds = u.bds ∧ (tx_select u).bulk_in = u.bulk_in ∧
    (tx_select u).bulk_out = u.bulk_out ∧
    (tx_select u).pipe_state.tx_need_zlp = u.pipe_state.tx_need_zlp ∧
    (u.bulk_in.busy (!u.bulk_in.cpu_odd) = true → u.bulk_in.busy u.bulk_in.cpu_odd = false →
      (tx_select u).pipe_state.tx_slice_valid = true ∧
      (tx_select u).pipe_state.tx_slice =
        { ptr := { half := Half.of_odd u.bulk_in.cpu_odd, off := 0 }, len := 64 }) ∧
    (u.bulk_in.busy (!u.bulk_in.cpu_odd) = true → u.bulk_in.busy u.bulk_in.cpu_odd = true →
      (tx_select u).pipe_state.tx_slice_valid = false) := by
  unfold tx_select
  simp only [BulkFlags.busy, Half.of_odd]
  cases h1 : u.bulk_in.cpu_odd <;> cases h2 : u.bulk_in.odd_busy <;>
    cases h3 : u.bulk_in.even_busy <;>
    simp [h1, h2, h3, tx_take_odd, tx_take_even, EP2_PACKET_SIZE]

/-- The effect of `pipe_tx_flush` in terms of the world on entry to its critical
section. -/
theorem pipe_tx_flush_effect (w : World) (n : Nat)
    (hn : (EP2_PACKET_SIZE + 256 -
      (BEGIN_CRITICAL_SECTION w).pipe_state.tx_slice.len % 256) % 256 = n) :
    ((pipe_tx_flush w).in_bd w.bulk_in.cpu_odd).BC_L = n ∧
    get_bit ((pipe_tx_flush w).in_bd w.bulk_in.cpu_odd).STAT 7 = true ∧
    get_bit ((pipe_tx_flush w).in_bd w.bulk_in.cpu_odd).STAT 6 = w.bulk_in.cpu_dts ∧
    (pipe_tx_flush w).in_bd (!w.bulk_in.cpu_odd) =
      (BEGIN_CRITICAL_SECTION w).in_bd (!w.bulk_in.cpu_odd) ∧
    (pipe_tx_flush w).bulk_in.busy w.bulk_in.cpu_odd = true ∧
    (pipe_tx_flush w).bulk_in.busy (!w.bulk_in.cpu_odd) =
      (BEGIN_CRITICAL_SECTION w).bulk_in.busy (!w.bulk_in.cpu_odd) ∧
    (pipe_tx_flush w).bulk_in.cpu_odd = (!w.bulk_in.cpu_odd) ∧
    (pipe_tx_flush w).bulk_in.cpu_dts = (!w.bulk_in.cpu_dts) ∧
    (pipe_tx_flush w).pipe_state.tx_need_zlp = decide (n = 64) ∧
    (pipe_tx_flush w).bulk_out.cpu_odd = w.bulk_out.cpu_odd ∧
    (pipe_tx_flush w).bulk_out.cpu_dts = w.bulk_out.cpu_dts ∧
    ((BEGIN_CRITICAL_SECTION w).bulk_in.busy (!w.bulk_in.cpu_odd) = false →
      (pipe_tx_flush w).pipe_state.tx_slice_valid = true ∧
      (pipe_tx_flush w).pipe_state.tx_slice =
        { ptr := { half := Half.of_odd (!w.bulk_in.cpu_odd), off := 0 }, len := 64 }) ∧
    ((BEGIN_CRITICAL_SECTION w).bulk_in.busy (!w.bulk_in.cpu_odd) = true →
      (pipe_tx_flush w).pipe_state.tx_slice_valid = false) := by
  obtain ⟨hco, hcd, hoo, hod⟩ := BEGIN_CRITICAL_SECTION_cpu_bits w
  have hlt : n < 256 := hn ▸ Nat.mod_lt _ (by decide)
  obtain ⟨a1, a2, a3, a4, a5, a6, a7, a8, a9, a10⟩ :=
    tx_arm_effect (BEGIN_CRITICAL_SECTION w) n hlt hn
  obtain ⟨s1, s2, s3, s4, s5, s6⟩ := tx_select_effect (tx_arm (BEGIN_CRITICAL_SECTION w))
  obtain ⟨e1, e2, e3, e4⟩ :=
    END_CRITICAL_SECTION_fields (tx_select (tx_arm (BEGIN_CRITICAL_SECTION w)))
  have hp : pipe_tx_flush w =
      END_CRITICAL_SECTION (tx_select (tx_arm (BEGIN_CRITICAL_SECTION w))) := rfl
  have hbd : ∀ o, (pipe_tx_flush w).in_bd o = (tx_arm (BEGIN_CRITICAL_SECTION w)).in_bd o :=
    fun o => hp ▸ World.in_bd_congr (e1.trans s1) o
  have hbi : (pipe_tx_flush w).bulk_in = (tx_arm (BEGIN_CRITICAL_SECTION w)).bulk_in :=
    hp ▸ e2.trans s2
  have hbo : (pipe_tx_flush w).bulk_out = (BEGIN_CRITICAL_SECTION w).bulk_out :=
    hp ▸ (e3.trans s3).trans a10
  have hpp : (pipe_tx_flush w).pipe_state =
      (tx_select (tx_arm (BEGIN_CRITICAL_SECTION w))).pipe_state := hp ▸ e4
  rw [hbd, hbd, hbi, hbo, hpp, ← hco, ← hcd, ← hoo, ← hod]
  rw [a7, Bool.not_not] at s5 s6
  exact ⟨a1, a2, a3, a4, a5, a6, a7, a8, s4.trans a9, rfl, rfl,
    fun hb => s5 a5 (a6.trans hb), fun hb => s6 a5 (a6.trans hb)⟩

/-- C18.  `pipe_tx_flush` on a transmit slice with remaining capacity
`r ≤ 64`, the interrupts still waiting having been taken on entry to the
critical section.  The half selected by `bulk_in.cpu_odd` is armed with byte
count `64 - r` and data toggle `cpu_dts` and is marked busy, the other half is
left alone; `cpu_odd` and `cpu_dts` are flipped; `tx_need_zlp` becomes true
iff `r = 0`, that is iff `64 - r = 64`; and the other half is exposed as a
fresh 64-byte slice iff it is not busy, the slice being marked invalid if it
is. -/
theorem pipe_tx_flush_spec (w : World) (hr : w.pipe_state.tx_slice.len ≤ 64) :
    ((pipe_tx_flush w).in_bd w.bulk_in.cpu_odd).BC_L = 64 - w.pipe_state.tx_slice.len ∧
    get_bit ((pipe_tx_flush w).in_bd w.bulk_in.cpu_odd).STAT 7 = true ∧
    get_bit ((pipe_tx_flush w).in_bd w.bulk_in.cpu_odd).STAT 6 = w.bulk_in.cpu_dts ∧
    (pipe_tx_flush w).in_bd (!w.bulk_in.cpu_odd) =
      (BEGIN_CRITICAL_SECTION w).in_bd (!w.bulk_in.cpu_odd) ∧
    (pipe_tx_flush w).bulk_in.busy w.bulk_in.cpu_odd = true ∧
    (pipe_tx_flush w).bulk_in.busy (!w.bulk_in.cpu_odd) =
      (BEGIN_CRITICAL_SECTION w).bulk_in.busy (!w.bulk_in.cpu_odd) ∧
    (pipe_tx_flush w).bulk_in.cpu_odd = (!w.bulk_in.cpu_odd) ∧
    (pipe_tx_flush w).bulk_in.cpu_dts = (!w.bulk_in.cpu_dts) ∧
    (pipe_tx_flush w).pipe_state.tx_need_zlp = decide (64 - w.pipe_state.tx_slice.len = 64) ∧
    ((BEGIN_CRITICAL_SECTION w).bulk_in.busy (!w.bulk_in.cpu_odd) = false →
      (pipe_tx_flush w).pipe_state.tx_slice_valid = true ∧
      (pipe_tx_flush w).pipe_state.tx_slice =
        { ptr := { half := Half.of_odd (!w.bulk_in.cpu_odd), off := 0 }, len := 64 }) ∧
    ((BEGIN_CRITICAL_SECTION w).bulk_in.busy (!w.bulk_in.cpu_odd) = true →
      (pipe_tx_flush w).pipe_state.tx_slice_valid = false) := by
  have hn : (EP2_PACKET_SIZE + 256 -
      (BEGIN_CRITICAL_SECTION w).pipe_state.tx_slice.len % 256) % 256 =
      64 - w.pipe_state.tx_slice.len := by
    rw [BEGIN_CRITICAL_SECTION_pipe_state w]
    exact flush_len w.pipe_state.tx_slice.len hr
  obtain ⟨h1, h2, h3, h4, h5, h6, h7, h8, h9, -, -, h12, h13⟩ :=
    pipe_tx_flush_effect w (64 - w.pipe_state.tx_slice.len) hn
  exact ⟨h1, h2, h3, h4, h5, h6, h7, h8, h9, h12, h13⟩

/-- C18 at a concrete input: a slice holding the five bytes of the IDENTIFY
response. -/
theorem pipe_tx_flush_spec_witness :
    World.tx_sample.pipe_state.tx_slice_valid = true ∧
    World.tx_sample.pipe_state.tx_slice.len = 59 ∧
    World.tx_sample.bulk_in.cpu_odd = false ∧
    ((pipe_tx_flush World.tx_sample).in_bd World.tx_sample.bulk_in.cpu_odd).BC_L =
      64 - World.tx_sample.pipe_state.tx_slice.len ∧
    (pipe_tx_flush World.tx_sample).bulk_in.cpu_odd = (!World.tx_sample.bulk_in.cpu_odd) ∧
    (pipe_tx_flush World.tx_sample).pipe_state.tx_need_zlp = false ∧
    (pipe_tx_flush World.tx_sample).bds.ep2_in_even.BC_L = 5 :=
  have h := pipe_tx_flush_spec World.tx_sample (by decide)
  ⟨by decide, by decide, by decide, h.1, h.2.2.2.2.2.2.1, by decide, by decide⟩

theorem FLIP_BIT_eq (b : Bool) : FLIP_BIT b = !b := by
  cases b <;> rfl

/-- `pipe_arm_rx`: the OUT half selected by `cpu_odd` is armed for 64 bytes
with toggle `cpu_dts` and marked busy, the other half is left alone, and both
bits are flipped. -/
theorem pipe_arm_rx_effect (w : World) :
    ((pipe_arm_rx w).out_bd w.bulk_out.cpu_odd).BC_L = 64 ∧
    get_bit ((pipe_arm_rx w).out_bd w.bulk_out.cpu_odd).STAT 7 = true ∧
    get_bit ((pipe_arm_rx w).out_bd w.bulk_out.cpu_odd).STAT 6 = w.bulk_out.cpu_dts ∧
    (pipe_arm_rx w).out_bd (!w.bulk_out.cpu_odd) = w.out_bd (!w.bulk_out.cpu_odd) ∧
    (pipe_arm_rx w).bulk_out.busy w.bulk_out.cpu_odd = true ∧
    (pipe_arm_rx w).bulk_out.busy (!w.bulk_out.cpu_odd) =
      w.bulk_out.busy (!w.bulk_out.cpu_odd) ∧
    (pipe_arm_rx w).bulk_out.cpu_odd = (!w.bulk_out.cpu_odd) ∧
    (pipe_arm_rx w).bulk_out.cpu_dts = (!w.bulk_out.cpu_dts) ∧
    (pipe_arm_rx w).bulk_in = w.bulk_in := by
  obtain ⟨b1, b2, b3, -⟩ := BD_ARM_DATA_bits w.bds.ep2_out_odd w.bulk_out.cpu_dts 64 (by decide)
  obtain ⟨c1, c2, c3, -⟩ := BD_ARM_DATA_bits w.bds.ep2_out_even w.bulk_out.cpu_dts 64 (by decide)
  unfold pipe_arm_rx
  simp only [World.out_bd, BulkFlags.busy]
  cases h1 : w.bulk_out.cpu_odd <;>
    simp [h1, FLIP_BIT, EP2_PACKET_SIZE, b1, b2, b3, c1, c2, c3]

/-- The part of `pipe_tx_flush` that arms: the IN half selected by `cpu_odd`
is armed with toggle `cpu_dts`, and both bits are flipped; the OUT side is not
touched. -/
theorem pipe_tx_flush_alternates (w : World) :
    get_bit ((pipe_tx_flush w).in_bd w.bulk_in.cpu_odd).STAT 7 = true ∧
    get_bit ((pipe_tx_flush w).in_bd w.bulk_in.cpu_odd).STAT 6 = w.bulk_in.cpu_dts ∧
    (pipe_tx_flush w).in_bd (!w.bulk_in.cpu_odd) =
      (BEGIN_CRITICAL_SECTION w).in_bd (!w.bulk_in.cpu_odd) ∧
    (pipe_tx_flush w).bulk_in.cpu_odd = (!w.bulk_in.cpu_odd) ∧
    (pipe_tx_flush w).bulk_in.cpu_dts = (!w.bulk_in.cpu_dts) ∧
    (pipe_tx_flush w).bulk_out.cpu_odd = w.bulk_out.cpu_odd ∧
    (pipe_tx_flush w).bulk_out.cpu_dts = w.bulk_out.cpu_dts := by
  obtain ⟨-, h2, h3, h4, -, -, h7, h8, -, h10, h11, -, -⟩ := pipe_tx_flush_effect w _ rfl
  exact ⟨h2, h3, h4, h7, h8, h10, h11⟩

theorem END_CRITICAL_SECTION_cpu_bits (w : World) : SameCpuBits w (END_CRITICAL_SECTION w) := by
  obtain ⟨-, h1, h2, -⟩ := END_CRITICAL_SECTION_fields w
  exact ⟨by rw [h1], by rw [h1], by rw [h2], by rw [h2]⟩

/-- `pipe_rx_acquire` re-arms exactly when the slice is valid and used up;
otherwise it leaves the parity and toggle bits alone. -/
theorem pipe_rx_acquire_cpu_bits (w : World) :
    (w.pipe_state.rx_slice_valid = true → w.pipe_state.rx_slice.len = 0 →
      (pipe_rx_acquire w).bulk_out.cpu_odd = (!w.bulk_out.cpu_odd) ∧
      (pipe_rx_acquire w).bulk_out.cpu_dts = (!w.bulk_out.cpu_dts) ∧
      (pipe_rx_acquire w).bulk_in.cpu_odd = w.bulk_in.cpu_odd ∧
      (pipe_rx_acquire w).bulk_in.cpu_dts = w.bulk_in.cpu_dts) ∧
    (¬ (w.pipe_state.rx_slice_valid = true ∧ w.pipe_state.rx_slice.len = 0) →
      SameCpuBits w (pipe_rx_acquire w)) := by
  have hb := BEGIN_CRITICAL_SECTION_cpu_bits w
  constructor
  · intro hv hl
    have ha := pipe_arm_rx_effect (BEGIN_CRITICAL_SECTION w)
    unfold pipe_rx_acquire
    simp only [hv, hl, Bool.not_true, Bool.false_eq_true, if_false, if_true]
    have he := END_CRITICAL_SECTION_cpu_bits
    generalize hx : pipe_arm_rx (BEGIN_CRITICAL_SECTION w) = x at ha ⊢
    have hmid : ∀ y : World, SameCpuBits x y →
        y.bulk_out.cpu_odd = (!w.bulk_out.cpu_odd) ∧ y.bulk_out.cpu_dts = (!w.bulk_out.cpu_dts) ∧
        y.bulk_in.cpu_odd = w.bulk_in.cpu_odd ∧ y.bulk_in.cpu_dts = w.bulk_in.cpu_dts := by
      intro y hy
      refine ⟨?_, ?_, ?_, ?_⟩
      · rw [hy.2.2.1, ha.2.2.2.2.2.2.1, hb.2.2.1]
      · rw [hy.2.2.2, ha.2.2.2.2.2.2.2.1, hb.2.2.2]
      · rw [hy.1, ha.2.2.2.2.2.2.2.2, hb.1]
      · rw [hy.2.1, ha.2.2.2.2.2.2.2.2, hb.2.1]
    apply hmid
    split
    · exact SameCpuBits.cpu_trans ⟨rfl, rfl, rfl, rfl⟩ (he _)
    · split
      · exact SameCpuBits.cpu_trans ⟨rfl, rfl, rfl, rfl⟩ (he _)
      · exact SameCpuBits.cpu_trans ⟨rfl, rfl, rfl, rfl⟩ (he _)
  · intro hn
    unfold pipe_rx_acquire
    split
    · refine hb.cpu_trans (SameCpuBits.cpu_trans ?_ (END_CRITICAL_SECTION_cpu_bits _))
      split
      · exact ⟨rfl, rfl, rfl, rfl⟩
      · split
        · exact ⟨rfl, rfl, rfl, rfl⟩
        · exact SameCpuBits.cpu_refl _
    · rename_i hv
      have hv2 : w.pipe_state.rx_slice_valid = true := by simpa using hv
      split
      · rename_i hl
        exact absurd ⟨hv2, hl⟩ hn
      · exact SameCpuBits.cpu_refl w

/-- `pipe_tx_acquire` flushes exactly when the slice is valid and full;
otherwise it leaves the parity and toggle bits alone. -/
theorem pipe_tx_acquire_cpu_bits (w : World) :
    (w.pipe_state.tx_slice_valid = true → w.pipe_state.tx_slice.len = 0 →
      pipe_tx_acquire w = pipe_tx_flush w) ∧
    (¬ (w.pipe_state.tx_slice_valid = true ∧ w.pipe_state.tx_slice.len = 0) →
      SameCpuBits w (pipe_tx_acquire w)) := by
  constructor
  · intro hv hl
    unfold pipe_tx_acquire
    simp [hv, hl]
  · intro hn
    unfold pipe_tx_acquire
    split
    · refine (BEGIN_CRITICAL_SECTION_cpu_bits w).cpu_trans
        (SameCpuBits.cpu_trans ?_ (END_CRITICAL_SECTION_cpu_bits _))
      split
      · exact ⟨rfl, rfl, rfl, rfl⟩
      · split
        · exact ⟨rfl, rfl, rfl, rfl⟩
        · exact SameCpuBits.cpu_refl _
    · rename_i hv
      have hv2 : w.pipe_state.tx_slice_valid = true := by simpa using hv
      split
      · rename_i hl
        exact absurd ⟨hv2, hl⟩ hn
      · exact SameCpuBits.cpu_refl w

/-- Alternation of the buffer halves between two pipe resets, in both
directions.  `pipe_arm_rx` arms the OUT half selected by `bulk_out.cpu_odd` with toggle
`cpu_dts`, leaves the other half alone and flips both bits; `pipe_tx_flush`
does the same for IN with `bulk_in`.  Bulk completions and the interrupts that
deliver them never change these bits, and `pipe_rx_acquire` and
`pipe_tx_acquire` change them only by the one arm they perform when the slice
is used up.  So after any steps that keep the bits, the next arm of a direction
targets the other half, with the opposite toggle, and does not touch the half
armed before. -/
theorem halves_alternate (w : World) :
    (get_bit ((pipe_arm_rx w).out_bd w.bulk_out.cpu_odd).STAT 7 = true ∧
      get_bit ((pipe_arm_rx w).out_bd w.bulk_out.cpu_odd).STAT 6 = w.bulk_out.cpu_dts ∧
      (pipe_arm_rx w).out_bd (!w.bulk_out.cpu_odd) = w.out_bd (!w.bulk_out.cpu_odd) ∧
      (pipe_arm_rx w).bulk_out.cpu_odd = (!w.bulk_out.cpu_odd) ∧
      (pipe_arm_rx w).bulk_out.cpu_dts = (!w.bulk_out.cpu_dts)) ∧
    (get_bit ((pipe_tx_flush w).in_bd w.bulk_in.cpu_odd).STAT 7 = true ∧
      get_bit ((pipe_tx_flush w).in_bd w.bulk_in.cpu_odd).STAT 6 = w.bulk_in.cpu_dts ∧
      (pipe_tx_flush w).in_bd (!w.bulk_in.cpu_odd) =
        (BEGIN_CRITICAL_SECTION w).in_bd (!w.bulk_in.cpu_odd) ∧
      (pipe_tx_flush w).bulk_in.cpu_odd = (!w.bulk_in.cpu_odd) ∧
      (pipe_tx_flush w).bulk_in.cpu_dts = (!w.bulk_in.cpu_dts)) ∧
    (∀ v : World, SameCpuBits (pipe_arm_rx w) v →
      get_bit ((pipe_arm_rx v).out_bd (!w.bulk_out.cpu_odd)).STAT 7 = true ∧
      get_bit ((pipe_arm_rx v).out_bd (!w.bulk_out.cpu_odd)).STAT 6 = (!w.bulk_out.cpu_dts) ∧
      (pipe_arm_rx v).out_bd w.bulk_out.cpu_odd = v.out_bd w.bulk_out.cpu_odd ∧
      (pipe_arm_rx v).bulk_out.cpu_odd = w.bulk_out.cpu_odd ∧
      (pipe_arm_rx v).bulk_out.cpu_dts = w.bulk_out.cpu_dts) ∧
    (∀ v : World, SameCpuBits (pipe_tx_flush w) v →
      get_bit ((pipe_tx_flush v).in_bd (!w.bulk_in.cpu_odd)).STAT 7 = true ∧
      get_bit ((pipe_tx_flush v).in_bd (!w.bulk_in.cpu_odd)).STAT 6 = (!w.bulk_in.cpu_dts) ∧
      (pipe_tx_flush v).in_bd w.bulk_in.cpu_odd =
        (BEGIN_CRITICAL_SECTION v).in_bd w.bulk_in.cpu_odd ∧
      (pipe_tx_flush v).bulk_in.cpu_odd = w.bulk_in.cpu_odd ∧
      (pipe_tx_flush v).bulk_in.cpu_dts = w.bulk_in.cpu_dts) ∧
    (∀ e : UsbEvent, SameCpuBits w (usb_event w e)) ∧
    SameCpuBits w (irq w) ∧
    (¬ (w.pipe_state.rx_slice_valid = true ∧ w.pipe_state.rx_slice.len = 0) →
      SameCpuBits w (pipe_rx_acquire w)) ∧
    (w.pipe_state.rx_slice_valid = true → w.pipe_state.rx_slice.len = 0 →
      (pipe_rx_acquire w).bulk_out.cpu_odd = (!w.bulk_out.cpu_odd) ∧
      (pipe_rx_acquire w).bulk_out.cpu_dts = (!w.bulk_out.cpu_dts) ∧
      (pipe_rx_acquire w).bulk_in.cpu_odd = w.bulk_in.cpu_odd ∧
      (pipe_rx_acquire w).bulk_in.cpu_dts = w.bulk_in.cpu_dts) ∧
    (¬ (w.pipe_state.tx_slice_valid = true ∧ w.pipe_state.tx_slice.len = 0) →
      SameCpuBits w (pipe_tx_acquire w)) ∧
    (w.pipe_state.tx_slice_valid = true → w.pipe_state.tx_slice.len = 0 →
      pipe_tx_acquire w = pipe_tx_flush w) ∧
    ((pipe_tx_flush w).bulk_out.cpu_odd = w.bulk_out.cpu_odd ∧
      (pipe_tx_flush w).bulk_out.cpu_dts = w.bulk_out.cpu_dts ∧
      (pipe_arm_rx w).bulk_in = w.bulk_in) := by
  obtain ⟨-, a2, a3, a4, -, -, a7, a8, a9⟩ := pipe_arm_rx_effect w
  obtain ⟨f1, f2, f3, f4, f5, f6, f7⟩ := pipe_tx_flush_alternates w
  refine ⟨⟨a2, a3, a4, a7, a8⟩, ⟨f1, f2, f3, f4, f5⟩, ?_, ?_, usb_event_cpu_bits w,
    irq_cpu_bits w, (pipe_rx_acquire_cpu_bits w).2, (pipe_rx_acquire_cpu_bits w).1,
    (pipe_tx_acquire_cpu_bits w).2, (pipe_tx_acquire_cpu_bits w).1, ⟨f6, f7, a9⟩⟩
  · intro v hv
    obtain ⟨-, b2, b3, b4, -, -, b7, b8, -⟩ := pipe_arm_rx_effect v
    have ho : v.bulk_out.cpu_odd = (!w.bulk_out.cpu_odd) := by rw [hv.2.2.1, a7]
    have hd : v.bulk_out.cpu_dts = (!w.bulk_out.cpu_dts) := by rw [hv.2.2.2, a8]
    simp only [ho, hd, Bool.not_not] at b2 b3 b4 b7 b8
    exact ⟨b2, b3, b4, b7, b8⟩
  · intro v hv
    obtain ⟨g1, g2, g3, g4, g5, -, -⟩ := pipe_tx_flush_alternates v
    have ho : v.bulk_in.cpu_odd = (!w.bulk_in.cpu_odd) := by rw [hv.1, f4]
    have hd : v.bulk_in.cpu_dts = (!w.bulk_in.cpu_dts) := by rw [hv.2.1, f5]
    simp only [ho, hd, Bool.not_not] at g1 g2 g3 g4 g5
    exact ⟨g1, g2, g3, g4, g5⟩

/-- Alternation at a concrete input: two flushes in a row on the sample transmit
world arm the even half with toggle 0 and then the odd half with toggle 1. -/
theorem halves_alternate_witness :
    World.tx_sample.bulk_in.cpu_odd = false ∧ World.tx_sample.bulk_in.cpu_dts = false ∧
    SameCpuBits (pipe_tx_flush World.tx_sample) (pipe_tx_flush World.tx_sample) ∧
    get_bit ((pipe_tx_flush (pipe_tx_flush World.tx_sample)).in_bd
      (!World.tx_sample.bulk_in.cpu_odd)).STAT 6 = (!World.tx_sample.bulk_in.cpu_dts) ∧
    get_bit (pipe_tx_flush World.tx_sample).bds.ep2_in_even.STAT 6 = false ∧
    get_bit (pipe_tx_flush (pipe_tx_flush World.tx_sample)).bds.ep2_in_odd.STAT 6 = true :=
  have h := halves_alternate World.tx_sample
  ⟨by decide, by decide, SameCpuBits.cpu_refl _,
    (h.2.2.2.1 (pipe_tx_flush World.tx_sample) (SameCpuBits.cpu_refl _)).2.1,
    by decide, by decide⟩

/-- The byte count armed by `pipe_tx_flush`, the ZLP flag it leaves, and the
slice it exposes. -/
theorem pipe_tx_flush_count (w : World) (hr : w.pipe_state.tx_slice.len ≤ 64) :
    ((pipe_tx_flush w).in_bd w.bulk_in.cpu_odd).BC_L = 64 - w.pipe_state.tx_slice.len ∧
    get_bit ((pipe_tx_flush w).in_bd w.bulk_in.cpu_odd).STAT 7 = true ∧
    (pipe_tx_flush w).pipe_state.tx_need_zlp = decide (w.pipe_state.tx_slice.len = 0) ∧
    ((pipe_tx_flush w).pipe_state.tx_slice_valid = true →
      (pipe_tx_flush w).pipe_state.tx_slice.len = 64) := by
  have hn : (EP2_PACKET_SIZE + 256 -
      (BEGIN_CRITICAL_SECTION w).pipe_state.tx_slice.len % 256) % 256 =
      64 - w.pipe_state.tx_slice.len := by
    rw [BEGIN_CRITICAL_SECTION_pipe_state w]
    exact flush_len w.pipe_state.tx_slice.len hr
  obtain ⟨h1, h2, -, -, -, -, -, -, h9, -, -, h12, h13⟩ :=
    pipe_tx_flush_effect w (64 - w.pipe_state.tx_slice.len) hn
  refine ⟨h1, h2, ?_, fun hv => ?_⟩
  · rw [h9]
    by_cases h0 : w.pipe_state.tx_slice.len = 0
    · simp [h0]
    · have : ¬ (64 - w.pipe_state.tx_slice.len = 64) := by omega
      simp [h0, this]
  · cases hb : (BEGIN_CRITICAL_SECTION w).bulk_in.busy (!w.bulk_in.cpu_odd)
    · rw [(h12 hb).2]
    · rw [h13 hb] at hv
      exact Bool.noConfusion hv

theorem pipe_tx_acquire_zlp (w : World) (hv : w.pipe_state.tx_slice_valid = false) :
    (pipe_tx_acquire w).pipe_state.tx_need_zlp = w.pipe_state.tx_need_zlp ∧
    ((pipe_tx_acquire w).pipe_state.tx_slice_valid = true →
      (pipe_tx_acquire w).pipe_state.tx_slice.len = 64) ∧
    (pipe_tx_acquire w).bds = (BEGIN_CRITICAL_SECTION w).bds := by
  have hps := BEGIN_CRITICAL_SECTION_pipe_state w
  unfold pipe_tx_acquire
  simp only [hv, Bool.not_false, if_true]
  generalize BEGIN_CRITICAL_SECTION w = v at hps ⊢
  simp only [END_CRITICAL_SECTION_fields]
  split
  · simp [tx_take_odd, EP2_PACKET_SIZE, hps]
  · split
    · simp [tx_take_even, EP2_PACKET_SIZE, hps]
    · simp [hps, hv]

theorem main_active_body_eq (fuel : Nat) (w : World) :
    main_active_body fuel w =
      if (execute_commands fuel w).status ≠ .running then execute_commands fuel w
      else if (execute_commands fuel w).pipe_state.tx_slice_valid = true then
        if (execute_commands fuel w).pipe_state.tx_slice.len < EP2_PACKET_SIZE ∨
            (execute_commands fuel w).pipe_state.tx_need_zlp = true then
          pipe_tx_flush (execute_commands fuel w)
        else execute_commands fuel w
      else if (execute_commands fuel w).pipe_state.tx_need_zlp = true then
        pipe_tx_acquire (execute_commands fuel w)
      else execute_commands fuel w := by
  unfold main_active_body
  simp only []
  generalize execute_commands fuel w = v
  by_cases h1 : v.status ≠ .running
  · rw [if_pos h1, if_pos h1]
  · rw [if_neg h1, if_neg h1]
    by_cases h2 : v.pipe_state.tx_slice_valid = true
    · rw [if_pos h2, if_pos h2]
      by_cases h3 : v.pipe_state.tx_slice.len < EP2_PACKET_SIZE ∨
          v.pipe_state.tx_need_zlp = true
      · rw [if_pos h3, if_pos (by simpa using h3)]
      · rw [if_neg h3, if_neg (by simpa using h3)]
    · rw [if_neg h2, if_neg h2]

/-- C19.  The transmit policy at the end of a main-loop round, where `v` is
the state `execute_commands` has left.  If a ZLP is owed and the slice is
valid and untouched (64 bytes free), the round flushes it: a packet of byte
count 0 is armed on the half selected by `cpu_odd` and `tx_need_zlp` is
cleared.  If a ZLP is owed and there is no slice, the round only tries to
acquire one: nothing is armed, `tx_need_zlp` stays set and a slice so acquired
is untouched.  If no ZLP is owed, an untouched slice is never flushed and no
slice is acquired: the round does nothing.  A partly filled slice is flushed
with its byte count, and leaves a ZLP owed exactly when it was full.  When no
command is ready before or after `fetch_command`, `execute_commands` is that
`fetch_command` and leaves the slice and `tx_need_zlp` as they were, as do
`pipe_rx_acquire` and a `pipe_tx_acquire` that finds the slice invalid. -/
theorem zlp_policy (fuel : Nat) (w : World)
    (hrun : (execute_commands fuel w).status = .running) :
    ((execute_commands fuel w).pipe_state.tx_need_zlp = true →
      (execute_commands fuel w).pipe_state.tx_slice_valid = true →
      (execute_commands fuel w).pipe_state.tx_slice.len = 64 →
      main_active_body fuel w = pipe_tx_flush (execute_commands fuel w) ∧
      ((main_active_body fuel w).in_bd (execute_commands fuel w).bulk_in.cpu_odd).BC_L = 0 ∧
      get_bit ((main_active_body fuel w).in_bd
        (execute_commands fuel w).bulk_in.cpu_odd).STAT 7 = true ∧
      (main_active_body fuel w).pipe_state.tx_need_zlp = false) ∧
    ((execute_commands fuel w).pipe_state.tx_need_zlp = true →
      (execute_commands fuel w).pipe_state.tx_slice_valid = false →
      main_active_body fuel w = pipe_tx_acquire (execute_commands fuel w) ∧
      (main_active_body fuel w).bds = (BEGIN_CRITICAL_SECTION (execute_commands fuel w)).bds ∧
      (main_active_body fuel w).pipe_state.tx_need_zlp = true ∧
      ((main_active_body fuel w).pipe_state.tx_slice_valid = true →
        (main_active_body fuel w).pipe_state.tx_slice.len = 64)) ∧
    ((execute_commands fuel w).pipe_state.tx_need_zlp = false →
      ((execute_commands fuel w).pipe_state.tx_slice_valid = true →
        (execute_commands fuel w).pipe_state.tx_slice.len = 64) →
      main_active_body fuel w = execute_commands fuel w) ∧
    ((execute_commands fuel w).pipe_state.tx_slice_valid = true →
      (execute_commands fuel w).pipe_state.tx_slice.len < 64 →
      main_active_body fuel w = pipe_tx_flush (execute_commands fuel w) ∧
      ((main_active_body fuel w).in_bd (execute_commands fuel w).bulk_in.cpu_odd).BC_L =
        64 - (execute_commands fuel w).pipe_state.tx_slice.len ∧
      (main_active_body fuel w).pipe_state.tx_need_zlp =
        decide ((execute_commands fuel w).pipe_state.tx_slice.len = 0)) ∧
    (0 < fuel → w.state.header_valid = false → (fetch_command w).state.header_valid = false →
      execute_commands fuel w = fetch_command w ∧
      (fetch_command w).pipe_state.tx_need_zlp = w.pipe_state.tx_need_zlp ∧
      (fetch_command w).pipe_state.tx_slice_valid = w.pipe_state.tx_slice_valid ∧
      (fetch_command w).pipe_state.tx_slice = w.pipe_state.tx_slice ∧
      (fetch_command w).tx_log = w.tx_log) ∧
    ((pipe_rx_acquire w).pipe_state.tx_need_zlp = w.pipe_state.tx_need_zlp ∧
      (w.pipe_state.tx_slice_valid = false →
        (pipe_tx_acquire w).pipe_state.tx_need_zlp = w.pipe_state.tx_need_zlp)) := by
  have c5 : 0 < fuel → w.state.header_valid = false →
      (fetch_command w).state.header_valid = false →
      execute_commands fuel w = fetch_command w ∧
      (fetch_command w).pipe_state.tx_need_zlp = w.pipe_state.tx_need_zlp ∧
      (fetch_command w).pipe_state.tx_slice_valid = w.pipe_state.tx_slice_valid ∧
      (fetch_command w).pipe_state.tx_slice = w.pipe_state.tx_slice ∧
      (fetch_command w).tx_log = w.tx_log := by
    intro hf h0 h1
    obtain ⟨k, rfl⟩ := Nat.exists_eq_succ_of_ne_zero (by omega : fuel ≠ 0)
    have hfr := fetch_command_frame w
    exact ⟨execute_commands_idle k w h0 h1, hfr.tx_need_zlp, hfr.tx_slice_valid, hfr.tx_slice,
      hfr.tx_log⟩
  have c6 : (pipe_rx_acquire w).pipe_state.tx_need_zlp = w.pipe_state.tx_need_zlp ∧
      (w.pipe_state.tx_slice_valid = false →
        (pipe_tx_acquire w).pipe_state.tx_need_zlp = w.pipe_state.tx_need_zlp) :=
    ⟨(pipe_rx_acquire_tx w).2.2, fun hv => (pipe_tx_acquire_zlp w hv).1⟩
  rw [main_active_body_eq, if_neg (by rw [hrun]; simp)]
  refine ⟨?_, ?_, ?_, ?_, c5, c6⟩ <;> clear c5 c6 <;>
    generalize execute_commands fuel w = v
  · intro hz hv hl
    obtain ⟨h1, h2, h3, -⟩ := pipe_tx_flush_count v (by omega)
    rw [if_pos hv, if_pos (Or.inr hz)]
    refine ⟨rfl, by rw [h1, hl], h2, ?_⟩
    rw [h3, hl]
    rfl
  · intro hz hv
    obtain ⟨h1, h2, h3⟩ := pipe_tx_acquire_zlp v hv
    rw [if_neg (by rw [hv]; simp), if_pos hz]
    exact ⟨rfl, h3, by rw [h1, hz], h2⟩
  · intro hz hu
    by_cases hv : v.pipe_state.tx_slice_valid = true
    · rw [if_pos hv, if_neg]
      rw [hu hv, hz]
      simp [EP2_PACKET_SIZE]
    · rw [if_neg hv, if_neg (by rw [hz]; simp)]
  · intro hv hl
    obtain ⟨h1, -, h3, -⟩ := pipe_tx_flush_count v (by omega)
    rw [if_pos hv, if_pos (Or.inl (by unfold EP2_PACKET_SIZE; exact hl))]
    exact ⟨rfl, h1, h3⟩

/-- C19 on the sample world: a ZLP is owed and the untouched odd half is the
slice; the next round arms it with byte count 0 and clears the flag. -/
theorem zlp_policy_witness :
    (execute_commands 4 World.zlp_sample).status = .running ∧
    (execute_commands 4 World.zlp_sample).pipe_state.tx_need_zlp = true ∧
    (execute_commands 4 World.zlp_sample).pipe_state.tx_slice_valid = true ∧
    (execute_commands 4 World.zlp_sample).pipe_state.tx_slice.len = 64 ∧
    World.zlp_sample.bds.ep2_in_even.BC_L = 64 ∧
    (main_active_body 4 World.zlp_sample).pipe_state.tx_need_zlp = false ∧
    (main_active_body 4 World.zlp_sample).bds.ep2_in_odd.BC_L = 0 :=
  have h := (zlp_policy 4 World.zlp_sample (by decide)).1 (by decide) (by decide) (by decide)
  ⟨by decide, by decide, by decide, by decide, by decide, h.2.2.2, by decide⟩

/-- A valid receive slice of zero bytes with no command in progress: when the
command left in `state.cmd` is one the first switch accepts and `header.len`
is its header length, `fetch_command` consumes nothing and runs the second
switch on the old command and the old header. -/
theorem fetch_command_stale (w : World) (n : Nat)
    (hv : (pipe_rx_acquire w).pipe_state.rx_slice_valid = true)
    (hl : (pipe_rx_acquire w).pipe_state.rx_slice.len = 0)
    (ht : total_header_len w.state.cmd w.state.unlocked = (n : Int))
    (hn : w.state.header.len = n) (hn16 : n ≤ 16) :
    ∃ u : World, fetch_command w = dispatch_header u ∧
      u.state = { w.state with header_valid := true } ∧ u.rx_log = w.rx_log ∧
      u.tx_log = w.tx_log ∧ u.hw_log = w.hw_log := by
  have hp := pipe_rx_acquire_frame w
  have hst := hp.state
  refine ⟨(copy_header (pipe_rx_acquire w) 0).set_header_valid true, ?_, ?_, ?_, ?_, ?_⟩
  · have hnn : ¬ total_header_len (pipe_rx_acquire w).state.cmd
        (pipe_rx_acquire w).state.unlocked < 0 := by
      rw [hst, ht]; omega
    have hneed : header_needed_bytes (pipe_rx_acquire w) = 0 := by
      unfold header_needed_bytes
      rw [hst, ht, hn]
      simp only [Int.toNat_ofNat]
      omega
    rw [fetch_command_eq, if_pos hv, if_neg (by rw [hl]; simp), fetch_header_eq, if_neg hnn,
      hneed, if_pos (by rw [hl]; rfl)]
    rfl
  · simp only [World.set_header_valid, copy_header_state, hst]
    have e1 : (pipe_rx_acquire w).rx_peek 0 = [] := by
      simp [World.rx_peek, read_bytes_zero]
    rw [e1]
    have e2 : w.state.header.len % 256 = w.state.header.len := by
      rw [hn]; omega
    simp [write_bytes, e2]
  · show (pipe_rx_acquire w).rx_log ++ (pipe_rx_acquire w).rx_peek 0 = w.rx_log
    rw [hp.rx_log]
    simp [World.rx_peek, read_bytes_zero]
  · show (pipe_rx_acquire w).tx_log = w.tx_log
    exact hp.tx_log
  · show (pipe_rx_acquire w).hw_log = w.hw_log
    exact hp.hw_log

/-- C16, as the code has it.  No command is in progress, the receive slice
that `pipe_rx_acquire` exposes is valid and holds zero bytes, and the command
left in `state.cmd` by the previous command is one the first switch accepts,
with `header.len` still at its header length `n`.  Then `fetch_command`
consumes nothing, yet it sets `header_valid` and runs the second switch on the
old command and the old header: the previous command becomes ready again
without an id byte.  For a previous PING the command is ready with the old
sixteen header bytes as its response. -/
theorem zero_length_slice_replays (w : World) (n : Nat) (hidle : w.state.cmd_valid = false)
    (hv : (pipe_rx_acquire w).pipe_state.rx_slice_valid = true)
    (hl : (pipe_rx_acquire w).pipe_state.rx_slice.len = 0)
    (ht : total_header_len w.state.cmd w.state.unlocked = (n : Int))
    (hn : w.state.header.len = n) (hn16 : n ≤ 16) :
    (fetch_command w).rx_log = w.rx_log ∧
    (∃ u : World, fetch_command w = dispatch_header u ∧
      u.state = { w.state with header_valid := true } ∧ u.rx_log = w.rx_log) ∧
    (w.state.cmd &&& CMD_MASK = CMD_PING →
      (fetch_command w).state.header_valid = true ∧
      (fetch_command w).state.cmd_valid = false ∧
      (fetch_command w).state.cmd = CMD_PING ∧
      (fetch_command w).state.tx_read_slice = { ptr := { reg := .header, off := 0 }, len := 16 } ∧
      (fetch_command w).state.header = w.state.header) := by
  obtain ⟨u, hf, hst, hrx, -, -⟩ := fetch_command_stale w n hv hl ht hn hn16
  refine ⟨by rw [hf, dispatch_header_rx_log, hrx], ⟨u, hf, hst, hrx⟩, ?_⟩
  intro hc
  have hcmd : u.state.cmd &&& CMD_MASK = CMD_PING := by rw [hst]; exact hc
  rw [hf, dispatch_header_ping u hcmd]
  refine ⟨?_, ?_, hcmd, rfl, ?_⟩
  · simp [mask, World.set_tx_read_slice, hst]
  · simp [mask, World.set_tx_read_slice, hst, hidle]
  · simp [mask, World.set_tx_read_slice, hst]

/-- C16 at a failing input: a PING with header bytes `0 .. 15` followed by a
zero-length OUT packet.  After the PING has been answered, the fetch that
meets the empty slice makes the PING ready again, and the sixteen bytes are
echoed twice though seventeen bytes were received. -/
theorem zero_length_slice_replays_witness :
    (execute_pending 2 (fetch_command World.ping_zlp_sample)).1.state.cmd_valid = false ∧
    (pipe_rx_acquire
      (execute_pending 2 (fetch_command World.ping_zlp_sample)).1).pipe_state.rx_slice_valid
      = true ∧
    (pipe_rx_acquire
      (execute_pending 2 (fetch_command World.ping_zlp_sample)).1).pipe_state.rx_slice.len = 0 ∧
    (fetch_command
      (execute_pending 2 (fetch_command World.ping_zlp_sample)).1).state.header_valid = true ∧
    (execute_commands 8 World.ping_zlp_sample).rx_log = 0x01 :: List.range 16 ∧
    (execute_commands 8 World.ping_zlp_sample).tx_log = List.range 16 ++ List.range 16 :=
  have h := zero_length_slice_replays
    (execute_pending 2 (fetch_command World.ping_zlp_sample)).1 16
    (by decide) (by decide) (by decide) (by decide) (by decide) (by decide)
  ⟨by decide, by decide, by decide, (h.2.2 (by decide)).1, by decide, by decide⟩

theorem write_bytes_append (buf : List Nat) (off : Nat) (a b : List Nat) :
    write_bytes buf off (a ++ b) = write_bytes (write_bytes buf off a) (off + a.length) b := by
  induction a generalizing buf off with
  | nil => rfl
  | cons x xs ih =>
    show write_bytes (buf.set off x) (off + 1) (xs ++ b) =
      write_bytes (write_bytes (buf.set off x) (off + 1) xs) (off + (xs.length + 1)) b
    rw [ih]
    congr 1
    omega

/-- A store into a buffer followed by more memory: the part that stays in the
buffer is what the store into the buffer alone leaves. -/
theorem write_bytes_append_take (src : List Nat) :
    ∀ (a b : List Nat) (off : Nat),
      (write_bytes (a ++ b) off src).take a.length = write_bytes a off src := by
  induction src with
  | nil => intro a b off; simp [write_bytes]
  | cons x xs ih =>
    intro a b off
    show (write_bytes ((a ++ b).set off x) (off + 1) xs).take a.length =
      write_bytes (a.set off x) (off + 1) xs
    by_cases h : off < a.length
    · rw [List.set_append_left off x h]
      have := ih (a.set off x) b (off + 1)
      rw [List.length_set] at this
      exact this
    · rw [List.set_append_right off x (Nat.le_of_not_lt h),
        List.set_eq_of_length_le (Nat.le_of_not_lt h)]
      exact ih a (b.set (off - a.length) x) (off + 1)

/-- A read inside a buffer does not see the memory that follows it. -/
theorem getD_append_inside (a b : List Nat) (n : Nat) (h : n < a.length) :
    (a ++ b).getD n 0 = a.getD n 0 := by
  exact List.getD_append a b 0 n h

theorem state_write_slice_eta (s : State) (S : Slice) (h : s.tx_write_slice = S) :
    s = { s with tx_write_slice := S } := by
  subst h
  rfl

theorem execute_cmd_set_flash_write_sequence_succ (n : Nat) (w : World) :
    execute_cmd_set_flash_write_sequence (n + 1) w =
      if w.state.tx_write_slice.len > 0 then
        if (pipe_rx_acquire w).pipe_state.rx_slice_valid = true then
          execute_cmd_set_flash_write_sequence n
            (sfws_copy (pipe_rx_acquire w)
              (MIN (pipe_rx_acquire w).pipe_state.rx_slice.len
                (pipe_rx_acquire w).state.tx_write_slice.len % 256))
        else (pipe_rx_acquire w, false)
      else (w, true) := by
  rw [execute_cmd_set_flash_write_sequence]
  split
  · simp only []
    by_cases hv : (pipe_rx_acquire w).pipe_state.rx_slice_valid = true
    · rw [if_neg (by rw [hv]; simp), if_pos hv]
      rfl
    · rw [if_pos (by simpa using hv), if_neg hv]
  · rfl

/-- What `sfws_copy` does when the write slice is at offset `k` of the record
array with room for the `c` bytes: they are stored from offset `k` on. -/
theorem sfws_copy_effect (x : World) (k r c : Nat)
    (hs : x.state.tx_write_slice = { ptr := { reg := .flash_write, off := k }, len := r })
    (hfit : k + c ≤ x.flash_sequence.write.length) :
    (sfws_copy x c).state = { x.state with tx_write_slice :=
      { ptr := { reg := .flash_write, off := k + c }, len := r - c } } ∧
    (sfws_copy x c).flash_sequence = { x.flash_sequence with
      write := write_bytes x.flash_sequence.write k (x.rx_peek c) } ∧
    (sfws_copy x c).rx_log = x.rx_log ++ x.rx_peek c ∧
    (sfws_copy x c).tx_log = x.tx_log ∧ (sfws_copy x c).hw_log = x.hw_log ∧
    (sfws_copy x c).oob = x.oob := by
  have hlen : (x.rx_peek c).length = c := rx_peek_length x c
  have hfit2 : ¬ (x.flash_sequence.write.length < k + c) := by omega
  unfold sfws_copy World.tx_write_put
  simp only [hs, World.rx_advance, World.rx_peek, Ptr.add, World.flash_mem,
    write_bytes_append_take]
  cases x.pipe_state.rx_slice.ptr.half <;> simp [read_bytes_length, hfit2, World.out_buffer]

/-- The loop of `execute_cmd_set_flash_write_sequence` with the write slice at
offset `k` of the record array and `M - k` bytes to go (`M ≤ 64`): the bytes
`l` it consumes are stored in order from offset `k` on, the slice moves on by
their number, nothing is stored outside the array, and the loop returns true
only when all `M` bytes are in. -/
theorem sfws_loop (M : Nat) (hM : M ≤ 64) (fuel : Nat) :
    ∀ (w : World) (k : Nat), k ≤ M →
      w.state.tx_write_slice = { ptr := { reg := .flash_write, off := k }, len := M - k } →
      w.flash_sequence.write.length = 64 →
      ∃ l : List Nat, k + l.length ≤ M ∧
        (execute_cmd_set_flash_write_sequence fuel w).1.rx_log = w.rx_log ++ l ∧
        (execute_cmd_set_flash_write_sequence fuel w).1.state =
          { w.state with tx_write_slice :=
              { ptr := { reg := .flash_write, off := k + l.length },
                len := M - (k + l.length) } } ∧
        (execute_cmd_set_flash_write_sequence fuel w).1.flash_sequence =
          { w.flash_sequence with write := write_bytes w.flash_sequence.write k l } ∧
        ((execute_cmd_set_flash_write_sequence fuel w).2 = true → k + l.length = M) ∧
        (execute_cmd_set_flash_write_sequence fuel w).1.tx_log = w.tx_log ∧
        (execute_cmd_set_flash_write_sequence fuel w).1.hw_log = w.hw_log ∧
        (execute_cmd_set_flash_write_sequence fuel w).1.oob = w.oob := by
  induction fuel with
  | zero =>
    intro w k hk hs hlen
    refine ⟨[], by simpa using hk, ?_, ?_, ?_, ?_, rfl, rfl, rfl⟩
    · simp [execute_cmd_set_flash_write_sequence]
    · show w.state = _
      exact state_write_slice_eta _ _ (by simpa using hs)
    · simp [execute_cmd_set_flash_write_sequence, write_bytes]
    · intro h; simp [execute_cmd_set_flash_write_sequence] at h
  | succ n ih =>
    intro w k hk hs hlen
    have hp := pipe_rx_acquire_frame w
    rw [execute_cmd_set_flash_write_sequence_succ]
    by_cases hpos : w.state.tx_write_slice.len > 0
    · rw [if_pos hpos]
      by_cases hv : (pipe_rx_acquire w).pipe_state.rx_slice_valid = true
      · rw [if_pos hv]
        have hsx : (pipe_rx_acquire w).state.tx_write_slice =
            { ptr := { reg := .flash_write, off := k }, len := M - k } := by rw [hp.state]; exact hs
        have hcle : MIN (pipe_rx_acquire w).pipe_state.rx_slice.len
            (pipe_rx_acquire w).state.tx_write_slice.len % 256 ≤ M - k := by
          have := MIN_le_right (pipe_rx_acquire w).pipe_state.rx_slice.len
            (pipe_rx_acquire w).state.tx_write_slice.len
          rw [hsx] at this ⊢
          simp only at this ⊢
          exact Nat.le_trans (Nat.mod_le _ _) this
        generalize MIN (pipe_rx_acquire w).pipe_state.rx_slice.len
          (pipe_rx_acquire w).state.tx_write_slice.len % 256 = c at hcle
        obtain ⟨e1, e2, e3, e4, e5, e6⟩ := sfws_copy_effect (pipe_rx_acquire w) k (M - k) c hsx
          (by rw [hp.flash_sequence, hlen]; omega)
        have hpk : ((pipe_rx_acquire w).rx_peek c).length = c := rx_peek_length _ c
        obtain ⟨l, h1, h2, h3, h4, h5, h6, h7, h8⟩ :=
          ih (sfws_copy (pipe_rx_acquire w) c) (k + c) (by omega)
            (by rw [e1]; simp only; congr 1; omega)
            (by rw [e2]; simp only; rw [write_bytes_length, hp.flash_sequence, hlen])
        refine ⟨(pipe_rx_acquire w).rx_peek c ++ l, ?_, ?_, ?_, ?_, ?_, ?_, ?_, ?_⟩
        · rw [List.length_append, hpk]; omega
        · rw [h2, e3, hp.rx_log, List.append_assoc]
        · rw [h3, e1, hp.state, List.length_append, hpk]
          simp only [Nat.add_assoc]
        · rw [h4, e2, hp.flash_sequence, write_bytes_append, hpk]
        · intro hok
          have := h5 hok
          rw [List.length_append, hpk]; omega
        · rw [h6, e4, hp.tx_log]
        · rw [h7, e5, hp.hw_log]
        · rw [h8, e6, hp.oob]
      · rw [if_neg hv]
        refine ⟨[], by simpa using hk, by simp [hp.rx_log], ?_, ?_, ?_, hp.tx_log, hp.hw_log,
          hp.oob⟩
        · rw [hp.state]; exact state_write_slice_eta _ _ (by simpa using hs)
        · rw [hp.flash_sequence]; simp [write_bytes]
        · intro h; cases h
    · rw [if_neg hpos]
      have h0 : M - k = 0 := by
        rw [hs] at hpos
        simp only at hpos
        omega
      refine ⟨[], by simpa using hk, by simp, ?_, ?_, ?_, rfl, rfl, rfl⟩
      · exact state_write_slice_eta _ _ (by simpa using hs)
      · simp [write_bytes]
      · intro _; simp; omega

theorem sfws_progress_pipe {N : Nat} {L0 : List Nat} {w r : World} (hf : PipeFrame w r)
    (h : SfwsProgress N L0 w) : SfwsProgress N L0 r := by
  unfold SfwsProgress at h ⊢
  rw [hf.state, hf.flash_sequence, hf.rx_log]
  exact h

/-- SET_FLASH_WRITE_SEQUENCE with count `N ≤ 16` on arrival while unlocked. -/
theorem fetch_sfws_start (N : Nat) (hN : N ≤ 16) (w : World) (c : Nat) (ha : Arrived w c [N])
    (hu : w.state.unlocked = true) (hc : c &&& CMD_MASK = CMD_SET_FLASH_WRITE_SEQUENCE)
    (hw : w.flash_sequence.write.length = 64) :
    SfwsProgress N (w.rx_log ++ [c, N]) (fetch_command w) := by
  have ht : total_header_len c w.state.unlocked = ([N] : List Nat).length := by
    rw [hu]
    have := total_header_len_nonneg_of_table c true 1 (by rw [hc]; rfl)
    simpa using this
  obtain ⟨u, hf, hst, hrx, -, hfs, -, -, -, -, -⟩ := fetch_arrived w c [N] ha ht (by simp)
  have hcmd : u.state.cmd &&& CMD_MASK = CMD_SET_FLASH_WRITE_SEQUENCE := by
    rw [hst]; exact hc
  have hh : u.hdr 0 = N := by
    rw [hdr_congr u _ hst 0]
    exact with_header_hdr w c [N] 0 ha.2.2.2.2.2 (by simp) (by simp)
  have hd := dispatch_header_sfws u hcmd
  rw [hh, if_neg (by unfold SIZEOF_FLASH_SEQUENCE_WRITE SIZEOF_WRITE; omega), ← hf] at hd
  rw [hd]
  refine ⟨?_, hcmd, rfl, ?_, 0, Nat.zero_le _, ?_, ?_⟩
  · simp [mask, hst, World.with_header]
  · show u.flash_sequence.write.length = 64
    rw [hfs]; exact hw
  · simp only [mask, SIZEOF_WRITE]
    congr 1
    omega
  · show u.rx_log = _
    rw [hrx, read_bytes_zero, List.append_nil]

/-- One pass of `execute_pending` while the payload is being taken in. -/
theorem execute_pending_sfws (N : Nat) (hN : N ≤ 16) (L0 : List Nat) (fuel : Nat) (w : World)
    (h : SfwsProgress N L0 w) :
    ((execute_pending fuel w).2 = false → SfwsProgress N L0 (execute_pending fuel w).1) ∧
    ((execute_pending fuel w).2 = true → SfwsDone N L0 (execute_pending fuel w).1) ∧
    (execute_pending fuel w).1.tx_log = w.tx_log ∧
    (execute_pending fuel w).1.hw_log = w.hw_log ∧
    (execute_pending fuel w).1.oob = w.oob := by
  obtain ⟨hv, hcmd, hlen, hw, k, hk, hs, hrx⟩ := h
  have hop : select_operation w.state.cmd = .set_flash_write_sequence := by rw [hcmd]; rfl
  obtain ⟨l, h1, h2, h3, h4, h5, h6, h7, h8⟩ := sfws_loop (4 * N) (by omega) fuel w k hk hs hw
  have hrd : read_bytes (write_bytes w.flash_sequence.write k l) 0 (k + l.length) =
      read_bytes w.flash_sequence.write 0 k ++ l :=
    read_write_bytes_append l w.flash_sequence.write k (by omega)
  unfold execute_pending
  simp only [hv, if_true, execute_command, hop, run_operation]
  split
  · rename_i r heq
    rw [heq] at h2 h3 h4 h5 h6 h7 h8
    simp only at h2 h3 h4 h6 h7 h8
    refine ⟨fun _ => ⟨?_, ?_, ?_, ?_, k + l.length, h1, ?_, ?_⟩, (fun hx => by cases hx),
      h6, h7, h8⟩
    · rw [h3]; exact hv
    · rw [h3]; exact hcmd
    · rw [h4]; exact hlen
    · rw [h4]; simp only; rw [write_bytes_length]; exact hw
    · rw [h3]
    · rw [h2, h4, hrx]; simp only; rw [hrd, List.append_assoc]
  · rename_i r heq
    rw [heq] at h2 h3 h4 h5 h6 h7 h8
    simp only at h2 h3 h4 h5 h6 h7 h8
    have hall := h5 trivial
    refine ⟨(fun hx => by cases hx), fun _ => ⟨rfl, rfl, ?_, ?_⟩, h6, h7, h8⟩
    · show r.flash_sequence.len = N
      rw [h4]; exact hlen
    · refine ⟨read_bytes r.flash_sequence.write 0 (4 * N), read_bytes_length _ _ _, ?_, rfl⟩
      show r.rx_log = _
      rw [h2, h4, hrx]; simp only; rw [← hall, hrd, List.append_assoc]

/-- With no command in progress, the first byte of a valid non-empty receive
slice is read as a command id. -/
theorem fetch_command_reads_id (v : World) (c2 : Nat) (hidle : v.state.cmd_valid = false)
    (hv : v.pipe_state.rx_slice_valid = true) (hlen : 0 < v.pipe_state.rx_slice.len)
    (hc : (v.rx_peek 1).getD 0 0 = c2) :
    (fetch_command v).state.cmd &&& CMD_MASK = c2 &&& CMD_MASK ∧
    ∃ l, (fetch_command v).rx_log = v.rx_log ++ c2 :: l := by
  rw [fetch_command_idle_ready v hidle hv hlen]
  constructor
  · rw [fetch_header_cmd_low, fetch_cmd_byte_state]
    simp only [hc]
  · obtain ⟨l, hl⟩ := fetch_header_rx_log (fetch_cmd_byte v)
    refine ⟨l, ?_⟩
    have hp : v.rx_peek 1 = [c2] := by
      rw [← hc]; simp [World.rx_peek, read_bytes_one]
    rw [hl]
    simp [fetch_cmd_byte, World.rx_advance, hp]

/-- C11, as the code has it.  SET_FLASH_WRITE_SEQUENCE with record count
`N ≤ 16`, while unlocked.  A record takes four bytes (address low, address
high, data, flags), so the command takes in `4 * N` payload bytes after the
count byte, however they are split across receive slices: on arrival the
stored length becomes `N` and the write slice covers the first `4 * N` bytes
of the record array; every pass stores the bytes it receives, in order, with
no response, no bus operation and nothing stored outside the array; the pass
that returns true has received exactly `4 * N` payload bytes and leaves no
command in progress, so that the byte after them is read as a command id. -/
theorem set_flash_write_sequence_stream (N : Nat) (L0 : List Nat) (hN : N ≤ 16) :
    (∀ (w : World) (c : Nat), Arrived w c [N] → w.state.unlocked = true →
      c &&& CMD_MASK = CMD_SET_FLASH_WRITE_SEQUENCE → w.flash_sequence.write.length = 64 →
      SfwsProgress N (w.rx_log ++ [c, N]) (fetch_command w)) ∧
    (∀ (w : World) (fuel : Nat), SfwsProgress N L0 w →
      ((execute_pending fuel w).2 = false → SfwsProgress N L0 (execute_pending fuel w).1) ∧
      ((execute_pending fuel w).2 = true → SfwsDone N L0 (execute_pending fuel w).1) ∧
      (execute_pending fuel w).1.tx_log = w.tx_log ∧
      (execute_pending fuel w).1.hw_log = w.hw_log ∧
      (execute_pending fuel w).1.oob = w.oob) ∧
    (∀ w : World, SfwsProgress N L0 w →
      SfwsProgress N L0 (pipe_rx_acquire w) ∧ SfwsProgress N L0 (pipe_tx_acquire w) ∧
      SfwsProgress N L0 (pipe_tx_flush w)) ∧
    (∀ (v : World) (c2 : Nat), SfwsDone N L0 v → v.pipe_state.rx_slice_valid = true →
      0 < v.pipe_state.rx_slice.len → (v.rx_peek 1).getD 0 0 = c2 →
      (fetch_command v).state.cmd &&& CMD_MASK = c2 &&& CMD_MASK ∧
      ∃ l, (fetch_command v).rx_log = v.rx_log ++ c2 :: l) := by
  refine ⟨?_, ?_, ?_, ?_⟩
  · intro w c ha hu hc hw
    exact fetch_sfws_start N hN w c ha hu hc hw
  · intro w fuel h
    exact execute_pending_sfws N hN L0 fuel w h
  · intro w h
    exact ⟨sfws_progress_pipe (pipe_rx_acquire_frame w) h,
      sfws_progress_pipe (pipe_tx_acquire_frame w) h,
      sfws_progress_pipe (pipe_tx_flush_frame w) h⟩
  · intro v c2 hd hv hlen hc
    exact fetch_command_reads_id v c2 hd.1 hv hlen hc

/-- C11 on the sample world: one record. -/
theorem set_flash_write_sequence_stream_witness :
    Arrived World.sfws_sample 0x0a [1] ∧
    SfwsProgress 1 (World.sfws_sample.rx_log ++ [0x0a, 1]) (fetch_command World.sfws_sample) ∧
    (execute_pending 2 (fetch_command World.sfws_sample)).2 = true ∧
    SfwsDone 1 (World.sfws_sample.rx_log ++ [0x0a, 1])
      (execute_pending 2 (fetch_command World.sfws_sample)).1 :=
  have h := set_flash_write_sequence_stream 1 (World.sfws_sample.rx_log ++ [0x0a, 1]) (by decide)
  have h1 := h.1 World.sfws_sample 0x0a (by decide) (by decide) (by decide) (by decide)
  ⟨by decide, h1, by decide, (h.2.1 (fetch_command World.sfws_sample) 2 h1).2.1 (by decide)⟩

/-- C11 refuted as written: unlocked, SET_FLASH_WRITE_SEQUENCE with count 1 is
followed by the bytes `0x34, 0x12, 0xab` and then `0x1f`.  The fourth byte is
not read as the id of IDENTIFY: it is stored as the fourth byte of the record,
six bytes are consumed in all and no response is produced. -/
theorem sfws_record_takes_four_bytes :
    (execute_commands 8 World.sfws_sample).rx_log = [0x0a, 1, 0x34, 0x12, 0xab, 0x1f] ∧
    (execute_commands 8 World.sfws_sample).tx_log = [] ∧
    (execute_commands 8 World.sfws_sample).flash_sequence.len = 1 ∧
    read_bytes (execute_commands 8 World.sfws_sample).flash_sequence.write 0 4 =
      [0x34, 0x12, 0xab, 0x1f] ∧
    (execute_commands 8 World.sfws_sample).state.cmd_valid = false ∧
    (execute_commands 8 World.sfws_sample).state.header_valid = false := by
  decide

theorem bus_writes_append (a b : List HwOp) : bus_writes (a ++ b) = bus_writes a ++ bus_writes b :=
  List.filter_append a b

theorem write_burst_spec_writes (g : Gate) (s : Strobe) (l : List Nat) :
    ∀ a, bus_writes (write_burst_spec g s a l) = write_burst_spec g s a l := by
  induction l with
  | nil => intro a; rfl
  | cons b bs ih =>
    intro a
    simp only [write_burst_spec, bus_writes, List.filter_cons, HwOp.is_write, if_true]
    congr 1
    exact ih _

theorem write_burst_spec_append (g : Gate) (s : Strobe) (l1 l2 : List Nat) :
    ∀ a, a < 65536 → write_burst_spec g s a (l1 ++ l2) =
      write_burst_spec g s a l1 ++ write_burst_spec g s ((a + l1.length) % 65536) l2 := by
  induction l1 with
  | nil =>
    intro a ha
    simp only [List.nil_append, write_burst_spec, List.length_nil, Nat.add_zero,
      Nat.mod_eq_of_lt ha]
  | cons b bs ih =>
    intro a _
    have e : ((a + 1) % 65536 + bs.length) % 65536 = (a + (bs.length + 1)) % 65536 := by omega
    have h := ih ((a + 1) % 65536) (Nat.mod_lt _ (by omega))
    rw [e] at h
    show HwOp.write_byte a b g s :: write_burst_spec g s ((a + 1) % 65536) (bs ++ l2) = _
    rw [h]
    rfl

theorem Params.addr_lt (p : Params) (h : p.wf) : p.addr < 65536 := by
  unfold Params.addr; obtain ⟨h1, h2, -, -⟩ := h; omega

theorem Params.len_lt (p : Params) (h : p.wf) : p.len < 65536 := by
  unfold Params.len; obtain ⟨-, -, h3, h4⟩ := h; omega

theorem Params.set_addr_addr (p : Params) (v : Nat) (h : v < 65536) : (p.set_addr v).addr = v := by
  unfold Params.addr Params.set_addr; simp only; omega

theorem Params.set_len_len (p : Params) (v : Nat) (h : v < 65536) : (p.set_len v).len = v := by
  unfold Params.len Params.set_len; simp only; omega

theorem Params.set_addr_wf (p : Params) (v : Nat) (h : p.wf) : (p.set_addr v).wf := by
  obtain ⟨h1, h2, h3, h4⟩ := h
  exact ⟨Nat.mod_lt _ (by omega), Nat.mod_lt _ (by omega), h3, h4⟩

theorem Params.set_len_wf (p : Params) (v : Nat) (h : p.wf) : (p.set_len v).wf := by
  obtain ⟨h1, h2, h3, h4⟩ := h
  exact ⟨h1, h2, Nat.mod_lt _ (by omega), Nat.mod_lt _ (by omega)⟩

theorem Params.set_addr_self (p : Params) (h : p.wf) : p.set_addr (p.addr % 65536) = p := by
  obtain ⟨h1, h2, h3, h4⟩ := h
  unfold Params.set_addr Params.addr
  have e1 : (p.b1 + 256 * p.b2) % 65536 % 256 = p.b1 := by omega
  have e2 : (p.b1 + 256 * p.b2) % 65536 / 256 % 256 = p.b2 := by omega
  rw [e1, e2]

theorem Params.set_addr_set_addr (p : Params) (u v : Nat) :
    (p.set_addr u).set_addr v = p.set_addr v := rfl

theorem rx_peek_succ (w : World) (n : Nat) :
    w.rx_peek (n + 1) = (w.rx_peek 1).getD 0 0 :: (w.rx_advance 1).rx_peek n := by
  simp only [World.rx_peek, World.rx_advance, PipePtr.add, World.out_buffer]
  rw [Nat.add_comm n 1, read_bytes_add, read_bytes_one]
  rfl

theorem rx_peek_zero (w : World) : w.rx_peek 0 = [] := read_bytes_zero _ _

/-- One inner loop of `execute_cmd_write_burst` over `n` bytes: the next `n`
bytes of the receive slice are written at consecutive addresses, the address
ends `n` further on, and nothing else changes. -/
theorem write_burst_bytes_spec (g : Gate) (s : Strobe) (n : Nat) :
    ∀ w : World, w.state.params.wf →
      write_burst_bytes g s n w =
        { w with
          hw_log := w.hw_log ++ write_burst_spec g s w.state.params.addr (w.rx_peek n)
          rx_log := w.rx_log ++ w.rx_peek n
          state := { w.state with
            params := w.state.params.set_addr ((w.state.params.addr + n) % 65536) }
          pipe_state := { w.pipe_state with
            rx_slice := { w.pipe_state.rx_slice with ptr := w.pipe_state.rx_slice.ptr.add n } } } := by
  induction n with
  | zero =>
    intro w hw
    rw [rx_peek_zero, Nat.add_zero, Params.set_addr_self _ hw]
    simp only [write_burst_bytes, write_burst_spec, List.append_nil, PipePtr.add, Nat.add_zero]
  | succ n ih =>
    intro w hw
    have ha := Params.addr_lt _ hw
    rw [write_burst_bytes]
    simp only []
    rw [ih _ (Params.set_addr_wf _ _ hw), rx_peek_succ w n]
    have e1 : ((w.hw (.write_byte w.state.params.addr ((w.rx_peek 1).getD 0 0) g s)).rx_advance 1).state.params
        = w.state.params := rfl
    simp only [World.set_params, World.hw, World.rx_advance, write_burst_spec,
      Params.set_addr_addr _ _ (Nat.mod_lt (w.state.params.addr + 1) (by omega : 65536 > 0)),
      Params.set_addr_set_addr, PipePtr.add, List.append_assoc, List.singleton_append,
      List.cons_append, List.nil_append]
    have e2 : ((w.state.params.addr + 1) % 65536 + n) % 65536 =
        (w.state.params.addr + (n + 1)) % 65536 := by omega
    rw [e2]
    simp only [World.rx_peek, World.out_buffer, read_bytes_one, List.getD_cons_zero, Nat.add_assoc,
      Nat.add_comm 1 n]
    rfl

theorem execute_cmd_write_burst_succ (n : Nat) (w : World) :
    execute_cmd_write_burst (n + 1) w =
      if w.state.params.len > 0 then
        if (pipe_rx_acquire w).pipe_state.rx_slice_valid = true then
          execute_cmd_write_burst n
            (write_burst_chunk (pipe_rx_acquire w)
              (MIN (pipe_rx_acquire w).pipe_state.rx_slice.len
                (pipe_rx_acquire w).state.params.len % 256))
        else (pipe_rx_acquire w, false)
      else (w, true) := by
  rw [execute_cmd_write_burst]
  split
  · simp only []
    by_cases hv : (pipe_rx_acquire w).pipe_state.rx_slice_valid = true
    · rw [if_neg (by rw [hv]; simp), if_pos hv]
      congr 1
      generalize pipe_rx_acquire w = v
      unfold write_burst_chunk write_gate write_strobe
      simp only [World.hw, World.set_params, Params.set_len]
      by_cases a : get_bit v.state.params.b0 0 = true <;>
        by_cases b : get_bit v.state.params.b0 1 = true <;> simp only [a, b, if_true] <;> rfl
    · rw [if_pos (by simpa using hv), if_neg hv]
  · rfl

theorem Params.set_len_self (p : Params) (h : p.wf) : p.set_len p.len = p := by
  obtain ⟨h1, h2, h3, h4⟩ := h
  unfold Params.set_len Params.len
  have e1 : (p.b3 + 256 * p.b4) % 256 = p.b3 := by omega
  have e2 : (p.b3 + 256 * p.b4) / 256 % 256 = p.b4 := by omega
  rw [e1, e2]

/-- What one chunk of `execute_cmd_write_burst` does. -/
theorem write_burst_chunk_effect (x : World) (c : Nat) (hw : x.state.params.wf) :
    write_burst_chunk x c =
      { x with
        hw_log := x.hw_log ++ [HwOp.rd_pin true] ++
          write_burst_spec (write_gate (get_bit x.state.params.b0 0))
            (write_strobe (get_bit x.state.params.b0 1)) x.state.params.addr (x.rx_peek c) ++
          [HwOp.rd_pin false]
        rx_log := x.rx_log ++ x.rx_peek c
        state := { x.state with
          params := (x.state.params.set_len (x.state.params.len - c)).set_addr
            ((x.state.params.addr + c) % 65536) }
        pipe_state := { x.pipe_state with
          rx_slice := { ptr := x.pipe_state.rx_slice.ptr.add c,
                        len := x.pipe_state.rx_slice.len - c } } } := by
  unfold write_burst_chunk
  simp only []
  rw [write_burst_bytes_spec _ _ _ _ (Params.set_len_wf _ _ hw)]
  rfl

theorem Params.burst_zero (p : Params) (h : p.wf) : p.burst_advance 0 = p := by
  unfold Params.burst_advance
  rw [Nat.sub_zero, Nat.add_zero, Params.set_len_self p h, Params.set_addr_self p h]

theorem Params.burst_len (p : Params) (h : p.wf) (c : Nat) :
    (p.burst_advance c).len = p.len - c := by
  have := Params.len_lt p h
  exact Params.set_len_len p _ (by omega)

theorem Params.burst_addr (p : Params) (c : Nat) :
    (p.burst_advance c).addr = (p.addr + c) % 65536 :=
  Params.set_addr_addr _ _ (Nat.mod_lt _ (by omega))

theorem Params.burst_wf (p : Params) (h : p.wf) (c : Nat) : (p.burst_advance c).wf :=
  Params.set_addr_wf _ _ (Params.set_len_wf _ _ h)

theorem Params.burst_b0 (p : Params) (c : Nat) : (p.burst_advance c).b0 = p.b0 := rfl

theorem Params.burst_step (p : Params) (h : p.wf) (c n : Nat) :
    (p.burst_advance c).burst_advance n = p.burst_advance (c + n) := by
  have h1 := Params.burst_len p h c
  have h2 := Params.burst_addr p c
  unfold Params.burst_advance at h1 h2 ⊢
  rw [h1, h2]
  have e1 : p.len - c - n = p.len - (c + n) := by omega
  have e2 : ((p.addr + c) % 65536 + n) % 65536 = (p.addr + (c + n)) % 65536 := by omega
  rw [e1, e2]
  rfl

theorem write_burst_chunk_advance (x : World) (c : Nat) (hw : x.state.params.wf) :
    (write_burst_chunk x c).state = { x.state with params := x.state.params.burst_advance c } := by
  rw [write_burst_chunk_effect x c hw]
  rfl

/-- One call of `execute_cmd_write_burst`: the bytes `l` it consumes are
written in order from the current address on, the address moves on by their
number modulo 65536, the remaining length goes down by it, and the call
returns true only when the remaining length has reached zero. -/
theorem execute_cmd_write_burst_spec (fuel : Nat) :
    ∀ w : World, w.state.params.wf →
      ∃ l : List Nat, l.length ≤ w.state.params.len ∧
        (execute_cmd_write_burst fuel w).1.rx_log = w.rx_log ++ l ∧
        bus_writes (execute_cmd_write_burst fuel w).1.hw_log = bus_writes w.hw_log ++
          write_burst_spec (write_gate (get_bit w.state.params.b0 0))
            (write_strobe (get_bit w.state.params.b0 1)) w.state.params.addr l ∧
        (execute_cmd_write_burst fuel w).1.state = { w.state with params := w.state.params.burst_advance l.length } ∧
        ((execute_cmd_write_burst fuel w).2 = true → l.length = w.state.params.len) ∧
        (execute_cmd_write_burst fuel w).1.tx_log = w.tx_log := by
  induction fuel with
  | zero =>
    intro w hw
    refine ⟨[], Nat.zero_le _, ?_, ?_, ?_, ?_, rfl⟩
    · simp [execute_cmd_write_burst]
    · simp [execute_cmd_write_burst, write_burst_spec]
    · simp only [List.length_nil, Params.burst_zero _ hw]; rfl
    · intro h; cases h
  | succ n ih =>
    intro w hw
    rw [execute_cmd_write_burst_succ]
    by_cases hl : w.state.params.len > 0
    · rw [if_pos hl]
      have hf := pipe_rx_acquire_frame w
      by_cases hv : (pipe_rx_acquire w).pipe_state.rx_slice_valid = true
      · rw [if_pos hv]
        generalize hc : MIN (pipe_rx_acquire w).pipe_state.rx_slice.len
          (pipe_rx_acquire w).state.params.len % 256 = c
        have hcl : c ≤ w.state.params.len := by
          rw [← hc, hf.state]
          exact le_trans (Nat.mod_le _ _) (MIN_le_right _ _)
        generalize hv' : pipe_rx_acquire w = v at hf hc ⊢
        have hwv : v.state.params.wf := by rw [hf.state]; exact hw
        have he := write_burst_chunk_effect v c hwv
        generalize write_burst_chunk v c = x at he ⊢
        have hxs : x.state = { w.state with params := w.state.params.burst_advance c } := by
          rw [he, ← hf.state]; rfl
        have hxp : x.state.params = w.state.params.burst_advance c := by rw [hxs]
        obtain ⟨l, h1, h2, h3, h4, h5, h6⟩ := ih x (by rw [hxp]; exact Params.burst_wf _ hw c)
        have hpl : (v.rx_peek c).length = c := rx_peek_length v c
        rw [hxp, Params.burst_len _ hw] at h1 h5
        refine ⟨v.rx_peek c ++ l, ?_, ?_, ?_, ?_, ?_, ?_⟩
        · rw [List.length_append, hpl]; omega
        · rw [h2, he, ← hf.rx_log, List.append_assoc]
        · rw [h3, hxp, Params.burst_addr]
          rw [Params.burst_b0, he]
          simp only [bus_writes_append, write_burst_spec_writes, hf.hw_log, hf.state]
          rw [write_burst_spec_append _ _ _ _ _ (Params.addr_lt _ hw), hpl]
          simp [bus_writes, HwOp.is_write]
        · rw [h4, hxp, hxs, Params.burst_step _ hw, List.length_append, hpl]
        · intro h
          have := h5 h
          rw [List.length_append, hpl]; omega
        · rw [h6, he, ← hf.tx_log]
      · rw [if_neg hv]
        refine ⟨[], Nat.zero_le _, ?_, ?_, ?_, ?_, hf.tx_log⟩
        · simp [hf.rx_log]
        · simp [hf.hw_log, write_burst_spec]
        · simp only [List.length_nil, Params.burst_zero _ hw]; exact hf.state
        · intro h; cases h
    · rw [if_neg hl]
      refine ⟨[], Nat.zero_le _, ?_, ?_, ?_, ?_, rfl⟩
      · simp
      · simp [write_burst_spec]
      · simp only [List.length_nil, Params.burst_zero _ hw]
      · intro _; simp only [List.length_nil]; omega

theorem replay_write_spec (w : World) (j : Nat)
    (hj : SIZEOF_WRITE * j + SIZEOF_WRITE ≤ w.flash_sequence.write.length) :
    replay_write w j = { w with hw_log := w.hw_log ++ [replay_op w.flash_sequence j] } := by
  have hd : decide (w.flash_sequence.write.length < SIZEOF_WRITE * j + SIZEOF_WRITE) = false := by
    simp; omega
  have h4 : SIZEOF_WRITE = 4 := rfl
  have g0 := getD_append_inside w.flash_sequence.write w.ram_after (SIZEOF_WRITE * j) (by omega)
  have g1 := getD_append_inside w.flash_sequence.write w.ram_after (SIZEOF_WRITE * j + 1)
    (by omega)
  have g2 := getD_append_inside w.flash_sequence.write w.ram_after (SIZEOF_WRITE * j + 2)
    (by omega)
  have g3 := getD_append_inside w.flash_sequence.write w.ram_after (SIZEOF_WRITE * j + 3)
    (by omega)
  unfold replay_write replay_op write_strobe World.flash_mem
  simp only [hd, Bool.or_false, World.hw, g0, g1, g2, g3]
  split <;> rfl

theorem replay_fold_spec (js : List Nat) :
    ∀ w : World, (∀ j ∈ js, SIZEOF_WRITE * j + SIZEOF_WRITE ≤ w.flash_sequence.write.length) →
      js.foldl replay_write w = { w with hw_log := w.hw_log ++ js.map (replay_op w.flash_sequence) } := by
  induction js with
  | nil => intro w _; simp
  | cons j js ih =>
    intro w h
    rw [List.foldl_cons, replay_write_spec w j (h j (List.mem_cons_self _ _))]
    have h2 := ih { w with hw_log := w.hw_log ++ [replay_op w.flash_sequence j] }
      (fun i hi => h i (List.mem_cons_of_mem _ hi))
    rw [h2]
    simp

/-- The replay loop issues the stored records in order and changes nothing
else. -/
theorem replay_sequence_spec (w : World) (hb : w.flash_sequence.in_bounds) :
    replay_sequence w = { w with hw_log := w.hw_log ++ replay_spec w.flash_sequence } := by
  unfold replay_sequence replay_spec
  apply replay_fold_spec
  intro j hj
  have := List.mem_range.mp hj
  unfold WriteSequence.in_bounds at hb
  have h2 : SIZEOF_WRITE * (j + 1) ≤ SIZEOF_WRITE * w.flash_sequence.len :=
    Nat.mul_le_mul_left _ this
  rw [Nat.mul_add, Nat.mul_one] at h2
  omega

theorem replay_spec_writes (seq : WriteSequence) : bus_writes (replay_spec seq) = replay_spec seq := by
  unfold bus_writes replay_spec
  rw [List.filter_eq_self]
  intro a ha
  obtain ⟨j, -, rfl⟩ := List.mem_map.mp ha
  rfl

/-- The polling loop only reads: `j` more `poll_next` operations and `j` more
bus values consumed; the status changes only when the loop does not settle. -/
theorem poll_flash_loop_frame (e : Bool) (fuel : Nat) :
    ∀ (w : World) (old : Nat), ∃ j,
      (poll_flash_loop e fuel w old).1 =
        { w with
          hw_log := w.hw_log ++ List.replicate j HwOp.poll_next
          bus_reads := w.bus_reads + j
          status := (poll_flash_loop e fuel w old).2.elim Status.diverged (fun _ => w.status) } := by
  induction fuel with
  | zero => intro w old; exact ⟨0, by simp [poll_flash_loop]⟩
  | succ n ih =>
    intro w old
    rw [poll_flash_loop]
    have hrec : ∀ o, ∃ j, (poll_flash_loop e n ((w.hw .poll_next).bus_next) o).1 =
        { w with
          hw_log := w.hw_log ++ List.replicate j HwOp.poll_next
          bus_reads := w.bus_reads + j
          status := (poll_flash_loop e n ((w.hw .poll_next).bus_next) o).2.elim Status.diverged
            (fun _ => w.status) } := by
      intro o
      obtain ⟨j, hj⟩ := ih ((w.hw .poll_next).bus_next) o
      refine ⟨j + 1, ?_⟩
      rw [hj]
      simp [World.hw, World.bus_next, List.replicate_succ, Nat.add_assoc, Nat.add_comm 1 j]
    generalize (if e = true then (w.DATA_BUS_IN &&& 0x80) != 0
      else !((w.DATA_BUS_IN &&& 0x80) != 0)) = c
    cases c
    · simp only [Bool.false_eq_true, if_false]
      exact hrec old
    · simp only [if_true]
      by_cases ho : old = w.DATA_BUS_IN
      · rw [if_pos ho]
        exact ⟨1, by simp [World.hw, World.bus_next]⟩
      · rw [if_neg ho]
        exact hrec _

/-- The operations of `poll_flash_data`: one `poll_first` at the address,
then `j` times `poll_next`; `j + 1` bus values are consumed. -/
theorem poll_flash_data_frame (fuel : Nat) (w : World) (addr : Nat) (e : Bool) :
    ∃ j, (poll_flash_data fuel w addr e).1 =
      { w with
        hw_log := w.hw_log ++ HwOp.poll_first addr :: List.replicate j HwOp.poll_next
        bus_reads := w.bus_reads + (j + 1)
        status := (poll_flash_data fuel w addr e).2.elim Status.diverged (fun _ => w.status) } := by
  unfold poll_flash_data
  simp only []
  obtain ⟨j, hj⟩ := poll_flash_loop_frame e fuel ((w.hw (.poll_first addr)).bus_next) w.DATA_BUS_IN
  refine ⟨j, ?_⟩
  rw [hj]
  simp [World.hw, World.bus_next, Nat.add_assoc, Nat.add_comm 1 j]

theorem flash_burst_bytes_succ (fuel n : Nat) (w : World) :
    flash_burst_bytes fuel (n + 1) w =
      if (w.rx_peek 1).getD 0 0 = 0xff then flash_burst_bytes fuel n (flash_byte_skipped w)
      else
        match poll_flash_data fuel (flash_byte_written w ((w.rx_peek 1).getD 0 0))
          w.state.params.addr (d7 ((w.rx_peek 1).getD 0 0)) with
        | (r, none) => r
        | (r, some _) => flash_burst_bytes fuel n r := by
  rw [flash_burst_bytes]
  simp only []
  by_cases hd : (w.rx_peek 1).getD 0 0 = 0xff
  · rw [if_neg (by simpa using hd), if_pos hd]
    rfl
  · rw [if_pos hd, if_neg hd]
    have ha : (replay_sequence ((w.rx_advance 1).hw (.rd_pin true))).state.params.addr =
        w.state.params.addr := by rw [replay_sequence_state]; rfl
    unfold flash_byte_written d7 write_strobe
    simp only [ha]
    have hb0 : ((replay_sequence ((w.rx_advance 1).hw (.rd_pin true))).set_params
        ((replay_sequence ((w.rx_advance 1).hw (.rd_pin true))).state.params.set_addr
          ((w.state.params.addr + 1) % 65536))).state.params.b0 =
        (replay_sequence ((w.rx_advance 1).hw (.rd_pin true))).state.params.b0 := rfl
    simp only [hb0]
    cases get_bit (replay_sequence ((w.rx_advance 1).hw (.rd_pin true))).state.params.b0 6 <;>
      simp only [Bool.false_eq_true, if_false, if_true]

theorem replay_write_frame (w : World) (j : Nat) :
    ∃ h o, replay_write w j = { w with hw_log := h, oob := o } := by
  unfold replay_write
  simp only [World.hw]
  split <;> exact ⟨_, _, rfl⟩

theorem replay_fold_frame (js : List Nat) :
    ∀ w : World, ∃ h o, js.foldl replay_write w = { w with hw_log := h, oob := o } := by
  induction js with
  | nil => intro w; exact ⟨w.hw_log, w.oob, rfl⟩
  | cons j js ih =>
    intro w
    obtain ⟨h1, o1, e1⟩ := replay_write_frame w j
    rw [List.foldl_cons, e1]
    obtain ⟨h2, o2, e2⟩ := ih { w with hw_log := h1, oob := o1 }
    exact ⟨h2, o2, e2⟩

/-- The statements before the polling change the hardware log and, when a
record lies outside the array, the out-of-bounds flag; for the rest they do
what the statements for a byte `0xff` do. -/
theorem flash_byte_written_frame (w : World) (b : Nat) :
    ∃ h o, flash_byte_written w b = { flash_byte_skipped w with hw_log := h, oob := o } := by
  obtain ⟨h, o, e⟩ := replay_fold_frame (List.range ((w.rx_advance 1).hw (.rd_pin true)).flash_sequence.len)
    ((w.rx_advance 1).hw (.rd_pin true))
  unfold flash_byte_written replay_sequence
  simp only []
  rw [e]
  exact ⟨_, _, rfl⟩

/-- With the records inside the array, the statements before the polling
issue the operations of `flash_byte_ops`. -/
theorem flash_byte_written_eq (w : World) (b : Nat) (hb : w.flash_sequence.in_bounds) :
    flash_byte_written w b = { flash_byte_skipped w with
      hw_log := w.hw_log ++
        flash_byte_ops w.flash_sequence (get_bit w.state.params.b0 6) w.state.params.addr b } := by
  have hw : replay_sequence ((w.rx_advance 1).hw (.rd_pin true)) =
      { (w.rx_advance 1).hw (.rd_pin true) with
        hw_log := ((w.rx_advance 1).hw (.rd_pin true)).hw_log ++ replay_spec w.flash_sequence } :=
    replay_sequence_spec _ hb
  unfold flash_byte_written
  simp only []
  rw [hw]
  unfold flash_byte_ops flash_byte_skipped
  simp only [World.hw, World.set_params, World.rx_advance, List.append_assoc, List.cons_append,
    List.nil_append, List.singleton_append]
  rfl

theorem bus_writes_poll (a j : Nat) :
    bus_writes (HwOp.poll_first a :: List.replicate j HwOp.poll_next) = [] := by
  unfold bus_writes
  rw [List.filter_eq_nil_iff]
  intro x hx
  rcases List.mem_cons.mp hx with rfl | hx
  · simp [HwOp.is_write]
  · rw [(List.mem_replicate.mp hx).2]; simp [HwOp.is_write]

theorem bus_writes_flash_byte_ops (seq : WriteSequence) (vin : Bool) (a b : Nat) :
    bus_writes (flash_byte_ops seq vin a b) =
      replay_spec seq ++ [HwOp.write_byte a b .a15 (write_strobe vin)] := by
  unfold flash_byte_ops
  rw [bus_writes_append, bus_writes_append, replay_spec_writes]
  simp [bus_writes, HwOp.is_write]

theorem flash_burst_spec_single (seq : WriteSequence) (vin : Bool) (a b : Nat) (l : List Nat) :
    flash_burst_spec seq vin a (b :: l) =
      flash_burst_spec seq vin a [b] ++ flash_burst_spec seq vin ((a + 1) % 65536) l := by
  simp [flash_burst_spec]

theorem flash_bytes_run_zero (w : World) (hw : w.state.params.wf) : FlashBytesRun w 0 w [] := by
  refine ⟨Nat.le_refl _, by simp, by simp, fun _ => by simp [flash_burst_spec], ?_, rfl, rfl, rfl,
    fun _ => rfl, fun h => ⟨rfl, h⟩, fun _ => ⟨rfl, rfl, rfl, rfl⟩⟩
  rw [List.length_nil, Nat.add_zero, Params.set_addr_self _ hw]

/-- A byte dealt with, followed by a run over the rest, is a run. -/
theorem flash_bytes_run_cons {w v r : World} {b n : Nat} {l : List Nat}
    (hw : w.state.params.wf) (hb : (w.rx_peek 1).getD 0 0 = b)
    (h1 : FlashByteStep w b v) (h2 : FlashBytesRun v n r l) :
    FlashBytesRun w (n + 1) r (b :: l) := by
  have ha := Params.addr_lt _ hw
  have hva : v.state.params.addr = (w.state.params.addr + 1) % 65536 := by
    rw [h1.state]; exact Params.set_addr_addr _ _ (Nat.mod_lt _ (by omega))
  have hvb : v.state.params.b0 = w.state.params.b0 := by rw [h1.state]; rfl
  constructor
  · have := h2.length_le; simp only [List.length_cons]; omega
  · rw [rx_peek_succ, hb, List.length_cons, List.take_succ_cons, ← h1.peek n, ← h2.in_order]
  · rw [h2.rx_log, h1.rx_log, List.append_assoc]; rfl
  · intro hb
    have hb2 : v.flash_sequence.in_bounds := by rw [h1.flash_sequence]; exact hb
    rw [h2.writes hb2, h1.writes hb, h1.flash_sequence, hvb, hva, List.append_assoc,
      ← flash_burst_spec_single]
  · rw [h2.state, h1.state]
    have e : ((w.state.params.addr + 1) % 65536 + l.length) % 65536 =
        (w.state.params.addr + (l.length + 1)) % 65536 := by omega
    have e2 : ({ w.state with params :=
        w.state.params.set_addr ((w.state.params.addr + 1) % 65536) } : State).params.addr =
        (w.state.params.addr + 1) % 65536 := Params.set_addr_addr _ _ (Nat.mod_lt _ (by omega))
    rw [e2, e, List.length_cons]
    rfl
  · rw [h2.flash_sequence, h1.flash_sequence]
  · rw [h2.tx_log, h1.tx_log]
  · rw [h2.bus_in, h1.bus_in]
  · intro hb
    rw [h2.oob (by rw [h1.flash_sequence]; exact hb), h1.oob hb]
  · intro h
    obtain ⟨h3, h4⟩ := h2.status h
    exact ⟨by rw [List.length_cons, h3], h1.status h4⟩
  · intro h
    obtain ⟨h3, h4, h5, h6⟩ := h2.skipped (fun x hx => h x (List.mem_cons_of_mem _ hx))
    obtain ⟨h7, h8, h9⟩ := h1.skipped (h b (List.mem_cons_self _ _))
    exact ⟨by rw [h3, h7], by rw [h4, h8], by rw [h5, h9], by rw [List.length_cons, h6]⟩

theorem flash_byte_skipped_step (w : World) (hd : (w.rx_peek 1).getD 0 0 = 0xff) :
    FlashByteStep w 0xff (flash_byte_skipped w) := by
  have hp : w.rx_peek 1 = [0xff] := by
    have := rx_peek_succ w 0
    rw [rx_peek_zero, hd] at this
    exact this
  constructor
  · show w.rx_log ++ w.rx_peek 1 = _
    rw [hp]
  · rfl
  · rfl
  · rfl
  · rfl
  · exact fun _ => rfl
  · intro n; rfl
  · intro _
    show bus_writes w.hw_log = _
    simp [flash_burst_spec]
  · exact fun h => h
  · exact fun _ => ⟨rfl, rfl, rfl⟩

theorem flash_byte_polled_step (fuel : Nat) (w : World) (b : Nat)
    (hb : (w.rx_peek 1).getD 0 0 = b) (hd : b ≠ 0xff) :
    FlashByteStep w b
      (poll_flash_data fuel (flash_byte_written w b) w.state.params.addr (d7 b)).1 := by
  have hp : w.rx_peek 1 = [b] := by
    have := rx_peek_succ w 0
    rw [rx_peek_zero, hb] at this
    exact this
  obtain ⟨j, hj⟩ := poll_flash_data_frame fuel (flash_byte_written w b) w.state.params.addr (d7 b)
  obtain ⟨h, o, e⟩ := flash_byte_written_frame w b
  constructor
  · rw [hj, e]
    show w.rx_log ++ w.rx_peek 1 = _
    rw [hp]
  · rw [hj, e]; rfl
  · rw [hj, e]; rfl
  · rw [hj, e]; rfl
  · rw [hj, e]; rfl
  · intro hin
    rw [hj, flash_byte_written_eq w b hin]; rfl
  · intro n; rw [hj, e]; rfl
  · intro hin
    rw [hj, flash_byte_written_eq w b hin]
    show bus_writes ((w.hw_log ++ flash_byte_ops w.flash_sequence (get_bit w.state.params.b0 6)
      w.state.params.addr b) ++ HwOp.poll_first w.state.params.addr ::
        List.replicate j HwOp.poll_next) = _
    rw [bus_writes_append, bus_writes_append, bus_writes_poll, bus_writes_flash_byte_ops]
    simp [flash_burst_spec, hd]
  · intro hs
    rw [hj] at hs
    change Option.elim _ Status.diverged (fun _ => (flash_byte_written w b).status) =
      Status.running at hs
    cases ho : (poll_flash_data fuel (flash_byte_written w b) w.state.params.addr (d7 b)).2 with
    | none => rw [ho] at hs; cases hs
    | some x =>
      rw [ho, e] at hs
      exact hs
  · intro h; exact absurd h hd

theorem flash_bytes_run_abort {w v : World} {b n : Nat} (hb : (w.rx_peek 1).getD 0 0 = b)
    (h1 : FlashByteStep w b v) (hs : v.status = .diverged) (hd : b ≠ 0xff) :
    FlashBytesRun w (n + 1) v [b] := by
  constructor
  · simp
  · rw [rx_peek_succ, hb]; rfl
  · exact h1.rx_log
  · exact h1.writes
  · exact h1.state
  · exact h1.flash_sequence
  · exact h1.tx_log
  · exact h1.bus_in
  · exact h1.oob
  · intro h; rw [hs] at h; cases h
  · intro h; exact absurd (h b (List.mem_singleton_self b)) hd

/-- The inner loop of `execute_cmd_flash_burst` is a run over the bytes it
consumes. -/
theorem flash_burst_bytes_run (fuel n : Nat) :
    ∀ w : World, w.state.params.wf → ∃ l, FlashBytesRun w n (flash_burst_bytes fuel n w) l := by
  induction n with
  | zero => intro w hw; exact ⟨[], flash_bytes_run_zero w hw⟩
  | succ n ih =>
    intro w hw
    rw [flash_burst_bytes_succ fuel n w]
    by_cases hd : (w.rx_peek 1).getD 0 0 = 0xff
    · rw [if_pos hd]
      have hs := flash_byte_skipped_step w hd
      obtain ⟨l, hl⟩ := ih (flash_byte_skipped w)
        (by rw [hs.state]; exact Params.set_addr_wf _ _ hw)
      exact ⟨0xff :: l, flash_bytes_run_cons hw hd hs hl⟩
    · rw [if_neg hd]
      have hs := flash_byte_polled_step fuel w _ rfl hd
      obtain ⟨j, hj⟩ := poll_flash_data_frame fuel (flash_byte_written w ((w.rx_peek 1).getD 0 0))
        w.state.params.addr (d7 ((w.rx_peek 1).getD 0 0))
      generalize poll_flash_data fuel (flash_byte_written w ((w.rx_peek 1).getD 0 0))
        w.state.params.addr (d7 ((w.rx_peek 1).getD 0 0)) = pr at hs hj ⊢
      obtain ⟨r, o⟩ := pr
      cases o with
      | none =>
        refine ⟨[(w.rx_peek 1).getD 0 0], flash_bytes_run_abort rfl hs ?_ hd⟩
        show r.status = _
        rw [show r = _ from hj]
        rfl
      | some x =>
        obtain ⟨l, hl⟩ := ih r (by rw [hs.state]; exact Params.set_addr_wf _ _ hw)
        exact ⟨_ :: l, flash_bytes_run_cons hw rfl hs hl⟩

theorem flash_burst_spec_append (seq : WriteSequence) (vin : Bool) (l1 l2 : List Nat) :
    ∀ a, a < 65536 → flash_burst_spec seq vin a (l1 ++ l2) =
      flash_burst_spec seq vin a l1 ++ flash_burst_spec seq vin ((a + l1.length) % 65536) l2 := by
  induction l1 with
  | nil =>
    intro a ha
    simp only [List.nil_append, flash_burst_spec, List.length_nil, Nat.add_zero,
      Nat.mod_eq_of_lt ha]
  | cons b bs ih =>
    intro a _
    have e : ((a + 1) % 65536 + bs.length) % 65536 = (a + (bs.length + 1)) % 65536 := by omega
    have h := ih ((a + 1) % 65536) (Nat.mod_lt _ (by omega))
    rw [e] at h
    rw [List.cons_append, flash_burst_spec_single, h, flash_burst_spec_single seq vin a b bs,
      List.length_cons, List.append_assoc]

theorem flash_loop_run_nil {w v : World} (hw : w.state.params.wf) (hf : PipeFrame w v) :
    FlashLoopRun w v [] := by
  have hs := hf.state
  refine ⟨Nat.zero_le _, by simp [hf.rx_log], fun _ => by simp [hf.hw_log, flash_burst_spec],
    hf.flash_sequence, hf.tx_log, hf.bus_in, fun _ => hf.oob, by rw [hs], ?_, by rw [hs], by rw [hs]; exact hw,
    fun _ => ?_, fun h => by rw [← hf.status]; exact h,
    fun _ => ⟨hf.hw_log, hf.bus_reads, hf.status, ?_⟩⟩
  · rw [hs, List.length_nil, Nat.add_zero, Nat.mod_eq_of_lt (Params.addr_lt _ hw)]
  · rw [hs, List.length_nil, Params.burst_zero _ hw]
  · rw [hs, List.length_nil, Params.burst_zero _ hw]

theorem flash_loop_run_trans {w m v : World} {l1 l2 : List Nat} (hw : w.state.params.wf)
    (h1 : FlashLoopRun w m l1) (hm : m.state.params = w.state.params.burst_advance l1.length)
    (h2 : FlashLoopRun m v l2) : FlashLoopRun w v (l1 ++ l2) := by
  have ha := Params.addr_lt _ hw
  have hml : m.state.params.len = w.state.params.len - l1.length := by
    rw [hm, Params.burst_len _ hw]
  have h1l := h1.length_le
  have h2l := h2.length_le
  constructor
  · rw [List.length_append]; omega
  · rw [h2.rx_log, h1.rx_log, List.append_assoc]
  · intro hb
    rw [h2.writes (by rw [h1.flash_sequence]; exact hb), h1.writes hb, h1.flash_sequence, h1.b0,
      h1.addr, List.append_assoc, ← flash_burst_spec_append _ _ _ _ _ ha]
  · rw [h2.flash_sequence, h1.flash_sequence]
  · rw [h2.tx_log, h1.tx_log]
  · rw [h2.bus_in, h1.bus_in]
  · intro hb
    rw [h2.oob (by rw [h1.flash_sequence]; exact hb), h1.oob hb]
  · have e : ({ v.state with params := w.state.params } : State) =
        { ({ v.state with params := m.state.params } : State) with params := w.state.params } := rfl
    rw [e, h2.frame, h1.frame]
  · rw [h2.addr, h1.addr, List.length_append]; omega
  · rw [h2.b0, h1.b0]
  · exact h2.wf
  · intro h
    rw [h2.params h, hm, Params.burst_step _ hw, List.length_append]
  · intro h; exact h1.status (h2.status h)
  · intro h
    obtain ⟨a1, a2, a3, -⟩ := h1.skipped (fun b hb => h b (List.mem_append_left _ hb))
    obtain ⟨b1, b2, b3, b4⟩ := h2.skipped (fun b hb => h b (List.mem_append_right _ hb))
    exact ⟨by rw [b1, a1], by rw [b2, a2], by rw [b3, a3],
      by rw [b4, hm, Params.burst_step _ hw, List.length_append]⟩

theorem execute_cmd_flash_burst_succ (n : Nat) (w : World) :
    execute_cmd_flash_burst (n + 1) w =
      if w.state.params.len > 0 then
        if (pipe_rx_acquire w).pipe_state.rx_slice_valid = true then
          if (flash_burst_bytes n
              (MIN (pipe_rx_acquire w).pipe_state.rx_slice.len
                (pipe_rx_acquire w).state.params.len % 256)
              (flash_chunk_start (pipe_rx_acquire w)
                (MIN (pipe_rx_acquire w).pipe_state.rx_slice.len
                  (pipe_rx_acquire w).state.params.len % 256))).status = .running then
            execute_cmd_flash_burst n
              (flash_burst_bytes n
                (MIN (pipe_rx_acquire w).pipe_state.rx_slice.len
                  (pipe_rx_acquire w).state.params.len % 256)
                (flash_chunk_start (pipe_rx_acquire w)
                  (MIN (pipe_rx_acquire w).pipe_state.rx_slice.len
                    (pipe_rx_acquire w).state.params.len % 256)))
          else
            (flash_burst_bytes n
              (MIN (pipe_rx_acquire w).pipe_state.rx_slice.len
                (pipe_rx_acquire w).state.params.len % 256)
              (flash_chunk_start (pipe_rx_acquire w)
                (MIN (pipe_rx_acquire w).pipe_state.rx_slice.len
                  (pipe_rx_acquire w).state.params.len % 256)), false)
        else (pipe_rx_acquire w, false)
      else execute_cmd_tx_read w := by
  rw [execute_cmd_flash_burst]
  split
  · simp only []
    by_cases hv : (pipe_rx_acquire w).pipe_state.rx_slice_valid = true
    · rw [if_neg (by rw [hv]; simp), if_pos hv]
      generalize pipe_rx_acquire w = v
      generalize hc : MIN v.pipe_state.rx_slice.len v.state.params.len % 256 = c
      show (if (flash_burst_bytes n c (flash_chunk_start v c)).status ≠ .running then
          (flash_burst_bytes n c (flash_chunk_start v c), false)
        else execute_cmd_flash_burst n (flash_burst_bytes n c (flash_chunk_start v c))) = _
      by_cases hs : (flash_burst_bytes n c (flash_chunk_start v c)).status = .running
      · rw [if_neg (by simpa using hs), if_pos hs]
      · rw [if_pos hs, if_neg hs]
    · rw [if_pos (by simpa using hv), if_neg hv]
  · rfl

/-- One chunk of `execute_cmd_flash_burst` as a run of the loop. -/
theorem flash_chunk_run {v r : World} {c : Nat} {l : List Nat} (hw : v.state.params.wf)
    (hc : c ≤ v.state.params.len) (h : FlashBytesRun (flash_chunk_start v c) c r l) :
    FlashLoopRun v r l := by
  have hl := h.length_le
  have hp : r.state.params = (v.state.params.set_len (v.state.params.len - c)).set_addr
      ((v.state.params.addr + l.length) % 65536) := by rw [h.state]; rfl
  have hfull : l.length = c → r.state.params = v.state.params.burst_advance l.length := by
    intro e; rw [hp, e]; rfl
  constructor
  · omega
  · exact h.rx_log
  · exact h.writes
  · exact h.flash_sequence
  · exact h.tx_log
  · exact h.bus_in
  · exact h.oob
  · rw [h.state]; rfl
  · rw [hp]; exact Params.set_addr_addr _ _ (Nat.mod_lt _ (by omega))
  · rw [hp]; rfl
  · rw [hp]; exact Params.set_addr_wf _ _ (Params.set_len_wf _ _ hw)
  · intro hs; exact hfull (h.status hs).1
  · intro hs; exact (h.status hs).2
  · intro ha
    obtain ⟨a1, a2, a3, a4⟩ := h.skipped ha
    exact ⟨a1, a2, a3, hfull a4⟩

/-- One call of `execute_cmd_flash_burst`: the loop runs over the payload
bytes `l` it consumes and leaves through one of its three exits: no receive
slice or a polling loop that did not settle, exhausted fuel, or the response
once the remaining length is zero. -/
theorem execute_cmd_flash_burst_run (fuel : Nat) :
    ∀ w : World, w.state.params.wf →
      ∃ l v, FlashLoopRun w v l ∧
        (execute_cmd_flash_burst fuel w = (v, false) ∨
         execute_cmd_flash_burst fuel w = ({ v with status := .diverged }, false) ∨
         (v.state.params.len = 0 ∧ execute_cmd_flash_burst fuel w = execute_cmd_tx_read v)) := by
  induction fuel with
  | zero =>
    intro w hw
    exact ⟨[], w, flash_loop_run_nil hw (PipeFrame.pipe_refl w), Or.inr (Or.inl rfl)⟩
  | succ n ih =>
    intro w hw
    rw [execute_cmd_flash_burst_succ]
    by_cases hl : w.state.params.len > 0
    · rw [if_pos hl]
      have hf := pipe_rx_acquire_frame w
      by_cases hv : (pipe_rx_acquire w).pipe_state.rx_slice_valid = true
      · rw [if_pos hv]
        generalize hc : MIN (pipe_rx_acquire w).pipe_state.rx_slice.len
          (pipe_rx_acquire w).state.params.len % 256 = c
        have hcl : c ≤ (pipe_rx_acquire w).state.params.len := by
          rw [← hc]
          exact le_trans (Nat.mod_le _ _) (MIN_le_right _ _)
        generalize pipe_rx_acquire w = v at hf hcl ⊢
        have hwv : v.state.params.wf := by rw [hf.state]; exact hw
        obtain ⟨l1, h1⟩ := flash_burst_bytes_run n c (flash_chunk_start v c)
          (Params.set_len_wf _ _ hwv)
        have h2 := flash_chunk_run hwv hcl h1
        have h0 := flash_loop_run_nil hw hf
        have h3 := flash_loop_run_trans hw h0 (by
          rw [hf.state, List.length_nil, Params.burst_zero _ hw]) h2
        rw [List.nil_append] at h3
        generalize flash_burst_bytes n c (flash_chunk_start v c) = r at h1 h2 h3 ⊢
        by_cases hs : r.status = .running
        · rw [if_pos hs]
          obtain ⟨l2, u, h4, h5⟩ := ih r h3.wf
          exact ⟨l1 ++ l2, u, flash_loop_run_trans hw h3 (h3.params hs) h4, h5⟩
        · rw [if_neg hs]
          exact ⟨l1, r, h3, Or.inl rfl⟩
      · rw [if_neg hv]
        exact ⟨[], _, flash_loop_run_nil hw hf, Or.inl rfl⟩
    · rw [if_neg hl]
      exact ⟨[], w, flash_loop_run_nil hw (PipeFrame.pipe_refl w), Or.inr (Or.inr ⟨by omega, rfl⟩)⟩

/-- Calls of `execute_cmd_write_burst`, however the payload is cut into
receive slices: the bytes `l` consumed in all of them together are written in
order from the start address on, and the parameter bytes have moved on by
their number. -/
theorem write_burst_calls {w r : World} (h : BurstCalls execute_cmd_write_burst w r) :
    w.state.params.wf →
      ∃ l : List Nat, l.length ≤ w.state.params.len ∧ r.rx_log = w.rx_log ++ l ∧
        bus_writes r.hw_log = bus_writes w.hw_log ++
          write_burst_spec (write_gate (get_bit w.state.params.b0 0))
            (write_strobe (get_bit w.state.params.b0 1)) w.state.params.addr l ∧
        r.state = { w.state with params := w.state.params.burst_advance l.length } := by
  induction h with
  | here w =>
    intro hw
    refine ⟨[], Nat.zero_le _, by simp, by simp [write_burst_spec], ?_⟩
    rw [List.length_nil, Params.burst_zero _ hw]
  | @call fuel w r _ ih =>
    intro hw
    obtain ⟨l1, a1, a2, a3, a4, -, -⟩ := execute_cmd_write_burst_spec fuel w hw
    have hp : (execute_cmd_write_burst fuel w).1.state.params =
        w.state.params.burst_advance l1.length := by rw [a4]
    obtain ⟨l2, b1, b2, b3, b4⟩ := ih (by rw [hp]; exact Params.burst_wf _ hw _)
    rw [hp, Params.burst_len _ hw] at b1
    refine ⟨l1 ++ l2, by rw [List.length_append]; omega, by rw [b2, a2, List.append_assoc], ?_, ?_⟩
    · rw [b3, a3, hp, Params.burst_b0, Params.burst_addr, List.append_assoc,
        ← write_burst_spec_append _ _ _ _ _ (Params.addr_lt _ hw)]
    · rw [b4, hp, a4, Params.burst_step _ hw, List.length_append]
  | @pipe w v r hf _ ih =>
    intro hw
    obtain ⟨l, b1, b2, b3, b4⟩ := ih (by rw [hf.state]; exact hw)
    rw [hf.state] at b1 b3 b4
    exact ⟨l, b1, by rw [b2, hf.rx_log], by rw [b3, hf.hw_log], b4⟩

/-- One call of `execute_cmd_flash_burst`, response part included. -/
theorem flash_burst_call (fuel : Nat) (w : World) (hw : w.state.params.wf)
    (hb : w.flash_sequence.in_bounds) :
    (execute_cmd_flash_burst fuel w).1.state.params.wf ∧
    (execute_cmd_flash_burst fuel w).1.flash_sequence = w.flash_sequence ∧
    ∃ l : List Nat, l.length ≤ w.state.params.len ∧
      (execute_cmd_flash_burst fuel w).1.rx_log = w.rx_log ++ l ∧
      bus_writes (execute_cmd_flash_burst fuel w).1.hw_log = bus_writes w.hw_log ++
        flash_burst_spec w.flash_sequence (get_bit w.state.params.b0 6) w.state.params.addr l ∧
      ((execute_cmd_flash_burst fuel w).1.status = .running →
        (execute_cmd_flash_burst fuel w).1.state.params = w.state.params.burst_advance l.length ∧
        w.status = .running) := by
  obtain ⟨l, v, h, hx | hx | ⟨-, hx⟩⟩ := execute_cmd_flash_burst_run fuel w hw
  · rw [hx]
    exact ⟨h.wf, h.flash_sequence, l, h.length_le, h.rx_log, h.writes hb,
      fun hs => ⟨h.params hs, h.status hs⟩⟩
  · rw [hx]
    exact ⟨h.wf, h.flash_sequence, l, h.length_le, h.rx_log, h.writes hb, fun hs => by cases hs⟩
  · rw [hx]
    obtain ⟨hf, s, hs⟩ := execute_cmd_tx_read_loop_inert v.state.tx_read_slice.len v
    have hp : (execute_cmd_tx_read v).1.state.params = v.state.params := by
      show (execute_cmd_tx_read_loop v.state.tx_read_slice.len v).1.state.params = _
      rw [hs]
    refine ⟨by rw [hp]; exact h.wf, ?_, l, h.length_le, ?_, ?_, ?_⟩
    · exact hf.flash_sequence.trans h.flash_sequence
    · exact hf.rx_log.trans h.rx_log
    · exact (congrArg bus_writes hf.hw_log).trans (h.writes hb)
    · intro hr
      have hv : v.status = .running := hf.status.symm.trans hr
      exact ⟨hp.trans (h.params hv), h.status hv⟩

/-- Calls of `execute_cmd_flash_burst` ending in a running world, however the
payload is cut into receive slices: the bus writes are those the payload
consumed in all of them together asks for, and the parameter bytes have moved
on by its length. -/
theorem flash_burst_calls {w r : World} (h : BurstCalls execute_cmd_flash_burst w r) :
    r.status = .running → w.state.params.wf → w.flash_sequence.in_bounds →
      ∃ l : List Nat, l.length ≤ w.state.params.len ∧ r.rx_log = w.rx_log ++ l ∧
        bus_writes r.hw_log = bus_writes w.hw_log ++
          flash_burst_spec w.flash_sequence (get_bit w.state.params.b0 6) w.state.params.addr l ∧
        r.state.params = w.state.params.burst_advance l.length ∧
        r.flash_sequence = w.flash_sequence ∧ w.status = .running := by
  induction h with
  | here w =>
    intro hs hw _
    refine ⟨[], Nat.zero_le _, by simp, by simp [flash_burst_spec], ?_, rfl, hs⟩
    rw [List.length_nil, Params.burst_zero _ hw]
  | @call fuel w r _ ih =>
    intro hs hw hb
    obtain ⟨c1, c2, l1, a1, a2, a3, a4⟩ := flash_burst_call fuel w hw hb
    obtain ⟨l2, b1, b2, b3, b4, b5, b6⟩ := ih hs c1 (by rw [c2]; exact hb)
    obtain ⟨hp, hrun⟩ := a4 b6
    rw [hp, Params.burst_len _ hw] at b1
    refine ⟨l1 ++ l2, by rw [List.length_append]; omega, by rw [b2, a2, List.append_assoc],
      ?_, ?_, b5.trans c2, hrun⟩
    · rw [b3, a3, c2, hp, Params.burst_b0, Params.burst_addr, List.append_assoc,
        ← flash_burst_spec_append _ _ _ _ _ (Params.addr_lt _ hw)]
    · rw [b4, hp, Params.burst_step _ hw, List.length_append]
  | @pipe w v r hf _ ih =>
    intro hs hw hb
    obtain ⟨l, b1, b2, b3, b4, b5, b6⟩ := ih hs (by rw [hf.state]; exact hw)
      (by rw [hf.flash_sequence]; exact hb)
    rw [hf.state] at b1 b3 b4
    rw [hf.flash_sequence] at b3 b5
    exact ⟨l, b1, by rw [b2, hf.rx_log], by rw [b3, hf.hw_log], b4, b5, by rw [← hf.status]; exact b6⟩

/-- The pending-command block of `execute_commands` for a command whose
operation is `op`: it is one call of the function of `op`, and the command
flags are cleared when the call reports completion. -/
theorem execute_pending_operation (fuel : Nat) (w : World) (op : Operation)
    (hv : w.state.header_valid = true) (ho : select_operation w.state.cmd = op) :
    execute_pending fuel w =
      if (run_operation fuel w op).2 = true then (clear_cmd_flags (run_operation fuel w op).1, true)
      else ((run_operation fuel w op).1, false) := by
  unfold execute_pending execute_command
  rw [if_pos hv, ho]
  generalize run_operation fuel w op = r
  obtain ⟨v, b⟩ := r
  cases b <;> simp

/-- C14. Chunk-size independence of WRITE_BURST and FLASH_BURST.  Take two
runs of the command function from worlds with the same parameter bytes (and,
for FLASH_BURST, the same stored write sequence), each made of any number of
calls with pipe steps in between, so with the payload cut into receive slices
in any two ways.  If both have consumed the same payload bytes `l` (and, for
FLASH_BURST, neither has hung in a polling loop), then both have issued the
same bus writes, namely those the specification gives for `l`, and they end
with the same address `(a + |l|) mod 65536` and the same remaining length
`len - |l|`.  The last two clauses say that the pending-command block of
`execute_commands` is such a call. -/
theorem burst_chunk_independence (l : List Nat) :
    (∀ w1 r1 w2 r2 : World,
      BurstCalls execute_cmd_write_burst w1 r1 → BurstCalls execute_cmd_write_burst w2 r2 →
      w1.state.params.wf → w2.state.params = w1.state.params →
      r1.rx_log = w1.rx_log ++ l → r2.rx_log = w2.rx_log ++ l →
      bus_writes r1.hw_log = bus_writes w1.hw_log ++
        write_burst_spec (write_gate (get_bit w1.state.params.b0 0))
          (write_strobe (get_bit w1.state.params.b0 1)) w1.state.params.addr l ∧
      bus_writes r2.hw_log = bus_writes w2.hw_log ++
        write_burst_spec (write_gate (get_bit w1.state.params.b0 0))
          (write_strobe (get_bit w1.state.params.b0 1)) w1.state.params.addr l ∧
      r1.state.params.addr = (w1.state.params.addr + l.length) % 65536 ∧
      r2.state.params.addr = (w1.state.params.addr + l.length) % 65536 ∧
      r1.state.params.len = w1.state.params.len - l.length ∧
      r2.state.params.len = w1.state.params.len - l.length ∧
      l.length ≤ w1.state.params.len) ∧
    (∀ w1 r1 w2 r2 : World,
      BurstCalls execute_cmd_flash_burst w1 r1 → BurstCalls execute_cmd_flash_burst w2 r2 →
      w1.state.params.wf → w2.state.params = w1.state.params →
      w1.flash_sequence.in_bounds → w2.flash_sequence = w1.flash_sequence →
      r1.status = .running → r2.status = .running →
      r1.rx_log = w1.rx_log ++ l → r2.rx_log = w2.rx_log ++ l →
      bus_writes r1.hw_log = bus_writes w1.hw_log ++
        flash_burst_spec w1.flash_sequence (get_bit w1.state.params.b0 6) w1.state.params.addr l ∧
      bus_writes r2.hw_log = bus_writes w2.hw_log ++
        flash_burst_spec w1.flash_sequence (get_bit w1.state.params.b0 6) w1.state.params.addr l ∧
      r1.state.params.addr = (w1.state.params.addr + l.length) % 65536 ∧
      r2.state.params.addr = (w1.state.params.addr + l.length) % 65536 ∧
      r1.state.params.len = w1.state.params.len - l.length ∧
      r2.state.params.len = w1.state.params.len - l.length ∧
      l.length ≤ w1.state.params.len) ∧
    (∀ (fuel : Nat) (w : World), w.state.header_valid = true →
      select_operation w.state.cmd = .write_burst →
      execute_pending fuel w =
        if (execute_cmd_write_burst fuel w).2 = true then
          (clear_cmd_flags (execute_cmd_write_burst fuel w).1, true)
        else ((execute_cmd_write_burst fuel w).1, false)) ∧
    (∀ (fuel : Nat) (w : World), w.state.header_valid = true →
      select_operation w.state.cmd = .flash_burst →
      execute_pending fuel w =
        if (execute_cmd_flash_burst fuel w).2 = true then
          (clear_cmd_flags (execute_cmd_flash_burst fuel w).1, true)
        else ((execute_cmd_flash_burst fuel w).1, false)) := by
  refine ⟨?_, ?_, fun fuel w hv ho => execute_pending_operation fuel w _ hv ho,
    fun fuel w hv ho => execute_pending_operation fuel w _ hv ho⟩
  · intro w1 r1 w2 r2 c1 c2 hw hp e1 e2
    obtain ⟨l1, a1, a2, a3, a4⟩ := write_burst_calls c1 hw
    obtain ⟨l2, b1, b2, b3, b4⟩ := write_burst_calls c2 (by rw [hp]; exact hw)
    have h1 : l1 = l := List.append_cancel_left (a2.symm.trans e1)
    have h2 : l2 = l := List.append_cancel_left (b2.symm.trans e2)
    subst h1
    rw [h2, hp] at b3 b4
    refine ⟨a3, b3, ?_, ?_, ?_, ?_, a1⟩
    · rw [a4]; exact Params.burst_addr _ _
    · rw [b4]; exact Params.burst_addr _ _
    · rw [a4]; exact Params.burst_len _ hw _
    · rw [b4]; exact Params.burst_len _ hw _
  · intro w1 r1 w2 r2 c1 c2 hw hp hb hq s1 s2 e1 e2
    obtain ⟨l1, a1, a2, a3, a4, -, -⟩ := flash_burst_calls c1 s1 hw hb
    obtain ⟨l2, b1, b2, b3, b4, -, -⟩ := flash_burst_calls c2 s2 (by rw [hp]; exact hw)
      (by rw [hq]; exact hb)
    have h1 : l1 = l := List.append_cancel_left (a2.symm.trans e1)
    have h2 : l2 = l := List.append_cancel_left (b2.symm.trans e2)
    subst h1
    rw [h2, hp, hq] at b3
    rw [h2, hp] at b4
    refine ⟨a3, b3, ?_, ?_, ?_, ?_, a1⟩
    · rw [a4]; exact Params.burst_addr _ _
    · rw [b4]; exact Params.burst_addr _ _
    · rw [a4]; exact Params.burst_len _ hw _
    · rw [b4]; exact Params.burst_len _ hw _

theorem burst_chunk_independence_witness :
    (World.wb_whole.state.params.wf ∧
      World.wb_split.state.params = World.wb_whole.state.params ∧
      (execute_cmd_write_burst 4 World.wb_whole).1.rx_log =
        World.wb_whole.rx_log ++ [0x11, 0x22] ∧
      (execute_cmd_write_burst 4 (execute_cmd_write_burst 4 World.wb_split).1).1.rx_log =
        World.wb_split.rx_log ++ [0x11, 0x22] ∧
      (execute_cmd_write_burst 4 World.wb_split).2 = false) ∧
    (bus_writes (execute_cmd_write_burst 4 World.wb_whole).1.hw_log =
        bus_writes World.wb_whole.hw_log ++
          write_burst_spec (write_gate (get_bit World.wb_whole.state.params.b0 0))
            (write_strobe (get_bit World.wb_whole.state.params.b0 1))
            World.wb_whole.state.params.addr [0x11, 0x22] ∧
      bus_writes (execute_cmd_write_burst 4 (execute_cmd_write_burst 4 World.wb_split).1).1.hw_log =
        bus_writes World.wb_split.hw_log ++
          write_burst_spec (write_gate (get_bit World.wb_whole.state.params.b0 0))
            (write_strobe (get_bit World.wb_whole.state.params.b0 1))
            World.wb_whole.state.params.addr [0x11, 0x22] ∧
      (execute_cmd_write_burst 4 World.wb_whole).1.state.params.addr =
        (World.wb_whole.state.params.addr + [0x11, 0x22].length) % 65536 ∧
      (execute_cmd_write_burst 4 (execute_cmd_write_burst 4 World.wb_split).1).1.state.params.addr =
        (World.wb_whole.state.params.addr + [0x11, 0x22].length) % 65536 ∧
      (execute_cmd_write_burst 4 World.wb_whole).1.state.params.len =
        World.wb_whole.state.params.len - [0x11, 0x22].length ∧
      (execute_cmd_write_burst 4 (execute_cmd_write_burst 4 World.wb_split).1).1.state.params.len =
        World.wb_whole.state.params.len - [0x11, 0x22].length ∧
      [0x11, 0x22].length ≤ World.wb_whole.state.params.len) ∧
    (World.fb_whole.flash_sequence.in_bounds ∧
      World.fb_split.flash_sequence = World.fb_whole.flash_sequence ∧
      (execute_cmd_flash_burst 8 World.fb_whole).1.status = .running ∧
      (execute_cmd_flash_burst 8 (execute_cmd_flash_burst 8 World.fb_split).1).1.status = .running ∧
      (execute_cmd_flash_burst 8 World.fb_whole).1.rx_log = World.fb_whole.rx_log ++ [0xff, 0x80] ∧
      (execute_cmd_flash_burst 8 (execute_cmd_flash_burst 8 World.fb_split).1).1.rx_log =
        World.fb_split.rx_log ++ [0xff, 0x80] ∧
      (execute_cmd_flash_burst 8 World.fb_split).2 = false) ∧
    bus_writes (execute_cmd_flash_burst 8 World.fb_whole).1.hw_log =
      bus_writes World.fb_whole.hw_log ++
        flash_burst_spec World.fb_whole.flash_sequence (get_bit World.fb_whole.state.params.b0 6)
          World.fb_whole.state.params.addr [0xff, 0x80] ∧
    bus_writes (execute_cmd_flash_burst 8 (execute_cmd_flash_burst 8 World.fb_split).1).1.hw_log =
      bus_writes World.fb_split.hw_log ++
        flash_burst_spec World.fb_whole.flash_sequence (get_bit World.fb_whole.state.params.b0 6)
          World.fb_whole.state.params.addr [0xff, 0x80] :=
  have a1 : World.wb_whole.state.params.wf := by decide
  have a2 : World.wb_split.state.params = World.wb_whole.state.params := by decide
  have a3 : (execute_cmd_write_burst 4 World.wb_whole).1.rx_log =
      World.wb_whole.rx_log ++ [0x11, 0x22] := by decide
  have a4 : (execute_cmd_write_burst 4 (execute_cmd_write_burst 4 World.wb_split).1).1.rx_log =
      World.wb_split.rx_log ++ [0x11, 0x22] := by decide
  have b1 : World.fb_whole.state.params.wf := by decide
  have b2 : World.fb_split.state.params = World.fb_whole.state.params := by decide
  have b3 : World.fb_whole.flash_sequence.in_bounds := by decide
  have b4 : World.fb_split.flash_sequence = World.fb_whole.flash_sequence := by decide
  have b5 : (execute_cmd_flash_burst 8 World.fb_whole).1.status = .running := by decide
  have b6 : (execute_cmd_flash_burst 8 (execute_cmd_flash_burst 8 World.fb_split).1).1.status =
      .running := by decide
  have b7 : (execute_cmd_flash_burst 8 World.fb_whole).1.rx_log =
      World.fb_whole.rx_log ++ [0xff, 0x80] := by decide
  have b8 : (execute_cmd_flash_burst 8 (execute_cmd_flash_burst 8 World.fb_split).1).1.rx_log =
      World.fb_split.rx_log ++ [0xff, 0x80] := by decide
  have hw := (burst_chunk_independence [0x11, 0x22]).1 World.wb_whole _ World.wb_split _
    (.call 4 (.here _)) (.call 4 (.call 4 (.here _))) a1 a2 a3 a4
  have hf := (burst_chunk_independence [0xff, 0x80]).2.1 World.fb_whole _ World.fb_split _
    (.call 8 (.here _)) (.call 8 (.call 8 (.here _))) b1 b2 b3 b4 b5 b6 b7 b8
  ⟨⟨a1, a2, a3, a4, by decide⟩, hw, ⟨b3, b4, b5, b6, b7, b8, by decide⟩, hf.1, hf.2.1⟩

theorem flash_ff_progress_pipe {a L : Nat} {T0 : List Nat} {H0 : List HwOp} {B0 : Nat}
    {L0 : List Nat} {w r : World} (hf : PipeFrame w r) (h : FlashFfProgress a L T0 H0 B0 L0 w) :
    FlashFfProgress a L T0 H0 B0 L0 r := by
  unfold FlashFfProgress at h ⊢
  rw [hf.state, hf.rx_log, hf.hw_log, hf.bus_reads, hf.tx_log]
  exact h

theorem Params.len_zero (p : Params) (h : p.len = 0) : p.b3 = 0 ∧ p.b4 = 0 := by
  unfold Params.len at h; omega

/-- The bytes of the remaining length once it is zero. -/
theorem load_len_zero (w : World) (h : w.state.params.len = 0) (m n : Nat) (hmn : m + n ≤ 2) :
    w.load { reg := .params, off := 3 + m } n = List.replicate n 0 := by
  obtain ⟨h3, h4⟩ := Params.len_zero _ h
  unfold World.load World.object Params.bytes
  simp only [h3, h4]
  have hm : m ≤ 2 := by omega
  have hn : n ≤ 2 := by omega
  interval_cases m <;> interval_cases n <;> rfl

theorem state_params_frame {s t : State} (h : { s with params := t.params } = t) :
    s = { t with params := s.params } := by
  rw [← h]

theorem all_ff_replicate (l : List Nat) (h : ∀ b ∈ l, b = 0xff) :
    l = List.replicate l.length 0xff :=
  List.eq_replicate_iff.mpr ⟨rfl, h⟩

/-- The state reached by the loop of `execute_cmd_flash_burst` over payload
bytes `0xff` is again a FLASH_BURST in progress, with as many more bytes
consumed. -/
theorem flash_ff_loop {a L : Nat} {T0 : List Nat} {H0 : List HwOp} {B0 : Nat} {L0 : List Nat}
    {w v : World} {l : List Nat} (h : FlashFfProgress a L T0 H0 B0 L0 w)
    (hrun : FlashLoopRun w v l) (hff : ∀ b ∈ l, b = 0xff) :
    FlashFfProgress a L T0 H0 B0 L0 v ∧ v.state.params.len = w.state.params.len - l.length := by
  obtain ⟨hv, hcmd, hwf, hh, hbr, k, m, hk, ha, hlen, hrx, hm, hkm, hts, htx⟩ := h
  obtain ⟨s1, s2, -, s4⟩ := hrun.skipped hff
  have hvs : v.state = { w.state with params := w.state.params.burst_advance l.length } := by
    rw [← s4]; exact state_params_frame hrun.frame
  have hll := hrun.length_le
  have hvl : v.state.params.len = w.state.params.len - l.length := by
    rw [s4, Params.burst_len _ hwf]
  refine ⟨⟨by rw [hvs]; exact hv, by rw [hvs]; exact hcmd, hrun.wf, by rw [s1]; exact hh, by rw [s2]; exact hbr,
    k + l.length, m, by omega, ?_, by rw [hvl, hlen]; omega, ?_, hm, fun hx => hkm (by omega),
    by rw [hvs]; exact hts, by rw [hrun.tx_log]; exact htx⟩, hvl⟩
  · rw [hrun.addr, ha]; omega
  · rw [hrun.rx_log, hrx, List.append_assoc, List.replicate_add, ← all_ff_replicate l hff]

/-- One pass of the pending-command block over a FLASH_BURST whose payload
bytes so far and in this pass are all `0xff`. -/
theorem execute_pending_flash_ff {a L : Nat} {T0 : List Nat} {H0 : List HwOp} {B0 : Nat}
    {L0 : List Nat} (fuel : Nat) (w : World) (l : List Nat)
    (h : FlashFfProgress a L T0 H0 B0 L0 w)
    (hl : (execute_pending fuel w).1.rx_log = w.rx_log ++ l) (hff : ∀ b ∈ l, b = 0xff) :
    ((execute_pending fuel w).2 = false →
      FlashFfProgress a L T0 H0 B0 L0 (execute_pending fuel w).1) ∧
    ((execute_pending fuel w).2 = true → FlashFfDone a L T0 H0 B0 L0 (execute_pending fuel w).1) := by
  have hv := h.1
  have hop : select_operation w.state.cmd = .flash_burst := by rw [h.2.1]; rfl
  have hwf := h.2.2.1
  rw [execute_pending_operation fuel w _ hv hop] at hl ⊢
  simp only [run_operation] at hl ⊢
  obtain ⟨l1, v, hrun, hx | hx | ⟨hz, hx⟩⟩ := execute_cmd_flash_burst_run fuel w hwf
  · rw [hx] at hl ⊢
    simp only [Bool.false_eq_true, if_false] at hl ⊢
    have e : l1 = l := List.append_cancel_left (hrun.rx_log.symm.trans hl)
    subst e
    exact ⟨fun _ => (flash_ff_loop h hrun hff).1, fun hc => by cases hc⟩
  · rw [hx] at hl ⊢
    simp only [Bool.false_eq_true, if_false] at hl ⊢
    have e : l1 = l := List.append_cancel_left (hrun.rx_log.symm.trans hl)
    subst e
    exact ⟨fun _ => (flash_ff_loop h hrun hff).1, fun hc => by cases hc⟩
  · rw [hx] at hl ⊢
    obtain ⟨m2, hm2, hiff, hstate, htxlog, hframe⟩ :=
      execute_cmd_tx_read_loop_spec v.state.tx_read_slice.len v (Nat.le_refl _)
        (by
          have := (state_params_frame hrun.frame)
          rw [this]
          obtain ⟨-, -, -, -, -, k, m, -, -, -, -, -, -, hts, -⟩ := h
          show w.state.tx_read_slice.len < 256
          rw [hts]; show 2 - m < 256; omega)
    have hframe : TxFrame v (execute_cmd_tx_read v).1 := hframe
    have hrl : (execute_cmd_tx_read v).1.rx_log = v.rx_log := hframe.rx_log
    have hl2 : v.rx_log = w.rx_log ++ l := by
      rw [← hrl]
      by_cases hc : (execute_cmd_tx_read v).2 = true
      · rw [if_pos hc] at hl; exact hl
      · rw [if_neg hc] at hl; exact hl
    have e : l1 = l := List.append_cancel_left (hrun.rx_log.symm.trans hl2)
    subst e
    obtain ⟨⟨pv, pcmd, pwf, ph, pbr, k, m, pk, pa, plen, prx, pm, pkm, pts, ptx⟩, -⟩ :=
      flash_ff_loop h hrun hff
    have hkL : k = L := by omega
    have hm2' : m2 ≤ 2 - m := by
      have := hm2; rw [pts] at this; exact this
    have hload : v.load v.state.tx_read_slice.ptr m2 = List.replicate m2 0 := by
      rw [pts]; exact load_len_zero v hz m m2 (by omega)
    have hst : (execute_cmd_tx_read v).1.state = { v.state with tx_read_slice :=
        { ptr := { reg := .params, off := 3 + (m + m2) }, len := 2 - (m + m2) } } := by
      show (execute_cmd_tx_read_loop v.state.tx_read_slice.len v).1.state = _
      rw [hstate, pts]
      simp only [Ptr.add, Nat.add_assoc, Nat.sub_sub]
    have htl : (execute_cmd_tx_read v).1.tx_log = T0 ++ List.replicate (m + m2) 0 := by
      show (execute_cmd_tx_read_loop v.state.tx_read_slice.len v).1.tx_log = _
      rw [htxlog, hload, ptx, List.append_assoc, ← List.replicate_add]
    have hdone : (execute_cmd_tx_read v).2 = true ↔ m2 = 2 - m := by
      show (execute_cmd_tx_read_loop v.state.tx_read_slice.len v).2 = true ↔ _
      rw [hiff, pts]
    constructor
    · intro hc
      have hne : ¬ (execute_cmd_tx_read v).2 = true := by
        intro ht; rw [if_pos ht] at hc; cases hc
      rw [if_neg hne]
      have hlt : m2 ≠ 2 - m := fun e => hne (hdone.mpr e)
      exact ⟨by rw [hst]; exact pv, by rw [hst]; exact pcmd, by rw [hst]; exact pwf,
        by rw [hframe.hw_log]; exact ph,
        by rw [hframe.bus_reads]; exact pbr, k, m + m2, pk, by rw [hst]; exact pa,
        by rw [hst]; exact plen, by rw [hrl]; exact prx, by omega, fun hx => by omega,
        by rw [hst], htl⟩
    · intro hc
      have ht : (execute_cmd_tx_read v).2 = true := by
        by_contra hne; rw [if_neg hne] at hc; cases hc
      rw [if_pos ht]
      have hm2e : m2 = 2 - m := hdone.mp ht
      have hmm : m + m2 = 2 := by omega
      refine ⟨rfl, rfl, ?_, ?_, ?_, ?_, ?_, ?_⟩
      · show (execute_cmd_tx_read v).1.hw_log = H0
        rw [hframe.hw_log]; exact ph
      · show (execute_cmd_tx_read v).1.bus_reads = B0
        rw [hframe.bus_reads]; exact pbr
      · show (execute_cmd_tx_read v).1.state.params.addr = _
        rw [hst, ← hkL]; exact pa
      · show (execute_cmd_tx_read v).1.state.params.len = _
        rw [hst]; exact hz
      · show (execute_cmd_tx_read v).1.rx_log = _
        rw [hrl, prx, hkL]
      · show (execute_cmd_tx_read v).1.tx_log = _
        rw [htl, hmm]; rfl

/-- FLASH_BURST on arrival while unlocked: the header bytes give the start
address and the length, and the response slice is set to the two bytes of the
remaining length. -/
theorem fetch_flash_burst_start (a0 a1 l0 l1 : Nat) (h0 : a0 < 256) (h1 : a1 < 256)
    (h2 : l0 < 256) (h3 : l1 < 256) (w : World) (c : Nat) (ha : Arrived w c [a0, a1, l0, l1])
    (hu : w.state.unlocked = true) (hc : c &&& CMD_MASK = CMD_FLASH_BURST) :
    FlashFfProgress (a0 + 256 * a1) (l0 + 256 * l1) w.tx_log w.hw_log w.bus_reads
      (w.rx_log ++ [c, a0, a1, l0, l1]) (fetch_command w) := by
  have ht : total_header_len c w.state.unlocked = ([a0, a1, l0, l1] : List Nat).length := by
    rw [hu]
    have := total_header_len_nonneg_of_table c true 4 (by rw [hc]; rfl)
    simpa using this
  obtain ⟨u, hf, hst, hrx, -, -, -, -, -, -, hfr⟩ :=
    fetch_arrived w c [a0, a1, l0, l1] ha ht (by simp)
  have hcmd : u.state.cmd &&& CMD_MASK = CMD_FLASH_BURST := by rw [hst]; exact hc
  have hb16 := ha.2.2.2.2.2
  have hh0 : u.hdr 0 = a0 := by
    rw [hdr_congr u _ hst 0]; exact with_header_hdr w c _ 0 hb16 (by simp) (by simp)
  have hh1 : u.hdr 1 = a1 := by
    rw [hdr_congr u _ hst 1]; exact with_header_hdr w c _ 1 hb16 (by simp) (by simp)
  have hh2 : u.hdr 2 = l0 := by
    rw [hdr_congr u _ hst 2]; exact with_header_hdr w c _ 2 hb16 (by simp) (by simp)
  have hh3 : u.hdr 3 = l1 := by
    rw [hdr_congr u _ hst 3]; exact with_header_hdr w c _ 3 hb16 (by simp) (by simp)
  rw [hf, dispatch_header_flash_burst u hcmd, hh0, hh1, hh2, hh3,
    U16_FROM_LE_BYTES_eq a0 a1 h0 h1, U16_FROM_LE_BYTES_eq l0 l1 h2 h3]
  refine ⟨?_, hcmd, ?_, hfr.hw_log, hfr.bus_reads, 0, 0, Nat.zero_le _, ?_, ?_, ?_,
    Nat.zero_le _, fun _ => rfl, rfl, ?_⟩
  · simp [mask, World.set_params, World.set_tx_read_slice, hst, World.with_header]
  · exact ⟨Nat.mod_lt _ (by omega), Nat.mod_lt _ (by omega), Nat.mod_lt _ (by omega),
      Nat.mod_lt _ (by omega)⟩
  · show (a0 + 256 * a1) % 256 + 256 * ((a0 + 256 * a1) / 256 % 256) = _
    omega
  · show (l0 + 256 * l1) % 256 + 256 * ((l0 + 256 * l1) / 256 % 256) = _
    omega
  · show u.rx_log = _
    rw [hrx]; simp
  · show u.tx_log = _
    rw [hfr.tx_log]; simp

theorem flash_burst_bytes_tx (fuel n : Nat) :
    ∀ w : World,
      (flash_burst_bytes fuel n w).pipe_state.tx_slice = w.pipe_state.tx_slice ∧
      (flash_burst_bytes fuel n w).pipe_state.tx_slice_valid = w.pipe_state.tx_slice_valid := by
  induction n with
  | zero => intro w; exact ⟨rfl, rfl⟩
  | succ n ih =>
    intro w
    rw [flash_burst_bytes_succ fuel n w]
    by_cases hd : (w.rx_peek 1).getD 0 0 = 0xff
    · rw [if_pos hd]
      exact ih (flash_byte_skipped w)
    · rw [if_neg hd]
      obtain ⟨j, hj⟩ := poll_flash_data_frame fuel (flash_byte_written w ((w.rx_peek 1).getD 0 0))
        w.state.params.addr (d7 ((w.rx_peek 1).getD 0 0))
      generalize poll_flash_data fuel (flash_byte_written w ((w.rx_peek 1).getD 0 0))
        w.state.params.addr (d7 ((w.rx_peek 1).getD 0 0)) = pr at hj ⊢
      obtain ⟨r, o⟩ := pr
      obtain ⟨h, o2, e⟩ := flash_byte_written_frame w ((w.rx_peek 1).getD 0 0)
      have hr : r = _ := hj
      rw [e] at hr
      cases o with
      | none =>
        show r.pipe_state.tx_slice = _ ∧ r.pipe_state.tx_slice_valid = _
        rw [hr]; exact ⟨rfl, rfl⟩
      | some x =>
        show (flash_burst_bytes fuel n r).pipe_state.tx_slice = _ ∧
          (flash_burst_bytes fuel n r).pipe_state.tx_slice_valid = _
        have := ih r
        rw [this.1, this.2, hr]
        exact ⟨rfl, rfl⟩

theorem MIN_eq_right (a b : Nat) (h : b ≤ a) : MIN a b = b := by
  unfold MIN; split <;> omega

/-- With the rest of the payload, all `0xff`, in the receive slice and room
for the response in the transmit slice, one pass of the pending-command block
with fuel for two rounds of the loop finishes the command. -/
theorem flash_ff_live {a L : Nat} {T0 : List Nat} {H0 : List HwOp} {B0 : Nat} {L0 : List Nat}
    (n : Nat) (w : World) (h : FlashFfProgress a L T0 H0 B0 L0 w) (hs : w.status = .running)
    (hrv : 0 < w.state.params.len → w.pipe_state.rx_slice_valid = true)
    (hle : w.state.params.len ≤ w.pipe_state.rx_slice.len) (h256 : w.state.params.len < 256)
    (hff : ∀ b ∈ w.rx_peek w.state.params.len, b = 0xff)
    (htv : w.pipe_state.tx_slice_valid = true) (htl : 2 ≤ w.pipe_state.tx_slice.len) :
    (execute_pending (n + 2) w).2 = true ∧
    ∃ l, (execute_pending (n + 2) w).1.rx_log = w.rx_log ++ l ∧ ∀ b ∈ l, b = 0xff := by
  obtain ⟨hv, hcmd, hwf, -, -, k, m, -, -, -, -, hm, -, hts, -⟩ := h
  have hop : select_operation w.state.cmd = .flash_burst := by rw [hcmd]; rfl
  have key : ∃ r l, execute_cmd_flash_burst (n + 2) w = execute_cmd_tx_read r ∧
      r.rx_log = w.rx_log ++ l ∧ (∀ b ∈ l, b = 0xff) ∧
      r.pipe_state.tx_slice_valid = true ∧ r.state.tx_read_slice.len ≤ r.pipe_state.tx_slice.len ∧
      r.state.tx_read_slice.len < 256 := by
    by_cases hl : w.state.params.len > 0
    · have hpos : 0 < w.pipe_state.rx_slice.len := by omega
      rw [execute_cmd_flash_burst_succ, if_pos hl, pipe_rx_acquire_ready w (hrv hl) hpos,
        if_pos (hrv hl), MIN_eq_right _ _ hle, Nat.mod_eq_of_lt h256]
      obtain ⟨l, hr⟩ := flash_burst_bytes_run (n + 1) w.state.params.len
        (flash_chunk_start w w.state.params.len) (Params.set_len_wf _ _ hwf)
      obtain ⟨t1, t2⟩ := flash_burst_bytes_tx (n + 1) w.state.params.len
        (flash_chunk_start w w.state.params.len)
      have hall : ∀ b ∈ l, b = 0xff := by
        intro b hb'
        rw [hr.in_order] at hb'
        exact hff b (List.mem_of_mem_take hb')
      obtain ⟨-, -, s3, -⟩ := hr.skipped hall
      have hst := hr.state
      generalize flash_burst_bytes (n + 1) w.state.params.len
        (flash_chunk_start w w.state.params.len) = r at hr t1 t2 s3 hst ⊢
      have hrs : r.status = .running := by rw [s3]; exact hs
      have hz : ¬ r.state.params.len > 0 := by
        rw [hst]
        simp [Params.len, Params.set_len, Params.set_addr, flash_chunk_start, World.set_params]
      rw [if_pos hrs, execute_cmd_flash_burst_succ, if_neg hz]
      have hrt : r.state.tx_read_slice = w.state.tx_read_slice := by rw [hst]; rfl
      refine ⟨r, l, rfl, hr.rx_log, hall, by rw [t2]; exact htv, ?_, ?_⟩
      · rw [hrt, t1, hts]
        show 2 - m ≤ w.pipe_state.tx_slice.len
        omega
      · rw [hrt, hts]; show 2 - m < 256; omega
    · rw [execute_cmd_flash_burst_succ, if_neg hl]
      refine ⟨w, [], rfl, by simp, by simp, htv, ?_, ?_⟩
      · rw [hts]
        show 2 - m ≤ w.pipe_state.tx_slice.len
        omega
      · rw [hts]; show 2 - m < 256; omega
  obtain ⟨r, l, e, hrx, hall, c1, c2, c3⟩ := key
  have hroom := execute_cmd_tx_read_room r c1 c2 c3
  have hfr := (execute_cmd_tx_read_loop_inert r.state.tx_read_slice.len r).1
  have hfr : TxFrame r (execute_cmd_tx_read r).1 := hfr
  rw [execute_pending_operation (n + 2) w _ hv hop]
  simp only [run_operation]
  rw [e, if_pos hroom]
  exact ⟨rfl, l, by
    show (execute_cmd_tx_read r).1.rx_log = _
    rw [hfr.rx_log, hrx], hall⟩

/-- C13. FLASH_BURST with start address `a` and length `L` over a payload of
bytes `0xff`, for every `a` and `L` below 65536 and every stored write
sequence.  On arrival of the header
the command is in progress with nothing consumed (first clause).  Every pass
of the pending-command block in which only bytes `0xff` are consumed keeps it
in progress, and when the pass reports completion the command is done: no
hardware operation was issued and no bus value consumed, the address is
`(a + L) mod 65536`, the remaining length is zero and the response was
exactly `0x00 0x00` (second clause).  The pipe functions keep it in progress
(third clause).  With the rest of the payload in the receive slice and room
in the transmit slice, one pass with fuel for two rounds does complete it
(fourth clause). -/
theorem flash_burst_all_ff (a L : Nat) (T0 : List Nat) (H0 : List HwOp) (B0 : Nat)
    (L0 : List Nat) (ha : a < 65536) (hL : L < 65536) :
    (∀ (w : World) (c : Nat), Arrived w c [a % 256, a / 256, L % 256, L / 256] →
      w.state.unlocked = true → c &&& CMD_MASK = CMD_FLASH_BURST →
      FlashFfProgress a L w.tx_log w.hw_log w.bus_reads
        (w.rx_log ++ [c, a % 256, a / 256, L % 256, L / 256]) (fetch_command w)) ∧
    (∀ (w : World) (fuel : Nat) (l : List Nat), FlashFfProgress a L T0 H0 B0 L0 w →
      (execute_pending fuel w).1.rx_log = w.rx_log ++ l → (∀ b ∈ l, b = 0xff) →
      ((execute_pending fuel w).2 = false →
        FlashFfProgress a L T0 H0 B0 L0 (execute_pending fuel w).1) ∧
      ((execute_pending fuel w).2 = true →
        FlashFfDone a L T0 H0 B0 L0 (execute_pending fuel w).1)) ∧
    (∀ w : World, FlashFfProgress a L T0 H0 B0 L0 w →
      FlashFfProgress a L T0 H0 B0 L0 (pipe_rx_acquire w) ∧
      FlashFfProgress a L T0 H0 B0 L0 (pipe_tx_acquire w) ∧
      FlashFfProgress a L T0 H0 B0 L0 (pipe_tx_flush w)) ∧
    (∀ (w : World) (n : Nat), FlashFfProgress a L T0 H0 B0 L0 w → w.status = .running →
      (0 < w.state.params.len → w.pipe_state.rx_slice_valid = true) →
      w.state.params.len ≤ w.pipe_state.rx_slice.len → w.state.params.len < 256 →
      (∀ b ∈ w.rx_peek w.state.params.len, b = 0xff) →
      w.pipe_state.tx_slice_valid = true → 2 ≤ w.pipe_state.tx_slice.len →
      (execute_pending (n + 2) w).2 = true ∧
      FlashFfDone a L T0 H0 B0 L0 (execute_pending (n + 2) w).1) := by
  refine ⟨?_, ?_, ?_, ?_⟩
  · intro w c harr hu hc
    have e1 : a % 256 + 256 * (a / 256) = a := by omega
    have e2 : L % 256 + 256 * (L / 256) = L := by omega
    have h := fetch_flash_burst_start (a % 256) (a / 256) (L % 256) (L / 256)
      (Nat.mod_lt _ (by omega)) (by omega) (Nat.mod_lt _ (by omega)) (by omega) w c harr hu hc
    rw [e1, e2] at h
    exact h
  · intro w fuel l h hl hff
    exact execute_pending_flash_ff fuel w l h hl hff
  · intro w h
    exact ⟨flash_ff_progress_pipe (pipe_rx_acquire_frame w) h,
      flash_ff_progress_pipe (pipe_tx_acquire_frame w) h,
      flash_ff_progress_pipe (pipe_tx_flush_frame w) h⟩
  · intro w n h hs hrv hle h256 hff htv htl
    obtain ⟨h1, l, h2, h3⟩ := flash_ff_live n w h hs hrv hle h256 hff htv htl
    exact ⟨h1, (execute_pending_flash_ff (n + 2) w l h h2 h3).2 h1⟩

theorem flash_burst_all_ff_witness :
    Arrived World.ff_sample 0x0b [0xfffe % 256, 0xfffe / 256, 3 % 256, 3 / 256] ∧
    (execute_pending 2 (fetch_command World.ff_sample)).2 = true ∧
    FlashFfDone 0xfffe 3 World.ff_sample.tx_log World.ff_sample.hw_log World.ff_sample.bus_reads
      (World.ff_sample.rx_log ++ [0x0b, 0xfffe % 256, 0xfffe / 256, 3 % 256, 3 / 256])
      (execute_pending 2 (fetch_command World.ff_sample)).1 ∧
    (execute_pending 2 (fetch_command World.ff_sample)).1.tx_log = [0, 0] ∧
    (execute_pending 2 (fetch_command World.ff_sample)).1.state.params.addr = 1 :=
  have h := flash_burst_all_ff 0xfffe 3 World.ff_sample.tx_log World.ff_sample.hw_log
    World.ff_sample.bus_reads
    (World.ff_sample.rx_log ++ [0x0b, 0xfffe % 256, 0xfffe / 256, 3 % 256, 3 / 256])
    (by decide) (by decide)
  have h1 := h.1 World.ff_sample 0x0b (by decide) (by decide) (by decide)
  have h2 := h.2.2.2 (fetch_command World.ff_sample) 0 h1 (by decide) (by decide) (by decide)
    (by decide) (by decide) (by decide) (by decide)
  ⟨by decide, h2.1, h2.2, by decide, by decide⟩

theorem replay_spec_length (seq : WriteSequence) : (replay_spec seq).length = seq.len := by
  simp [replay_spec]

theorem replay_spec_getElem (seq : WriteSequence) (j : Nat) (hj : j < seq.len) :
    (replay_spec seq)[j]? = some (replay_op seq j) := by
  simp [replay_spec, hj]

theorem SameUsbFlags.flags_refl (w : World) : SameUsbFlags w w := ⟨rfl, rfl⟩

theorem SameUsbFlags.flags_trans {a b c : World} (h1 : SameUsbFlags a b) (h2 : SameUsbFlags b c) :
    SameUsbFlags a c := ⟨h2.1.trans h1.1, h2.2.trans h1.2⟩

theorem SameUsbFlags.synced {w v : World} (h : SameUsbFlags w v) (hs : ActiveSynced w) :
    ActiveSynced v := by
  unfold ActiveSynced at hs ⊢
  rw [h.1, h.2]
  exact hs

theorem USB_SYNC_ACTIVE_FLAG_synced (w : World) : ActiveSynced (USB_SYNC_ACTIVE_FLAG w) := rfl

theorem pipe_reset_synced (w : World) : ActiveSynced (pipe_reset w) := rfl

theorem pipe_arm_rx_flags (w : World) : SameUsbFlags w (pipe_arm_rx w) := by
  unfold pipe_arm_rx
  by_cases h : w.bulk_out.cpu_odd = true <;> simp [h, SameUsbFlags]

theorem usb_config_deactivate_synced (w : World) : ActiveSynced (usb_config_deactivate w) := rfl

theorem usb_config_activate_synced (w : World) : ActiveSynced (usb_config_activate w) := by
  unfold usb_config_activate
  simp only []
  refine (SameUsbFlags.flags_trans ?_ (SameUsbFlags.flags_trans (pipe_arm_rx_flags _)
    (pipe_arm_rx_flags _))).synced (pipe_reset_synced
      (USB_SYNC_ACTIVE_FLAG { w with usb_state := { w.usb_state with configured := true } }))
  exact ⟨rfl, rfl⟩

theorem set_tx_statf_flags (w : World) (f : Nat) : SameUsbFlags w (w.set_tx_statf f) := ⟨rfl, rfl⟩

theorem set_data_len_flags (w : World) (n : Nat) : SameUsbFlags w (w.set_data_len n) := ⟨rfl, rfl⟩

theorem set_ep0_in_flags (w : World) (i v : Nat) : SameUsbFlags w (w.set_ep0_in i v) := ⟨rfl, rfl⟩

theorem ep0_in_fill_buffer_flags (w : World) : SameUsbFlags w (ep0_in_fill_buffer w).1 := by
  unfold ep0_in_fill_buffer
  simp only []
  split_ifs <;> exact ⟨rfl, rfl⟩

theorem set_tx_statf_usb_state (w : World) (f : Nat) :
    (w.set_tx_statf f).usb_state = w.usb_state ∧ (w.set_tx_statf f).pipe_state = w.pipe_state :=
  ⟨rfl, rfl⟩

theorem set_data_len_usb_state (w : World) (n : Nat) :
    (w.set_data_len n).usb_state = w.usb_state ∧ (w.set_data_len n).pipe_state = w.pipe_state :=
  ⟨rfl, rfl⟩

theorem set_ep0_in_usb_state (w : World) (i v : Nat) :
    (w.set_ep0_in i v).usb_state = w.usb_state ∧ (w.set_ep0_in i v).pipe_state = w.pipe_state :=
  ⟨rfl, rfl⟩

theorem synced_of_eq {w v : World} (h : ActiveSynced w) (h1 : v.usb_state = w.usb_state)
    (h2 : v.pipe_state = w.pipe_state) : ActiveSynced v := by
  unfold ActiveSynced at h ⊢
  rw [h1, h2]
  exact h

theorem set_tx_statf_synced {w : World} (f : Nat) (h : ActiveSynced w) :
    ActiveSynced (w.set_tx_statf f) := h

theorem set_ep0_in_synced {w : World} (i v : Nat) (h : ActiveSynced w) :
    ActiveSynced (w.set_ep0_in i v) := h

theorem set_data_len_synced {w : World} (n : Nat) (h : ActiveSynced w) :
    ActiveSynced (w.set_data_len n) := h

theorem ep0_handle_setup_eq (w : World) :
    ep0_handle_setup w = ep0_setup_arm (ep0_setup_request (ep0_setup_begin w)) := rfl

theorem ep0_setup_begin_flags (w : World) : SameUsbFlags w (ep0_setup_begin w) := ⟨rfl, rfl⟩

theorem ep0_setup_begin_setup (w : World) : (ep0_setup_begin w).ep0_setup = w.ep0_setup := rfl

theorem ep0_setup_arm_flags (w : World) : SameUsbFlags w (ep0_setup_arm w) := by
  unfold ep0_setup_arm
  simp only [apply_ite (SameUsbFlags w)]
  repeat' split
  · exact SameUsbFlags.flags_trans (set_data_len_flags w _) (ep0_in_fill_buffer_flags _)
  · exact ⟨rfl, rfl⟩
  · exact ⟨rfl, rfl⟩
  · exact ⟨rfl, rfl⟩

/-- The world and the flags `usb_service_ep0_get_descriptor` returns: the table
is selected and the flags ask for a ROM data stage exactly when the descriptor
exists. -/
theorem usb_service_ep0_get_descriptor_spec (w : World) :
    usb_service_ep0_get_descriptor w =
      match descriptor_spec w.ep0_setup.wValue with
      | none => (w, TX_STATF_NONE)
      | some obj =>
        (w.set_rom_source obj (if obj = .CONFIG_DESCRIPTOR then 75 else (w.rom obj).getD 0 0),
          TX_STATF_DIR_IN ||| TX_STATF_DATA_STAGE ||| TX_STATF_DATA_ROM) := by
  have e : (w.ep0_setup.wValue >>> 8) % 256 = w.ep0_setup.wValue / 256 % 256 := by
    rw [Nat.shiftRight_eq_div_pow]
  unfold usb_service_ep0_get_descriptor descriptor_spec
  simp only [e]
  generalize w.ep0_setup.wValue / 256 % 256 = t
  generalize w.ep0_setup.wValue % 256 = i
  by_cases h1 : t = USB_DESCRIPTOR_DEVICE
  · by_cases h2 : i = 0
    · simp [h1, h2, World.rom]
    · simp [h1, h2, USB_DESCRIPTOR_DEVICE, USB_DESCRIPTOR_CONFIGURATION, USB_DESCRIPTOR_STRING]
  · by_cases h3 : t = USB_DESCRIPTOR_CONFIGURATION
    · by_cases h2 : i = 0
      · simp [h3, h2, USB_DESCRIPTOR_DEVICE, USB_DESCRIPTOR_CONFIGURATION, CONFIG_DESCRIPTOR]
      · simp [h3, h2, USB_DESCRIPTOR_DEVICE, USB_DESCRIPTOR_CONFIGURATION, USB_DESCRIPTOR_STRING]
    · by_cases h4 : t = USB_DESCRIPTOR_STRING
      · by_cases h5 : i = 0
        · simp [h4, h5, USB_DESCRIPTOR_DEVICE, USB_DESCRIPTOR_CONFIGURATION,
            USB_DESCRIPTOR_STRING, World.rom]
        · by_cases h6 : i = 1
          · simp [h4, h6, USB_DESCRIPTOR_DEVICE, USB_DESCRIPTOR_CONFIGURATION,
              USB_DESCRIPTOR_STRING, World.rom]
          · by_cases h7 : i = 2
            · simp [h4, h7, USB_DESCRIPTOR_DEVICE, USB_DESCRIPTOR_CONFIGURATION,
                USB_DESCRIPTOR_STRING, World.rom]
            · simp [h4, h5, h6, h7, USB_DESCRIPTOR_DEVICE, USB_DESCRIPTOR_CONFIGURATION,
                USB_DESCRIPTOR_STRING]
      · simp [h1, h3, h4]

/-- The requests of the specification, in the order in which the code tests
for them: first the request code, then the direction and recipient, then the
state and the parameters. -/
theorem ep0_request_spec_nested (s : UsbSetupPacket) (c : Bool) :
    ep0_request_spec s c =
      if s.bmRequestType &&& 0b01100000 = 0b00000000 then
        if s.bRequest = GET_STATUS then
          if s.bmRequestType = 0x80 then some .get_status else none
        else if s.bRequest = GET_DESCRIPTOR then
          if s.bmRequestType = 0x80 then (descriptor_spec s.wValue).map .get_descriptor
          else none
        else if s.bRequest = SET_ADDRESS then
          if s.bmRequestType = 0x00 then some .set_address else none
        else if s.bRequest = GET_CONFIGURATION then
          if s.bmRequestType = 0x80 then some .get_configuration else none
        else if s.bRequest = SET_CONFIGURATION then
          if s.bmRequestType = 0x00 then
            if s.wValue = 0 then some (.set_configuration 0)
            else if s.wValue = 1 then some (.set_configuration 1)
            else none
          else none
        else if s.bRequest = GET_INTERFACE then
          if s.bmRequestType = 0x81 ∧ c = true then
            if s.wIndex = 0 ∨ s.wIndex = 1 then some .get_interface else none
          else none
        else if s.bRequest = SET_INTERFACE then
          if s.bmRequestType = 0x01 ∧ c = true then
            if s.wIndex = 0 ∨ s.wIndex = 1 then
              if s.wValue = 0 then some .set_interface else none
            else none
          else none
        else none
      else if s.bmRequestType &&& 0b01100000 = 0b00100000 ∧ c = true then
        if s.bRequest = CDC_SEND_ENCAPSULATED_COMMAND then
          if s.bmRequestType = 0x21 ∧ s.wIndex = 0 then some .send_encapsulated_command
          else none
        else if s.bRequest = CDC_GET_ENCAPSULATED_RESPONSE then
          if s.bmRequestType = 0xa1 ∧ s.wIndex = 0 then some .get_encapsulated_response
          else none
        else if s.bRequest = CDC_SET_LINE_CODING then
          if s.bmRequestType = 0x21 ∧ s.wIndex = 0 then some .set_line_coding else none
        else if s.bRequest = CDC_GET_LINE_CODING then
          if s.bmRequestType = 0xa1 ∧ s.wIndex = 0 then some .get_line_coding else none
        else if s.bRequest = CDC_SET_CONTROL_LINE_STATE then
          if s.bmRequestType = 0x21 ∧ s.wIndex = 0 then some .set_control_line_state else none
        else none
      else if s.bmRequestType &&& 0b01100000 = 0b01000000 then
        if s.bRequest = VENDOR_RESET then
          if s.bmRequestType = 0x40 then some .vendor_reset else none
        else if s.bRequest = VENDOR_IDENTIFY then
          if s.bmRequestType = 0xc0 then some .vendor_identify else none
        else none
      else none := by
  obtain ⟨t, b, v, i, l⟩ := s
  unfold ep0_request_spec
  simp only []
  generalize descriptor_spec v = d
  by_cases h0 : t &&& 0b01100000 = 0b00000000
  · simp only [h0, if_true]
    by_cases b0 : b = GET_STATUS
    · subst b0
      simp +decide
    by_cases b1 : b = GET_DESCRIPTOR
    · subst b1
      simp +decide
    by_cases b2 : b = SET_ADDRESS
    · subst b2
      simp +decide
    by_cases b3 : b = GET_CONFIGURATION
    · subst b3
      simp +decide
    by_cases b4 : b = SET_CONFIGURATION
    · subst b4
      simp +decide
      split_ifs <;> simp_all
    by_cases b5 : b = GET_INTERFACE
    · subst b5
      simp +decide
      split_ifs <;> simp_all
    by_cases b6 : b = SET_INTERFACE
    · subst b6
      simp +decide
      split_ifs <;> simp_all
    simp [b0, b1, b2, b3, b4, b5, b6]
  · by_cases h1 : t &&& 0b01100000 = 0b00100000
    · simp only [h1, if_true]
      rw [if_neg (by decide)]
      cases c
      · simp
      · simp only [and_self, true_and, if_true]
        by_cases b0 : b = CDC_SEND_ENCAPSULATED_COMMAND
        · subst b0
          simp +decide
          split_ifs <;> simp_all
        by_cases b1 : b = CDC_GET_ENCAPSULATED_RESPONSE
        · subst b1
          simp +decide
          split_ifs <;> simp_all
        by_cases b2 : b = CDC_SET_LINE_CODING
        · subst b2
          simp +decide
          split_ifs <;> simp_all
        by_cases b3 : b = CDC_GET_LINE_CODING
        · subst b3
          simp +decide
          split_ifs <;> simp_all
        by_cases b4 : b = CDC_SET_CONTROL_LINE_STATE
        · subst b4
          simp +decide
          split_ifs <;> simp_all
        simp [b0, b1, b2, b3, b4]
    · simp only [h0, h1, if_false, false_and]
      by_cases h2 : t &&& 0b01100000 = 0b01000000
      · simp only [h2, if_true]
        by_cases b0 : b = VENDOR_RESET
        · subst b0
          simp +decide
        by_cases b1 : b = VENDOR_IDENTIFY
        · subst b1
          simp +decide
        simp [b0, b1]
      · simp only [h2, if_false]

/-- The `switch` of `ep0_handle_setup` against the specification: it does what
section 4.1 says for the request the packet matches, and nothing for a packet
that matches none.  (The transfer flags are clear when the switch is
entered.) -/
theorem ep0_setup_request_eq (w : World) (hz : w.set_tx_statf TX_STATF_NONE = w) :
    ep0_setup_request w =
      ep0_effect w (ep0_request_spec w.ep0_setup w.usb_state.configured) := by
  rw [ep0_request_spec_nested]
  unfold ep0_setup_request ep0_standard_request ep0_class_request ep0_vendor_request
  rw [usb_service_ep0_get_descriptor_spec]
  cases hd : descriptor_spec w.ep0_setup.wValue with
  | none =>
    simp only [apply_ite (ep0_effect w), Option.map_none']
    rw [hz]
    rfl
  | some obj =>
    simp only [apply_ite (ep0_effect w), Option.map_some']
    rfl

theorem ep0_setup_begin_clear (w : World) :
    (ep0_setup_begin w).set_tx_statf TX_STATF_NONE = ep0_setup_begin w := rfl

/-- `ep0_handle_setup` against the specification: the first statements, what
section 4.1 says for the request the packet matches, and the arming of the
descriptors. -/
theorem ep0_handle_setup_spec (w : World) :
    ep0_handle_setup w =
      ep0_setup_arm (ep0_effect (ep0_setup_begin w)
        (ep0_request_spec w.ep0_setup w.usb_state.configured)) := by
  rw [ep0_handle_setup_eq, ep0_setup_request_eq _ (ep0_setup_begin_clear w)]
  rfl

theorem Ep0Request.effect_synced (r : Ep0Request) (w : World) (h : ActiveSynced w) :
    ActiveSynced (r.effect w) := by
  cases r with
  | get_status => exact synced_of_eq h rfl rfl
  | get_descriptor obj => exact synced_of_eq h rfl rfl
  | set_address => exact synced_of_eq h rfl rfl
  | get_configuration => exact synced_of_eq h rfl rfl
  | set_configuration value =>
    refine set_tx_statf_synced _ ?_
    split
    · exact usb_config_deactivate_synced w
    · exact usb_config_activate_synced w
  | get_interface => exact synced_of_eq h rfl rfl
  | set_interface => exact h
  | send_encapsulated_command => exact h
  | get_encapsulated_response => exact synced_of_eq h rfl rfl
  | set_line_coding => exact synced_of_eq h rfl rfl
  | get_line_coding => exact synced_of_eq h rfl rfl
  | set_control_line_state => exact set_tx_statf_synced _ (USB_SYNC_ACTIVE_FLAG_synced _)
  | vendor_reset => exact set_tx_statf_synced _ (USB_SYNC_ACTIVE_FLAG_synced _)
  | vendor_identify =>
    exact set_tx_statf_synced _ (set_ep0_in_synced _ _ (set_ep0_in_synced _ _
      (set_ep0_in_synced _ _ (set_ep0_in_synced _ _ (set_ep0_in_synced _ _
        (set_data_len_synced _ h))))))

theorem ep0_effect_synced (w : World) (o : Option Ep0Request) (h : ActiveSynced w) :
    ActiveSynced (ep0_effect w o) := by
  cases o with
  | none => exact h
  | some r => exact Ep0Request.effect_synced r w h

theorem ep0_handle_setup_synced (w : World) (h : ActiveSynced w) :
    ActiveSynced (ep0_handle_setup w) := by
  rw [ep0_handle_setup_spec]
  exact (ep0_setup_arm_flags _).synced
    (ep0_effect_synced _ _ ((ep0_setup_begin_flags w).synced h))

theorem synced_of_flags {w v : World} (h : ActiveSynced w)
    (ha : v.usb_state.active = w.usb_state.active)
    (hc : v.usb_state.configured = w.usb_state.configured)
    (hs : v.usb_state.suspended = w.usb_state.suspended)
    (hl : v.usb_state.line_state = w.usb_state.line_state)
    (hd : v.pipe_state.device_reset = w.pipe_state.device_reset) : ActiveSynced v := by
  unfold ActiveSynced at h ⊢
  rw [ha, hc, hs, hl, hd]
  exact h

theorem usb_reset_uie_world (m : Machine) : (usb_reset_uie m).world = m.world := by
  unfold usb_reset_uie
  cases m.world.usb_state.kind <;> rfl

theorem usb_reset_uie_regs (m : Machine) :
    (usb_reset_uie m).regs = { m.regs with UIE := (usb_reset_uie m).regs.UIE } := by
  unfold usb_reset_uie
  cases m.world.usb_state.kind <;> rfl

theorem usb_reset_synced (m : Machine) : ActiveSynced (usb_reset m).world := by
  unfold usb_reset
  simp only []
  rw [usb_reset_uie_world]
  rfl

theorem usb_switch_state_world (m : Machine) (t : UsbStateKind) :
    (usb_switch_state m t).world = { m.world with usb_state := { m.world.usb_state with kind := t } } := by
  unfold usb_switch_state
  simp only []
  rw [usb_reset_uie_world]
  cases t <;> rfl

theorem usb_switch_state_synced (m : Machine) (t : UsbStateKind) (h : ActiveSynced m.world) :
    ActiveSynced (usb_switch_state m t).world := by
  rw [usb_switch_state_world]
  exact h

theorem usb_detach_synced (m : Machine) : ActiveSynced (usb_detach m).world := rfl

theorem usb_suspend_synced (m : Machine) : ActiveSynced (usb_suspend m).world := rfl

theorem usb_resume_synced (m : Machine) : ActiveSynced (usb_resume m).world := rfl

theorem ep0_in_data_flags (w : World) : SameUsbFlags w (ep0_in_data w) := by
  unfold ep0_in_data
  simp only [apply_ite (SameUsbFlags w)]
  repeat' split
  · exact ⟨rfl, rfl⟩
  · exact SameUsbFlags.flags_trans (set_data_len_flags w _) (ep0_in_fill_buffer_flags _)
  · exact ⟨rfl, rfl⟩
  · exact ⟨rfl, rfl⟩

theorem ep0_in_transfer_flags (m : Machine) : SameUsbFlags m.world (ep0_in_transfer m).world := by
  unfold ep0_in_transfer
  simp only []
  by_cases h : m.world.ep0_state.set_addr = true
  · simp only [Machine.map, h, if_true]
    exact SameUsbFlags.flags_trans ⟨rfl, rfl⟩ (ep0_in_data_flags _)
  · simp only [Machine.map, h, if_false]
    exact SameUsbFlags.flags_trans ⟨rfl, rfl⟩ (ep0_in_data_flags _)

theorem ep0_out_process_buffer_flags (w : World) (len : Nat) :
    SameUsbFlags w (ep0_out_process_buffer w len) := by
  unfold ep0_out_process_buffer
  split <;> exact ⟨rfl, rfl⟩

theorem ep0_out_data_flags (w : World) : SameUsbFlags w (ep0_out_data w) := by
  unfold ep0_out_data
  simp only [apply_ite (SameUsbFlags w)]
  repeat' split
  · exact SameUsbFlags.flags_trans (ep0_out_process_buffer_flags w _) ⟨rfl, rfl⟩
  · exact SameUsbFlags.flags_trans (ep0_out_process_buffer_flags w _) ⟨rfl, rfl⟩
  · exact ⟨rfl, rfl⟩

theorem ep0_out_transfer_synced (m : Machine) (h : ActiveSynced m.world) :
    ActiveSynced (ep0_out_transfer m).world := by
  unfold ep0_out_transfer
  simp only []
  split
  · exact ep0_handle_setup_synced _ h
  · exact (ep0_out_data_flags _).synced h

theorem usb_isr_ep2_flags (w : World) (dir ppbi : Bool) : SameUsbFlags w (usb_isr_ep2 w dir ppbi) := by
  cases dir <;> exact ⟨rfl, rfl⟩

theorem usb_isr_transaction_synced (m : Machine) (stat : Ustat) (h : ActiveSynced m.world) :
    ActiveSynced (usb_isr_transaction m stat).world := by
  unfold usb_isr_transaction
  repeat' split
  · exact (ep0_in_transfer_flags m).synced h
  · exact ep0_out_transfer_synced m h
  · exact (usb_isr_ep2_flags _ _ _).synced h
  · exact h

theorem usb_isr_transactions_synced (n : Nat) (m : Machine) (h : ActiveSynced m.world) :
    ActiveSynced (usb_isr_transactions n m).world := by
  induction n generalizing m with
  | zero => exact h
  | succ n ih =>
    unfold usb_isr_transactions
    split
    · split
      · exact h
      · exact ih _ (usb_isr_transaction_synced _ _ h)
    · exact h

theorem usb_isr_kind_synced (m : Machine) (h : ActiveSynced m.world) :
    ActiveSynced (usb_isr_kind m).world := by
  unfold usb_isr_kind
  split
  · exact h
  · exact h
  · split
    · exact usb_switch_state_synced _ _ h
    · exact h
  · exact usb_isr_transactions_synced _ _ h

theorem usb_isr_awake_synced (m : Machine) (h : ActiveSynced m.world) :
    ActiveSynced (usb_isr_awake m).world := by
  unfold usb_isr_awake
  simp only []
  have h1 : ActiveSynced (if (m.regs.UIE.URSTIE && m.regs.URSTIF) = true then
      usb_reset (usb_switch_state m .USB_STATE_DEFAULT) else m).world := by
    split
    · exact usb_reset_synced _
    · exact h
  generalize (if (m.regs.UIE.URSTIE && m.regs.URSTIF) = true then
      usb_reset (usb_switch_state m .USB_STATE_DEFAULT) else m) = m1 at h1 ⊢
  have h2 := usb_isr_kind_synced m1 h1
  generalize usb_isr_kind m1 = m2 at h2 ⊢
  split
  · split
    · exact usb_suspend_synced _
    · exact h2
  · split
    · exact usb_suspend_synced _
    · exact h2

theorem usb_isr_synced (m : Machine) (h : ActiveSynced m.world) :
    ActiveSynced (usb_isr m).world := by
  unfold usb_isr
  split
  · split
    · exact usb_isr_awake_synced _ (usb_resume_synced m)
    · exact h
  · exact usb_isr_awake_synced _ h

theorem ep0_setup_request_line_state (w : World) (hc : w.usb_state.configured = true)
    (ht : w.ep0_setup.bmRequestType = 0x21)
    (hr : w.ep0_setup.bRequest = CDC_SET_CONTROL_LINE_STATE) (hi : w.ep0_setup.wIndex = 0) :
    ep0_setup_request w =
      (USB_SYNC_ACTIVE_FLAG { w with usb_state := { w.usb_state with
        line_state := (w.ep0_setup.wValue &&& (1 <<< 0)) != 0 } }).set_tx_statf TX_STATF_DIR_OUT := by
  unfold ep0_setup_request
  rw [ht, if_neg (by decide), if_pos ⟨by decide, hc⟩]
  unfold ep0_class_request
  simp only [ht, hr, hi]
  rw [if_neg (by decide), if_neg (by decide), if_neg (by decide), if_neg (by decide)]
  simp only [and_self, if_true]

theorem ep0_setup_request_vendor_reset (w : World) (ht : w.ep0_setup.bmRequestType = 0x40)
    (hr : w.ep0_setup.bRequest = VENDOR_RESET) :
    ep0_setup_request w =
      (USB_SYNC_ACTIVE_FLAG { w with pipe_state := { w.pipe_state with
        reset_magic := w.ep0_setup.wValue % 256, device_reset := true } }).set_tx_statf
          TX_STATF_DIR_OUT := by
  unfold ep0_setup_request
  rw [ht, if_neg (by decide), if_neg (fun h => absurd h.1 (by decide)), if_pos (by decide)]
  unfold ep0_vendor_request
  simp only [ht, hr, if_true]

theorem ep0_handle_setup_line_state (w : World) (hc : w.usb_state.configured = true)
    (ht : w.ep0_setup.bmRequestType = 0x21)
    (hr : w.ep0_setup.bRequest = CDC_SET_CONTROL_LINE_STATE) (hi : w.ep0_setup.wIndex = 0) :
    ActiveSynced (ep0_handle_setup w) ∧
    (ep0_handle_setup w).usb_state.line_state = ((w.ep0_setup.wValue &&& (1 <<< 0)) != 0) := by
  rw [ep0_handle_setup_eq, ep0_setup_request_line_state (ep0_setup_begin w) hc ht hr hi]
  refine ⟨(ep0_setup_arm_flags _).synced (set_tx_statf_synced _ (USB_SYNC_ACTIVE_FLAG_synced _)), ?_⟩
  rw [(ep0_setup_arm_flags _).1]
  rfl

theorem ep0_handle_setup_vendor_reset (w : World) (ht : w.ep0_setup.bmRequestType = 0x40)
    (hr : w.ep0_setup.bRequest = VENDOR_RESET) :
    ActiveSynced (ep0_handle_setup w) ∧
    (ep0_handle_setup w).pipe_state.device_reset = true ∧
    (ep0_handle_setup w).usb_state.active = false := by
  rw [ep0_handle_setup_eq, ep0_setup_request_vendor_reset (ep0_setup_begin w) ht hr]
  have hs := (ep0_setup_arm_flags ((USB_SYNC_ACTIVE_FLAG { ep0_setup_begin w with
    pipe_state := { (ep0_setup_begin w).pipe_state with
      reset_magic := (ep0_setup_begin w).ep0_setup.wValue % 256,
      device_reset := true } }).set_tx_statf TX_STATF_DIR_OUT))
  refine ⟨hs.synced (set_tx_statf_synced _ (USB_SYNC_ACTIVE_FLAG_synced _)), ?_, ?_⟩
  · rw [hs.2]
    rfl
  · rw [hs.1]
    show (_ && !true) = false
    simp

theorem Machine.default_sample_kind :
    Machine.default_sample.world.usb_state.kind = .USB_STATE_DEFAULT ∧
    Machine.default_sample.regs.UIE.TRNIE = true := by decide

theorem Machine.configured_sample_flags :
    Machine.configured_sample.world.usb_state.configured = true ∧
    Machine.configured_sample.regs.UADDR = 0x2a ∧
    Machine.configured_sample.world.usb_state.active = false := by decide

theorem Machine.active_sample_flags :
    Machine.active_sample.world.usb_state.active = true ∧
    Machine.active_sample.regs.fifo = [] := by decide

/-- C21.  The flag `usb_state.active` is never stored independently of the
flags it is computed from.  After `usb_reset`, `pipe_reset`, `usb_detach`,
`usb_suspend`, `usb_resume`, `usb_config_activate` and `usb_config_deactivate`,
from any state, `active` equals `configured && !suspended && line_state &&
!pipe_state.device_reset`; so it does after `ep0_handle_setup` for an accepted
SET_CONTROL_LINE_STATE (which stores bit 0 of `wValue` in `line_state`) and for
the vendor request RESET (which sets `device_reset`, so `active` is false).
`ep0_handle_setup` for any packet, and `usb_isr` as a whole for any registers
and any queue of completed transactions, keep the equation; it holds after
`usb_init`. -/
theorem active_flag_synced :
    (∀ m : Machine, ActiveSynced (usb_reset m).world) ∧
    (∀ w : World, ActiveSynced (pipe_reset w)) ∧
    (∀ m : Machine, ActiveSynced (usb_detach m).world) ∧
    (∀ m : Machine, ActiveSynced (usb_suspend m).world) ∧
    (∀ m : Machine, ActiveSynced (usb_resume m).world) ∧
    (∀ w : World, ActiveSynced (usb_config_activate w)) ∧
    (∀ w : World, ActiveSynced (usb_config_deactivate w)) ∧
    (∀ w : World, w.usb_state.configured = true → w.ep0_setup.bmRequestType = 0x21 →
      w.ep0_setup.bRequest = CDC_SET_CONTROL_LINE_STATE → w.ep0_setup.wIndex = 0 →
      ActiveSynced (ep0_handle_setup w) ∧
      (ep0_handle_setup w).usb_state.line_state = ((w.ep0_setup.wValue &&& (1 <<< 0)) != 0)) ∧
    (∀ w : World, w.ep0_setup.bmRequestType = 0x40 → w.ep0_setup.bRequest = VENDOR_RESET →
      ActiveSynced (ep0_handle_setup w) ∧
      (ep0_handle_setup w).pipe_state.device_reset = true ∧
      (ep0_handle_setup w).usb_state.active = false) ∧
    (∀ w : World, ActiveSynced w → ActiveSynced (ep0_handle_setup w)) ∧
    (∀ m : Machine, ActiveSynced m.world → ActiveSynced (usb_isr m).world) ∧
    (∀ m : Machine, ActiveSynced (usb_init m).world) :=
  ⟨usb_reset_synced, pipe_reset_synced, usb_detach_synced, usb_suspend_synced, usb_resume_synced,
    usb_config_activate_synced, usb_config_deactivate_synced, ep0_handle_setup_line_state,
    ep0_handle_setup_vendor_reset, ep0_handle_setup_synced, usb_isr_synced,
    fun _ => usb_detach_synced _⟩

/-- C21 at concrete inputs.  On the configured sample machine the SETUP packet
of SET_CONTROL_LINE_STATE with bit 0 set makes `active` true; on the active
sample machine the handler run for the vendor request RESET, and the handler
run for an idle bus, make it false again, and the equation holds after
each. -/
theorem active_flag_synced_witness :
    (ActiveSynced (ep0_handle_setup (sie_ep0 Machine.configured_sample
        (.setup [0x21, 0x22, 1, 0, 0, 0, 0, 0])).world) ∧
      (ep0_handle_setup (sie_ep0 Machine.configured_sample
        (.setup [0x21, 0x22, 1, 0, 0, 0, 0, 0])).world).usb_state.line_state =
        (((sie_ep0 Machine.configured_sample
          (.setup [0x21, 0x22, 1, 0, 0, 0, 0, 0])).world.ep0_setup.wValue &&& (1 <<< 0)) != 0)) ∧
    (ep0_handle_setup (sie_ep0 Machine.configured_sample
        (.setup [0x21, 0x22, 1, 0, 0, 0, 0, 0])).world).usb_state.active = true ∧
    ActiveSynced (usb_isr (sie_ep0 Machine.active_sample
        (.setup [0x40, 0x40, 0x5a, 0, 0, 0, 0, 0]))).world ∧
    (usb_isr (sie_ep0 Machine.active_sample
        (.setup [0x40, 0x40, 0x5a, 0, 0, 0, 0, 0]))).world.usb_state.active = false ∧
    ActiveSynced (usb_isr (sie_idle Machine.active_sample)).world ∧
    (usb_isr (sie_idle Machine.active_sample)).world.usb_state.suspended = true ∧
    (usb_isr (sie_idle Machine.active_sample)).world.usb_state.active = false :=
  ⟨active_flag_synced.2.2.2.2.2.2.2.1 _ (by decide) (by decide) (by decide) (by decide),
    by decide,
    active_flag_synced.2.2.2.2.2.2.2.2.2.2.1 _ (by decide), by decide,
    active_flag_synced.2.2.2.2.2.2.2.2.2.2.1 _ (by decide), by decide, by decide⟩

theorem usb_reset_world (m : Machine) : (usb_reset m).world = m.world.usb_reset := by
  unfold usb_reset
  simp only []
  rw [usb_reset_uie_world]
  simp [Machine.map, pipe_reset, USB_SYNC_ACTIVE_FLAG, World.usb_reset, UsbState.clear_flags,
    BufferDescriptors.reset]
  rfl

theorem usb_reset_regs (m : Machine) :
    (usb_reset m).regs =
      { m.regs.usb_reset with
        UIE := if m.world.usb_state.kind = .USB_STATE_DETACHED then UieBits.zero
          else { UieBits.zero with IDLEIE := true, TRNIE := true, UERRIE := true, URSTIE := true } } := by
  unfold usb_reset usb_reset_uie
  cases h : m.world.usb_state.kind <;> simp [Machine.map, pipe_reset, USB_SYNC_ACTIVE_FLAG, h,
    UsbRegs.usb_reset, UsbRegs.clear_UIR, UsbState.clear_flags]

theorem usb_isr_kind_idle (m : Machine) (hf : m.regs.fifo = []) (hk : m.world.usb_state.kind = .USB_STATE_DEFAULT) :
    usb_isr_kind m = m := by
  unfold usb_isr_kind
  rw [hk, hf]
  rfl

theorem usb_isr_awake_reset (m : Machine) (he : m.regs.UIE.URSTIE = true)
    (hf : m.regs.URSTIF = true) :
    usb_isr_awake m = usb_reset (usb_switch_state m .USB_STATE_DEFAULT) := by
  have hw := usb_reset_world (usb_switch_state m .USB_STATE_DEFAULT)
  have hr := usb_reset_regs (usb_switch_state m .USB_STATE_DEFAULT)
  rw [usb_switch_state_world] at hr
  unfold usb_isr_awake
  simp only [he, hf, Bool.and_self, if_true]
  generalize usb_reset (usb_switch_state m .USB_STATE_DEFAULT) = v at hw hr ⊢
  have hk : usb_isr_kind v = v := usb_isr_kind_idle v (by rw [hr]; rfl) (by rw [hw]; rfl)
  rw [hk]
  have h1 : v.regs.UERRIF = false := by rw [hr]; rfl
  have h2 : v.regs.IDLEIF = false := by rw [hr]; rfl
  simp [h1, h2]

theorem usb_resume_regs (m : Machine) :
    (usb_resume m).regs.UIE = m.regs.uie_save ∧ (usb_resume m).regs.URSTIF = m.regs.URSTIF ∧
    (usb_resume m).world.usb_state.kind = m.world.usb_state.kind := ⟨rfl, rfl, rfl⟩

theorem usb_isr_reset (m : Machine) (h : ResetHandled m) :
    (usb_isr m).world = (m.world.set_kind .USB_STATE_DEFAULT).usb_reset ∧
    (usb_isr m).regs.UADDR = 0 ∧ (usb_isr m).regs.fifo = [] ∧
    (usb_isr m).regs.UIE.URSTIE = true := by
  obtain ⟨hf, h | h⟩ := h
  · have e : usb_isr m = usb_reset (usb_switch_state m .USB_STATE_DEFAULT) := by
      unfold usb_isr
      rw [h.1]
      exact usb_isr_awake_reset m h.2 hf
    rw [e, usb_reset_world, usb_reset_regs, usb_switch_state_world]
    exact ⟨rfl, rfl, rfl, rfl⟩
  · have e : usb_isr m = usb_reset (usb_switch_state (usb_resume m) .USB_STATE_DEFAULT) := by
      unfold usb_isr
      rw [h.1]
      simp only [h.2.1, h.2.2.1, Bool.and_self, if_true]
      exact usb_isr_awake_reset (usb_resume m) h.2.2.2 hf
    rw [e, usb_reset_world, usb_reset_regs, usb_switch_state_world]
    exact ⟨rfl, rfl, rfl, rfl⟩

theorem usb_switch_state_urstie (m : Machine) (t : UsbStateKind) :
    (usb_switch_state m t).regs.UIE.URSTIE = decide (t ≠ .USB_STATE_DETACHED) := by
  unfold usb_switch_state
  simp only []
  unfold usb_reset_uie
  cases t <;> rfl

/-- C27, as the code has it.  A bus reset handled by `usb_isr`: the handler
gets to its test with `URSTIF` set and `URSTIE` enabled (not suspended, or
resumed by bus activity with the saved enable bit).  Then, whatever the
enumeration state and the rest of the machine were, the handler leaves
`kind = USB_STATE_DEFAULT`; the flags
`suspended`, `configured`, `line_state` and `active` false; the pipe flags
`device_reset`, `rx_slice_valid`, `tx_slice_valid` and `tx_need_zlp` false; the
toggle, parity and busy flags of both bulk directions zero; `ep0_state` zero;
`UADDR = 0`; the transaction queue empty; and the buffer descriptor table in
the state `BufferDescriptors.reset`, in which the eight descriptors in use are
stalled (`STAT = 0x8c`: `UOWN`, `DTSEN`, `BSTALL`) and the two placeholders for
the unused OUT direction of endpoint 1 are zero.  The enable bit `URSTIE` is
set by `usb_switch_state` for every state but DETACHED, where `UIE` is zero, so
that in DETACHED the signal does not get to the handler. -/
theorem bus_reset_handled (m : Machine) (h : ResetHandled m) :
    (usb_isr m).world.usb_state.kind = .USB_STATE_DEFAULT ∧
    ((usb_isr m).world.usb_state.suspended = false ∧
      (usb_isr m).world.usb_state.configured = false ∧
      (usb_isr m).world.usb_state.line_state = false ∧
      (usb_isr m).world.usb_state.active = false) ∧
    ((usb_isr m).world.pipe_state.device_reset = false ∧
      (usb_isr m).world.pipe_state.rx_slice_valid = false ∧
      (usb_isr m).world.pipe_state.tx_slice_valid = false ∧
      (usb_isr m).world.pipe_state.tx_need_zlp = false) ∧
    ((usb_isr m).world.bulk_in = BulkFlags.zero ∧ (usb_isr m).world.bulk_out = BulkFlags.zero) ∧
    (usb_isr m).world.ep0_state = Ep0State.zero ∧
    (usb_isr m).regs.UADDR = 0 ∧
    (usb_isr m).regs.fifo = [] ∧
    (usb_isr m).world.bds = BufferDescriptors.reset ∧
    (BufferDescriptors.reset.ep0_out = { STAT := 0x8c, BC_L := 64, ADR := ADDR_EP0_OUT_BUFFER } ∧
      BufferDescriptors.reset.ep0_in = { STAT := 0x8c, BC_L := 0, ADR := ADDR_EP0_IN_BUFFER } ∧
      BufferDescriptors.reset.ep1_in_even =
        { STAT := 0x8c, BC_L := 0, ADR := ADDR_EP1_IN_EVEN_BUFFER } ∧
      BufferDescriptors.reset.ep1_in_odd =
        { STAT := 0x8c, BC_L := 0, ADR := ADDR_EP1_IN_ODD_BUFFER } ∧
      BufferDescriptors.reset.ep2_out_even =
        { STAT := 0x8c, BC_L := 0, ADR := ADDR_EP2_OUT_EVEN_BUFFER } ∧
      BufferDescriptors.reset.ep2_out_odd =
        { STAT := 0x8c, BC_L := 0, ADR := ADDR_EP2_OUT_ODD_BUFFER } ∧
      BufferDescriptors.reset.ep2_in_even =
        { STAT := 0x8c, BC_L := 0, ADR := ADDR_EP2_IN_EVEN_BUFFER } ∧
      BufferDescriptors.reset.ep2_in_odd =
        { STAT := 0x8c, BC_L := 0, ADR := ADDR_EP2_IN_ODD_BUFFER } ∧
      BufferDescriptors.reset.ep1_out_even = BufferDescriptor.zero ∧
      BufferDescriptors.reset.ep1_out_odd = BufferDescriptor.zero ∧
      BufferDescriptor.stalled { STAT := 0x8c, BC_L := 0, ADR := 0 } = true) ∧
    (∀ (n : Machine) (t : UsbStateKind),
      (usb_switch_state n t).regs.UIE.URSTIE = decide (t ≠ .USB_STATE_DETACHED)) := by
  obtain ⟨hw, ha, hf, -⟩ := usb_isr_reset m h
  rw [hw]
  exact ⟨rfl, ⟨rfl, rfl, rfl, rfl⟩, ⟨rfl, rfl, rfl, rfl⟩, ⟨rfl, rfl⟩, rfl, ha, hf, rfl,
    by decide, usb_switch_state_urstie⟩

/-- C27 at concrete inputs: a bus reset on the active sample machine (DEFAULT,
address `0x2a`, configured, line state set) and on the machine just attached
(ATTACHED) both end in DEFAULT with address 0 and nothing configured. -/
theorem bus_reset_handled_witness :
    ResetHandled (sie_bus_reset Machine.active_sample) ∧
    Machine.active_sample.regs.UADDR = 0x2a ∧
    Machine.active_sample.world.usb_state.configured = true ∧
    (usb_isr (sie_bus_reset Machine.active_sample)).world.usb_state.kind = .USB_STATE_DEFAULT ∧
    (usb_isr (sie_bus_reset Machine.active_sample)).regs.UADDR = 0 ∧
    (usb_isr (sie_bus_reset Machine.active_sample)).world.usb_state.configured = false ∧
    ResetHandled (sie_bus_reset Machine.boot) ∧
    Machine.boot.world.usb_state.kind = .USB_STATE_ATTACHED ∧
    (usb_isr (sie_bus_reset Machine.boot)).world.usb_state.kind = .USB_STATE_DEFAULT :=
  have h := bus_reset_handled (sie_bus_reset Machine.active_sample) (by decide)
  have g := bus_reset_handled (sie_bus_reset Machine.boot) (by decide)
  ⟨by decide, by decide, by decide, h.1, h.2.2.2.2.2.1, h.2.1.2.1, by decide, by decide, g.1⟩

theorem main_step_leaves_active (fuel : Nat) (w : World) (hr : w.status = .running)
    (ha : w.usb_state.active = false) :
    main_step fuel .active w = (.sleeping, reset_state w) := by
  unfold main_step
  simp [hr, ha]

theorem reset_state_unlocked (w : World) : (reset_state w).state.unlocked = false := by
  unfold reset_state apply_cart_mode World.hw
  simp only []
  split <;> split <;> rfl

/-- C28, as the code has it.  The handler itself leaves the lock alone: when
`usb_isr` handles a bus reset, `state` (with `unlocked`) is what it was, and
`usb_state.active` is false.  The main loop then reacts: at the next test of
`while (usb_state.active)` it leaves the loop and runs `reset_state`, whose
first statement `state.global_flags = 0` clears `unlocked`.  So after the
reaction of the main loop the device is locked, whatever `unlocked` was before
the bus reset. -/
theorem bus_reset_then_main_locks (m : Machine) (fuel : Nat) (h : ResetHandled m)
    (hr : m.world.status = .running) :
    (usb_isr m).world.state = m.world.state ∧
    (usb_isr m).world.usb_state.active = false ∧
    main_step fuel .active (usb_isr m).world = (.sleeping, reset_state (usb_isr m).world) ∧
    (main_step fuel .active (usb_isr m).world).2.state.unlocked = false := by
  obtain ⟨hw, -⟩ := usb_isr_reset m h
  have hs : (usb_isr m).world.status = .running := by rw [hw]; exact hr
  have ha : (usb_isr m).world.usb_state.active = false := by rw [hw]; rfl
  have hm := main_step_leaves_active fuel _ hs ha
  refine ⟨by rw [hw]; rfl, ha, hm, ?_⟩
  rw [hm]
  exact reset_state_unlocked _

/-- C28 at a concrete input: the unlocked sample machine, a bus reset, one
step of the main loop from its active loop. -/
theorem bus_reset_then_main_locks_witness :
    ResetHandled (sie_bus_reset Machine.unlocked_sample) ∧
    (sie_bus_reset Machine.unlocked_sample).world.status = .running ∧
    (sie_bus_reset Machine.unlocked_sample).world.state.unlocked = true ∧
    (usb_isr (sie_bus_reset Machine.unlocked_sample)).world.state.unlocked = true ∧
    (main_step 8 .active (usb_isr (sie_bus_reset Machine.unlocked_sample)).world).1 = .sleeping ∧
    (main_step 8 .active
      (usb_isr (sie_bus_reset Machine.unlocked_sample)).world).2.state.unlocked = false :=
  have h := bus_reset_then_main_locks (sie_bus_reset Machine.unlocked_sample) 8 (by decide)
    (by decide)
  ⟨by decide, by decide, by decide, by rw [h.1]; decide, by rw [h.2.2.1], h.2.2.2⟩

/-- C28 refuted as written: on the active sample machine with `unlocked` set,
the handler runs for a bus reset and the main loop, in its active loop, takes
its next step.  The lock flag is true before the bus reset and after the
handler, and false once the main loop has left its active loop and run
`reset_state`; the main loop then goes on to its waiting loop with the flag
false. -/
theorem bus_reset_relocks_sample :
    Machine.unlocked_sample.world.state.unlocked = true ∧
    Machine.unlocked_sample.world.usb_state.active = true ∧
    (usb_isr (sie_bus_reset Machine.unlocked_sample)).world.state.unlocked = true ∧
    (usb_isr (sie_bus_reset Machine.unlocked_sample)).world.usb_state.active = false ∧
    (main_step 8 .active (usb_isr (sie_bus_reset Machine.unlocked_sample)).world).1 = .sleeping ∧
    (main_step 8 .active
      (usb_isr (sie_bus_reset Machine.unlocked_sample)).world).2.state.unlocked = false ∧
    (main_step 8 .sleeping (main_step 8 .active
      (usb_isr (sie_bus_reset Machine.unlocked_sample)).world).2).1 = .waiting ∧
    (main_step 8 .sleeping (main_step 8 .active
      (usb_isr (sie_bus_reset Machine.unlocked_sample)).world).2).2.state.unlocked = false := by
  decide

theorem UsbFrame.usb_refl (w : World) : UsbFrame w w := by
  constructor <;> rfl

theorem UsbFrame.usb_trans {a b c : World} (h1 : UsbFrame a b) (h2 : UsbFrame b c) :
    UsbFrame a c := by
  constructor
  · exact h2.state.trans h1.state
  · exact h2.flash_sequence.trans h1.flash_sequence
  · exact h2.status.trans h1.status
  · exact h2.reset_magic.trans h1.reset_magic
  · exact h2.hw_log.trans h1.hw_log
  · exact h2.rx_log.trans h1.rx_log
  · exact h2.tx_log.trans h1.tx_log
  · exact h2.bus_reads.trans h1.bus_reads

theorem USB_SYNC_ACTIVE_FLAG_usb (w : World) : UsbFrame w (USB_SYNC_ACTIVE_FLAG w) := by
  constructor <;> rfl

theorem pipe_reset_usb (w : World) : UsbFrame w (pipe_reset w) := by
  constructor <;> rfl

theorem pipe_arm_rx_usb (w : World) : UsbFrame w (pipe_arm_rx w) := by
  unfold pipe_arm_rx
  by_cases h : w.bulk_out.cpu_odd = true <;> simp only [h, if_true, if_false] <;>
    constructor <;> rfl

theorem usb_config_deactivate_usb (w : World) : UsbFrame w (usb_config_deactivate w) := by
  constructor <;> rfl

theorem usb_config_activate_usb (w : World) : UsbFrame w (usb_config_activate w) := by
  unfold usb_config_activate
  simp only []
  refine UsbFrame.usb_trans ?_ (UsbFrame.usb_trans (pipe_arm_rx_usb _) (pipe_arm_rx_usb _))
  constructor <;> rfl

theorem set_tx_statf_usb (w : World) (f : Nat) : UsbFrame w (w.set_tx_statf f) := by
  constructor <;> rfl

theorem set_data_len_usb (w : World) (n : Nat) : UsbFrame w (w.set_data_len n) := by
  constructor <;> rfl

theorem set_ep0_in_usb (w : World) (i v : Nat) : UsbFrame w (w.set_ep0_in i v) := by
  constructor <;> rfl

theorem ep0_in_fill_buffer_usb (w : World) : UsbFrame w (ep0_in_fill_buffer w).1 := by
  unfold ep0_in_fill_buffer
  simp only []
  split_ifs <;> constructor <;> rfl

theorem ep0_setup_begin_usb (w : World) : UsbFrame w (ep0_setup_begin w) := by
  constructor <;> rfl

theorem ep0_setup_arm_usb (w : World) : UsbFrame w (ep0_setup_arm w) := by
  unfold ep0_setup_arm
  simp only [apply_ite (UsbFrame w)]
  repeat' split
  · exact (set_data_len_usb w _).usb_trans
      ((ep0_in_fill_buffer_usb _).usb_trans (by constructor <;> rfl))
  · constructor <;> rfl
  · constructor <;> rfl
  · constructor <;> rfl

theorem Ep0Request.effect_usb (r : Ep0Request) (w : World) : UsbFrame w (r.effect w) := by
  cases r with
  | set_configuration value =>
    refine UsbFrame.usb_trans ?_ (set_tx_statf_usb _ _)
    split
    · exact usb_config_deactivate_usb w
    · exact usb_config_activate_usb w
  | vendor_identify =>
    exact (set_data_len_usb w 5).usb_trans ((set_ep0_in_usb _ _ _).usb_trans
      ((set_ep0_in_usb _ _ _).usb_trans ((set_ep0_in_usb _ _ _).usb_trans
        ((set_ep0_in_usb _ _ _).usb_trans ((set_ep0_in_usb _ _ _).usb_trans
          (set_tx_statf_usb _ _))))))
  | _ => constructor <;> rfl

theorem ep0_effect_usb (w : World) (o : Option Ep0Request) : UsbFrame w (ep0_effect w o) := by
  cases o with
  | none => exact UsbFrame.usb_refl w
  | some r => exact Ep0Request.effect_usb r w

theorem ep0_handle_setup_usb (w : World) : UsbFrame w (ep0_handle_setup w) := by
  rw [ep0_handle_setup_spec]
  exact (ep0_setup_begin_usb w).usb_trans ((ep0_effect_usb _ _).usb_trans (ep0_setup_arm_usb _))

theorem ep0_in_data_usb (w : World) : UsbFrame w (ep0_in_data w) := by
  unfold ep0_in_data
  simp only [apply_ite (UsbFrame w)]
  repeat' split
  · constructor <;> rfl
  · exact (set_data_len_usb w _).usb_trans
      ((ep0_in_fill_buffer_usb _).usb_trans (by constructor <;> rfl))
  · constructor <;> rfl
  · constructor <;> rfl

theorem ep0_in_transfer_usb (m : Machine) : UsbFrame m.world (ep0_in_transfer m).world := by
  unfold ep0_in_transfer
  simp only []
  by_cases h : m.world.ep0_state.set_addr = true
  · simp only [Machine.map, h, if_true]
    exact UsbFrame.usb_trans (by constructor <;> rfl) (ep0_in_data_usb _)
  · simp only [Machine.map, h, if_false]
    exact UsbFrame.usb_trans (by constructor <;> rfl) (ep0_in_data_usb _)

theorem ep0_out_process_buffer_usb (w : World) (len : Nat) :
    UsbFrame w (ep0_out_process_buffer w len) := by
  unfold ep0_out_process_buffer
  split <;> constructor <;> rfl

theorem ep0_out_data_usb (w : World) : UsbFrame w (ep0_out_data w) := by
  unfold ep0_out_data
  simp only [apply_ite (UsbFrame w)]
  repeat' split
  · exact (ep0_out_process_buffer_usb w _).usb_trans (by constructor <;> rfl)
  · exact (ep0_out_process_buffer_usb w _).usb_trans (by constructor <;> rfl)
  · constructor <;> rfl

theorem ep0_out_transfer_usb (m : Machine) : UsbFrame m.world (ep0_out_transfer m).world := by
  unfold ep0_out_transfer
  simp only []
  split
  · exact UsbFrame.usb_trans (by constructor <;> rfl) (ep0_handle_setup_usb _)
  · exact UsbFrame.usb_trans (by constructor <;> rfl) (ep0_out_data_usb _)

theorem usb_isr_ep2_usb (w : World) (dir ppbi : Bool) : UsbFrame w (usb_isr_ep2 w dir ppbi) := by
  cases dir <;> constructor <;> rfl

theorem usb_isr_transaction_usb (m : Machine) (stat : Ustat) :
    UsbFrame m.world (usb_isr_transaction m stat).world := by
  unfold usb_isr_transaction
  repeat' split
  · exact ep0_in_transfer_usb m
  · exact ep0_out_transfer_usb m
  · exact usb_isr_ep2_usb _ _ _
  · exact UsbFrame.usb_refl _

theorem usb_isr_transactions_usb (n : Nat) (m : Machine) :
    UsbFrame m.world (usb_isr_transactions n m).world := by
  induction n generalizing m with
  | zero => exact UsbFrame.usb_refl _
  | succ n ih =>
    unfold usb_isr_transactions
    split
    · split
      · exact UsbFrame.usb_refl _
      · rename_i stat rest _
        exact UsbFrame.usb_trans
          (usb_isr_transaction_usb { m with regs := { m.regs with fifo := rest } } stat) (ih _)
    · exact UsbFrame.usb_refl _

theorem usb_switch_state_usb (m : Machine) (t : UsbStateKind) :
    UsbFrame m.world (usb_switch_state m t).world := by
  rw [usb_switch_state_world]
  constructor <;> rfl

theorem usb_reset_usb (m : Machine) : UsbFrame m.world (usb_reset m).world := by
  rw [usb_reset_world]
  constructor <;> rfl

theorem usb_isr_kind_usb (m : Machine) : UsbFrame m.world (usb_isr_kind m).world := by
  unfold usb_isr_kind
  split
  · exact UsbFrame.usb_refl _
  · exact UsbFrame.usb_refl _
  · split
    · exact usb_switch_state_usb _ _
    · exact UsbFrame.usb_refl _
  · exact usb_isr_transactions_usb _ _

theorem usb_suspend_usb (m : Machine) : UsbFrame m.world (usb_suspend m).world := by
  constructor <;> rfl

theorem usb_resume_usb (m : Machine) : UsbFrame m.world (usb_resume m).world := by
  constructor <;> rfl

theorem usb_isr_awake_usb (m : Machine) : UsbFrame m.world (usb_isr_awake m).world := by
  unfold usb_isr_awake
  simp only []
  have h1 : UsbFrame m.world (if (m.regs.UIE.URSTIE && m.regs.URSTIF) = true then
      usb_reset (usb_switch_state m .USB_STATE_DEFAULT) else m).world := by
    split
    · exact (usb_switch_state_usb _ _).usb_trans (usb_reset_usb _)
    · exact UsbFrame.usb_refl _
  generalize (if (m.regs.UIE.URSTIE && m.regs.URSTIF) = true then
      usb_reset (usb_switch_state m .USB_STATE_DEFAULT) else m) = m1 at h1 ⊢
  have h2 := h1.usb_trans (usb_isr_kind_usb m1)
  generalize usb_isr_kind m1 = m2 at h2 ⊢
  split
  · split
    · exact h2.usb_trans (UsbFrame.usb_trans (by constructor <;> rfl) (usb_suspend_usb _))
    · exact h2.usb_trans (by constructor <;> rfl)
  · split
    · exact h2.usb_trans (usb_suspend_usb _)
    · exact h2

/-- The interrupt handler never touches the command state, the stored flash
write sequence, the persisted reset byte or the run status. -/
theorem usb_isr_usb (m : Machine) : UsbFrame m.world (usb_isr m).world := by
  unfold usb_isr
  split
  · split
    · exact (usb_resume_usb m).usb_trans (usb_isr_awake_usb _)
    · exact UsbFrame.usb_refl _
  · exact usb_isr_awake_usb _

/-- RESET on arrival while unlocked: the command is taken, the magic byte is
in the parameter union, and nothing else has happened. -/
theorem fetch_reset (w : World) (c magic : Nat) (ha : Arrived w c [magic])
    (hu : w.state.unlocked = true) (hc : c &&& CMD_MASK = CMD_RESET) :
    (fetch_command w).state.header_valid = true ∧
    (fetch_command w).state.cmd = CMD_RESET ∧
    (fetch_command w).state.params.b0 = magic ∧
    FetchFrame w (fetch_command w) := by
  have ht : total_header_len c w.state.unlocked = ([magic] : List Nat).length := by
    rw [hu]
    have := total_header_len_nonneg_of_table c true 1 (by rw [hc]; rfl)
    simpa using this
  obtain ⟨u, hf, hst, -, -, -, -, -, -, -, hfr⟩ := fetch_arrived w c [magic] ha ht (by simp)
  have hcmd : u.state.cmd &&& CMD_MASK = CMD_RESET := by
    rw [hst]; exact hc
  have hb := ha.2.2.2.2.2
  have hh0 : u.hdr 0 = magic := by
    rw [hdr_congr u _ hst 0]; exact with_header_hdr w c [magic] 0 hb (by simp) (by simp)
  have hucmd : u.state.cmd = c := by rw [hst]; rfl
  have hfr2 := hfr.fetch_trans (dispatch_header_frame u)
  rw [← hf] at hfr2
  refine ⟨?_, ?_, ?_, hfr2⟩
  · rw [hf, dispatch_header_reset u hcmd]
    simp [mask, World.set_params, hst, World.with_header]
  · rw [hf, dispatch_header_reset u hcmd]
    simp only [mask, World.set_params]; rw [hucmd]; exact hc
  · rw [hf, dispatch_header_reset u hcmd, hh0]
    simp only [mask, World.set_params]

/-- The bulk command RESET is executed at once: the pending-command block of
`execute_commands` calls `reset_device` with the header byte. -/
theorem execute_pending_reset (fuel : Nat) (w : World) (c magic : Nat) (ha : Arrived w c [magic])
    (hu : w.state.unlocked = true) (hc : c &&& CMD_MASK = CMD_RESET) :
    execute_pending fuel (fetch_command w) = (reset_device (fetch_command w) magic, false) := by
  obtain ⟨hv, hcmd, hm, -⟩ := fetch_reset w c magic ha hu hc
  have ho : select_operation (fetch_command w).state.cmd = .reset := by rw [hcmd]; rfl
  rw [execute_pending_operation fuel _ .reset hv ho]
  simp only [run_operation, hm]
  rfl

theorem execute_commands_reset (fuel : Nat) (w : World) (c magic : Nat) (ha : Arrived w c [magic])
    (hu : w.state.unlocked = true) (hc : c &&& CMD_MASK = CMD_RESET) :
    execute_commands (fuel + 2) w = reset_device (fetch_command w) magic := by
  obtain ⟨hv, -, -, -⟩ := fetch_reset w c magic ha hu hc
  have h0 : execute_pending (fuel + 1) w = (w, true) := by
    unfold execute_pending
    rw [ha.2.1]
    rfl
  have h1 := execute_pending_reset fuel w c magic ha hu hc
  rw [execute_commands, h0]
  simp only [hv, if_true]
  rw [execute_commands, h1]

theorem main_step_active_reset (fuel : Nat) (w : World) (c magic : Nat) (ha : Arrived w c [magic])
    (hu : w.state.unlocked = true) (hc : c &&& CMD_MASK = CMD_RESET)
    (hr : w.status = .running) (hact : w.usb_state.active = true) :
    main_step (fuel + 2) .active w = (.active, reset_device (fetch_command w) magic) := by
  unfold main_step
  simp only [hr, hact, ne_eq, not_true_eq_false, if_false, if_true]
  unfold main_active_body
  rw [execute_commands_reset fuel w c magic ha hu hc]
  simp [reset_device]

theorem main_step_sleeping (fuel : Nat) (w : World) (hr : w.status = .running)
    (hs : w.usb_state.suspended = false) : main_step fuel .sleeping w = (.waiting, w) := by
  unfold main_step
  simp [hr, hs]

theorem main_step_waiting (fuel : Nat) (w : World) (hr : w.status = .running)
    (ha : w.usb_state.active = false) :
    main_step fuel .waiting w =
      (.waiting, if w.pipe_state.device_reset then reset_device w w.pipe_state.reset_magic else w) := by
  unfold main_step main_wait_body
  simp [hr, ha]

theorem reset_state_pipe (w : World) :
    (reset_state w).pipe_state.device_reset = w.pipe_state.device_reset ∧
    (reset_state w).pipe_state.reset_magic = w.pipe_state.reset_magic ∧
    (reset_state w).usb_state = w.usb_state ∧ (reset_state w).status = w.status ∧
    (reset_state w).reset_magic = w.reset_magic ∧
    (reset_state w).flash_sequence = w.flash_sequence := by
  unfold reset_state apply_cart_mode World.hw
  simp only []
  split <;> split <;> exact ⟨rfl, rfl, rfl, rfl, rfl, rfl⟩

theorem ep0_setup_arm_pipe (w : World) : (ep0_setup_arm w).pipe_state = w.pipe_state := by
  unfold ep0_setup_arm ep0_in_fill_buffer ep0_stall
  simp only [apply_ite World.pipe_state]
  repeat' split
  all_goals rfl

/-- C30, as the code has it.  Only the vendor request RESET is deferred.
`ep0_handle_setup` for it records the low byte of `wValue` as the magic byte,
sets `device_reset` and so makes `active` false, and neither resets nor writes
the persisted reset byte.  The main loop, once it finds `active` false, leaves
its active loop through `reset_state` (which keeps the pending reset), and in
its waiting loop calls `reset_device` with the recorded byte; with no reset
pending the waiting loop resets nothing.  The bulk command RESET is not
deferred: `fetch_command` takes it without any effect outside the command
state, and the pending-command block of `execute_commands` calls
`reset_device` with the header byte at once, inside the active loop, with
`device_reset` and `active` as they were. -/
theorem device_reset_staging (fuel : Nat) :
    (∀ w : World, w.ep0_setup.bmRequestType = 0x40 → w.ep0_setup.bRequest = VENDOR_RESET →
      (ep0_handle_setup w).pipe_state.reset_magic = w.ep0_setup.wValue % 256 ∧
      (ep0_handle_setup w).pipe_state.device_reset = true ∧
      (ep0_handle_setup w).usb_state.active = false ∧
      (ep0_handle_setup w).status = w.status ∧
      (ep0_handle_setup w).reset_magic = w.reset_magic) ∧
    (∀ w : World, w.status = .running → w.usb_state.active = false →
      main_step fuel .active w = (.sleeping, reset_state w) ∧
      (reset_state w).status = .running ∧
      (reset_state w).usb_state = w.usb_state ∧
      (reset_state w).pipe_state.device_reset = w.pipe_state.device_reset ∧
      (reset_state w).pipe_state.reset_magic = w.pipe_state.reset_magic ∧
      (reset_state w).reset_magic = w.reset_magic) ∧
    (∀ w : World, w.status = .running → w.usb_state.suspended = false →
      main_step fuel .sleeping w = (.waiting, w)) ∧
    (∀ w : World, w.status = .running → w.usb_state.active = false →
      w.pipe_state.device_reset = true →
      main_step fuel .waiting w = (.waiting, reset_device w w.pipe_state.reset_magic) ∧
      (reset_device w w.pipe_state.reset_magic).status = .reset ∧
      (reset_device w w.pipe_state.reset_magic).reset_magic = w.pipe_state.reset_magic % 256) ∧
    (∀ w : World, w.status = .running → w.usb_state.active = false →
      w.pipe_state.device_reset = false → main_step fuel .waiting w = (.waiting, w)) ∧
    (∀ (w : World) (c magic : Nat), Arrived w c [magic] → w.state.unlocked = true →
      c &&& CMD_MASK = CMD_RESET →
      (fetch_command w).status = w.status ∧
      (fetch_command w).reset_magic = w.reset_magic ∧
      execute_pending fuel (fetch_command w) = (reset_device (fetch_command w) magic, false) ∧
      (reset_device (fetch_command w) magic).status = .reset ∧
      (reset_device (fetch_command w) magic).reset_magic = magic % 256 ∧
      (reset_device (fetch_command w) magic).pipe_state.device_reset =
        w.pipe_state.device_reset ∧
      (reset_device (fetch_command w) magic).usb_state = w.usb_state ∧
      (w.status = .running → w.usb_state.active = true →
        main_step (fuel + 2) .active w = (.active, reset_device (fetch_command w) magic))) := by
  refine ⟨?_, ?_, ?_, ?_, ?_, ?_⟩
  · intro w ht hr
    obtain ⟨-, hd, ha⟩ := ep0_handle_setup_vendor_reset w ht hr
    have hu := ep0_handle_setup_usb w
    refine ⟨?_, hd, ha, hu.status, hu.reset_magic⟩
    rw [ep0_handle_setup_eq, ep0_setup_request_vendor_reset (ep0_setup_begin w) ht hr]
    rw [ep0_setup_arm_pipe]
    rfl
  · intro w hr ha
    obtain ⟨h1, h2, h3, h4, h5, -⟩ := reset_state_pipe w
    exact ⟨main_step_leaves_active fuel w hr ha, h4.trans hr, h3, h1, h2, h5⟩
  · intro w hr hs
    exact main_step_sleeping fuel w hr hs
  · intro w hr ha hd
    have h := main_step_waiting fuel w hr ha
    rw [hd] at h
    exact ⟨h, rfl, rfl⟩
  · intro w hr ha hd
    have h := main_step_waiting fuel w hr ha
    rw [hd] at h
    exact h
  · intro w c magic ha hu hc
    obtain ⟨-, -, -, hf⟩ := fetch_reset w c magic ha hu hc
    exact ⟨hf.status, hf.reset_magic, execute_pending_reset fuel w c magic ha hu hc, rfl, rfl,
      hf.device_reset, hf.usb_state,
      fun hr hact => main_step_active_reset fuel w c magic ha hu hc hr hact⟩

/-- C30 at concrete inputs.  The vendor request RESET with magic `0x5a` on the
active sample machine stages the reset; the main loop leaves its active loop,
passes its sleeping loop and resets in its waiting loop with the persisted
byte `0x5a`.  The bulk command RESET with magic `0x5a` resets within the
pending-command block. -/
theorem device_reset_staging_witness :
    (ep0_handle_setup World.vendor_reset_sample).pipe_state.reset_magic = 0x5a ∧
    (ep0_handle_setup World.vendor_reset_sample).pipe_state.device_reset = true ∧
    (ep0_handle_setup World.vendor_reset_sample).status = .running ∧
    (main_step 8 .active (ep0_handle_setup World.vendor_reset_sample)).1 = .sleeping ∧
    (main_step 8 .waiting (reset_state (ep0_handle_setup World.vendor_reset_sample))).2.status =
      .reset ∧
    (main_step 8 .waiting
      (reset_state (ep0_handle_setup World.vendor_reset_sample))).2.reset_magic = 0x5a ∧
    Arrived World.reset_sample 0x1e [0x5a] ∧
    (execute_pending 8 (fetch_command World.reset_sample)).1.status = .reset :=
  have h := device_reset_staging 8
  have h1 := h.1 World.vendor_reset_sample (by decide) (by decide)
  have h2 := h.2.1 (ep0_handle_setup World.vendor_reset_sample) (by decide) h1.2.2.1
  have h3 := h.2.2.2.1 (reset_state (ep0_handle_setup World.vendor_reset_sample)) h2.2.1
    (by rw [h2.2.2.1]; exact h1.2.2.1) (by rw [h2.2.2.2.1]; exact h1.2.1)
  have h4 := h.2.2.2.2.2 World.reset_sample 0x1e 0x5a (by decide) (by decide) (by decide)
  ⟨by rw [h1.1]; decide, h1.2.1, by decide, by rw [h2.1], by rw [h3.1]; exact h3.2.1,
    by rw [h3.1, h3.2.2, h2.2.2.2.2.1, h1.1]; decide, by decide, by rw [h4.2.2.1]; exact h4.2.2.2.1⟩

/-- C30 refuted as written: on the active sample machine with the lock open,
the bulk packet `1e 5a` (RESET with magic `0x5a`) arrives.  One round of the
active loop of `main` resets the device with the persisted byte `0x5a`; no
reset was marked pending, `active` is still true and the main loop has not
left its active loop. -/
theorem bulk_reset_is_immediate :
    World.reset_sample.usb_state.active = true ∧
    World.reset_sample.status = .running ∧
    (main_step 8 .active World.reset_sample).1 = .active ∧
    (main_step 8 .active World.reset_sample).2.status = .reset ∧
    (main_step 8 .active World.reset_sample).2.reset_magic = 0x5a ∧
    (main_step 8 .active World.reset_sample).2.pipe_state.device_reset = false ∧
    (main_step 8 .active World.reset_sample).2.usb_state.active = true := by
  decide

/-! ### The stored flash write sequence through the execution of a command -/

theorem tx_put_flash (w : World) (src : List Nat) :
    (w.tx_put src).flash_sequence = w.flash_sequence := (tx_put_frame w src).flash_sequence

theorem bus_read_to_tx_flash (w : World) (op : HwOp) :
    (bus_read_to_tx w op).flash_sequence = w.flash_sequence := by
  unfold bus_read_to_tx
  simp only [tx_put_flash]
  rfl

theorem poll_flash_data_flash (fuel : Nat) (w : World) (addr : Nat) (e : Bool) :
    (poll_flash_data fuel w addr e).1.flash_sequence = w.flash_sequence := by
  obtain ⟨j, hj⟩ := poll_flash_data_frame fuel w addr e
  rw [hj]

theorem execute_cmd_read_flash (w : World) :
    (execute_cmd_read w).1.flash_sequence = w.flash_sequence := by
  have h := (pipe_tx_acquire_frame w).flash_sequence
  unfold execute_cmd_read
  simp only []
  split
  · rw [h]
  · split <;> simp only [bus_read_to_tx_flash, h]

theorem READ_BURST_FAST_flash (n : Nat) (w : World) (a : Nat) :
    (READ_BURST_FAST n w a).flash_sequence = w.flash_sequence := by
  induction n generalizing w a with
  | zero => rfl
  | succ n ih =>
    unfold READ_BURST_FAST
    rw [ih, bus_read_to_tx_flash]

theorem READ_BURST_flash (g : Gate) (n : Nat) (w : World) :
    (READ_BURST g n w).flash_sequence = w.flash_sequence := by
  induction n generalizing w with
  | zero => rfl
  | succ n ih =>
    unfold READ_BURST
    simp only []
    rw [ih]
    simp only [World.set_params, bus_read_to_tx_flash]

theorem execute_cmd_read_burst_loop_flash (n : Nat) (w : World) :
    (execute_cmd_read_burst_loop n w).1.flash_sequence = w.flash_sequence := by
  induction n generalizing w with
  | zero => rfl
  | succ n ih =>
    have h := (pipe_tx_acquire_frame w).flash_sequence
    unfold execute_cmd_read_burst_loop
    simp only []
    split
    · split
      · rw [h]
      · rw [ih]
        split
        · split <;>
            simp only [World.hw, World.set_params, READ_BURST_FAST_flash, h]
        · split <;> simp only [READ_BURST_flash, World.set_params, h]
    · rfl

theorem execute_cmd_write_flash (w : World) :
    (execute_cmd_write w).flash_sequence = w.flash_sequence := by
  unfold execute_cmd_write
  simp only [World.hw]
  split <;> split <;> rfl

theorem write_burst_bytes_flash (g : Gate) (s : Strobe) (n : Nat) (w : World) :
    (write_burst_bytes g s n w).flash_sequence = w.flash_sequence := by
  induction n generalizing w with
  | zero => rfl
  | succ n ih =>
    unfold write_burst_bytes
    simp only []
    rw [ih]
    rfl

theorem execute_cmd_write_burst_flash (fuel : Nat) (w : World) :
    (execute_cmd_write_burst fuel w).1.flash_sequence = w.flash_sequence := by
  induction fuel generalizing w with
  | zero => rfl
  | succ n ih =>
    have h := (pipe_rx_acquire_frame w).flash_sequence
    unfold execute_cmd_write_burst
    simp only []
    split
    · split
      · rw [h]
      · rw [ih]
        simp only [World.hw]
        split <;> split <;> simp only [write_burst_bytes_flash, World.set_params, World.hw, h]
    · rfl

theorem execute_cmd_poll_flash_data_flash (fuel : Nat) (w : World) :
    (execute_cmd_poll_flash_data fuel w).1.flash_sequence = w.flash_sequence := by
  have h := (pipe_tx_acquire_frame w).flash_sequence
  unfold execute_cmd_poll_flash_data
  simp only []
  split
  · rw [h]
  · have hp := poll_flash_data_flash fuel (pipe_tx_acquire w)
      (pipe_tx_acquire w).state.params.poll_addr (get_bit (pipe_tx_acquire w).state.params.b2 7)
    split
    · rename_i w2 heq
      rw [heq] at hp
      simp only at hp
      rw [hp, h]
    · rename_i w2 d heq
      rw [heq] at hp
      simp only at hp
      simp only [tx_put_flash]
      rw [hp, h]

theorem replay_sequence_flash (w : World) :
    (replay_sequence w).flash_sequence = w.flash_sequence := by
  obtain ⟨h, o, e⟩ := replay_fold_frame (List.range w.flash_sequence.len) w
  unfold replay_sequence
  rw [e]

theorem flash_burst_bytes_flash (fuel n : Nat) (w : World) :
    (flash_burst_bytes fuel n w).flash_sequence = w.flash_sequence := by
  induction n generalizing w with
  | zero => rfl
  | succ n ih =>
    unfold flash_burst_bytes
    simp only []
    split
    · split
      · rename_i w2 heq
        have hp := congrArg (fun r => r.1.flash_sequence) heq
        simp only [poll_flash_data_flash] at hp
        rw [← hp]
        split <;> simp only [World.hw, World.set_params, replay_sequence_flash]
        all_goals rfl
      · rename_i w2 d heq
        have hp := congrArg (fun r => r.1.flash_sequence) heq
        simp only [poll_flash_data_flash] at hp
        rw [ih, ← hp]
        split <;> simp only [World.hw, World.set_params, replay_sequence_flash]
        all_goals rfl
    · rw [ih]
      rfl

theorem execute_cmd_tx_read_loop_flash (n : Nat) (w : World) :
    (execute_cmd_tx_read_loop n w).1.flash_sequence = w.flash_sequence := by
  induction n generalizing w with
  | zero => rfl
  | succ n ih =>
    have h := (pipe_tx_acquire_frame w).flash_sequence
    unfold execute_cmd_tx_read_loop
    simp only []
    split
    · split
      · rw [h]
      · rw [ih, (tx_read_copy_frame _ _).flash_sequence, h]
    · rfl

theorem execute_cmd_flash_burst_flash (fuel : Nat) (w : World) :
    (execute_cmd_flash_burst fuel w).1.flash_sequence = w.flash_sequence := by
  induction fuel generalizing w with
  | zero => rfl
  | succ n ih =>
    have h := (pipe_rx_acquire_frame w).flash_sequence
    unfold execute_cmd_flash_burst
    simp only []
    split
    · split
      · rw [h]
      · split
        · simp only [flash_burst_bytes_flash, World.set_params, h]
        · rw [ih]
          simp only [flash_burst_bytes_flash, World.set_params, h]
    · exact execute_cmd_tx_read_loop_flash _ w

/-- Running a command other than SET_FLASH_WRITE_SEQUENCE never changes the
stored flash write sequence. -/
theorem run_operation_flash (fuel : Nat) (w : World) (op : Operation)
    (ho : op ≠ .set_flash_write_sequence) :
    (run_operation fuel w op).1.flash_sequence = w.flash_sequence := by
  cases op with
  | tx_read => exact execute_cmd_tx_read_loop_flash _ w
  | set_mode =>
    simp only [run_operation, apply_cart_mode, World.hw]
    split <;> split <;> rfl
  | read => exact execute_cmd_read_flash w
  | read_burst => exact execute_cmd_read_burst_loop_flash _ w
  | write => simp only [run_operation, execute_cmd_write_flash]
  | write_burst => exact execute_cmd_write_burst_flash fuel w
  | poll_flash_data => exact execute_cmd_poll_flash_data_flash fuel w
  | set_flash_write_sequence => exact absurd rfl ho
  | flash_burst => exact execute_cmd_flash_burst_flash fuel w
  | reset => rfl
  | nop => rfl

theorem execute_pending_flash (fuel : Nat) (w : World)
    (ho : select_operation w.state.cmd ≠ .set_flash_write_sequence) :
    (execute_pending fuel w).1.flash_sequence = w.flash_sequence := by
  have h := run_operation_flash fuel w (select_operation w.state.cmd) ho
  unfold execute_pending execute_command
  split
  · split
    · rename_i w2 heq
      rw [heq] at h
      exact h
    · rename_i w2 heq
      rw [heq] at h
      exact h
  · rfl

theorem select_operation_sfws (c : Nat) :
    select_operation c = .set_flash_write_sequence ↔ c = CMD_SET_FLASH_WRITE_SEQUENCE := by
  constructor
  · intro h
    by_contra hc
    unfold select_operation at h
    rw [if_neg hc] at h
    revert h
    repeat' split
    all_goals exact fun h => Operation.noConfusion h
  · intro h
    subst h
    rfl

theorem fetch_header_flash (x : World)
    (h : (fetch_header x).state.cmd &&& CMD_MASK ≠ CMD_SET_FLASH_WRITE_SEQUENCE) :
    (fetch_header x).flash_sequence = x.flash_sequence := by
  rcases fetch_header_split x with ⟨-, h2, -⟩ | ⟨-, heq⟩
  · exact h2
  · rw [heq] at h ⊢
    rcases dispatch_header_cmd ((copy_header x (header_needed_bytes x)).set_header_valid true)
      with ⟨hc, -, -⟩ | ⟨-, -, -, -, hf, -⟩
    · rw [hc, land_mask_idem] at h
      rw [dispatch_header_flash _ h]
      rfl
    · rw [hf]
      rfl

/-- `fetch_command` changes the stored flash write sequence only when the
command it fetches is SET_FLASH_WRITE_SEQUENCE. -/
theorem fetch_command_flash (w : World)
    (h : (fetch_command w).state.cmd &&& CMD_MASK ≠ CMD_SET_FLASH_WRITE_SEQUENCE) :
    (fetch_command w).flash_sequence = w.flash_sequence := by
  have hp := (pipe_rx_acquire_frame w).flash_sequence
  rw [fetch_command_eq] at h ⊢
  split
  · split
    · rename_i h1 h2
      rw [if_pos h1, if_pos h2] at h
      rw [fetch_header_flash _ h]
      exact hp
    · rename_i h1 h2
      rw [if_pos h1, if_neg h2] at h
      rw [fetch_header_flash _ h]
      exact hp
  · exact hp

/-- C29.  The stored flash write sequence, length and records, is changed by
SET_FLASH_WRITE_SEQUENCE only.  `usb_reset`, `pipe_reset` and `reset_state`
leave it as it is, and so do the interrupt handler `usb_isr` as a whole and
the pipe functions.  `fetch_command` leaves it as it is unless the command it
fetches is SET_FLASH_WRITE_SEQUENCE, and even then it leaves the records as
they are (it stores the length).  The pending-command block of
`execute_commands` leaves it as it is for every command whose operation is not
that of SET_FLASH_WRITE_SEQUENCE: the transmission of a response, SET_MODE,
READ, READ_BURST, WRITE, WRITE_BURST, POLL_FLASH_DATA, RESET, the commands
without operation, and FLASH_BURST, for any fuel and any input. -/
theorem flash_sequence_frame (fuel : Nat) :
    (∀ m : Machine, (usb_reset m).world.flash_sequence = m.world.flash_sequence) ∧
    (∀ w : World, (pipe_reset w).flash_sequence = w.flash_sequence) ∧
    (∀ w : World, (reset_state w).flash_sequence = w.flash_sequence) ∧
    (∀ m : Machine, (usb_isr m).world.flash_sequence = m.world.flash_sequence) ∧
    (∀ w : World, (pipe_rx_acquire w).flash_sequence = w.flash_sequence ∧
      (pipe_tx_acquire w).flash_sequence = w.flash_sequence ∧
      (pipe_tx_flush w).flash_sequence = w.flash_sequence) ∧
    (∀ w : World, (fetch_command w).state.cmd &&& CMD_MASK ≠ CMD_SET_FLASH_WRITE_SEQUENCE →
      (fetch_command w).flash_sequence = w.flash_sequence) ∧
    (∀ w : World, (fetch_command w).flash_sequence.write = w.flash_sequence.write) ∧
    (∀ w : World, select_operation w.state.cmd ≠ .set_flash_write_sequence →
      (execute_pending fuel w).1.flash_sequence = w.flash_sequence) ∧
    (∀ w : World, (execute_cmd_flash_burst fuel w).1.flash_sequence = w.flash_sequence) ∧
    (∀ c : Nat, select_operation c = .set_flash_write_sequence ↔ c = CMD_SET_FLASH_WRITE_SEQUENCE) :=
  ⟨fun m => (usb_reset_usb m).flash_sequence, fun w => (pipe_reset_usb w).flash_sequence,
    fun w => (reset_state_pipe w).2.2.2.2.2, fun m => (usb_isr_usb m).flash_sequence,
    fun w => ⟨(pipe_rx_acquire_frame w).flash_sequence, (pipe_tx_acquire_frame w).flash_sequence,
      (pipe_tx_flush_frame w).flash_sequence⟩,
    fetch_command_flash, fun w => (fetch_command_frame w).flash_write,
    execute_pending_flash fuel, execute_cmd_flash_burst_flash fuel,
    select_operation_sfws⟩

/-- C29 at concrete inputs: FLASH_BURST of two bytes on a device with a stored
sequence of one record.  Fetching the command and executing it, which replays
the record on the bus, leave the stored sequence as it was. -/
theorem flash_sequence_frame_witness :
    World.flash_base.flash_sequence.len = 1 ∧
    (fetch_command (World.flash_base.receive [0x0b, 0xff, 0xff, 2, 0, 0xff, 0x80])).flash_sequence =
      (World.flash_base.receive [0x0b, 0xff, 0xff, 2, 0, 0xff, 0x80]).flash_sequence ∧
    (execute_pending 8 World.fb_whole).1.flash_sequence = World.fb_whole.flash_sequence ∧
    World.fb_whole.hw_log.length < (execute_pending 8 World.fb_whole).1.hw_log.length :=
  have h := flash_sequence_frame 8
  ⟨by decide, h.2.2.2.2.2.1 _ (by decide), h.2.2.2.2.2.2.2.1 _ (by decide), by decide⟩

/-- The transfer flags after a request are those of the request. -/
theorem Ep0Request.effect_flags (r : Ep0Request) (w : World) :
    (r.effect w).ep0_state = (r.effect w).ep0_state.set_tx_statf r.tx_statf := by
  cases r <;> rfl

theorem ep0_setup_request_unsupported (w : World) (hz : w.set_tx_statf TX_STATF_NONE = w)
    (h : ep0_request_spec w.ep0_setup w.usb_state.configured = none) :
    ep0_setup_request w = w := by
  rw [ep0_setup_request_eq w hz, h]
  rfl

theorem ep0_setup_request_supported (w : World) (hz : w.set_tx_statf TX_STATF_NONE = w)
    (r : Ep0Request) (h : ep0_request_spec w.ep0_setup w.usb_state.configured = some r) :
    (ep0_setup_request w).ep0_state = (ep0_setup_request w).ep0_state.set_tx_statf r.tx_statf := by
  rw [ep0_setup_request_eq w hz, h]
  exact Ep0Request.effect_flags r w

/-- Every request has a direction, a request towards the host has a data
stage, and only SET_ADDRESS leaves an address pending. -/
theorem Ep0Request.tx_statf_bits (r : Ep0Request) :
    (get_bit r.tx_statf 0 = true ∨ get_bit r.tx_statf 1 = true) ∧
    (get_bit r.tx_statf 1 = true → get_bit r.tx_statf 2 = true ∧ get_bit r.tx_statf 0 = false) ∧
    (get_bit r.tx_statf 7 = true ↔ r = .set_address) := by
  cases r <;> simp +decide [Ep0Request.tx_statf]

theorem set_tx_statf_flags_eq (e : Ep0State) (f : Nat) (h : e = e.set_tx_statf f) :
    e.dir_out = get_bit f 0 ∧ e.dir_in = get_bit f 1 ∧ e.data_stage = get_bit f 2 ∧
    e.data_rom = get_bit f 3 ∧ e.data_ram = get_bit f 4 ∧ e.set_addr = get_bit f 7 := by
  refine ⟨?_, ?_, ?_, ?_, ?_, ?_⟩ <;> (rw [h]; rfl)

theorem BD_ARM_DATA_stat (dts : Bool) :
    get_bit (set_bit ((if dts = true then STAT_DTS_MASK else 0) ||| STAT_DTSEN_MASK) 7 true) 7 = true ∧
    get_bit (set_bit ((if dts = true then STAT_DTS_MASK else 0) ||| STAT_DTSEN_MASK) 7 true) 2 = false := by
  cases dts <;> decide

theorem BD_ARM_CTRL_STATUS_stat :
    get_bit (set_bit (STAT_DTS_MASK ||| STAT_DTSEN_MASK) 7 true) 7 = true ∧
    get_bit (set_bit (STAT_DTS_MASK ||| STAT_DTSEN_MASK) 7 true) 2 = false := by
  decide

theorem BD_ARM_STALL_stat :
    get_bit (set_bit (STAT_DTSEN_MASK ||| STAT_BSTALL_MASK) 7 true) 7 = true ∧
    get_bit (set_bit (STAT_DTSEN_MASK ||| STAT_BSTALL_MASK) 7 true) 2 = true := by
  decide

theorem BD_ARM_DATA_stalled (bd : BufferDescriptor) (dts : Bool) (len : Nat) :
    (BD_ARM_DATA bd dts len).stalled = false := by
  have h := BD_ARM_DATA_stat dts
  unfold BufferDescriptor.stalled BD_ARM_DATA
  simp only []
  rw [h.1, h.2]
  rfl

theorem BD_ARM_CTRL_STATUS_stalled (bd : BufferDescriptor) (len : Nat) :
    (BD_ARM_CTRL_STATUS bd len).stalled = false := by
  unfold BufferDescriptor.stalled BD_ARM_CTRL_STATUS
  simp only []
  rw [BD_ARM_CTRL_STATUS_stat.1, BD_ARM_CTRL_STATUS_stat.2]
  rfl

theorem BD_ARM_STALL_stalled (bd : BufferDescriptor) (len : Nat) :
    (BD_ARM_STALL bd len).stalled = true := by
  unfold BufferDescriptor.stalled BD_ARM_STALL
  simp only []
  rw [BD_ARM_STALL_stat.1, BD_ARM_STALL_stat.2]
  rfl

theorem ep0_in_fill_buffer_ep0_state (w : World) :
    (ep0_in_fill_buffer w).1.ep0_state.dir_out = w.ep0_state.dir_out ∧
    (ep0_in_fill_buffer w).1.ep0_state.dir_in = w.ep0_state.dir_in ∧
    (ep0_in_fill_buffer w).1.ep0_state.data_stage = w.ep0_state.data_stage ∧
    (ep0_in_fill_buffer w).1.ep0_state.data_rom = w.ep0_state.data_rom ∧
    (ep0_in_fill_buffer w).1.ep0_state.data_ram = w.ep0_state.data_ram ∧
    (ep0_in_fill_buffer w).1.ep0_state.set_addr = w.ep0_state.set_addr ∧
    (ep0_in_fill_buffer w).1.ep0_state.addr = w.ep0_state.addr ∧
    (ep0_in_fill_buffer w).1.ep0_state.data_len = w.ep0_state.data_len ∧
    (ep0_in_fill_buffer w).1.bds = w.bds := by
  unfold ep0_in_fill_buffer
  simp only []
  split_ifs <;> exact ⟨rfl, rfl, rfl, rfl, rfl, rfl, rfl, rfl, rfl⟩

/-- The last statement of `ep0_handle_setup`, for flags with a direction,
keeps the transfer flags and the pending address. -/
theorem ep0_setup_arm_flags_kept (w : World)
    (hd : w.ep0_state.dir_out = true ∨
      (w.ep0_state.dir_in = true ∧ w.ep0_state.data_stage = true)) :
    (ep0_setup_arm w).ep0_state.dir_out = w.ep0_state.dir_out ∧
    (ep0_setup_arm w).ep0_state.dir_in = w.ep0_state.dir_in ∧
    (ep0_setup_arm w).ep0_state.data_stage = w.ep0_state.data_stage ∧
    (ep0_setup_arm w).ep0_state.set_addr = w.ep0_state.set_addr ∧
    (ep0_setup_arm w).ep0_state.addr = w.ep0_state.addr := by
  unfold ep0_setup_arm
  by_cases h1 : (w.ep0_state.dir_in && w.ep0_state.data_stage) = true
  · rw [if_pos h1]
    obtain ⟨a, b, c, -, -, d, e, -, -⟩ := ep0_in_fill_buffer_ep0_state
      (w.set_data_len (MIN w.ep0_state.data_len w.ep0_setup.wLength))
    exact ⟨a, b, c, d, e⟩
  · rw [if_neg h1]
    by_cases h2 : w.ep0_state.dir_out = true
    · rw [if_pos h2]
      split <;> exact ⟨rfl, rfl, rfl, rfl, rfl⟩
    · rcases hd with hd | hd
      · exact absurd hd h2
      · rw [hd.1, hd.2] at h1
        exact absurd rfl h1

/-- The last statement of `ep0_handle_setup`, for flags without a direction,
is `ep0_stall`. -/
theorem ep0_setup_arm_stall (w : World) (ho : w.ep0_state.dir_out = false)
    (hi : w.ep0_state.dir_in = false) : ep0_setup_arm w = ep0_stall w := by
  unfold ep0_setup_arm
  rw [hi, ho]
  rfl

/-- The descriptors after the last statement of `ep0_handle_setup`. -/
theorem ep0_setup_arm_bds (w : World) :
    (w.ep0_state.dir_in = true → w.ep0_state.data_stage = true →
      (ep0_setup_arm w).bds.ep0_in =
        BD_ARM_DATA w.bds.ep0_in (get_bit w.bds.ep0_in.STAT 6)
          (MIN (MIN w.ep0_state.data_len w.ep0_setup.wLength % 65536) EP0_PACKET_SIZE % 256) ∧
      (ep0_setup_arm w).bds.ep0_out = w.bds.ep0_out) ∧
    (w.ep0_state.dir_in = false → w.ep0_state.dir_out = true → w.ep0_state.data_stage = true →
      (ep0_setup_arm w).bds.ep0_out =
        BD_ARM_DATA w.bds.ep0_out (get_bit w.bds.ep0_out.STAT 6) EP0_PACKET_SIZE ∧
      (ep0_setup_arm w).bds.ep0_in = w.bds.ep0_in) ∧
    (w.ep0_state.dir_in = false → w.ep0_state.dir_out = true → w.ep0_state.data_stage = false →
      (ep0_setup_arm w).bds.ep0_out = BD_ARM_STALL w.bds.ep0_out EP0_PACKET_SIZE ∧
      (ep0_setup_arm w).bds.ep0_in = BD_ARM_CTRL_STATUS w.bds.ep0_in 0x00) := by
  refine ⟨?_, ?_, ?_⟩
  · intro hi hs
    unfold ep0_setup_arm
    rw [hi, hs]
    simp only [Bool.and_self, if_true]
    unfold ep0_in_fill_buffer
    simp only []
    split_ifs <;> exact ⟨rfl, rfl⟩
  · intro hi ho hs
    unfold ep0_setup_arm
    rw [hi, ho, hs]
    exact ⟨rfl, rfl⟩
  · intro hi ho hs
    unfold ep0_setup_arm
    rw [hi, ho, hs]
    exact ⟨rfl, rfl⟩

theorem ep0_stall_stalled (w : World) : Ep0Stalled (ep0_stall w) :=
  ⟨BD_ARM_STALL_stalled _ _, BD_ARM_STALL_stalled _ _, rfl, rfl, rfl, rfl, rfl, rfl⟩

/-- A SETUP packet that matches no request of the specification: the handler
is `ep0_stall` after its first statements. -/
theorem ep0_handle_setup_unsupported (w : World)
    (h : ep0_request_spec w.ep0_setup w.usb_state.configured = none) :
    ep0_handle_setup w = ep0_stall (ep0_setup_begin w) := by
  rw [ep0_handle_setup_eq,
    ep0_setup_request_unsupported (ep0_setup_begin w) (ep0_setup_begin_clear w) h,
    ep0_setup_arm_stall _ rfl rfl]

/-- A SETUP packet that matches a request of the specification: the transfer
flags after the handler are those of the request, and the descriptors are armed
for the next stage. -/
theorem ep0_handle_setup_supported (w : World) (r : Ep0Request)
    (h : ep0_request_spec w.ep0_setup w.usb_state.configured = some r) :
    (ep0_handle_setup w).ep0_state.dir_out = get_bit r.tx_statf 0 ∧
    (ep0_handle_setup w).ep0_state.dir_in = get_bit r.tx_statf 1 ∧
    (ep0_handle_setup w).ep0_state.data_stage = get_bit r.tx_statf 2 ∧
    (ep0_handle_setup w).ep0_state.set_addr = get_bit r.tx_statf 7 ∧
    ((ep0_handle_setup w).bds.ep0_out.stalled = false ∨
      (ep0_handle_setup w).bds.ep0_in.stalled = false) := by
  have hs := ep0_setup_request_supported (ep0_setup_begin w) (ep0_setup_begin_clear w) r h
  obtain ⟨f0, f1, f2, -, -, f7⟩ := set_tx_statf_flags_eq _ _ hs
  obtain ⟨b1, b2, -⟩ := r.tx_statf_bits
  rw [ep0_handle_setup_eq]
  generalize ep0_setup_request (ep0_setup_begin w) = v at f0 f1 f2 f7
  have hd : v.ep0_state.dir_out = true ∨
      (v.ep0_state.dir_in = true ∧ v.ep0_state.data_stage = true) := by
    rcases b1 with b | b
    · exact Or.inl (f0.trans b)
    · exact Or.inr ⟨f1.trans b, f2.trans (b2 b).1⟩
  obtain ⟨k0, k1, k2, k7, -⟩ := ep0_setup_arm_flags_kept v hd
  obtain ⟨a1, a2, a3⟩ := ep0_setup_arm_bds v
  refine ⟨k0.trans f0, k1.trans f1, k2.trans f2, k7.trans f7, ?_⟩
  by_cases hi : v.ep0_state.dir_in = true
  · have hst : v.ep0_state.data_stage = true := f2.trans (b2 (f1.symm.trans hi)).1
    right
    rw [(a1 hi hst).1]
    exact BD_ARM_DATA_stalled _ _ _
  · have hi2 : v.ep0_state.dir_in = false := by simpa using hi
    have ho : v.ep0_state.dir_out = true := by
      rcases hd with hd | hd
      · exact hd
      · exact absurd hd.1 hi
    by_cases hst : v.ep0_state.data_stage = true
    · left
      rw [(a2 hi2 ho hst).1]
      exact BD_ARM_DATA_stalled _ _ _
    · right
      rw [(a3 hi2 ho (by simpa using hst)).2]
      exact BD_ARM_CTRL_STATUS_stalled _ _

/-- The handler stalls endpoint 0 exactly for the packets that match no
request of the specification. -/
theorem ep0_handle_setup_stalled_iff (w : World) :
    Ep0Stalled (ep0_handle_setup w) ↔
      ep0_request_spec w.ep0_setup w.usb_state.configured = none := by
  constructor
  · intro hs
    cases hr : ep0_request_spec w.ep0_setup w.usb_state.configured with
    | none => rfl
    | some r =>
      obtain ⟨-, -, -, -, hb⟩ := ep0_handle_setup_supported w r hr
      rcases hb with hb | hb
      · rw [hs.1] at hb
        cases hb
      · rw [hs.2.1] at hb
        cases hb
  · intro hn
    rw [ep0_handle_setup_unsupported w hn]
    exact ep0_stall_stalled _

/-- C25.  `ep0_handle_setup` leaves endpoint 0 stalled in both directions with
the control-transfer flags cleared exactly for the SETUP packets that match no
request of section 4.1 of the specification (`ep0_request_spec`); it is then
`ep0_stall` after the first statements of the handler.  For a packet that
matches a request, the handler leaves a direction flag set and at least one of
the two descriptors not stalled.  In particular the handler stalls: every class
request while not configured; GET_INTERFACE and SET_INTERFACE while not
configured or for an interface above 1, and SET_INTERFACE with an alternate
setting other than 0; SET_CONFIGURATION with a value other than 0 and 1;
GET_DESCRIPTOR for a device or configuration descriptor with an index other
than 0, for a string index above 2 and for any other descriptor type; every
request code that is not in the list of its type; and every packet with both
type bits set. -/
theorem unsupported_requests_stall (w : World) :
    (Ep0Stalled (ep0_handle_setup w) ↔
      ep0_request_spec w.ep0_setup w.usb_state.configured = none) ∧
    (ep0_request_spec w.ep0_setup w.usb_state.configured = none →
      ep0_handle_setup w = ep0_stall (ep0_setup_begin w)) ∧
    (∀ r : Ep0Request, ep0_request_spec w.ep0_setup w.usb_state.configured = some r →
      ((ep0_handle_setup w).ep0_state.dir_out = true ∨
        (ep0_handle_setup w).ep0_state.dir_in = true) ∧
      ((ep0_handle_setup w).bds.ep0_out.stalled = false ∨
        (ep0_handle_setup w).bds.ep0_in.stalled = false)) ∧
    (w.ep0_setup.bmRequestType &&& 0b01100000 = 0b00100000 → w.usb_state.configured = false →
      Ep0Stalled (ep0_handle_setup w)) ∧
    (w.ep0_setup.bmRequestType &&& 0b01100000 = 0b00000000 →
      w.ep0_setup.bRequest = GET_INTERFACE ∨ w.ep0_setup.bRequest = SET_INTERFACE →
      w.usb_state.configured = false ∨ 1 < w.ep0_setup.wIndex →
      Ep0Stalled (ep0_handle_setup w)) ∧
    (w.ep0_setup.bmRequestType &&& 0b01100000 = 0b00000000 →
      w.ep0_setup.bRequest = SET_INTERFACE → w.ep0_setup.wValue ≠ 0 →
      Ep0Stalled (ep0_handle_setup w)) ∧
    (w.ep0_setup.bmRequestType &&& 0b01100000 = 0b00000000 →
      w.ep0_setup.bRequest = SET_CONFIGURATION → w.ep0_setup.wValue ≠ 0 →
      w.ep0_setup.wValue ≠ 1 → Ep0Stalled (ep0_handle_setup w)) ∧
    (w.ep0_setup.bmRequestType &&& 0b01100000 = 0b00000000 →
      w.ep0_setup.bRequest = GET_DESCRIPTOR →
      ((w.ep0_setup.wValue / 256 % 256 = USB_DESCRIPTOR_DEVICE ∨
          w.ep0_setup.wValue / 256 % 256 = USB_DESCRIPTOR_CONFIGURATION) ∧
        w.ep0_setup.wValue % 256 ≠ 0) ∨
      (w.ep0_setup.wValue / 256 % 256 = USB_DESCRIPTOR_STRING ∧ 2 < w.ep0_setup.wValue % 256) ∨
      (w.ep0_setup.wValue / 256 % 256 ≠ USB_DESCRIPTOR_DEVICE ∧
        w.ep0_setup.wValue / 256 % 256 ≠ USB_DESCRIPTOR_CONFIGURATION ∧
        w.ep0_setup.wValue / 256 % 256 ≠ USB_DESCRIPTOR_STRING) →
      Ep0Stalled (ep0_handle_setup w)) ∧
    (w.ep0_setup.bmRequestType &&& 0b01100000 = 0b00000000 →
      w.ep0_setup.bRequest ∉ [GET_STATUS, GET_DESCRIPTOR, SET_ADDRESS, GET_CONFIGURATION,
        SET_CONFIGURATION, GET_INTERFACE, SET_INTERFACE] →
      Ep0Stalled (ep0_handle_setup w)) ∧
    (w.ep0_setup.bmRequestType &&& 0b01100000 = 0b00100000 →
      w.ep0_setup.bRequest ∉ [CDC_SEND_ENCAPSULATED_COMMAND, CDC_GET_ENCAPSULATED_RESPONSE,
        CDC_SET_LINE_CODING, CDC_GET_LINE_CODING, CDC_SET_CONTROL_LINE_STATE] →
      Ep0Stalled (ep0_handle_setup w)) ∧
    (w.ep0_setup.bmRequestType &&& 0b01100000 = 0b01000000 →
      w.ep0_setup.bRequest ∉ [VENDOR_RESET, VENDOR_IDENTIFY] →
      Ep0Stalled (ep0_handle_setup w)) ∧
    (w.ep0_setup.bmRequestType &&& 0b01100000 = 0b01100000 →
      Ep0Stalled (ep0_handle_setup w)) := by
  have hiff := ep0_handle_setup_stalled_iff w
  refine ⟨hiff, ep0_handle_setup_unsupported w, ?_, ?_, ?_, ?_, ?_, ?_, ?_, ?_, ?_, ?_⟩
  · intro r hr
    obtain ⟨f0, f1, -, -, hb⟩ := ep0_handle_setup_supported w r hr
    obtain ⟨b1, -, -⟩ := r.tx_statf_bits
    rw [f0, f1]
    exact ⟨b1, hb⟩
  · intro ht hc
    refine hiff.2 ?_
    unfold ep0_request_spec
    rw [if_neg (by rw [ht]; decide), if_pos ht, if_neg (fun h => by rw [hc] at h; cases h.1)]
  · intro ht hr hc
    refine hiff.2 ?_
    unfold ep0_request_spec
    rw [if_pos ht]
    rcases hr with hr | hr <;> rcases hc with hc | hc <;> simp +decide [hr, hc] <;> omega
  · intro ht hr hv
    refine hiff.2 ?_
    unfold ep0_request_spec
    rw [if_pos ht]
    simp +decide [hr, hv]
  · intro ht hr h0 h1
    refine hiff.2 ?_
    unfold ep0_request_spec
    rw [if_pos ht]
    simp +decide [hr, h0, h1]
  · intro ht hr hd
    refine hiff.2 ?_
    have hn : descriptor_spec w.ep0_setup.wValue = none := by
      unfold descriptor_spec
      generalize w.ep0_setup.wValue / 256 % 256 = t at hd ⊢
      generalize w.ep0_setup.wValue % 256 = i at hd ⊢
      rcases hd with ⟨hd | hd, hi⟩ | ⟨hd, hi⟩ | ⟨h1, h2, h3⟩
      · simp +decide [hd, hi]
      · simp +decide [hd, hi]
      · subst hd
        have h0 : i ≠ 0 := by omega
        have h1 : i ≠ 1 := by omega
        have h2 : i ≠ 2 := by omega
        simp +decide [h0, h1, h2]
      · simp +decide [h1, h2, h3]
    unfold ep0_request_spec
    rw [if_pos ht]
    simp +decide [hr, hn]
  · intro ht hr
    refine hiff.2 ?_
    simp only [List.mem_cons, List.mem_singleton, List.not_mem_nil, or_false, not_or] at hr
    unfold ep0_request_spec
    rw [if_pos ht]
    simp +decide [hr]
  · intro ht hr
    refine hiff.2 ?_
    simp only [List.mem_cons, List.mem_singleton, List.not_mem_nil, or_false, not_or] at hr
    unfold ep0_request_spec
    rw [if_neg (by rw [ht]; decide), if_pos ht]
    simp +decide [hr]
  · intro ht hr
    refine hiff.2 ?_
    simp only [List.mem_cons, List.mem_singleton, List.not_mem_nil, or_false, not_or] at hr
    unfold ep0_request_spec
    rw [if_neg (by rw [ht]; decide), if_neg (by rw [ht]; decide), if_pos ht]
    simp +decide [hr]
  · intro ht
    refine hiff.2 ?_
    unfold ep0_request_spec
    rw [if_neg (by rw [ht]; decide), if_neg (by rw [ht]; decide), if_neg (by rw [ht]; decide)]

/-- C25 at concrete inputs.  SET_CONTROL_LINE_STATE is stalled on the sample
machine in the DEFAULT state, which is not configured, and accepted with the
status stage armed on the configured sample machine; GET_DESCRIPTOR for the
string with index 3 and SET_CONFIGURATION with value 2 are stalled. -/
theorem unsupported_requests_stall_witness :
    Ep0Stalled (ep0_handle_setup
      (Machine.default_sample.setup_world [0x21, 0x22, 1, 0, 0, 0, 0, 0])) ∧
    ((ep0_handle_setup (Machine.configured_sample.setup_world
        [0x21, 0x22, 1, 0, 0, 0, 0, 0])).ep0_state.dir_out = true ∨
      (ep0_handle_setup (Machine.configured_sample.setup_world
        [0x21, 0x22, 1, 0, 0, 0, 0, 0])).ep0_state.dir_in = true) ∧
    (ep0_handle_setup (Machine.configured_sample.setup_world
      [0x21, 0x22, 1, 0, 0, 0, 0, 0])).bds.ep0_in.stalled = false ∧
    Ep0Stalled (ep0_handle_setup
      (Machine.configured_sample.setup_world [0x80, 6, 3, 3, 0, 0, 255, 0])) ∧
    Ep0Stalled (ep0_handle_setup
      (Machine.configured_sample.setup_world [0x00, 9, 2, 0, 0, 0, 0, 0])) :=
  ⟨(unsupported_requests_stall _).2.2.2.1 (by decide) (by decide),
    ((unsupported_requests_stall (Machine.configured_sample.setup_world
      [0x21, 0x22, 1, 0, 0, 0, 0, 0])).2.2.1 .set_control_line_state (by decide)).1,
    by decide,
    (unsupported_requests_stall _).2.2.2.2.2.2.2.1 (by decide) (by decide)
      (Or.inr (Or.inl (by decide))),
    (unsupported_requests_stall _).2.2.2.2.2.2.1 (by decide) (by decide) (by decide) (by decide)⟩

theorem flip_DTS_PID (bd : BufferDescriptor) : bd.flip_DTS.PID = bd.PID := by
  unfold BufferDescriptor.flip_DTS BufferDescriptor.PID set_bit FLIP_BIT
  simp only []
  have h : bd.STAT / 2 ^ 6 % 2 * 2 ^ 6 ≤ bd.STAT := by
    have := Nat.div_mul_le_self bd.STAT (2 ^ 6)
    have h2 : bd.STAT / 2 ^ 6 % 2 ≤ bd.STAT / 2 ^ 6 := Nat.mod_le _ _
    calc bd.STAT / 2 ^ 6 % 2 * 2 ^ 6 ≤ bd.STAT / 2 ^ 6 * 2 ^ 6 := Nat.mul_le_mul_right _ h2
      _ ≤ bd.STAT := this
  split_ifs <;> omega

theorem ite_some_ne {α : Type} {c : Prop} [Decidable c] {a x : α} {r : Option α}
    (h : (if c then some a else r) = some x) (hne : a ≠ x) : r = some x := by
  by_cases hc : c
  · rw [if_pos hc] at h
    exact absurd (Option.some.inj h) hne
  · rw [if_neg hc] at h
    exact h

theorem ep0_request_spec_set_address (s : UsbSetupPacket) (c : Bool) :
    ep0_request_spec s c = some .set_address ↔ s.bmRequestType = 0x00 ∧ s.bRequest = SET_ADDRESS := by
  constructor
  · intro h
    unfold ep0_request_spec at h
    by_cases h0 : s.bmRequestType &&& 0b01100000 = 0b00000000
    · rw [if_pos h0] at h
      have h := ite_some_ne h (by intro e; cases e)
      by_cases hg : s.bRequest = GET_DESCRIPTOR ∧ s.bmRequestType = 0x80
      · rw [if_pos hg] at h
        cases hd : descriptor_spec s.wValue <;> rw [hd] at h <;> cases h
      · rw [if_neg hg] at h
        by_cases ha : s.bRequest = SET_ADDRESS ∧ s.bmRequestType = 0x00
        · exact ⟨ha.2, ha.1⟩
        · rw [if_neg ha] at h
          have h := ite_some_ne h (by intro e; cases e)
          have h := ite_some_ne h (by intro e; cases e)
          have h := ite_some_ne h (by intro e; cases e)
          have h := ite_some_ne h (by intro e; cases e)
          cases h
    · rw [if_neg h0] at h
      by_cases h1 : s.bmRequestType &&& 0b01100000 = 0b00100000
      · rw [if_pos h1] at h
        by_cases h2 : c = true ∧ s.wIndex = 0
        · rw [if_pos h2] at h
          have h := ite_some_ne h (by intro e; cases e)
          have h := ite_some_ne h (by intro e; cases e)
          have h := ite_some_ne h (by intro e; cases e)
          have h := ite_some_ne h (by intro e; cases e)
          have h := ite_some_ne h (by intro e; cases e)
          cases h
        · rw [if_neg h2] at h
          cases h
      · rw [if_neg h1] at h
        by_cases h3 : s.bmRequestType &&& 0b01100000 = 0b01000000
        · rw [if_pos h3] at h
          have h := ite_some_ne h (by intro e; cases e)
          have h := ite_some_ne h (by intro e; cases e)
          cases h
        · rw [if_neg h3] at h
          cases h
  · intro h
    unfold ep0_request_spec
    rw [h.1, h.2]
    rfl

theorem ep0_setup_request_set_address (w : World) (ht : w.ep0_setup.bmRequestType = 0x00)
    (hr : w.ep0_setup.bRequest = SET_ADDRESS) :
    ep0_setup_request w =
      { w with ep0_state := { w.ep0_state with addr := w.ep0_setup.wValue % 256 }
        }.set_tx_statf (TX_STATF_SET_ADDR ||| TX_STATF_DIR_OUT) := by
  unfold ep0_setup_request
  rw [ht, if_pos (by decide)]
  unfold ep0_standard_request
  simp only [ht, hr]
  rw [if_neg (by decide), if_neg (by decide)]
  simp only [if_true]

/-- SET_ADDRESS in `ep0_handle_setup`: the low byte of `wValue` is recorded, the
address is pending, and the status stage is armed. -/
theorem ep0_handle_setup_set_address (w : World) (ht : w.ep0_setup.bmRequestType = 0x00)
    (hr : w.ep0_setup.bRequest = SET_ADDRESS) :
    (ep0_handle_setup w).ep0_state.addr = w.ep0_setup.wValue % 256 ∧
    (ep0_handle_setup w).ep0_state.set_addr = true ∧
    (ep0_handle_setup w).ep0_state.dir_out = true ∧
    (ep0_handle_setup w).ep0_state.data_stage = false ∧
    (ep0_handle_setup w).bds.ep0_in = BD_ARM_CTRL_STATUS (ep0_setup_begin w).bds.ep0_in 0x00 := by
  rw [ep0_handle_setup_eq, ep0_setup_request_set_address (ep0_setup_begin w) ht hr]
  exact ⟨rfl, rfl, rfl, rfl, rfl⟩

theorem ep0_in_data_addr (w : World) :
    (ep0_in_data w).ep0_state.set_addr = w.ep0_state.set_addr ∧
    (ep0_in_data w).ep0_state.addr = w.ep0_state.addr := by
  unfold ep0_in_data
  by_cases h1 : (w.ep0_state.data_stage && w.ep0_state.dir_in) = true
  · rw [if_pos h1]
    simp only []
    split
    · exact ⟨rfl, rfl⟩
    · split
      · obtain ⟨-, -, -, -, -, a, b, -, -⟩ := ep0_in_fill_buffer_ep0_state
          (w.set_data_len (w.ep0_state.data_len + 65536 - w.bds.ep0_in.BC_L % 256))
        exact ⟨a, b⟩
      · exact ⟨rfl, rfl⟩
  · rw [if_neg h1]
    exact ⟨rfl, rfl⟩

/-- The address register and the pending flag through `ep0_in_transfer`. -/
theorem ep0_in_transfer_addr (m : Machine) :
    (ep0_in_transfer m).regs.UADDR =
      (if m.world.ep0_state.set_addr then m.world.ep0_state.addr else m.regs.UADDR) ∧
    (ep0_in_transfer m).world.ep0_state.set_addr = false ∧
    (ep0_in_transfer m).world.ep0_state.addr = m.world.ep0_state.addr := by
  unfold ep0_in_transfer
  simp only [Machine.map]
  cases hs : m.world.ep0_state.set_addr
  · simp only [Bool.false_eq_true, if_false]
    obtain ⟨a, b⟩ := ep0_in_data_addr { m.world with
      bds := { m.world.bds with ep0_in := m.world.bds.ep0_in.flip_DTS } }
    exact ⟨trivial, a.trans hs, b⟩
  · simp only [if_true]
    obtain ⟨a, b⟩ := ep0_in_data_addr { m.world with
      bds := { m.world.bds with ep0_in := m.world.bds.ep0_in.flip_DTS }
      ep0_state := { m.world.ep0_state with set_addr := false } }
    exact ⟨trivial, a, b⟩

theorem ep0_out_data_addr (w : World) :
    (ep0_out_data w).ep0_state.set_addr = w.ep0_state.set_addr ∧
    (ep0_out_data w).ep0_state.addr = w.ep0_state.addr := by
  unfold ep0_out_data ep0_out_process_buffer
  simp only []
  split_ifs <;> exact ⟨rfl, rfl⟩

theorem BD_ARM_CTRL_STATUS_UOWN (bd : BufferDescriptor) (len : Nat) :
    get_bit (BD_ARM_CTRL_STATUS bd len).STAT 7 = true := by
  exact BD_ARM_CTRL_STATUS_stat.1

/-- A SETUP packet leaves an address pending exactly when it is a SET_ADDRESS
request, whatever was pending before. -/
theorem ep0_handle_setup_set_addr_iff (w : World) :
    (ep0_handle_setup w).ep0_state.set_addr = true ↔
      (w.ep0_setup.bmRequestType = 0x00 ∧ w.ep0_setup.bRequest = SET_ADDRESS) := by
  rw [← ep0_request_spec_set_address w.ep0_setup w.usb_state.configured]
  cases hr : ep0_request_spec w.ep0_setup w.usb_state.configured with
  | none =>
    rw [ep0_handle_setup_unsupported w hr]
    constructor
    · intro h
      cases h
    · intro h
      cases h
  | some r =>
    obtain ⟨-, -, -, f7, -⟩ := ep0_handle_setup_supported w r hr
    rw [f7, (r.tx_statf_bits).2.2]
    constructor
    · intro h
      rw [h]
    · intro h
      exact Option.some.inj h

/-- C22.  SET_ADDRESS is applied only when the status stage completes.  Let
the machine have a completed transaction on endpoint 0 at the head of the
queue.  (1) If it is the SETUP packet of SET_ADDRESS (`bmRequestType` 0x00),
`ep0_out_transfer` leaves `UADDR` as it is, records the low byte of `wValue`,
sets the pending flag and arms the IN descriptor for the status stage.  (2) At
a completed IN transaction, `ep0_in_transfer` copies the recorded byte into
`UADDR` if the flag is set, leaves `UADDR` alone if not, and in both cases the
flag is clear afterwards.  (3) Any SETUP packet leaves `UADDR` as it is and
leaves the flag set exactly when it is itself a SET_ADDRESS request: a new
SETUP that arrives before the status stage completes cancels the pending
change (or replaces it by its own).  (4) An OUT transaction that is not a
SETUP, and a bulk transaction, leave `UADDR`, the flag and the recorded byte
as they are. -/
theorem set_address_deferred (m : Machine) :
    (m.world.bds.ep0_out.PID = PID_SETUP → m.world.ep0_setup.bmRequestType = 0x00 →
      m.world.ep0_setup.bRequest = SET_ADDRESS →
      (ep0_out_transfer m).regs.UADDR = m.regs.UADDR ∧
      (ep0_out_transfer m).world.ep0_state.addr = m.world.ep0_setup.wValue % 256 ∧
      (ep0_out_transfer m).world.ep0_state.set_addr = true ∧
      (ep0_out_transfer m).world.ep0_state.data_stage = false ∧
      (ep0_out_transfer m).world.bds.ep0_in.stalled = false ∧
      get_bit (ep0_out_transfer m).world.bds.ep0_in.STAT 7 = true ∧
      (ep0_out_transfer m).world.bds.ep0_in.BC_L = 0) ∧
    ((ep0_in_transfer m).regs.UADDR =
        (if m.world.ep0_state.set_addr then m.world.ep0_state.addr else m.regs.UADDR) ∧
      (ep0_in_transfer m).world.ep0_state.set_addr = false) ∧
    (m.world.bds.ep0_out.PID = PID_SETUP →
      (ep0_out_transfer m).regs.UADDR = m.regs.UADDR ∧
      ((ep0_out_transfer m).world.ep0_state.set_addr = true ↔
        (m.world.ep0_setup.bmRequestType = 0x00 ∧ m.world.ep0_setup.bRequest = SET_ADDRESS))) ∧
    (m.world.bds.ep0_out.PID ≠ PID_SETUP →
      (ep0_out_transfer m).regs.UADDR = m.regs.UADDR ∧
      (ep0_out_transfer m).world.ep0_state.set_addr = m.world.ep0_state.set_addr ∧
      (ep0_out_transfer m).world.ep0_state.addr = m.world.ep0_state.addr) ∧
    (∀ dir ppbi : Bool,
      (usb_isr_transaction m { ENDP := 2, DIR := dir, PPBI := ppbi }).regs.UADDR = m.regs.UADDR ∧
      (usb_isr_transaction m { ENDP := 2, DIR := dir, PPBI := ppbi }).world.ep0_state =
        m.world.ep0_state) := by
  have hpid : ({ m.world with bds := { m.world.bds with
      ep0_out := m.world.bds.ep0_out.flip_DTS } } : World).bds.ep0_out.PID =
      m.world.bds.ep0_out.PID := flip_DTS_PID _
  refine ⟨?_, ?_, ?_, ?_, ?_⟩
  · intro hp ht hr
    unfold ep0_out_transfer
    simp only [Machine.map]
    rw [if_pos (hpid.trans hp)]
    obtain ⟨a, b, -, d, e⟩ := ep0_handle_setup_set_address { m.world with bds := { m.world.bds with
      ep0_out := m.world.bds.ep0_out.flip_DTS } } ht hr
    refine ⟨rfl, a, b, d, ?_, ?_, ?_⟩
    · show (ep0_handle_setup _).bds.ep0_in.stalled = false
      rw [e]
      exact BD_ARM_CTRL_STATUS_stalled _ _
    · show get_bit (ep0_handle_setup _).bds.ep0_in.STAT 7 = true
      rw [e]
      exact BD_ARM_CTRL_STATUS_UOWN _ _
    · show (ep0_handle_setup _).bds.ep0_in.BC_L = 0
      rw [e]
      rfl
  · obtain ⟨a, b, -⟩ := ep0_in_transfer_addr m
    exact ⟨a, b⟩
  · intro hp
    unfold ep0_out_transfer
    simp only [Machine.map]
    rw [if_pos (hpid.trans hp)]
    exact ⟨rfl, ep0_handle_setup_set_addr_iff _⟩
  · intro hp
    unfold ep0_out_transfer
    simp only [Machine.map]
    rw [if_neg (fun h => hp (hpid.symm.trans h))]
    obtain ⟨a, b⟩ := ep0_out_data_addr { m.world with bds := { m.world.bds with
      ep0_out := m.world.bds.ep0_out.flip_DTS } }
    exact ⟨rfl, a, b⟩
  · intro dir ppbi
    cases dir <;> exact ⟨rfl, rfl⟩

/-- C22 at concrete inputs.  On the sample machine the SETUP packet of
SET_ADDRESS with `0x2a` leaves `UADDR = 0` with the byte recorded; the handler
run for the IN transaction of the status stage sets `UADDR = 0x2a`.  If the
SETUP packet of GET_STATUS arrives before that, the flag is cleared and the IN
transaction that follows leaves `UADDR = 0`. -/
theorem set_address_deferred_witness :
    ((ep0_out_transfer Machine.set_address_sample).regs.UADDR =
        Machine.set_address_sample.regs.UADDR ∧
      (ep0_out_transfer Machine.set_address_sample).world.ep0_state.addr =
        Machine.set_address_sample.world.ep0_setup.wValue % 256 ∧
      (ep0_out_transfer Machine.set_address_sample).world.ep0_state.set_addr = true) ∧
    Machine.set_address_sample.regs.UADDR = 0 ∧
    (usb_isr Machine.set_address_sample).regs.UADDR = 0 ∧
    (usb_isr Machine.set_address_sample).world.ep0_state.addr = 0x2a ∧
    (usb_isr (sie_ep0 (usb_isr Machine.set_address_sample) .in_)).regs.UADDR = 0x2a ∧
    (usb_isr (sie_ep0 (usb_isr Machine.set_address_sample) .in_)).world.ep0_state.set_addr =
      false ∧
    (usb_isr (sie_ep0 (usb_isr Machine.set_address_sample)
      (.setup [0x80, 0, 0, 0, 0, 0, 2, 0]))).world.ep0_state.set_addr = false ∧
    (usb_isr (sie_ep0 (usb_isr (sie_ep0 (usb_isr Machine.set_address_sample)
      (.setup [0x80, 0, 0, 0, 0, 0, 2, 0]))) .in_)).regs.UADDR = 0 :=
  have h := (set_address_deferred Machine.set_address_sample).1 (by decide) (by decide)
    (by decide)
  ⟨⟨h.1, h.2.1, h.2.2.1⟩, by decide, by decide, by decide, by decide, by decide, by decide,
    by decide⟩

theorem ep0_in_transfer_world (m : Machine) :
    (ep0_in_transfer m).world = ep0_in_data (ep0_in_begin m.world) := by
  unfold ep0_in_transfer ep0_in_begin
  simp only [Machine.map]
  cases hs : m.world.ep0_state.set_addr
  · simp only [Bool.false_eq_true, if_false]
    congr 1
    rw [← hs]
  · simp only [if_true]

theorem BD_ARM_DATA_armed (bd : BufferDescriptor) (dts : Bool) (len : Nat) :
    (BD_ARM_DATA bd dts len).armed = true := by
  have h := BD_ARM_DATA_stat dts
  unfold BufferDescriptor.armed BD_ARM_DATA
  simp only []
  rw [h.1, h.2]
  rfl

theorem BD_ARM_STALL_armed (bd : BufferDescriptor) (len : Nat) :
    (BD_ARM_STALL bd len).armed = false := by
  unfold BufferDescriptor.armed BD_ARM_STALL
  simp only []
  rw [BD_ARM_STALL_stat.1, BD_ARM_STALL_stat.2]
  rfl

theorem BD_ARM_CTRL_STATUS_armed (bd : BufferDescriptor) (len : Nat) :
    (BD_ARM_CTRL_STATUS bd len).armed = true := by
  unfold BufferDescriptor.armed BD_ARM_CTRL_STATUS
  simp only []
  rw [BD_ARM_CTRL_STATUS_stat.1, BD_ARM_CTRL_STATUS_stat.2]
  rfl

/-- A short packet has completed: the data stage ends, the OUT descriptor is
armed for the status stage and the IN descriptor is stalled. -/
theorem ep0_in_data_short (w : World) (hs : w.ep0_state.data_stage = true)
    (hd : w.ep0_state.dir_in = true) (hc : w.bds.ep0_in.BC_L < EP0_PACKET_SIZE) :
    (ep0_in_data w).ep0_state.data_stage = false ∧
    (ep0_in_data w).bds.ep0_out = BD_ARM_CTRL_STATUS w.bds.ep0_out EP0_PACKET_SIZE ∧
    (ep0_in_data w).bds.ep0_in = BD_ARM_STALL w.bds.ep0_in 0x00 := by
  unfold ep0_in_data
  rw [hs, hd]
  simp only [Bool.and_self, if_true]
  rw [if_pos (show (w.set_data_len
    (w.ep0_state.data_len + 65536 - w.bds.ep0_in.BC_L % 256)).bds.ep0_in.BC_L < EP0_PACKET_SIZE
    from hc)]
  exact ⟨rfl, rfl, rfl⟩

/-- A full packet has completed and used up the length: a zero-length packet is
armed, the data stage goes on and the OUT descriptor is left as it is. -/
theorem ep0_in_data_zlp (w : World) (hs : w.ep0_state.data_stage = true)
    (hd : w.ep0_state.dir_in = true) (hc : w.bds.ep0_in.BC_L = EP0_PACKET_SIZE)
    (hl : w.ep0_state.data_len = EP0_PACKET_SIZE) :
    (ep0_in_data w).ep0_state.data_stage = true ∧
    (ep0_in_data w).ep0_state.dir_in = true ∧
    (ep0_in_data w).ep0_state.data_len = 0 ∧
    (ep0_in_data w).bds.ep0_out = w.bds.ep0_out ∧
    (ep0_in_data w).bds.ep0_in = BD_ARM_DATA w.bds.ep0_in (get_bit w.bds.ep0_in.STAT 6) 0x00 ∧
    (ep0_in_data w).ep0_in_buffer = w.ep0_in_buffer := by
  unfold ep0_in_data
  rw [hs, hd]
  simp only [Bool.and_self, if_true]
  rw [if_neg (show ¬ (w.set_data_len
    (w.ep0_state.data_len + 65536 - w.bds.ep0_in.BC_L % 256)).bds.ep0_in.BC_L < EP0_PACKET_SIZE
    from by rw [show (w.set_data_len _).bds = w.bds from rfl, hc]; exact Nat.lt_irrefl _)]
  have h0 : (w.set_data_len
      (w.ep0_state.data_len + 65536 - w.bds.ep0_in.BC_L % 256)).ep0_state.data_len = 0 := by
    show (w.ep0_state.data_len + 65536 - w.bds.ep0_in.BC_L % 256) % 65536 = 0
    rw [hl, hc]
    decide
  rw [if_neg (by rw [h0]; exact Nat.lt_irrefl _)]
  exact ⟨hs, hd, h0, rfl, rfl, rfl⟩

/-- A full packet has completed and more is to come: the next packet is copied
and armed, and the OUT descriptor is left as it is. -/
theorem ep0_in_data_more (w : World) (hs : w.ep0_state.data_stage = true)
    (hd : w.ep0_state.dir_in = true) (hc : w.bds.ep0_in.BC_L = EP0_PACKET_SIZE)
    (hl : EP0_PACKET_SIZE < w.ep0_state.data_len) (hb : w.ep0_state.data_len < 65536) :
    ep0_in_data w =
      { (ep0_in_fill_buffer (w.set_data_len (w.ep0_state.data_len - 64))).1 with
        bds := { w.bds with
          ep0_in := BD_ARM_DATA w.bds.ep0_in (get_bit w.bds.ep0_in.STAT 6)
            (ep0_in_fill_buffer (w.set_data_len (w.ep0_state.data_len - 64))).2 } } := by
  have e : w.set_data_len (w.ep0_state.data_len + 65536 - w.bds.ep0_in.BC_L % 256) =
      w.set_data_len (w.ep0_state.data_len - 64) := by
    unfold World.set_data_len
    rw [hc]
    have : (w.ep0_state.data_len + 65536 - EP0_PACKET_SIZE % 256) % 65536 =
        (w.ep0_state.data_len - 64) % 65536 := by
      unfold EP0_PACKET_SIZE at hl ⊢
      omega
    rw [this]
  unfold ep0_in_data
  rw [hs, hd]
  simp only [Bool.and_self, if_true]
  rw [e]
  rw [if_neg (show ¬ (w.set_data_len (w.ep0_state.data_len - 64)).bds.ep0_in.BC_L <
    EP0_PACKET_SIZE from by
      rw [show (w.set_data_len _).bds = w.bds from rfl, hc]; exact Nat.lt_irrefl _)]
  have h0 : (w.set_data_len (w.ep0_state.data_len - 64)).ep0_state.data_len > 0 := by
    show (w.ep0_state.data_len - 64) % 65536 > 0
    unfold EP0_PACKET_SIZE at hl
    omega
  rw [if_pos h0]
  obtain ⟨-, -, -, -, -, -, -, -, hbd⟩ :=
    ep0_in_fill_buffer_ep0_state (w.set_data_len (w.ep0_state.data_len - 64))
  generalize ep0_in_fill_buffer (w.set_data_len (w.ep0_state.data_len - 64)) = r at hbd ⊢
  obtain ⟨v, len⟩ := r
  simp only at hbd ⊢
  rw [hbd]
  rfl

theorem read_bytes_drop (buf : List Nat) (off n k : Nat) (h : k ≤ n) :
    (read_bytes buf off n).drop k = read_bytes buf (off + k) (n - k) := by
  obtain ⟨j, rfl⟩ := Nat.exists_eq_add_of_le h
  rw [read_bytes_add, List.drop_left' (read_bytes_length _ _ _), Nat.add_sub_cancel_left]

theorem MIN_packet (n : Nat) : MIN n EP0_PACKET_SIZE % 256 = min n 64 := by
  unfold MIN EP0_PACKET_SIZE
  split <;> omega

/-- What `ep0_in_fill_buffer` reads from a source: the first packet of the
bytes, with the rest left at the advanced pointer. -/
theorem read_source (src buf S : List Nat) (ptr : Nat) (hb : buf.length = 64)
    (hS : read_bytes src ptr S.length = S) :
    read_bytes (write_bytes buf 0 (read_bytes src ptr (min S.length 64))) 0 (min S.length 64) =
      S.take 64 ∧
    (write_bytes buf 0 (read_bytes src ptr (min S.length 64))).length = 64 ∧
    (64 < S.length →
      read_bytes src (ptr + min S.length 64) (S.drop 64).length = S.drop 64) := by
  have hm : min S.length 64 ≤ S.length := Nat.min_le_left _ _
  have h1 : read_bytes src ptr (min S.length 64) = S.take 64 := by
    rw [read_bytes_take src ptr _ _ hm, hS, List.take_eq_take]
    omega
  have h2 : (read_bytes src ptr (min S.length 64)).length = min S.length 64 :=
    read_bytes_length _ _ _
  refine ⟨?_, ?_, ?_⟩
  · have h3 := read_write_bytes_same (read_bytes src ptr (min S.length 64)) buf 0
      (by rw [h2, hb]; omega)
    rw [h2] at h3
    rw [h3, h1]
  · rw [write_bytes_length, hb]
  · intro h
    have h4 : min S.length 64 = 64 := by omega
    rw [h4, List.length_drop, ← read_bytes_drop _ _ _ _ (Nat.le_of_lt h), hS]

theorem ep0_in_fill_buffer_staged (v : World) (S : List Nat) (h : Staged v S) :
    (ep0_in_fill_buffer v).2 = min S.length 64 ∧
    read_bytes (ep0_in_fill_buffer v).1.ep0_in_buffer 0 (min S.length 64) = S.take 64 ∧
    (ep0_in_fill_buffer v).1.ep0_in_buffer.length = 64 ∧
    (ep0_in_fill_buffer v).1.ep0_state.data_stage = true ∧
    (ep0_in_fill_buffer v).1.ep0_state.dir_in = true ∧
    (ep0_in_fill_buffer v).1.ep0_state.data_len = S.length ∧
    (64 < S.length →
      SourceReads (ep0_in_fill_buffer v).1.ep0_state v.rom v.line_coding (S.drop 64)) := by
  obtain ⟨hs, hd, hl, hb, hbuf, hsrc⟩ := h
  have hm := MIN_packet v.ep0_state.data_len
  rw [hl] at hm
  unfold ep0_in_fill_buffer
  simp only [hl, hm]
  rcases hsrc with (⟨hr, hS⟩ | ⟨hr, ha, hS⟩) | ⟨hr, ha, hS, h64⟩
  · obtain ⟨r1, r2, r3⟩ := read_source _ v.ep0_in_buffer S v.ep0_state.rom_in_ptr hbuf hS
    rw [if_pos hr]
    exact ⟨rfl, r1, r2, hs, hd, rfl, fun h => Or.inl ⟨hr, r3 h⟩⟩
  · obtain ⟨r1, r2, r3⟩ := read_source _ v.ep0_in_buffer S v.ep0_state.ram_in_ptr hbuf hS
    rw [if_neg (by rw [hr]; exact Bool.false_ne_true), if_pos ha]
    exact ⟨rfl, r1, r2, hs, hd, rfl, fun h => Or.inr ⟨hr, ha, r3 h⟩⟩
  · rw [if_neg (by rw [hr]; exact Bool.false_ne_true),
      if_neg (by rw [ha]; exact Bool.false_ne_true)]
    refine ⟨rfl, ?_, hbuf, hs, hd, hl, fun h => absurd h64 (by omega)⟩
    have e : min S.length 64 = S.length := by omega
    rw [e, hS, List.take_of_length_le h64]

/-- After `ep0_in_fill_buffer` the descriptor is armed with the returned
length: the data stage holds the bytes that were to be sent. -/
theorem InStage.of_fill (v u : World) (S : List Nat) (bd : BufferDescriptor) (d : Bool)
    (h : Staged v S) (hs : u.ep0_state = (ep0_in_fill_buffer v).1.ep0_state)
    (hb : u.ep0_in_buffer = (ep0_in_fill_buffer v).1.ep0_in_buffer)
    (hl : u.line_coding = v.line_coding) (hr : u.rom = v.rom)
    (ha : u.bds.ep0_in = BD_ARM_DATA bd d (ep0_in_fill_buffer v).2) : InStage u S := by
  obtain ⟨f1, f2, f3, f4, f5, f6, f7⟩ := ep0_in_fill_buffer_staged v S h
  have hc : u.bds.ep0_in.BC_L = min S.length 64 := by
    rw [ha, f1]
    show min S.length 64 % 256 = min S.length 64
    omega
  refine ⟨by rw [hs]; exact f4, by rw [hs]; exact f5, by rw [ha]; exact BD_ARM_DATA_armed _ _ _,
    hc, ?_, by rw [hs]; exact f6, h.bound, by rw [hb]; exact f3, ?_⟩
  · unfold World.ep0_in_packet
    rw [hc, hb]
    exact f2
  · intro h64
    rw [hs, hl, hr]
    exact f7 h64

theorem ep0_in_complete_world (m : Machine) :
    (ep0_in_complete m).world = ep0_in_data (ep0_in_begin (sie_ep0_done m.world .in_)) := by
  unfold ep0_in_complete
  rw [ep0_in_transfer_world]
  rfl

theorem ep0_in_fill_buffer_source (v : World) :
    (ep0_in_fill_buffer v).1.line_coding = v.line_coding ∧
    (ep0_in_fill_buffer v).1.rom = v.rom := by
  unfold ep0_in_fill_buffer
  simp only []
  split_ifs <;> exact ⟨rfl, rfl⟩

/-- A completed packet of fewer than 64 bytes ends the data stage: the IN
descriptor is no longer armed for data. -/
theorem InStage.stop {w : World} {S : List Nat} (h : InStage w S) (hS : S.length < 64) :
    (ep0_in_data (ep0_in_begin (sie_ep0_done w .in_))).bds.ep0_in.armed = false ∧
    (ep0_in_data (ep0_in_begin (sie_ep0_done w .in_))).ep0_state.data_stage = false := by
  have hc : (ep0_in_begin (sie_ep0_done w .in_)).bds.ep0_in.BC_L < EP0_PACKET_SIZE := by
    show w.bds.ep0_in.BC_L < 64
    rw [h.count]
    omega
  obtain ⟨h1, -, h3⟩ := ep0_in_data_short (ep0_in_begin (sie_ep0_done w .in_)) h.data_stage
    h.dir_in hc
  rw [h3]
  exact ⟨BD_ARM_STALL_armed _ _, h1⟩

/-- A completed packet of 64 bytes is followed by the packet with the next
bytes, which is empty when none are left. -/
theorem InStage.step {w : World} {S : List Nat} (h : InStage w S) (hS : 64 ≤ S.length) :
    InStage (ep0_in_data (ep0_in_begin (sie_ep0_done w .in_))) (S.drop 64) := by
  have hc : (ep0_in_begin (sie_ep0_done w .in_)).bds.ep0_in.BC_L = EP0_PACKET_SIZE := by
    show w.bds.ep0_in.BC_L = 64
    rw [h.count]
    omega
  have hlen : (S.drop 64).length = S.length - 64 := List.length_drop _ _
  rcases Nat.eq_or_lt_of_le hS with he | hlt
  · obtain ⟨z1, z2, z3, -, z5, z6⟩ := ep0_in_data_zlp (ep0_in_begin (sie_ep0_done w .in_))
      h.data_stage h.dir_in hc (by
        show w.ep0_state.data_len = 64
        rw [h.data_len, ← he])
    have h0 : (S.drop 64).length = 0 := by rw [hlen, ← he]
    have hnil : S.drop 64 = [] := List.length_eq_zero.mp h0
    rw [hnil]
    refine ⟨z1, z2, by rw [z5]; exact BD_ARM_DATA_armed _ _ _, by rw [z5]; rfl, ?_, z3,
      by decide, by rw [z6]; exact h.buffer, fun h => absurd h (by decide)⟩
    unfold World.ep0_in_packet
    rw [z5]
    rfl
  · have hb := h.bound
    rw [ep0_in_data_more (ep0_in_begin (sie_ep0_done w .in_)) h.data_stage h.dir_in hc
      (by
        show 64 < w.ep0_state.data_len
        rw [h.data_len]
        exact hlt)
      (by
        show w.ep0_state.data_len < 65536
        rw [h.data_len]
        exact hb)]
    have hst : Staged ((ep0_in_begin (sie_ep0_done w .in_)).set_data_len
        ((ep0_in_begin (sie_ep0_done w .in_)).ep0_state.data_len - 64)) (S.drop 64) := by
      refine ⟨h.data_stage, h.dir_in, ?_, by rw [hlen]; omega, h.buffer, Or.inl (h.rest hlt)⟩
      show (w.ep0_state.data_len - 64) % 65536 = (S.drop 64).length
      rw [h.data_len, hlen]
      omega
    obtain ⟨s1, s2⟩ := ep0_in_fill_buffer_source ((ep0_in_begin (sie_ep0_done w .in_)).set_data_len
        ((ep0_in_begin (sie_ep0_done w .in_)).ep0_state.data_len - 64))
    exact InStage.of_fill _ _ _ _ _ hst rfl rfl s1 s2 rfl

theorem ep0_in_packets_idle (n : Nat) (m : Machine) (h : m.world.bds.ep0_in.armed = false) :
    ep0_in_packets n m = [] := by
  cases n with
  | zero => rfl
  | succ k =>
    unfold ep0_in_packets
    rw [if_neg (by rw [h]; exact Bool.false_ne_true)]

/-- The packets of a data stage that holds the bytes `S`: together they are `S`,
in order, none of them is longer than 64 bytes, and after them the stage has
ended. -/
theorem ep0_in_packets_stage (fuel : Nat) (m : Machine) (S : List Nat)
    (h : InStage m.world S) (hf : S.length < 64 * fuel) :
    (ep0_in_packets fuel m).flatten = S ∧ ∀ p ∈ ep0_in_packets fuel m, p.length ≤ 64 := by
  induction fuel generalizing m S with
  | zero => exact absurd hf (by omega)
  | succ k ih =>
    unfold ep0_in_packets
    rw [if_pos h.armed, h.packet]
    by_cases hS : S.length < 64
    · have hstop := h.stop hS
      rw [← ep0_in_complete_world] at hstop
      rw [ep0_in_packets_idle k _ hstop.1]
      refine ⟨?_, ?_⟩
      · rw [List.flatten_cons, List.flatten_nil, List.append_nil, List.take_of_length_le (by omega)]
      · intro p hp
        rw [List.mem_singleton] at hp
        rw [hp, List.length_take]
        omega
    · have hstep := h.step (by omega)
      rw [← ep0_in_complete_world] at hstep
      obtain ⟨i1, i2⟩ := ih (ep0_in_complete m) (S.drop 64) hstep (by
        rw [List.length_drop]
        omega)
      refine ⟨?_, ?_⟩
      · rw [List.flatten_cons, i1, List.take_append_drop]
      · intro p hp
        rcases List.mem_cons.mp hp with hp | hp
        · rw [hp, List.length_take]
          omega
        · exact i2 p hp

/-- The length `usb_service_ep0_get_descriptor` declares for a table is the
length of the table. -/
theorem rom_length (w : World) (obj : RomObject) :
    (if obj = .CONFIG_DESCRIPTOR then 75 else (w.rom obj).getD 0 0) = (w.rom obj).length := by
  cases obj <;> rfl

theorem ep0_setup_arm_in (v : World) (h1 : v.ep0_state.dir_in = true)
    (h2 : v.ep0_state.data_stage = true) :
    ep0_setup_arm v =
      { (ep0_in_fill_buffer
          (v.set_data_len (MIN v.ep0_state.data_len v.ep0_setup.wLength))).1 with
        bds := { v.bds with
          ep0_in := BD_ARM_DATA v.bds.ep0_in (get_bit v.bds.ep0_in.STAT 6)
            (ep0_in_fill_buffer
              (v.set_data_len (MIN v.ep0_state.data_len v.ep0_setup.wLength))).2 } } := by
  unfold ep0_setup_arm
  rw [h1, h2]
  simp only [Bool.and_self, if_true]
  obtain ⟨-, -, -, -, -, -, -, -, hbd⟩ :=
    ep0_in_fill_buffer_ep0_state (v.set_data_len (MIN v.ep0_state.data_len v.ep0_setup.wLength))
  generalize ep0_in_fill_buffer
    (v.set_data_len (MIN v.ep0_state.data_len v.ep0_setup.wLength)) = r at hbd ⊢
  obtain ⟨u, len⟩ := r
  simp only at hbd ⊢
  rw [hbd]
  rfl

theorem SourceReads.take {e : Ep0State} {rom : RomObject → List Nat} {lc S : List Nat}
    (h : SourceReads e rom lc S) (n : Nat) : SourceReads e rom lc (S.take n) := by
  have hm : (S.take n).length ≤ S.length := by
    rw [List.length_take]
    exact Nat.min_le_right _ _
  have ht : ∀ src ptr, read_bytes src ptr S.length = S →
      read_bytes src ptr (S.take n).length = S.take n := by
    intro src ptr hS
    rw [read_bytes_take src ptr _ _ hm, hS, List.take_eq_take, List.length_take]
    omega
  rcases h with ⟨hr, hS⟩ | ⟨hr, ha, hS⟩
  · exact Or.inl ⟨hr, ht _ _ hS⟩
  · exact Or.inr ⟨hr, ha, ht _ _ hS⟩

/-- The last statement of `ep0_handle_setup` for a request with an IN data
stage: the bytes are clipped to `wLength` and the first packet is armed. -/
theorem ep0_setup_arm_staged (v : World) (S : List Nat) (h : Staged v S) :
    InStage (ep0_setup_arm v) (S.take v.ep0_setup.wLength) := by
  rw [ep0_setup_arm_in v h.dir_in h.data_stage]
  have hlen : (S.take v.ep0_setup.wLength).length = min v.ep0_setup.wLength S.length :=
    List.length_take _ _
  have hb := h.bound
  have hst : Staged (v.set_data_len (MIN v.ep0_state.data_len v.ep0_setup.wLength))
      (S.take v.ep0_setup.wLength) := by
    refine ⟨h.data_stage, h.dir_in, ?_, by rw [hlen]; omega, h.buffer, ?_⟩
    · show MIN v.ep0_state.data_len v.ep0_setup.wLength % 65536 = _
      rw [h.data_len, hlen]
      unfold MIN
      split <;> omega
    · rcases h.source with hsrc | ⟨hr, ha, hS, h64⟩
      · exact Or.inl (hsrc.take _)
      · refine Or.inr ⟨hr, ha, ?_, by rw [hlen]; omega⟩
        show read_bytes v.ep0_in_buffer 0 (S.take v.ep0_setup.wLength).length = _
        rw [read_bytes_take _ 0 _ S.length (by rw [hlen]; omega), hS, List.take_eq_take,
          List.length_take]
        omega
  obtain ⟨s1, s2⟩ := ep0_in_fill_buffer_source
    (v.set_data_len (MIN v.ep0_state.data_len v.ep0_setup.wLength))
  exact InStage.of_fill _ _ _ _ _ hst rfl rfl s1 s2 rfl

theorem ep0_setup_congr (v w : World) (h : v.ep0_out_buffer = w.ep0_out_buffer) :
    v.ep0_setup = w.ep0_setup := by
  unfold World.ep0_setup
  rw [h]

theorem rom_congr (v w : World) (h1 : v.FW_MAJOR_VERSION = w.FW_MAJOR_VERSION)
    (h2 : v.FW_MINOR_VERSION = w.FW_MINOR_VERSION) : v.rom = w.rom := by
  funext obj
  cases obj <;> simp only [World.rom, DEVICE_DESCRIPTOR, h1, h2]

theorem rom_length_le (w : World) (obj : RomObject) : (w.rom obj).length ≤ 75 := by
  cases obj <;>
    simp [World.rom, DEVICE_DESCRIPTOR, CONFIG_DESCRIPTOR, STRING_DESCRIPTOR0, STRING_DESCRIPTOR1,
      STRING_DESCRIPTOR2]

theorem buffer_five (buf : List Nat) (h : buf.length = 64) :
    ∃ a b c d e rest, buf = a :: b :: c :: d :: e :: rest := by
  match buf, h with
  | a :: b :: c :: d :: e :: rest, _ => exact ⟨a, b, c, d, e, rest, rfl⟩

/-- The requests with an IN data stage leave their data staged for
`ep0_in_fill_buffer`: the length is the length of the source, and the source is
the table, the line coding record, or the buffer the request has filled. -/
theorem Ep0Request.effect_staged (r : Ep0Request) (w : World) (S : List Nat)
    (hb : w.ep0_in_buffer.length = 64) (hl : r = .get_line_coding → w.line_coding.length = 7)
    (hS : r.source w = some S) :
    Staged (r.effect (ep0_setup_begin w)) S := by
  obtain ⟨a, b, c, d, e, rest, hbuf⟩ := buffer_five _ hb
  obtain ⟨-, f1, f2, f3, f4, -⟩ :=
    set_tx_statf_flags_eq _ _ (Ep0Request.effect_flags r (ep0_setup_begin w))
  cases r with
  | get_status =>
    cases hS
    have e1 : (Ep0Request.get_status.effect (ep0_setup_begin w)).ep0_in_buffer =
        (w.ep0_in_buffer.set 0 (0 % 256)).set 1 (0 % 256) := by
      simp only [Ep0Request.effect, World.set_ep0_in, World.set_tx_statf, World.set_data_len]
      rfl
    refine ⟨f2.trans (by decide), f1.trans (by decide), ?_, by decide, ?_,
      Or.inr ⟨f3.trans (by decide), f4.trans (by decide), ?_, by decide⟩⟩
    · simp only [Ep0Request.effect, World.set_ep0_in, World.set_tx_statf, World.set_data_len]
      rfl
    · rw [e1, List.length_set, List.length_set, hb]
    · rw [e1, hbuf]
      rfl
  | get_descriptor obj =>
    cases hS
    have hlen := rom_length w obj
    have h75 : (w.rom obj).length < 65536 := Nat.lt_of_le_of_lt (rom_length_le w obj) (by decide)
    have a1 : (Ep0Request.effect (.get_descriptor obj) (ep0_setup_begin w)).FW_MAJOR_VERSION =
        w.FW_MAJOR_VERSION := by
      simp only [Ep0Request.effect, World.set_rom_source, World.set_tx_statf, World.set_data_len]
      rfl
    have a2 : (Ep0Request.effect (.get_descriptor obj) (ep0_setup_begin w)).FW_MINOR_VERSION =
        w.FW_MINOR_VERSION := by
      simp only [Ep0Request.effect, World.set_rom_source, World.set_tx_statf, World.set_data_len]
      rfl
    have e1 : (Ep0Request.effect (.get_descriptor obj) (ep0_setup_begin w)).rom = w.rom :=
      rom_congr _ _ a1 a2
    have e2 : (Ep0Request.effect (.get_descriptor obj) (ep0_setup_begin w)).ep0_state.rom_obj =
        obj := by
      simp only [Ep0Request.effect, World.set_rom_source, World.set_tx_statf, World.set_data_len]
      rfl
    have e3 : (Ep0Request.effect (.get_descriptor obj)
        (ep0_setup_begin w)).ep0_state.rom_in_ptr = 0 := by
      simp only [Ep0Request.effect, World.set_rom_source, World.set_tx_statf, World.set_data_len]
      rfl
    have e4 : (Ep0Request.effect (.get_descriptor obj)
        (ep0_setup_begin w)).ep0_state.data_len = (w.rom obj).length := by
      rw [← Nat.mod_eq_of_lt h75, ← hlen]
      simp only [Ep0Request.effect, World.set_rom_source, World.set_tx_statf, World.set_data_len]
      rfl
    have e5 : (Ep0Request.effect (.get_descriptor obj) (ep0_setup_begin w)).ep0_in_buffer =
        w.ep0_in_buffer := by
      simp only [Ep0Request.effect, World.set_rom_source, World.set_tx_statf, World.set_data_len]
      rfl
    refine ⟨f2.trans (by decide : get_bit (TX_STATF_DIR_IN ||| TX_STATF_DATA_STAGE |||
        TX_STATF_DATA_ROM) 2 = true),
      f1.trans (by decide : get_bit (TX_STATF_DIR_IN ||| TX_STATF_DATA_STAGE |||
        TX_STATF_DATA_ROM) 1 = true), e4, h75, e5.symm ▸ hb, Or.inl (Or.inl
      ⟨f3.trans (by decide : get_bit (TX_STATF_DIR_IN ||| TX_STATF_DATA_STAGE |||
        TX_STATF_DATA_ROM) 3 = true), ?_⟩)⟩
    rw [e1, e2, e3]
    exact read_bytes_all _
  | get_configuration =>
    cases hS
    have e1 : (Ep0Request.get_configuration.effect (ep0_setup_begin w)).ep0_in_buffer =
        w.ep0_in_buffer.set 0 ((if w.usb_state.configured = true then 1 else 0) % 256) := by
      simp only [Ep0Request.effect, World.set_ep0_in, World.set_tx_statf, World.set_data_len]
      rfl
    refine ⟨f2.trans (by decide), f1.trans (by decide), ?_, (by decide : 1 < 65536), ?_,
      Or.inr ⟨f3.trans (by decide), f4.trans (by decide), ?_, (by decide : 1 ≤ 64)⟩⟩
    · simp only [Ep0Request.effect, World.set_ep0_in, World.set_tx_statf, World.set_data_len]
      rfl
    · rw [e1, List.length_set, hb]
    · rw [e1, hbuf]
      cases w.usb_state.configured <;> rfl
  | get_interface =>
    cases hS
    have e1 : (Ep0Request.get_interface.effect (ep0_setup_begin w)).ep0_in_buffer =
        w.ep0_in_buffer.set 0 (0 % 256) := by
      simp only [Ep0Request.effect, World.set_ep0_in, World.set_tx_statf, World.set_data_len]
      rfl
    refine ⟨f2.trans (by decide), f1.trans (by decide), ?_, by decide, ?_,
      Or.inr ⟨f3.trans (by decide), f4.trans (by decide), ?_, by decide⟩⟩
    · simp only [Ep0Request.effect, World.set_ep0_in, World.set_tx_statf, World.set_data_len]
      rfl
    · rw [e1, List.length_set, hb]
    · rw [e1, hbuf]
      rfl
  | get_encapsulated_response =>
    cases hS
    have e1 : (Ep0Request.get_encapsulated_response.effect (ep0_setup_begin w)).ep0_in_buffer =
        w.ep0_in_buffer := by
      simp only [Ep0Request.effect, World.set_ep0_in, World.set_tx_statf, World.set_data_len]
      rfl
    refine ⟨f2.trans (by decide), f1.trans (by decide), ?_, by decide, ?_,
      Or.inr ⟨f3.trans (by decide), f4.trans (by decide), rfl, by decide⟩⟩
    · simp only [Ep0Request.effect, World.set_ep0_in, World.set_tx_statf, World.set_data_len]
      rfl
    · rw [e1, hb]
  | get_line_coding =>
    cases hS
    have hl := hl rfl
    have e1 : (Ep0Request.get_line_coding.effect (ep0_setup_begin w)).line_coding =
        w.line_coding := by
      simp only [Ep0Request.effect, World.set_tx_statf, World.set_data_len]
      rfl
    have e3 : (Ep0Request.get_line_coding.effect (ep0_setup_begin w)).ep0_state.ram_in_ptr =
        0 := by
      simp only [Ep0Request.effect, World.set_tx_statf, World.set_data_len]
      rfl
    have e4 : (Ep0Request.get_line_coding.effect (ep0_setup_begin w)).ep0_state.data_len =
        w.line_coding.length := by
      rw [hl]
      simp only [Ep0Request.effect, World.set_tx_statf, World.set_data_len]
      rfl
    have e5 : (Ep0Request.get_line_coding.effect (ep0_setup_begin w)).ep0_in_buffer =
        w.ep0_in_buffer := by
      simp only [Ep0Request.effect, World.set_tx_statf, World.set_data_len]
      rfl
    refine ⟨f2.trans (by decide), f1.trans (by decide), e4, by rw [hl]; decide, e5.symm ▸ hb,
      Or.inl (Or.inr ⟨f3.trans (by decide), f4.trans (by decide), ?_⟩)⟩
    rw [e1, e3]
    exact read_bytes_all _
  | vendor_identify =>
    cases hS
    have e1 : (Ep0Request.vendor_identify.effect (ep0_setup_begin w)).ep0_in_buffer =
        ((((w.ep0_in_buffer.set 0 (0x99 % 256)).set 1
          (w.bootloader_version % 256)).set 2 ((w.bootloader_version >>> 8) % 256)).set 3
          (w.FW_MINOR_VERSION % 256)).set 4 (w.FW_MAJOR_VERSION % 256) := by
      simp only [Ep0Request.effect, World.set_ep0_in, World.set_tx_statf, World.set_data_len]
      rfl
    refine ⟨f2.trans (by decide), f1.trans (by decide), ?_, (by decide : 5 < 65536), ?_,
      Or.inr ⟨f3.trans (by decide), f4.trans (by decide), ?_, (by decide : 5 ≤ 64)⟩⟩
    · simp only [Ep0Request.effect, World.set_ep0_in, World.set_tx_statf, World.set_data_len]
      rfl
    · rw [e1]
      simp only [List.length_set, hb]
    · rw [e1, hbuf, Nat.shiftRight_eq_div_pow]
      rfl
  | set_address => cases hS
  | set_configuration value => cases hS
  | set_interface => cases hS
  | send_encapsulated_command => cases hS
  | set_line_coding => cases hS
  | set_control_line_state => cases hS
  | vendor_reset => cases hS

theorem Ep0Request.effect_setup (r : Ep0Request) (w : World) (S : List Nat)
    (hS : r.source w = some S) :
    (r.effect (ep0_setup_begin w)).ep0_out_buffer = w.ep0_out_buffer := by
  cases r <;> first
    | (cases hS; done)
    | (simp only [Ep0Request.effect, World.set_ep0_in, World.set_tx_statf, World.set_data_len,
        World.set_rom_source]
       rfl)

/-- C23.  A SETUP packet that matches a request `r` of section 4.1 with an IN
data stage, whose source holds the bytes `S`, with the transmit buffer of 64
bytes and the line coding record of 7: the packets armed by `ep0_handle_setup`
and by the runs of `ep0_in_transfer` for the IN transactions that follow, as
many as `fuel` of them, with `fuel` large enough for the clipped length, are in
total and in order exactly the first `min |S| wLength` bytes of `S`, and none
of them is longer than 64 bytes. -/
theorem in_data_clipped (m : Machine) (r : Ep0Request) (S : List Nat) (fuel : Nat)
    (hb : m.world.ep0_in_buffer.length = 64) (hl : m.world.line_coding.length = 7)
    (hr : ep0_request_spec m.world.ep0_setup m.world.usb_state.configured = some r)
    (hS : r.source m.world = some S)
    (hf : min S.length m.world.ep0_setup.wLength < 64 * fuel) :
    (ep0_in_packets fuel (m.map ep0_handle_setup)).flatten =
      S.take (min S.length m.world.ep0_setup.wLength) ∧
    ∀ p ∈ ep0_in_packets fuel (m.map ep0_handle_setup), p.length ≤ 64 := by
  have hw : (m.map ep0_handle_setup).world =
      ep0_setup_arm (r.effect (ep0_setup_begin m.world)) := by
    show ep0_handle_setup m.world = _
    rw [ep0_handle_setup_spec, hr]
    rfl
  have hst := Ep0Request.effect_staged r m.world S hb (fun _ => hl) hS
  have hin := ep0_setup_arm_staged _ S hst
  rw [ep0_setup_congr _ _ (Ep0Request.effect_setup r m.world S hS), ← hw] at hin
  have ht : S.take (min S.length m.world.ep0_setup.wLength) = S.take m.world.ep0_setup.wLength := by
    rw [List.take_eq_take]
    omega
  rw [ht]
  exact ep0_in_packets_stage fuel _ _ hin (by
    rw [List.length_take]
    omega)

/-- C23 at a concrete input: GET_DESCRIPTOR for the configuration descriptor of
75 bytes with `wLength = 255` on the sample machine.  The host reads a packet
of 64 bytes and a packet of 11, together the descriptor. -/
theorem in_data_clipped_witness :
    (Machine.get_config_sample 255).world.ep0_in_buffer.length = 64 ∧
    (Machine.get_config_sample 255).world.line_coding.length = 7 ∧
    ep0_request_spec (Machine.get_config_sample 255).world.ep0_setup
      (Machine.get_config_sample 255).world.usb_state.configured =
        some (.get_descriptor .CONFIG_DESCRIPTOR) ∧
    (ep0_in_packets 2 ((Machine.get_config_sample 255).map ep0_handle_setup)).map List.length =
      [64, 11] ∧
    ((ep0_in_packets 2 ((Machine.get_config_sample 255).map ep0_handle_setup)).flatten =
        CONFIG_DESCRIPTOR.take (min CONFIG_DESCRIPTOR.length
          (Machine.get_config_sample 255).world.ep0_setup.wLength) ∧
      ∀ p ∈ ep0_in_packets 2 ((Machine.get_config_sample 255).map ep0_handle_setup),
        p.length ≤ 64) :=
  ⟨by decide, by decide, by decide, by decide,
    in_data_clipped (Machine.get_config_sample 255) (.get_descriptor .CONFIG_DESCRIPTOR)
      CONFIG_DESCRIPTOR 2 (by decide) (by decide) (by decide) rfl (by decide)⟩

/-- C24.  `ep0_in_transfer` during a control IN data stage.  If the completed
packet was short (fewer than 64 bytes), the data stage ends: `data_stage` is
cleared, the OUT descriptor is armed for the status stage and the IN descriptor
is stalled, so no further IN data packet is armed.  If the completed packet had
64 bytes and used up the remaining length exactly, the data stage does not end:
`data_stage` stays set, the OUT descriptor is left as it is, and the IN
descriptor is armed with a data packet of length zero (whose completion, being
short, then ends the stage). -/
theorem in_stage_ends_on_short_packet (m : Machine)
    (hs : m.world.ep0_state.data_stage = true) (hd : m.world.ep0_state.dir_in = true) :
    (m.world.bds.ep0_in.BC_L < 64 →
      (ep0_in_transfer m).world.ep0_state.data_stage = false ∧
      (ep0_in_transfer m).world.bds.ep0_out = BD_ARM_CTRL_STATUS m.world.bds.ep0_out 64 ∧
      (ep0_in_transfer m).world.bds.ep0_out.armed = true ∧
      (ep0_in_transfer m).world.bds.ep0_in.armed = false) ∧
    (m.world.bds.ep0_in.BC_L = 64 → m.world.ep0_state.data_len = 64 →
      (ep0_in_transfer m).world.ep0_state.data_stage = true ∧
      (ep0_in_transfer m).world.bds.ep0_out = m.world.bds.ep0_out ∧
      (ep0_in_transfer m).world.bds.ep0_in.armed = true ∧
      (ep0_in_transfer m).world.bds.ep0_in.BC_L = 0) := by
  rw [ep0_in_transfer_world]
  refine ⟨fun hc => ?_, fun hc hl => ?_⟩
  · obtain ⟨h1, h2, h3⟩ := ep0_in_data_short (ep0_in_begin m.world) hs hd hc
    rw [h2, h3]
    exact ⟨h1, rfl, BD_ARM_CTRL_STATUS_armed _ _, BD_ARM_STALL_armed _ _⟩
  · obtain ⟨h1, -, -, h4, h5, -⟩ := ep0_in_data_zlp (ep0_in_begin m.world) hs hd hc hl
    rw [h4, h5]
    exact ⟨h1, rfl, BD_ARM_DATA_armed _ _ _, rfl⟩

/-- C24 at a concrete input: on the sample machine the completed packet has 64
bytes and has used up the length, and `ep0_in_transfer` keeps the data stage
and arms a packet of length zero. -/
theorem in_stage_ends_on_short_packet_witness :
    Machine.full_packet_sample.world.ep0_state.data_stage = true ∧
    Machine.full_packet_sample.world.ep0_state.dir_in = true ∧
    Machine.full_packet_sample.world.bds.ep0_in.BC_L = 64 ∧
    Machine.full_packet_sample.world.ep0_state.data_len = 64 ∧
    (ep0_in_transfer Machine.full_packet_sample).world.ep0_state.data_stage = true ∧
    (ep0_in_transfer Machine.full_packet_sample).world.bds.ep0_in.BC_L = 0 :=
  have h := (in_stage_ends_on_short_packet Machine.full_packet_sample (by decide)
    (by decide)).2 (by decide) (by decide)
  ⟨by decide, by decide, by decide, by decide, h.1, h.2.2.2⟩

/-- C24 as stated fails: on the sample machine the completed packet has used up
the remaining length exactly, and yet `ep0_in_transfer` does not clear
`data_stage`, does not arm the OUT descriptor for the status stage, and arms a
further IN data packet. -/
theorem exhausted_length_keeps_stage :
    Machine.full_packet_sample.world.ep0_state.data_stage = true ∧
    Machine.full_packet_sample.world.ep0_state.dir_in = true ∧
    Machine.full_packet_sample.world.ep0_state.data_len =
      Machine.full_packet_sample.world.bds.ep0_in.BC_L ∧
    ¬ ((ep0_in_transfer Machine.full_packet_sample).world.ep0_state.data_stage = false ∧
      (ep0_in_transfer Machine.full_packet_sample).world.bds.ep0_out.armed = true ∧
      (ep0_in_transfer Machine.full_packet_sample).world.bds.ep0_in.armed = false) ∧
    (ep0_in_transfer Machine.full_packet_sample).world.ep0_state.data_stage = true ∧
    (ep0_in_transfer Machine.full_packet_sample).world.bds.ep0_out.armed = false ∧
    (ep0_in_transfer Machine.full_packet_sample).world.bds.ep0_in.armed = true := by
  decide

/-- The last statement of `ep0_handle_setup` touches the descriptors of
endpoint 0 only: the state of the device and of the bulk pipe is left alone. -/
theorem ep0_setup_arm_bulk (w : World) :
    (ep0_setup_arm w).usb_state = w.usb_state ∧
    (ep0_setup_arm w).bulk_in = w.bulk_in ∧
    (ep0_setup_arm w).bulk_out = w.bulk_out ∧
    (ep0_setup_arm w).bds.ep2_out_even = w.bds.ep2_out_even ∧
    (ep0_setup_arm w).bds.ep2_out_odd = w.bds.ep2_out_odd := by
  unfold ep0_setup_arm ep0_in_fill_buffer ep0_stall
  simp only []
  split_ifs <;> exact ⟨rfl, rfl, rfl, rfl, rfl⟩

/-- `usb_config_activate`: the device is configured, the pipe flags are clear,
the toggles of both directions are 0, and both OUT halves are armed for 64
bytes and busy: first the half named by the parity the engine is at, with
toggle 0, then the other half, with toggle 1; the parity of the CPU side is the
one `pipe_reset` gave it. -/
theorem usb_config_activate_spec (x : World) :
    (usb_config_activate x).usb_state.configured = true ∧
    ((usb_config_activate x).pipe_state.device_reset = false ∧
      (usb_config_activate x).pipe_state.rx_slice_valid = false ∧
      (usb_config_activate x).pipe_state.tx_slice_valid = false ∧
      (usb_config_activate x).pipe_state.tx_need_zlp = false) ∧
    ((usb_config_activate x).bulk_out.cpu_dts = false ∧
      (usb_config_activate x).bulk_out.sie_dts = false ∧
      (usb_config_activate x).bulk_in.cpu_dts = false ∧
      (usb_config_activate x).bulk_in.sie_dts = false) ∧
    (usb_config_activate x).out_bd x.bulk_out.sie_odd =
      BD_ARM_DATA ((x.out_bd x.bulk_out.sie_odd).set_UOWN false) false 64 ∧
    (usb_config_activate x).out_bd (!x.bulk_out.sie_odd) =
      BD_ARM_DATA ((x.out_bd (!x.bulk_out.sie_odd)).set_UOWN false) true 64 ∧
    ((usb_config_activate x).bulk_out.even_busy = true ∧
      (usb_config_activate x).bulk_out.odd_busy = true) ∧
    (usb_config_activate x).bulk_out.cpu_odd = x.bulk_out.sie_odd := by
  unfold usb_config_activate pipe_arm_rx pipe_reset USB_SYNC_ACTIVE_FLAG World.out_bd
  cases h : x.bulk_out.sie_odd <;> simp [h, FLIP_BIT, EP2_PACKET_SIZE]

/-- `usb_config_deactivate`: the device is not configured, the bulk pipe is not
active, and the pipe flags are clear. -/
theorem usb_config_deactivate_spec (x : World) :
    (usb_config_deactivate x).usb_state.configured = false ∧
    (usb_config_deactivate x).usb_state.active = false ∧
    (usb_config_deactivate x).pipe_state.device_reset = false ∧
    (usb_config_deactivate x).pipe_state.rx_slice_valid = false ∧
    (usb_config_deactivate x).pipe_state.tx_slice_valid = false ∧
    (usb_config_deactivate x).pipe_state.tx_need_zlp = false :=
  ⟨rfl, rfl, rfl, rfl, rfl, rfl⟩

theorem pipe_arm_rx_twice (x : World) :
    (pipe_arm_rx (pipe_arm_rx x)).bulk_out.cpu_odd = x.bulk_out.cpu_odd ∧
    (pipe_arm_rx (pipe_arm_rx x)).bulk_out.cpu_dts = x.bulk_out.cpu_dts := by
  obtain ⟨-, -, -, -, -, -, h1, h2, -⟩ := pipe_arm_rx_effect x
  obtain ⟨-, -, -, -, -, -, k1, k2, -⟩ := pipe_arm_rx_effect (pipe_arm_rx x)
  rw [k1, k2, h1, h2, Bool.not_not, Bool.not_not]
  exact ⟨rfl, rfl⟩

theorem ep0_request_spec_set_configuration (s : UsbSetupPacket) (c : Bool)
    (h1 : s.bmRequestType = 0x00) (h2 : s.bRequest = SET_CONFIGURATION)
    (h3 : s.wValue = 0 ∨ s.wValue = 1) :
    ep0_request_spec s c = some (.set_configuration s.wValue) := by
  unfold ep0_request_spec
  simp +decide [h1, h2, h3]

theorem ep0_request_spec_get_configuration (s : UsbSetupPacket) (c : Bool)
    (h1 : s.bmRequestType = 0x80) (h2 : s.bRequest = GET_CONFIGURATION) :
    ep0_request_spec s c = some .get_configuration := by
  unfold ep0_request_spec
  simp +decide [h1, h2]

/-- C26.  `ep0_handle_setup` for the configuration requests.
SET_CONFIGURATION with value 1 leaves the device configured, the pipe flags
clear (no reset pending, no valid slice, no packet of length zero owed), the
toggles of the CPU and of the engine 0 in both bulk directions, and both OUT
halves armed for 64 bytes and busy: the half named by the parity of the engine
with toggle 0 (it is armed first), the other half with toggle 1; the parity of
the CPU side is the one `pipe_reset` gave it before the halves were armed, the
two calls of `pipe_arm_rx` leaving it as it was.  SET_CONFIGURATION with value
0 leaves the device not configured, the pipe not active and the pipe flags
clear.  GET_CONFIGURATION with a `wLength` of at least 1 arms one packet of one
byte, 1 if the device is configured and 0 if not. -/
theorem set_configuration_spec (w : World) :
    (w.ep0_setup.bmRequestType = 0x00 → w.ep0_setup.bRequest = SET_CONFIGURATION →
      w.ep0_setup.wValue = 1 →
      (ep0_handle_setup w).usb_state.configured = true ∧
      ((ep0_handle_setup w).pipe_state.device_reset = false ∧
        (ep0_handle_setup w).pipe_state.rx_slice_valid = false ∧
        (ep0_handle_setup w).pipe_state.tx_slice_valid = false ∧
        (ep0_handle_setup w).pipe_state.tx_need_zlp = false) ∧
      ((ep0_handle_setup w).bulk_out.cpu_dts = false ∧
        (ep0_handle_setup w).bulk_out.sie_dts = false ∧
        (ep0_handle_setup w).bulk_in.cpu_dts = false ∧
        (ep0_handle_setup w).bulk_in.sie_dts = false) ∧
      (ep0_handle_setup w).out_bd w.bulk_out.sie_odd =
        BD_ARM_DATA ((w.out_bd w.bulk_out.sie_odd).set_UOWN false) false 64 ∧
      (ep0_handle_setup w).out_bd (!w.bulk_out.sie_odd) =
        BD_ARM_DATA ((w.out_bd (!w.bulk_out.sie_odd)).set_UOWN false) true 64 ∧
      ((ep0_handle_setup w).bulk_out.even_busy = true ∧
        (ep0_handle_setup w).bulk_out.odd_busy = true) ∧
      (ep0_handle_setup w).bulk_out.cpu_odd = w.bulk_out.sie_odd) ∧
    (w.ep0_setup.bmRequestType = 0x00 → w.ep0_setup.bRequest = SET_CONFIGURATION →
      w.ep0_setup.wValue = 0 →
      (ep0_handle_setup w).usb_state.configured = false ∧
      (ep0_handle_setup w).usb_state.active = false ∧
      (ep0_handle_setup w).pipe_state.device_reset = false ∧
      (ep0_handle_setup w).pipe_state.rx_slice_valid = false ∧
      (ep0_handle_setup w).pipe_state.tx_slice_valid = false ∧
      (ep0_handle_setup w).pipe_state.tx_need_zlp = false) ∧
    (w.ep0_setup.bmRequestType = 0x80 → w.ep0_setup.bRequest = GET_CONFIGURATION →
      0 < w.ep0_setup.wLength → w.ep0_in_buffer.length = 64 →
      (ep0_handle_setup w).bds.ep0_in.armed = true ∧
      (ep0_handle_setup w).ep0_in_packet = [if w.usb_state.configured then 1 else 0]) ∧
    ∀ x : World, (pipe_arm_rx (pipe_arm_rx x)).bulk_out.cpu_odd = x.bulk_out.cpu_odd := by
  refine ⟨fun h1 h2 h3 => ?_, fun h1 h2 h3 => ?_, fun h1 h2 h3 hb => ?_,
    fun x => (pipe_arm_rx_twice x).1⟩
  · have hr := ep0_request_spec_set_configuration w.ep0_setup w.usb_state.configured h1 h2
      (Or.inr h3)
    rw [h3] at hr
    rw [ep0_handle_setup_spec, hr]
    obtain ⟨a1, a2, a3, a4, a5⟩ := ep0_setup_arm_bulk (ep0_effect (ep0_setup_begin w)
      (some (.set_configuration 1)))
    have ap := ep0_setup_arm_pipe (ep0_effect (ep0_setup_begin w) (some (.set_configuration 1)))
    obtain ⟨s1, s2, s3, s4, s5, s6, s7⟩ := usb_config_activate_spec (ep0_setup_begin w)
    have ob : ∀ b, (ep0_setup_arm (ep0_effect (ep0_setup_begin w)
        (some (.set_configuration 1)))).out_bd b =
        (usb_config_activate (ep0_setup_begin w)).out_bd b := by
      intro b
      unfold World.out_bd
      rw [a4, a5]
      rfl
    rw [a1, a2, a3, ap, ob, ob]
    exact ⟨s1, s2, s3, s4, s5, s6, s7⟩
  · have hr := ep0_request_spec_set_configuration w.ep0_setup w.usb_state.configured h1 h2
      (Or.inl h3)
    rw [h3] at hr
    rw [ep0_handle_setup_spec, hr]
    obtain ⟨a1, -, -, -, -⟩ := ep0_setup_arm_bulk (ep0_effect (ep0_setup_begin w)
      (some (.set_configuration 0)))
    have ap := ep0_setup_arm_pipe (ep0_effect (ep0_setup_begin w) (some (.set_configuration 0)))
    rw [a1, ap]
    exact usb_config_deactivate_spec (ep0_setup_begin w)
  · have hr := ep0_request_spec_get_configuration w.ep0_setup w.usb_state.configured h1 h2
    have hst := Ep0Request.effect_staged .get_configuration w _ hb
      (fun h => Ep0Request.noConfusion h) rfl
    have hin := ep0_setup_arm_staged _ _ hst
    rw [ep0_setup_congr _ _ (Ep0Request.effect_setup .get_configuration w _ rfl)] at hin
    rw [ep0_handle_setup_spec, hr]
    refine ⟨hin.armed, hin.packet.trans ?_⟩
    obtain ⟨n, hn⟩ := Nat.exists_eq_succ_of_ne_zero (Nat.pos_iff_ne_zero.mp h3)
    rw [hn]
    simp

/-- C26 at concrete inputs: SET_CONFIGURATION with value 1 on the sample machine
in the DEFAULT state, and GET_CONFIGURATION on the configured sample
machine. -/
theorem set_configuration_spec_witness :
    (Machine.default_sample.setup_world [0x00, 9, 1, 0, 0, 0, 0, 0]).ep0_setup.wValue = 1 ∧
    (ep0_handle_setup
      (Machine.default_sample.setup_world [0x00, 9, 1, 0, 0, 0, 0, 0])).usb_state.configured =
        true ∧
    (ep0_handle_setup
      (Machine.default_sample.setup_world [0x00, 9, 1, 0, 0, 0, 0, 0])).bulk_out.odd_busy =
        true ∧
    (Machine.configured_sample.setup_world [0x80, 8, 0, 0, 0, 0, 1, 0]).usb_state.configured =
      true ∧
    (ep0_handle_setup
      (Machine.configured_sample.setup_world [0x80, 8, 0, 0, 0, 0, 1, 0])).ep0_in_packet = [1] :=
  have h := set_configuration_spec (Machine.default_sample.setup_world [0x00, 9, 1, 0, 0, 0, 0, 0])
  have k := set_configuration_spec
    (Machine.configured_sample.setup_world [0x80, 8, 0, 0, 0, 0, 1, 0])
  ⟨by decide, (h.1 (by decide) (by decide) (by decide)).1,
    (h.1 (by decide) (by decide) (by decide)).2.2.2.2.2.1.2, by decide,
    (k.2.2.1 (by decide) (by decide) (by decide) (by decide)).2⟩

theorem usb_event_peie (w : World) (e : UsbEvent) :
    (usb_event w e).PEIE = w.PEIE ∧ (usb_event w e).peie_save = w.peie_save := by
  cases e with
  | ep2_out ppbi data => cases ppbi <;> exact ⟨rfl, rfl⟩
  | ep2_in ppbi => cases ppbi <;> exact ⟨rfl, rfl⟩

theorem usb_events_peie (batch : List UsbEvent) (w : World) :
    (batch.foldl usb_event w).PEIE = w.PEIE ∧
    (batch.foldl usb_event w).peie_save = w.peie_save := by
  induction batch generalizing w with
  | nil => exact ⟨rfl, rfl⟩
  | cons e rest ih =>
    rw [List.foldl_cons]
    obtain ⟨h1, h2⟩ := ih (usb_event w e)
    obtain ⟨k1, k2⟩ := usb_event_peie w e
    exact ⟨h1.trans k1, h2.trans k2⟩

theorem irq_peie (w : World) : (irq w).PEIE = w.PEIE ∧ (irq w).peie_save = w.peie_save := by
  unfold irq
  split
  · split
    · exact ⟨rfl, rfl⟩
    · rename_i batch rest _
      exact usb_events_peie batch { w with pending := rest }
  · exact ⟨rfl, rfl⟩

theorem BEGIN_CRITICAL_SECTION_peie (w : World) :
    (BEGIN_CRITICAL_SECTION w).PEIE = false ∧ (BEGIN_CRITICAL_SECTION w).peie_save = w.PEIE :=
  ⟨rfl, (irq_peie w).1⟩

theorem END_CRITICAL_SECTION_peie (w : World) :
    (END_CRITICAL_SECTION w).PEIE = (w.peie_save || w.PEIE) ∧
    (END_CRITICAL_SECTION w).peie_save = w.peie_save := by
  unfold END_CRITICAL_SECTION
  cases h : w.peie_save
  · exact ⟨rfl, h⟩
  · exact ⟨rfl, rfl⟩

/-- C31, as the code has it.  A critical section that is not nested restores
the enable bit `PEIE`: inside the section the bit is 0, and `END` after a body
that leaves the bit and the saved copy alone gives the bit the value it had
before `BEGIN`.  The guard keeps one saved copy and is not safe for nesting:
in `BEGIN; BEGIN; END; END` the bit is 0 throughout the outer section, the
inner `BEGIN` overwrites the saved copy with 0, and after the outer `END` the
bit is 0 whatever it was before. -/
theorem critical_section_restores (w : World) (body : World → World)
    (hb : ∀ x, (body x).PEIE = x.PEIE ∧ (body x).peie_save = x.peie_save) :
    (BEGIN_CRITICAL_SECTION w).PEIE = false ∧
    (body (BEGIN_CRITICAL_SECTION w)).PEIE = false ∧
    (END_CRITICAL_SECTION (body (BEGIN_CRITICAL_SECTION w))).PEIE = w.PEIE ∧
    ((BEGIN_CRITICAL_SECTION (BEGIN_CRITICAL_SECTION w)).PEIE = false ∧
      (BEGIN_CRITICAL_SECTION (BEGIN_CRITICAL_SECTION w)).peie_save = false ∧
      (END_CRITICAL_SECTION (BEGIN_CRITICAL_SECTION (BEGIN_CRITICAL_SECTION w))).PEIE = false ∧
      (END_CRITICAL_SECTION (END_CRITICAL_SECTION
        (BEGIN_CRITICAL_SECTION (BEGIN_CRITICAL_SECTION w)))).PEIE = false) := by
  obtain ⟨b1, b2⟩ := BEGIN_CRITICAL_SECTION_peie w
  obtain ⟨c1, c2⟩ := BEGIN_CRITICAL_SECTION_peie (BEGIN_CRITICAL_SECTION w)
  obtain ⟨d1, d2⟩ := hb (BEGIN_CRITICAL_SECTION w)
  refine ⟨b1, d1.trans b1, ?_, c1, c2.trans b1, ?_, ?_⟩
  · rw [(END_CRITICAL_SECTION_peie _).1, d1, d2, b1, b2, Bool.or_false]
  · rw [(END_CRITICAL_SECTION_peie _).1, c1, c2, b1]
    rfl
  · rw [(END_CRITICAL_SECTION_peie _).1, (END_CRITICAL_SECTION_peie _).2,
      (END_CRITICAL_SECTION_peie _).1, c1, c2, b1]
    rfl

/-- C31 at a concrete input: the sample world with the enable bit set, the body
that exposes the even IN half as the transmit slice. -/
theorem critical_section_restores_witness :
    World.peie_sample.PEIE = true ∧
    (END_CRITICAL_SECTION (tx_take_even (BEGIN_CRITICAL_SECTION World.peie_sample))).PEIE =
      World.peie_sample.PEIE :=
  ⟨by decide,
    (critical_section_restores World.peie_sample tx_take_even (fun _ => ⟨rfl, rfl⟩)).2.2.1⟩

/-- C31 refuted as written: with the enable bit set before, the nested sections
`BEGIN; BEGIN; END; END` leave it clear. -/
theorem nested_section_loses_peie :
    World.peie_sample.PEIE = true ∧
    (END_CRITICAL_SECTION (END_CRITICAL_SECTION
      (BEGIN_CRITICAL_SECTION (BEGIN_CRITICAL_SECTION World.peie_sample)))).PEIE = false := by
  decide

theorem set_bit_true_eq (f k : Nat) :
    set_bit f k true = if f / 2 ^ k % 2 = 1 then f else f + 2 ^ k := by
  unfold set_bit
  rw [if_pos rfl]
  have hp : 0 < 2 ^ k := Nat.pow_pos (by decide)
  split
  · rename_i h
    have hle : 2 ^ k ≤ f := by
      by_contra hlt
      rw [Nat.div_eq_of_lt (Nat.lt_of_not_le hlt)] at h
      exact absurd h (by decide)
    rw [h, Nat.one_mul, Nat.sub_add_cancel hle]
  · rename_i h
    have h0 : f / 2 ^ k % 2 = 0 := by omega
    rw [h0, Nat.zero_mul, Nat.sub_zero]

theorem add_pow_bit (f k j : Nat) (h : f / 2 ^ k % 2 = 0) :
    (f + 2 ^ k) / 2 ^ j % 2 = if j = k then 1 else f / 2 ^ j % 2 := by
  have hp : ∀ n, 0 < 2 ^ n := fun n => Nat.pow_pos (by decide)
  rcases Nat.lt_trichotomy j k with hjk | hjk | hjk
  · rw [if_neg (Nat.ne_of_lt hjk)]
    obtain ⟨d, rfl⟩ := Nat.exists_eq_add_of_lt hjk
    have e : 2 ^ (j + d + 1) = 2 ^ j * (2 * 2 ^ d) := by
      rw [Nat.pow_succ, Nat.pow_add]
      ring
    rw [e, Nat.add_mul_div_left _ _ (hp j), Nat.add_mul_mod_self_left]
  · subst hjk
    rw [if_pos rfl, Nat.add_div_right _ (hp j)]
    omega
  · rw [if_neg (Nat.ne_of_gt hjk)]
    obtain ⟨d, rfl⟩ := Nat.exists_eq_add_of_lt hjk
    have e : 2 ^ (k + d + 1) = 2 ^ (k + 1) * 2 ^ d := by
      rw [Nat.pow_add, Nat.pow_add, Nat.pow_add]
      ring
    have hs : (f + 2 ^ k) / 2 ^ (k + 1) = f / 2 ^ (k + 1) := by
      have h1 : f / 2 ^ (k + 1) = f / 2 ^ k / 2 := by
        rw [Nat.pow_succ, Nat.div_div_eq_div_mul]
      have h2 : (f + 2 ^ k) / 2 ^ (k + 1) = (f + 2 ^ k) / 2 ^ k / 2 := by
        rw [Nat.pow_succ, Nat.div_div_eq_div_mul]
      rw [h1, h2, Nat.add_div_right _ (hp k)]
      omega
    rw [e, ← Nat.div_div_eq_div_mul, ← Nat.div_div_eq_div_mul, hs]

theorem set_flag_bit (f k j : Nat) :
    get_bit (set_bit f k true) j = (decide (j = k) || get_bit f j) := by
  unfold get_bit
  rw [set_bit_true_eq]
  by_cases hb : f / 2 ^ k % 2 = 1
  · rw [if_pos hb]
    by_cases hj : j = k
    · subst hj
      simp [hb]
    · simp [hj]
  · rw [if_neg hb, add_pow_bit f k j (by omega)]
    by_cases hj : j = k
    · simp [hj]
    · simp [hj]

theorem DiagFrame.diag_refl (w : World) : DiagFrame w w := by
  exact ⟨rfl⟩

theorem DiagFrame.diag_trans {a b c : World} (h1 : DiagFrame a b) (h2 : DiagFrame b c) :
    DiagFrame a c := by
  constructor
  · exact h2.diagnostics.trans h1.diagnostics

theorem USB_SYNC_ACTIVE_FLAG_diag (w : World) : DiagFrame w (USB_SYNC_ACTIVE_FLAG w) := by
  exact ⟨rfl⟩

theorem pipe_reset_diag (w : World) : DiagFrame w (pipe_reset w) := by
  exact ⟨rfl⟩

theorem pipe_arm_rx_diag (w : World) : DiagFrame w (pipe_arm_rx w) := by
  unfold pipe_arm_rx
  by_cases h : w.bulk_out.cpu_odd = true <;> simp only [h, if_true, if_false] <;>
    exact ⟨rfl⟩

theorem usb_config_deactivate_diag (w : World) : DiagFrame w (usb_config_deactivate w) := by
  exact ⟨rfl⟩

theorem usb_config_activate_diag (w : World) : DiagFrame w (usb_config_activate w) := by
  unfold usb_config_activate
  simp only []
  refine DiagFrame.diag_trans ?_ (DiagFrame.diag_trans (pipe_arm_rx_diag _) (pipe_arm_rx_diag _))
  exact ⟨rfl⟩

theorem set_tx_statf_diag (w : World) (f : Nat) : DiagFrame w (w.set_tx_statf f) := by
  exact ⟨rfl⟩

theorem set_data_len_diag (w : World) (n : Nat) : DiagFrame w (w.set_data_len n) := by
  exact ⟨rfl⟩

theorem set_ep0_in_diag (w : World) (i v : Nat) : DiagFrame w (w.set_ep0_in i v) := by
  exact ⟨rfl⟩

theorem ep0_in_fill_buffer_diag (w : World) : DiagFrame w (ep0_in_fill_buffer w).1 := by
  unfold ep0_in_fill_buffer
  simp only []
  split_ifs <;> exact ⟨rfl⟩

theorem ep0_setup_begin_diag (w : World) : DiagFrame w (ep0_setup_begin w) := by
  exact ⟨rfl⟩

theorem ep0_setup_arm_diag (w : World) : DiagFrame w (ep0_setup_arm w) := by
  unfold ep0_setup_arm
  simp only [apply_ite (DiagFrame w)]
  repeat' split
  · exact (set_data_len_diag w _).diag_trans
      ((ep0_in_fill_buffer_diag _).diag_trans (by exact ⟨rfl⟩))
  · exact ⟨rfl⟩
  · exact ⟨rfl⟩
  · exact ⟨rfl⟩

theorem Ep0Request.effect_diag (r : Ep0Request) (w : World) : DiagFrame w (r.effect w) := by
  cases r with
  | set_configuration value =>
    refine DiagFrame.diag_trans ?_ (set_tx_statf_diag _ _)
    split
    · exact usb_config_deactivate_diag w
    · exact usb_config_activate_diag w
  | vendor_identify =>
    exact (set_data_len_diag w 5).diag_trans ((set_ep0_in_diag _ _ _).diag_trans
      ((set_ep0_in_diag _ _ _).diag_trans ((set_ep0_in_diag _ _ _).diag_trans
        ((set_ep0_in_diag _ _ _).diag_trans ((set_ep0_in_diag _ _ _).diag_trans
          (set_tx_statf_diag _ _))))))
  | _ => exact ⟨rfl⟩

theorem ep0_effect_diag (w : World) (o : Option Ep0Request) : DiagFrame w (ep0_effect w o) := by
  cases o with
  | none => exact DiagFrame.diag_refl w
  | some r => exact Ep0Request.effect_diag r w

theorem ep0_handle_setup_diag (w : World) : DiagFrame w (ep0_handle_setup w) := by
  rw [ep0_handle_setup_spec]
  exact (ep0_setup_begin_diag w).diag_trans ((ep0_effect_diag _ _).diag_trans (ep0_setup_arm_diag _))

theorem ep0_in_data_diag (w : World) : DiagFrame w (ep0_in_data w) := by
  unfold ep0_in_data
  simp only [apply_ite (DiagFrame w)]
  repeat' split
  · exact ⟨rfl⟩
  · exact (set_data_len_diag w _).diag_trans
      ((ep0_in_fill_buffer_diag _).diag_trans (by exact ⟨rfl⟩))
  · exact ⟨rfl⟩
  · exact ⟨rfl⟩

theorem ep0_in_transfer_diag (m : Machine) : DiagFrame m.world (ep0_in_transfer m).world := by
  unfold ep0_in_transfer
  simp only []
  by_cases h : m.world.ep0_state.set_addr = true
  · simp only [Machine.map, h, if_true]
    exact DiagFrame.diag_trans (by exact ⟨rfl⟩) (ep0_in_data_diag _)
  · simp only [Machine.map, h, if_false]
    exact DiagFrame.diag_trans (by exact ⟨rfl⟩) (ep0_in_data_diag _)

theorem ep0_out_process_buffer_diag (w : World) (len : Nat) :
    DiagFrame w (ep0_out_process_buffer w len) := by
  unfold ep0_out_process_buffer
  split <;> exact ⟨rfl⟩

theorem ep0_out_data_diag (w : World) : DiagFrame w (ep0_out_data w) := by
  unfold ep0_out_data
  simp only [apply_ite (DiagFrame w)]
  repeat' split
  · exact (ep0_out_process_buffer_diag w _).diag_trans (by exact ⟨rfl⟩)
  · exact (ep0_out_process_buffer_diag w _).diag_trans (by exact ⟨rfl⟩)
  · exact ⟨rfl⟩

theorem ep0_out_transfer_diag (m : Machine) : DiagFrame m.world (ep0_out_transfer m).world := by
  unfold ep0_out_transfer
  simp only []
  split
  · exact DiagFrame.diag_trans (by exact ⟨rfl⟩) (ep0_handle_setup_diag _)
  · exact DiagFrame.diag_trans (by exact ⟨rfl⟩) (ep0_out_data_diag _)

theorem usb_isr_ep2_diag (w : World) (dir ppbi : Bool) : DiagFrame w (usb_isr_ep2 w dir ppbi) := by
  cases dir <;> exact ⟨rfl⟩

theorem usb_isr_transaction_diag (m : Machine) (stat : Ustat) :
    DiagFrame m.world (usb_isr_transaction m stat).world := by
  unfold usb_isr_transaction
  repeat' split
  · exact ep0_in_transfer_diag m
  · exact ep0_out_transfer_diag m
  · exact usb_isr_ep2_diag _ _ _
  · exact DiagFrame.diag_refl _

theorem usb_isr_transactions_diag (n : Nat) (m : Machine) :
    DiagFrame m.world (usb_isr_transactions n m).world := by
  induction n generalizing m with
  | zero => exact DiagFrame.diag_refl _
  | succ n ih =>
    unfold usb_isr_transactions
    split
    · split
      · exact DiagFrame.diag_refl _
      · rename_i stat rest _
        exact DiagFrame.diag_trans
          (usb_isr_transaction_diag { m with regs := { m.regs with fifo := rest } } stat) (ih _)
    · exact DiagFrame.diag_refl _

theorem usb_switch_state_diag (m : Machine) (t : UsbStateKind) :
    DiagFrame m.world (usb_switch_state m t).world := by
  rw [usb_switch_state_world]
  exact ⟨rfl⟩

theorem usb_reset_diag (m : Machine) : DiagFrame m.world (usb_reset m).world := by
  rw [usb_reset_world]
  exact ⟨rfl⟩

theorem usb_isr_kind_diag (m : Machine) : DiagFrame m.world (usb_isr_kind m).world := by
  unfold usb_isr_kind
  split
  · exact DiagFrame.diag_refl _
  · exact DiagFrame.diag_refl _
  · split
    · exact usb_switch_state_diag _ _
    · exact DiagFrame.diag_refl _
  · exact usb_isr_transactions_diag _ _

theorem usb_suspend_diag (m : Machine) : DiagFrame m.world (usb_suspend m).world := by
  exact ⟨rfl⟩

theorem usb_resume_diag (m : Machine) : DiagFrame m.world (usb_resume m).world := by
  exact ⟨rfl⟩

theorem err_step_flag (c : Bool) (d d2 : Diagnostics) (k j : Nat)
    (h : d2.flags = set_bit d.flags k true) :
    get_bit (if c = true then d2 else d).flags j = ((c && decide (j = k)) || get_bit d.flags j) := by
  cases c
  · simp
  · simp [h, set_flag_bit]

theorem usb_isr_errors_flags (e : UeirBits) (d : Diagnostics) (j : Nat) :
    get_bit (usb_isr_errors e d).flags j =
      ((e.BTSEF && decide (j = 5)) || ((e.BTOEF && decide (j = 4)) ||
        ((e.DFN8EF && decide (j = 3)) || ((e.CRC16EF && decide (j = 2)) ||
          ((e.CRC5EF && decide (j = 1)) || ((e.PIDEF && decide (j = 0)) ||
            get_bit d.flags j)))))) := by
  unfold usb_isr_errors
  simp only []
  rw [err_step_flag _ _ _ 5 j rfl, err_step_flag _ _ _ 4 j rfl, err_step_flag _ _ _ 3 j rfl,
    err_step_flag _ _ _ 2 j rfl, err_step_flag _ _ _ 1 j rfl, err_step_flag _ _ _ 0 j rfl]

theorem usb_isr_errors_count (c : UsbErrorClass) (e : UeirBits) (d : Diagnostics) :
    c.count (usb_isr_errors e d) = if c.bit e then incr8 (c.count d) else c.count d := by
  unfold usb_isr_errors
  cases c
  · simp only [UsbErrorClass.count, UsbErrorClass.bit, apply_ite Diagnostics.pid_cnt, ite_self]
  · simp only [UsbErrorClass.count, UsbErrorClass.bit, apply_ite Diagnostics.crc5_cnt, ite_self]
  · simp only [UsbErrorClass.count, UsbErrorClass.bit, apply_ite Diagnostics.crc16_cnt, ite_self]
  · simp only [UsbErrorClass.count, UsbErrorClass.bit, apply_ite Diagnostics.dfn8_cnt, ite_self]
  · simp only [UsbErrorClass.count, UsbErrorClass.bit, apply_ite Diagnostics.bto_cnt, ite_self]
  · simp only [UsbErrorClass.count, UsbErrorClass.bit, apply_ite Diagnostics.bts_cnt, ite_self]

/-- The six statements of the error block, class by class: an error that is
reported sets the flag and counts, one that is not leaves both. -/
theorem usb_isr_errors_class (c : UsbErrorClass) (e : UeirBits) (d : Diagnostics) :
    c.flag (usb_isr_errors e d) = (c.bit e || c.flag d) ∧
    c.count (usb_isr_errors e d) = if c.bit e then incr8 (c.count d) else c.count d := by
  refine ⟨?_, usb_isr_errors_count c e d⟩
  cases c <;>
    simp [UsbErrorClass.flag, UsbErrorClass.bit, usb_isr_errors_flags]

theorem usb_isr_before_errors_diag (m : Machine) :
    DiagFrame m.world (usb_isr_before_errors m).world := by
  unfold usb_isr_before_errors
  have h1 : DiagFrame m.world (if (m.regs.UIE.URSTIE && m.regs.URSTIF) = true then
      usb_reset (usb_switch_state m .USB_STATE_DEFAULT) else m).world := by
    split
    · exact (usb_switch_state_diag _ _).diag_trans (usb_reset_diag _)
    · exact DiagFrame.diag_refl _
  exact h1.diag_trans (usb_isr_kind_diag _)

theorem usb_isr_awake_diagnostics (m : Machine) :
    (usb_isr_awake m).world.diagnostics =
      match usb_isr_awake_error_bits m with
      | some e => usb_isr_errors e m.world.diagnostics
      | none => m.world.diagnostics := by
  have h := (usb_isr_before_errors_diag m).diagnostics
  unfold usb_isr_awake usb_isr_awake_error_bits
  unfold usb_isr_before_errors at h ⊢
  simp only []
  generalize usb_isr_kind (if (m.regs.UIE.URSTIE && m.regs.URSTIF) = true then
      usb_reset (usb_switch_state m .USB_STATE_DEFAULT) else m) = p at h ⊢
  by_cases he : (p.regs.UIE.UERRIE && p.regs.UERRIF) = true
  · rw [if_pos he, if_pos he]
    simp only []
    rw [← h]
    split
    · exact (usb_suspend_diag _).diagnostics
    · rfl
  · rw [if_neg he, if_neg he]
    simp only []
    rw [← h]
    split
    · exact (usb_suspend_diag _).diagnostics
    · rfl

theorem usb_isr_diagnostics (m : Machine) :
    (usb_isr m).world.diagnostics =
      match usb_isr_error_bits m with
      | some e => usb_isr_errors e m.world.diagnostics
      | none => m.world.diagnostics := by
  unfold usb_isr usb_isr_error_bits
  split
  · split
    · rw [usb_isr_awake_diagnostics]
      rfl
    · rfl
  · exact usb_isr_awake_diagnostics m

/-- C32.  `usb_isr` and the six classes of USB errors.  When the handler gets to
its error block with the error interrupt enabled and flagged, `UEIR` holding
`e`: a class whose bit is set in `e` has its sticky flag set and its counter
increased by one modulo 256, a class whose bit is clear keeps its flag and its
counter.  When the handler does not act on an error interrupt, the diagnostics
record is unchanged.  In every case a sticky flag that was set stays set. -/
theorem usb_errors_counted (m : Machine) (c : UsbErrorClass) :
    (∀ e, usb_isr_error_bits m = some e → c.bit e = true →
      c.flag (usb_isr m).world.diagnostics = true ∧
      c.count (usb_isr m).world.diagnostics = (c.count m.world.diagnostics + 1) % 256) ∧
    (∀ e, usb_isr_error_bits m = some e → c.bit e = false →
      c.flag (usb_isr m).world.diagnostics = c.flag m.world.diagnostics ∧
      c.count (usb_isr m).world.diagnostics = c.count m.world.diagnostics) ∧
    (usb_isr_error_bits m = none → (usb_isr m).world.diagnostics = m.world.diagnostics) ∧
    (c.flag m.world.diagnostics = true → c.flag (usb_isr m).world.diagnostics = true) := by
  have hd := usb_isr_diagnostics m
  refine ⟨fun e he hb => ?_, fun e he hb => ?_, fun he => ?_, fun hf => ?_⟩
  · rw [he] at hd
    obtain ⟨h1, h2⟩ := usb_isr_errors_class c e m.world.diagnostics
    rw [hd, h1, h2, hb]
    exact ⟨rfl, rfl⟩
  · rw [he] at hd
    obtain ⟨h1, h2⟩ := usb_isr_errors_class c e m.world.diagnostics
    rw [hd, h1, h2, hb]
    exact ⟨rfl, rfl⟩
  · rw [he] at hd
    exact hd
  · cases he : usb_isr_error_bits m with
    | none =>
      rw [he] at hd
      rw [hd]
      exact hf
    | some e =>
      rw [he] at hd
      rw [hd, (usb_isr_errors_class c e m.world.diagnostics).1, hf, Bool.or_true]

/-- C32 at a concrete input: on the sample machine with a PID error and a bit
stuff error reported, the PID flag is set and the PID counter goes from 255 to
0, and the CRC5 class keeps its flag and counter. -/
theorem usb_errors_counted_witness :
    usb_isr_error_bits Machine.error_sample =
      some { UeirBits.zero with PIDEF := true, BTSEF := true } ∧
    UsbErrorClass.pid.count Machine.error_sample.world.diagnostics = 255 ∧
    (UsbErrorClass.pid.flag (usb_isr Machine.error_sample).world.diagnostics = true ∧
      UsbErrorClass.pid.count (usb_isr Machine.error_sample).world.diagnostics =
        (UsbErrorClass.pid.count Machine.error_sample.world.diagnostics + 1) % 256) ∧
    (UsbErrorClass.crc5.flag (usb_isr Machine.error_sample).world.diagnostics =
        UsbErrorClass.crc5.flag Machine.error_sample.world.diagnostics ∧
      UsbErrorClass.crc5.count (usb_isr Machine.error_sample).world.diagnostics =
        UsbErrorClass.crc5.count Machine.error_sample.world.diagnostics) :=
  ⟨by decide, by decide,
    (usb_errors_counted Machine.error_sample .pid).1
      { UeirBits.zero with PIDEF := true, BTSEF := true } (by decide) (by decide),
    (usb_errors_counted Machine.error_sample .crc5).2.1
      { UeirBits.zero with PIDEF := true, BTSEF := true } (by decide) (by decide)⟩

/-- The polling loop on a bus that is stable from read `k` on: with `n` the
index of the next read, the loop returns at read `k + 1` at the latest. -/
theorem poll_flash_loop_settles (e : Bool) (f : Nat → Nat) (B k v : Nat)
    (hs : ∀ i, k ≤ i → f (B + i) % 256 = v) (hp : d7 v = e) (fuel : Nat) :
    ∀ (w : World) (old n : Nat), w.bus_in = f → w.bus_reads = B + n →
      (n ≤ k ∨ (n = k + 1 ∧ old = v)) → k + 2 ≤ n + fuel →
      ∃ r x, poll_flash_loop e fuel w old = (r, some x) ∧ r.bus_reads ≤ B + k + 2 ∧
        B + n + 1 ≤ r.bus_reads := by
  induction fuel with
  | zero =>
    intro w old n hf hb hn hfuel
    exact absurd hfuel (by omega)
  | succ m ih =>
    intro w old n hf hb hn hfuel
    unfold poll_flash_loop
    simp only []
    have hnew : w.DATA_BUS_IN = f (B + n) % 256 := by
      unfold World.DATA_BUS_IN; rw [hf, hb]
    have hb2 : ((w.hw .poll_next).bus_next).bus_reads = B + (n + 1) := by
      show w.bus_reads + 1 = B + (n + 1)
      omega
    have hf2 : ((w.hw .poll_next).bus_next).bus_in = f := hf
    by_cases hpol : d7 w.DATA_BUS_IN = e
    · have hc : (if e = true then (w.DATA_BUS_IN &&& 0x80) != 0
          else !((w.DATA_BUS_IN &&& 0x80) != 0)) = true := (poll_condition e _).mpr hpol
      rw [if_pos hc]
      by_cases heq : old = w.DATA_BUS_IN
      · rw [if_pos heq]
        exact ⟨_, _, rfl, by rw [hb2]; omega, by rw [hb2]; omega⟩
      · rw [if_neg heq]
        have hnk : n ≤ k := by
          rcases hn with hn | ⟨hn, ho⟩
          · exact hn
          · exact absurd (ho.trans ((hs n (by omega)).symm.trans hnew.symm)) heq
        obtain ⟨r, x, h1, h2, h3⟩ := ih _ w.DATA_BUS_IN (n + 1) hf2 hb2 (by
          rcases Nat.eq_or_lt_of_le hnk with h | h
          · right
            exact ⟨by omega, hnew.trans (hs n (by omega))⟩
          · left
            omega) (by omega)
        exact ⟨r, x, h1, h2, by omega⟩
    · have hc : ¬ (if e = true then (w.DATA_BUS_IN &&& 0x80) != 0
          else !((w.DATA_BUS_IN &&& 0x80) != 0)) = true :=
        fun hx => hpol ((poll_condition e _).mp hx)
      rw [if_neg hc]
      have hnk : n < k := by
        by_contra hge
        exact hpol (by rw [hnew, hs n (by omega)]; exact hp)
      obtain ⟨r, x, h1, h2, h3⟩ := ih _ old (n + 1) hf2 hb2 (Or.inl hnk) (by omega)
      exact ⟨r, x, h1, h2, by omega⟩

/-- C34.  `poll_flash_data` ends when the bus settles.  If from read `k` on
every read of the bus returns the same value `v`, and bit 7 of `v` is the
expected polarity, then the function returns, and it has read the bus at most
`k + 2` times when it does: it returns no later than at read `k + 1`, the
second read from read `k` on.  (The model bounds the loop by `fuel`
iterations; `k + 1` of them are enough.) -/
theorem poll_flash_data_settles (fuel : Nat) (w : World) (addr : Nat) (e : Bool) (k v : Nat)
    (hs : ∀ i, k ≤ i → w.read_at i = v) (hp : d7 v = e) (hf : k + 1 ≤ fuel) :
    ∃ r x, poll_flash_data fuel w addr e = (r, some x) ∧
      r.bus_reads ≤ w.bus_reads + k + 2 := by
  unfold poll_flash_data
  obtain ⟨r, x, h1, h2, -⟩ := poll_flash_loop_settles e w.bus_in w.bus_reads k v hs hp fuel
    ((w.hw (.poll_first addr)).bus_next) w.DATA_BUS_IN 1 rfl rfl (by
      rcases Nat.eq_zero_or_pos k with h | h
      · right
        exact ⟨by omega, hs 0 (by omega)⟩
      · left
        omega) (by omega)
  exact ⟨r, x, h1, h2⟩

/-- C34 at a concrete input: bit 7 set is expected and the bus reads `0x00`,
`0x7f`, and `0xff` from read 2 on; `poll_flash_data` returns after four
reads. -/
theorem poll_flash_data_settles_witness :
    d7 0xff = true ∧
    (poll_flash_data 3 (World.boot.with_bus [0x00, 0x7f]) 0x1234 true).2 = some 0xff ∧
    (poll_flash_data 3 (World.boot.with_bus [0x00, 0x7f]) 0x1234 true).1.bus_reads = 4 ∧
    ∃ r x, poll_flash_data 3 (World.boot.with_bus [0x00, 0x7f]) 0x1234 true = (r, some x) ∧
      r.bus_reads ≤ (World.boot.with_bus [0x00, 0x7f]).bus_reads + 2 + 2 :=
  ⟨by decide, by decide, by decide,
    poll_flash_data_settles 3 (World.boot.with_bus [0x00, 0x7f]) 0x1234 true 2 0xff
      (fun i hi => by
        show ([0x00, 0x7f] : List Nat).getD (0 + i) 0xff % 256 = 0xff
        rw [List.getD_eq_default _ _ (by simp; omega)])
      (by decide) (by decide)⟩

/-- C35.  Whenever `poll_flash_data` returns a value `v`, it has read the bus
at least twice, `v` is the value of the last read, and bit 7 of `v` is the
expected polarity. -/
theorem poll_flash_data_result (fuel : Nat) (w : World) (addr : Nat) (e : Bool) (r : World)
    (v : Nat) (h : poll_flash_data fuel w addr e = (r, some v)) :
    w.bus_reads + 2 ≤ r.bus_reads ∧
    v = w.read_at (r.bus_reads - w.bus_reads - 1) ∧
    d7 v = e := by
  unfold poll_flash_data at h
  obtain ⟨i, j, h1, -, h3, h4, -, h6, -⟩ :=
    poll_flash_loop_returns e w.bus_in w.bus_reads fuel _ _ 0 1 r v h rfl rfl (by omega) rfl
      (by intro k hk1 hk2; omega)
  refine ⟨by omega, ?_, h6⟩
  have hj : r.bus_reads - w.bus_reads - 1 = j := by omega
  rw [hj]
  exact h4

/-- C35 at a concrete input: bit 7 clear is expected and the bus reads `0x80`,
`0x12`, `0x12`; the function returns `0x12`, the value of the third and last
read. -/
theorem poll_flash_data_result_witness :
    (poll_flash_data 4 (World.boot.with_bus [0x80, 0x12, 0x12]) 0x1234 false).2 = some 0x12 ∧
    (World.boot.with_bus [0x80, 0x12, 0x12]).bus_reads + 2 ≤
      (poll_flash_data 4 (World.boot.with_bus [0x80, 0x12, 0x12]) 0x1234 false).1.bus_reads ∧
    0x12 = (World.boot.with_bus [0x80, 0x12, 0x12]).read_at
      ((poll_flash_data 4 (World.boot.with_bus [0x80, 0x12, 0x12]) 0x1234 false).1.bus_reads -
        (World.boot.with_bus [0x80, 0x12, 0x12]).bus_reads - 1) ∧
    d7 0x12 = false :=
  ⟨by decide,
    poll_flash_data_result 4 (World.boot.with_bus [0x80, 0x12, 0x12]) 0x1234 false _ 0x12
      (Prod.ext rfl (by decide))⟩

theorem usb_config_reset_magic (x : World) :
    (usb_config_activate x).pipe_state.reset_magic = x.pipe_state.reset_magic ∧
    (usb_config_deactivate x).pipe_state.reset_magic = x.pipe_state.reset_magic := by
  refine ⟨?_, rfl⟩
  unfold usb_config_activate
  simp only []
  rw [pipe_arm_rx_pipe_state, pipe_arm_rx_pipe_state]
  rfl

/-- C40, as the code has it.  The magic byte of a staged reset is never changed
by the USB events that follow, and the pending flag `device_reset` survives
suspend, resume and a change of the line state, the pipe staying inactive, so
that the main loop then calls `reset_device` with the magic that was supplied.
A bus reset and SET_CONFIGURATION (0 or 1) run `pipe_reset`, which clears
`device_reset` with the other pipe flags: after them the reset is no longer
pending. -/
theorem staged_reset_events (fuel : Nat) :
    (∀ m : Machine, (usb_suspend m).world.pipe_state = m.world.pipe_state ∧
      (usb_resume m).world.pipe_state = m.world.pipe_state) ∧
    (∀ w : World, w.usb_state.configured = true → w.ep0_setup.bmRequestType = 0x21 →
      w.ep0_setup.bRequest = CDC_SET_CONTROL_LINE_STATE → w.ep0_setup.wIndex = 0 →
      (ep0_handle_setup w).pipe_state = w.pipe_state ∧
      (w.pipe_state.device_reset = true → (ep0_handle_setup w).usb_state.active = false)) ∧
    (∀ w : World, w.ep0_setup.bmRequestType = 0x00 → w.ep0_setup.bRequest = SET_CONFIGURATION →
      w.ep0_setup.wValue = 0 ∨ w.ep0_setup.wValue = 1 →
      (ep0_handle_setup w).pipe_state.reset_magic = w.pipe_state.reset_magic ∧
      (ep0_handle_setup w).pipe_state.device_reset = false) ∧
    (∀ m : Machine, ResetHandled m →
      (usb_isr m).world.pipe_state.reset_magic = m.world.pipe_state.reset_magic ∧
      (usb_isr m).world.pipe_state.device_reset = false) ∧
    (∀ w : World, w.status = .running → w.usb_state.active = false →
      w.pipe_state.device_reset = true →
      main_step fuel .waiting w = (.waiting, reset_device w w.pipe_state.reset_magic)) := by
  refine ⟨fun m => ⟨rfl, rfl⟩, fun w hc ht hr hi => ?_, fun w ht hr hv => ?_, fun m hm => ?_,
    fun w hr ha hd => ?_⟩
  · have hp : (ep0_handle_setup w).pipe_state = w.pipe_state := by
      rw [ep0_handle_setup_eq, ep0_setup_request_line_state (ep0_setup_begin w) hc ht hr hi,
        ep0_setup_arm_pipe]
      rfl
    refine ⟨hp, fun hd => ?_⟩
    have hs := (ep0_handle_setup_line_state w hc ht hr hi).1
    unfold ActiveSynced at hs
    rw [hs, hp, hd]
    simp
  · have hq := ep0_request_spec_set_configuration w.ep0_setup w.usb_state.configured ht hr hv
    rw [ep0_handle_setup_spec, hq, ep0_setup_arm_pipe]
    obtain ⟨m1, m2⟩ := usb_config_reset_magic (ep0_setup_begin w)
    rcases hv with hv | hv
    · rw [hv]
      exact ⟨m2, (usb_config_deactivate_spec (ep0_setup_begin w)).2.2.1⟩
    · rw [hv]
      exact ⟨m1, (usb_config_activate_spec (ep0_setup_begin w)).2.1.1⟩
  · rw [(usb_isr_reset m hm).1]
    exact ⟨rfl, rfl⟩
  · rw [main_step_waiting fuel w hr ha, hd]
    rfl

/-- C40 at concrete inputs: on the sample machine with a reset staged, a change
of the line state keeps the reset pending with its magic byte, and
SET_CONFIGURATION with value 1 clears it. -/
theorem staged_reset_events_witness :
    Machine.staged_reset_sample.world.pipe_state.device_reset = true ∧
    Machine.staged_reset_sample.world.pipe_state.reset_magic = 0x5a ∧
    (ep0_handle_setup (Machine.staged_reset_sample.setup_world
        [0x21, 0x22, 0, 0, 0, 0, 0, 0])).pipe_state =
      (Machine.staged_reset_sample.setup_world [0x21, 0x22, 0, 0, 0, 0, 0, 0]).pipe_state ∧
    (ep0_handle_setup (Machine.staged_reset_sample.setup_world
        [0x00, 9, 1, 0, 0, 0, 0, 0])).pipe_state.device_reset = false :=
  ⟨by decide, by decide,
    ((staged_reset_events 8).2.1 (Machine.staged_reset_sample.setup_world
      [0x21, 0x22, 0, 0, 0, 0, 0, 0]) (by decide) (by decide) (by decide) (by decide)).1,
    ((staged_reset_events 8).2.2.1 (Machine.staged_reset_sample.setup_world
      [0x00, 9, 1, 0, 0, 0, 0, 0]) (by decide) (by decide) (Or.inr (by decide))).2⟩

/-- C40 refuted as written: on the sample machine with a reset staged, a bus
reset clears `device_reset`, and the main loop, waiting for the pipe to become
active, does not reset the device; SET_CONFIGURATION with value 1 clears the
flag as well and makes the pipe active again. -/
theorem staged_reset_lost :
    Machine.staged_reset_sample.world.pipe_state.device_reset = true ∧
    Machine.staged_reset_sample.world.pipe_state.reset_magic = 0x5a ∧
    Machine.staged_reset_sample.world.usb_state.active = false ∧
    (usb_isr (sie_bus_reset Machine.staged_reset_sample)).world.pipe_state.device_reset =
      false ∧
    (main_step 8 .waiting (usb_isr (sie_bus_reset Machine.staged_reset_sample)).world).2.status =
      .running ∧
    (usb_isr (sie_ep0 Machine.staged_reset_sample
      (.setup [0x00, 9, 1, 0, 0, 0, 0, 0]))).world.pipe_state.device_reset = false ∧
    (usb_isr (sie_ep0 Machine.staged_reset_sample
      (.setup [0x00, 9, 1, 0, 0, 0, 0, 0]))).world.usb_state.active = true := by
  decide

theorem sie_stat_PID (bd : BufferDescriptor) (pid : Nat) (h : pid < 16) :
    ({ bd with STAT := sie_stat bd pid } : BufferDescriptor).PID = pid := by
  unfold BufferDescriptor.PID sie_stat STAT_DTS_MASK
  show (bd.STAT &&& 1 <<< 6 ||| pid <<< 2) / 4 % 16 = pid
  apply Nat.eq_of_testBit_eq
  intro i
  have e4 : ∀ y : Nat, y / 4 = y >>> 2 := fun y => (Nat.shiftRight_eq_div_pow y 2).symm
  have e16 : (16 : Nat) = 2 ^ 4 := rfl
  have e64 : (1 <<< 6 : Nat) = 2 ^ 6 := rfl
  rw [e4, e16, Nat.testBit_mod_two_pow, Nat.testBit_shiftRight, Nat.testBit_or,
    Nat.testBit_and, e64, Nat.testBit_two_pow, Nat.testBit_shiftLeft]
  by_cases hi : i < 4
  · have h6 : ¬ (6 = 2 + i) := by omega
    simp [hi, h6]
  · have hp : pid.testBit i = false :=
      Nat.testBit_lt_two_pow (Nat.lt_of_lt_of_le h (by
        calc 16 = 2 ^ 4 := rfl
          _ ≤ 2 ^ i := Nat.pow_le_pow_right (by decide) (by omega)))
    simp [hi, hp]

theorem sie_stat_pid_bits (bd : BufferDescriptor) (pid : Nat) (h : pid < 16) :
    sie_stat bd pid / 4 % 16 = pid :=
  sie_stat_PID bd pid h

theorem ep0_out_complete_world (m : Machine) (data : List Nat) :
    (ep0_out_complete m data).world = ep0_out_data (ep0_out_begin m.world data) := by
  unfold ep0_out_complete ep0_out_transfer
  simp only [Machine.map]
  have hp : ((sie_ep0_done m.world (.out data)).bds.ep0_out.flip_DTS).PID ≠ PID_SETUP := by
    rw [flip_DTS_PID]
    show sie_stat m.world.bds.ep0_out PID_OUT / 4 % 16 ≠ PID_SETUP
    rw [sie_stat_pid_bits m.world.bds.ep0_out PID_OUT (by decide)]
    decide
  rw [if_neg hp]
  rfl

theorem ep0_out_data_bound (w : World) (h : OutBound w) :
    OutBound (ep0_out_data w) ∧ (ep0_out_data w).oob = w.oob ∧
    w.ep0_state.ram_out_ptr ≤ (ep0_out_data w).ep0_state.ram_out_ptr := by
  obtain ⟨hl, hr⟩ := h
  have hm : MIN w.ep0_state.data_len w.bds.ep0_out.BC_L % 256 ≤ w.ep0_state.data_len := by
    unfold MIN
    split <;> omega
  generalize hlen : MIN w.ep0_state.data_len w.bds.ep0_out.BC_L % 256 = len at hm
  have hd : (w.ep0_state.data_len + 65536 - len) % 65536 = w.ep0_state.data_len - len := by
    omega
  unfold ep0_out_data ep0_out_process_buffer
  simp only [hlen]
  by_cases hs : (w.ep0_state.data_stage && w.ep0_state.dir_out) = true
  · rw [if_pos hs]
    by_cases hram : w.ep0_state.data_ram = true
    · have hb : decide (w.line_coding.length < w.ep0_state.ram_out_ptr + len) = false := by
        rw [hl]
        exact decide_eq_false (by omega)
      simp only [hram, if_true, World.set_data_len, hd, hb, Bool.or_false]
      split
      · refine ⟨⟨?_, ?_⟩, rfl, ?_⟩
        · show (write_bytes _ _ _).length = 7
          rw [write_bytes_length, hl]
        · show w.ep0_state.ram_out_ptr + len + (w.ep0_state.data_len - len) ≤ 7
          omega
        · show w.ep0_state.ram_out_ptr ≤ w.ep0_state.ram_out_ptr + len
          omega
      · refine ⟨⟨?_, ?_⟩, rfl, ?_⟩
        · show (write_bytes _ _ _).length = 7
          rw [write_bytes_length, hl]
        · show w.ep0_state.ram_out_ptr + len + (w.ep0_state.data_len - len) ≤ 7
          omega
        · show w.ep0_state.ram_out_ptr ≤ w.ep0_state.ram_out_ptr + len
          omega
    · rw [if_neg hram]
      simp only [World.set_data_len, hd]
      split
      · refine ⟨⟨hl, ?_⟩, rfl, Nat.le_refl _⟩
        show w.ep0_state.ram_out_ptr + (w.ep0_state.data_len - len) ≤ 7
        omega
      · refine ⟨⟨hl, ?_⟩, rfl, Nat.le_refl _⟩
        show w.ep0_state.ram_out_ptr + (w.ep0_state.data_len - len) ≤ 7
        omega
  · rw [if_neg hs]
    exact ⟨⟨hl, hr⟩, rfl, Nat.le_refl _⟩

theorem ep0_setup_arm_out (v : World) (hi : v.ep0_state.dir_in = false)
    (ho : v.ep0_state.dir_out = true) :
    (ep0_setup_arm v).ep0_state = v.ep0_state ∧ (ep0_setup_arm v).line_coding = v.line_coding ∧
    (ep0_setup_arm v).oob = v.oob := by
  unfold ep0_setup_arm
  rw [hi, ho]
  simp only [Bool.false_and, Bool.false_eq_true, if_false, if_true]
  split <;> exact ⟨rfl, rfl, rfl⟩

theorem ep0_out_packets_bound (packets : List (List Nat)) :
    ∀ m : Machine, OutBound m.world →
      OutBound (ep0_out_packets m packets).world ∧
      (ep0_out_packets m packets).world.oob = m.world.oob ∧
      m.world.ep0_state.ram_out_ptr ≤ (ep0_out_packets m packets).world.ep0_state.ram_out_ptr := by
  induction packets with
  | nil => exact fun m h => ⟨h, rfl, Nat.le_refl _⟩
  | cons d rest ih =>
    intro m h
    have hb : OutBound (ep0_out_begin m.world d) := ⟨h.record, h.room⟩
    obtain ⟨s1, s2, s3⟩ := ep0_out_data_bound _ hb
    rw [← ep0_out_complete_world] at s1 s2 s3
    obtain ⟨i1, i2, i3⟩ := ih (ep0_out_complete m d) s1
    exact ⟨i1, i2.trans s2, Nat.le_trans s3 i3⟩

/-- C39.  After `ep0_handle_setup` has accepted SET_LINE_CODING, with the line
coding record of 7 bytes, the pointer into the record is at its start, and
whatever OUT packets follow, however many and of whatever length,
`ep0_out_transfer` never writes beyond the end of the record (the flag `oob`,
which records a write outside an object, is as it was, and the record keeps its
7 bytes) and the pointer, which has moved by the number of bytes written, is at
most 7: at most 7 bytes are written in total. -/
theorem line_coding_bounded (m : Machine) (packets : List (List Nat))
    (hl : m.world.line_coding.length = 7)
    (hr : ep0_request_spec m.world.ep0_setup m.world.usb_state.configured =
      some .set_line_coding) :
    (m.map ep0_handle_setup).world.ep0_state.ram_out_ptr = 0 ∧
    (ep0_out_packets (m.map ep0_handle_setup) packets).world.ep0_state.ram_out_ptr ≤ 7 ∧
    (ep0_out_packets (m.map ep0_handle_setup) packets).world.oob = m.world.oob ∧
    (ep0_out_packets (m.map ep0_handle_setup) packets).world.line_coding.length = 7 := by
  have hw : (m.map ep0_handle_setup).world =
      ep0_setup_arm (Ep0Request.set_line_coding.effect (ep0_setup_begin m.world)) := by
    show ep0_handle_setup m.world = _
    rw [ep0_handle_setup_spec, hr]
    rfl
  obtain ⟨f0, f1, -, -, -, -⟩ := set_tx_statf_flags_eq _ _
    (Ep0Request.effect_flags .set_line_coding (ep0_setup_begin m.world))
  obtain ⟨a1, a2, a3⟩ := ep0_setup_arm_out
    (Ep0Request.set_line_coding.effect (ep0_setup_begin m.world))
    (f1.trans (by decide)) (f0.trans (by decide))
  have hp : (m.map ep0_handle_setup).world.ep0_state.ram_out_ptr = 0 := by
    rw [hw, a1]
    rfl
  have hd : (m.map ep0_handle_setup).world.ep0_state.data_len = 7 := by
    rw [hw, a1]
    rfl
  have ho : (m.map ep0_handle_setup).world.oob = m.world.oob := by
    rw [hw, a3]
    rfl
  have hlc : (m.map ep0_handle_setup).world.line_coding = m.world.line_coding := by
    rw [hw, a2]
    rfl
  have hb : OutBound (m.map ep0_handle_setup).world := ⟨by rw [hlc]; exact hl, by rw [hp, hd]⟩
  obtain ⟨b1, b2, -⟩ := ep0_out_packets_bound packets _ hb
  have hroom := b1.room
  exact ⟨hp, by omega, b2.trans ho, b1.record⟩

/-- C39 at a concrete input: SET_LINE_CODING on the configured sample machine,
followed by OUT packets of 64, 3 and 9 bytes.  Seven bytes are written. -/
theorem line_coding_bounded_witness :
    Machine.line_coding_sample.world.line_coding.length = 7 ∧
    (ep0_out_packets (Machine.line_coding_sample.map ep0_handle_setup)
      [List.replicate 64 0xaa, [1, 2, 3], List.replicate 9 0xbb]).world.line_coding =
        List.replicate 7 0xaa ∧
    ((Machine.line_coding_sample.map ep0_handle_setup).world.ep0_state.ram_out_ptr = 0 ∧
      (ep0_out_packets (Machine.line_coding_sample.map ep0_handle_setup)
        [List.replicate 64 0xaa, [1, 2, 3], List.replicate 9 0xbb]).world.ep0_state.ram_out_ptr ≤
          7 ∧
      (ep0_out_packets (Machine.line_coding_sample.map ep0_handle_setup)
        [List.replicate 64 0xaa, [1, 2, 3], List.replicate 9 0xbb]).world.oob =
          Machine.line_coding_sample.world.oob ∧
      (ep0_out_packets (Machine.line_coding_sample.map ep0_handle_setup)
        [List.replicate 64 0xaa, [1, 2, 3], List.replicate 9 0xbb]).world.line_coding.length =
          7) :=
  ⟨by decide, by decide,
    line_coding_bounded Machine.line_coding_sample
      [List.replicate 64 0xaa, [1, 2, 3], List.replicate 9 0xbb] (by decide) (by decide)⟩

/-- C37 at the failing inputs.  SET_FLASH_WRITE_SEQUENCE with count 17 is
accepted: the stored length becomes 17, the 68 payload bytes are streamed and
the last four are written past the 64-byte record array (the flag `oob` records
a write outside an object), and the replay of `FLASH_BURST` then reads record
16, which is not in the array (`replay_write` for `j = 16` sets `oob`).  With count 64 the stored length becomes 64 and
the byte count `64 * 4` is truncated to 0 in the 8-bit length. -/
theorem flash_sequence_overflows :
    World.sfws_overflow_sample.oob = false ∧
    World.sfws_overflow_sample.flash_sequence.write.length = 64 ∧
    (execute_commands 8 World.sfws_overflow_sample).flash_sequence.len = 17 ∧
    (execute_commands 8 World.sfws_overflow_sample).state.tx_write_slice =
      { ptr := { reg := .flash_write, off := 62 }, len := 6 } ∧
    (execute_commands 8 World.sfws_overflow_sample).oob = false ∧
    (execute_commands 8 (execute_commands 8 World.sfws_overflow_sample)).state.tx_write_slice =
      { ptr := { reg := .flash_write, off := 68 }, len := 0 } ∧
    (execute_commands 8 (execute_commands 8 World.sfws_overflow_sample)).oob = true ∧
    (execute_commands 8 (execute_commands 8 World.sfws_overflow_sample)).flash_sequence.len =
      17 ∧
    (replay_write World.sfws_overflow_sample 15).oob = false ∧
    (replay_write World.sfws_overflow_sample 16).oob = true ∧
    (fetch_command ((World.boot.set_unlocked true).receive [0x0a, 64])).flash_sequence.len = 64 ∧
    (fetch_command ((World.boot.set_unlocked true).receive [0x0a, 64])).state.tx_write_slice.len =
      0 := by
  decide

/-- C36 at the failing input.  In `execute_cmd_read_burst` the test
`(addr_l + len - 1) >= addr_l` is computed in `int` and holds for every chunk
of at least one byte, so the fast path is taken whenever `force_ce` is clear.
READ_BURST of 4 bytes from `0x01fe` on the fast path reads the bus at `0x01fe`,
`0x01ff`, `0x0100`, `0x0101`: the low byte wraps inside the page.  With
`force_ce` set the slow path reads at `0x01fe`, `0x01ff`, `0x0200`, `0x0201`.
Either way four bytes are sent, the address ends at `0x0202` and the remaining
length at 0. -/
theorem read_burst_wraps_in_page :
    (∀ addr_l len : Nat,
      decide (Int.ofNat addr_l + Int.ofNat (len + 1) - 1 ≥ Int.ofNat addr_l) = true) ∧
    read_addresses 0 (execute_commands 8 (World.read_burst_sample 0x06)).hw_log =
      [0x01fe, 0x01ff, 0x0100, 0x0101] ∧
    read_addresses 0 (execute_commands 8 (World.read_burst_sample 0x46)).hw_log =
      [0x01fe, 0x01ff, 0x0200, 0x0201] ∧
    (execute_commands 8 (World.read_burst_sample 0x06)).tx_log.length = 4 ∧
    (execute_commands 8 (World.read_burst_sample 0x06)).state.params.addr = 0x0202 ∧
    (execute_commands 8 (World.read_burst_sample 0x06)).state.params.len = 0 ∧
    (execute_commands 8 (World.read_burst_sample 0x46)).tx_log.length = 4 ∧
    (execute_commands 8 (World.read_burst_sample 0x46)).state.params.addr = 0x0202 ∧
    (execute_commands 8 (World.read_burst_sample 0x46)).state.params.len = 0 := by
  refine ⟨fun a len => ?_, by decide, by decide, by decide, by decide, by decide, by decide,
    by decide, by decide⟩
  apply decide_eq_true
  simp only [Int.ofNat_eq_coe, ge_iff_le]
  omega

theorem in_step_bits_complete : ∀ c s e o : Bool, in_step_bits c s e o = true →
    (if s then o else e) = true →
    in_step_bits c (!s) (if s then e else false) (if s then false else o) = true ∧
    ((if c then o else e) = false →
      (if c then (if s then false else o) else (if s then e else false)) = false) := by
  decide

theorem in_step_bits_arm : ∀ c s e o : Bool, in_step_bits c s e o = true →
    (if c then o else e) = false →
    in_step_bits (!c) s (if c then e else true) (if c then true else o) = true := by
  decide

theorem in_step_bits_take : ∀ c s e o : Bool, in_step_bits c s e o = true →
    (c && !o) = false → e = false → c = false := by
  decide

theorem usb_event_in_fields (w : World) (p : Bool) :
    (usb_event w (.ep2_in p)).bulk_in.cpu_odd = w.bulk_in.cpu_odd ∧
    (usb_event w (.ep2_in p)).bulk_in.sie_odd = (!w.bulk_in.sie_odd) ∧
    (usb_event w (.ep2_in p)).bulk_in.even_busy = (if p then w.bulk_in.even_busy else false) ∧
    (usb_event w (.ep2_in p)).bulk_in.odd_busy = (if p then false else w.bulk_in.odd_busy) ∧
    get_bit (usb_event w (.ep2_in p)).bds.ep2_in_even.STAT 7 =
      (if p then get_bit w.bds.ep2_in_even.STAT 7 else false) ∧
    get_bit (usb_event w (.ep2_in p)).bds.ep2_in_odd.STAT 7 =
      (if p then false else get_bit w.bds.ep2_in_odd.STAT 7) ∧
    (usb_event w (.ep2_in p)).bulk_out = w.bulk_out ∧
    (usb_event w (.ep2_in p)).bds.ep2_out_even = w.bds.ep2_out_even ∧
    (usb_event w (.ep2_in p)).bds.ep2_out_odd = w.bds.ep2_out_odd := by
  have h : get_bit (PID_IN <<< 2) 7 = false := by decide
  cases p <;> simp [usb_event, usb_isr_ep2, sie_complete, FLIP_BIT_eq, h]

theorem usb_event_out_fields (w : World) (p : Bool) (data : List Nat) :
    (usb_event w (.ep2_out p data)).bulk_out.cpu_odd = w.bulk_out.cpu_odd ∧
    (usb_event w (.ep2_out p data)).bulk_out.sie_odd = (!w.bulk_out.sie_odd) ∧
    (usb_event w (.ep2_out p data)).bulk_out.even_busy =
      (if p then w.bulk_out.even_busy else false) ∧
    (usb_event w (.ep2_out p data)).bulk_out.odd_busy =
      (if p then false else w.bulk_out.odd_busy) ∧
    get_bit (usb_event w (.ep2_out p data)).bds.ep2_out_even.STAT 7 =
      (if p then get_bit w.bds.ep2_out_even.STAT 7 else false) ∧
    get_bit (usb_event w (.ep2_out p data)).bds.ep2_out_odd.STAT 7 =
      (if p then false else get_bit w.bds.ep2_out_odd.STAT 7) ∧
    (usb_event w (.ep2_out p data)).bulk_in = w.bulk_in ∧
    (usb_event w (.ep2_out p data)).bds.ep2_in_even = w.bds.ep2_in_even ∧
    (usb_event w (.ep2_out p data)).bds.ep2_in_odd = w.bds.ep2_in_odd := by
  have h : get_bit (PID_OUT <<< 2) 7 = false := by decide
  cases p <;> simp [usb_event, usb_isr_ep2, sie_complete, FLIP_BIT_eq, h]

/-- A completion the engine can produce keeps the invariant of the pipe. -/
theorem usb_event_inv (w : World) (e : UsbEvent) (h : PipeInv w) (he : e.in_order w = true) :
    PipeInv (usb_event w e) := by
  have hp := usb_event_pipe_state w e
  obtain ⟨i1, i2, i3, i4, i5, i6, i7, i8⟩ := h
  cases e with
  | ep2_in p =>
    obtain ⟨a1, a2, a3, a4, a5, a6, a7, a8, a9⟩ := usb_event_in_fields w p
    simp only [UsbEvent.in_order, World.in_bd, Bool.and_eq_true, beq_iff_eq] at he
    obtain ⟨he1, he2⟩ := he
    have hb : (if w.bulk_in.sie_odd then w.bulk_in.odd_busy else w.bulk_in.even_busy) = true := by
      rw [← i3, ← i4, ← he1]
      cases p <;> exact he2
    have hc := in_step_bits_complete _ _ _ _ i1 hb
    refine ⟨?_, ?_, ?_, ?_, ?_, ?_, ?_, ?_⟩
    · unfold BulkFlags.in_step
      rw [a1, a2, a3, a4, he1]
      exact hc.1
    · rw [a7]
      exact i2
    · rw [a5, a3, i3]
    · rw [a6, a4, i4]
    · rw [a8, a7]
      exact i5
    · rw [a9, a7]
      exact i6
    · rw [hp]
      intro hv
      refine ⟨by rw [a1]; exact (i7 hv).1, ?_⟩
      unfold BulkFlags.busy
      rw [a1, a3, a4, he1]
      exact hc.2 (i7 hv).2
    · rw [hp, a7]
      exact i8
  | ep2_out p data =>
    obtain ⟨a1, a2, a3, a4, a5, a6, a7, a8, a9⟩ := usb_event_out_fields w p data
    simp only [UsbEvent.in_order, World.out_bd, Bool.and_eq_true, beq_iff_eq] at he
    obtain ⟨he1, he2⟩ := he
    have hb : (if w.bulk_out.sie_odd then w.bulk_out.odd_busy else w.bulk_out.even_busy) =
        true := by
      rw [← i5, ← i6, ← he1]
      cases p <;> exact he2
    have hc := in_step_bits_complete _ _ _ _ i2 hb
    refine ⟨?_, ?_, ?_, ?_, ?_, ?_, ?_, ?_⟩
    · rw [a7]
      exact i1
    · unfold BulkFlags.in_step
      rw [a1, a2, a3, a4, he1]
      exact hc.1
    · rw [a8, a7]
      exact i3
    · rw [a9, a7]
      exact i4
    · rw [a5, a3, i5]
    · rw [a6, a4, i6]
    · rw [hp, a7]
      exact i7
    · rw [hp]
      intro hv
      refine ⟨by rw [a1]; exact (i8 hv).1, ?_⟩
      unfold BulkFlags.busy
      rw [a1, a3, a4, he1]
      exact hc.2 (i8 hv).2

theorem PipeInv.of_fields {w r : World} (h : PipeInv w) (e1 : r.bulk_in = w.bulk_in)
    (e2 : r.bulk_out = w.bulk_out) (e3 : r.bds = w.bds) (e4 : r.pipe_state = w.pipe_state) :
    PipeInv r := by
  obtain ⟨i1, i2, i3, i4, i5, i6, i7, i8⟩ := h
  refine ⟨?_, ?_, ?_, ?_, ?_, ?_, ?_, ?_⟩
  · rw [e1]
    exact i1
  · rw [e2]
    exact i2
  · rw [e1, e3]
    exact i3
  · rw [e1, e3]
    exact i4
  · rw [e2, e3]
    exact i5
  · rw [e2, e3]
    exact i6
  · rw [e1, e4]
    exact i7
  · rw [e2, e4]
    exact i8

theorem foldl_usb_event_inv (l : List UsbEvent) (w : World) (h : PipeInv w)
    (ho : events_in_order w l = true) : PipeInv (l.foldl usb_event w) := by
  induction l generalizing w with
  | nil => exact h
  | cons e l ih =>
    simp only [events_in_order, Bool.and_eq_true] at ho
    exact ih _ (usb_event_inv w e h ho.1) ho.2

theorem irq_inv (w : World) (h : PipeInv w) (ho : irq_in_order w = true) : PipeInv (irq w) := by
  unfold irq
  unfold irq_in_order at ho
  split
  · rename_i hp
    rw [if_pos hp] at ho
    split
    · exact h
    · rename_i batch rest hq
      rw [hq] at ho
      exact foldl_usb_event_inv batch _ (h.of_fields rfl rfl rfl rfl) ho
  · exact h

theorem BEGIN_CRITICAL_SECTION_inv (w : World) (h : PipeInv w) (ho : irq_in_order w = true) :
    PipeInv (BEGIN_CRITICAL_SECTION w) :=
  (irq_inv w h ho).of_fields rfl rfl rfl rfl

theorem END_CRITICAL_SECTION_inv (w : World) (h : PipeInv w) :
    PipeInv (END_CRITICAL_SECTION w) := by
  obtain ⟨e1, e2, e3, e4⟩ := END_CRITICAL_SECTION_fields w
  exact h.of_fields e2 e3 e1 e4

/-- The slice selection at the end of `pipe_tx_acquire` and `pipe_tx_flush`
keeps the invariant: the half it exposes is the one named by `cpu_odd`. -/
theorem tx_take_inv (v : World) (h : PipeInv v) :
    PipeInv (if (v.bulk_in.cpu_odd && !v.bulk_in.odd_busy) = true then tx_take_odd v
      else if (!v.bulk_in.even_busy) = true then tx_take_even v else v) := by
  obtain ⟨i1, i2, i3, i4, i5, i6, i7, i8⟩ := h
  split
  · rename_i hc
    simp only [Bool.and_eq_true, Bool.not_eq_true'] at hc
    refine ⟨i1, i2, i3, i4, i5, i6, ?_, i8⟩
    intro _
    refine ⟨?_, ?_⟩
    · show Half.odd = Half.of_odd v.bulk_in.cpu_odd
      rw [hc.1]
      rfl
    · show v.bulk_in.busy v.bulk_in.cpu_odd = false
      rw [hc.1]
      exact hc.2
  · rename_i hc
    split
    · rename_i he
      simp only [Bool.not_eq_true'] at he
      have hz := in_step_bits_take _ _ _ _ i1 (by simpa using hc) he
      refine ⟨i1, i2, i3, i4, i5, i6, ?_, i8⟩
      intro _
      refine ⟨?_, ?_⟩
      · show Half.even = Half.of_odd v.bulk_in.cpu_odd
        rw [hz]
        rfl
      · show v.bulk_in.busy v.bulk_in.cpu_odd = false
        rw [hz]
        exact he
    · exact ⟨i1, i2, i3, i4, i5, i6, i7, i8⟩

theorem rx_take_inv (v : World) (h : PipeInv v) :
    PipeInv (if (v.bulk_out.cpu_odd && !v.bulk_out.odd_busy) = true then rx_take_odd v
      else if (!v.bulk_out.even_busy) = true then rx_take_even v else v) := by
  obtain ⟨i1, i2, i3, i4, i5, i6, i7, i8⟩ := h
  split
  · rename_i hc
    simp only [Bool.and_eq_true, Bool.not_eq_true'] at hc
    refine ⟨i1, i2, i3, i4, i5, i6, i7, ?_⟩
    intro _
    refine ⟨?_, ?_⟩
    · show Half.odd = Half.of_odd v.bulk_out.cpu_odd
      rw [hc.1]
      rfl
    · show v.bulk_out.busy v.bulk_out.cpu_odd = false
      rw [hc.1]
      exact hc.2
  · rename_i hc
    split
    · rename_i he
      simp only [Bool.not_eq_true'] at he
      have hz := in_step_bits_take _ _ _ _ i2 (by simpa using hc) he
      refine ⟨i1, i2, i3, i4, i5, i6, i7, ?_⟩
      intro _
      refine ⟨?_, ?_⟩
      · show Half.even = Half.of_odd v.bulk_out.cpu_odd
        rw [hz]
        rfl
      · show v.bulk_out.busy v.bulk_out.cpu_odd = false
        rw [hz]
        exact he
    · exact ⟨i1, i2, i3, i4, i5, i6, i7, i8⟩

/-- Dropping a slice keeps the invariant. -/
theorem tx_drop_inv (v : World) (h : PipeInv v) :
    PipeInv { v with pipe_state := { v.pipe_state with tx_slice_valid := false } } := by
  obtain ⟨i1, i2, i3, i4, i5, i6, -, i8⟩ := h
  exact ⟨i1, i2, i3, i4, i5, i6, fun hv => Bool.noConfusion hv, i8⟩

theorem rx_drop_inv (v : World) (h : PipeInv v) :
    PipeInv { v with pipe_state := { v.pipe_state with rx_slice_valid := false } } := by
  obtain ⟨i1, i2, i3, i4, i5, i6, i7, -⟩ := h
  exact ⟨i1, i2, i3, i4, i5, i6, i7, fun hv => Bool.noConfusion hv⟩

theorem pipe_tx_flush_eq (w : World) :
    pipe_tx_flush w = END_CRITICAL_SECTION (tx_select (tx_arm (BEGIN_CRITICAL_SECTION w))) := rfl

theorem pipe_rx_acquire_eq (w : World) :
    pipe_rx_acquire w =
      if w.pipe_state.rx_slice_valid = false then
        END_CRITICAL_SECTION
          (if ((BEGIN_CRITICAL_SECTION w).bulk_out.cpu_odd &&
              !(BEGIN_CRITICAL_SECTION w).bulk_out.odd_busy) = true then
            rx_take_odd (BEGIN_CRITICAL_SECTION w)
          else if (!(BEGIN_CRITICAL_SECTION w).bulk_out.even_busy) = true then
            rx_take_even (BEGIN_CRITICAL_SECTION w)
          else BEGIN_CRITICAL_SECTION w)
      else if w.pipe_state.rx_slice.len = 0 then
        END_CRITICAL_SECTION (rx_select (pipe_arm_rx (BEGIN_CRITICAL_SECTION w)))
      else w := by
  unfold pipe_rx_acquire
  cases w.pipe_state.rx_slice_valid <;> rfl

theorem pipe_tx_acquire_eq (w : World) :
    pipe_tx_acquire w =
      if w.pipe_state.tx_slice_valid = false then
        END_CRITICAL_SECTION
          (if ((BEGIN_CRITICAL_SECTION w).bulk_in.cpu_odd &&
              !(BEGIN_CRITICAL_SECTION w).bulk_in.odd_busy) = true then
            tx_take_odd (BEGIN_CRITICAL_SECTION w)
          else if (!(BEGIN_CRITICAL_SECTION w).bulk_in.even_busy) = true then
            tx_take_even (BEGIN_CRITICAL_SECTION w)
          else BEGIN_CRITICAL_SECTION w)
      else if w.pipe_state.tx_slice.len = 0 then pipe_tx_flush w
      else w := by
  unfold pipe_tx_acquire
  cases w.pipe_state.tx_slice_valid <;> rfl

theorem tx_select_inv (v : World)
    (h : PipeInv { v with pipe_state := { v.pipe_state with tx_slice_valid := false } }) :
    PipeInv (tx_select v) := by
  obtain ⟨i1, i2, i3, i4, i5, i6, -, i8⟩ := h
  have i1 : v.bulk_in.in_step = true := i1
  unfold tx_select
  split
  · rename_i hc
    simp only [Bool.and_eq_true, Bool.not_eq_true'] at hc
    refine ⟨i1, i2, i3, i4, i5, i6, ?_, i8⟩
    intro _
    refine ⟨?_, ?_⟩
    · show Half.odd = Half.of_odd v.bulk_in.cpu_odd
      rw [hc.1]
      rfl
    · show v.bulk_in.busy v.bulk_in.cpu_odd = false
      rw [hc.1]
      exact hc.2
  · rename_i hc
    split
    · rename_i he
      simp only [Bool.not_eq_true'] at he
      have hz := in_step_bits_take _ _ _ _ i1 (by simpa using hc) he
      refine ⟨i1, i2, i3, i4, i5, i6, ?_, i8⟩
      intro _
      refine ⟨?_, ?_⟩
      · show Half.even = Half.of_odd v.bulk_in.cpu_odd
        rw [hz]
        rfl
      · show v.bulk_in.busy v.bulk_in.cpu_odd = false
        rw [hz]
        exact he
    · exact ⟨i1, i2, i3, i4, i5, i6, fun hv => Bool.noConfusion hv, i8⟩

theorem rx_select_inv (v : World)
    (h : PipeInv { v with pipe_state := { v.pipe_state with rx_slice_valid := false } }) :
    PipeInv (rx_select v) := by
  obtain ⟨i1, i2, i3, i4, i5, i6, i7, -⟩ := h
  have i2 : v.bulk_out.in_step = true := i2
  unfold rx_select
  split
  · rename_i hc
    simp only [Bool.and_eq_true, Bool.not_eq_true'] at hc
    refine ⟨i1, i2, i3, i4, i5, i6, i7, ?_⟩
    intro _
    refine ⟨?_, ?_⟩
    · show Half.odd = Half.of_odd v.bulk_out.cpu_odd
      rw [hc.1]
      rfl
    · show v.bulk_out.busy v.bulk_out.cpu_odd = false
      rw [hc.1]
      exact hc.2
  · rename_i hc
    split
    · rename_i he
      simp only [Bool.not_eq_true'] at he
      have hz := in_step_bits_take _ _ _ _ i2 (by simpa using hc) he
      refine ⟨i1, i2, i3, i4, i5, i6, i7, ?_⟩
      intro _
      refine ⟨?_, ?_⟩
      · show Half.even = Half.of_odd v.bulk_out.cpu_odd
        rw [hz]
        rfl
      · show v.bulk_out.busy v.bulk_out.cpu_odd = false
        rw [hz]
        exact he
    · exact ⟨i1, i2, i3, i4, i5, i6, i7, fun hv => Bool.noConfusion hv⟩

theorem pipe_arm_rx_fields (w : World) :
    (pipe_arm_rx w).bulk_out.cpu_odd = (!w.bulk_out.cpu_odd) ∧
    (pipe_arm_rx w).bulk_out.sie_odd = w.bulk_out.sie_odd ∧
    (pipe_arm_rx w).bulk_out.even_busy =
      (if w.bulk_out.cpu_odd then w.bulk_out.even_busy else true) ∧
    (pipe_arm_rx w).bulk_out.odd_busy =
      (if w.bulk_out.cpu_odd then true else w.bulk_out.odd_busy) ∧
    get_bit (pipe_arm_rx w).bds.ep2_out_even.STAT 7 =
      (if w.bulk_out.cpu_odd then get_bit w.bds.ep2_out_even.STAT 7 else true) ∧
    get_bit (pipe_arm_rx w).bds.ep2_out_odd.STAT 7 =
      (if w.bulk_out.cpu_odd then true else get_bit w.bds.ep2_out_odd.STAT 7) ∧
    (pipe_arm_rx w).bulk_in = w.bulk_in ∧
    (pipe_arm_rx w).bds.ep2_in_even = w.bds.ep2_in_even ∧
    (pipe_arm_rx w).bds.ep2_in_odd = w.bds.ep2_in_odd ∧
    (pipe_arm_rx w).pipe_state = w.pipe_state := by
  obtain ⟨-, b2, -, -⟩ := BD_ARM_DATA_bits w.bds.ep2_out_odd w.bulk_out.cpu_dts 64 (by decide)
  obtain ⟨-, c2, -, -⟩ := BD_ARM_DATA_bits w.bds.ep2_out_even w.bulk_out.cpu_dts 64 (by decide)
  unfold pipe_arm_rx
  cases h1 : w.bulk_out.cpu_odd <;> simp [h1, FLIP_BIT, EP2_PACKET_SIZE, b2, c2]

theorem tx_arm_fields (w : World) :
    (tx_arm w).bulk_in.cpu_odd = (!w.bulk_in.cpu_odd) ∧
    (tx_arm w).bulk_in.sie_odd = w.bulk_in.sie_odd ∧
    (tx_arm w).bulk_in.even_busy = (if w.bulk_in.cpu_odd then w.bulk_in.even_busy else true) ∧
    (tx_arm w).bulk_in.odd_busy = (if w.bulk_in.cpu_odd then true else w.bulk_in.odd_busy) ∧
    get_bit (tx_arm w).bds.ep2_in_even.STAT 7 =
      (if w.bulk_in.cpu_odd then get_bit w.bds.ep2_in_even.STAT 7 else true) ∧
    get_bit (tx_arm w).bds.ep2_in_odd.STAT 7 =
      (if w.bulk_in.cpu_odd then true else get_bit w.bds.ep2_in_odd.STAT 7) ∧
    (tx_arm w).bulk_out = w.bulk_out ∧
    (tx_arm w).bds.ep2_out_even = w.bds.ep2_out_even ∧
    (tx_arm w).bds.ep2_out_odd = w.bds.ep2_out_odd ∧
    (tx_arm w).pipe_state.rx_slice_valid = w.pipe_state.rx_slice_valid ∧
    (tx_arm w).pipe_state.rx_slice = w.pipe_state.rx_slice := by
  unfold tx_arm
  simp only []
  generalize (EP2_PACKET_SIZE + 256 - w.pipe_state.tx_slice.len % 256) % 256 = n
  have hbit : ∀ (bd : BufferDescriptor) (d : Bool), get_bit (BD_ARM_DATA bd d n).STAT 7 = true := by
    intro bd d
    have := BD_ARM_DATA_bits bd d (n % 256) (Nat.mod_lt _ (by decide))
    have e : (BD_ARM_DATA bd d (n % 256)).STAT = (BD_ARM_DATA bd d n).STAT := rfl
    rw [e] at this
    exact this.2.1
  have b := hbit w.bds.ep2_in_odd w.bulk_in.cpu_dts
  have c := hbit w.bds.ep2_in_even w.bulk_in.cpu_dts
  cases h1 : w.bulk_in.cpu_odd <;> simp [h1, FLIP_BIT, b, c]

theorem get_clear_bit_7 (b : Nat) : get_bit (set_bit b 7 false) 7 = false := by
  unfold get_bit set_bit
  simp
  omega

theorem tx_arm_inv (v : World) (h : PipeInv v) (hv : v.pipe_state.tx_slice_valid = true) :
    PipeInv { tx_arm v with
      pipe_state := { (tx_arm v).pipe_state with tx_slice_valid := false } } := by
  obtain ⟨i1, i2, i3, i4, i5, i6, i7, i8⟩ := h
  obtain ⟨a1, a2, a3, a4, a5, a6, a7, a8, a9, a10, a11⟩ := tx_arm_fields v
  have hc := in_step_bits_arm _ _ _ _ i1 (i7 hv).2
  refine ⟨?_, ?_, ?_, ?_, ?_, ?_, fun hx => Bool.noConfusion hx, ?_⟩
  · show (tx_arm v).bulk_in.in_step = true
    unfold BulkFlags.in_step
    rw [a1, a2, a3, a4]
    exact hc
  · show (tx_arm v).bulk_out.in_step = true
    rw [a7]
    exact i2
  · show get_bit (tx_arm v).bds.ep2_in_even.STAT 7 = (tx_arm v).bulk_in.even_busy
    rw [a5, a3, i3]
  · show get_bit (tx_arm v).bds.ep2_in_odd.STAT 7 = (tx_arm v).bulk_in.odd_busy
    rw [a6, a4, i4]
  · show get_bit (tx_arm v).bds.ep2_out_even.STAT 7 = (tx_arm v).bulk_out.even_busy
    rw [a8, a7]
    exact i5
  · show get_bit (tx_arm v).bds.ep2_out_odd.STAT 7 = (tx_arm v).bulk_out.odd_busy
    rw [a9, a7]
    exact i6
  · show (tx_arm v).pipe_state.rx_slice_valid = true →
      (tx_arm v).pipe_state.rx_slice.ptr.half = Half.of_odd (tx_arm v).bulk_out.cpu_odd ∧
      (tx_arm v).bulk_out.busy (tx_arm v).bulk_out.cpu_odd = false
    rw [a10, a11, a7]
    exact i8

theorem pipe_arm_rx_inv (v : World) (h : PipeInv v) (hv : v.pipe_state.rx_slice_valid = true) :
    PipeInv { pipe_arm_rx v with
      pipe_state := { (pipe_arm_rx v).pipe_state with rx_slice_valid := false } } := by
  obtain ⟨i1, i2, i3, i4, i5, i6, i7, i8⟩ := h
  obtain ⟨a1, a2, a3, a4, a5, a6, a7, a8, a9, a10⟩ := pipe_arm_rx_fields v
  have hc := in_step_bits_arm _ _ _ _ i2 (i8 hv).2
  refine ⟨?_, ?_, ?_, ?_, ?_, ?_, ?_, fun hx => Bool.noConfusion hx⟩
  · show (pipe_arm_rx v).bulk_in.in_step = true
    rw [a7]
    exact i1
  · show (pipe_arm_rx v).bulk_out.in_step = true
    unfold BulkFlags.in_step
    rw [a1, a2, a3, a4]
    exact hc
  · show get_bit (pipe_arm_rx v).bds.ep2_in_even.STAT 7 = (pipe_arm_rx v).bulk_in.even_busy
    rw [a8, a7]
    exact i3
  · show get_bit (pipe_arm_rx v).bds.ep2_in_odd.STAT 7 = (pipe_arm_rx v).bulk_in.odd_busy
    rw [a9, a7]
    exact i4
  · show get_bit (pipe_arm_rx v).bds.ep2_out_even.STAT 7 = (pipe_arm_rx v).bulk_out.even_busy
    rw [a5, a3, i5]
  · show get_bit (pipe_arm_rx v).bds.ep2_out_odd.STAT 7 = (pipe_arm_rx v).bulk_out.odd_busy
    rw [a6, a4, i6]
  · show (pipe_arm_rx v).pipe_state.tx_slice_valid = true →
      (pipe_arm_rx v).pipe_state.tx_slice.ptr.half = Half.of_odd (pipe_arm_rx v).bulk_in.cpu_odd ∧
      (pipe_arm_rx v).bulk_in.busy (pipe_arm_rx v).bulk_in.cpu_odd = false
    rw [a10, a7]
    exact i7

/-- `pipe_tx_flush`, called with a valid slice, keeps the invariant of the
pipe. -/
theorem pipe_tx_flush_inv (w : World) (h : PipeInv w) (ho : irq_in_order w = true)
    (hv : w.pipe_state.tx_slice_valid = true) : PipeInv (pipe_tx_flush w) := by
  rw [pipe_tx_flush_eq]
  refine END_CRITICAL_SECTION_inv _ (tx_select_inv _ (tx_arm_inv _
    (BEGIN_CRITICAL_SECTION_inv w h ho) ?_))
  rw [BEGIN_CRITICAL_SECTION_pipe_state]
  exact hv

/-- `pipe_tx_acquire` keeps the invariant of the pipe. -/
theorem pipe_tx_acquire_inv (w : World) (h : PipeInv w) (ho : irq_in_order w = true) :
    PipeInv (pipe_tx_acquire w) := by
  rw [pipe_tx_acquire_eq]
  split
  · exact END_CRITICAL_SECTION_inv _ (tx_take_inv _ (BEGIN_CRITICAL_SECTION_inv w h ho))
  · rename_i hv
    split
    · exact pipe_tx_flush_inv w h ho (by simpa using hv)
    · exact h

/-- `pipe_rx_acquire` keeps the invariant of the pipe. -/
theorem pipe_rx_acquire_inv (w : World) (h : PipeInv w) (ho : irq_in_order w = true) :
    PipeInv (pipe_rx_acquire w) := by
  rw [pipe_rx_acquire_eq]
  split
  · exact END_CRITICAL_SECTION_inv _ (rx_take_inv _ (BEGIN_CRITICAL_SECTION_inv w h ho))
  · rename_i hv
    split
    · refine END_CRITICAL_SECTION_inv _ (rx_select_inv _ (pipe_arm_rx_inv _
        (BEGIN_CRITICAL_SECTION_inv w h ho) ?_))
      rw [BEGIN_CRITICAL_SECTION_pipe_state]
      simpa using hv
    · exact h

/-- `usb_config_activate` establishes the invariant of the pipe when it finds
the busy flags of the IN direction clear, as `usb_reset` leaves them. -/
theorem usb_config_activate_inv (x : World) (he : x.bulk_in.even_busy = false)
    (ho : x.bulk_in.odd_busy = false) : PipeInv (usb_config_activate x) := by
  have b : ∀ (bd : BufferDescriptor) (d : Bool), get_bit (BD_ARM_DATA bd d 64).STAT 7 = true :=
    fun bd d => (BD_ARM_DATA_bits bd d 64 (by decide)).2.1
  have c : ∀ bd : BufferDescriptor, get_bit (bd.set_UOWN false).STAT 7 = false :=
    fun bd => get_clear_bit_7 bd.STAT
  refine ⟨?_, ?_, ?_, ?_, ?_, ?_, fun hx => ?_, fun hx => ?_⟩
  · unfold usb_config_activate pipe_arm_rx pipe_reset USB_SYNC_ACTIVE_FLAG
    cases h : x.bulk_out.sie_odd <;>
      simp [h, FLIP_BIT, BulkFlags.in_step, in_step_bits, he, ho]
  · unfold usb_config_activate pipe_arm_rx pipe_reset USB_SYNC_ACTIVE_FLAG
    cases h : x.bulk_out.sie_odd <;> simp [h, FLIP_BIT, BulkFlags.in_step, in_step_bits]
  · unfold usb_config_activate pipe_arm_rx pipe_reset USB_SYNC_ACTIVE_FLAG
    cases h : x.bulk_out.sie_odd <;> simp [h, FLIP_BIT, c, he]
  · unfold usb_config_activate pipe_arm_rx pipe_reset USB_SYNC_ACTIVE_FLAG
    cases h : x.bulk_out.sie_odd <;> simp [h, FLIP_BIT, c, ho]
  · unfold usb_config_activate pipe_arm_rx pipe_reset USB_SYNC_ACTIVE_FLAG
    cases h : x.bulk_out.sie_odd <;> simp [h, FLIP_BIT, EP2_PACKET_SIZE, b]
  · unfold usb_config_activate pipe_arm_rx pipe_reset USB_SYNC_ACTIVE_FLAG
    cases h : x.bulk_out.sie_odd <;> simp [h, FLIP_BIT, EP2_PACKET_SIZE, b]
  · exact Bool.noConfusion ((usb_config_activate_spec x).2.1.2.2.1.symm.trans hx)
  · exact Bool.noConfusion ((usb_config_activate_spec x).2.1.2.1.symm.trans hx)

theorem PipeOp.run_inv (w : World) (op : PipeOp) (h : PipeInv w) (ha : op.allowed w = true) :
    PipeInv (op.run w) := by
  simp only [PipeOp.allowed, Bool.and_eq_true] at ha
  cases op with
  | rx_acquire => exact pipe_rx_acquire_inv w h ha.1
  | tx_acquire => exact pipe_tx_acquire_inv w h ha.1
  | tx_flush => exact pipe_tx_flush_inv w h ha.1 ha.2

/-- From a state that satisfies the invariant of the pipe, every state reached
by operations of the pipe, with the completions the engine can produce
serviced in their critical sections, satisfies it. -/
theorem pipe_ops_inv (ops : List PipeOp) (w : World) (h : PipeInv w)
    (ha : pipe_ops_allowed w ops = true) : PipeInv (ops.foldl PipeOp.run w) := by
  induction ops generalizing w with
  | nil => exact h
  | cons op ops ih =>
    simp only [pipe_ops_allowed, Bool.and_eq_true] at ha
    exact ih _ (PipeOp.run_inv w op h ha.1) ha.2

/-- Under the invariant of the pipe, `pipe_tx_flush` arms a half that is not
busy and that the engine does not own, and it is the half the transmit slice
points into. -/
theorem pipe_tx_flush_arms_slice (w : World) (h : PipeInv w) (ho : irq_in_order w = true)
    (hv : w.pipe_state.tx_slice_valid = true) :
    (BEGIN_CRITICAL_SECTION w).bulk_in.busy w.bulk_in.cpu_odd = false ∧
    get_bit ((BEGIN_CRITICAL_SECTION w).in_bd w.bulk_in.cpu_odd).STAT 7 = false ∧
    w.pipe_state.tx_slice.ptr.half = Half.of_odd w.bulk_in.cpu_odd ∧
    get_bit ((pipe_tx_flush w).in_bd w.bulk_in.cpu_odd).STAT 7 = true ∧
    (pipe_tx_flush w).in_bd (!w.bulk_in.cpu_odd) =
      (BEGIN_CRITICAL_SECTION w).in_bd (!w.bulk_in.cpu_odd) := by
  have hb := BEGIN_CRITICAL_SECTION_inv w h ho
  have hc := (BEGIN_CRITICAL_SECTION_cpu_bits w).1
  have hp := BEGIN_CRITICAL_SECTION_pipe_state w
  obtain ⟨f1, -, f3, -, -, -, -⟩ := pipe_tx_flush_alternates w
  have hs := hb.tx (by rw [hp]; exact hv)
  rw [hp, hc] at hs
  refine ⟨hs.2, ?_, (h.tx hv).1, f1, f3⟩
  have hbusy := hs.2
  unfold World.in_bd
  unfold BulkFlags.busy at hbusy
  cases hq : w.bulk_in.cpu_odd
  · rw [hq] at hbusy
    simpa using hb.in_even.trans hbusy
  · rw [hq] at hbusy
    simpa using hb.in_odd.trans hbusy

/-- Under the invariant of the pipe, the re-arm in `pipe_rx_acquire` arms a
half that is not busy and that the engine does not own, and it is the half the
used-up receive slice points into. -/
theorem pipe_rx_acquire_arms_slice (w : World) (h : PipeInv w) (ho : irq_in_order w = true)
    (hv : w.pipe_state.rx_slice_valid = true) :
    (BEGIN_CRITICAL_SECTION w).bulk_out.busy w.bulk_out.cpu_odd = false ∧
    get_bit ((BEGIN_CRITICAL_SECTION w).out_bd w.bulk_out.cpu_odd).STAT 7 = false ∧
    w.pipe_state.rx_slice.ptr.half = Half.of_odd w.bulk_out.cpu_odd ∧
    get_bit ((pipe_arm_rx (BEGIN_CRITICAL_SECTION w)).out_bd w.bulk_out.cpu_odd).STAT 7 = true ∧
    (pipe_arm_rx (BEGIN_CRITICAL_SECTION w)).out_bd (!w.bulk_out.cpu_odd) =
      (BEGIN_CRITICAL_SECTION w).out_bd (!w.bulk_out.cpu_odd) ∧
    (w.pipe_state.rx_slice.len = 0 →
      (pipe_rx_acquire w).bds = (pipe_arm_rx (BEGIN_CRITICAL_SECTION w)).bds) := by
  have hb := BEGIN_CRITICAL_SECTION_inv w h ho
  have hc := (BEGIN_CRITICAL_SECTION_cpu_bits w).2.2.1
  have hp := BEGIN_CRITICAL_SECTION_pipe_state w
  obtain ⟨-, f2, -, f4, -, -, -, -, -⟩ := pipe_arm_rx_effect (BEGIN_CRITICAL_SECTION w)
  have hs := hb.rx (by rw [hp]; exact hv)
  rw [hp, hc] at hs
  rw [hc] at f2 f4
  refine ⟨hs.2, ?_, (h.rx hv).1, f2, f4, ?_⟩
  · have hbusy := hs.2
    unfold World.out_bd
    unfold BulkFlags.busy at hbusy
    cases hq : w.bulk_out.cpu_odd
    · rw [hq] at hbusy
      simpa using hb.out_even.trans hbusy
    · rw [hq] at hbusy
      simpa using hb.out_odd.trans hbusy
  · intro hl
    rw [pipe_rx_acquire_eq, if_neg (by simp [hv]), if_pos hl, (END_CRITICAL_SECTION_fields _).1]
    unfold rx_select
    split
    · rfl
    · split <;> rfl

/-- C33, as the code has it.  `pipe_reset`, and with it `usb_config_activate`,
sets `cpu_odd` to the parity of the engine and clears `UOWN` of every bulk
descriptor but leaves the busy flags of the IN direction as they are; only
`usb_reset` clears them.  In the sample world the even IN half has completed and
the odd half is armed when the host repeats SET_CONFIGURATION with value 1: the
state entered by `usb_config_activate` has `cpu_odd` set, the odd half marked
busy though the engine no longer owns it, and the even half free.
`pipe_tx_acquire` then exposes the even buffer as the transmit slice while
`cpu_odd` is set, and `pipe_tx_flush` arms the odd half, whose busy flag is
still set, and not the half the slice points into.  No completion is pending in
these steps. -/
theorem reconfiguration_arms_busy_half :
    (World.stale_sample.bulk_in.cpu_odd = false ∧ World.stale_sample.bulk_in.sie_odd = true ∧
      World.stale_sample.bulk_in.odd_busy = true ∧
      World.stale_sample.bulk_in.even_busy = false ∧
      get_bit World.stale_sample.bds.ep2_in_odd.STAT 7 = true) ∧
    (Machine.reconfigured_sample.world.bulk_in =
        (usb_config_activate World.stale_sample).bulk_in ∧
      Machine.reconfigured_sample.world.pipe_state =
        (usb_config_activate World.stale_sample).pipe_state ∧
      Machine.reconfigured_sample.world.usb_state.active = true) ∧
    (Machine.reconfigured_sample.world.bulk_in.cpu_odd = true ∧
      Machine.reconfigured_sample.world.bulk_in.odd_busy = true ∧
      Machine.reconfigured_sample.world.bulk_in.even_busy = false ∧
      get_bit Machine.reconfigured_sample.world.bds.ep2_in_odd.STAT 7 = false ∧
      Machine.reconfigured_sample.world.pipe_state.tx_slice_valid = false ∧
      Machine.reconfigured_sample.world.pending = []) ∧
    ((pipe_tx_acquire Machine.reconfigured_sample.world).pipe_state.tx_slice_valid = true ∧
      (pipe_tx_acquire Machine.reconfigured_sample.world).pipe_state.tx_slice.ptr.half =
        .even ∧
      (pipe_tx_acquire Machine.reconfigured_sample.world).bulk_in.cpu_odd = true ∧
      (pipe_tx_acquire Machine.reconfigured_sample.world).bulk_in.odd_busy = true) ∧
    (get_bit (pipe_tx_flush
        (pipe_tx_acquire Machine.reconfigured_sample.world)).bds.ep2_in_odd.STAT 7 = true ∧
      get_bit (pipe_tx_flush
        (pipe_tx_acquire Machine.reconfigured_sample.world)).bds.ep2_in_even.STAT 7 = false ∧
      (pipe_tx_flush (pipe_tx_acquire Machine.reconfigured_sample.world)).bulk_in.cpu_odd =
        false) := by
  decide

/-- The invariant of the pipe at a concrete input: after `usb_config_activate`
in the world after reset, with the completion of the first OUT packet pending,
a transmit slice is acquired and flushed and a receive slice acquired. -/
theorem pipe_ops_inv_sample :
    PipeInv ([PipeOp.tx_acquire, .tx_flush, .rx_acquire].foldl PipeOp.run
      { usb_config_activate World.boot with
        pending := [[], [.ep2_out false [0x1f]]], PEIE := true }) :=
  pipe_ops_inv _ _
    ((usb_config_activate_inv World.boot (by decide) (by decide)).of_fields rfl rfl rfl rfl)
    (by decide)

/-- C27 refuted as written.  After a bus reset handled on the active sample
machine the two descriptors of the unused OUT direction of endpoint 1 are zero,
not stalled.  On the detached sample machine (`usb_detach`, which leaves
`UIE = 0`) the reset signal does not get to the handler: `usb_isr` leaves
`kind = USB_STATE_DETACHED`. -/
theorem bus_reset_not_all_stalled :
    (usb_isr (sie_bus_reset Machine.active_sample)).world.bds.ep1_out_even.stalled = false ∧
    (usb_isr (sie_bus_reset Machine.active_sample)).world.bds.ep1_out_odd.stalled = false ∧
    (usb_detach Machine.active_sample).world.usb_state.kind = .USB_STATE_DETACHED ∧
    (sie_bus_reset (usb_detach Machine.active_sample)).regs.URSTIF = true ∧
    ¬ ResetHandled (sie_bus_reset (usb_detach Machine.active_sample)) ∧
    (usb_isr (sie_bus_reset (usb_detach Machine.active_sample))).world.usb_state.kind =
      .USB_STATE_DETACHED := by
  decide

/-- C5, as the code has it.  The lock flag can be set without a key being
received.  No command is in progress, the receive slice that `pipe_rx_acquire`
exposes is valid and holds zero bytes, and `state.cmd`, `header.len` and the
header buffer are those of an earlier UNLOCK with the key, which `reset_state`
does not clear.  Then `fetch_command` consumes nothing, finds no byte missing,
compares the old header with the key and sets `unlocked`; the command is ready
with the sixteen key bytes as its response. -/
theorem stale_unlock_reopens (w : World) (hidle : w.state.cmd_valid = false)
    (hv : (pipe_rx_acquire w).pipe_state.rx_slice_valid = true)
    (hl : (pipe_rx_acquire w).pipe_state.rx_slice.len = 0)
    (hc : w.state.cmd &&& CMD_MASK = CMD_UNLOCK) (hn : w.state.header.len = 16)
    (hk : read_bytes w.state.header.bytes 0 16 = UNLOCK_MAGIC) :
    (fetch_command w).rx_log = w.rx_log ∧
    (fetch_command w).state.unlocked = true ∧
    (fetch_command w).state.header_valid = true ∧
    (fetch_command w).state.cmd_valid = false ∧
    (fetch_command w).state.cmd = CMD_UNLOCK ∧
    (fetch_command w).state.tx_read_slice = { ptr := { reg := .header, off := 0 }, len := 16 } ∧
    (fetch_command w).state.header = w.state.header := by
  have ht : total_header_len w.state.cmd w.state.unlocked = ((16 : Nat) : Int) :=
    total_header_len_nonneg_of_table w.state.cmd w.state.unlocked 16
      (by rw [hc]; cases w.state.unlocked <;> rfl)
  obtain ⟨u, hf, hst, hrx, -, -⟩ := fetch_command_stale w 16 hv hl ht hn (Nat.le_refl _)
  have hcmd : u.state.cmd &&& CMD_MASK = CMD_UNLOCK := by rw [hst]; exact hc
  have hkey : read_bytes u.state.header.bytes 0 16 = UNLOCK_MAGIC := by rw [hst]; exact hk
  have hd := dispatch_header_unlock u hcmd
  rw [if_neg (by rw [hkey]; simp), ← hf] at hd
  refine ⟨by rw [hf, dispatch_header_rx_log, hrx], ?_, ?_, ?_, ?_, ?_, ?_⟩
  · rw [hd]; rfl
  · rw [hd]; simp [mask, World.set_tx_read_slice, hst]
  · rw [hd]; simp [mask, World.set_tx_read_slice, hst, hidle]
  · rw [hd]; exact hcmd
  · rw [hd]; rfl
  · rw [hd]; simp [mask, World.set_tx_read_slice, hst]

/-- C5 at the failing input: UNLOCK with the key, a bus reset, which closes the
lock, a new configuration, and then a zero-length OUT packet.  The next round
of the active loop opens the lock and sends the key a second time, though only
the seventeen bytes of the one UNLOCK command were ever received. -/
theorem stale_unlock_reopens_witness :
    (Machine.relocked_sample.world.state.unlocked = false ∧
      Machine.relocked_sample.world.tx_log = UNLOCK_MAGIC ∧
      World.relocked_zlp_sample.state.unlocked = false ∧
      World.relocked_zlp_sample.usb_state.active = true) ∧
    (fetch_command World.relocked_zlp_sample).state.unlocked = true ∧
    (fetch_command World.relocked_zlp_sample).rx_log = 0x02 :: UNLOCK_MAGIC ∧
    (main_step 8 .active World.relocked_zlp_sample).2.state.unlocked = true ∧
    (main_step 8 .active World.relocked_zlp_sample).2.rx_log = 0x02 :: UNLOCK_MAGIC ∧
    (main_step 8 .active World.relocked_zlp_sample).2.tx_log = UNLOCK_MAGIC ++ UNLOCK_MAGIC :=
  have h := stale_unlock_reopens World.relocked_zlp_sample (by decide) (by decide) (by decide)
    (by decide) (by decide) (by decide)
  ⟨by decide, h.2.1, h.1.trans (by decide), by decide, by decide, by decide⟩

theorem replay_write_mem (w : World) (j : Nat) :
    replay_write w j = { w with
      hw_log := w.hw_log ++ [replay_mem_op w.flash_mem j]
      oob := w.oob ||
        decide (w.flash_sequence.write.length < SIZEOF_WRITE * j + SIZEOF_WRITE) } := by
  unfold replay_write replay_mem_op write_strobe
  simp only [World.hw]
  split <;> rfl

theorem replay_fold_mem (js : List Nat) :
    ∀ w : World, ∃ o, js.foldl replay_write w =
      { w with hw_log := w.hw_log ++ js.map (replay_mem_op w.flash_mem), oob := o } := by
  induction js with
  | nil => intro w; exact ⟨w.oob, by simp⟩
  | cons j js ih =>
    intro w
    rw [List.foldl_cons, replay_write_mem w j]
    obtain ⟨o, e⟩ := ih { w with
      hw_log := w.hw_log ++ [replay_mem_op w.flash_mem j]
      oob := w.oob ||
        decide (w.flash_sequence.write.length < SIZEOF_WRITE * j + SIZEOF_WRITE) }
    refine ⟨o, ?_⟩
    rw [e]
    simp [World.flash_mem]

/-- The replay loop issues the records `0 .. len - 1` in order, as read from
the memory at the record array, and changes nothing else but the flag `oob`. -/
theorem replay_sequence_mem (w : World) :
    ∃ o, replay_sequence w =
      { w with
        hw_log := w.hw_log ++ replay_mem_spec w.flash_sequence.len w.flash_mem, oob := o } :=
  replay_fold_mem (List.range w.flash_sequence.len) w

/-- The statements before the polling issue `RD` high, the replay, the write
of the byte and `RD` low, whether or not the records lie inside the array. -/
theorem flash_byte_written_mem (w : World) (b : Nat) :
    ∃ o, flash_byte_written w b = { flash_byte_skipped w with
      hw_log := w.hw_log ++ ([HwOp.rd_pin true] ++
        replay_mem_spec w.flash_sequence.len w.flash_mem ++
        [HwOp.write_byte w.state.params.addr b .a15 (write_strobe (get_bit w.state.params.b0 6)),
         HwOp.rd_pin false])
      oob := o } := by
  obtain ⟨o, e⟩ := replay_sequence_mem ((w.rx_advance 1).hw (.rd_pin true))
  refine ⟨o, ?_⟩
  unfold flash_byte_written
  simp only []
  rw [e]
  unfold flash_byte_skipped
  simp only [World.hw, World.set_params, World.rx_advance, World.flash_mem, List.append_assoc,
    List.cons_append, List.nil_append, List.singleton_append]
  rfl

/-- Inside the record array the memory read is the array itself. -/
theorem replay_mem_spec_in_bounds (seq : WriteSequence) (ram : List Nat) (h : seq.in_bounds) :
    replay_mem_spec seq.len (seq.write ++ ram) = replay_spec seq := by
  unfold replay_mem_spec replay_spec
  apply List.map_congr_left
  intro j hj
  have hl := List.mem_range.mp hj
  unfold WriteSequence.in_bounds at h
  have h4 : SIZEOF_WRITE = 4 := rfl
  have hb : SIZEOF_WRITE * j + SIZEOF_WRITE ≤ seq.write.length := by
    have : SIZEOF_WRITE * (j + 1) ≤ SIZEOF_WRITE * seq.len := Nat.mul_le_mul_left _ hl
    rw [Nat.mul_add, Nat.mul_one] at this
    omega
  unfold replay_mem_op replay_op
  rw [getD_append_inside _ _ _ (by omega), getD_append_inside _ _ _ (by omega),
    getD_append_inside _ _ _ (by omega), getD_append_inside _ _ _ (by omega)]

theorem FlashBurstTrace.append {len : Nat} {mem : List Nat} {vin : Bool} :
    ∀ {a : Nat} {l1 : List Nat} {o1 : List HwOp}, FlashBurstTrace len mem vin a l1 o1 →
      a < 65536 → ∀ (l2 : List Nat) (o2 : List HwOp),
        FlashBurstTrace len mem vin ((a + l1.length) % 65536) l2 o2 →
        FlashBurstTrace len mem vin a (l1 ++ l2) (o1 ++ o2) := by
  intro a l1 o1 h1
  induction h1 with
  | done a =>
    intro ha l2 o2 h2
    rw [List.length_nil, Nat.add_zero, Nat.mod_eq_of_lt ha] at h2
    exact h2
  | @skip a bs ops _ ih =>
    intro ha l2 o2 h2
    have e : ((a + 1) % 65536 + bs.length) % 65536 = (a + (bs.length + 1)) % 65536 := by omega
    rw [List.length_cons, ← e] at h2
    exact .skip a (ih (Nat.mod_lt _ (by omega)) l2 o2 h2)
  | @write a b j bs ops hb _ ih =>
    intro ha l2 o2 h2
    have e : ((a + 1) % 65536 + bs.length) % 65536 = (a + (bs.length + 1)) % 65536 := by omega
    rw [List.length_cons, ← e] at h2
    have := FlashBurstTrace.write a b j hb (ih (Nat.mod_lt _ (by omega)) l2 o2 h2)
    simpa [List.append_assoc] using this

theorem FlashTraced.of_same {w r : World} (h1 : r.hw_log = w.hw_log)
    (h2 : r.ram_after = w.ram_after) : FlashTraced w r [] :=
  ⟨h2, [], by rw [h1, List.append_nil], .done _⟩

theorem FlashTraced.trans {w m r : World} {l1 l2 : List Nat} (h1 : FlashTraced w m l1)
    (hfs : m.flash_sequence = w.flash_sequence)
    (hb0 : m.state.params.b0 = w.state.params.b0)
    (haddr : m.state.params.addr = (w.state.params.addr + l1.length) % 65536)
    (ha : w.state.params.addr < 65536) (h2 : FlashTraced m r l2) :
    FlashTraced w r (l1 ++ l2) := by
  obtain ⟨r1, o1, e1, t1⟩ := h1
  obtain ⟨r2, o2, e2, t2⟩ := h2
  have hm : m.flash_mem = w.flash_mem := by unfold World.flash_mem; rw [hfs, r1]
  rw [hfs, hm, hb0, haddr] at t2
  exact ⟨r2.trans r1, o1 ++ o2, by rw [e2, e1, List.append_assoc], t1.append ha l2 o2 t2⟩

theorem usb_event_ram (w : World) (e : UsbEvent) : (usb_event w e).ram_after = w.ram_after := by
  cases e with
  | ep2_out ppbi data => cases ppbi <;> simp [usb_event, usb_isr_ep2, sie_complete]
  | ep2_in ppbi => cases ppbi <;> simp [usb_event, usb_isr_ep2, sie_complete]

theorem foldl_usb_event_ram (l : List UsbEvent) (w : World) :
    (l.foldl usb_event w).ram_after = w.ram_after := by
  induction l generalizing w with
  | nil => rfl
  | cons e l ih => simp [List.foldl, ih, usb_event_ram]

theorem irq_ram (w : World) : (irq w).ram_after = w.ram_after := by
  unfold irq
  split
  · split
    · rfl
    · simp [foldl_usb_event_ram]
  · rfl

theorem BEGIN_CRITICAL_SECTION_ram (w : World) :
    (BEGIN_CRITICAL_SECTION w).ram_after = w.ram_after := by
  simp [BEGIN_CRITICAL_SECTION, irq_ram]

theorem END_CRITICAL_SECTION_ram (w : World) :
    (END_CRITICAL_SECTION w).ram_after = w.ram_after := by
  unfold END_CRITICAL_SECTION; split <;> rfl

theorem pipe_arm_rx_ram (w : World) : (pipe_arm_rx w).ram_after = w.ram_after := by
  unfold pipe_arm_rx
  simp only []
  split <;> rfl

theorem pipe_rx_acquire_ram (w : World) : (pipe_rx_acquire w).ram_after = w.ram_after := by
  rw [pipe_rx_acquire_eq]
  split
  · rw [END_CRITICAL_SECTION_ram]
    split
    · exact BEGIN_CRITICAL_SECTION_ram w
    · split
      · exact BEGIN_CRITICAL_SECTION_ram w
      · exact BEGIN_CRITICAL_SECTION_ram w
  · split
    · rw [END_CRITICAL_SECTION_ram]
      unfold rx_select
      split
      · exact (pipe_arm_rx_ram _).trans (BEGIN_CRITICAL_SECTION_ram w)
      · split
        · exact (pipe_arm_rx_ram _).trans (BEGIN_CRITICAL_SECTION_ram w)
        · exact (pipe_arm_rx_ram _).trans (BEGIN_CRITICAL_SECTION_ram w)
    · rfl

theorem tx_arm_ram (w : World) : (tx_arm w).ram_after = w.ram_after := by
  unfold tx_arm
  simp only []
  split <;> rfl

theorem pipe_tx_flush_ram (w : World) : (pipe_tx_flush w).ram_after = w.ram_after := by
  rw [pipe_tx_flush_eq, END_CRITICAL_SECTION_ram]
  unfold tx_select
  split
  · exact (tx_arm_ram _).trans (BEGIN_CRITICAL_SECTION_ram w)
  · split
    · exact (tx_arm_ram _).trans (BEGIN_CRITICAL_SECTION_ram w)
    · exact (tx_arm_ram _).trans (BEGIN_CRITICAL_SECTION_ram w)

theorem pipe_tx_acquire_ram (w : World) : (pipe_tx_acquire w).ram_after = w.ram_after := by
  rw [pipe_tx_acquire_eq]
  split
  · rw [END_CRITICAL_SECTION_ram]
    split
    · exact BEGIN_CRITICAL_SECTION_ram w
    · split
      · exact BEGIN_CRITICAL_SECTION_ram w
      · exact BEGIN_CRITICAL_SECTION_ram w
  · split
    · exact pipe_tx_flush_ram w
    · rfl

/-- The inner loop of `execute_cmd_flash_burst` is a run over the bytes it
consumes, and it has issued the operations the specification gives for
them. -/
theorem flash_burst_bytes_traced (fuel n : Nat) :
    ∀ w : World, w.state.params.wf →
      ∃ l, FlashBytesRun w n (flash_burst_bytes fuel n w) l ∧
        FlashTraced w (flash_burst_bytes fuel n w) l := by
  induction n with
  | zero => intro w hw; exact ⟨[], flash_bytes_run_zero w hw, FlashTraced.of_same rfl rfl⟩
  | succ n ih =>
    intro w hw
    have ha := Params.addr_lt _ hw
    rw [flash_burst_bytes_succ fuel n w]
    by_cases hd : (w.rx_peek 1).getD 0 0 = 0xff
    · rw [if_pos hd]
      have hs := flash_byte_skipped_step w hd
      have hsa : (flash_byte_skipped w).state.params.addr = (w.state.params.addr + 1) % 65536 := by
        rw [hs.state]; exact Params.set_addr_addr _ _ (Nat.mod_lt _ (by omega))
      obtain ⟨l, hl, hr, ops, he, ht⟩ := ih (flash_byte_skipped w)
        (by rw [hs.state]; exact Params.set_addr_wf _ _ hw)
      refine ⟨0xff :: l, flash_bytes_run_cons hw hd hs hl, hr, ops, he, ?_⟩
      rw [hsa] at ht
      exact .skip _ ht
    · rw [if_neg hd]
      have hs := flash_byte_polled_step fuel w _ rfl hd
      obtain ⟨j, hj⟩ := poll_flash_data_frame fuel (flash_byte_written w ((w.rx_peek 1).getD 0 0))
        w.state.params.addr (d7 ((w.rx_peek 1).getD 0 0))
      obtain ⟨o, hm⟩ := flash_byte_written_mem w ((w.rx_peek 1).getD 0 0)
      generalize hb : (w.rx_peek 1).getD 0 0 = b at hd hs hj hm ⊢
      generalize poll_flash_data fuel (flash_byte_written w b) w.state.params.addr (d7 b) = pr
        at hs hj ⊢
      obtain ⟨r, o2⟩ := pr
      have hr : r = { flash_byte_written w b with
          hw_log := (flash_byte_written w b).hw_log ++
            HwOp.poll_first w.state.params.addr :: List.replicate j HwOp.poll_next
          bus_reads := (flash_byte_written w b).bus_reads + (j + 1)
          status := o2.elim Status.diverged (fun _ => (flash_byte_written w b).status) } := hj
      have hram : r.ram_after = w.ram_after := by rw [hr, hm]; rfl
      have hlog : r.hw_log = w.hw_log ++ ([HwOp.rd_pin true] ++
          replay_mem_spec w.flash_sequence.len w.flash_mem ++
          [HwOp.write_byte w.state.params.addr b .a15 (write_strobe (get_bit w.state.params.b0 6)),
           HwOp.rd_pin false, HwOp.poll_first w.state.params.addr] ++
          List.replicate j HwOp.poll_next) := by
        rw [hr, hm]
        simp [List.append_assoc]
      have hra : r.state.params.addr = (w.state.params.addr + 1) % 65536 := by
        rw [hs.state]; exact Params.set_addr_addr _ _ (Nat.mod_lt _ (by omega))
      have hrb : r.state.params.b0 = w.state.params.b0 := by rw [hs.state]; rfl
      have hrm : r.flash_mem = w.flash_mem := by
        unfold World.flash_mem; rw [hs.flash_sequence, hram]
      cases o2 with
      | none =>
        refine ⟨[b], flash_bytes_run_abort hb hs ?_ hd, hram, _, hlog, ?_⟩
        · show r.status = _
          rw [hr]
          rfl
        · have := @FlashBurstTrace.write w.flash_sequence.len w.flash_mem
            (get_bit w.state.params.b0 6) w.state.params.addr b j [] [] hd (.done _)
          simpa using this
      | some x =>
        obtain ⟨l, hl, hr2, ops, he, ht⟩ := ih r (by rw [hs.state]; exact Params.set_addr_wf _ _ hw)
        refine ⟨b :: l, flash_bytes_run_cons hw hb hs hl, hr2.trans hram,
          [HwOp.rd_pin true] ++ replay_mem_spec w.flash_sequence.len w.flash_mem ++
            [HwOp.write_byte w.state.params.addr b .a15
              (write_strobe (get_bit w.state.params.b0 6)),
             HwOp.rd_pin false, HwOp.poll_first w.state.params.addr] ++
            List.replicate j HwOp.poll_next ++ ops, ?_, ?_⟩
        · rw [he, hlog, List.append_assoc]
        · rw [hs.flash_sequence, hrm, hrb, hra] at ht
          exact .write _ b j hd ht

theorem tx_put_ram (w : World) (src : List Nat) : (w.tx_put src).ram_after = w.ram_after := by
  unfold World.tx_put
  simp only []
  split <;> rfl

theorem tx_read_copy_ram (w : World) (len : Nat) :
    (tx_read_copy w len).ram_after = w.ram_after := by
  simp [tx_read_copy, tx_put_ram]

theorem execute_cmd_tx_read_loop_ram (n : Nat) (w : World) :
    (execute_cmd_tx_read_loop n w).1.ram_after = w.ram_after := by
  induction n generalizing w with
  | zero => rfl
  | succ n ih =>
    unfold execute_cmd_tx_read_loop
    simp only []
    split
    · split
      · exact pipe_tx_acquire_ram w
      · rw [ih, tx_read_copy_ram, pipe_tx_acquire_ram]
    · rfl

/-- One call of `execute_cmd_flash_burst`: the loop runs over the payload
bytes `l` it consumes, issuing the operations the specification gives for
them, and leaves through one of its three exits. -/
theorem execute_cmd_flash_burst_traced (fuel : Nat) :
    ∀ w : World, w.state.params.wf →
      ∃ l v, FlashLoopRun w v l ∧ FlashTraced w v l ∧
        (execute_cmd_flash_burst fuel w = (v, false) ∨
         execute_cmd_flash_burst fuel w = ({ v with status := .diverged }, false) ∨
         (v.state.params.len = 0 ∧ execute_cmd_flash_burst fuel w = execute_cmd_tx_read v)) := by
  induction fuel with
  | zero =>
    intro w hw
    exact ⟨[], w, flash_loop_run_nil hw (PipeFrame.pipe_refl w), FlashTraced.of_same rfl rfl,
      Or.inr (Or.inl rfl)⟩
  | succ n ih =>
    intro w hw
    have ha := Params.addr_lt _ hw
    rw [execute_cmd_flash_burst_succ]
    by_cases hl : w.state.params.len > 0
    · rw [if_pos hl]
      have hf := pipe_rx_acquire_frame w
      have hvr := pipe_rx_acquire_ram w
      by_cases hv : (pipe_rx_acquire w).pipe_state.rx_slice_valid = true
      · rw [if_pos hv]
        generalize hc : MIN (pipe_rx_acquire w).pipe_state.rx_slice.len
          (pipe_rx_acquire w).state.params.len % 256 = c
        have hcl : c ≤ (pipe_rx_acquire w).state.params.len := by
          rw [← hc]
          exact le_trans (Nat.mod_le _ _) (MIN_le_right _ _)
        generalize pipe_rx_acquire w = v at hf hcl hvr ⊢
        have hwv : v.state.params.wf := by rw [hf.state]; exact hw
        obtain ⟨l1, h1, t1⟩ := flash_burst_bytes_traced n c (flash_chunk_start v c)
          (Params.set_len_wf _ _ hwv)
        have h2 := flash_chunk_run hwv hcl h1
        have h0 := flash_loop_run_nil hw hf
        have h3 := flash_loop_run_trans hw h0 (by
          rw [hf.state, List.length_nil, Params.burst_zero _ hw]) h2
        rw [List.nil_append] at h3
        have t0 : FlashTraced w (flash_chunk_start v c) [] :=
          FlashTraced.of_same (show v.hw_log = w.hw_log from hf.hw_log)
            (show v.ram_after = w.ram_after from hvr)
        have t3 : FlashTraced w (flash_burst_bytes n c (flash_chunk_start v c)) ([] ++ l1) :=
          t0.trans (show v.flash_sequence = w.flash_sequence from hf.flash_sequence)
            (show (v.state.params.set_len (v.state.params.len - c)).b0 = w.state.params.b0 by
              rw [hf.state]; rfl)
            (show (v.state.params.set_len (v.state.params.len - c)).addr =
                (w.state.params.addr + ([] : List Nat).length) % 65536 by
              rw [hf.state, List.length_nil, Nat.add_zero, Nat.mod_eq_of_lt ha]; rfl)
            ha t1
        rw [List.nil_append] at t3
        generalize flash_burst_bytes n c (flash_chunk_start v c) = r at h1 h2 h3 t3 ⊢
        by_cases hs : r.status = .running
        · rw [if_pos hs]
          obtain ⟨l2, u, h4, t4, h5⟩ := ih r h3.wf
          exact ⟨l1 ++ l2, u, flash_loop_run_trans hw h3 (h3.params hs) h4,
            t3.trans h3.flash_sequence h3.b0 h3.addr ha t4, h5⟩
        · rw [if_neg hs]
          exact ⟨l1, r, h3, t3, Or.inl rfl⟩
      · rw [if_neg hv]
        exact ⟨[], _, flash_loop_run_nil hw hf, FlashTraced.of_same hf.hw_log hvr, Or.inl rfl⟩
    · rw [if_neg hl]
      exact ⟨[], w, flash_loop_run_nil hw (PipeFrame.pipe_refl w), FlashTraced.of_same rfl rfl,
        Or.inr (Or.inr ⟨by omega, rfl⟩)⟩

/-- One call of `execute_cmd_flash_burst`, response part included. -/
theorem flash_burst_call_traced (fuel : Nat) (w : World) (hw : w.state.params.wf) :
    (execute_cmd_flash_burst fuel w).1.state.params.wf ∧
    (execute_cmd_flash_burst fuel w).1.flash_sequence = w.flash_sequence ∧
    (execute_cmd_flash_burst fuel w).1.state.params.b0 = w.state.params.b0 ∧
    ∃ l : List Nat, l.length ≤ w.state.params.len ∧
      (execute_cmd_flash_burst fuel w).1.rx_log = w.rx_log ++ l ∧
      FlashTraced w (execute_cmd_flash_burst fuel w).1 l ∧
      (execute_cmd_flash_burst fuel w).1.state.params.addr =
        (w.state.params.addr + l.length) % 65536 ∧
      ((execute_cmd_flash_burst fuel w).1.status = .running →
        (execute_cmd_flash_burst fuel w).1.state.params = w.state.params.burst_advance l.length ∧
        w.status = .running) := by
  obtain ⟨l, v, h, t, hx | hx | ⟨-, hx⟩⟩ := execute_cmd_flash_burst_traced fuel w hw
  · rw [hx]
    exact ⟨h.wf, h.flash_sequence, h.b0, l, h.length_le, h.rx_log, t, h.addr,
      fun hs => ⟨h.params hs, h.status hs⟩⟩
  · rw [hx]
    exact ⟨h.wf, h.flash_sequence, h.b0, l, h.length_le, h.rx_log, t, h.addr,
      fun hs => by cases hs⟩
  · rw [hx]
    obtain ⟨hf, s, hs⟩ := execute_cmd_tx_read_loop_inert v.state.tx_read_slice.len v
    have hp : (execute_cmd_tx_read v).1.state.params = v.state.params := by
      show (execute_cmd_tx_read_loop v.state.tx_read_slice.len v).1.state.params = _
      rw [hs]
    have hr : (execute_cmd_tx_read v).1.ram_after = v.ram_after :=
      execute_cmd_tx_read_loop_ram v.state.tx_read_slice.len v
    have hh : (execute_cmd_tx_read v).1.hw_log = v.hw_log := hf.hw_log
    refine ⟨by rw [hp]; exact h.wf, ?_, by rw [hp]; exact h.b0, l, h.length_le, ?_, ?_, ?_, ?_⟩
    · exact hf.flash_sequence.trans h.flash_sequence
    · exact hf.rx_log.trans h.rx_log
    · obtain ⟨r1, ops, e1, t1⟩ := t
      exact ⟨hr.trans r1, ops, hh.trans e1, t1⟩
    · rw [hp]; exact h.addr
    · intro hr2
      have hv : v.status = .running := hf.status.symm.trans hr2
      exact ⟨hp.trans (h.params hv), h.status hv⟩

/-- Calls of `execute_cmd_flash_burst`, however the payload is cut into receive
slices: the bytes `l` consumed in all of them together are dealt with in order,
with the operations the specification gives for them, and the address has
moved on by their number. -/
theorem flash_burst_calls_traced {w r : World} (h : FlashBurstCalls w r) :
    w.state.params.wf →
      ∃ l : List Nat, r.rx_log = w.rx_log ++ l ∧
        FlashTraced w r l ∧
        r.state.params.addr = (w.state.params.addr + l.length) % 65536 ∧
        r.flash_sequence = w.flash_sequence ∧ r.state.params.b0 = w.state.params.b0 ∧
        r.state.params.wf ∧
        (r.status = .running →
          r.state.params = w.state.params.burst_advance l.length ∧ w.status = .running ∧
          l.length ≤ w.state.params.len) := by
  induction h with
  | here w =>
    intro hw
    refine ⟨[], by simp, FlashTraced.of_same rfl rfl, ?_, rfl, rfl, hw,
      fun hs => ⟨?_, hs, Nat.zero_le _⟩⟩
    · rw [List.length_nil, Nat.add_zero, Nat.mod_eq_of_lt (Params.addr_lt _ hw)]
    · rw [List.length_nil, Params.burst_zero _ hw]
  | @call fuel w r _ ih =>
    intro hw
    have ha := Params.addr_lt _ hw
    obtain ⟨c1, c2, c3, l1, a1, a2, a3, a4, a5⟩ := flash_burst_call_traced fuel w hw
    obtain ⟨l2, b2, b3, b4, b5, b6, b7, b8⟩ := ih c1
    refine ⟨l1 ++ l2, by rw [b2, a2, List.append_assoc], a3.trans c2 c3 a4 ha b3, ?_,
      b5.trans c2, b6.trans c3, b7, ?_⟩
    · rw [b4, a4, List.length_append]; omega
    · intro hs
      obtain ⟨hp2, hrun2, hlen2⟩ := b8 hs
      obtain ⟨hp, hrun⟩ := a5 hrun2
      rw [hp, Params.burst_len _ hw] at hlen2
      refine ⟨by rw [hp2, hp, Params.burst_step _ hw, List.length_append], hrun, ?_⟩
      rw [List.length_append]
      omega
  | @pipe w v r hf hr _ ih =>
    intro hw
    have ha := Params.addr_lt _ hw
    obtain ⟨l, b2, b3, b4, b5, b6, b7, b8⟩ := ih (by rw [hf.state]; exact hw)
    rw [hf.state] at b4 b6 b8
    have t0 : FlashTraced w v [] := FlashTraced.of_same hf.hw_log hr
    have t := t0.trans hf.flash_sequence (by rw [hf.state])
      (by rw [hf.state, List.length_nil, Nat.add_zero, Nat.mod_eq_of_lt ha]) ha b3
    rw [List.nil_append] at t
    exact ⟨l, by rw [b2, hf.rx_log], t, b4, b5.trans hf.flash_sequence, b6, b7,
      fun hs => ⟨(b8 hs).1, by rw [← hf.status]; exact (b8 hs).2.1, (b8 hs).2.2⟩⟩

/-- FLASH_BURST on arrival while unlocked: the command is ready, with the start
address and the length of the header in the parameter bytes. -/
theorem fetch_flash_burst_ready (a0 a1 l0 l1 : Nat) (h0 : a0 < 256) (h1 : a1 < 256)
    (h2 : l0 < 256) (h3 : l1 < 256) (w : World) (c : Nat) (ha : Arrived w c [a0, a1, l0, l1])
    (hu : w.state.unlocked = true) (hc : c &&& CMD_MASK = CMD_FLASH_BURST) :
    (fetch_command w).state.header_valid = true ∧
    (fetch_command w).state.cmd = CMD_FLASH_BURST ∧
    (fetch_command w).state.params.wf ∧
    (fetch_command w).state.params.addr = a0 + 256 * a1 ∧
    (fetch_command w).state.params.len = l0 + 256 * l1 ∧
    (fetch_command w).hw_log = w.hw_log ∧
    (fetch_command w).rx_log = w.rx_log ++ [c, a0, a1, l0, l1] ∧
    (fetch_command w).flash_sequence = w.flash_sequence := by
  have ht : total_header_len c w.state.unlocked = ([a0, a1, l0, l1] : List Nat).length := by
    rw [hu]
    have := total_header_len_nonneg_of_table c true 4 (by rw [hc]; rfl)
    simpa using this
  obtain ⟨u, hf, hst, hrx, -, hfs, -, -, -, -, hfr⟩ :=
    fetch_arrived w c [a0, a1, l0, l1] ha ht (by simp)
  have hcmd : u.state.cmd &&& CMD_MASK = CMD_FLASH_BURST := by rw [hst]; exact hc
  have hb16 := ha.2.2.2.2.2
  have hh0 : u.hdr 0 = a0 := by
    rw [hdr_congr u _ hst 0]; exact with_header_hdr w c _ 0 hb16 (by simp) (by simp)
  have hh1 : u.hdr 1 = a1 := by
    rw [hdr_congr u _ hst 1]; exact with_header_hdr w c _ 1 hb16 (by simp) (by simp)
  have hh2 : u.hdr 2 = l0 := by
    rw [hdr_congr u _ hst 2]; exact with_header_hdr w c _ 2 hb16 (by simp) (by simp)
  have hh3 : u.hdr 3 = l1 := by
    rw [hdr_congr u _ hst 3]; exact with_header_hdr w c _ 3 hb16 (by simp) (by simp)
  rw [hf, dispatch_header_flash_burst u hcmd, hh0, hh1, hh2, hh3,
    U16_FROM_LE_BYTES_eq a0 a1 h0 h1, U16_FROM_LE_BYTES_eq l0 l1 h2 h3]
  refine ⟨?_, hcmd, ?_, ?_, ?_, hfr.hw_log, ?_, hfs⟩
  · simp [mask, World.set_params, World.set_tx_read_slice, hst, World.with_header]
  · exact ⟨Nat.mod_lt _ (by omega), Nat.mod_lt _ (by omega), Nat.mod_lt _ (by omega),
      Nat.mod_lt _ (by omega)⟩
  · show (a0 + 256 * a1) % 256 + 256 * ((a0 + 256 * a1) / 256 % 256) = _
    omega
  · show (l0 + 256 * l1) % 256 + 256 * ((l0 + 256 * l1) / 256 % 256) = _
    omega
  · show u.rx_log = _
    rw [hrx]

theorem replay_mem_spec_length (len : Nat) (mem : List Nat) :
    (replay_mem_spec len mem).length = len := by
  simp [replay_mem_spec]

theorem replay_mem_spec_getElem (len : Nat) (mem : List Nat) (j : Nat) (hj : j < len) :
    (replay_mem_spec len mem)[j]? = some (replay_mem_op mem j) := by
  simp [replay_mem_spec, hj]

/-- C12.  FLASH_BURST with start address `a` and length `L`, byte by byte and
as a whole command.  On arrival of the header the command is ready with `a`
and `L` in its parameter bytes (first clause).  In the inner loop a byte `0xff`
is consumed with no hardware operation and no bus value read, and the address
goes up by one modulo 65536 (second clause).  For any other byte `b` the
operations are, in this order: `RD` high, one write per record `0 .. len - 1`
of the stored sequence with the address, the data and the strobe of the record,
the write of `b` at the current address, `RD` low; the address goes up by one
modulo 65536; then `poll_flash_data` runs at the address written, with expected
polarity bit 7 of `b`, issuing one address-driving read and `j` further reads;
the loop goes on with the next byte when the polling settles (third clause).
Record `j` of the replay is read at offset `4 * j` from the start of the record
array, and for a stored length within the array it is record `j` of the array
(fourth clause).  For the command as a whole, however the payload is cut into
receive slices and whatever calls of `execute_cmd_flash_burst` and steps of the
pipe layer it takes: the payload bytes consumed so far have been dealt with in
the order received, by the operations just described, each at the start address
plus its index modulo 65536; while the run has not hung in a polling loop the
remaining length is `L` minus their number, and it is zero exactly when all `L`
bytes have been processed (fifth clause).  The pending-command block of
`execute_commands` is such a call, and the pipe functions are such steps (last
two clauses). -/
theorem flash_burst_byte_order (fuel n : Nat) (w : World) (hw : w.state.params.wf) :
    (∀ (v : World) (c a0 a1 l0 l1 : Nat), a0 < 256 → a1 < 256 → l0 < 256 → l1 < 256 →
      Arrived v c [a0, a1, l0, l1] → v.state.unlocked = true →
      c &&& CMD_MASK = CMD_FLASH_BURST →
      (fetch_command v).state.header_valid = true ∧
      select_operation (fetch_command v).state.cmd = .flash_burst ∧
      (fetch_command v).state.params.wf ∧
      (fetch_command v).state.params.addr = a0 + 256 * a1 ∧
      (fetch_command v).state.params.len = l0 + 256 * l1 ∧
      (fetch_command v).hw_log = v.hw_log ∧
      (fetch_command v).rx_log = v.rx_log ++ [c, a0, a1, l0, l1] ∧
      (fetch_command v).flash_sequence = v.flash_sequence) ∧
    ((w.rx_peek 1).getD 0 0 = 0xff →
      flash_burst_bytes fuel (n + 1) w = flash_burst_bytes fuel n (flash_byte_skipped w) ∧
      (flash_byte_skipped w).hw_log = w.hw_log ∧
      (flash_byte_skipped w).bus_reads = w.bus_reads ∧
      (flash_byte_skipped w).rx_log = w.rx_log ++ [0xff] ∧
      (flash_byte_skipped w).state.params.addr = (w.state.params.addr + 1) % 65536) ∧
    (∀ b, (w.rx_peek 1).getD 0 0 = b → b ≠ 0xff →
      (flash_burst_bytes fuel (n + 1) w =
        match poll_flash_data fuel (flash_byte_written w b) w.state.params.addr
          ((b &&& 0x80) != 0) with
        | (r, none) => r
        | (r, some _) => flash_burst_bytes fuel n r) ∧
      (flash_byte_written w b).hw_log = w.hw_log ++ [HwOp.rd_pin true] ++
        replay_mem_spec w.flash_sequence.len w.flash_mem ++
        [HwOp.write_byte w.state.params.addr b .a15 (write_strobe (get_bit w.state.params.b0 6)),
         HwOp.rd_pin false] ∧
      (flash_byte_written w b).bus_reads = w.bus_reads ∧
      (flash_byte_written w b).rx_log = w.rx_log ++ [b] ∧
      (flash_byte_written w b).state.params.addr = (w.state.params.addr + 1) % 65536 ∧
      ∃ j, (poll_flash_data fuel (flash_byte_written w b) w.state.params.addr
            ((b &&& 0x80) != 0)).1.hw_log =
          (flash_byte_written w b).hw_log ++
            HwOp.poll_first w.state.params.addr :: List.replicate j HwOp.poll_next ∧
        (poll_flash_data fuel (flash_byte_written w b) w.state.params.addr
            ((b &&& 0x80) != 0)).1.bus_reads = w.bus_reads + (j + 1) ∧
        (poll_flash_data fuel (flash_byte_written w b) w.state.params.addr
            ((b &&& 0x80) != 0)).1.state = (flash_byte_written w b).state) ∧
    ((replay_mem_spec w.flash_sequence.len w.flash_mem).length = w.flash_sequence.len ∧
      (∀ j, j < w.flash_sequence.len →
        (replay_mem_spec w.flash_sequence.len w.flash_mem)[j]? = some (HwOp.write_byte
          (w.flash_mem.getD (4 * j) 0 + 256 * w.flash_mem.getD (4 * j + 1) 0)
          (w.flash_mem.getD (4 * j + 2) 0) .a15
          (write_strobe (get_bit (w.flash_mem.getD (4 * j + 3) 0) 6)))) ∧
      (4 * w.flash_sequence.len ≤ w.flash_sequence.write.length →
        ∀ j, j < w.flash_sequence.len →
          (replay_mem_spec w.flash_sequence.len w.flash_mem)[j]? = some (HwOp.write_byte
            (w.flash_sequence.write.getD (4 * j) 0 +
              256 * w.flash_sequence.write.getD (4 * j + 1) 0)
            (w.flash_sequence.write.getD (4 * j + 2) 0) .a15
            (write_strobe (get_bit (w.flash_sequence.write.getD (4 * j + 3) 0) 6))))) ∧
    (∀ r : World, FlashBurstCalls w r →
      ∃ (l : List Nat) (ops : List HwOp), r.rx_log = w.rx_log ++ l ∧
        r.hw_log = w.hw_log ++ ops ∧
        FlashBurstTrace w.flash_sequence.len w.flash_mem (get_bit w.state.params.b0 6)
          w.state.params.addr l ops ∧
        r.state.params.addr = (w.state.params.addr + l.length) % 65536 ∧
        (r.status = .running →
          l.length ≤ w.state.params.len ∧
          r.state.params.len = w.state.params.len - l.length ∧
          (r.state.params.len = 0 ↔ l.length = w.state.params.len))) ∧
    (w.state.header_valid = true → select_operation w.state.cmd = .flash_burst →
      execute_pending fuel w =
        if (execute_cmd_flash_burst fuel w).2 = true then
          (clear_cmd_flags (execute_cmd_flash_burst fuel w).1, true)
        else ((execute_cmd_flash_burst fuel w).1, false)) ∧
    ((PipeFrame w (pipe_rx_acquire w) ∧ (pipe_rx_acquire w).ram_after = w.ram_after) ∧
      (PipeFrame w (pipe_tx_acquire w) ∧ (pipe_tx_acquire w).ram_after = w.ram_after) ∧
      (PipeFrame w (pipe_tx_flush w) ∧ (pipe_tx_flush w).ram_after = w.ram_after)) := by
  have ha := Params.addr_lt _ hw
  refine ⟨?_, ?_, ?_, ⟨replay_mem_spec_length _ _, fun j hj => replay_mem_spec_getElem _ _ j hj,
    ?_⟩, ?_, fun hv ho => execute_pending_operation fuel w _ hv ho,
    ⟨pipe_rx_acquire_frame w, pipe_rx_acquire_ram w⟩,
    ⟨pipe_tx_acquire_frame w, pipe_tx_acquire_ram w⟩,
    ⟨pipe_tx_flush_frame w, pipe_tx_flush_ram w⟩⟩
  · intro v c a0 a1 l0 l1 h0 h1 h2 h3 harr hu hc
    obtain ⟨b1, b2, b3, b4, b5, b6, b7, b8⟩ :=
      fetch_flash_burst_ready a0 a1 l0 l1 h0 h1 h2 h3 v c harr hu hc
    exact ⟨b1, by rw [b2]; rfl, b3, b4, b5, b6, b7, b8⟩
  · intro hd
    have hs := flash_byte_skipped_step w hd
    refine ⟨by rw [flash_burst_bytes_succ, if_pos hd], rfl, rfl, hs.rx_log, ?_⟩
    rw [hs.state]
    exact Params.set_addr_addr _ _ (Nat.mod_lt _ (by omega))
  · intro b hpb hd
    obtain ⟨o, he⟩ := flash_byte_written_mem w b
    have hp : w.rx_peek 1 = [b] := by
      have := rx_peek_succ w 0
      rw [rx_peek_zero, hpb] at this
      exact this
    refine ⟨?_, ?_, ?_, ?_, ?_, ?_⟩
    · rw [flash_burst_bytes_succ, hpb, if_neg hd]
      rfl
    · rw [he]
      simp [List.append_assoc]
    · rw [he]; rfl
    · rw [he]
      show w.rx_log ++ w.rx_peek 1 = _
      rw [hp]
    · rw [he]
      exact Params.set_addr_addr _ _ (Nat.mod_lt _ (by omega))
    · obtain ⟨j, hj⟩ := poll_flash_data_frame fuel (flash_byte_written w b) w.state.params.addr
        ((b &&& 0x80) != 0)
      refine ⟨j, by rw [hj], ?_, by rw [hj]⟩
      rw [hj, he]
      rfl
  · intro hb j hj
    have hin : w.flash_sequence.in_bounds := hb
    have e := replay_mem_spec_in_bounds w.flash_sequence w.ram_after hin
    show (replay_mem_spec w.flash_sequence.len (w.flash_sequence.write ++ w.ram_after))[j]? = _
    rw [e]
    exact replay_spec_getElem _ j hj
  · intro r hc
    obtain ⟨l, b2, ⟨-, ops, e, t⟩, b4, -, -, -, b8⟩ := flash_burst_calls_traced hc hw
    refine ⟨l, ops, b2, e, t, b4, fun hs => ?_⟩
    obtain ⟨hp, -, hle⟩ := b8 hs
    have hlen : r.state.params.len = w.state.params.len - l.length := by
      rw [hp]; exact Params.burst_len _ hw _
    exact ⟨hle, hlen, by rw [hlen]; omega⟩

/-- C12 at concrete inputs: FLASH_BURST of the two bytes `0xff 0x80` at
`0xffff`, with one stored record.  The byte `0xff` is skipped, the address wraps
to 0, and the byte `0x80` is written there after the stored record, followed by
the polling at address 0; the same holds when the second byte comes in a packet
of its own and the command takes two calls. -/
theorem flash_burst_byte_order_witness :
    (World.fb_whole.state.params.wf ∧
      (World.fb_whole.rx_peek 1).getD 0 0 = 0xff ∧
      ((flash_byte_skipped World.fb_whole).rx_peek 1).getD 0 0 = 0x80 ∧
      World.fb_whole.state.params.addr = 0xffff ∧ World.fb_whole.state.params.len = 2 ∧
      (execute_cmd_flash_burst 8 World.fb_whole).1.status = .running ∧
      (execute_cmd_flash_burst 8 (execute_cmd_flash_burst 8 World.fb_split).1).1.status =
        .running) ∧
    (flash_burst_bytes 8 2 World.fb_whole =
        flash_burst_bytes 8 1 (flash_byte_skipped World.fb_whole) ∧
      (flash_byte_skipped World.fb_whole).hw_log = World.fb_whole.hw_log ∧
      (flash_byte_skipped World.fb_whole).state.params.addr = 0) ∧
    (flash_byte_written (flash_byte_skipped World.fb_whole) 0x80).hw_log =
      World.fb_whole.hw_log ++ [HwOp.rd_pin true, HwOp.write_byte 0x0aaa 0xa0 .a15 .vin,
        HwOp.write_byte 0 0x80 .a15 .wr, HwOp.rd_pin false] ∧
    (∃ (l : List Nat) (ops : List HwOp),
      (execute_cmd_flash_burst 8 World.fb_whole).1.rx_log = World.fb_whole.rx_log ++ l ∧
      (execute_cmd_flash_burst 8 World.fb_whole).1.hw_log = World.fb_whole.hw_log ++ ops ∧
      FlashBurstTrace World.fb_whole.flash_sequence.len World.fb_whole.flash_mem
        (get_bit World.fb_whole.state.params.b0 6) World.fb_whole.state.params.addr l ops ∧
      l.length = World.fb_whole.state.params.len) ∧
    (∃ (l : List Nat) (ops : List HwOp),
      (execute_cmd_flash_burst 8 (execute_cmd_flash_burst 8 World.fb_split).1).1.rx_log =
        World.fb_split.rx_log ++ l ∧
      (execute_cmd_flash_burst 8 (execute_cmd_flash_burst 8 World.fb_split).1).1.hw_log =
        World.fb_split.hw_log ++ ops ∧
      FlashBurstTrace World.fb_split.flash_sequence.len World.fb_split.flash_mem
        (get_bit World.fb_split.state.params.b0 6) World.fb_split.state.params.addr l ops ∧
      l.length = World.fb_split.state.params.len) ∧
    (execute_cmd_flash_burst 8 World.fb_whole).1.rx_log =
      World.fb_whole.rx_log ++ [0xff, 0x80] ∧
    (execute_cmd_flash_burst 8 World.fb_whole).1.hw_log =
      World.fb_whole.hw_log ++ [HwOp.rd_pin true, HwOp.write_byte 0x0aaa 0xa0 .a15 .vin,
        HwOp.write_byte 0 0x80 .a15 .wr, HwOp.rd_pin false, HwOp.poll_first 0, HwOp.poll_next] ∧
    (execute_cmd_flash_burst 8 (execute_cmd_flash_burst 8 World.fb_split).1).1.hw_log =
      World.fb_split.hw_log ++ [HwOp.rd_pin true, HwOp.write_byte 0x0aaa 0xa0 .a15 .vin,
        HwOp.write_byte 0 0x80 .a15 .wr, HwOp.rd_pin false, HwOp.poll_first 0, HwOp.poll_next] :=
  have a1 : World.fb_whole.state.params.wf := by decide
  have a2 : (World.fb_whole.rx_peek 1).getD 0 0 = 0xff := by decide
  have a3 : ((flash_byte_skipped World.fb_whole).rx_peek 1).getD 0 0 = 0x80 := by decide
  have a4 : (execute_cmd_flash_burst 8 World.fb_whole).1.status = .running := by decide
  have a5 : (execute_cmd_flash_burst 8 (execute_cmd_flash_burst 8 World.fb_split).1).1.status =
      .running := by decide
  have a6 : (execute_cmd_flash_burst 8 World.fb_whole).1.state.params.len = 0 := by decide
  have a7 : (execute_cmd_flash_burst 8 (execute_cmd_flash_burst 8 World.fb_split).1).1.state.params.len
      = 0 := by decide
  have h := flash_burst_byte_order 8 1 World.fb_whole a1
  have g := flash_burst_byte_order 8 0 (flash_byte_skipped World.fb_whole) (by decide)
  have k := flash_burst_byte_order 8 0 World.fb_split (by decide)
  have h1 := h.2.1 a2
  have g2 := g.2.2.1 0x80 a3 (by decide)
  have h5 := h.2.2.2.2.1 _ (.call 8 (.here _))
  have k5 := k.2.2.2.2.1 _ (.call 8 (.call 8 (.here _)))
  ⟨⟨a1, a2, a3, by decide, by decide, a4, a5⟩, ⟨h1.1, h1.2.1, by decide⟩,
    g2.2.1.trans (by decide),
    h5.elim fun l hl => hl.elim fun ops ho =>
      ⟨l, ops, ho.1, ho.2.1, ho.2.2.1, ((ho.2.2.2.2 a4).2.2.1 a6)⟩,
    k5.elim fun l hl => hl.elim fun ops ho =>
      ⟨l, ops, ho.1, ho.2.1, ho.2.2.1, ((ho.2.2.2.2 a5).2.2.1 a7)⟩,
    by decide, by decide, by decide⟩

end GbCartpp
